import Mathlib

/-!
The dp8390 Ethernet driver engine (`src/kernel/dp8390.c`)

A shallow embedding of the chip-independent driver: the send queue, the
receive walk over the card's ring, the scatter-list cursor and the transfer
functions, followed by theorems about them.

Conventions of the embedding.

* A C function `f(dep, ...)` becomes a Lean function on `Sys`, the pair of the
  `de_table` entry it works on (`dpeth`) and everything outside the table
  (`Io`: chip registers, card memory, client memory, the log of writes and of
  messages sent).  The transfer functions only receive the `Io` part and the
  scatter-list descriptor they are handed.
* `panic(...)` and a failing `assert(...)` end the run: the result is
  `Res.halt h s`, with `s` the state at that moment.  This is `assert` as
  `kernel/assert.h` defines it with `DEBUG` set; the section on the build
  without `DEBUG` has the handlers with `assert` expanded to nothing.
* Reads of volatile chip registers return the next value of a read queue kept
  in `Io`; writes are appended to `Io.out`.
* Constants, bit masks and type sizes that are declared in headers which are
  not part of the sources (`dp8390.h`, `<net/gen/ether.h>`, `<minix/com.h>`)
  are the fields of `Hdr`, a parameter of every definition.
-/

namespace Dp8390

/-! ## Header constants -/

/-- Constants of the headers the driver includes (`dp8390.h`, `com.h`, type sizes).
They are parameters of the embedding. -/
structure Hdr where
  DP_PAGESIZE : Nat
  IOVEC_NR : Nat
  SENDQ_NR : Nat
  SENDQ_PAGES : Nat
  /-- Parameter `sizeof(iovec_t)`. -/
  SIZEOF_IOVEC : Nat
  /-- Parameter `sizeof(eth_stat_t)`. -/
  SIZEOF_ETH_STAT : Nat
  /-- Parameter `UINT_MAX + 1`: arithmetic on `unsigned` and `vir_bytes` is modulo this. -/
  UINT_MOD : Nat
  /-- Parameter `ULONG_MAX + 1`: the counters of `eth_stat_t` are `unsigned long`
  and count modulo this. -/
  ULONG_MOD : Nat
  CR_STP : Nat
  CR_STA : Nat
  CR_TXP : Nat
  CR_DM_ABORT : Nat
  CR_DM_RR : Nat
  CR_DM_RW : Nat
  CR_PS_P0 : Nat
  CR_PS_P1 : Nat
  ISR_PRX : Nat
  ISR_PTX : Nat
  ISR_RXE : Nat
  ISR_TXE : Nat
  ISR_OVW : Nat
  ISR_CNT : Nat
  ISR_RDC : Nat
  ISR_RST : Nat
  TSR_PTX : Nat
  TSR_DFR : Nat
  TSR_COL : Nat
  TSR_ABT : Nat
  TSR_CRS : Nat
  TSR_FU : Nat
  TSR_CDH : Nat
  TSR_OWC : Nat
  RSR_PRX : Nat
  RSR_PHY : Nat
  RCR_MON : Nat
  RCR_AB : Nat
  RCR_AM : Nat
  RCR_PRO : Nat
  TCR_NORMAL : Nat
  TCR_1EXTERNAL : Nat
  TCR_OFST : Nat
  DCR_WORDWIDE : Nat
  DCR_BYTEWIDE : Nat
  DCR_8BYTES : Nat
  DCR_BMS : Nat
  IMR_PRXE : Nat
  IMR_PTXE : Nat
  IMR_RXEE : Nat
  IMR_TXEE : Nat
  IMR_OVWE : Nat
  IMR_CNTE : Nat
  DL_PROMISC_REQ : Nat
  DL_MULTI_REQ : Nat
  DL_BROAD_REQ : Nat
  DL_PACK_SEND : Nat
  DL_PACK_RECV : Nat
  DEI_DEFAULT : Nat
  /-- Constant `ENXIO` of `<errno.h>`. -/
  ENXIO : Int
  /-- Constant `NR_IRQ_VECTORS`. -/
  NR_IRQ_VECTORS : Nat
  /-- The value of `debug`, which the sources test and which is declared in a
  header; it only matters in `assert(!debug)` and for what is printed. -/
  debug : Bool

/-- Modelled from the spec: `ETH_MIN_PACK_SIZE` of `<net/gen/ether.h>`, the
`minFrameSize` of the spec (60, the bound `dp_recv` itself spells out). -/
def ETH_MIN_PACK_SIZE : Int := 60

/-- Modelled from the spec: `ETH_MAX_PACK_SIZE` of `<net/gen/ether.h>`, the
`maxFrameSize` of the spec (1514, the bound `dp_recv` itself spells out). -/
def ETH_MAX_PACK_SIZE : Int := 1514

/-- Modelled from the spec: `sizeof(dp_rcvhdr_t)`; the frame header of
`dp8390.h` is the four bytes status, next page, byte count low, byte count high. -/
def SIZEOF_RCVHDR : Nat := 4

/-- Size of `ether_addr_t`, six bytes (`ea_addr[0..5]` in `do_init`). -/
def SIZEOF_ETHER_ADDR : Nat := 6

/-- Number of ports, `#define DE_PORT_NR 2`. -/
def DE_PORT_NR : Int := 2

/-- The test `x & mask` of C, as a truth value. -/
def bit (x mask : Nat) : Bool := (x &&& mask) != 0

/-- Subtraction on `unsigned` / `vir_bytes`: modulo `UINT_MOD`. -/
def usub (K : Hdr) (a b : Nat) : Nat := (a + K.UINT_MOD - b % K.UINT_MOD) % K.UINT_MOD

/-- Addition on `unsigned long`, the type of the counters of `eth_stat_t`:
modulo `ULONG_MOD`. -/
def uladd (K : Hdr) (a b : Nat) : Nat := (a + b) % K.ULONG_MOD

/-- Conversion of an `unsigned` bit pattern to `int` (two's complement). -/
def to_int (K : Hdr) (u : Nat) : Int :=
  if 2 * (u % K.UINT_MOD) < K.UINT_MOD then ((u % K.UINT_MOD : Nat) : Int)
  else ((u % K.UINT_MOD : Nat) : Int) - (K.UINT_MOD : Int)

/-- Conversion of an `int` to `unsigned` / `vir_bytes`. -/
def to_uint (K : Hdr) (x : Int) : Nat := (x % (K.UINT_MOD : Int)).toNat

/-! ## Data model -/

/-- Values of `de_mode`. -/
inductive Mode where
  | DEM_DISABLED
  | DEM_SINK
  | DEM_ENABLED
deriving DecidableEq, Repr

/-- The bitset `de_flags`, one field per `DEF_*` bit; `DEF_EMPTY` is all clear. -/
structure Flags where
  DEF_PACK_SEND : Bool
  DEF_PACK_RECV : Bool
  DEF_SEND_AVAIL : Bool
  DEF_READING : Bool
  DEF_PROMISC : Bool
  DEF_MULTI : Bool
  DEF_BROAD : Bool
  DEF_ENABLED : Bool
  DEF_STOPPED : Bool
deriving DecidableEq, Repr

/-- The value `DEF_EMPTY`. -/
def DEF_EMPTY : Flags :=
  { DEF_PACK_SEND := false, DEF_PACK_RECV := false, DEF_SEND_AVAIL := false,
    DEF_READING := false, DEF_PROMISC := false, DEF_MULTI := false,
    DEF_BROAD := false, DEF_ENABLED := false, DEF_STOPPED := false }

/-- One entry of `de_sendq`. -/
structure sendq where
  sq_filled : Bool
  sq_size : Nat
  sq_sendpage : Nat
deriving DecidableEq, Repr

/-- One segment of a scatter list, `iovec_t`. -/
structure iovec where
  iov_addr : Nat
  iov_size : Nat
deriving DecidableEq, Repr

/-- The scatter-list descriptor `iovec_dat_t`: the owning process, the number of
segments not yet passed, the local window `iod_iovec[IOVEC_NR]` and the client
address of the first segment of the window. -/
structure iovec_dat where
  iod_iovec : List iovec
  iod_iovec_s : Int
  iod_proc_nr : Int
  iod_iovec_addr : Nat
deriving DecidableEq, Repr

/-- The statistics `eth_stat_t`. -/
structure eth_stat where
  ets_recvErr : Nat
  ets_sendErr : Nat
  ets_OVW : Nat
  ets_CRCerr : Nat
  ets_frameAll : Nat
  ets_missedP : Nat
  ets_packetR : Nat
  ets_packetT : Nat
  ets_transDef : Nat
  ets_collision : Nat
  ets_transAb : Nat
  ets_carrSense : Nat
  ets_fifoUnder : Nat
  ets_fifoOver : Nat
  ets_CDheartbeat : Nat
  ets_OWC : Nat
deriving DecidableEq, Repr

/-- The value `empty_stat` of `conf_hw`. -/
def empty_stat : eth_stat :=
  { ets_recvErr := 0, ets_sendErr := 0, ets_OVW := 0, ets_CRCerr := 0,
    ets_frameAll := 0, ets_missedP := 0, ets_packetR := 0, ets_packetT := 0,
    ets_transDef := 0, ets_collision := 0, ets_transAb := 0, ets_carrSense := 0,
    ets_fifoUnder := 0, ets_fifoOver := 0, ets_CDheartbeat := 0, ets_OWC := 0 }

/-- Request types of the message header. -/
inductive MType where
  | DL_WRITE
  | DL_WRITEV
  | DL_READ
  | DL_READV
  | DL_INIT
  | DL_GETSTAT
  | DL_STOP
  | HARD_INT
  | other (n : Int)
deriving DecidableEq, Repr

/-- A request message, with the fields the driver reads. -/
structure message where
  m_source : Int
  m_type : MType
  DL_PORT : Int
  DL_PROC : Int
  DL_COUNT : Int
  DL_MODE : Nat
  DL_ADDR : Nat
deriving DecidableEq, Repr

/-- The function a transfer pointer of the port holds. -/
inductive Xfer where
  | shm
  | pio8
  | pio16
deriving DecidableEq, Repr

/-- One entry of `de_table`, `dpeth_t`. -/
structure dpeth where
  de_mode : Mode
  de_flags : Flags
  de_client : Int
  de_sendq : Nat → sendq
  de_sendq_nr : Nat
  de_sendq_head : Nat
  de_sendq_tail : Nat
  de_sendmsg : message
  de_write_iovec : iovec_dat
  de_read_iovec : iovec_dat
  de_tmp_iovec : iovec_dat
  de_read_s : Nat
  de_stat : eth_stat
  de_address : List Nat
  de_startpage : Nat
  de_stoppage : Nat
  de_16bit : Bool
  de_prog_IO : Bool
  de_linmem : Nat
  de_ramsize : Nat
  de_base_port : Nat
  de_irq : Nat
  de_user2nicf : Xfer
  de_nic2userf : Xfer
  de_getblockf : Xfer

/-- Registers of the chip that the driver names. -/
inductive Reg where
  | DP_CR
  | DP_IMR
  | DP_PSTART
  | DP_PSTOP
  | DP_BNRY
  | DP_RCR
  | DP_TCR
  | DP_DCR
  | DP_RBCR0
  | DP_RBCR1
  | DP_RSAR0
  | DP_RSAR1
  | DP_ISR
  | DP_TPSR
  | DP_TBCR0
  | DP_TBCR1
  | DP_PAR (i : Nat)
  | DP_MAR (i : Nat)
  | DP_CURR
deriving DecidableEq, Repr

/-- A message the driver sends. -/
inductive Sent where
  /-- The `DL_TASK_REPLY` of `reply`: port is implicit, then `DL_PROC`, the
  status bits, the error code, `DL_COUNT` and `DL_CLCK`. -/
  | task_reply (dst : Int) (proc : Int) (pack_send pack_recv : Bool) (err : Int)
      (count : Nat) (clck : Nat)
  /-- The `DL_INIT_REPLY` of `do_init`: `m3_i1`, and for a success `m3_i2` and the address. -/
  | init_reply (dst : Int) (m3_i1 : Int) (m3_i2 : Option Int) (addr : Option (List Nat))
deriving DecidableEq, Repr

/-- What the driver does to the outside, in the order it happens. -/
inductive Ev where
  /-- Event `outb_reg0(dep, reg, v)`. -/
  | outb0 (reg : Reg) (v : Int)
  /-- Event `outb_reg1(dep, reg, v)`. -/
  | outb1 (reg : Reg) (v : Int)
  /-- A call through `de_user2nicf` with its `offset`, `nic_addr` and `count`. -/
  | user2nic (f : Xfer) (iovp : iovec_dat) (offset nic_addr count : Nat)
  /-- A call through `de_nic2userf` with its `nic_addr`, `offset` and `count`. -/
  | nic2user (f : Xfer) (nic_addr : Nat) (iovp : iovec_dat) (offset count : Nat)
  /-- Bytes written to the data port by `port_write_byte` or `port_write`. -/
  | data_out (bytes : List Nat)
  /-- A word written to the data port by `out_word`: low byte, high byte. -/
  | data_out_word (lo hi : Nat)
  /-- A message handed to `send`. -/
  | send (m : Sent)
  /-- The statistics copied to the client by `put_userdata`. -/
  | put_stat (proc : Int) (addr : Nat) (st : eth_stat)
  /-- The call of the card hook `de_initf`. -/
  | initf
  /-- The call of the card hook `de_stopf`. -/
  | stopf
  /-- The calls `put_irq_handler(irq, dp_handler); enable_irq(irq)`. -/
  | irq_on (irq : Nat)
deriving DecidableEq, Repr

/-- Everything outside `de_table`. -/
structure Io where
  /-- Values the coming reads of `DP_ISR` return; 0 once the queue is empty. -/
  isr : List Nat
  /-- Values the coming reads of `DP_TSR` return; 0 once the queue is empty. -/
  tsr : List Nat
  /-- Values the coming reads of `DP_CNTR0` return. -/
  cntr0 : List Nat
  /-- Values the coming reads of `DP_CNTR1` return. -/
  cntr1 : List Nat
  /-- Values the coming reads of `DP_CNTR2` return. -/
  cntr2 : List Nat
  /-- The value of `DP_CURR`, the page the chip writes next. -/
  curr : Nat
  /-- Values `DP_CURR` takes before each of the coming reads; once the queue is
  empty the register keeps its value. -/
  curr_next : List Nat
  /-- The boundary register; it reads back the byte last written. -/
  bnry : Nat
  /-- Bytes the coming reads of the data port return. -/
  data : List Nat
  /-- The card memory seen through the shared-memory window, by card offset. -/
  mem : Nat → Nat
  /-- Client memory: the byte at an address of a process. -/
  ubyte : Int → Nat → Nat
  /-- Client memory: the `iovec_t` stored at an address of a process.  It is
  kept apart from the bytes: a store into `ubyte` leaves it as it is, as in the
  code when the bytes stored do not lie in a scatter list that is read later. -/
  uiov : Int → Nat → iovec
  /-- Log of everything done to the outside, oldest first. -/
  out : List Ev

/-- The state an operation on one port works on. -/
structure Sys where
  dep : dpeth
  io : Io

/-- Reasons for which a run ends early. -/
inductive Halt where
  | illegal_port
  | send_in_progress
  | should_not_be_sending
  | invalid_packet_size
  | read_in_progress
  | wrong_packet_size
  | wrong_type
  | premature_interrupt
  | umap_failed
  | remote_dma_failed
  | send_failed
  | unable_to_mess_reply
  | env_parse
  | illegal_message
  /-- A copy of more bytes than the window `iod_iovec[IOVEC_NR]` holds: the code
  writes over what follows the window in the port entry; what it does from
  there on is not defined. -/
  | overrun
  /-- A failing `assert`. -/
  | assertion
  /-- The step budget of a loop of the embedding ran out (not a behaviour of the code). -/
  | no_fuel
deriving DecidableEq, Repr

/-- Result of running a piece of driver code from a state: it returns a value
in a new state, or the system halts in a state. -/
inductive Res (σ : Type) (α : Type) where
  | ok (a : α) (s : σ)
  | halt (h : Halt) (s : σ)

/-- The state a run ends in, returned or halted. -/
def Res.state {σ α : Type} : Res σ α → σ
  | Res.ok _ s => s
  | Res.halt _ s => s

/-- Whether the run returned. -/
def Res.isOk {σ α : Type} : Res σ α → Bool
  | Res.ok _ _ => true
  | Res.halt _ _ => false

/-- What a successful probe (`ne1k_probe` and its siblings) stores in the port entry. -/
structure Card where
  de_16bit : Bool
  de_prog_IO : Bool
  de_linmem : Nat

/-- What the card hook `de_initf` (`ne1k_init` and its siblings) stores in the port entry. -/
structure CardInit where
  de_address : List Nat
  de_ramsize : Nat
  de_sendq_nr : Nat
  sq_sendpage : Nat → Nat
  de_startpage : Nat
  de_stoppage : Nat
  de_irq : Nat

/-- Behaviour of the collaborators the driver calls: address translation, the
message transport, the clock, the boot environment and the card module. -/
structure Env where
  /-- Whether `numap(proc, addr, bytes)` resolves (returns non-zero). -/
  numap : Int → Nat → Nat → Bool
  /-- The value `send` returns. -/
  send_r : Int
  /-- The value `get_uptime()` returns. -/
  uptime : Nat
  /-- For `dp_confaddr`: the byte `env_parse` sets for index `i` of the
  address variable, or `none` when it does not return `EP_SET`. -/
  ea_env : Nat → Option Nat
  /-- For `update_conf`: the mode the boot environment selects. -/
  conf_mode : Mode
  /-- For `update_conf`: base port, irq, memory address and ram size. -/
  conf_port : Nat
  conf_irq : Nat
  conf_mem : Nat
  conf_ramsize : Nat
  /-- The probes of `conf_hw`: `none` when no card answers, else what the
  successful probe stores in the port entry. -/
  probe : dpeth → Io → Option Card × Io
  /-- The card hook `de_initf`: what it stores in the port entry. -/
  initf : dpeth → Io → CardInit × Io
  /-- The card hook `de_stopf`. -/
  stopf : Io → Io
  /-- The value of `eth_ign_proto`. -/
  eth_ign_proto : Nat

/-! ## Port and memory primitives -/

/-- The macro `outb_reg0(dep, reg, v)`: the write is logged; the boundary
register keeps the byte written. -/
def outb_reg0 (reg : Reg) (v : Int) (io : Io) : Io :=
  match reg with
  | Reg.DP_BNRY => { io with out := io.out ++ [Ev.outb0 reg v], bnry := (v % 256).toNat }
  | _ => { io with out := io.out ++ [Ev.outb0 reg v] }

/-- The macro `outb_reg1(dep, reg, v)`: the write is logged; the current-page
register keeps the byte written. -/
def outb_reg1 (reg : Reg) (v : Int) (io : Io) : Io :=
  match reg with
  | Reg.DP_CURR => { io with out := io.out ++ [Ev.outb1 reg v], curr := (v % 256).toNat }
  | _ => { io with out := io.out ++ [Ev.outb1 reg v] }

/-- The read `inb_reg0(dep, DP_ISR)`. -/
def inb_isr (io : Io) : Nat × Io := (io.isr.headD 0, { io with isr := io.isr.tail })

/-- The read `inb_reg0(dep, DP_TSR)`. -/
def inb_tsr (io : Io) : Nat × Io := (io.tsr.headD 0, { io with tsr := io.tsr.tail })

/-- The read `inb_reg0(dep, DP_CNTR0)`. -/
def inb_cntr0 (io : Io) : Nat × Io := (io.cntr0.headD 0, { io with cntr0 := io.cntr0.tail })

/-- The read `inb_reg0(dep, DP_CNTR1)`. -/
def inb_cntr1 (io : Io) : Nat × Io := (io.cntr1.headD 0, { io with cntr1 := io.cntr1.tail })

/-- The read `inb_reg0(dep, DP_CNTR2)`. -/
def inb_cntr2 (io : Io) : Nat × Io := (io.cntr2.headD 0, { io with cntr2 := io.cntr2.tail })

/-- The read `inb_reg1(dep, DP_CURR)`. -/
def inb_curr (io : Io) : Nat × Io :=
  match io.curr_next with
  | [] => (io.curr, io)
  | c :: cs => (c, { io with curr := c, curr_next := cs })

/-- The read `inb_reg0(dep, DP_BNRY)`. -/
def inb_bnry (io : Io) : Nat := io.bnry

/-- The next `n` bytes of the data port (`rep_inb`, `rep_inw`, `port_read_byte`,
`port_read`, `in_word`). -/
def data_in (n : Nat) (io : Io) : List Nat × Io :=
  ((List.range n).map (fun j => io.data.getD j 0), { io with data := io.data.drop n })

/-- A polling loop `for (i= 0; i < n && (inb_reg0(dep, DP_ISR) & mask) == 0; i++);`,
also in the form with `break`: it returns whether the bit was seen. -/
def poll_isr (mask : Nat) : Nat → Io → Bool × Io
  | 0, io => (false, io)
  | n + 1, io =>
    if bit (inb_isr io).1 mask then (true, (inb_isr io).2)
    else poll_isr mask n (inb_isr io).2

/-- The `n` bytes of client memory of process `proc` from address `addr`. -/
def user_bytes (io : Io) (proc : Int) (addr n : Nat) : List Nat :=
  (List.range n).map (fun j => io.ubyte proc (addr + j))

/-- Store `bs` into the client memory of process `proc` from address `addr`. -/
def store_user (proc : Int) (addr : Nat) (bs : List Nat) (io : Io) : Io :=
  { io with ubyte := fun p a =>
      if p = proc ∧ addr ≤ a ∧ a < addr + bs.length then bs.getD (a - addr) 0
      else io.ubyte p a }

/-- The `n` bytes of card memory from card offset `a`. -/
def card_bytes (io : Io) (a n : Nat) : List Nat :=
  (List.range n).map (fun j => io.mem (a + j))

/-- Store `bs` into the card memory from card offset `a`. -/
def store_card (a : Nat) (bs : List Nat) (io : Io) : Io :=
  { io with mem := fun x =>
      if a ≤ x ∧ x < a + bs.length then bs.getD (x - a) 0 else io.mem x }

/-- The entry `iod_iovec[i]` of the window. -/
def iovec_dat.at (iovp : iovec_dat) (i : Nat) : iovec :=
  iovp.iod_iovec.getD i { iov_addr := 0, iov_size := 0 }

/-- The function `get_userdata(proc, addr, n * sizeof(iovec_t), window)` as the
driver uses it: `numap` must resolve the range, then the first entries of the
window are overwritten with the `iovec_t` values stored from `addr` on.  The
byte count is a `vir_bytes`, so a negative `n` gives a count near `UINT_MOD`;
a count above the size of the window `iod_iovec[IOVEC_NR]` makes the copy run
over its end, which ends the run of the embedding. -/
def get_userdata (K : Hdr) (E : Env) (proc : Int) (addr : Nat) (n : Int)
    (window : List iovec) (io : Io) : Res Io (List iovec) :=
  let bytes := to_uint K (n * (K.SIZEOF_IOVEC : Int))
  if E.numap proc addr bytes then
    if bytes > K.IOVEC_NR * K.SIZEOF_IOVEC then Res.halt Halt.overrun io
    else
      let cnt := bytes / K.SIZEOF_IOVEC
      Res.ok ((List.range cnt).map (fun j => io.uiov proc (addr + j * K.SIZEOF_IOVEC))
        ++ window.drop cnt) io
  else Res.halt Halt.umap_failed io

/-- The function `dp_next_iovec`. -/
def dp_next_iovec (K : Hdr) (E : Env) (iovp : iovec_dat) (io : Io) : Res Io iovec_dat :=
  if iovp.iod_iovec_s > (K.IOVEC_NR : Int) then
    let s := iovp.iod_iovec_s - (K.IOVEC_NR : Int)
    let addr := iovp.iod_iovec_addr + K.IOVEC_NR * K.SIZEOF_IOVEC
    match get_userdata K E iovp.iod_proc_nr addr
        (if s > (K.IOVEC_NR : Int) then (K.IOVEC_NR : Int) else s) iovp.iod_iovec io with
    | Res.ok w io1 =>
      Res.ok { iovp with iod_iovec := w, iod_iovec_s := s, iod_iovec_addr := addr } io1
    | Res.halt h io1 => Res.halt h io1
  else Res.halt Halt.assertion io

/-- The loop of `calc_iovec_size` with a step budget: `size` and `i` are the locals. -/
def calc_iovec_size_loop (K : Hdr) (E : Env) :
    Nat → Int → Nat → iovec_dat → Io → Res Io (Int × iovec_dat)
  | 0, _, _, _, io => Res.halt Halt.no_fuel io
  | fuel + 1, size, i, iovp, io =>
    if (i : Int) < iovp.iod_iovec_s then
      if i ≥ K.IOVEC_NR then
        match dp_next_iovec K E iovp io with
        | Res.ok iovp1 io1 => calc_iovec_size_loop K E fuel size 0 iovp1 io1
        | Res.halt h io1 => Res.halt h io1
      else
        calc_iovec_size_loop K E fuel
          (to_int K (to_uint K size + (iovp.at i).iov_size)) (i + 1) iovp io
    else Res.ok (size, iovp) io

/-- The function `calc_iovec_size`: it returns the size and the descriptor as the walk leaves it. -/
def calc_iovec_size (K : Hdr) (E : Env) (iovp : iovec_dat) (io : Io) :
    Res Io (Int × iovec_dat) :=
  calc_iovec_size_loop K E (2 * iovp.iod_iovec_s.toNat + 2) 0 0 iovp io

/-! ## The transfer functions

Each of them walks the window of the descriptor with the locals `i`, `offset`
and `count` of the C loop; the arithmetic on these locals is done on natural
numbers.  The step budget of the wrappers covers one step per byte, two per
segment and the final test. -/

/-- The loop of `dp_user2nic`; `a` is `phys_hw` as a card offset. -/
def dp_user2nic_loop (K : Hdr) (E : Env) :
    Nat → iovec_dat → Nat → Nat → Nat → Nat → Io → Res Io iovec_dat
  | 0, _, _, _, _, _, io => Res.halt Halt.no_fuel io
  | fuel + 1, iovp, i, offset, a, count, io =>
    if count > 0 then
      if i ≥ K.IOVEC_NR then
        match dp_next_iovec K E iovp io with
        | Res.ok iovp1 io1 => dp_user2nic_loop K E fuel iovp1 0 offset a count io1
        | Res.halt h io1 => Res.halt h io1
      else if ¬ ((i : Int) < iovp.iod_iovec_s) then Res.halt Halt.assertion io
      else if offset ≥ (iovp.at i).iov_size then
        dp_user2nic_loop K E fuel iovp (i + 1) (offset - (iovp.at i).iov_size) a count io
      else
        let bytes := min ((iovp.at i).iov_size - offset) count
        if E.numap iovp.iod_proc_nr ((iovp.at i).iov_addr + offset) bytes then
          dp_user2nic_loop K E fuel iovp i (offset + bytes) (a + bytes) (count - bytes)
            (store_card a
              (user_bytes io iovp.iod_proc_nr ((iovp.at i).iov_addr + offset) bytes) io)
        else Res.halt Halt.umap_failed io
    else Res.ok iovp io

/-- The function `dp_user2nic` (shared memory): it returns the descriptor as the walk leaves it. -/
def dp_user2nic (K : Hdr) (E : Env) (iovp : iovec_dat) (offset nic_addr count : Nat)
    (io : Io) : Res Io iovec_dat :=
  dp_user2nic_loop K E (count + 2 * iovp.iod_iovec_s.toNat + 2) iovp 0 offset nic_addr count io

/-- The loop of `dp_pio8_user2nic`. -/
def dp_pio8_user2nic_loop (K : Hdr) (E : Env) :
    Nat → iovec_dat → Nat → Nat → Nat → Io → Res Io iovec_dat
  | 0, _, _, _, _, io => Res.halt Halt.no_fuel io
  | fuel + 1, iovp, i, offset, count, io =>
    if count > 0 then
      if i ≥ K.IOVEC_NR then
        match dp_next_iovec K E iovp io with
        | Res.ok iovp1 io1 => dp_pio8_user2nic_loop K E fuel iovp1 0 offset count io1
        | Res.halt h io1 => Res.halt h io1
      else if ¬ ((i : Int) < iovp.iod_iovec_s) then Res.halt Halt.assertion io
      else if offset ≥ (iovp.at i).iov_size then
        dp_pio8_user2nic_loop K E fuel iovp (i + 1) (offset - (iovp.at i).iov_size) count io
      else
        let bytes := min ((iovp.at i).iov_size - offset) count
        if E.numap iovp.iod_proc_nr ((iovp.at i).iov_addr + offset) bytes then
          dp_pio8_user2nic_loop K E fuel iovp i (offset + bytes) (count - bytes)
            { io with out := io.out ++ [Ev.data_out
                (user_bytes io iovp.iod_proc_nr ((iovp.at i).iov_addr + offset) bytes)] }
        else Res.halt Halt.umap_failed io
    else Res.ok iovp io

/-- The registers a remote DMA is set up with: byte count, card address, command. -/
def remote_dma (K : Hdr) (cmd : Nat) (nic_addr count : Nat) (io : Io) : Io :=
  outb_reg0 Reg.DP_CR ((cmd ||| K.CR_PS_P0 ||| K.CR_STA : Nat) : Int)
    (outb_reg0 Reg.DP_RSAR1 ((nic_addr >>> 8 : Nat) : Int)
      (outb_reg0 Reg.DP_RSAR0 ((nic_addr &&& 0xFF : Nat) : Int)
        (outb_reg0 Reg.DP_RBCR1 ((count >>> 8 : Nat) : Int)
          (outb_reg0 Reg.DP_RBCR0 ((count &&& 0xFF : Nat) : Int) io))))

/-- The end of the programmed-I/O writes: wait for `ISR_RDC`, at most 100 reads. -/
def wait_rdc (K : Hdr) (iovp : iovec_dat) (io : Io) : Res Io iovec_dat :=
  if (poll_isr K.ISR_RDC 100 io).1 then Res.ok iovp (poll_isr K.ISR_RDC 100 io).2
  else Res.halt Halt.remote_dma_failed (poll_isr K.ISR_RDC 100 io).2

/-- The function `dp_pio8_user2nic`. -/
def dp_pio8_user2nic (K : Hdr) (E : Env) (iovp : iovec_dat) (offset nic_addr count : Nat)
    (io : Io) : Res Io iovec_dat :=
  match dp_pio8_user2nic_loop K E (count + 2 * iovp.iod_iovec_s.toNat + 2) iovp 0 offset count
      (remote_dma K K.CR_DM_RW nic_addr count
        (outb_reg0 Reg.DP_ISR (K.ISR_RDC : Int) io)) with
  | Res.ok iovp1 io1 => wait_rdc K iovp1 io1
  | Res.halt h io1 => Res.halt h io1

/-- The locals of the 16-bit loops: the pending odd byte and the buffer `two_bytes`. -/
structure Odd where
  odd_byte : Bool
  b0 : Nat
  b1 : Nat
deriving DecidableEq, Repr

/-- The body of the loop of `dp_pio16_user2nic` for a chunk of `bytes` bytes at the
client address `user` (lines 1327-1358): a pending odd byte is completed with
the first byte of the chunk and sent as a word, the even part is written, and
a byte left over is kept in `two_bytes[0]`.  It returns the number of bytes
taken, the locals and the outside afterwards. -/
def pio16_user2nic_chunk (proc : Int) (user bytes : Nat) (o : Odd) (io : Io) :
    Nat × Odd × Io :=
  let d := if o.odd_byte then 1 else 0
  let io1 := if o.odd_byte then
      { io with out := io.out ++ [Ev.data_out_word o.b0 (io.ubyte proc user)] }
    else io
  let o1 : Odd := if o.odd_byte then
      { odd_byte := false, b0 := o.b0, b1 := io.ubyte proc user }
    else o
  if bytes - d = 0 then (d, o1, io1)
  else
    let ecount := (bytes - d) / 2 * 2
    let io2 := if ecount ≠ 0 then
        { io1 with out := io1.out ++ [Ev.data_out (user_bytes io proc (user + d) ecount)] }
      else io1
    if bytes - d - ecount ≠ 0 then
      (d + ecount + 1,
        { odd_byte := true, b0 := io.ubyte proc (user + d + ecount), b1 := o1.b1 }, io2)
    else (d + ecount, o1, io2)

/-- The loop of `dp_pio16_user2nic`; it returns the descriptor and the locals. -/
def dp_pio16_user2nic_loop (K : Hdr) (E : Env) :
    Nat → iovec_dat → Nat → Nat → Nat → Odd → Io → Res Io (iovec_dat × Odd)
  | 0, _, _, _, _, _, io => Res.halt Halt.no_fuel io
  | fuel + 1, iovp, i, offset, count, o, io =>
    if count > 0 then
      if i ≥ K.IOVEC_NR then
        match dp_next_iovec K E iovp io with
        | Res.ok iovp1 io1 => dp_pio16_user2nic_loop K E fuel iovp1 0 offset count o io1
        | Res.halt h io1 => Res.halt h io1
      else if ¬ ((i : Int) < iovp.iod_iovec_s) then Res.halt Halt.assertion io
      else if offset ≥ (iovp.at i).iov_size then
        dp_pio16_user2nic_loop K E fuel iovp (i + 1) (offset - (iovp.at i).iov_size) count o io
      else
        let bytes := min ((iovp.at i).iov_size - offset) count
        let user := (iovp.at i).iov_addr + offset
        if E.numap iovp.iod_proc_nr user bytes then
          let r := pio16_user2nic_chunk iovp.iod_proc_nr user bytes o io
          dp_pio16_user2nic_loop K E fuel iovp i (offset + r.1) (count - r.1) r.2.1 r.2.2
        else Res.halt Halt.umap_failed io
    else Res.ok (iovp, o) io

/-- The function `dp_pio16_user2nic`; `two_bytes` starts as zeros. -/
def dp_pio16_user2nic (K : Hdr) (E : Env) (iovp : iovec_dat) (offset nic_addr count : Nat)
    (io : Io) : Res Io iovec_dat :=
  match dp_pio16_user2nic_loop K E (count + 2 * iovp.iod_iovec_s.toNat + 2) iovp 0 offset count
      { odd_byte := false, b0 := 0, b1 := 0 }
      (remote_dma K K.CR_DM_RW nic_addr ((count + 1) / 2 * 2)
        (outb_reg0 Reg.DP_ISR (K.ISR_RDC : Int) io)) with
  | Res.ok (iovp1, o) io1 =>
    wait_rdc K iovp1
      (if o.odd_byte then { io1 with out := io1.out ++ [Ev.data_out_word o.b0 o.b1] } else io1)
  | Res.halt h io1 => Res.halt h io1

/-- The loop of `dp_nic2user`; `a` is `phys_hw` as a card offset. -/
def dp_nic2user_loop (K : Hdr) (E : Env) :
    Nat → iovec_dat → Nat → Nat → Nat → Nat → Io → Res Io iovec_dat
  | 0, _, _, _, _, _, io => Res.halt Halt.no_fuel io
  | fuel + 1, iovp, i, offset, a, count, io =>
    if count > 0 then
      if i ≥ K.IOVEC_NR then
        match dp_next_iovec K E iovp io with
        | Res.ok iovp1 io1 => dp_nic2user_loop K E fuel iovp1 0 offset a count io1
        | Res.halt h io1 => Res.halt h io1
      else if ¬ ((i : Int) < iovp.iod_iovec_s) then Res.halt Halt.assertion io
      else if offset ≥ (iovp.at i).iov_size then
        dp_nic2user_loop K E fuel iovp (i + 1) (offset - (iovp.at i).iov_size) a count io
      else
        let bytes := min ((iovp.at i).iov_size - offset) count
        if E.numap iovp.iod_proc_nr ((iovp.at i).iov_addr + offset) bytes then
          dp_nic2user_loop K E fuel iovp i (offset + bytes) (a + bytes) (count - bytes)
            (store_user iovp.iod_proc_nr ((iovp.at i).iov_addr + offset)
              (card_bytes io a bytes) io)
        else Res.halt Halt.umap_failed io
    else Res.ok iovp io

/-- The function `dp_nic2user` (shared memory). -/
def dp_nic2user (K : Hdr) (E : Env) (nic_addr : Nat) (iovp : iovec_dat) (offset count : Nat)
    (io : Io) : Res Io iovec_dat :=
  dp_nic2user_loop K E (count + 2 * iovp.iod_iovec_s.toNat + 2) iovp 0 offset nic_addr count io

/-- The loop of `dp_pio8_nic2user`. -/
def dp_pio8_nic2user_loop (K : Hdr) (E : Env) :
    Nat → iovec_dat → Nat → Nat → Nat → Io → Res Io iovec_dat
  | 0, _, _, _, _, io => Res.halt Halt.no_fuel io
  | fuel + 1, iovp, i, offset, count, io =>
    if count > 0 then
      if i ≥ K.IOVEC_NR then
        match dp_next_iovec K E iovp io with
        | Res.ok iovp1 io1 => dp_pio8_nic2user_loop K E fuel iovp1 0 offset count io1
        | Res.halt h io1 => Res.halt h io1
      else if ¬ ((i : Int) < iovp.iod_iovec_s) then Res.halt Halt.assertion io
      else if offset ≥ (iovp.at i).iov_size then
        dp_pio8_nic2user_loop K E fuel iovp (i + 1) (offset - (iovp.at i).iov_size) count io
      else
        let bytes := min ((iovp.at i).iov_size - offset) count
        if E.numap iovp.iod_proc_nr ((iovp.at i).iov_addr + offset) bytes then
          dp_pio8_nic2user_loop K E fuel iovp i (offset + bytes) (count - bytes)
            (store_user iovp.iod_proc_nr ((iovp.at i).iov_addr + offset)
              (data_in bytes io).1 (data_in bytes io).2)
        else Res.halt Halt.umap_failed io
    else Res.ok iovp io

/-- The function `dp_pio8_nic2user`. -/
def dp_pio8_nic2user (K : Hdr) (E : Env) (nic_addr : Nat) (iovp : iovec_dat)
    (offset count : Nat) (io : Io) : Res Io iovec_dat :=
  dp_pio8_nic2user_loop K E (count + 2 * iovp.iod_iovec_s.toNat + 2) iovp 0 offset count
    (remote_dma K K.CR_DM_RR nic_addr count io)

/-- The body of the loop of `dp_pio16_nic2user` for a chunk of `bytes` bytes at the
client address `user` (lines 1527-1557): the high byte of the word read last
goes first, the even part is read, and for a byte left over a word is read of
which the low byte is stored.  It returns the number of bytes taken, the
locals and the outside afterwards. -/
def pio16_nic2user_chunk (proc : Int) (user bytes : Nat) (o : Odd) (io : Io) :
    Nat × Odd × Io :=
  let d := if o.odd_byte then 1 else 0
  let io1 := if o.odd_byte then store_user proc user [o.b1] io else io
  let o1 : Odd := if o.odd_byte then { o with odd_byte := false } else o
  if bytes - d = 0 then (d, o1, io1)
  else
    let ecount := (bytes - d) / 2 * 2
    let io2 := if ecount ≠ 0 then
        store_user proc (user + d) (data_in ecount io1).1 (data_in ecount io1).2
      else io1
    if bytes - d - ecount ≠ 0 then
      (d + ecount + 1,
        { odd_byte := true, b0 := (data_in 2 io2).1.getD 0 0, b1 := (data_in 2 io2).1.getD 1 0 },
        store_user proc (user + d + ecount) [(data_in 2 io2).1.getD 0 0] (data_in 2 io2).2)
    else (d + ecount, o1, io2)

/-- The loop of `dp_pio16_nic2user`. -/
def dp_pio16_nic2user_loop (K : Hdr) (E : Env) :
    Nat → iovec_dat → Nat → Nat → Nat → Odd → Io → Res Io iovec_dat
  | 0, _, _, _, _, _, io => Res.halt Halt.no_fuel io
  | fuel + 1, iovp, i, offset, count, o, io =>
    if count > 0 then
      if i ≥ K.IOVEC_NR then
        match dp_next_iovec K E iovp io with
        | Res.ok iovp1 io1 => dp_pio16_nic2user_loop K E fuel iovp1 0 offset count o io1
        | Res.halt h io1 => Res.halt h io1
      else if ¬ ((i : Int) < iovp.iod_iovec_s) then Res.halt Halt.assertion io
      else if offset ≥ (iovp.at i).iov_size then
        dp_pio16_nic2user_loop K E fuel iovp (i + 1) (offset - (iovp.at i).iov_size) count o io
      else
        let bytes := min ((iovp.at i).iov_size - offset) count
        let user := (iovp.at i).iov_addr + offset
        if E.numap iovp.iod_proc_nr user bytes then
          let r := pio16_nic2user_chunk iovp.iod_proc_nr user bytes o io
          dp_pio16_nic2user_loop K E fuel iovp i (offset + r.1) (count - r.1) r.2.1 r.2.2
        else Res.halt Halt.umap_failed io
    else Res.ok iovp io

/-- The function `dp_pio16_nic2user`. -/
def dp_pio16_nic2user (K : Hdr) (E : Env) (nic_addr : Nat) (iovp : iovec_dat)
    (offset count : Nat) (io : Io) : Res Io iovec_dat :=
  dp_pio16_nic2user_loop K E (count + 2 * iovp.iod_iovec_s.toNat + 2) iovp 0 offset count
    { odd_byte := false, b0 := 0, b1 := 0 }
    (remote_dma K K.CR_DM_RR nic_addr ((count + 1) / 2 * 2) io)

/-- The function `dp_getblock` (shared memory): the `size` bytes at `page`, `offset`. -/
def dp_getblock (K : Hdr) (page offset size : Nat) (io : Io) : Res Io (List Nat) :=
  if size % 2 = 0 then Res.ok (card_bytes io (page * K.DP_PAGESIZE + offset) size) io
  else Res.halt Halt.assertion io

/-- The function `dp_pio8_getblock`. -/
def dp_pio8_getblock (K : Hdr) (page offset size : Nat) (io : Io) : Res Io (List Nat) :=
  let io1 := outb_reg0 Reg.DP_CR ((K.CR_DM_RR ||| K.CR_PS_P0 ||| K.CR_STA : Nat) : Int)
    (outb_reg0 Reg.DP_RSAR1 (((page * K.DP_PAGESIZE + offset) >>> 8 : Nat) : Int)
      (outb_reg0 Reg.DP_RSAR0 (((page * K.DP_PAGESIZE + offset) &&& 0xFF : Nat) : Int)
        (outb_reg0 Reg.DP_RBCR1 ((size >>> 8 : Nat) : Int)
          (outb_reg0 Reg.DP_RBCR0 ((size &&& 0xFF : Nat) : Int) io))))
  Res.ok (data_in size io1).1 (data_in size io1).2

/-- The function `dp_pio16_getblock`; it differs from the 8-bit one in the width of the reads. -/
def dp_pio16_getblock (K : Hdr) (page offset size : Nat) (io : Io) : Res Io (List Nat) :=
  dp_pio8_getblock K page offset size io

/-- A call through `dep->de_user2nicf`. -/
def call_user2nic (K : Hdr) (E : Env) (f : Xfer) (iovp : iovec_dat)
    (offset nic_addr count : Nat) (io : Io) : Res Io iovec_dat :=
  let io1 := { io with out := io.out ++ [Ev.user2nic f iovp offset nic_addr count] }
  match f with
  | Xfer.shm => dp_user2nic K E iovp offset nic_addr count io1
  | Xfer.pio8 => dp_pio8_user2nic K E iovp offset nic_addr count io1
  | Xfer.pio16 => dp_pio16_user2nic K E iovp offset nic_addr count io1

/-- A call through `dep->de_nic2userf`. -/
def call_nic2user (K : Hdr) (E : Env) (f : Xfer) (nic_addr : Nat) (iovp : iovec_dat)
    (offset count : Nat) (io : Io) : Res Io iovec_dat :=
  let io1 := { io with out := io.out ++ [Ev.nic2user f nic_addr iovp offset count] }
  match f with
  | Xfer.shm => dp_nic2user K E nic_addr iovp offset count io1
  | Xfer.pio8 => dp_pio8_nic2user K E nic_addr iovp offset count io1
  | Xfer.pio16 => dp_pio16_nic2user K E nic_addr iovp offset count io1

/-- A call through `dep->de_getblockf`. -/
def call_getblock (K : Hdr) (f : Xfer) (page offset size : Nat) (io : Io) :
    Res Io (List Nat) :=
  match f with
  | Xfer.shm => dp_getblock K page offset size io
  | Xfer.pio8 => dp_pio8_getblock K page offset size io
  | Xfer.pio16 => dp_pio16_getblock K page offset size io

/-! ## The driver -/

/-- Run a piece of code that only works on the outside, from a port state. -/
def lift_io {α : Type} (s : Sys) (r : Res Io α) : Res Sys α :=
  match r with
  | Res.ok a io => Res.ok a { s with io := io }
  | Res.halt h io => Res.halt h { s with io := io }

/-- Sequencing: the second piece runs in the state the first returns in. -/
def Res.bind {σ α β : Type} (r : Res σ α) (f : α → σ → Res σ β) : Res σ β :=
  match r with
  | Res.ok a s => f a s
  | Res.halt h s => Res.halt h s

/-- The assignment `de_sendq[i] = v`. -/
def set_sendq (q : Nat → sendq) (i : Nat) (v : sendq) : Nat → sendq :=
  fun j => if j = i then v else q j

/-- The loop `for (i= 0; i<dep->de_sendq_nr; i++) dep->de_sendq[i].sq_filled= 0;`. -/
def clear_sendq (q : Nat → sendq) (nr : Nat) : Nat → sendq :=
  fun j => if j < nr then { q j with sq_filled := false } else q j

/-- The test `port < 0 || port >= DE_PORT_NR`. -/
def bad_port (port : Int) : Bool := decide (port < 0) || decide (port ≥ DE_PORT_NR)

/-- The function `reply`; `OK` is the error code 0. -/
def reply (E : Env) (err : Int) (s : Sys) : Res Sys Unit :=
  let s1 : Sys := { s with io := { s.io with out := s.io.out ++
    [Ev.send (Sent.task_reply s.dep.de_client s.dep.de_client s.dep.de_flags.DEF_PACK_SEND
      s.dep.de_flags.DEF_PACK_RECV err s.dep.de_read_s E.uptime)] } }
  if E.send_r < 0 then Res.halt Halt.send_failed s1
  else Res.ok () { s1 with dep := { s1.dep with
    de_read_s := 0,
    de_flags := { s1.dep.de_flags with DEF_PACK_SEND := false, DEF_PACK_RECV := false } } }

/-- The four writes that start the transmission of a send page. -/
def start_tx (K : Hdr) (page size : Nat) (io : Io) : Io :=
  outb_reg0 Reg.DP_CR (K.CR_TXP : Int)
    (outb_reg0 Reg.DP_TBCR0 ((size &&& 0xff : Nat) : Int)
      (outb_reg0 Reg.DP_TBCR1 ((size >>> 8 : Nat) : Int)
        (outb_reg0 Reg.DP_TPSR (page : Int) io)))

/-- The first part of the enqueue branch of `do_vwrite` (lines 338-360): the
write descriptor is set up and the size of the frame computed. -/
def do_vwrite_size (K : Hdr) (E : Env) (mp : message) (vectored : Bool) (s : Sys) :
    Res Sys Int :=
  if vectored then
    match get_userdata K E mp.DL_PROC mp.DL_ADDR
        (if mp.DL_COUNT > (K.IOVEC_NR : Int) then (K.IOVEC_NR : Int) else mp.DL_COUNT)
        s.dep.de_write_iovec.iod_iovec s.io with
    | Res.halt h io1 => Res.halt h { s with io := io1 }
    | Res.ok w io1 =>
      let wi : iovec_dat :=
        { iod_iovec := w, iod_iovec_s := mp.DL_COUNT,
          iod_proc_nr := mp.DL_PROC, iod_iovec_addr := mp.DL_ADDR }
      match calc_iovec_size K E wi io1 with
      | Res.halt h io2 =>
        Res.halt h { dep := { s.dep with de_write_iovec := wi, de_tmp_iovec := wi }, io := io2 }
      | Res.ok (size, tmp) io2 =>
        Res.ok size { dep := { s.dep with de_write_iovec := wi, de_tmp_iovec := tmp }, io := io2 }
  else
    Res.ok mp.DL_COUNT { s with dep := { s.dep with de_write_iovec :=
      { iod_iovec := { iov_addr := mp.DL_ADDR, iov_size := to_uint K mp.DL_COUNT } ::
          s.dep.de_write_iovec.iod_iovec.tail,
        iod_iovec_s := 1, iod_proc_nr := mp.DL_PROC, iod_iovec_addr := 0 } } }

/-- Lines 368-377 of `do_vwrite`: the slot at head is marked filled; if it is
the tail its transmission is started, otherwise its size is stored. -/
def fill_head (K : Hdr) (size : Nat) (s : Sys) : Sys :=
  let sendq_head := s.dep.de_sendq_head
  let filled : sendq := { s.dep.de_sendq sendq_head with sq_filled := true }
  if s.dep.de_sendq_tail = sendq_head then
    { dep := { s.dep with de_sendq := set_sendq s.dep.de_sendq sendq_head filled },
      io := start_tx K filled.sq_sendpage size s.io }
  else
    { s with dep := { s.dep with
        de_sendq := set_sendq s.dep.de_sendq sendq_head { filled with sq_size := size } } }

/-- The value of `sendq_head` after `if (++sendq_head == dep->de_sendq_nr) sendq_head= 0;`
(and of `sendq_tail` after the same statement of `dp_check_ints`). -/
def next_slot (i nr : Nat) : Nat := if i + 1 = nr then 0 else i + 1

/-- Lines 382-384 of `do_vwrite`: the new head is stored and `DEF_PACK_SEND` set. -/
def advance_head (s : Sys) : Sys :=
  { s with dep := { s.dep with
    de_sendq_head := next_slot s.dep.de_sendq_head s.dep.de_sendq_nr,
    de_flags := { s.dep.de_flags with DEF_PACK_SEND := true } } }

/-- The second part of the enqueue branch of `do_vwrite` (lines 361-394), for
the frame size computed by the first. -/
def do_vwrite_send (K : Hdr) (E : Env) (from_int : Bool) (size : Int) (s : Sys) :
    Res Sys Unit :=
  if size < ETH_MIN_PACK_SIZE ∨ size > ETH_MAX_PACK_SIZE then
    Res.halt Halt.invalid_packet_size s
  else
    match call_user2nic K E s.dep.de_user2nicf s.dep.de_write_iovec 0
        ((s.dep.de_sendq s.dep.de_sendq_head).sq_sendpage * K.DP_PAGESIZE) size.toNat s.io with
    | Res.halt h io1 => Res.halt h { s with io := io1 }
    | Res.ok wi io1 =>
      let s1 := fill_head K size.toNat { dep := { s.dep with de_write_iovec := wi }, io := io1 }
      if ¬ next_slot s1.dep.de_sendq_head s1.dep.de_sendq_nr < K.SENDQ_NR then
        Res.halt Halt.assertion s1
      else if from_int then Res.ok () (advance_head s1)
      else
        (reply E 0 (advance_head s1)).bind fun _ s3 =>
          if s3.dep.de_mode ≠ Mode.DEM_ENABLED then Res.halt Halt.assertion s3
          else if ¬ s3.dep.de_flags.DEF_ENABLED then Res.halt Halt.assertion s3
          else Res.ok () s3

/-- The function `do_vwrite(mp, from_int, vectored)`, on the entry `de_table[mp->DL_PORT]`. -/
def do_vwrite (K : Hdr) (E : Env) (mp : message) (from_int vectored : Bool) (s0 : Sys) :
    Res Sys Unit :=
  if bad_port mp.DL_PORT then Res.halt Halt.illegal_port s0
  else
    let s : Sys := { s0 with dep := { s0.dep with de_client := mp.DL_PROC } }
    if s.dep.de_mode = Mode.DEM_SINK then
      if from_int then Res.halt Halt.assertion s
      else reply E 0 { s with dep := { s.dep with
        de_flags := { s.dep.de_flags with DEF_PACK_SEND := true } } }
    else if s.dep.de_mode ≠ Mode.DEM_ENABLED then Res.halt Halt.assertion s
    else if ¬ s.dep.de_flags.DEF_ENABLED then Res.halt Halt.assertion s
    else if s.dep.de_flags.DEF_SEND_AVAIL then Res.halt Halt.send_in_progress s
    else if (s.dep.de_sendq s.dep.de_sendq_head).sq_filled then
      if from_int then Res.halt Halt.should_not_be_sending s
      else reply E 0 { s with dep := { s.dep with
        de_sendmsg := mp,
        de_flags := { s.dep.de_flags with DEF_SEND_AVAIL := true } } }
    else if s.dep.de_flags.DEF_PACK_SEND then Res.halt Halt.assertion s
    else
      (do_vwrite_size K E mp vectored s).bind fun size s1 =>
        do_vwrite_send K E from_int size s1

/-- The function `dp_send`. -/
def dp_send (K : Hdr) (E : Env) (s : Sys) : Res Sys Unit :=
  if ¬ s.dep.de_flags.DEF_SEND_AVAIL then Res.ok () s
  else
    let s1 : Sys := { s with dep := { s.dep with
      de_flags := { s.dep.de_flags with DEF_SEND_AVAIL := false } } }
    match s1.dep.de_sendmsg.m_type with
    | MType.DL_WRITE => do_vwrite K E s1.dep.de_sendmsg true false s1
    | MType.DL_WRITEV => do_vwrite K E s1.dep.de_sendmsg true true s1
    | _ => Res.halt Halt.wrong_type s1

/-- The function `dp_pkt2user(dep, page, length)`; it returns whether the result is `OK`. -/
def dp_pkt2user (K : Hdr) (E : Env) (page length : Nat) (s : Sys) : Res Sys Bool :=
  if ¬ s.dep.de_flags.DEF_READING then Res.ok false s
  else
    let last := page + (length - 1) / K.DP_PAGESIZE
    let done : Sys → Sys := fun s1 => { s1 with dep := { s1.dep with
      de_read_s := length,
      de_flags := { s1.dep.de_flags with DEF_PACK_RECV := true, DEF_READING := false } } }
    if last ≥ s.dep.de_stoppage then
      let count := to_uint K
        (((s.dep.de_stoppage : Int) - (page : Int)) * (K.DP_PAGESIZE : Int) - (SIZEOF_RCVHDR : Int))
      match call_nic2user K E s.dep.de_nic2userf (page * K.DP_PAGESIZE + SIZEOF_RCVHDR)
          s.dep.de_read_iovec 0 count s.io with
      | Res.halt h io1 =>
        Res.halt h { dep := { s.dep with de_tmp_iovec := s.dep.de_read_iovec }, io := io1 }
      | Res.ok tmp io1 =>
        match call_nic2user K E s.dep.de_nic2userf (s.dep.de_startpage * K.DP_PAGESIZE)
            s.dep.de_read_iovec count (usub K length count) io1 with
        | Res.halt h io2 => Res.halt h { dep := { s.dep with de_tmp_iovec := tmp }, io := io2 }
        | Res.ok rd io2 =>
          Res.ok true (done
            { dep := { s.dep with de_tmp_iovec := tmp, de_read_iovec := rd }, io := io2 })
    else
      match call_nic2user K E s.dep.de_nic2userf (page * K.DP_PAGESIZE + SIZEOF_RCVHDR)
          s.dep.de_read_iovec 0 length s.io with
      | Res.halt h io1 => Res.halt h { s with io := io1 }
      | Res.ok rd io1 =>
        Res.ok true (done { dep := { s.dep with de_read_iovec := rd }, io := io1 })

/-- The header `dp_rcvhdr_t` and the type field of a frame, as `dp_recv` reads them. -/
structure Frame where
  dr_status : Nat
  dr_next : Nat
  dr_rbcl : Nat
  dr_rbch : Nat
  eth_type : Nat
deriving DecidableEq, Repr

/-- The two `de_getblockf` calls of `dp_recv` for the frame at `pageno`. -/
def read_frame (K : Hdr) (f : Xfer) (pageno : Nat) (io : Io) : Res Io Frame :=
  (call_getblock K f pageno 0 SIZEOF_RCVHDR io).bind fun hd io1 =>
    (call_getblock K f pageno (SIZEOF_RCVHDR + 2 * SIZEOF_ETHER_ADDR) 2 io1).bind fun et io2 =>
      Res.ok { dr_status := hd.getD 0 0 % 256, dr_next := hd.getD 1 0 % 256,
               dr_rbcl := hd.getD 2 0 % 256, dr_rbch := hd.getD 3 0 % 256,
               eth_type := et.getD 0 0 % 256 + 256 * (et.getD 1 0 % 256) } io2

/-- The local `length` of `dp_recv`: the byte count of the header less the header itself. -/
def frame_length (K : Hdr) (fr : Frame) : Nat :=
  usub K (fr.dr_rbcl ||| (fr.dr_rbch <<< 8)) SIZEOF_RCVHDR

/-- The end of an iteration of `dp_recv`: the boundary register is written. -/
def write_bnry (K : Hdr) (next : Nat) (s : Sys) : Sys :=
  if next = s.dep.de_startpage then
    { s with io := outb_reg0 Reg.DP_BNRY ((s.dep.de_stoppage : Int) - 1) s.io }
  else
    { s with io := outb_reg0 Reg.DP_BNRY ((usub K next 1 : Nat) : Int) s.io }

/-- The statistics with `ets_recvErr` incremented. -/
def count_recvErr (K : Hdr) (s : Sys) : Sys :=
  { s with dep := { s.dep with
    de_stat := { s.dep.de_stat with ets_recvErr := uladd K s.dep.de_stat.ets_recvErr 1 } } }

/-- The statistics with `ets_fifoOver` incremented. -/
def count_fifoOver (K : Hdr) (s : Sys) : Sys :=
  { s with dep := { s.dep with
    de_stat := { s.dep.de_stat with ets_fifoOver := uladd K s.dep.de_stat.ets_fifoOver 1 } } }

/-- The statistics with `ets_packetR` incremented. -/
def count_packetR (K : Hdr) (s : Sys) : Sys :=
  { s with dep := { s.dep with
    de_stat := { s.dep.de_stat with ets_packetR := uladd K s.dep.de_stat.ets_packetR 1 } } }

/-- The part of the body of the loop of `dp_recv` that follows the reading of
the frame `fr` at `pageno` (lines 963-1024), `curr` being the value read from
`DP_CURR`.  It returns `none` when the loop ends with this pass (`return`, or
`packet_processed` set) and the new `pageno` when it goes on. -/
def dp_recv_frame (K : Hdr) (E : Env) (pageno curr : Nat) (fr : Frame) (s1 : Sys) :
    Res Sys (Option Nat) :=
  let length := frame_length K fr
  let next := fr.dr_next
  if ¬ bit fr.dr_status K.RSR_PRX then
    Res.ok (some curr) (write_bnry K curr (count_recvErr K s1))
  else if bit fr.dr_status (255 ^^^ ((K.RSR_PHY ||| K.RSR_PRX) &&& 255)) then
    Res.ok (some curr) (write_bnry K curr (count_fifoOver K s1))
  else if length < 60 ∨ length > 1514 then
    Res.ok (some curr) (write_bnry K curr s1)
  else if next < s1.dep.de_startpage ∨ next ≥ s1.dep.de_stoppage then
    Res.ok (some curr) (write_bnry K curr s1)
  else if fr.eth_type = E.eth_ign_proto then
    Res.ok (some curr) (write_bnry K curr (count_packetR K s1))
  else if s1.dep.de_flags.DEF_ENABLED then
    (dp_pkt2user K E pageno length s1).bind fun r s2 =>
      if ¬ r then Res.ok none s2
      else Res.ok none (write_bnry K next (count_packetR K s2))
  else
    Res.ok (some next) (write_bnry K next s1)

/-- One pass of the body of the loop of `dp_recv` (lines 952-1024).  It returns
`none` when the loop ends with this pass (`break`, `return`, or
`packet_processed` set) and the new `pageno` when it goes on. -/
def dp_recv_iter (K : Hdr) (E : Env) (pageno : Nat) (s : Sys) : Res Sys (Option Nat) :=
  let rd := inb_curr (outb_reg0 Reg.DP_CR (K.CR_PS_P1 : Int) s.io)
  let s0 : Sys := { s with io := outb_reg0 Reg.DP_CR (K.CR_PS_P0 : Int) rd.2 }
  if rd.1 = pageno then Res.ok none s0
  else
    (lift_io s0 (read_frame K s0.dep.de_getblockf pageno s0.io)).bind fun fr s1 =>
      dp_recv_frame K E pageno rd.1 fr s1

/-- The loop of `dp_recv` with a step budget; `pageno` is the local of that name. -/
def dp_recv_loop (K : Hdr) (E : Env) : Nat → Nat → Sys → Res Sys Unit
  | 0, _, s => Res.halt Halt.no_fuel s
  | fuel + 1, pageno, s =>
    (dp_recv_iter K E pageno s).bind fun r s1 =>
      match r with
      | none => Res.ok () s1
      | some next => dp_recv_loop K E fuel next s1

/-- The function `dp_recv`.  The budget lets the loop run once for every change
of `DP_CURR` that is still to come and twice more, which is all it can use
when `DEF_ENABLED` is set. -/
def dp_recv (K : Hdr) (E : Env) (s : Sys) : Res Sys Unit :=
  let pageno := inb_bnry s.io + 1
  dp_recv_loop K E (s.io.curr_next.length + 2)
    (if pageno = s.dep.de_stoppage then s.dep.de_startpage else pageno) s

/-- The function `dp_reset`. -/
def dp_reset (K : Hdr) (E : Env) (s : Sys) : Res Sys Unit :=
  let io1 := (poll_isr K.ISR_RST 0x1000
    (outb_reg0 Reg.DP_RBCR1 0 (outb_reg0 Reg.DP_RBCR0 0
      (outb_reg0 Reg.DP_CR ((K.CR_STP ||| K.CR_DM_ABORT : Nat) : Int) s.io)))).2
  let io2 := (poll_isr K.ISR_RDC 0x1000
    (outb_reg0 Reg.DP_TCR ((K.TCR_NORMAL ||| K.TCR_OFST : Nat) : Int)
      (outb_reg0 Reg.DP_CR ((K.CR_STA ||| K.CR_DM_ABORT : Nat) : Int)
        (outb_reg0 Reg.DP_TCR ((K.TCR_1EXTERNAL ||| K.TCR_OFST : Nat) : Int) io1)))).2
  let rd := inb_isr io2
  let io3 := outb_reg0 Reg.DP_ISR ((rd.1 ^^^ (rd.1 &&& K.ISR_RDC) : Nat) : Int) rd.2
  let s1 : Sys :=
    { dep := { s.dep with
                 de_sendq_head := 0, de_sendq_tail := 0,
                 de_sendq := clear_sendq s.dep.de_sendq s.dep.de_sendq_nr },
      io := io3 }
  (dp_send K E s1).bind fun _ s2 =>
    Res.ok () { s2 with dep := { s2.dep with
      de_flags := { s2.dep.de_flags with DEF_STOPPED := false } } }

/-- The counters `dp_check_ints` updates from the transmit status `tsr`. -/
def count_tsr (K : Hdr) (tsr : Nat) (st : eth_stat) : eth_stat :=
  { st with
    ets_packetT := if bit tsr K.TSR_PTX then uladd K st.ets_packetT 1 else st.ets_packetT,
    ets_transDef := if bit tsr K.TSR_DFR then uladd K st.ets_transDef 1 else st.ets_transDef,
    ets_collision := if bit tsr K.TSR_COL then uladd K st.ets_collision 1 else st.ets_collision,
    ets_transAb := if bit tsr K.TSR_ABT then uladd K st.ets_transAb 1 else st.ets_transAb,
    ets_carrSense := if bit tsr K.TSR_CRS then uladd K st.ets_carrSense 1 else st.ets_carrSense,
    ets_fifoUnder := if bit tsr K.TSR_FU then uladd K st.ets_fifoUnder 1 else st.ets_fifoUnder,
    ets_CDheartbeat := if bit tsr K.TSR_CDH then uladd K st.ets_CDheartbeat 1 else st.ets_CDheartbeat,
    ets_OWC := if bit tsr K.TSR_OWC then uladd K st.ets_OWC 1 else st.ets_OWC }

/-- Lines 829-858 of `dp_check_ints`: the transmit statistics are updated, from
the transmit status register unless the interrupt reports a transmit error. -/
def tx_stat (K : Hdr) (isr : Nat) (s : Sys) : Sys :=
  if bit isr K.ISR_TXE then
    { s with dep := { s.dep with
      de_stat := { s.dep.de_stat with ets_sendErr := uladd K s.dep.de_stat.ets_sendErr 1 } } }
  else
    { dep := { s.dep with de_stat := count_tsr K (inb_tsr s.io).1 s.dep.de_stat },
      io := (inb_tsr s.io).2 }

/-- Lines 872-884 of `dp_check_ints`: the tail slot is marked empty, the tail
advanced, and the transmission of the slot at the new tail started if it is filled. -/
def tx_complete (K : Hdr) (s : Sys) : Sys :=
  let sendq_tail := s.dep.de_sendq_tail
  let tail1 := next_slot sendq_tail s.dep.de_sendq_nr
  let q := set_sendq s.dep.de_sendq sendq_tail
    { s.dep.de_sendq sendq_tail with sq_filled := false }
  { dep := { s.dep with de_sendq := q, de_sendq_tail := tail1 },
    io := if (q tail1).sq_filled then start_tx K (q tail1).sq_sendpage (q tail1).sq_size s.io
          else s.io }

/-- The block `if (isr & (ISR_PTX|ISR_TXE))` of `dp_check_ints` (lines 827-887).
It returns `true` when it ends in the `continue` of line 870, which
`assert(!debug)` guards. -/
def dp_check_ints_tx (K : Hdr) (E : Env) (isr : Nat) (s : Sys) : Res Sys Bool :=
  let s1 := tx_stat K isr s
  if ¬ (s1.dep.de_sendq s1.dep.de_sendq_tail).sq_filled then
    if K.debug then Res.halt Halt.assertion s1 else Res.ok true s1
  else
    let s3 := tx_complete K s1
    if s3.dep.de_flags.DEF_SEND_AVAIL then
      (dp_send K E s3).bind fun _ s4 => Res.ok false s4
    else Res.ok false s3

/-- The statements of the loop body of `dp_check_ints` after the transmit
block (lines 889-921).  It returns `true` when it ends in the `break` of line 920. -/
def dp_check_ints_rx (K : Hdr) (E : Env) (isr : Nat) (s : Sys) : Res Sys Bool :=
  (if bit isr K.ISR_PRX then dp_recv K E s else Res.ok () s).bind fun _ s1 =>
    let s2 : Sys :=
      if bit isr K.ISR_RXE then
        { s1 with dep := { s1.dep with
          de_stat := { s1.dep.de_stat with
            ets_recvErr := uladd K s1.dep.de_stat.ets_recvErr 1 } } }
      else s1
    let s3 : Sys :=
      if bit isr K.ISR_CNT then
        { dep := { s2.dep with de_stat := { s2.dep.de_stat with
            ets_CRCerr := uladd K s2.dep.de_stat.ets_CRCerr (inb_cntr0 s2.io).1,
            ets_frameAll := uladd K s2.dep.de_stat.ets_frameAll
              (inb_cntr1 (inb_cntr0 s2.io).2).1,
            ets_missedP := uladd K s2.dep.de_stat.ets_missedP
              (inb_cntr2 (inb_cntr1 (inb_cntr0 s2.io).2).2).1 } },
          io := (inb_cntr2 (inb_cntr1 (inb_cntr0 s2.io).2).2).2 }
      else s2
    if bit isr K.ISR_RST then
      Res.ok true { s3 with dep := { s3.dep with
        de_flags := { s3.dep.de_flags with DEF_STOPPED := true } } }
    else Res.ok false s3

/-- The loop `for(;;)` of `dp_check_ints` with a step budget. -/
def dp_check_ints_loop (K : Hdr) (E : Env) : Nat → Sys → Res Sys Unit
  | 0, s => Res.halt Halt.no_fuel s
  | fuel + 1, s =>
    let isr := (inb_isr s.io).1
    if isr = 0 then Res.ok () { s with io := (inb_isr s.io).2 }
    else
      let s1 : Sys := { s with io := outb_reg0 Reg.DP_ISR (isr : Int) (inb_isr s.io).2 }
      (if bit isr (K.ISR_PTX ||| K.ISR_TXE) then dp_check_ints_tx K E isr s1
        else Res.ok false s1).bind fun cont s2 =>
        if cont then dp_check_ints_loop K E fuel s2
        else
          (dp_check_ints_rx K E isr s2).bind fun brk s3 =>
            if brk then Res.ok () s3 else dp_check_ints_loop K E fuel s3

/-- The function `dp_check_ints`: the loop runs once for every pending value of
`DP_ISR` and once more for the read that returns 0. -/
def dp_check_ints (K : Hdr) (E : Env) (s : Sys) : Res Sys Unit :=
  if ¬ s.dep.de_flags.DEF_ENABLED then Res.halt Halt.premature_interrupt s
  else
    (dp_check_ints_loop K E (s.io.isr.length + 1) s).bind fun _ s1 =>
      if s1.dep.de_flags.DEF_READING ∧ s1.dep.de_flags.DEF_STOPPED then dp_reset K E s1
      else Res.ok () s1

/-- The first part of `do_vread` after the checks (lines 426-448): the read
descriptor is set up and the size of the buffer computed. -/
def do_vread_size (K : Hdr) (E : Env) (mp : message) (vectored : Bool) (s : Sys) :
    Res Sys Int :=
  if vectored then
    match get_userdata K E mp.DL_PROC mp.DL_ADDR
        (if mp.DL_COUNT > (K.IOVEC_NR : Int) then (K.IOVEC_NR : Int) else mp.DL_COUNT)
        s.dep.de_read_iovec.iod_iovec s.io with
    | Res.halt h io1 => Res.halt h { s with io := io1 }
    | Res.ok w io1 =>
      let ri : iovec_dat :=
        { iod_iovec := w, iod_iovec_s := mp.DL_COUNT,
          iod_proc_nr := mp.DL_PROC, iod_iovec_addr := mp.DL_ADDR }
      match calc_iovec_size K E ri io1 with
      | Res.halt h io2 =>
        Res.halt h { dep := { s.dep with de_read_iovec := ri, de_tmp_iovec := ri }, io := io2 }
      | Res.ok (size, tmp) io2 =>
        Res.ok size { dep := { s.dep with de_read_iovec := ri, de_tmp_iovec := tmp }, io := io2 }
  else
    Res.ok mp.DL_COUNT { s with dep := { s.dep with de_read_iovec :=
      { iod_iovec := { iov_addr := mp.DL_ADDR, iov_size := to_uint K mp.DL_COUNT } ::
          s.dep.de_read_iovec.iod_iovec.tail,
        iod_iovec_s := 1, iod_proc_nr := mp.DL_PROC, iod_iovec_addr := 0 } } }

/-- The function `do_vread(mp, vectored)`, on the entry `de_table[mp->DL_PORT]`. -/
def do_vread (K : Hdr) (E : Env) (mp : message) (vectored : Bool) (s0 : Sys) : Res Sys Unit :=
  if bad_port mp.DL_PORT then Res.halt Halt.illegal_port s0
  else
    let s : Sys := { s0 with dep := { s0.dep with de_client := mp.DL_PROC } }
    if s.dep.de_mode = Mode.DEM_SINK then reply E 0 s
    else if s.dep.de_mode ≠ Mode.DEM_ENABLED then Res.halt Halt.assertion s
    else if ¬ s.dep.de_flags.DEF_ENABLED then Res.halt Halt.assertion s
    else if s.dep.de_flags.DEF_READING then Res.halt Halt.read_in_progress s
    else
      (do_vread_size K E mp vectored s).bind fun size s1 =>
        if size < ETH_MAX_PACK_SIZE then Res.halt Halt.wrong_packet_size s1
        else
          (dp_recv K E { s1 with dep := { s1.dep with
              de_flags := { s1.dep.de_flags with DEF_READING := true } } }).bind fun _ s2 =>
            (if s2.dep.de_flags.DEF_READING ∧ s2.dep.de_flags.DEF_STOPPED then dp_reset K E s2
              else Res.ok () s2).bind fun _ s3 => reply E 0 s3

/-- The loop of `dp_confaddr`: `n` iterations are left, `i` is the index. -/
def dp_confaddr_loop (E : Env) : Nat → Nat → List Nat → Nat × List Nat
  | 0, i, a => (i, a)
  | n + 1, i, a =>
    match E.ea_env i with
    | none => (i, a)
    | some v => dp_confaddr_loop E n (i + 1) (a.set i v)

/-- The function `dp_confaddr`; an address set in part makes `env_parse` panic. -/
def dp_confaddr (E : Env) (s : Sys) : Res Sys Unit :=
  let r := dp_confaddr_loop E 6 0 s.dep.de_address
  let s1 : Sys := { s with dep := { s.dep with de_address := r.2 } }
  if r.1 ≠ 0 ∧ r.1 ≠ 6 then Res.halt Halt.env_parse s1 else Res.ok () s1

/-- The value `dp_rcr_reg` that `dp_init` and `dp_reinit` compute from the flags. -/
def dp_rcr_reg (K : Hdr) (f : Flags) : Nat :=
  ((if f.DEF_PROMISC then K.RCR_AB ||| K.RCR_PRO ||| K.RCR_AM else 0)
    ||| (if f.DEF_BROAD then K.RCR_AB else 0))
    ||| (if f.DEF_MULTI then K.RCR_AM else 0)

/-- A sequence of `outb_reg0` writes. -/
def outb0s (ws : List (Reg × Int)) (io : Io) : Io :=
  ws.foldl (fun io w => outb_reg0 w.1 w.2 io) io

/-- A sequence of `outb_reg1` writes. -/
def outb1s (ws : List (Reg × Int)) (io : Io) : Io :=
  ws.foldl (fun io w => outb_reg1 w.1 w.2 io) io

/-- The function `dp_init`. -/
def dp_init (K : Hdr) (E : Env) (s : Sys) : Res Sys Unit :=
  let d0 : dpeth := { s.dep with de_flags := DEF_EMPTY }
  let ci := E.initf d0 { s.io with out := s.io.out ++ [Ev.initf] }
  let d1 : dpeth := { d0 with
    de_address := ci.1.de_address, de_ramsize := ci.1.de_ramsize,
    de_sendq_nr := ci.1.de_sendq_nr,
    de_sendq := fun i => { d0.de_sendq i with sq_sendpage := ci.1.sq_sendpage i },
    de_startpage := ci.1.de_startpage, de_stoppage := ci.1.de_stoppage,
    de_irq := ci.1.de_irq }
  (dp_confaddr E { dep := d1, io := ci.2 }).bind fun _ s1 =>
    let d := s1.dep
    let a := fun i => ((d.de_address.getD i 0 : Nat) : Int)
    let io1 := outb0s
      [ (Reg.DP_CR, ((K.CR_PS_P0 ||| K.CR_STP ||| K.CR_DM_ABORT : Nat) : Int)),
        (Reg.DP_IMR, 0),
        (Reg.DP_PSTART, (d.de_startpage : Int)),
        (Reg.DP_PSTOP, (d.de_stoppage : Int)),
        (Reg.DP_BNRY, (d.de_startpage : Int)),
        (Reg.DP_RCR, (K.RCR_MON : Int)),
        (Reg.DP_TCR, (K.TCR_NORMAL : Int)),
        (Reg.DP_DCR, if d.de_16bit
          then ((K.DCR_WORDWIDE ||| K.DCR_8BYTES ||| K.DCR_BMS : Nat) : Int)
          else ((K.DCR_BYTEWIDE ||| K.DCR_8BYTES ||| K.DCR_BMS : Nat) : Int)),
        (Reg.DP_RBCR0, 0),
        (Reg.DP_RBCR1, 0),
        (Reg.DP_ISR, 0xFF),
        (Reg.DP_CR, ((K.CR_PS_P1 ||| K.CR_DM_ABORT : Nat) : Int)) ] s1.io
    let io2 := outb1s
      [ (Reg.DP_PAR 0, a 0), (Reg.DP_PAR 1, a 1), (Reg.DP_PAR 2, a 2),
        (Reg.DP_PAR 3, a 3), (Reg.DP_PAR 4, a 4), (Reg.DP_PAR 5, a 5),
        (Reg.DP_MAR 0, 0xff), (Reg.DP_MAR 1, 0xff), (Reg.DP_MAR 2, 0xff),
        (Reg.DP_MAR 3, 0xff), (Reg.DP_MAR 4, 0xff), (Reg.DP_MAR 5, 0xff),
        (Reg.DP_MAR 6, 0xff), (Reg.DP_MAR 7, 0xff),
        (Reg.DP_CURR, (d.de_startpage : Int) + 1),
        (Reg.DP_CR, ((K.CR_PS_P0 ||| K.CR_DM_ABORT : Nat) : Int)) ] io1
    let io3 := (inb_cntr2 (inb_cntr1 (inb_cntr0
      (outb_reg0 Reg.DP_RCR (dp_rcr_reg K d.de_flags : Int) io2)).2).2).2
    let io4 := outb0s
      [ (Reg.DP_IMR, ((K.IMR_PRXE ||| K.IMR_PTXE ||| K.IMR_RXEE ||| K.IMR_TXEE
          ||| K.IMR_OVWE ||| K.IMR_CNTE : Nat) : Int)),
        (Reg.DP_CR, ((K.CR_STA ||| K.CR_DM_ABORT : Nat) : Int)) ] io3
    let f : Xfer := if ¬ dpeth.de_prog_IO d then Xfer.shm
      else if d.de_16bit then Xfer.pio16 else Xfer.pio8
    Res.ok ()
      { dep := { d with
                   de_flags := { d.de_flags with DEF_ENABLED := true },
                   de_sendq := clear_sendq d.de_sendq d.de_sendq_nr,
                   de_sendq_head := 0, de_sendq_tail := 0,
                   de_user2nicf := f, de_nic2userf := f, de_getblockf := f },
        io := { io4 with out := io4.out ++ [Ev.irq_on d.de_irq] } }

/-- The function `dp_reinit`. -/
def dp_reinit (K : Hdr) (s : Sys) : Sys :=
  { s with io := outb_reg0 Reg.DP_RCR (dp_rcr_reg K s.dep.de_flags : Int)
                   (outb_reg0 Reg.DP_CR (K.CR_PS_P0 : Int) s.io) }

/-- The function `update_conf`. -/
def update_conf (E : Env) (dep : dpeth) : dpeth :=
  { dep with
    de_mode := E.conf_mode, de_base_port := E.conf_port, de_irq := E.conf_irq,
    de_linmem := E.conf_mem, de_ramsize := E.conf_ramsize }

/-- The function `conf_hw`. -/
def conf_hw (E : Env) (s : Sys) : Sys :=
  let d1 := update_conf E { s.dep with de_mode := Mode.DEM_DISABLED }
  if d1.de_mode ≠ Mode.DEM_ENABLED then { s with dep := d1 }
  else
    match E.probe d1 s.io with
    | (none, io1) => { dep := { d1 with de_mode := Mode.DEM_DISABLED }, io := io1 }
    | (some c, io1) =>
      { dep := { d1 with
                   de_16bit := c.de_16bit,
                   de_prog_IO := Card.de_prog_IO c,
                   de_linmem := if c.de_linmem = 0 then 0xFFFF0000 else c.de_linmem,
                   de_flags := DEF_EMPTY,
                   de_stat := empty_stat },
        io := io1 }

/-- The function `mess_reply`. -/
def mess_reply (E : Env) (m : Sent) (s : Sys) : Res Sys Unit :=
  let s1 : Sys := { s with io := { s.io with out := s.io.out ++ [Ev.send m] } }
  if E.send_r ≠ 0 then Res.halt Halt.unable_to_mess_reply s1 else Res.ok () s1

/-- The function `do_init(mp)`, on the entry `de_table[mp->DL_PORT]`. -/
def do_init (K : Hdr) (E : Env) (mp : message) (s0 : Sys) : Res Sys Unit :=
  if bad_port mp.DL_PORT then
    mess_reply E (Sent.init_reply mp.m_source K.ENXIO none none) s0
  else
    let ok_reply : Sys → Res Sys Unit := fun s =>
      mess_reply E (Sent.init_reply mp.m_source mp.DL_PORT (some DE_PORT_NR)
        (some s.dep.de_address)) s
    let rest : Sys → Res Sys Unit := fun s =>
      if s.dep.de_mode = Mode.DEM_SINK then
        (dp_confaddr E { s with dep := { s.dep with de_address := [0, 0, 0, 0, 0, 0] } }).bind
          fun _ s1 => ok_reply s1
      else if s.dep.de_mode ≠ Mode.DEM_ENABLED then Res.halt Halt.assertion s
      else if ¬ s.dep.de_flags.DEF_ENABLED then Res.halt Halt.assertion s
      else
        let p := bit mp.DL_MODE K.DL_PROMISC_REQ
        ok_reply (dp_reinit K { s with dep := { s.dep with
          de_client := mp.m_source,
          de_flags := { s.dep.de_flags with
            DEF_PROMISC := p,
            DEF_MULTI := p || bit mp.DL_MODE K.DL_MULTI_REQ,
            DEF_BROAD := p || bit mp.DL_MODE K.DL_BROAD_REQ } } })
    if s0.dep.de_mode = Mode.DEM_DISABLED then
      let s1 := conf_hw E s0
      if s1.dep.de_mode = Mode.DEM_DISABLED then
        mess_reply E (Sent.init_reply mp.m_source K.ENXIO none none) s1
      else if s1.dep.de_mode = Mode.DEM_ENABLED then
        (dp_init K E s1).bind fun _ s2 => rest s2
      else rest s1
    else rest s0

/-- The function `do_int`. -/
def do_int (E : Env) (s : Sys) : Res Sys Unit :=
  if s.dep.de_flags.DEF_PACK_SEND ∨ s.dep.de_flags.DEF_PACK_RECV then reply E 0 s
  else Res.ok () s

/-- The function `put_userdata` as `do_getstat` uses it. -/
def put_userdata (K : Hdr) (E : Env) (proc : Int) (addr : Nat) (s : Sys) : Res Sys Unit :=
  if E.numap proc addr K.SIZEOF_ETH_STAT then
    Res.ok () { s with io := { s.io with out := s.io.out ++
      [Ev.put_stat proc addr s.dep.de_stat] } }
  else Res.halt Halt.umap_failed s

/-- The function `do_getstat(mp)`, on the entry `de_table[mp->DL_PORT]`. -/
def do_getstat (K : Hdr) (E : Env) (mp : message) (s0 : Sys) : Res Sys Unit :=
  if bad_port mp.DL_PORT then Res.halt Halt.illegal_port s0
  else
    let s : Sys := { s0 with dep := { s0.dep with de_client := mp.DL_PROC } }
    if s.dep.de_mode = Mode.DEM_SINK then
      (put_userdata K E mp.DL_PROC mp.DL_ADDR s).bind fun _ s1 => reply E 0 s1
    else if s.dep.de_mode ≠ Mode.DEM_ENABLED then Res.halt Halt.assertion s
    else if ¬ s.dep.de_flags.DEF_ENABLED then Res.halt Halt.assertion s
    else
      let s1 : Sys :=
        { dep := { s.dep with de_stat := { s.dep.de_stat with
            ets_CRCerr := uladd K s.dep.de_stat.ets_CRCerr (inb_cntr0 s.io).1,
            ets_frameAll := uladd K s.dep.de_stat.ets_frameAll
              (inb_cntr1 (inb_cntr0 s.io).2).1,
            ets_missedP := uladd K s.dep.de_stat.ets_missedP
              (inb_cntr2 (inb_cntr1 (inb_cntr0 s.io).2).2).1 } },
          io := (inb_cntr2 (inb_cntr1 (inb_cntr0 s.io).2).2).2 }
      (put_userdata K E mp.DL_PROC mp.DL_ADDR s1).bind fun _ s2 => reply E 0 s2

/-- The function `do_stop(mp)`, on the entry `de_table[mp->DL_PORT]`. -/
def do_stop (K : Hdr) (E : Env) (mp : message) (s : Sys) : Res Sys Unit :=
  if bad_port mp.DL_PORT then Res.halt Halt.illegal_port s
  else if s.dep.de_mode = Mode.DEM_SINK then Res.ok () s
  else if s.dep.de_mode ≠ Mode.DEM_ENABLED then Res.halt Halt.assertion s
  else if ¬ s.dep.de_flags.DEF_ENABLED then Res.ok () s
  else
    let io1 := outb_reg0 Reg.DP_CR ((K.CR_STP ||| K.CR_DM_ABORT : Nat) : Int) s.io
    let io2 := E.stopf { io1 with out := io1.out ++ [Ev.stopf] }
    Res.ok () { dep := { s.dep with de_flags := DEF_EMPTY }, io := io2 }

/-- One turn of the loop of `dp8390_task` for the port the message is about;
for `HARD_INT`, `pending` is `int_pending[dep->de_irq]`. -/
def dp8390_task (K : Hdr) (E : Env) (m : message) (pending : Bool) (s : Sys) : Res Sys Unit :=
  match m.m_type with
  | MType.DL_WRITE => do_vwrite K E m false false s
  | MType.DL_WRITEV => do_vwrite K E m false true s
  | MType.DL_READ => do_vread K E m false s
  | MType.DL_READV => do_vread K E m true s
  | MType.DL_INIT => do_init K E m s
  | MType.DL_GETSTAT => do_getstat K E m s
  | MType.DL_STOP => do_stop K E m s
  | MType.HARD_INT =>
    if s.dep.de_mode ≠ Mode.DEM_ENABLED then Res.ok () s
    else if ¬ s.dep.de_flags.DEF_ENABLED then Res.halt Halt.assertion s
    else if ¬ s.dep.de_irq < K.NR_IRQ_VECTORS then Res.halt Halt.assertion s
    else if pending then (dp_check_ints K E s).bind fun _ s1 => do_int E s1
    else Res.ok () s
  | MType.other _ => Res.halt Halt.illegal_message s

/-- The hook `ne1k_init` of `ne1000.c`: what it stores in the port entry.  The
address bytes are read from the data port. -/
def ne1k_init (K : Hdr) (dep : dpeth) (io : Io) : CardInit × Io :=
  let io1 := outb0s
    [ (Reg.DP_RBCR0, 6), (Reg.DP_RBCR1, 0), (Reg.DP_RSAR0, 0), (Reg.DP_RSAR1, 0),
      (Reg.DP_CR, ((K.CR_DM_RR ||| K.CR_PS_P0 ||| K.CR_STA : Nat) : Int)) ] io
  let ramsize := 0x2000
  let offset_page := 0x2000 / K.DP_PAGESIZE
  let n := ramsize / 0x2000
  let sendq_nr := if n < 1 then 1 else if n > K.SENDQ_NR then K.SENDQ_NR else n
  ({ de_address := (data_in 6 io1).1,
     de_ramsize := ramsize,
     de_sendq_nr := sendq_nr,
     sq_sendpage := fun i =>
       if i < sendq_nr then offset_page + i * K.SENDQ_PAGES else (dep.de_sendq i).sq_sendpage,
     de_startpage := offset_page + sendq_nr * K.SENDQ_PAGES,
     de_stoppage := offset_page + ramsize / K.DP_PAGESIZE,
     de_irq := dep.de_irq ^^^ (dep.de_irq &&& K.DEI_DEFAULT) },
   (data_in 6 io1).2)

/-! ## Concrete values for the examples -/

/-- The constants with the values of the NS DP8390 data sheet and of a 16-bit
MINIX (`int` of 16 bits, `long` of 32 bits, `sizeof(iovec_t)` 4, 16 segments in
a batch, two send buffers of six pages). -/
def hdr : Hdr :=
  { DP_PAGESIZE := 256, IOVEC_NR := 16, SENDQ_NR := 2, SENDQ_PAGES := 6,
    SIZEOF_IOVEC := 4, SIZEOF_ETH_STAT := 64, UINT_MOD := 65536, ULONG_MOD := 4294967296,
    CR_STP := 0x01, CR_STA := 0x02, CR_TXP := 0x04, CR_DM_ABORT := 0x20,
    CR_DM_RR := 0x08, CR_DM_RW := 0x10, CR_PS_P0 := 0x00, CR_PS_P1 := 0x40,
    ISR_PRX := 0x01, ISR_PTX := 0x02, ISR_RXE := 0x04, ISR_TXE := 0x08,
    ISR_OVW := 0x10, ISR_CNT := 0x20, ISR_RDC := 0x40, ISR_RST := 0x80,
    TSR_PTX := 0x01, TSR_DFR := 0x02, TSR_COL := 0x04, TSR_ABT := 0x08,
    TSR_CRS := 0x10, TSR_FU := 0x20, TSR_CDH := 0x40, TSR_OWC := 0x80,
    RSR_PRX := 0x01, RSR_PHY := 0x20,
    RCR_MON := 0x20, RCR_AB := 0x04, RCR_AM := 0x08, RCR_PRO := 0x10,
    TCR_NORMAL := 0x00, TCR_1EXTERNAL := 0x06, TCR_OFST := 0x10,
    DCR_WORDWIDE := 0x01, DCR_BYTEWIDE := 0x00, DCR_8BYTES := 0x40, DCR_BMS := 0x08,
    IMR_PRXE := 0x01, IMR_PTXE := 0x02, IMR_RXEE := 0x04, IMR_TXEE := 0x08,
    IMR_OVWE := 0x10, IMR_CNTE := 0x20,
    DL_PROMISC_REQ := 0x2, DL_MULTI_REQ := 0x4, DL_BROAD_REQ := 0x8,
    DL_PACK_SEND := 0x01, DL_PACK_RECV := 0x02, DEI_DEFAULT := 0x8000, ENXIO := 6,
    NR_IRQ_VECTORS := 16, debug := false }

/-- An environment in which every address resolves, `send` succeeds, the boot
environment enables the port and the probe finds a shared-memory card whose
hook sets two send buffers at pages 0 and 6 and the ring at pages 12 to 32. -/
def env0 : Env :=
  { numap := fun _ _ _ => true, send_r := 0, uptime := 0,
    ea_env := fun _ => none, conf_mode := Mode.DEM_ENABLED,
    conf_port := 0x280, conf_irq := 3, conf_mem := 0xD0000, conf_ramsize := 0x2000,
    probe := fun _ io => (some { de_16bit := false, de_prog_IO := false, de_linmem := 0xD0000 }, io),
    initf := fun _ io =>
      ({ de_address := [0, 0, 0xC0, 1, 2, 3], de_ramsize := 0x2000, de_sendq_nr := 2,
         sq_sendpage := fun i => 6 * i, de_startpage := 12, de_stoppage := 32, de_irq := 3 }, io),
    stopf := fun io => io,
    eth_ign_proto := 0 }

/-- An empty scatter-list descriptor. -/
def iovec_dat0 : iovec_dat :=
  { iod_iovec := List.replicate 16 { iov_addr := 0, iov_size := 0 },
    iod_iovec_s := 0, iod_proc_nr := 0, iod_iovec_addr := 0 }

/-- The zeroed message. -/
def message0 : message :=
  { m_source := 0, m_type := MType.other 0, DL_PORT := 0, DL_PROC := 0, DL_COUNT := 0,
    DL_MODE := 0, DL_ADDR := 0 }

/-- The zeroed entry of `de_table`, as the static array starts. -/
def dpeth0 : dpeth :=
  { de_mode := Mode.DEM_DISABLED, de_flags := DEF_EMPTY, de_client := 0,
    de_sendq := fun _ => { sq_filled := false, sq_size := 0, sq_sendpage := 0 },
    de_sendq_nr := 0, de_sendq_head := 0, de_sendq_tail := 0, de_sendmsg := message0,
    de_write_iovec := iovec_dat0, de_read_iovec := iovec_dat0, de_tmp_iovec := iovec_dat0,
    de_read_s := 0, de_stat := empty_stat, de_address := [0, 0, 0, 0, 0, 0],
    de_startpage := 0, de_stoppage := 0, de_16bit := false, de_prog_IO := false,
    de_linmem := 0, de_ramsize := 0, de_base_port := 0, de_irq := 0,
    de_user2nicf := Xfer.shm, de_nic2userf := Xfer.shm, de_getblockf := Xfer.shm }

/-- An outside with nothing pending: no interrupt, zeroed card and client memory. -/
def io0 : Io :=
  { isr := [], tsr := [], cntr0 := [], cntr1 := [], cntr2 := [], curr := 0, curr_next := [],
    bnry := 0, data := [], mem := fun _ => 0, ubyte := fun _ _ => 0,
    uiov := fun _ _ => { iov_addr := 0, iov_size := 0 }, out := [] }

/-- The state before the first request. -/
def sys0 : Sys := { dep := dpeth0, io := io0 }

/-- A request of the given type for port 0 from process 7. -/
def msg (t : MType) (count : Int) (addr : Nat) : message :=
  { m_source := 7, m_type := t, DL_PORT := 0, DL_PROC := 7, DL_COUNT := count,
    DL_MODE := 0, DL_ADDR := addr }

/-- The state after `Init` on the fresh port 0 in `env0`. -/
def sys1 : Sys := (do_init hdr env0 (msg MType.DL_INIT 0 0) sys0).state

/-! ## Predicates used by the theorems -/

/-- The events a transfer function produces besides the record of its call:
writes to the remote-DMA registers, to `DP_CR` and `DP_ISR`, and data-port output. -/
def Ev.quiet : Ev → Bool
  | Ev.outb0 Reg.DP_CR _ => true
  | Ev.outb0 Reg.DP_ISR _ => true
  | Ev.outb0 Reg.DP_RBCR0 _ => true
  | Ev.outb0 Reg.DP_RBCR1 _ => true
  | Ev.outb0 Reg.DP_RSAR0 _ => true
  | Ev.outb0 Reg.DP_RSAR1 _ => true
  | Ev.data_out _ => true
  | Ev.data_out_word _ _ => true
  | _ => false

/-- What a transfer function leaves alone outside the port entry: the receive
registers, the scatter lists in client memory and the status queues other than
the one of `DP_ISR`, of which it may only take values off; the log grows by
quiet events only. -/
structure IoFrame (io io1 : Io) : Prop where
  isr : ∀ v ∈ io1.isr, v ∈ io.isr
  curr : io1.curr = io.curr
  curr_next : io1.curr_next = io.curr_next
  bnry : io1.bnry = io.bnry
  uiov : io1.uiov = io.uiov
  tsr : io1.tsr = io.tsr
  cntr0 : io1.cntr0 = io.cntr0
  cntr1 : io1.cntr1 = io.cntr1
  cntr2 : io1.cntr2 = io.cntr2
  out : ∃ B, io1.out = io.out ++ B ∧ ∀ e ∈ B, Ev.quiet e = true

/-- The `filled` flags of the send queue. -/
def filledOf (d : dpeth) : Nat → Bool := fun i => (d.de_sendq i).sq_filled

/-- The send-queue invariant: head and tail are slots of the queue, and for
some `k ≤ nr` the head is `k` slots after the tail and the filled slots are
exactly the `k` slots from the tail on. -/
def SendqInv (d : dpeth) : Prop :=
  1 ≤ d.de_sendq_nr ∧ d.de_sendq_head < d.de_sendq_nr ∧ d.de_sendq_tail < d.de_sendq_nr ∧
  ∃ k, k ≤ d.de_sendq_nr ∧ d.de_sendq_head = (d.de_sendq_tail + k) % d.de_sendq_nr ∧
    ∀ i, i < d.de_sendq_nr →
      ((d.de_sendq i).sq_filled = true ↔
        ∃ j, j < k ∧ i = (d.de_sendq_tail + j) % d.de_sendq_nr)

/-- The send queue with its history counted: since the queue was empty with
head and tail at slot `h0`, `n` frames were put into it and `c` of them were
completed; frame number `j` sits in slot `(h0 + j) mod nr`. -/
def QCnt (nr h0 c n head tail : Nat) (f : Nat → Bool) : Prop :=
  1 ≤ nr ∧ c ≤ n ∧ n ≤ c + nr ∧ head = (h0 + n) % nr ∧ tail = (h0 + c) % nr ∧
  ∀ i, i < nr → (f i = true ↔ ∃ j, c ≤ j ∧ j < n ∧ i = (h0 + j) % nr)

/-- What no operation after the initialisation changes in a port entry, `Stop`
apart: the mode, the `DEF_ENABLED` flag, the geometry of the send queue and of
the receive ring, and the transfer functions. -/
structure Static (d d1 : dpeth) : Prop where
  mode : d1.de_mode = d.de_mode
  enabled : d1.de_flags.DEF_ENABLED = d.de_flags.DEF_ENABLED
  nr : d1.de_sendq_nr = d.de_sendq_nr
  sendpage : ∀ i, (d1.de_sendq i).sq_sendpage = (d.de_sendq i).sq_sendpage
  startpage : d1.de_startpage = d.de_startpage
  stoppage : d1.de_stoppage = d.de_stoppage
  user2nicf : d1.de_user2nicf = d.de_user2nicf
  nic2userf : d1.de_nic2userf = d.de_nic2userf
  getblockf : d1.de_getblockf = d.de_getblockf

/-- What the receive side (`dp_recv`, `dp_pkt2user`) leaves alone in a port
entry besides `Static`: the whole send side. -/
structure RxKeeps (d d1 : dpeth) : Prop where
  static : Static d d1
  sendq : d1.de_sendq = d.de_sendq
  head : d1.de_sendq_head = d.de_sendq_head
  tail : d1.de_sendq_tail = d.de_sendq_tail
  sendmsg : d1.de_sendmsg = d.de_sendmsg
  send_avail : d1.de_flags.DEF_SEND_AVAIL = d.de_flags.DEF_SEND_AVAIL
  pack_send : d1.de_flags.DEF_PACK_SEND = d.de_flags.DEF_PACK_SEND
  stopped : d1.de_flags.DEF_STOPPED = d.de_flags.DEF_STOPPED
  packetT : d1.de_stat.ets_packetT = d.de_stat.ets_packetT

/-- The send queue is the same in two port entries. -/
structure QSame (d d1 : dpeth) : Prop where
  nr : d1.de_sendq_nr = d.de_sendq_nr
  head : d1.de_sendq_head = d.de_sendq_head
  tail : d1.de_sendq_tail = d.de_sendq_tail
  sendq : d1.de_sendq = d.de_sendq

/-- The states a port entry goes through: it starts disabled with
`DEF_ENABLED` clear (the zeroed table), every turn of the loop of
`dp8390_task` that returns leads to the next state, and between two turns the
outside (chip registers, memories, logs) may change in any way. -/
inductive Reachable (K : Hdr) : Sys → Prop where
  | start (s : Sys) (hm : s.dep.de_mode = Mode.DEM_DISABLED)
      (hf : s.dep.de_flags.DEF_ENABLED = false) : Reachable K s
  | turn (E : Env) (m : message) (pending : Bool) (s s1 : Sys) (h : Reachable K s)
      (hr : dp8390_task K E m pending s = Res.ok () s1) : Reachable K s1
  | outside (s : Sys) (io : Io) (h : Reachable K s) : Reachable K { s with io := io }

/-- The state after a `Write` of 100 bytes to the initialised port 0. -/
def sys2 : Sys := (do_vwrite hdr env0 (msg MType.DL_WRITE 100 0) false false sys1).state

/-- The state after a second `Write`, of 200 bytes: both send buffers are in use. -/
def sys3 : Sys := (do_vwrite hdr env0 (msg MType.DL_WRITE 200 0) false false sys2).state

/-- The state after `Stop` on the initialised port 0. -/
def sys_stop : Sys := (do_stop hdr env0 (msg MType.DL_STOP 0 0) sys1).state

/-- An event is not a write to `DP_BNRY` of a value outside `[lo, hi)`. -/
def BnryIn (lo hi : Nat) (e : Ev) : Prop :=
  ∀ v : Int, e = Ev.outb0 Reg.DP_BNRY v → (lo : Int) ≤ v ∧ v < (hi : Int)

/-- The outside `io1` is reached from `io` with `DP_CURR`, now and at every
coming read, inside `[lo, hi)`, the log having grown only by events that are
not writes to `DP_BNRY` outside `[lo, hi)`. -/
structure RingOk (lo hi : Nat) (io io1 : Io) : Prop where
  curr : lo ≤ io1.curr ∧ io1.curr < hi
  curr_next : ∀ c ∈ io1.curr_next, lo ≤ c ∧ c < hi
  out : ∃ B, io1.out = io.out ++ B ∧ ∀ e ∈ B, BnryIn lo hi e

/-- Whether an event is a call through `de_nic2userf`. -/
def Ev.isNic2user : Ev → Bool
  | Ev.nic2user _ _ _ _ _ => true
  | _ => false

/-- The number of filled slots of the send queue. -/
def filled_count (d : dpeth) : Nat :=
  (List.range d.de_sendq_nr).countP (fun i => (d.de_sendq i).sq_filled)

/-- The events of the four writes of `start_tx`. -/
def start_tx_events (K : Hdr) (page size : Nat) : List Ev :=
  [Ev.outb0 Reg.DP_TPSR (page : Int), Ev.outb0 Reg.DP_TBCR1 ((size >>> 8 : Nat) : Int),
    Ev.outb0 Reg.DP_TBCR0 ((size &&& 0xff : Nat) : Int), Ev.outb0 Reg.DP_CR (K.CR_TXP : Int)]

/-- The send side of the port entry `d1` is that of `d` after a frame of `size`
bytes has been put into the slot at the head (lines 368-384 of `do_vwrite`):
the slot is filled, it holds the size unless it is the tail, and the head has
moved on; tail, statistics, deferred message and the flags other than the two
of `reply` are as before. -/
structure Enqueued (size : Nat) (d d1 : dpeth) : Prop where
  nr : d1.de_sendq_nr = d.de_sendq_nr
  tail : d1.de_sendq_tail = d.de_sendq_tail
  head : d1.de_sendq_head = next_slot d.de_sendq_head d.de_sendq_nr
  sendq : d1.de_sendq = set_sendq d.de_sendq d.de_sendq_head
    { sq_filled := true,
      sq_size := if d.de_sendq_tail = d.de_sendq_head
        then (d.de_sendq d.de_sendq_head).sq_size else size,
      sq_sendpage := (d.de_sendq d.de_sendq_head).sq_sendpage }
  stat : d1.de_stat = d.de_stat
  sendmsg : d1.de_sendmsg = d.de_sendmsg
  send_avail : d1.de_flags.DEF_SEND_AVAIL = d.de_flags.DEF_SEND_AVAIL
  stopped : d1.de_flags.DEF_STOPPED = d.de_flags.DEF_STOPPED
  reading : d1.de_flags.DEF_READING = d.de_flags.DEF_READING
  enabled : d1.de_flags.DEF_ENABLED = d.de_flags.DEF_ENABLED
  mode : d1.de_mode = d.de_mode

/-- The value a run returns, if it returns. -/
def Res.value {σ α : Type} : Res σ α → Option α
  | Res.ok a _ => some a
  | Res.halt _ _ => none

/-- A card memory with the header of a frame at the start of page `p` (status,
next page, byte count low and high) and the type field `ty` at offset 16 of
the page; every other byte at card offset `a` is `a % 251`. -/
def mem_frame (p status next rbcl rbch ty : Nat) : Nat → Nat := fun a =>
  if a = p * 256 then status
  else if a = p * 256 + 1 then next
  else if a = p * 256 + 2 then rbcl
  else if a = p * 256 + 3 then rbch
  else if a = p * 256 + 16 then ty % 256
  else if a = p * 256 + 17 then ty / 256
  else a % 251

/-- The initialised port 0 with one frame in the ring at page 13: good status,
byte count 63, so a length of 59, next page 14; the chip is at page 14. -/
def sys_short : Sys :=
  { sys1 with io := { sys1.io with curr := 14, mem := mem_frame 13 1 14 63 0 0x0800 } }

/-- The initialised port 0 with one frame in the ring at page 13: good status,
byte count 104, so a length of 100, next page 14; the chip is at page 14. -/
def sys_rx : Sys :=
  { sys1 with io := { sys1.io with curr := 14, mem := mem_frame 13 1 14 104 0 0x0800 } }

/-- A port entry with a read of 1514 bytes to address 1000 posted: the read
descriptor as `do_vread` sets it up, and `DEF_READING` set. -/
def post_read (s : Sys) : Sys :=
  { dep := { (do_vread_size hdr env0 (msg MType.DL_READ 1514 1000) false s).state.dep with
      de_flags := { s.dep.de_flags with DEF_READING := true } },
    io := s.io }

/-- The initialised port 0 with the boundary at page 30 and one frame in the
ring at page 31, the last one: good status, byte count 260, so a length of
256, next page 13 (the frame continues at page 12); the chip is at page 13. -/
def sys_wrap : Sys :=
  { sys1 with io := { sys1.io with
      curr := 13, bnry := 30, mem := mem_frame 31 1 13 4 1 0x0800 } }

/-! ## The order of transmission -/

/-- A frame that `do_vwrite` has taken into the send queue: the request it
comes from, the transfer function and the write descriptor of the staging
call, the send page of its slot and its size. -/
structure TxFrame where
  msg : message
  f : Xfer
  wi : iovec_dat
  page : Nat
  size : Nat

/-- The staging call of a frame: `(dep->de_user2nicf)(dep, &dep->de_write_iovec, 0,
sq_sendpage * DP_PAGESIZE, size)`. -/
def TxFrame.stage (K : Hdr) (fr : TxFrame) : Ev :=
  Ev.user2nic fr.f fr.wi 0 (fr.page * K.DP_PAGESIZE) fr.size

/-- The register writes of the transmit command of a frame: page, byte count
high and low, and `CR_TXP` to the command register. -/
def TxFrame.cmd (K : Hdr) (fr : TxFrame) : List Ev :=
  [Ev.outb0 Reg.DP_TPSR (fr.page : Int), Ev.outb0 Reg.DP_TBCR1 ((fr.size >>> 8 : Nat) : Int),
    Ev.outb0 Reg.DP_TBCR0 ((fr.size &&& 0xff : Nat) : Int), Ev.outb0 Reg.DP_CR (K.CR_TXP : Int)]

/-- Whether an event is a call through `de_user2nicf`. -/
def Ev.isUser2nic : Ev → Bool
  | Ev.user2nic _ _ _ _ _ => true
  | _ => false

/-- Whether an event is part of a transmit command: a write to one of the
registers that hold its parameters (`DP_TPSR`, `DP_TBCR1`, `DP_TBCR0`), or a
write to `DP_CR` of a value with the bit `CR_TXP`. -/
def Ev.isTxReg (K : Hdr) : Ev → Bool
  | Ev.outb0 Reg.DP_TPSR _ => true
  | Ev.outb0 Reg.DP_TBCR1 _ => true
  | Ev.outb0 Reg.DP_TBCR0 _ => true
  | Ev.outb0 Reg.DP_CR v => bit v.toNat K.CR_TXP
  | _ => false

/-- What the theorems on the transmit commands assume of the constants of
`dp8390.h`: `CR_TXP` is a bit of the command register, and the command with
which the programmed-I/O transfer functions start a remote write does not
have it. -/
structure CrBits (K : Hdr) : Prop where
  txp : bit K.CR_TXP K.CR_TXP = true
  rw : bit (K.CR_DM_RW ||| K.CR_PS_P0 ||| K.CR_STA) K.CR_TXP = false

/-- An event of a staging call besides the record of the call: one of the
accesses of a transfer function (`Ev.quiet`) that is no part of a transmit
command. -/
def Ev.staged (K : Hdr) (e : Ev) : Prop := Ev.quiet e = true ∧ Ev.isTxReg K e = false

/-- The log of `io1` is that of `io` followed by events of which `P` holds. -/
def LogBy (P : Ev → Prop) (io io1 : Io) : Prop :=
  ∃ B, io1.out = io.out ++ B ∧ ∀ e ∈ B, P e

/-- The frame is the one of its request: the write descriptor is the one
`do_vwrite` sets up for the request and the size is the one it computes
(`DL_COUNT` for `DL_WRITE`, the result of `calc_iovec_size` for `DL_WRITEV`),
inside the bounds. -/
def FrameOf (K : Hdr) (fr : TxFrame) : Prop :=
  fr.wi.iod_proc_nr = fr.msg.DL_PROC ∧
  ETH_MIN_PACK_SIZE ≤ (fr.size : Int) ∧ (fr.size : Int) ≤ ETH_MAX_PACK_SIZE ∧
  (fr.msg.m_type = MType.DL_WRITE →
    fr.wi.iod_iovec_s = 1 ∧
    fr.wi.iod_iovec.head? = some (iovec.mk fr.msg.DL_ADDR (to_uint K fr.msg.DL_COUNT)) ∧
    (fr.size : Int) = fr.msg.DL_COUNT) ∧
  (fr.msg.m_type = MType.DL_WRITEV →
    fr.wi.iod_iovec_s = fr.msg.DL_COUNT ∧ fr.wi.iod_iovec_addr = fr.msg.DL_ADDR ∧
    ∃ (E : Env) (io io1 : Io) (tmp : iovec_dat),
      calc_iovec_size K E fr.wi io = Res.ok ((fr.size : Int), tmp) io1)

/-- An enabled port with an empty send queue and no deferred write. -/
def EmptyRing (d : dpeth) : Prop :=
  d.de_mode = Mode.DEM_ENABLED ∧ 1 ≤ d.de_sendq_nr ∧ d.de_sendq_head < d.de_sendq_nr ∧
  d.de_sendq_tail = d.de_sendq_head ∧
  (∀ i, i < d.de_sendq_nr → (d.de_sendq i).sq_filled = false) ∧
  d.de_flags.DEF_SEND_AVAIL = false ∧ d.de_flags.DEF_STOPPED = false

/-- The interrupt statuses still to be read in `io1` are among those of `io`. -/
def IsrSub (io io1 : Io) : Prop := ∀ v ∈ io1.isr, v ∈ io.isr

/-- Runs of the loop of `dp8390_task` made of write requests and of interrupts
that report no reception and no reset of the chip, from the state `s0`; the
list holds the write requests that returned, in order.  Before each turn the
outside may have changed in any way, the log apart. -/
inductive TxRun (K : Hdr) (s0 : Sys) : List message → Sys → Prop where
  | start : TxRun K s0 [] s0
  | write (E : Env) (mp : message) (io : Io) (M : List message) (s s1 : Sys)
      (h : TxRun K s0 M s)
      (ht : mp.m_type = MType.DL_WRITE ∨ mp.m_type = MType.DL_WRITEV)
      (ho : io.out = s.io.out)
      (hr : dp8390_task K E mp false { s with io := io } = Res.ok () s1) :
      TxRun K s0 (M ++ [mp]) s1
  | interrupt (E : Env) (m : message) (io : Io) (M : List message) (s s1 : Sys)
      (h : TxRun K s0 M s)
      (ht : m.m_type = MType.HARD_INT)
      (ho : io.out = s.io.out)
      (hi : ∀ v ∈ io.isr, bit v K.ISR_PRX = false ∧ bit v K.ISR_RST = false)
      (hr : dp8390_task K E m true { s with io := io } = Res.ok () s1) :
      TxRun K s0 M s1

/-- The send queue and the log `B` of a run that started with an empty queue
with head and tail at slot `h0` of a port entry like `d0`: `F` are the frames
taken into the queue so far, in order, and `c` of them have been completed.
Frame number `j` sits in slot `(h0 + j) mod nr`, on the send page of the
slot; the frames behind the one being sent have their size stored in their
slot; the staging calls logged are those of `F`, and the transmit commands
logged (parameter registers and `CR_TXP`) are those of the first
`min (length F) (c + 1)` frames. -/
structure TxInv (K : Hdr) (d0 : dpeth) (h0 c : Nat) (F : List TxFrame) (B : List Ev)
    (d : dpeth) : Prop where
  static : Static d0 d
  stopped : d.de_flags.DEF_STOPPED = false
  qcnt : QCnt d.de_sendq_nr h0 c F.length d.de_sendq_head d.de_sendq_tail (filledOf d)
  page : ∀ j fr, F[j]? = some fr →
    fr.page = (d.de_sendq ((h0 + j) % d.de_sendq_nr)).sq_sendpage ∧ fr.f = d.de_user2nicf
  size : ∀ j fr, F[j]? = some fr → c < j →
    (d.de_sendq ((h0 + j) % d.de_sendq_nr)).sq_size = fr.size
  frames : ∀ fr ∈ F, FrameOf K fr
  staged : B.filter Ev.isUser2nic = F.map (TxFrame.stage K)
  txlog : B.filter (Ev.isTxReg K) =
    ((F.take (min F.length (c + 1))).map (TxFrame.cmd K)).flatten

/-- The invariant of a run: `TxInv` holds for some number of completed frames
and some list of frames, and the requests of these frames, followed by the
deferred write when there is one, are the write requests `M` that returned. -/
def RunInv (K : Hdr) (d0 : dpeth) (h0 : Nat) (M : List message) (B : List Ev)
    (d : dpeth) : Prop :=
  ∃ (c : Nat) (F : List TxFrame), TxInv K d0 h0 c F B d ∧
    M = F.map TxFrame.msg ++ (if d.de_flags.DEF_SEND_AVAIL then [d.de_sendmsg] else [])

/-- The outside at a transmit interrupt: one status with `ISR_PTX` is pending
and `DP_TSR` reads `TSR_PTX`. -/
def tx_int (s : Sys) : Sys :=
  { s with io := { s.io with isr := [hdr.ISR_PTX], tsr := [hdr.TSR_PTX] } }

/-- The example run: on the initialised port 0 with its two send buffers, three
writes of 100, 200 and 300 bytes, the third of which finds the queue full. -/
def run1 : Sys := (dp8390_task hdr env0 (msg MType.DL_WRITE 100 1000) false sys1).state

/-- The example run after the second write. -/
def run2 : Sys := (dp8390_task hdr env0 (msg MType.DL_WRITE 200 2000) false run1).state

/-- The example run after the third write. -/
def run3 : Sys := (dp8390_task hdr env0 (msg MType.DL_WRITE 300 3000) false run2).state

/-- The example run after the first transmit interrupt. -/
def run4 : Sys := (dp8390_task hdr env0 (msg MType.HARD_INT 0 0) true (tx_int run3)).state

/-- The example run after the second transmit interrupt. -/
def run5 : Sys := (dp8390_task hdr env0 (msg MType.HARD_INT 0 0) true (tx_int run4)).state

/-- The example run after the third transmit interrupt. -/
def run6 : Sys := (dp8390_task hdr env0 (msg MType.HARD_INT 0 0) true (tx_int run5)).state

/-! ## The states between two requests -/

/-- The states a port entry goes through, from the zeroed table: it starts
disabled with no flag set and `de_read_s` zero, every turn of the loop of
`dp8390_task` that returns leads to the next state, and between two turns the
outside (chip registers, memories, logs) may change in any way. -/
inductive Run (K : Hdr) : Sys → Prop where
  | start (s : Sys) (hm : s.dep.de_mode = Mode.DEM_DISABLED)
      (hf : s.dep.de_flags = DEF_EMPTY) (hr : s.dep.de_read_s = 0) : Run K s
  | turn (E : Env) (m : message) (pending : Bool) (s s1 : Sys) (h : Run K s)
      (hr : dp8390_task K E m pending s = Res.ok () s1) : Run K s1
  | outside (s : Sys) (io : Io) (h : Run K s) : Run K { s with io := io }

/-- What holds of a port entry between two turns of the loop of `dp8390_task`:
nothing is left to report (`DEF_PACK_SEND` and `DEF_PACK_RECV` are clear and
`de_read_s` is zero, as `reply` leaves them), and outside the mode
`DEM_ENABLED` no flag is set. -/
structure Between (d : dpeth) : Prop where
  pack_send : d.de_flags.DEF_PACK_SEND = false
  pack_recv : d.de_flags.DEF_PACK_RECV = false
  read_s : d.de_read_s = 0
  idle : d.de_mode ≠ Mode.DEM_ENABLED → d.de_flags = DEF_EMPTY

/-- What the receive side reports is consistent: `de_read_s` is zero unless
`DEF_PACK_RECV` is set. -/
def RecvOk (d : dpeth) : Prop := d.de_flags.DEF_PACK_RECV = false → d.de_read_s = 0

/-- The state of the enqueue branch of `do_vwrite` at line 384, before the
reply: the staging call has returned the descriptor `wi` and the outside
`io1`, the slot at the head is filled, the head has moved on and
`DEF_PACK_SEND` is set. -/
def enqueue_mid (K : Hdr) (size : Nat) (s1 : Sys) (wi : iovec_dat) (io1 : Io) : Sys :=
  advance_head (fill_head K size { dep := { s1.dep with de_write_iovec := wi }, io := io1 })

/-- The state in which `do_vwrite` has set up the write descriptor for a `Write`
of 100 bytes at address 1000 on the initialised port 0. -/
def sys1_size : Sys :=
  (do_vwrite_size hdr env0 (msg MType.DL_WRITE 100 1000) false
    { sys1 with dep := { sys1.dep with de_client := 7 } }).state

/-- The staging call of that `Write`. -/
def sys1_stage : Res Io iovec_dat :=
  call_user2nic hdr env0 sys1.dep.de_user2nicf sys1_size.dep.de_write_iovec 0
    ((sys1.dep.de_sendq sys1.dep.de_sendq_head).sq_sendpage * hdr.DP_PAGESIZE) 100 sys1.io

/-- The state in which `do_vwrite` has set up the write descriptor for the
second `Write` of the example run, of 200 bytes at address 2000. -/
def run1_size : Sys :=
  (do_vwrite_size hdr env0 (msg MType.DL_WRITE 200 2000) false
    { run1 with dep := { run1.dep with de_client := 7 } }).state

/-- The staging call of that `Write`. -/
def run1_stage : Res Io iovec_dat :=
  call_user2nic hdr env0 run1.dep.de_user2nicf run1_size.dep.de_write_iovec 0
    ((run1.dep.de_sendq run1.dep.de_sendq_head).sq_sendpage * hdr.DP_PAGESIZE) 200 run1.io

/-! ## Scatter lists -/

/-- Segment number `j` of the scatter list that process `proc` holds at
address `addr`: the `iovec_t` at `addr + j * sizeof(iovec_t)`. -/
def user_iovec (K : Hdr) (io : Io) (proc : Int) (addr : Nat) (j : Nat) : iovec :=
  io.uiov proc (addr + j * K.SIZEOF_IOVEC)

/-- The sum of the sizes of the segments before segment `k`; for the number of
segments of a list, its total size. -/
def seg_start (seg : Nat → iovec) (k : Nat) : Nat :=
  ((List.range k).map fun j => (seg j).iov_size).sum

/-- The client address of byte number `p` of the concatenation of the `m`
segments from segment `k` on (0 when there is no such byte). -/
def seg_addr (seg : Nat → iovec) : Nat → Nat → Nat → Nat
  | 0, _, _ => 0
  | m + 1, k, p =>
    if p < (seg k).iov_size then (seg k).iov_addr + p
    else seg_addr seg m (k + 1) (p - (seg k).iov_size)

/-- The descriptor `iovp` stands at batch number `b` of the list of `n`
segments `seg` that process `proc` holds at `addr`: `iod_iovec_s` counts the
segments from this batch on, `iod_iovec_addr` is the address of its first
segment, and the window holds its segments (at most `IOVEC_NR`).  Batch 0 is
the descriptor as `do_vwrite` and `do_vread` initialise it. -/
structure Batch (K : Hdr) (seg : Nat → iovec) (n : Nat) (proc : Int) (addr : Nat) (b : Nat)
    (iovp : iovec_dat) : Prop where
  s : iovp.iod_iovec_s = (n : Int) - ((b * K.IOVEC_NR : Nat) : Int)
  proc : iovp.iod_proc_nr = proc
  addr : iovp.iod_iovec_addr = addr + b * K.IOVEC_NR * K.SIZEOF_IOVEC
  win : ∀ i, i < K.IOVEC_NR → b * K.IOVEC_NR + i < n → iovp.at i = seg (b * K.IOVEC_NR + i)

/-- None of the `count` bytes from byte `offset` of the list lies in the memory
that holds the segments of the list which are fetched after the first batch
(the `iovec_t` number `IOVEC_NR` and up, at `addr + k * sizeof(iovec_t)`): a
store to these bytes does not change what `dp_next_iovec` reads later.  The
embedding keeps the bytes (`ubyte`) and the `iovec_t` values (`uiov`) of client
memory apart, which agrees with the code under this condition. -/
def ListApart (K : Hdr) (seg : Nat → iovec) (n addr offset count : Nat) : Prop :=
  ∀ j, j < count → ∀ k, K.IOVEC_NR ≤ k → k < n →
    seg_addr seg n 0 (offset + j) < addr + k * K.SIZEOF_IOVEC ∨
    addr + k * K.SIZEOF_IOVEC + K.SIZEOF_IOVEC ≤ seg_addr seg n 0 (offset + j)

/-- The batch `b1` at which a walk over the list ends that stands in batch `b`
with `c` bytes still to move, the last of them being byte `last - 1` of the
list: with nothing to move it is `b`; otherwise it is the batch of the
segment `k` in which that last byte lies. -/
def EndBatch (K : Hdr) (seg : Nat → iovec) (n b c last b1 : Nat) : Prop :=
  (b1 = b ∨ b1 * K.IOVEC_NR < n) ∧ (c = 0 → b1 = b) ∧
  (0 < c → ∃ k, k < n ∧ k / K.IOVEC_NR = b1 ∧
    seg_start seg k < last ∧ last ≤ seg_start seg (k + 1))

/-- The client memory `u` after the bytes `src 0`, ..., `src (k - 1)` have been
stored, in this order, at the addresses `adr 0`, ..., `adr (k - 1)` of process
`proc`. -/
def scatter (proc : Int) (adr : Nat → Nat) (src : Nat → Nat) :
    Nat → (Int → Nat → Nat) → Int → Nat → Nat
  | 0, u => u
  | k + 1, u => fun p x => if p = proc ∧ x = adr k then src k else scatter proc adr src k u p x

/-- The initialised port 0 with a scatter list of 18 segments in the memory of
process 7 at address 4000, two more than a batch: segment `j` is at address
`10000 + 100 * j` and has 80 bytes, except segment 3, which is empty; the
total is 1360 bytes.  Byte `a` of the memory of the process is `a % 251`. -/
def sys_list : Sys :=
  { sys1 with io := { sys1.io with
      uiov := fun _ a =>
        if 4000 ≤ a ∧ a < 4072 ∧ a % 4 = 0 then
          { iov_addr := 10000 + 100 * ((a - 4000) / 4),
            iov_size := if (a - 4000) / 4 = 3 then 0 else 80 }
        else { iov_addr := 0, iov_size := 0 },
      ubyte := fun _ a => a % 251 } }

/-- The `WriteV` request for that list. -/
def msg_list : message := msg MType.DL_WRITEV 18 4000

/-- The outside `io` after the `k` bytes of the card memory from card offset
`nic_addr` on have been stored, in order, at the addresses `adr 0`, `adr 1`,
... of process `proc`. -/
def nic2user_io (io : Io) (proc : Int) (adr : Nat → Nat) (nic_addr k : Nat) : Io :=
  { io with ubyte := scatter proc adr (fun j => io.mem (nic_addr + j)) k io.ubyte }

/-- The outside `io` after the `k` bytes at the addresses `adr 0`, `adr 1`, ...
of process `proc` have been stored in the card memory from card offset
`nic_addr` on. -/
def user2nic_io (io : Io) (proc : Int) (adr : Nat → Nat) (nic_addr k : Nat) : Io :=
  store_card nic_addr ((List.range k).map fun j => io.ubyte proc (adr j)) io

/-- The write descriptor `do_vwrite` sets up for the list of `sys_list`. -/
def list_iovp : iovec_dat :=
  (do_vwrite_size hdr env0 msg_list true sys_list).state.dep.de_write_iovec

/-- The environment `env0` with the port configured as a sink. -/
def env_sink : Env := { env0 with conf_mode := Mode.DEM_SINK }

/-- The state after `Init` on the fresh port 0 configured as a sink. -/
def sys_sink : Sys := (do_init hdr env_sink (msg MType.DL_INIT 0 0) sys0).state

/-- A request of the given type from process 7 for the port `port`. -/
def msg_port (t : MType) (port : Int) : message :=
  { m_source := 7, m_type := t, DL_PORT := port, DL_PROC := 7, DL_COUNT := 100,
    DL_MODE := 0, DL_ADDR := 0 }

/-- An `Init` request from process 7 for port 0 with the mode bits `mode`. -/
def msg_init (mode : Nat) : message :=
  { m_source := 7, m_type := MType.DL_INIT, DL_PORT := 0, DL_PROC := 7, DL_COUNT := 0,
    DL_MODE := mode, DL_ADDR := 0 }

/-! ## The receive walk and the replay of a deferred write -/

/-- The page at which `dp_recv` starts reading (lines 946-948): the page after
the boundary, wrapped from `de_stoppage` to `de_startpage`. -/
def recv_start (d : dpeth) (io : Io) : Nat :=
  if inb_bnry io + 1 = d.de_stoppage then d.de_startpage else inb_bnry io + 1

/-- The state of a pass of the loop of `dp_recv` from `s` after `DP_CURR` has
been read (lines 952-954), for a register that does not move: the two writes
of `DP_CR` are logged. -/
def curr_read (K : Hdr) (s : Sys) : Sys :=
  { dep := s.dep,
    io := outb_reg0 Reg.DP_CR (K.CR_PS_P0 : Int) (outb_reg0 Reg.DP_CR (K.CR_PS_P1 : Int) s.io) }

/-- The initialised port 0 with two frames in the ring: at page 13 a frame of
good status with byte count 63, so a length of 59, and next page 14; at page
14 a frame of good status with byte count 104, so a length of 100, and next
page 15; the chip is at page 15. -/
def sys_two : Sys :=
  { sys1 with io := { sys1.io with
      curr := 15,
      mem := fun a =>
        if 14 * 256 ≤ a ∧ a < 14 * 256 + 18 then mem_frame 14 1 15 104 0 0x0800 a
        else mem_frame 13 1 14 63 0 0x0800 a } }

/-- The state of `dp_check_ints` at line 884, after a transmit interrupt `isr`
that found the tail slot filled: the statistics are updated, the tail slot is
marked empty, the tail advanced and the slot at the new tail started. -/
def tx_done (K : Hdr) (isr : Nat) (s : Sys) : Sys := tx_complete K (tx_stat K isr s)

/-- Line 1041 of `dp_send`: `dep->de_flags &= ~DEF_SEND_AVAIL`. -/
def clear_avail (s : Sys) : Sys :=
  { s with dep := { s.dep with
    de_flags := { s.dep.de_flags with DEF_SEND_AVAIL := false } } }

/-- Lines 781-794 of `dp_reset`: the chip is stopped and started again, and the
remote-DMA interrupt acknowledged. -/
def reset_chip (K : Hdr) (io : Io) : Io :=
  let io1 := (poll_isr K.ISR_RST 0x1000
    (outb_reg0 Reg.DP_RBCR1 0 (outb_reg0 Reg.DP_RBCR0 0
      (outb_reg0 Reg.DP_CR ((K.CR_STP ||| K.CR_DM_ABORT : Nat) : Int) io)))).2
  let io2 := (poll_isr K.ISR_RDC 0x1000
    (outb_reg0 Reg.DP_TCR ((K.TCR_NORMAL ||| K.TCR_OFST : Nat) : Int)
      (outb_reg0 Reg.DP_CR ((K.CR_STA ||| K.CR_DM_ABORT : Nat) : Int)
        (outb_reg0 Reg.DP_TCR ((K.TCR_1EXTERNAL ||| K.TCR_OFST : Nat) : Int) io1)))).2
  outb_reg0 Reg.DP_ISR (((inb_isr io2).1 ^^^ ((inb_isr io2).1 &&& K.ISR_RDC) : Nat) : Int)
    (inb_isr io2).2

/-- The state of `dp_reset` at line 803, before the call of `dp_send`: the chip
is reset, head and tail are 0 and every slot of the send queue is marked empty. -/
def reset_queue (K : Hdr) (s : Sys) : Sys :=
  { dep := { s.dep with
               de_sendq_head := 0, de_sendq_tail := 0,
               de_sendq := clear_sendq s.dep.de_sendq s.dep.de_sendq_nr },
    io := reset_chip K s.io }

/-- Line 804 of `dp_reset`: `dep->de_flags &= ~DEF_STOPPED`. -/
def clear_stopped (s : Sys) : Sys :=
  { s with dep := { s.dep with de_flags := { s.dep.de_flags with DEF_STOPPED := false } } }

/-- Line 449 of `do_vread`: `dep->de_flags |= DEF_READING`. -/
def set_reading (s : Sys) : Sys :=
  { s with dep := { s.dep with de_flags := { s.dep.de_flags with DEF_READING := true } } }

/-- The deferred-write flag is only set while the send ring is full: if
`DEF_SEND_AVAIL` is set, the head is the tail and the slot at the head is filled. -/
def AvailFull (d : dpeth) : Prop :=
  d.de_flags.DEF_SEND_AVAIL = true →
    d.de_sendq_head = d.de_sendq_tail ∧ (d.de_sendq d.de_sendq_head).sq_filled = true

/-- A run does not end in one of the two panics of `do_vwrite` that a replay
could raise: "should not be sending" and "send already in progress". -/
def Res.calm {σ α : Type} (r : Res σ α) : Prop :=
  match r with
  | Res.ok _ _ => True
  | Res.halt h _ => h ≠ Halt.should_not_be_sending ∧ h ≠ Halt.send_in_progress

/-- What the driver keeps of the send side of a port entry between two turns
of its loop: while `DEF_ENABLED` is set the send queue is well formed, and a
write is only deferred while the ring is full. -/
structure Safe (d : dpeth) : Prop where
  inv : d.de_flags.DEF_ENABLED = true → SendqInv d
  full : AvailFull d

/-- The send side is the same in two port entries: the queue, the deferred
write and the flag `DEF_ENABLED`. -/
structure SendSame (d d1 : dpeth) : Prop where
  q : QSame d d1
  avail : d1.de_flags.DEF_SEND_AVAIL = d.de_flags.DEF_SEND_AVAIL
  enabled : d1.de_flags.DEF_ENABLED = d.de_flags.DEF_ENABLED

/-- The states a port entry goes through when every card hook `de_initf`
sets up at least one send buffer (as `ne1k_init` does): the port starts
disabled with no flag set and `de_read_s` zero, every turn of the loop of
`dp8390_task` that returns leads to the next state, and between two turns the
outside (chip registers, memories, logs) may change in any way. -/
inductive CardRun (K : Hdr) : Sys → Prop where
  | start (s : Sys) (hm : s.dep.de_mode = Mode.DEM_DISABLED)
      (hf : s.dep.de_flags = DEF_EMPTY) (hr : s.dep.de_read_s = 0) : CardRun K s
  | turn (E : Env) (m : message) (pending : Bool) (s s1 : Sys) (h : CardRun K s)
      (hE : ∀ d io, 1 ≤ (E.initf d io).1.de_sendq_nr)
      (hr : dp8390_task K E m pending s = Res.ok () s1) : CardRun K s1
  | outside (s : Sys) (io : Io) (h : CardRun K s) : CardRun K { s with io := io }

/-! ## Programmed I/O -/

/-- The bytes written to the data port by the events of a log, in order: those
of `port_write_byte` and `port_write`, and the low then the high byte of each
`out_word`. -/
def data_bytes : List Ev → List Nat
  | [] => []
  | Ev.data_out bs :: es => bs ++ data_bytes es
  | Ev.data_out_word lo hi :: es => lo :: hi :: data_bytes es
  | _ :: es => data_bytes es

/-- Whether an event writes whole 16-bit words to the data port: a word, or a
block of an even number of bytes. -/
def Ev.wordwise : Ev → Bool
  | Ev.data_out bs => bs.length % 2 == 0
  | Ev.data_out_word _ _ => true
  | _ => false

/-- Everything outside the port entry except the log. -/
def Io.rest (io : Io) : Io := { io with out := [] }

/-- Modelled from the spec: a byte count rounded up to the next even number. -/
def round_even (n : Nat) : Nat := n + n % 2

/-- The six register writes with which the programmed-I/O writes start: the
remote-DMA interrupt is acknowledged, then byte count, card address and the
write command are set. -/
def pio_setup (K : Hdr) (nic_addr count : Nat) : List Ev :=
  [Ev.outb0 Reg.DP_ISR (K.ISR_RDC : Int),
   Ev.outb0 Reg.DP_RBCR0 ((count &&& 0xFF : Nat) : Int),
   Ev.outb0 Reg.DP_RBCR1 ((count >>> 8 : Nat) : Int),
   Ev.outb0 Reg.DP_RSAR0 ((nic_addr &&& 0xFF : Nat) : Int),
   Ev.outb0 Reg.DP_RSAR1 ((nic_addr >>> 8 : Nat) : Int),
   Ev.outb0 Reg.DP_CR ((K.CR_DM_RW ||| K.CR_PS_P0 ||| K.CR_STA : Nat) : Int)]

/-- The outside of `sys_list` at the moment the remote DMA of a write completes:
the next read of `DP_ISR` returns `ISR_RDC`. -/
def io_rdc : Io := { sys_list.io with isr := [hdr.ISR_RDC] }

/-- The example run after the third write, with a read posted and the chip
reported stopped: both send buffers are in use and a write is deferred. -/
def run3_halted : Sys :=
  { run3 with dep := { run3.dep with
    de_flags := { run3.dep.de_flags with DEF_READING := true, DEF_STOPPED := true } } }

/-! ## A pass of the interrupt loop -/

/-- Lines 822-826 of `dp_check_ints`: `DP_ISR` has been read as the value `isr`,
which is not 0, and the value written back to the register. -/
def isr_ack (isr : Nat) (s : Sys) : Sys :=
  { s with io := outb_reg0 Reg.DP_ISR (isr : Int) (inb_isr s.io).2 }

/-- The rest of `dp_check_ints` from line 889, after the transmit block of a
pass of the loop for the status `isr` has left the state `s2`: the receive
part of the pass (lines 889-921), the further passes of the loop with the
budget `fuel`, and the test for a reset (lines 923-930). -/
def check_ints_rest (K : Hdr) (E : Env) (isr fuel : Nat) (s2 : Sys) : Res Sys Unit :=
  ((dp_check_ints_rx K E isr s2).bind fun brk s3 =>
      if brk then Res.ok () s3 else dp_check_ints_loop K E fuel s3).bind fun _ s1 =>
    if s1.dep.de_flags.DEF_READING ∧ s1.dep.de_flags.DEF_STOPPED then dp_reset K E s1
    else Res.ok () s1

/-! ## The frame of a write request -/

/-- The scatter list for which `do_vwrite` sets the write descriptor up (lines
338-358): for `WriteV` the segments the client holds at `DL_ADDR`, for `Write`
the one segment of `DL_COUNT` bytes at `DL_ADDR`. -/
def write_seg (K : Hdr) (io : Io) (mp : message) (vectored : Bool) : Nat → iovec :=
  if vectored then user_iovec K io mp.DL_PROC mp.DL_ADDR
  else fun _ => { iov_addr := mp.DL_ADDR, iov_size := to_uint K mp.DL_COUNT }

/-- The number of segments of that list: `DL_COUNT` for `WriteV`, 1 for `Write`. -/
def write_segs (mp : message) (vectored : Bool) : Nat :=
  if vectored then mp.DL_COUNT.toNat else 1

/-- The address of the list the write descriptor is given (`iod_iovec_addr`):
`DL_ADDR` for `WriteV`, 0 for `Write`. -/
def write_list (mp : message) (vectored : Bool) : Nat :=
  if vectored then mp.DL_ADDR else 0

/-- The example run at the first transmit interrupt, after the status has been
read and written back, the frame in slot 0 completed and the frame in slot 1
started, before the replay of the deferred third write. -/
def run3_acked : Sys := tx_done hdr hdr.ISR_PTX (isr_ack hdr.ISR_PTX (tx_int run3))

/-- The state in which the replayed `do_vwrite` of that interrupt has set up the
write descriptor for the deferred third write, of 300 bytes at address 3000. -/
def run3_acked_size : Sys :=
  (do_vwrite_size hdr env0 (msg MType.DL_WRITE 300 3000) false
    { clear_avail run3_acked with
      dep := { (clear_avail run3_acked).dep with de_client := 7 } }).state

/-- The staging call of that replayed write. -/
def run3_acked_stage : Res Io iovec_dat :=
  call_user2nic hdr env0 run3_acked.dep.de_user2nicf run3_acked_size.dep.de_write_iovec 0
    ((run3.dep.de_sendq run3.dep.de_sendq_head).sq_sendpage * hdr.DP_PAGESIZE) 300 run3_acked.io

/-! ## The build without `DEBUG`

`assert` comes from `kernel/assert.h`, a header that is not part of the
sources: there it is a test that ends the run only when `DEBUG` is set, and
without `DEBUG` it expands to nothing.  The
definitions of this section are the request handlers and the interrupt
handler for that build: each is the function of the same name above with its
`assert` lines left out, so that the code after a condition that does not hold
is run.  Two things are left open, so that no run of the code is missed:

* the routines that work on the outside and on a scatter-list descriptor only
  (`calc_iovec_size` and the calls through `de_user2nicf` and `de_nic2userf`,
  whose loops contain assertions) are parameters, the fields of `Xfers`, of
  which nothing is assumed;
* the loops of `dp_recv` and `dp_check_ints` run with a step budget `fuel`
  that is a parameter as well: a call of the code that returns is a call that
  returns with some budget. -/

/-- The routines of the transfer layer in the build without `DEBUG`: they get
a descriptor and the outside and return the descriptor and the outside as
they leave them, or end the run. -/
structure Xfers where
  /-- The function `calc_iovec_size`. -/
  calc_iovec_size : iovec_dat → Io → Res Io (Int × iovec_dat)
  /-- A call through `dep->de_user2nicf`. -/
  user2nic : Xfer → iovec_dat → Nat → Nat → Nat → Io → Res Io iovec_dat
  /-- A call through `dep->de_nic2userf`. -/
  nic2user : Xfer → Nat → iovec_dat → Nat → Nat → Io → Res Io iovec_dat

/-- The function `do_vwrite_size` without `DEBUG` (lines 338-360). -/
def do_vwrite_size_nd (K : Hdr) (E : Env) (X : Xfers) (mp : message) (vectored : Bool)
    (s : Sys) : Res Sys Int :=
  if vectored then
    match get_userdata K E mp.DL_PROC mp.DL_ADDR
        (if mp.DL_COUNT > (K.IOVEC_NR : Int) then (K.IOVEC_NR : Int) else mp.DL_COUNT)
        s.dep.de_write_iovec.iod_iovec s.io with
    | Res.halt h io1 => Res.halt h { s with io := io1 }
    | Res.ok w io1 =>
      let wi : iovec_dat :=
        { iod_iovec := w, iod_iovec_s := mp.DL_COUNT,
          iod_proc_nr := mp.DL_PROC, iod_iovec_addr := mp.DL_ADDR }
      match X.calc_iovec_size wi io1 with
      | Res.halt h io2 =>
        Res.halt h { dep := { s.dep with de_write_iovec := wi, de_tmp_iovec := wi }, io := io2 }
      | Res.ok (size, tmp) io2 =>
        Res.ok size { dep := { s.dep with de_write_iovec := wi, de_tmp_iovec := tmp }, io := io2 }
  else
    Res.ok mp.DL_COUNT { s with dep := { s.dep with de_write_iovec :=
      { iod_iovec := { iov_addr := mp.DL_ADDR, iov_size := to_uint K mp.DL_COUNT } ::
          s.dep.de_write_iovec.iod_iovec.tail,
        iod_iovec_s := 1, iod_proc_nr := mp.DL_PROC, iod_iovec_addr := 0 } } }

/-- The second part of the enqueue branch of `do_vwrite` without `DEBUG` (lines
361-394): the assertions of lines 381, 393 and 394 are gone. -/
def do_vwrite_send_nd (K : Hdr) (E : Env) (X : Xfers) (from_int : Bool) (size : Int)
    (s : Sys) : Res Sys Unit :=
  if size < ETH_MIN_PACK_SIZE ∨ size > ETH_MAX_PACK_SIZE then
    Res.halt Halt.invalid_packet_size s
  else
    match X.user2nic s.dep.de_user2nicf s.dep.de_write_iovec 0
        ((s.dep.de_sendq s.dep.de_sendq_head).sq_sendpage * K.DP_PAGESIZE) size.toNat s.io with
    | Res.halt h io1 => Res.halt h { s with io := io1 }
    | Res.ok wi io1 =>
      let s1 := fill_head K size.toNat { dep := { s.dep with de_write_iovec := wi }, io := io1 }
      if from_int then Res.ok () (advance_head s1)
      else reply E 0 (advance_head s1)

/-- The function `do_vwrite` without `DEBUG`: the assertions of lines 316, 321,
322 and 336 are gone. -/
def do_vwrite_nd (K : Hdr) (E : Env) (X : Xfers) (mp : message) (from_int vectored : Bool)
    (s0 : Sys) : Res Sys Unit :=
  if bad_port mp.DL_PORT then Res.halt Halt.illegal_port s0
  else
    let s : Sys := { s0 with dep := { s0.dep with de_client := mp.DL_PROC } }
    if s.dep.de_mode = Mode.DEM_SINK then
      reply E 0 { s with dep := { s.dep with
        de_flags := { s.dep.de_flags with DEF_PACK_SEND := true } } }
    else if s.dep.de_flags.DEF_SEND_AVAIL then Res.halt Halt.send_in_progress s
    else if (s.dep.de_sendq s.dep.de_sendq_head).sq_filled then
      if from_int then Res.halt Halt.should_not_be_sending s
      else reply E 0 { s with dep := { s.dep with
        de_sendmsg := mp,
        de_flags := { s.dep.de_flags with DEF_SEND_AVAIL := true } } }
    else
      (do_vwrite_size_nd K E X mp vectored s).bind fun size s1 =>
        do_vwrite_send_nd K E X from_int size s1

/-- The function `dp_send` without `DEBUG`. -/
def dp_send_nd (K : Hdr) (E : Env) (X : Xfers) (s : Sys) : Res Sys Unit :=
  if ¬ s.dep.de_flags.DEF_SEND_AVAIL then Res.ok () s
  else
    let s1 : Sys := { s with dep := { s.dep with
      de_flags := { s.dep.de_flags with DEF_SEND_AVAIL := false } } }
    match s1.dep.de_sendmsg.m_type with
    | MType.DL_WRITE => do_vwrite_nd K E X s1.dep.de_sendmsg true false s1
    | MType.DL_WRITEV => do_vwrite_nd K E X s1.dep.de_sendmsg true true s1
    | _ => Res.halt Halt.wrong_type s1

/-- The function `dp_pkt2user` without `DEBUG`; it returns whether the result
is `OK`. -/
def dp_pkt2user_nd (K : Hdr) (X : Xfers) (page length : Nat) (s : Sys) : Res Sys Bool :=
  if ¬ s.dep.de_flags.DEF_READING then Res.ok false s
  else
    let last := page + (length - 1) / K.DP_PAGESIZE
    let done : Sys → Sys := fun s1 => { s1 with dep := { s1.dep with
      de_read_s := length,
      de_flags := { s1.dep.de_flags with DEF_PACK_RECV := true, DEF_READING := false } } }
    if last ≥ s.dep.de_stoppage then
      let count := to_uint K
        (((s.dep.de_stoppage : Int) - (page : Int)) * (K.DP_PAGESIZE : Int) - (SIZEOF_RCVHDR : Int))
      match X.nic2user s.dep.de_nic2userf (page * K.DP_PAGESIZE + SIZEOF_RCVHDR)
          s.dep.de_read_iovec 0 count s.io with
      | Res.halt h io1 =>
        Res.halt h { dep := { s.dep with de_tmp_iovec := s.dep.de_read_iovec }, io := io1 }
      | Res.ok tmp io1 =>
        match X.nic2user s.dep.de_nic2userf (s.dep.de_startpage * K.DP_PAGESIZE)
            s.dep.de_read_iovec count (usub K length count) io1 with
        | Res.halt h io2 => Res.halt h { dep := { s.dep with de_tmp_iovec := tmp }, io := io2 }
        | Res.ok rd io2 =>
          Res.ok true (done
            { dep := { s.dep with de_tmp_iovec := tmp, de_read_iovec := rd }, io := io2 })
    else
      match X.nic2user s.dep.de_nic2userf (page * K.DP_PAGESIZE + SIZEOF_RCVHDR)
          s.dep.de_read_iovec 0 length s.io with
      | Res.halt h io1 => Res.halt h { s with io := io1 }
      | Res.ok rd io1 =>
        Res.ok true (done { dep := { s.dep with de_read_iovec := rd }, io := io1 })

/-- The part of the body of the loop of `dp_recv` that follows the reading of
the frame (lines 963-1024), without `DEBUG`. -/
def dp_recv_frame_nd (K : Hdr) (E : Env) (X : Xfers) (pageno curr : Nat) (fr : Frame)
    (s1 : Sys) : Res Sys (Option Nat) :=
  let length := frame_length K fr
  let next := fr.dr_next
  if ¬ bit fr.dr_status K.RSR_PRX then
    Res.ok (some curr) (write_bnry K curr (count_recvErr K s1))
  else if bit fr.dr_status (255 ^^^ ((K.RSR_PHY ||| K.RSR_PRX) &&& 255)) then
    Res.ok (some curr) (write_bnry K curr (count_fifoOver K s1))
  else if length < 60 ∨ length > 1514 then
    Res.ok (some curr) (write_bnry K curr s1)
  else if next < s1.dep.de_startpage ∨ next ≥ s1.dep.de_stoppage then
    Res.ok (some curr) (write_bnry K curr s1)
  else if fr.eth_type = E.eth_ign_proto then
    Res.ok (some curr) (write_bnry K curr (count_packetR K s1))
  else if s1.dep.de_flags.DEF_ENABLED then
    (dp_pkt2user_nd K X pageno length s1).bind fun r s2 =>
      if ¬ r then Res.ok none s2
      else Res.ok none (write_bnry K next (count_packetR K s2))
  else
    Res.ok (some next) (write_bnry K next s1)

/-- One pass of the body of the loop of `dp_recv` (lines 952-1024), without
`DEBUG`.  The two calls through `de_getblockf` are those of `read_frame`: the
assertion of `dp_getblock`, that the size is even, holds for their sizes 4 and
2, so that `read_frame` never ends in it. -/
def dp_recv_iter_nd (K : Hdr) (E : Env) (X : Xfers) (pageno : Nat) (s : Sys) :
    Res Sys (Option Nat) :=
  let rd := inb_curr (outb_reg0 Reg.DP_CR (K.CR_PS_P1 : Int) s.io)
  let s0 : Sys := { s with io := outb_reg0 Reg.DP_CR (K.CR_PS_P0 : Int) rd.2 }
  if rd.1 = pageno then Res.ok none s0
  else
    (lift_io s0 (read_frame K s0.dep.de_getblockf pageno s0.io)).bind fun fr s1 =>
      dp_recv_frame_nd K E X pageno rd.1 fr s1

/-- The loop of `dp_recv` without `DEBUG`, with a step budget. -/
def dp_recv_loop_nd (K : Hdr) (E : Env) (X : Xfers) : Nat → Nat → Sys → Res Sys Unit
  | 0, _, s => Res.halt Halt.no_fuel s
  | fuel + 1, pageno, s =>
    (dp_recv_iter_nd K E X pageno s).bind fun r s1 =>
      match r with
      | none => Res.ok () s1
      | some next => dp_recv_loop_nd K E X fuel next s1

/-- The function `dp_recv` without `DEBUG`, its loop running with the budget
`fuel`. -/
def dp_recv_nd (K : Hdr) (E : Env) (X : Xfers) (fuel : Nat) (s : Sys) : Res Sys Unit :=
  let pageno := inb_bnry s.io + 1
  dp_recv_loop_nd K E X fuel
    (if pageno = s.dep.de_stoppage then s.dep.de_startpage else pageno) s

/-- The function `dp_reset` without `DEBUG`. -/
def dp_reset_nd (K : Hdr) (E : Env) (X : Xfers) (s : Sys) : Res Sys Unit :=
  let s1 : Sys :=
    { dep := { s.dep with
                 de_sendq_head := 0, de_sendq_tail := 0,
                 de_sendq := clear_sendq s.dep.de_sendq s.dep.de_sendq_nr },
      io := reset_chip K s.io }
  (dp_send_nd K E X s1).bind fun _ s2 =>
    Res.ok () { s2 with dep := { s2.dep with
      de_flags := { s2.dep.de_flags with DEF_STOPPED := false } } }

/-- The block `if (isr & (ISR_PTX|ISR_TXE))` of `dp_check_ints` (lines 827-887)
without `DEBUG`: `assert(!debug)` of line 864 is gone.  It returns `true` when
it ends in the `continue` of line 870. -/
def dp_check_ints_tx_nd (K : Hdr) (E : Env) (X : Xfers) (isr : Nat) (s : Sys) :
    Res Sys Bool :=
  let s1 := tx_stat K isr s
  if ¬ (s1.dep.de_sendq s1.dep.de_sendq_tail).sq_filled then Res.ok true s1
  else
    let s3 := tx_complete K s1
    if s3.dep.de_flags.DEF_SEND_AVAIL then
      (dp_send_nd K E X s3).bind fun _ s4 => Res.ok false s4
    else Res.ok false s3

/-- The statements of the loop body of `dp_check_ints` after the transmit
block (lines 889-921), without `DEBUG`.  It returns `true` when it ends in the
`break` of line 920. -/
def dp_check_ints_rx_nd (K : Hdr) (E : Env) (X : Xfers) (fuel : Nat) (isr : Nat) (s : Sys) :
    Res Sys Bool :=
  (if bit isr K.ISR_PRX then dp_recv_nd K E X fuel s else Res.ok () s).bind fun _ s1 =>
    let s2 : Sys :=
      if bit isr K.ISR_RXE then
        { s1 with dep := { s1.dep with
          de_stat := { s1.dep.de_stat with
            ets_recvErr := uladd K s1.dep.de_stat.ets_recvErr 1 } } }
      else s1
    let s3 : Sys :=
      if bit isr K.ISR_CNT then
        { dep := { s2.dep with de_stat := { s2.dep.de_stat with
            ets_CRCerr := uladd K s2.dep.de_stat.ets_CRCerr (inb_cntr0 s2.io).1,
            ets_frameAll := uladd K s2.dep.de_stat.ets_frameAll
              (inb_cntr1 (inb_cntr0 s2.io).2).1,
            ets_missedP := uladd K s2.dep.de_stat.ets_missedP
              (inb_cntr2 (inb_cntr1 (inb_cntr0 s2.io).2).2).1 } },
          io := (inb_cntr2 (inb_cntr1 (inb_cntr0 s2.io).2).2).2 }
      else s2
    if bit isr K.ISR_RST then
      Res.ok true { s3 with dep := { s3.dep with
        de_flags := { s3.dep.de_flags with DEF_STOPPED := true } } }
    else Res.ok false s3

/-- The loop `for(;;)` of `dp_check_ints` without `DEBUG`, with a step budget;
`f` is the budget of the calls of `dp_recv`. -/
def dp_check_ints_loop_nd (K : Hdr) (E : Env) (X : Xfers) (f : Nat) : Nat → Sys → Res Sys Unit
  | 0, s => Res.halt Halt.no_fuel s
  | fuel + 1, s =>
    let isr := (inb_isr s.io).1
    if isr = 0 then Res.ok () { s with io := (inb_isr s.io).2 }
    else
      let s1 : Sys := { s with io := outb_reg0 Reg.DP_ISR (isr : Int) (inb_isr s.io).2 }
      (if bit isr (K.ISR_PTX ||| K.ISR_TXE) then dp_check_ints_tx_nd K E X isr s1
        else Res.ok false s1).bind fun cont s2 =>
        if cont then dp_check_ints_loop_nd K E X f fuel s2
        else
          (dp_check_ints_rx_nd K E X f isr s2).bind fun brk s3 =>
            if brk then Res.ok () s3 else dp_check_ints_loop_nd K E X f fuel s3

/-- The function `dp_check_ints` without `DEBUG`, its loops running with the
budget `fuel`. -/
def dp_check_ints_nd (K : Hdr) (E : Env) (X : Xfers) (fuel : Nat) (s : Sys) : Res Sys Unit :=
  if ¬ s.dep.de_flags.DEF_ENABLED then Res.halt Halt.premature_interrupt s
  else
    (dp_check_ints_loop_nd K E X fuel fuel s).bind fun _ s1 =>
      if s1.dep.de_flags.DEF_READING ∧ s1.dep.de_flags.DEF_STOPPED then dp_reset_nd K E X s1
      else Res.ok () s1

/-- The first part of `do_vread` after the checks (lines 426-448), without
`DEBUG`. -/
def do_vread_size_nd (K : Hdr) (E : Env) (X : Xfers) (mp : message) (vectored : Bool)
    (s : Sys) : Res Sys Int :=
  if vectored then
    match get_userdata K E mp.DL_PROC mp.DL_ADDR
        (if mp.DL_COUNT > (K.IOVEC_NR : Int) then (K.IOVEC_NR : Int) else mp.DL_COUNT)
        s.dep.de_read_iovec.iod_iovec s.io with
    | Res.halt h io1 => Res.halt h { s with io := io1 }
    | Res.ok w io1 =>
      let ri : iovec_dat :=
        { iod_iovec := w, iod_iovec_s := mp.DL_COUNT,
          iod_proc_nr := mp.DL_PROC, iod_iovec_addr := mp.DL_ADDR }
      match X.calc_iovec_size ri io1 with
      | Res.halt h io2 =>
        Res.halt h { dep := { s.dep with de_read_iovec := ri, de_tmp_iovec := ri }, io := io2 }
      | Res.ok (size, tmp) io2 =>
        Res.ok size { dep := { s.dep with de_read_iovec := ri, de_tmp_iovec := tmp }, io := io2 }
  else
    Res.ok mp.DL_COUNT { s with dep := { s.dep with de_read_iovec :=
      { iod_iovec := { iov_addr := mp.DL_ADDR, iov_size := to_uint K mp.DL_COUNT } ::
          s.dep.de_read_iovec.iod_iovec.tail,
        iod_iovec_s := 1, iod_proc_nr := mp.DL_PROC, iod_iovec_addr := 0 } } }

/-- The function `do_vread` without `DEBUG`: the assertions of lines 420 and
421 are gone. -/
def do_vread_nd (K : Hdr) (E : Env) (X : Xfers) (fuel : Nat) (mp : message) (vectored : Bool)
    (s0 : Sys) : Res Sys Unit :=
  if bad_port mp.DL_PORT then Res.halt Halt.illegal_port s0
  else
    let s : Sys := { s0 with dep := { s0.dep with de_client := mp.DL_PROC } }
    if s.dep.de_mode = Mode.DEM_SINK then reply E 0 s
    else if s.dep.de_flags.DEF_READING then Res.halt Halt.read_in_progress s
    else
      (do_vread_size_nd K E X mp vectored s).bind fun size s1 =>
        if size < ETH_MAX_PACK_SIZE then Res.halt Halt.wrong_packet_size s1
        else
          (dp_recv_nd K E X fuel { s1 with dep := { s1.dep with
              de_flags := { s1.dep.de_flags with DEF_READING := true } } }).bind fun _ s2 =>
            (if s2.dep.de_flags.DEF_READING ∧ s2.dep.de_flags.DEF_STOPPED
              then dp_reset_nd K E X s2
              else Res.ok () s2).bind fun _ s3 => reply E 0 s3

/-- The function `do_init` without `DEBUG`: the assertions of lines 520 and 521
are gone. -/
def do_init_nd (K : Hdr) (E : Env) (mp : message) (s0 : Sys) : Res Sys Unit :=
  if bad_port mp.DL_PORT then
    mess_reply E (Sent.init_reply mp.m_source K.ENXIO none none) s0
  else
    let ok_reply : Sys → Res Sys Unit := fun s =>
      mess_reply E (Sent.init_reply mp.m_source mp.DL_PORT (some DE_PORT_NR)
        (some s.dep.de_address)) s
    let rest : Sys → Res Sys Unit := fun s =>
      if s.dep.de_mode = Mode.DEM_SINK then
        (dp_confaddr E { s with dep := { s.dep with de_address := [0, 0, 0, 0, 0, 0] } }).bind
          fun _ s1 => ok_reply s1
      else
        let p := bit mp.DL_MODE K.DL_PROMISC_REQ
        ok_reply (dp_reinit K { s with dep := { s.dep with
          de_client := mp.m_source,
          de_flags := { s.dep.de_flags with
            DEF_PROMISC := p,
            DEF_MULTI := p || bit mp.DL_MODE K.DL_MULTI_REQ,
            DEF_BROAD := p || bit mp.DL_MODE K.DL_BROAD_REQ } } })
    if s0.dep.de_mode = Mode.DEM_DISABLED then
      let s1 := conf_hw E s0
      if s1.dep.de_mode = Mode.DEM_DISABLED then
        mess_reply E (Sent.init_reply mp.m_source K.ENXIO none none) s1
      else if s1.dep.de_mode = Mode.DEM_ENABLED then
        (dp_init K E s1).bind fun _ s2 => rest s2
      else rest s1
    else rest s0

/-- The function `do_getstat` without `DEBUG`: the assertions of lines 575 and
576 are gone. -/
def do_getstat_nd (K : Hdr) (E : Env) (mp : message) (s0 : Sys) : Res Sys Unit :=
  if bad_port mp.DL_PORT then Res.halt Halt.illegal_port s0
  else
    let s : Sys := { s0 with dep := { s0.dep with de_client := mp.DL_PROC } }
    if s.dep.de_mode = Mode.DEM_SINK then
      (put_userdata K E mp.DL_PROC mp.DL_ADDR s).bind fun _ s1 => reply E 0 s1
    else
      let s1 : Sys :=
        { dep := { s.dep with de_stat := { s.dep.de_stat with
            ets_CRCerr := uladd K s.dep.de_stat.ets_CRCerr (inb_cntr0 s.io).1,
            ets_frameAll := uladd K s.dep.de_stat.ets_frameAll
              (inb_cntr1 (inb_cntr0 s.io).2).1,
            ets_missedP := uladd K s.dep.de_stat.ets_missedP
              (inb_cntr2 (inb_cntr1 (inb_cntr0 s.io).2).2).1 } },
          io := (inb_cntr2 (inb_cntr1 (inb_cntr0 s.io).2).2).2 }
      (put_userdata K E mp.DL_PROC mp.DL_ADDR s1).bind fun _ s2 => reply E 0 s2

/-- The function `do_stop` without `DEBUG`: the assertion of line 604 is gone. -/
def do_stop_nd (K : Hdr) (E : Env) (mp : message) (s : Sys) : Res Sys Unit :=
  if bad_port mp.DL_PORT then Res.halt Halt.illegal_port s
  else if s.dep.de_mode = Mode.DEM_SINK then Res.ok () s
  else if ¬ s.dep.de_flags.DEF_ENABLED then Res.ok () s
  else
    let io1 := outb_reg0 Reg.DP_CR ((K.CR_STP ||| K.CR_DM_ABORT : Nat) : Int) s.io
    let io2 := E.stopf { io1 with out := io1.out ++ [Ev.stopf] }
    Res.ok () { dep := { s.dep with de_flags := DEF_EMPTY }, io := io2 }

/-- One turn of the loop of `dp8390_task` without `DEBUG`, for the port the
message is about: the assertions of lines 208 and 210 are gone.  For
`HARD_INT`, `pending` is what the test of `int_pending[irq]` finds. -/
def dp8390_task_nd (K : Hdr) (E : Env) (X : Xfers) (fuel : Nat) (m : message) (pending : Bool)
    (s : Sys) : Res Sys Unit :=
  match m.m_type with
  | MType.DL_WRITE => do_vwrite_nd K E X m false false s
  | MType.DL_WRITEV => do_vwrite_nd K E X m false true s
  | MType.DL_READ => do_vread_nd K E X fuel m false s
  | MType.DL_READV => do_vread_nd K E X fuel m true s
  | MType.DL_INIT => do_init_nd K E m s
  | MType.DL_GETSTAT => do_getstat_nd K E m s
  | MType.DL_STOP => do_stop_nd K E m s
  | MType.HARD_INT =>
    if s.dep.de_mode ≠ Mode.DEM_ENABLED then Res.ok () s
    else if pending then (dp_check_ints_nd K E X fuel s).bind fun _ s1 => do_int E s1
    else Res.ok () s
  | MType.other _ => Res.halt Halt.illegal_message s

/-- The states a port entry goes through in the build without `DEBUG`: it
starts disabled with `DEF_ENABLED` clear (the zeroed table), every turn of the
loop of `dp8390_task` that returns leads to the next state, whatever the
transfer routines do and with whatever budget the turn returns, and between
two turns the outside may change in any way. -/
inductive ReachableNd (K : Hdr) : Sys → Prop where
  | start (s : Sys) (hm : s.dep.de_mode = Mode.DEM_DISABLED)
      (hf : s.dep.de_flags.DEF_ENABLED = false) : ReachableNd K s
  | turn (E : Env) (X : Xfers) (fuel : Nat) (m : message) (pending : Bool) (s s1 : Sys)
      (h : ReachableNd K s)
      (hr : dp8390_task_nd K E X fuel m pending s = Res.ok () s1) : ReachableNd K s1
  | outside (s : Sys) (io : Io) (h : ReachableNd K s) : ReachableNd K { s with io := io }

/-- The transfer routines of the build with `DEBUG` as an instance of `Xfers`. -/
def xfers0 (K : Hdr) (E : Env) : Xfers :=
  { calc_iovec_size := calc_iovec_size K E,
    user2nic := call_user2nic K E,
    nic2user := call_nic2user K E }

/-- The state after `Init` on the fresh port 0 in the build without `DEBUG`. -/
def sys_nd_init : Sys :=
  (dp8390_task_nd hdr env0 (xfers0 hdr env0) 2 (msg MType.DL_INIT 0 0) false sys0).state

/-- The state after `Init` and `Stop` in the build without `DEBUG`. -/
def sys_nd_stop : Sys :=
  (dp8390_task_nd hdr env0 (xfers0 hdr env0) 2 (msg MType.DL_STOP 0 0) false sys_nd_init).state

/-- The state after `Init`, `Stop` and then a `Read` of 1514 bytes in the build
without `DEBUG`: no assertion keeps `do_vread` from posting the read. -/
def sys_nd_read : Sys :=
  (dp8390_task_nd hdr env0 (xfers0 hdr env0) 2 (msg MType.DL_READ 1514 1000) false
    sys_nd_stop).state

theorem IoFrame.frefl (io : Io) : IoFrame io io :=
  ⟨fun _ hv => hv, rfl, rfl, rfl, rfl, rfl, rfl, rfl, rfl, ⟨[], by simp, by simp⟩⟩

theorem IoFrame.ftrans {a b c : Io} (h1 : IoFrame a b) (h2 : IoFrame b c) : IoFrame a c := by
  obtain ⟨B1, e1, q1⟩ := h1.out
  obtain ⟨B2, e2, q2⟩ := h2.out
  refine ⟨fun v hv => h1.isr v (h2.isr v hv), h2.curr.trans h1.curr,
    h2.curr_next.trans h1.curr_next, h2.bnry.trans h1.bnry,
    h2.uiov.trans h1.uiov, h2.tsr.trans h1.tsr, h2.cntr0.trans h1.cntr0,
    h2.cntr1.trans h1.cntr1, h2.cntr2.trans h1.cntr2, ⟨B1 ++ B2, ?_, ?_⟩⟩
  · rw [e2, e1, List.append_assoc]
  · intro e he
    rcases List.mem_append.1 he with h | h
    · exact q1 e h
    · exact q2 e h

theorem IoFrame.flog (io : Io) (e : Ev) (h : Ev.quiet e = true) :
    IoFrame io { io with out := io.out ++ [e] } :=
  ⟨fun _ hv => hv, rfl, rfl, rfl, rfl, rfl, rfl, rfl, rfl, ⟨[e], rfl, by simpa using h⟩⟩

theorem outb_reg0_frame (r : Reg) (v : Int) (io : Io) (h : Ev.quiet (Ev.outb0 r v) = true) :
    IoFrame io (outb_reg0 r v io) := by
  cases r <;> first | exact IoFrame.flog io _ h | (simp [Ev.quiet] at h)

theorem inb_isr_frame (io : Io) : IoFrame io (inb_isr io).2 :=
  ⟨fun _ hv => List.mem_of_mem_tail hv, rfl, rfl, rfl, rfl, rfl, rfl, rfl, rfl,
    ⟨[], by simp [inb_isr], by simp⟩⟩

theorem poll_isr_frame (mask n : Nat) (io : Io) : IoFrame io (poll_isr mask n io).2 := by
  induction n generalizing io with
  | zero => exact IoFrame.frefl io
  | succ n ih =>
    unfold poll_isr
    split
    · exact inb_isr_frame io
    · exact (inb_isr_frame io).ftrans (ih _)

theorem data_in_frame (n : Nat) (io : Io) : IoFrame io (data_in n io).2 :=
  ⟨fun _ hv => hv, rfl, rfl, rfl, rfl, rfl, rfl, rfl, rfl, ⟨[], by simp [data_in], by simp⟩⟩

theorem store_user_frame (p : Int) (a : Nat) (bs : List Nat) (io : Io) :
    IoFrame io (store_user p a bs io) :=
  ⟨fun _ hv => hv, rfl, rfl, rfl, rfl, rfl, rfl, rfl, rfl, ⟨[], by simp [store_user], by simp⟩⟩

theorem store_card_frame (a : Nat) (bs : List Nat) (io : Io) :
    IoFrame io (store_card a bs io) :=
  ⟨fun _ hv => hv, rfl, rfl, rfl, rfl, rfl, rfl, rfl, rfl, ⟨[], by simp [store_card], by simp⟩⟩

theorem get_userdata_state (K : Hdr) (E : Env) (proc : Int) (addr : Nat) (n : Int)
    (w : List iovec) (io : Io) : (get_userdata K E proc addr n w io).state = io := by
  simp only [get_userdata]
  split
  · split <;> rfl
  · rfl

theorem Res.eq_of_state {σ α : Type} (r : Res σ α) :
    (∃ a, r = Res.ok a r.state) ∨ (∃ h, r = Res.halt h r.state) := by
  cases r with
  | ok a s => exact Or.inl ⟨a, rfl⟩
  | halt h s => exact Or.inr ⟨h, rfl⟩

theorem dp_next_iovec_state (K : Hdr) (E : Env) (iovp : iovec_dat) (io : Io) :
    (dp_next_iovec K E iovp io).state = io := by
  unfold dp_next_iovec
  split
  · dsimp only
    rcases Res.eq_of_state (get_userdata K E iovp.iod_proc_nr
      (iovp.iod_iovec_addr + K.IOVEC_NR * K.SIZEOF_IOVEC)
      (if iovp.iod_iovec_s - (K.IOVEC_NR : Int) > (K.IOVEC_NR : Int) then (K.IOVEC_NR : Int)
        else iovp.iod_iovec_s - (K.IOVEC_NR : Int)) iovp.iod_iovec io) with ⟨a, h⟩ | ⟨a, h⟩ <;>
    · rw [get_userdata_state] at h
      rw [h]
      rfl
  · rfl

theorem calc_iovec_size_loop_state (K : Hdr) (E : Env) (fuel : Nat) (size : Int) (i : Nat)
    (iovp : iovec_dat) (io : Io) :
    (calc_iovec_size_loop K E fuel size i iovp io).state = io := by
  induction fuel generalizing size i iovp io with
  | zero => rfl
  | succ n ih =>
    unfold calc_iovec_size_loop
    split
    · split
      · rcases Res.eq_of_state (dp_next_iovec K E iovp io) with ⟨a, h⟩ | ⟨a, h⟩ <;>
          rw [dp_next_iovec_state] at h <;> rw [h]
        · exact ih _ _ _ _
        · rfl
      · exact ih _ _ _ _
    · rfl

theorem calc_iovec_size_state (K : Hdr) (E : Env) (iovp : iovec_dat) (io : Io) :
    (calc_iovec_size K E iovp io).state = io :=
  calc_iovec_size_loop_state K E _ _ _ _ _

theorem dp_user2nic_loop_frame (K : Hdr) (E : Env) (fuel : Nat) (iovp : iovec_dat)
    (i offset a count : Nat) (io : Io) :
    IoFrame io (dp_user2nic_loop K E fuel iovp i offset a count io).state := by
  induction fuel generalizing iovp i offset a count io with
  | zero => exact IoFrame.frefl io
  | succ n ih =>
    unfold dp_user2nic_loop
    split
    · split
      · rcases Res.eq_of_state (dp_next_iovec K E iovp io) with ⟨x, h⟩ | ⟨x, h⟩ <;>
          rw [dp_next_iovec_state] at h <;> rw [h]
        · exact ih _ _ _ _ _ _
        · exact IoFrame.frefl io
      · split
        · exact IoFrame.frefl io
        · split
          · exact ih _ _ _ _ _ _
          · dsimp only
            split
            · exact (store_card_frame _ _ io).ftrans (ih _ _ _ _ _ _)
            · exact IoFrame.frefl io
    · exact IoFrame.frefl io

theorem dp_nic2user_loop_frame (K : Hdr) (E : Env) (fuel : Nat) (iovp : iovec_dat)
    (i offset a count : Nat) (io : Io) :
    IoFrame io (dp_nic2user_loop K E fuel iovp i offset a count io).state := by
  induction fuel generalizing iovp i offset a count io with
  | zero => exact IoFrame.frefl io
  | succ n ih =>
    unfold dp_nic2user_loop
    split
    · split
      · rcases Res.eq_of_state (dp_next_iovec K E iovp io) with ⟨x, h⟩ | ⟨x, h⟩ <;>
          rw [dp_next_iovec_state] at h <;> rw [h]
        · exact ih _ _ _ _ _ _
        · exact IoFrame.frefl io
      · split
        · exact IoFrame.frefl io
        · split
          · exact ih _ _ _ _ _ _
          · dsimp only
            split
            · exact (store_user_frame _ _ _ io).ftrans (ih _ _ _ _ _ _)
            · exact IoFrame.frefl io
    · exact IoFrame.frefl io

theorem dp_pio8_user2nic_loop_frame (K : Hdr) (E : Env) (fuel : Nat) (iovp : iovec_dat)
    (i offset count : Nat) (io : Io) :
    IoFrame io (dp_pio8_user2nic_loop K E fuel iovp i offset count io).state := by
  induction fuel generalizing iovp i offset count io with
  | zero => exact IoFrame.frefl io
  | succ n ih =>
    unfold dp_pio8_user2nic_loop
    split
    · split
      · rcases Res.eq_of_state (dp_next_iovec K E iovp io) with ⟨x, h⟩ | ⟨x, h⟩ <;>
          rw [dp_next_iovec_state] at h <;> rw [h]
        · exact ih _ _ _ _ _
        · exact IoFrame.frefl io
      · split
        · exact IoFrame.frefl io
        · split
          · exact ih _ _ _ _ _
          · dsimp only
            split
            · exact (IoFrame.flog io (Ev.data_out _) rfl).ftrans (ih _ _ _ _ _)
            · exact IoFrame.frefl io
    · exact IoFrame.frefl io

theorem dp_pio8_nic2user_loop_frame (K : Hdr) (E : Env) (fuel : Nat) (iovp : iovec_dat)
    (i offset count : Nat) (io : Io) :
    IoFrame io (dp_pio8_nic2user_loop K E fuel iovp i offset count io).state := by
  induction fuel generalizing iovp i offset count io with
  | zero => exact IoFrame.frefl io
  | succ n ih =>
    unfold dp_pio8_nic2user_loop
    split
    · split
      · rcases Res.eq_of_state (dp_next_iovec K E iovp io) with ⟨x, h⟩ | ⟨x, h⟩ <;>
          rw [dp_next_iovec_state] at h <;> rw [h]
        · exact ih _ _ _ _ _
        · exact IoFrame.frefl io
      · split
        · exact IoFrame.frefl io
        · split
          · exact ih _ _ _ _ _
          · dsimp only
            split
            · exact ((data_in_frame _ io).ftrans (store_user_frame _ _ _ _)).ftrans (ih _ _ _ _ _)
            · exact IoFrame.frefl io
    · exact IoFrame.frefl io

theorem IoFrame.ite_snd {io : Io} {c : Prop} [Decidable c] {a b : Nat × Odd × Io}
    (ha : IoFrame io a.2.2) (hb : IoFrame io b.2.2) :
    IoFrame io (if c then a else b).2.2 := by
  split <;> assumption

theorem IoFrame.ite2 {io : Io} {c : Prop} [Decidable c] {a b : Io}
    (ha : IoFrame io a) (hb : IoFrame io b) : IoFrame io (if c then a else b) := by
  split <;> assumption

theorem pio16_user2nic_chunk_frame (proc : Int) (user bytes : Nat) (o : Odd) (io : Io) :
    IoFrame io (pio16_user2nic_chunk proc user bytes o io).2.2 := by
  unfold pio16_user2nic_chunk
  by_cases hodd : o.odd_byte = true
  · simp only [hodd, ↓reduceIte]
    have h1 := IoFrame.flog io (Ev.data_out_word o.b0 (io.ubyte proc user)) rfl
    have h2 := IoFrame.ite2 (c := (bytes - 1) / 2 * 2 ≠ 0)
      (h1.ftrans (IoFrame.flog _ (Ev.data_out
        (user_bytes io proc (user + 1) ((bytes - 1) / 2 * 2))) rfl)) h1
    exact IoFrame.ite_snd h1 (IoFrame.ite_snd h2 h2)
  · simp only [hodd, Bool.false_eq_true, ↓reduceIte]
    have h2 := IoFrame.ite2 (c := (bytes - 0) / 2 * 2 ≠ 0)
      (IoFrame.flog io (Ev.data_out
        (user_bytes io proc (user + 0) ((bytes - 0) / 2 * 2))) rfl) (IoFrame.frefl io)
    exact IoFrame.ite_snd (IoFrame.frefl io) (IoFrame.ite_snd h2 h2)

theorem pio16_nic2user_chunk_frame (proc : Int) (user bytes : Nat) (o : Odd) (io : Io) :
    IoFrame io (pio16_nic2user_chunk proc user bytes o io).2.2 := by
  unfold pio16_nic2user_chunk
  have hd : ∀ (p : Int) (k m : Nat) (x : Io), IoFrame x
      (store_user p k (data_in m x).1 (data_in m x).2) := fun p k m x =>
    (data_in_frame m x).ftrans (store_user_frame _ _ _ _)
  have hd1 : ∀ (p : Int) (k m : Nat) (x : Io), IoFrame x
      (store_user p k [(data_in m x).1.getD 0 0] (data_in m x).2) := fun p k m x =>
    (data_in_frame m x).ftrans (store_user_frame _ _ _ _)
  by_cases hodd : o.odd_byte = true
  · simp only [hodd, ↓reduceIte]
    have h1 := store_user_frame proc user [o.b1] io
    have h2 := IoFrame.ite2 (c := (bytes - 1) / 2 * 2 ≠ 0)
      (h1.ftrans (hd proc (user + 1) ((bytes - 1) / 2 * 2) _)) h1
    exact IoFrame.ite_snd h1 (IoFrame.ite_snd (h2.ftrans (hd1 _ _ _ _)) h2)
  · simp only [hodd, Bool.false_eq_true, ↓reduceIte]
    have h2 := IoFrame.ite2 (c := (bytes - 0) / 2 * 2 ≠ 0)
      (hd proc (user + 0) ((bytes - 0) / 2 * 2) io) (IoFrame.frefl io)
    exact IoFrame.ite_snd (IoFrame.frefl io) (IoFrame.ite_snd (h2.ftrans (hd1 _ _ _ _)) h2)

theorem dp_pio16_user2nic_loop_frame (K : Hdr) (E : Env) (fuel : Nat) (iovp : iovec_dat)
    (i offset count : Nat) (o : Odd) (io : Io) :
    IoFrame io (dp_pio16_user2nic_loop K E fuel iovp i offset count o io).state := by
  induction fuel generalizing iovp i offset count o io with
  | zero => exact IoFrame.frefl io
  | succ n ih =>
    unfold dp_pio16_user2nic_loop
    split
    · split
      · rcases Res.eq_of_state (dp_next_iovec K E iovp io) with ⟨x, h⟩ | ⟨x, h⟩ <;>
          rw [dp_next_iovec_state] at h <;> rw [h]
        · exact ih _ _ _ _ _ _
        · exact IoFrame.frefl io
      · split
        · exact IoFrame.frefl io
        · split
          · exact ih _ _ _ _ _ _
          · dsimp only
            split
            · exact (pio16_user2nic_chunk_frame _ _ _ _ io).ftrans (ih _ _ _ _ _ _)
            · exact IoFrame.frefl io
    · exact IoFrame.frefl io

theorem dp_pio16_nic2user_loop_frame (K : Hdr) (E : Env) (fuel : Nat) (iovp : iovec_dat)
    (i offset count : Nat) (o : Odd) (io : Io) :
    IoFrame io (dp_pio16_nic2user_loop K E fuel iovp i offset count o io).state := by
  induction fuel generalizing iovp i offset count o io with
  | zero => exact IoFrame.frefl io
  | succ n ih =>
    unfold dp_pio16_nic2user_loop
    split
    · split
      · rcases Res.eq_of_state (dp_next_iovec K E iovp io) with ⟨x, h⟩ | ⟨x, h⟩ <;>
          rw [dp_next_iovec_state] at h <;> rw [h]
        · exact ih _ _ _ _ _ _
        · exact IoFrame.frefl io
      · split
        · exact IoFrame.frefl io
        · split
          · exact ih _ _ _ _ _ _
          · dsimp only
            split
            · exact (pio16_nic2user_chunk_frame _ _ _ _ io).ftrans (ih _ _ _ _ _ _)
            · exact IoFrame.frefl io
    · exact IoFrame.frefl io

/-- The five register writes of a remote-DMA set-up are quiet. -/
theorem remote_dma_frame (K : Hdr) (cmd nic_addr count : Nat) (io : Io) :
    IoFrame io (remote_dma K cmd nic_addr count io) := by
  unfold remote_dma
  exact ((((outb_reg0_frame Reg.DP_RBCR0 _ io rfl).ftrans
    (outb_reg0_frame Reg.DP_RBCR1 _ _ rfl)).ftrans
    (outb_reg0_frame Reg.DP_RSAR0 _ _ rfl)).ftrans (outb_reg0_frame Reg.DP_RSAR1 _ _ rfl)).ftrans
    (outb_reg0_frame Reg.DP_CR _ _ rfl)

theorem wait_rdc_frame (K : Hdr) (iovp : iovec_dat) (io : Io) :
    IoFrame io (wait_rdc K iovp io).state := by
  unfold wait_rdc
  split <;> exact poll_isr_frame _ _ _

theorem call_user2nic_frame (K : Hdr) (E : Env) (f : Xfer) (iovp : iovec_dat)
    (offset nic_addr count : Nat) (io : Io) :
    IoFrame { io with out := io.out ++ [Ev.user2nic f iovp offset nic_addr count] }
      (call_user2nic K E f iovp offset nic_addr count io).state := by
  unfold call_user2nic
  cases f
  · exact dp_user2nic_loop_frame _ _ _ _ _ _ _ _ _
  · dsimp only [dp_pio8_user2nic]
    have h0 := (outb_reg0_frame Reg.DP_ISR (K.ISR_RDC : Int)
      { io with out := io.out ++ [Ev.user2nic Xfer.pio8 iovp offset nic_addr count] } rfl).ftrans
      (remote_dma_frame K K.CR_DM_RW nic_addr count _)
    have h1 := h0.ftrans (dp_pio8_user2nic_loop_frame K E
      (count + 2 * iovp.iod_iovec_s.toNat + 2) iovp 0 offset count _)
    revert h1
    cases dp_pio8_user2nic_loop K E (count + 2 * iovp.iod_iovec_s.toNat + 2) iovp 0 offset count
      (remote_dma K K.CR_DM_RW nic_addr count (outb_reg0 Reg.DP_ISR (K.ISR_RDC : Int)
        { io with out := io.out ++ [Ev.user2nic Xfer.pio8 iovp offset nic_addr count] })) with
    | ok a s => intro h1; exact h1.ftrans (wait_rdc_frame _ _ _)
    | halt h s => intro h1; exact h1
  · dsimp only [dp_pio16_user2nic]
    have h0 := (outb_reg0_frame Reg.DP_ISR (K.ISR_RDC : Int)
      { io with out := io.out ++ [Ev.user2nic Xfer.pio16 iovp offset nic_addr count] } rfl).ftrans
      (remote_dma_frame K K.CR_DM_RW nic_addr ((count + 1) / 2 * 2) _)
    have h1 := h0.ftrans (dp_pio16_user2nic_loop_frame K E
      (count + 2 * iovp.iod_iovec_s.toNat + 2) iovp 0 offset count
      { odd_byte := false, b0 := 0, b1 := 0 } _)
    revert h1
    cases dp_pio16_user2nic_loop K E (count + 2 * iovp.iod_iovec_s.toNat + 2) iovp 0 offset
      count { odd_byte := false, b0 := 0, b1 := 0 }
      (remote_dma K K.CR_DM_RW nic_addr ((count + 1) / 2 * 2)
        (outb_reg0 Reg.DP_ISR (K.ISR_RDC : Int)
        { io with out := io.out ++ [Ev.user2nic Xfer.pio16 iovp offset nic_addr count] })) with
    | ok a s =>
      intro h1
      obtain ⟨a1, a2⟩ := a
      refine (h1.ftrans ?_).ftrans (wait_rdc_frame _ _ _)
      split
      · exact IoFrame.flog _ (Ev.data_out_word _ _) rfl
      · exact IoFrame.frefl _
    | halt h s => intro h1; exact h1

theorem call_nic2user_frame (K : Hdr) (E : Env) (f : Xfer) (nic_addr : Nat) (iovp : iovec_dat)
    (offset count : Nat) (io : Io) :
    IoFrame { io with out := io.out ++ [Ev.nic2user f nic_addr iovp offset count] }
      (call_nic2user K E f nic_addr iovp offset count io).state := by
  unfold call_nic2user
  cases f
  · exact dp_nic2user_loop_frame _ _ _ _ _ _ _ _ _
  · exact (remote_dma_frame K K.CR_DM_RR nic_addr count _).ftrans
      (dp_pio8_nic2user_loop_frame _ _ _ _ _ _ _ _)
  · exact (remote_dma_frame K K.CR_DM_RR nic_addr ((count + 1) / 2 * 2) _).ftrans
      (dp_pio16_nic2user_loop_frame _ _ _ _ _ _ _ _ _)

theorem dp_pio8_getblock_frame (K : Hdr) (page offset size : Nat) (io : Io) :
    IoFrame io (dp_pio8_getblock K page offset size io).state := by
  unfold dp_pio8_getblock
  exact (((((outb_reg0_frame Reg.DP_RBCR0 _ io rfl).ftrans
    (outb_reg0_frame Reg.DP_RBCR1 _ _ rfl)).ftrans
    (outb_reg0_frame Reg.DP_RSAR0 _ _ rfl)).ftrans (outb_reg0_frame Reg.DP_RSAR1 _ _ rfl)).ftrans
    (outb_reg0_frame Reg.DP_CR _ _ rfl)).ftrans (data_in_frame _ _)

theorem call_getblock_frame (K : Hdr) (f : Xfer) (page offset size : Nat) (io : Io) :
    IoFrame io (call_getblock K f page offset size io).state := by
  unfold call_getblock
  cases f
  · dsimp only [dp_getblock]
    split <;> exact IoFrame.frefl io
  · exact dp_pio8_getblock_frame _ _ _ _ _
  · exact dp_pio8_getblock_frame _ _ _ _ _

/-! ### Results of `reply` and of the parts of `do_vwrite` -/

theorem Res.bind_ok {σ α β : Type} {r : Res σ α} {f : α → σ → Res σ β} {b : β} {s : σ}
    (h : r.bind f = Res.ok b s) : ∃ a s1, r = Res.ok a s1 ∧ f a s1 = Res.ok b s := by
  cases r with
  | ok a s1 => exact ⟨a, s1, rfl, h⟩
  | halt e s1 => simp [Res.bind] at h

theorem reply_ok {E : Env} {err : Int} {s s1 : Sys} (h : reply E err s = Res.ok () s1) :
    s1.dep = { s.dep with
      de_read_s := 0,
      de_flags := { s.dep.de_flags with DEF_PACK_SEND := false, DEF_PACK_RECV := false } } ∧
    s1.io = { s.io with out := s.io.out ++
      [Ev.send (Sent.task_reply s.dep.de_client s.dep.de_client s.dep.de_flags.DEF_PACK_SEND
        s.dep.de_flags.DEF_PACK_RECV err s.dep.de_read_s E.uptime)] } ∧
    0 ≤ E.send_r := by
  unfold reply at h
  dsimp only at h
  split at h
  · cases h
  · rename_i hs
    cases h
    exact ⟨rfl, rfl, by omega⟩

theorem reply_state_io (E : Env) (err : Int) (s : Sys) :
    (reply E err s).state.io = { s.io with out := s.io.out ++
      [Ev.send (Sent.task_reply s.dep.de_client s.dep.de_client s.dep.de_flags.DEF_PACK_SEND
        s.dep.de_flags.DEF_PACK_RECV err s.dep.de_read_s E.uptime)] } := by
  unfold reply
  dsimp only
  split <;> rfl

theorem do_vwrite_size_state (K : Hdr) (E : Env) (mp : message) (v : Bool) (s : Sys) :
    ∃ wi tmp, (do_vwrite_size K E mp v s).state =
      { dep := { s.dep with de_write_iovec := wi, de_tmp_iovec := tmp }, io := s.io } := by
  unfold do_vwrite_size
  cases v
  · exact ⟨_, s.dep.de_tmp_iovec, rfl⟩
  · simp only [if_true]
    rcases Res.eq_of_state (get_userdata K E mp.DL_PROC mp.DL_ADDR
      (if mp.DL_COUNT > (K.IOVEC_NR : Int) then (K.IOVEC_NR : Int) else mp.DL_COUNT)
      s.dep.de_write_iovec.iod_iovec s.io) with ⟨w, h⟩ | ⟨w, h⟩ <;>
      rw [get_userdata_state] at h <;> rw [h]
    · dsimp only
      rcases Res.eq_of_state (calc_iovec_size K E
        { iod_iovec := w, iod_iovec_s := mp.DL_COUNT, iod_proc_nr := mp.DL_PROC,
          iod_iovec_addr := mp.DL_ADDR } s.io) with ⟨x, h2⟩ | ⟨x, h2⟩ <;>
        rw [calc_iovec_size_state] at h2 <;> rw [h2]
      · exact ⟨_, _, rfl⟩
      · exact ⟨_, _, rfl⟩
    · exact ⟨s.dep.de_write_iovec, s.dep.de_tmp_iovec, rfl⟩

theorem do_vwrite_send_ok {K : Hdr} {E : Env} {fi : Bool} {size : Int} {s s1 : Sys}
    (h : do_vwrite_send K E fi size s = Res.ok () s1) :
    ETH_MIN_PACK_SIZE ≤ size ∧ size ≤ ETH_MAX_PACK_SIZE ∧
    ∃ wi io1, call_user2nic K E s.dep.de_user2nicf s.dep.de_write_iovec 0
        ((s.dep.de_sendq s.dep.de_sendq_head).sq_sendpage * K.DP_PAGESIZE) size.toNat s.io
          = Res.ok wi io1 ∧
      next_slot s.dep.de_sendq_head s.dep.de_sendq_nr < K.SENDQ_NR ∧
      ((fi = true ∧ s1 = advance_head (fill_head K size.toNat
          { dep := { s.dep with de_write_iovec := wi }, io := io1 })) ∨
       (fi = false ∧ reply E 0 (advance_head (fill_head K size.toNat
          { dep := { s.dep with de_write_iovec := wi }, io := io1 })) = Res.ok () s1)) := by
  unfold do_vwrite_send at h
  split at h
  · cases h
  · rename_i hsz
    refine ⟨by omega, by omega, ?_⟩
    split at h
    · cases h
    · rename_i wi io1 hcall
      refine ⟨wi, io1, hcall, ?_⟩
      dsimp only at h
      split at h
      · cases h
      · rename_i hlt
        have hq : (fill_head K size.toNat
            { dep := { s.dep with de_write_iovec := wi }, io := io1 }).dep.de_sendq_head
              = s.dep.de_sendq_head ∧
            (fill_head K size.toNat
              { dep := { s.dep with de_write_iovec := wi }, io := io1 }).dep.de_sendq_nr
              = s.dep.de_sendq_nr := by
          unfold fill_head
          dsimp only
          split <;> exact ⟨rfl, rfl⟩
        rw [hq.1, hq.2] at hlt
        refine ⟨by simpa using hlt, ?_⟩
        cases fi
        · right
          refine ⟨rfl, ?_⟩
          simp only [Bool.false_eq_true, if_false] at h
          obtain ⟨a, s3, h3, h4⟩ := Res.bind_ok h
          obtain ⟨hd, -, -⟩ := reply_ok h3
          split at h4
          · cases h4
          · split at h4
            · cases h4
            · cases h4
              exact h3
        · left
          simp only [if_true] at h
          cases h
          exact ⟨rfl, rfl⟩

/-! ### Arithmetic of the circular queue -/

theorem slot_ne {nr h0 a b : Nat} (hab : a < b) (hb : b < a + nr) :
    (h0 + a) % nr ≠ (h0 + b) % nr := by
  intro h
  have h1 : (h0 + b - (h0 + a)) % nr = 0 :=
    Nat.sub_mod_eq_zero_of_mod_eq h.symm
  have h2 : h0 + b - (h0 + a) = b - a := by omega
  rw [h2] at h1
  have h3 : b - a < nr := by omega
  rw [Nat.mod_eq_of_lt h3] at h1
  omega

theorem next_slot_mod {i nr : Nat} (h : i < nr) : next_slot i nr = (i + 1) % nr := by
  unfold next_slot
  split
  · rename_i h1
    rw [h1, Nat.mod_self]
  · rw [Nat.mod_eq_of_lt (by omega)]

theorem next_slot_add {nr a : Nat} (h : 1 ≤ nr) :
    next_slot (a % nr) nr = (a + 1) % nr := by
  rw [next_slot_mod (Nat.mod_lt _ (by omega)), Nat.add_mod, Nat.mod_mod, ← Nat.add_mod]

theorem QCnt.enq {nr h0 c n head tail : Nat} {f : Nat → Bool}
    (h : QCnt nr h0 c n head tail f) (hf : f head = false) :
    QCnt nr h0 c (n + 1) (next_slot head nr) tail (fun i => if i = head then true else f i) := by
  obtain ⟨h1, h2, h3, h4, h5, h6⟩ := h
  have hlt : n < c + nr := by
    rcases Nat.lt_or_ge n (c + nr) with h | h
    · exact h
    · have hn : n = c + nr := by omega
      have hh : head = (h0 + c) % nr := by
        rw [h4, hn, ← Nat.add_assoc, Nat.add_mod_right]
      have : f head = true :=
        (h6 head (by rw [hh]; exact Nat.mod_lt _ (by omega))).2 ⟨c, le_refl _, by omega, hh⟩
      rw [hf] at this
      cases this
  refine ⟨h1, by omega, by omega, ?_, h5, ?_⟩
  · rw [h4, next_slot_add h1, Nat.add_assoc]
  · intro i hi
    by_cases hih : i = head
    · simp only [hih, if_true, true_iff]
      exact ⟨n, h2, by omega, h4⟩
    · simp only [hih, if_false]
      rw [h6 i hi]
      constructor
      · rintro ⟨j, hj1, hj2, hj3⟩
        exact ⟨j, hj1, by omega, hj3⟩
      · rintro ⟨j, hj1, hj2, hj3⟩
        rcases Nat.lt_or_ge j n with hjn | hjn
        · exact ⟨j, hj1, hjn, hj3⟩
        · have : j = n := by omega
          subst this
          exact absurd (hj3.trans h4.symm) hih

theorem QCnt.deq {nr h0 c n head tail : Nat} {f : Nat → Bool}
    (h : QCnt nr h0 c n head tail f) (hf : f tail = true) :
    QCnt nr h0 (c + 1) n head (next_slot tail nr)
      (fun i => if i = tail then false else f i) := by
  obtain ⟨h1, h2, h3, h4, h5, h6⟩ := h
  have hlt : c < n := by
    obtain ⟨j, hj1, hj2, -⟩ := (h6 tail (by rw [h5]; exact Nat.mod_lt _ (by omega))).1 hf
    omega
  refine ⟨h1, by omega, by omega, h4, ?_, ?_⟩
  · rw [h5, next_slot_add h1, Nat.add_assoc]
  · intro i hi
    by_cases hit : i = tail
    · simp only [hit, if_true, Bool.false_eq_true, false_iff]
      rintro ⟨j, hj1, hj2, hj3⟩
      rw [h5] at hj3
      exact slot_ne (a := c) (b := j) (by omega) (by omega) hj3
    · simp only [hit, if_false]
      rw [h6 i hi]
      constructor
      · rintro ⟨j, hj1, hj2, hj3⟩
        rcases Nat.lt_or_ge c j with hcj | hcj
        · exact ⟨j, hcj, hj2, hj3⟩
        · have : j = c := by omega
          subst this
          exact absurd (hj3.trans h5.symm) hit
      · rintro ⟨j, hj1, hj2, hj3⟩
        exact ⟨j, by omega, hj2, hj3⟩

theorem QCnt.empty {nr h0 : Nat} {f : Nat → Bool} (h1 : 1 ≤ nr) (hh : h0 < nr)
    (hf : ∀ i, i < nr → f i = false) : QCnt nr h0 0 0 h0 h0 f := by
  refine ⟨h1, le_refl _, by omega, (Nat.mod_eq_of_lt hh).symm, (Nat.mod_eq_of_lt hh).symm, ?_⟩
  intro i hi
  rw [hf i hi]
  simp

theorem SendqInv.of_cnt {d : dpeth} {h0 c n : Nat}
    (h : QCnt d.de_sendq_nr h0 c n d.de_sendq_head d.de_sendq_tail (filledOf d)) :
    SendqInv d := by
  obtain ⟨h1, h2, h3, h4, h5, h6⟩ := h
  have hnr : 0 < d.de_sendq_nr := by omega
  refine ⟨h1, by rw [h4]; exact Nat.mod_lt _ hnr, by rw [h5]; exact Nat.mod_lt _ hnr,
    n - c, by omega, ?_, ?_⟩
  · rw [h4, h5, Nat.mod_add_mod]
    congr 1
    omega
  · intro i hi
    have := h6 i hi
    unfold filledOf at this
    rw [this]
    constructor
    · rintro ⟨j, hj1, hj2, hj3⟩
      refine ⟨j - c, by omega, ?_⟩
      rw [hj3, h5, Nat.mod_add_mod]
      congr 1
      omega
    · rintro ⟨j, hj1, hj3⟩
      refine ⟨c + j, by omega, by omega, ?_⟩
      rw [hj3, h5, Nat.mod_add_mod, Nat.add_assoc]

theorem SendqInv.to_cnt {d : dpeth} (h : SendqInv d) :
    ∃ n, QCnt d.de_sendq_nr d.de_sendq_tail 0 n d.de_sendq_head d.de_sendq_tail (filledOf d) := by
  obtain ⟨h1, h2, h3, k, hk, hh, hf⟩ := h
  refine ⟨k, h1, Nat.zero_le _, by omega, hh, (Nat.mod_eq_of_lt h3).symm, ?_⟩
  intro i hi
  unfold filledOf
  rw [hf i hi]
  constructor
  · rintro ⟨j, hj1, hj2⟩
    exact ⟨j, Nat.zero_le _, hj1, hj2⟩
  · rintro ⟨j, -, hj1, hj2⟩
    exact ⟨j, hj1, hj2⟩

/-! ### The send queue under the operations -/

theorem SendqInv.congr {d d1 : dpeth} (h : SendqInv d) (h1 : d1.de_sendq_nr = d.de_sendq_nr)
    (h2 : d1.de_sendq_head = d.de_sendq_head) (h3 : d1.de_sendq_tail = d.de_sendq_tail)
    (h4 : filledOf d1 = filledOf d) : SendqInv d1 := by
  obtain ⟨n, hn⟩ := h.to_cnt
  apply @SendqInv.of_cnt _ d.de_sendq_tail 0 n
  rw [h1, h2, h3, h4]
  exact hn

theorem fill_head_dep (K : Hdr) (size : Nat) (s : Sys) :
    (fill_head K size s).dep = { s.dep with
      de_sendq := set_sendq s.dep.de_sendq s.dep.de_sendq_head
        { s.dep.de_sendq s.dep.de_sendq_head with
          sq_filled := true,
          sq_size := if s.dep.de_sendq_tail = s.dep.de_sendq_head
            then (s.dep.de_sendq s.dep.de_sendq_head).sq_size else size } } := by
  unfold fill_head
  dsimp only
  split
  · rename_i h
    simp only [h, if_true]
  · rename_i h
    simp only [h, if_false]

theorem fill_head_io (K : Hdr) (size : Nat) (s : Sys) :
    (fill_head K size s).io =
      if s.dep.de_sendq_tail = s.dep.de_sendq_head
      then start_tx K (s.dep.de_sendq s.dep.de_sendq_head).sq_sendpage size s.io else s.io := by
  unfold fill_head
  dsimp only
  split <;> rfl

theorem filledOf_fill (K : Hdr) (size : Nat) (s : Sys) :
    filledOf (advance_head (fill_head K size s)).dep =
      fun i => if i = s.dep.de_sendq_head then true else filledOf s.dep i := by
  funext i
  unfold advance_head filledOf
  simp only [fill_head_dep, set_sendq]
  split <;> rfl

theorem filledOf_complete (K : Hdr) (s : Sys) :
    filledOf (tx_complete K s).dep =
      fun i => if i = s.dep.de_sendq_tail then false else filledOf s.dep i := by
  funext i
  unfold tx_complete filledOf
  simp only [set_sendq]
  split <;> rfl

theorem SendqInv.fill {K : Hdr} {size : Nat} {s : Sys} (h : SendqInv s.dep)
    (hf : (s.dep.de_sendq s.dep.de_sendq_head).sq_filled = false) :
    SendqInv (advance_head (fill_head K size s)).dep := by
  obtain ⟨n, hn⟩ := h.to_cnt
  have := hn.enq hf
  apply @SendqInv.of_cnt _ s.dep.de_sendq_tail 0 (n + 1)
  rw [filledOf_fill]
  simpa [advance_head, fill_head_dep] using this

theorem SendqInv.complete {K : Hdr} {s : Sys} (h : SendqInv s.dep)
    (hf : (s.dep.de_sendq s.dep.de_sendq_tail).sq_filled = true) :
    SendqInv (tx_complete K s).dep := by
  obtain ⟨n, hn⟩ := h.to_cnt
  have := hn.deq hf
  apply @SendqInv.of_cnt _ s.dep.de_sendq_tail (0 + 1) n
  rw [filledOf_complete]
  simpa [tx_complete] using this

theorem SendqInv.reply {E : Env} {err : Int} {s s1 : Sys} (h : SendqInv s.dep)
    (hr : reply E err s = Res.ok () s1) : SendqInv s1.dep := by
  obtain ⟨hd, -, -⟩ := reply_ok hr
  exact h.congr (by rw [hd]) (by rw [hd]) (by rw [hd]) (by rw [hd]; rfl)

/-- The ways in which `do_vwrite` returns. -/
theorem do_vwrite_ok {K : Hdr} {E : Env} {mp : message} {fi v : Bool} {s s1 : Sys}
    (h : do_vwrite K E mp fi v s = Res.ok () s1) :
    (s.dep.de_mode = Mode.DEM_SINK ∧ fi = false ∧
      reply E 0 { s with dep := { s.dep with
        de_client := mp.DL_PROC,
        de_flags := { s.dep.de_flags with DEF_PACK_SEND := true } } } = Res.ok () s1) ∨
    (s.dep.de_mode = Mode.DEM_ENABLED ∧ s.dep.de_flags.DEF_ENABLED = true ∧
      s.dep.de_flags.DEF_SEND_AVAIL = false ∧
      (((s.dep.de_sendq s.dep.de_sendq_head).sq_filled = true ∧ fi = false ∧
        reply E 0 { s with dep := { s.dep with
          de_client := mp.DL_PROC, de_sendmsg := mp,
          de_flags := { s.dep.de_flags with DEF_SEND_AVAIL := true } } } = Res.ok () s1) ∨
       ((s.dep.de_sendq s.dep.de_sendq_head).sq_filled = false ∧
        s.dep.de_flags.DEF_PACK_SEND = false ∧
        ∃ size s2, do_vwrite_size K E mp v
            { s with dep := { s.dep with de_client := mp.DL_PROC } } = Res.ok size s2 ∧
          do_vwrite_send K E fi size s2 = Res.ok () s1))) := by
  unfold do_vwrite at h
  split at h
  · cases h
  · dsimp only at h
    split at h
    · rename_i hm
      left
      cases fi
      · exact ⟨hm, rfl, by simpa using h⟩
      · simp at h
    · right
      split at h
      · cases h
      · rename_i hm
        split at h
        · cases h
        · rename_i hen
          split at h
          · cases h
          · rename_i hsa
            refine ⟨by simpa using hm, by simpa using hen, by simpa using hsa, ?_⟩
            split at h
            · rename_i hfl
              left
              cases fi
              · exact ⟨hfl, rfl, by simpa using h⟩
              · simp at h
            · rename_i hfl
              right
              split at h
              · cases h
              · rename_i hps
                obtain ⟨size, s2, h1, h2⟩ := Res.bind_ok h
                exact ⟨by simpa using hfl, by simpa using hps, size, s2, h1, h2⟩

theorem do_vwrite_inv {K : Hdr} {E : Env} {mp : message} {fi v : Bool} {s s1 : Sys}
    (h : do_vwrite K E mp fi v s = Res.ok () s1) (hinv : SendqInv s.dep) :
    SendqInv s1.dep := by
  rcases do_vwrite_ok h with ⟨-, -, hr⟩ | ⟨-, -, -, ⟨-, -, hr⟩ | ⟨hf, -, size, s2, h1, h2⟩⟩
  · exact SendqInv.reply (s := { s with dep := { s.dep with
      de_client := mp.DL_PROC,
      de_flags := { s.dep.de_flags with DEF_PACK_SEND := true } } }) hinv hr
  · exact SendqInv.reply (s := { s with dep := { s.dep with
      de_client := mp.DL_PROC, de_sendmsg := mp,
      de_flags := { s.dep.de_flags with DEF_SEND_AVAIL := true } } }) hinv hr
  · obtain ⟨wi, tmp, hst⟩ := do_vwrite_size_state K E mp v
      { s with dep := { s.dep with de_client := mp.DL_PROC } }
    rw [h1] at hst
    simp only [Res.state] at hst
    obtain ⟨-, -, wi1, io1, -, -, hcase⟩ := do_vwrite_send_ok h2
    have hbase : SendqInv (advance_head (fill_head K size.toNat
        { dep := { s2.dep with de_write_iovec := wi1 }, io := io1 })).dep := by
      apply SendqInv.fill
      · subst hst
        exact hinv
      · subst hst
        exact hf
    rcases hcase with ⟨-, rfl⟩ | ⟨-, hr⟩
    · exact hbase
    · exact hbase.reply hr

/-! ### What the receive side leaves alone -/

theorem Static.srefl (d : dpeth) : Static d d :=
  ⟨rfl, rfl, rfl, fun _ => rfl, rfl, rfl, rfl, rfl, rfl⟩

theorem Static.strans {a b c : dpeth} (h1 : Static a b) (h2 : Static b c) : Static a c :=
  ⟨h2.mode.trans h1.mode, h2.enabled.trans h1.enabled, h2.nr.trans h1.nr,
    fun i => (h2.sendpage i).trans (h1.sendpage i), h2.startpage.trans h1.startpage,
    h2.stoppage.trans h1.stoppage, h2.user2nicf.trans h1.user2nicf,
    h2.nic2userf.trans h1.nic2userf, h2.getblockf.trans h1.getblockf⟩

theorem RxKeeps.krefl (d : dpeth) : RxKeeps d d :=
  ⟨Static.srefl d, rfl, rfl, rfl, rfl, rfl, rfl, rfl, rfl⟩

theorem RxKeeps.ktrans {a b c : dpeth} (h1 : RxKeeps a b) (h2 : RxKeeps b c) : RxKeeps a c :=
  ⟨h1.static.strans h2.static, h2.sendq.trans h1.sendq, h2.head.trans h1.head,
    h2.tail.trans h1.tail, h2.sendmsg.trans h1.sendmsg, h2.send_avail.trans h1.send_avail,
    h2.pack_send.trans h1.pack_send, h2.stopped.trans h1.stopped,
    h2.packetT.trans h1.packetT⟩

/-- A property of the state a run ends in passes through sequencing. -/
theorem Res.bind_state {σ α β : Type} (P : σ → Prop) (r : Res σ α) (f : α → σ → Res σ β)
    (h1 : P r.state) (h2 : ∀ a s1, r = Res.ok a s1 → P s1 → P (f a s1).state) :
    P (r.bind f).state := by
  cases r with
  | ok a s1 => exact h2 a s1 rfl h1
  | halt e s1 => exact h1

theorem lift_io_state_dep {α : Type} (s : Sys) (r : Res Io α) :
    (lift_io s r).state.dep = s.dep := by
  cases r <;> rfl

theorem lift_io_state_io {α : Type} (s : Sys) (r : Res Io α) :
    (lift_io s r).state.io = r.state := by
  cases r <;> rfl

theorem lift_io_ok {α : Type} {s s1 : Sys} {r : Res Io α} {a : α}
    (h : lift_io s r = Res.ok a s1) : s1.dep = s.dep ∧ r = Res.ok a s1.io := by
  cases r with
  | ok b io =>
    simp only [lift_io] at h
    cases h
    exact ⟨rfl, rfl⟩
  | halt e io => simp [lift_io] at h

theorem dp_pkt2user_keeps (K : Hdr) (E : Env) (page length : Nat) (s : Sys) :
    RxKeeps s.dep (dp_pkt2user K E page length s).state.dep := by
  unfold dp_pkt2user
  split
  · exact RxKeeps.krefl _
  · dsimp only
    split
    · split
      · exact ⟨⟨rfl, rfl, rfl, fun _ => rfl, rfl, rfl, rfl, rfl, rfl⟩,
          rfl, rfl, rfl, rfl, rfl, rfl, rfl, rfl⟩
      · split
        · exact ⟨⟨rfl, rfl, rfl, fun _ => rfl, rfl, rfl, rfl, rfl, rfl⟩,
            rfl, rfl, rfl, rfl, rfl, rfl, rfl, rfl⟩
        · exact ⟨⟨rfl, rfl, rfl, fun _ => rfl, rfl, rfl, rfl, rfl, rfl⟩,
            rfl, rfl, rfl, rfl, rfl, rfl, rfl, rfl⟩
    · split
      · exact ⟨⟨rfl, rfl, rfl, fun _ => rfl, rfl, rfl, rfl, rfl, rfl⟩,
          rfl, rfl, rfl, rfl, rfl, rfl, rfl, rfl⟩
      · exact ⟨⟨rfl, rfl, rfl, fun _ => rfl, rfl, rfl, rfl, rfl, rfl⟩,
          rfl, rfl, rfl, rfl, rfl, rfl, rfl, rfl⟩

theorem write_bnry_dep (K : Hdr) (next : Nat) (s : Sys) : (write_bnry K next s).dep = s.dep := by
  unfold write_bnry
  split <;> rfl

theorem keeps_of_dep_eq {d d1 d2 : dpeth} (h : d2 = d1) (h1 : RxKeeps d d1) : RxKeeps d d2 := by
  subst h
  exact h1

theorem dp_recv_frame_keeps (K : Hdr) (E : Env) (pageno curr : Nat) (fr : Frame) (s : Sys) :
    RxKeeps s.dep (dp_recv_frame K E pageno curr fr s).state.dep := by
  have hk : ∀ (n : Nat) (x : Sys), RxKeeps s.dep x.dep → RxKeeps s.dep (write_bnry K n x).dep :=
    fun n x h => keeps_of_dep_eq (write_bnry_dep K n x) h
  have hc : ∀ x : Sys, RxKeeps s.dep x.dep → RxKeeps s.dep (count_packetR K x).dep := fun x h =>
    ⟨⟨h.static.mode, h.static.enabled, h.static.nr, h.static.sendpage, h.static.startpage,
      h.static.stoppage, h.static.user2nicf, h.static.nic2userf, h.static.getblockf⟩,
      h.sendq, h.head, h.tail, h.sendmsg, h.send_avail, h.pack_send, h.stopped, h.packetT⟩
  unfold dp_recv_frame
  dsimp only
  split
  · exact hk _ _ ⟨⟨rfl, rfl, rfl, fun _ => rfl, rfl, rfl, rfl, rfl, rfl⟩,
      rfl, rfl, rfl, rfl, rfl, rfl, rfl, rfl⟩
  · split
    · exact hk _ _ ⟨⟨rfl, rfl, rfl, fun _ => rfl, rfl, rfl, rfl, rfl, rfl⟩,
        rfl, rfl, rfl, rfl, rfl, rfl, rfl, rfl⟩
    · split
      · exact hk _ _ (RxKeeps.krefl _)
      · split
        · exact hk _ _ (RxKeeps.krefl _)
        · split
          · exact hk _ _ (hc _ (RxKeeps.krefl _))
          · split
            · refine Res.bind_state (fun x : Sys => RxKeeps s.dep x.dep) _ _ ?_ ?_
              · exact dp_pkt2user_keeps K E _ _ s
              · intro r s2 h2 h3
                split
                · exact h3
                · exact hk _ _ (hc _ h3)
            · exact hk _ _ (RxKeeps.krefl _)

theorem dp_recv_iter_keeps (K : Hdr) (E : Env) (pageno : Nat) (s : Sys) :
    RxKeeps s.dep (dp_recv_iter K E pageno s).state.dep := by
  unfold dp_recv_iter
  dsimp only
  split
  · exact RxKeeps.krefl _
  · refine Res.bind_state (fun x : Sys => RxKeeps s.dep x.dep) _ _ ?_ ?_
    · simp only [lift_io_state_dep]
      exact RxKeeps.krefl _
    · intro fr s1 h1 _
      have h2 := (lift_io_ok h1).1
      have h3 := dp_recv_frame_keeps K E pageno
        (inb_curr (outb_reg0 Reg.DP_CR (K.CR_PS_P1 : Int) s.io)).1 fr s1
      rw [h2] at h3
      exact h3

theorem dp_recv_loop_keeps (K : Hdr) (E : Env) (fuel pageno : Nat) (s : Sys) :
    RxKeeps s.dep (dp_recv_loop K E fuel pageno s).state.dep := by
  induction fuel generalizing pageno s with
  | zero => exact RxKeeps.krefl _
  | succ n ih =>
    unfold dp_recv_loop
    refine Res.bind_state (fun x : Sys => RxKeeps s.dep x.dep) _ _ ?_ ?_
    · exact dp_recv_iter_keeps K E pageno s
    · intro r s1 h1 h2
      cases r with
      | none => exact h2
      | some next => exact h2.ktrans (ih next s1)

theorem dp_recv_keeps (K : Hdr) (E : Env) (s : Sys) :
    RxKeeps s.dep (dp_recv K E s).state.dep :=
  dp_recv_loop_keeps K E _ _ s

/-! ### `Static` under every operation but `Init` and `Stop` -/

theorem static_rfl {d d1 : dpeth} (h1 : d1.de_mode = d.de_mode)
    (h2 : d1.de_flags.DEF_ENABLED = d.de_flags.DEF_ENABLED) (h3 : d1.de_sendq_nr = d.de_sendq_nr)
    (h4 : ∀ i, (d1.de_sendq i).sq_sendpage = (d.de_sendq i).sq_sendpage)
    (h5 : d1.de_startpage = d.de_startpage) (h6 : d1.de_stoppage = d.de_stoppage)
    (h7 : d1.de_user2nicf = d.de_user2nicf) (h8 : d1.de_nic2userf = d.de_nic2userf)
    (h9 : d1.de_getblockf = d.de_getblockf) : Static d d1 :=
  ⟨h1, h2, h3, h4, h5, h6, h7, h8, h9⟩

/-- A port entry that differs from `x` in fields outside `Static`. -/
theorem Static.step {d x y : dpeth} (h : Static d x) (h1 : y.de_mode = x.de_mode)
    (h2 : y.de_flags.DEF_ENABLED = x.de_flags.DEF_ENABLED) (h3 : y.de_sendq_nr = x.de_sendq_nr)
    (h4 : ∀ i, (y.de_sendq i).sq_sendpage = (x.de_sendq i).sq_sendpage)
    (h5 : y.de_startpage = x.de_startpage) (h6 : y.de_stoppage = x.de_stoppage)
    (h7 : y.de_user2nicf = x.de_user2nicf) (h8 : y.de_nic2userf = x.de_nic2userf)
    (h9 : y.de_getblockf = x.de_getblockf) : Static d y :=
  h.strans ⟨h1, h2, h3, h4, h5, h6, h7, h8, h9⟩

theorem reply_static {d : dpeth} (E : Env) (err : Int) (s : Sys) (h : Static d s.dep) :
    Static d (reply E err s).state.dep := by
  unfold reply
  dsimp only
  split <;> exact h.step rfl rfl rfl (fun _ => rfl) rfl rfl rfl rfl rfl

theorem set_sendq_sendpage (q : Nat → sendq) (h : Nat) (fl : Bool) (sz i : Nat) :
    (set_sendq q h { sq_filled := fl, sq_size := sz, sq_sendpage := (q h).sq_sendpage }
      i).sq_sendpage = (q i).sq_sendpage := by
  unfold set_sendq
  split
  · rename_i hi
    rw [hi]
  · rfl

theorem fill_head_static {d : dpeth} (K : Hdr) (size : Nat) (s : Sys) (h : Static d s.dep) :
    Static d (fill_head K size s).dep := by
  rw [fill_head_dep]
  exact h.step rfl rfl rfl
    (fun i => set_sendq_sendpage s.dep.de_sendq s.dep.de_sendq_head _ _ i) rfl rfl rfl rfl rfl

theorem advance_head_static {d : dpeth} (s : Sys) (h : Static d s.dep) :
    Static d (advance_head s).dep :=
  h.step rfl rfl rfl (fun _ => rfl) rfl rfl rfl rfl rfl

theorem tx_stat_static {d : dpeth} (K : Hdr) (isr : Nat) (s : Sys) (h : Static d s.dep) :
    Static d (tx_stat K isr s).dep := by
  unfold tx_stat
  split <;> exact h.step rfl rfl rfl (fun _ => rfl) rfl rfl rfl rfl rfl

theorem tx_complete_static {d : dpeth} (K : Hdr) (s : Sys) (h : Static d s.dep) :
    Static d (tx_complete K s).dep := by
  unfold tx_complete
  exact h.step rfl rfl rfl
    (fun i => set_sendq_sendpage s.dep.de_sendq s.dep.de_sendq_tail _ _ i) rfl rfl rfl rfl rfl

theorem do_vwrite_size_static {d : dpeth} (K : Hdr) (E : Env) (mp : message) (v : Bool)
    (s : Sys) (h : Static d s.dep) : Static d (do_vwrite_size K E mp v s).state.dep := by
  obtain ⟨wi, tmp, e⟩ := do_vwrite_size_state K E mp v s
  rw [e]
  exact h.step rfl rfl rfl (fun _ => rfl) rfl rfl rfl rfl rfl

theorem do_vwrite_send_static {d : dpeth} (K : Hdr) (E : Env) (fi : Bool) (size : Int)
    (s : Sys) (h : Static d s.dep) : Static d (do_vwrite_send K E fi size s).state.dep := by
  unfold do_vwrite_send
  split
  · exact h
  · split
    · exact h
    · rename_i wi io1 hcall
      dsimp only
      have h1 : Static d (fill_head K size.toNat
          { dep := { s.dep with de_write_iovec := wi }, io := io1 }).dep :=
        fill_head_static K _ _ (h.step rfl rfl rfl (fun _ => rfl) rfl rfl rfl rfl rfl)
      have h2 := advance_head_static _ h1
      split
      · exact h1
      · split
        · exact h2
        · refine Res.bind_state (fun x : Sys => Static d x.dep) _ _ ?_ ?_
          · exact reply_static E 0 _ h2
          · intro a s3 h3 h4
            split
            · exact h4
            · split <;> exact h4

theorem do_vwrite_static {d : dpeth} (K : Hdr) (E : Env) (mp : message) (fi v : Bool)
    (s : Sys) (h : Static d s.dep) : Static d (do_vwrite K E mp fi v s).state.dep := by
  have h0 : Static d { s.dep with de_client := mp.DL_PROC } :=
    h.step rfl rfl rfl (fun _ => rfl) rfl rfl rfl rfl rfl
  unfold do_vwrite
  split
  · exact h
  · dsimp only
    split
    · split
      · exact h0
      · exact reply_static E 0 _ (h.step rfl rfl rfl (fun _ => rfl) rfl rfl rfl rfl rfl)
    · split
      · exact h0
      · split
        · exact h0
        · split
          · exact h0
          · split
            · split
              · exact h0
              · exact reply_static E 0 _ (h.step rfl rfl rfl (fun _ => rfl) rfl rfl rfl rfl rfl)
            · split
              · exact h0
              · refine Res.bind_state (fun x : Sys => Static d x.dep) _ _ ?_ ?_
                · exact do_vwrite_size_static K E mp v _ h0
                · intro size s2 h2 h3
                  exact do_vwrite_send_static K E fi size s2 h3

theorem dp_send_static {d : dpeth} (K : Hdr) (E : Env) (s : Sys) (h : Static d s.dep) :
    Static d (dp_send K E s).state.dep := by
  have h0 : Static d { s.dep with
      de_flags := { s.dep.de_flags with DEF_SEND_AVAIL := false } } :=
    h.step rfl rfl rfl (fun _ => rfl) rfl rfl rfl rfl rfl
  unfold dp_send
  split
  · exact h
  · dsimp only
    split
    · exact do_vwrite_static K E _ _ _ _ h0
    · exact do_vwrite_static K E _ _ _ _ h0
    · exact h0

theorem clear_sendq_sendpage (q : Nat → sendq) (nr i : Nat) :
    (clear_sendq q nr i).sq_sendpage = (q i).sq_sendpage := by
  unfold clear_sendq
  split <;> rfl

theorem dp_reset_static {d : dpeth} (K : Hdr) (E : Env) (s : Sys) (h : Static d s.dep) :
    Static d (dp_reset K E s).state.dep := by
  unfold dp_reset
  dsimp only
  have h0 : ∀ io : Io, Static d (dp_send K E
      { dep := { s.dep with
                   de_sendq_head := 0, de_sendq_tail := 0,
                   de_sendq := clear_sendq s.dep.de_sendq s.dep.de_sendq_nr },
        io := io }).state.dep := fun io =>
    dp_send_static K E _
      (h.step rfl rfl rfl (fun i => clear_sendq_sendpage _ _ i) rfl rfl rfl rfl rfl)
  refine Res.bind_state (fun x : Sys => Static d x.dep) _ _ ?_ ?_
  · exact h0 _
  · intro a s2 h2 h3
    exact h3.step rfl rfl rfl (fun _ => rfl) rfl rfl rfl rfl rfl

theorem dp_check_ints_tx_static {d : dpeth} (K : Hdr) (E : Env) (isr : Nat) (s : Sys)
    (h : Static d s.dep) : Static d (dp_check_ints_tx K E isr s).state.dep := by
  unfold dp_check_ints_tx
  dsimp only
  have h1 := tx_stat_static K isr s h
  have h2 := tx_complete_static K _ h1
  split
  · split <;> exact h1
  · split
    · refine Res.bind_state (fun x : Sys => Static d x.dep) _ _ ?_ ?_
      · exact dp_send_static K E _ h2
      · intro a s4 h4 h5
        exact h5
    · exact h2

theorem dp_check_ints_rx_static {d : dpeth} (K : Hdr) (E : Env) (isr : Nat) (s : Sys)
    (h : Static d s.dep) : Static d (dp_check_ints_rx K E isr s).state.dep := by
  unfold dp_check_ints_rx
  have h1 : Static d (if bit isr K.ISR_PRX = true then dp_recv K E s
      else Res.ok () s).state.dep := by
    split
    · exact h.strans (dp_recv_keeps K E s).static
    · exact h
  refine Res.bind_state (fun x : Sys => Static d x.dep) _ _ h1 ?_
  intro a s1 e1 h1
  dsimp only
  have h2 : Static d (if bit isr K.ISR_RXE = true then
      ({ s1 with dep := { s1.dep with
        de_stat := { s1.dep.de_stat with ets_recvErr := uladd K s1.dep.de_stat.ets_recvErr 1 } } } : Sys)
      else s1).dep := by
    split
    · exact h1.step rfl rfl rfl (fun _ => rfl) rfl rfl rfl rfl rfl
    · exact h1
  split
  · split
    · exact h2.step rfl rfl rfl (fun _ => rfl) rfl rfl rfl rfl rfl
    · exact h2.step rfl rfl rfl (fun _ => rfl) rfl rfl rfl rfl rfl
  · split
    · exact h2.step rfl rfl rfl (fun _ => rfl) rfl rfl rfl rfl rfl
    · exact h2

theorem dp_check_ints_loop_static {d : dpeth} (K : Hdr) (E : Env) (fuel : Nat) (s : Sys)
    (h : Static d s.dep) : Static d (dp_check_ints_loop K E fuel s).state.dep := by
  induction fuel generalizing s with
  | zero => exact h
  | succ n ih =>
    unfold dp_check_ints_loop
    dsimp only
    split
    · exact h
    · have h1 : Static d (if bit (inb_isr s.io).1 (K.ISR_PTX ||| K.ISR_TXE) = true then
          dp_check_ints_tx K E (inb_isr s.io).1
            (Sys.mk s.dep (outb_reg0 Reg.DP_ISR ((inb_isr s.io).1 : Int) (inb_isr s.io).2))
          else Res.ok false
            (Sys.mk s.dep (outb_reg0 Reg.DP_ISR ((inb_isr s.io).1 : Int)
              (inb_isr s.io).2))).state.dep := by
        split
        · exact dp_check_ints_tx_static K E _ _ h
        · exact h
      refine Res.bind_state (fun x : Sys => Static d x.dep) _ _ h1 ?_
      intro cont s2 e2 h1
      split
      · exact ih s2 h1
      · have h3 := dp_check_ints_rx_static K E (inb_isr s.io).1 s2 h1
        refine Res.bind_state (fun x : Sys => Static d x.dep) _ _ h3 ?_
        intro brk s3 e3 h3
        split
        · exact h3
        · exact ih s3 h3

theorem dp_check_ints_static {d : dpeth} (K : Hdr) (E : Env) (s : Sys) (h : Static d s.dep) :
    Static d (dp_check_ints K E s).state.dep := by
  unfold dp_check_ints
  split
  · exact h
  · have h1 := dp_check_ints_loop_static K E (s.io.isr.length + 1) s h
    refine Res.bind_state (fun x : Sys => Static d x.dep) _ _ h1 ?_
    intro a s1 e1 h1
    split
    · exact dp_reset_static K E s1 h1
    · exact h1

/-! ### The send-queue invariant under the interrupt path -/

theorem SendqInv.qsame {d d1 : dpeth} (hi : SendqInv d) (h : QSame d d1) : SendqInv d1 :=
  hi.congr h.nr h.head h.tail (by unfold filledOf; rw [h.sendq])

theorem QSame.qrefl (d : dpeth) : QSame d d := ⟨rfl, rfl, rfl, rfl⟩

theorem QSame.qtrans {a b c : dpeth} (h1 : QSame a b) (h2 : QSame b c) : QSame a c :=
  ⟨h2.nr.trans h1.nr, h2.head.trans h1.head, h2.tail.trans h1.tail, h2.sendq.trans h1.sendq⟩

theorem RxKeeps.to_qsame {d d1 : dpeth} (h : RxKeeps d d1) : QSame d d1 :=
  ⟨h.static.nr, h.head, h.tail, h.sendq⟩

theorem tx_stat_qsame (K : Hdr) (isr : Nat) (s : Sys) : QSame s.dep (tx_stat K isr s).dep := by
  unfold tx_stat
  split <;> exact ⟨rfl, rfl, rfl, rfl⟩

theorem dp_send_inv {K : Hdr} {E : Env} {s s1 : Sys}
    (h : dp_send K E s = Res.ok () s1) (hinv : SendqInv s.dep) : SendqInv s1.dep := by
  unfold dp_send at h
  have h0 : SendqInv ({ s with dep := { s.dep with
      de_flags := { s.dep.de_flags with DEF_SEND_AVAIL := false } } } : Sys).dep :=
    hinv.qsame ⟨rfl, rfl, rfl, rfl⟩
  split at h
  · cases h
    exact hinv
  · dsimp only at h
    split at h
    · exact do_vwrite_inv h h0
    · exact do_vwrite_inv h h0
    · cases h

theorem dp_check_ints_tx_inv {K : Hdr} {E : Env} {isr : Nat} {s s1 : Sys} {b : Bool}
    (h : dp_check_ints_tx K E isr s = Res.ok b s1) (hinv : SendqInv s.dep) :
    SendqInv s1.dep := by
  unfold dp_check_ints_tx at h
  dsimp only at h
  have h1 : SendqInv (tx_stat K isr s).dep := hinv.qsame (tx_stat_qsame K isr s)
  split at h
  · split at h
    · cases h
    · cases h
      exact h1
  · rename_i hf
    have h2 : SendqInv (tx_complete K (tx_stat K isr s)).dep :=
      SendqInv.complete h1 (by simpa using hf)
    split at h
    · obtain ⟨a, s4, h4, h5⟩ := Res.bind_ok h
      cases h5
      exact dp_send_inv h4 h2
    · cases h
      exact h2

theorem dp_check_ints_rx_qsame (K : Hdr) (E : Env) (isr : Nat) (s : Sys) :
    QSame s.dep (dp_check_ints_rx K E isr s).state.dep := by
  unfold dp_check_ints_rx
  have h1 : QSame s.dep (if bit isr K.ISR_PRX = true then dp_recv K E s
      else Res.ok () s).state.dep := by
    split
    · exact (dp_recv_keeps K E s).to_qsame
    · exact QSame.qrefl _
  refine Res.bind_state (fun x : Sys => QSame s.dep x.dep) _ _ h1 ?_
  intro a s1 e1 h1
  dsimp only
  have h2 : QSame s.dep (if bit isr K.ISR_RXE = true then
      ({ s1 with dep := { s1.dep with
        de_stat := { s1.dep.de_stat with ets_recvErr := uladd K s1.dep.de_stat.ets_recvErr 1 } } } : Sys)
      else s1).dep := by
    split
    · exact h1.qtrans ⟨rfl, rfl, rfl, rfl⟩
    · exact h1
  split
  · split
    · exact h2.qtrans ⟨rfl, rfl, rfl, rfl⟩
    · exact h2.qtrans ⟨rfl, rfl, rfl, rfl⟩
  · split
    · exact h2.qtrans ⟨rfl, rfl, rfl, rfl⟩
    · exact h2

theorem dp_check_ints_loop_inv {K : Hdr} {E : Env} (fuel : Nat) {s s1 : Sys}
    (h : dp_check_ints_loop K E fuel s = Res.ok () s1) (hinv : SendqInv s.dep) :
    SendqInv s1.dep := by
  induction fuel generalizing s with
  | zero => cases h
  | succ n ih =>
    unfold dp_check_ints_loop at h
    dsimp only at h
    split at h
    · cases h
      exact hinv
    · obtain ⟨cont, s2, h2, h3⟩ := Res.bind_ok h
      have hs2 : SendqInv s2.dep := by
        split at h2
        · exact dp_check_ints_tx_inv h2 hinv
        · cases h2
          exact hinv
      split at h3
      · exact ih h3 hs2
      · obtain ⟨brk, s3, h4, h5⟩ := Res.bind_ok h3
        have hs3 : SendqInv s3.dep := by
          have := dp_check_ints_rx_qsame K E (inb_isr s.io).1 s2
          rw [h4] at this
          exact hs2.qsame this
        split at h5
        · cases h5
          exact hs3
        · exact ih h5 hs3

theorem dp_reset_inv {K : Hdr} {E : Env} {s s1 : Sys}
    (h : dp_reset K E s = Res.ok () s1) (hnr : 1 ≤ s.dep.de_sendq_nr) : SendqInv s1.dep := by
  unfold dp_reset at h
  dsimp only at h
  obtain ⟨a, s2, h2, h3⟩ := Res.bind_ok h
  cases h3
  have h0 : ∀ io : Io, SendqInv (Sys.mk { s.dep with
      de_sendq_head := 0, de_sendq_tail := 0,
      de_sendq := clear_sendq s.dep.de_sendq s.dep.de_sendq_nr } io).dep := by
    intro io
    apply SendqInv.of_cnt
    apply @QCnt.empty _ 0 _ hnr (by simpa using hnr)
    intro i hi
    simp only [filledOf, clear_sendq] at hi ⊢
    rw [if_pos hi]
  exact (dp_send_inv h2 (h0 _)).qsame ⟨rfl, rfl, rfl, rfl⟩

theorem dp_check_ints_inv {K : Hdr} {E : Env} {s s1 : Sys}
    (h : dp_check_ints K E s = Res.ok () s1) (hinv : SendqInv s.dep) : SendqInv s1.dep := by
  unfold dp_check_ints at h
  split at h
  · cases h
  · obtain ⟨a, s2, h2, h3⟩ := Res.bind_ok h
    have hs2 := dp_check_ints_loop_inv _ h2 hinv
    split at h3
    · exact dp_reset_inv h3 hs2.1
    · cases h3
      exact hs2

theorem dp_confaddr_dep (E : Env) (s : Sys) :
    ∃ a, (dp_confaddr E s).state = { s with dep := { s.dep with de_address := a } } := by
  unfold dp_confaddr
  dsimp only
  split <;> exact ⟨_, rfl⟩

theorem dp_init_inv {K : Hdr} {E : Env} {s s1 : Sys} (h : dp_init K E s = Res.ok () s1)
    (hnr : 1 ≤ s1.dep.de_sendq_nr) : SendqInv s1.dep := by
  unfold dp_init at h
  dsimp only at h
  obtain ⟨a, s2, h2, h3⟩ := Res.bind_ok h
  cases h3
  apply SendqInv.of_cnt
  apply @QCnt.empty _ 0 _ hnr (by simpa using hnr)
  intro i hi
  simp only [filledOf, clear_sendq] at hi ⊢
  rw [if_pos hi]

theorem Res.ok_of_isOk {σ : Type} {r : Res σ Unit} (h : r.isOk = true) :
    r = Res.ok () r.state := by
  cases r with
  | ok a s => rfl
  | halt e s => cases h

/-- C1: the send-queue invariant `SendqInv` (capacity at least 1, head and
tail inside the queue, head `k` slots after the tail for some `k ≤ nr`, and the
filled slots exactly the `k` slots from the tail on) holds after `dp_init`
returns with a capacity of at least 1, and every operation on the queue that
returns keeps it: `do_vwrite` (every branch, called from a request or from the
interrupt handler), the transmit-completion step of `dp_check_ints`, the loop
of `dp_check_ints` run for any number of passes, the whole of `dp_check_ints`,
and `dp_reset`. -/
theorem sendq_invariant (K : Hdr) (E : Env) :
    (∀ s s1 : Sys, dp_init K E s = Res.ok () s1 → 1 ≤ s1.dep.de_sendq_nr →
      SendqInv s1.dep) ∧
    (∀ (mp : message) (from_int vectored : Bool) (s s1 : Sys),
      do_vwrite K E mp from_int vectored s = Res.ok () s1 → SendqInv s.dep →
      SendqInv s1.dep) ∧
    (∀ (isr : Nat) (b : Bool) (s s1 : Sys),
      dp_check_ints_tx K E isr s = Res.ok b s1 → SendqInv s.dep → SendqInv s1.dep) ∧
    (∀ (fuel : Nat) (s s1 : Sys), dp_check_ints_loop K E fuel s = Res.ok () s1 →
      SendqInv s.dep → SendqInv s1.dep) ∧
    (∀ s s1 : Sys, dp_check_ints K E s = Res.ok () s1 → SendqInv s.dep →
      SendqInv s1.dep) ∧
    (∀ s s1 : Sys, dp_reset K E s = Res.ok () s1 → 1 ≤ s.dep.de_sendq_nr →
      SendqInv s1.dep) :=
  ⟨fun _ _ h hnr => dp_init_inv h hnr,
   fun _ _ _ _ _ h hinv => do_vwrite_inv h hinv,
   fun _ _ _ _ h hinv => dp_check_ints_tx_inv h hinv,
   fun fuel _ _ h hinv => dp_check_ints_loop_inv fuel h hinv,
   fun _ _ h hinv => dp_check_ints_inv h hinv,
   fun _ _ h hnr => dp_reset_inv h hnr⟩

set_option maxRecDepth 100000 in
/-- The invariant at work: it holds after `dp_init` on the probed port 0, still
after a write of 100 bytes to the initialised port, and still after the
interrupt that reports the transmission. -/
theorem sendq_invariant_witness :
    SendqInv (dp_init hdr env0 (conf_hw env0 sys0)).state.dep ∧
    SendqInv (do_vwrite hdr env0 (msg MType.DL_WRITE 100 0) false false
      (dp_init hdr env0 (conf_hw env0 sys0)).state).state.dep ∧
    SendqInv (dp_check_ints hdr env0 (tx_int (do_vwrite hdr env0 (msg MType.DL_WRITE 100 0)
      false false (dp_init hdr env0 (conf_hw env0 sys0)).state).state)).state.dep := by
  have h1 := (sendq_invariant hdr env0).1 (conf_hw env0 sys0)
    (dp_init hdr env0 (conf_hw env0 sys0)).state (Res.ok_of_isOk (by decide)) (by decide)
  have h2 := (sendq_invariant hdr env0).2.1 (msg MType.DL_WRITE 100 0) false false
    (dp_init hdr env0 (conf_hw env0 sys0)).state
    (do_vwrite hdr env0 (msg MType.DL_WRITE 100 0) false false
      (dp_init hdr env0 (conf_hw env0 sys0)).state).state (Res.ok_of_isOk (by decide)) h1
  have h3 := (sendq_invariant hdr env0).2.2.2.2.1
    (tx_int (do_vwrite hdr env0 (msg MType.DL_WRITE 100 0) false false
      (dp_init hdr env0 (conf_hw env0 sys0)).state).state)
    (dp_check_ints hdr env0 (tx_int (do_vwrite hdr env0 (msg MType.DL_WRITE 100 0)
      false false (dp_init hdr env0 (conf_hw env0 sys0)).state).state)).state
    (Res.ok_of_isOk (by decide)) h2
  exact ⟨h1, h2, h3⟩

theorem mess_reply_dep (E : Env) (m : Sent) (s : Sys) : (mess_reply E m s).state.dep = s.dep := by
  unfold mess_reply
  dsimp only
  split <;> rfl

theorem mess_reply_ok {E : Env} {m : Sent} {s s1 : Sys} (h : mess_reply E m s = Res.ok () s1) :
    s1.dep = s.dep := by
  have := mess_reply_dep E m s
  rw [h] at this
  exact this

theorem dp_confaddr_ok {E : Env} {s s1 : Sys} (h : dp_confaddr E s = Res.ok () s1) :
    ∃ a, s1 = { s with dep := { s.dep with de_address := a } } := by
  obtain ⟨a, e⟩ := dp_confaddr_dep E s
  rw [h] at e
  exact ⟨a, e⟩

theorem dp_init_ok {K : Hdr} {E : Env} {s s1 : Sys} (h : dp_init K E s = Res.ok () s1) :
    s1.dep.de_mode = s.dep.de_mode ∧ s1.dep.de_flags.DEF_ENABLED = true := by
  unfold dp_init at h
  dsimp only at h
  obtain ⟨a, s2, h2, h3⟩ := Res.bind_ok h
  obtain ⟨ad, e⟩ := dp_confaddr_ok h2
  cases h3
  subst e
  exact ⟨rfl, rfl⟩

theorem do_vread_size_state (K : Hdr) (E : Env) (mp : message) (v : Bool) (s : Sys) :
    ∃ ri tmp io1, (do_vread_size K E mp v s).state =
      { dep := { s.dep with de_read_iovec := ri, de_tmp_iovec := tmp }, io := io1 } := by
  unfold do_vread_size
  split
  · split
    · exact ⟨_, _, _, rfl⟩
    · dsimp only
      split
      · exact ⟨_, _, _, rfl⟩
      · exact ⟨_, _, _, rfl⟩
  · exact ⟨_, _, _, rfl⟩

theorem do_vread_size_static {d : dpeth} (K : Hdr) (E : Env) (mp : message) (v : Bool)
    (s : Sys) (h : Static d s.dep) : Static d (do_vread_size K E mp v s).state.dep := by
  obtain ⟨ri, tmp, io1, e⟩ := do_vread_size_state K E mp v s
  rw [e]
  exact h.step rfl rfl rfl (fun _ => rfl) rfl rfl rfl rfl rfl

theorem dp_recv_static {d : dpeth} (K : Hdr) (E : Env) (s : Sys) (h : Static d s.dep) :
    Static d (dp_recv K E s).state.dep :=
  h.strans (dp_recv_keeps K E s).static

theorem do_vread_static {d : dpeth} (K : Hdr) (E : Env) (mp : message) (v : Bool)
    (s : Sys) (h : Static d s.dep) : Static d (do_vread K E mp v s).state.dep := by
  have h0 : Static d { s.dep with de_client := mp.DL_PROC } :=
    h.step rfl rfl rfl (fun _ => rfl) rfl rfl rfl rfl rfl
  unfold do_vread
  split
  · exact h
  · dsimp only
    split
    · exact reply_static E 0 _ h0
    · split
      · exact h0
      · split
        · exact h0
        · split
          · exact h0
          · refine Res.bind_state (fun x : Sys => Static d x.dep) _ _ ?_ ?_
            · exact do_vread_size_static K E mp v _ h0
            · intro size s1 _ h1
              split
              · exact h1
              · refine Res.bind_state (fun x : Sys => Static d x.dep) _ _ ?_ ?_
                · exact dp_recv_static K E _
                    (h1.step rfl rfl rfl (fun _ => rfl) rfl rfl rfl rfl rfl)
                · intro _ s2 _ h2
                  refine Res.bind_state (fun x : Sys => Static d x.dep) _ _ ?_ ?_
                  · split
                    · exact dp_reset_static K E s2 h2
                    · exact h2
                  · intro _ s3 _ h3
                    exact reply_static E 0 s3 h3

theorem put_userdata_static {d : dpeth} (K : Hdr) (E : Env) (proc : Int) (addr : Nat)
    (s : Sys) (h : Static d s.dep) : Static d (put_userdata K E proc addr s).state.dep := by
  unfold put_userdata
  split <;> exact h

theorem do_getstat_static {d : dpeth} (K : Hdr) (E : Env) (mp : message)
    (s : Sys) (h : Static d s.dep) : Static d (do_getstat K E mp s).state.dep := by
  have h0 : Static d { s.dep with de_client := mp.DL_PROC } :=
    h.step rfl rfl rfl (fun _ => rfl) rfl rfl rfl rfl rfl
  unfold do_getstat
  split
  · exact h
  · dsimp only
    split
    · refine Res.bind_state (fun x : Sys => Static d x.dep) _ _ ?_ ?_
      · exact put_userdata_static K E _ _ _ h0
      · intro _ s1 _ h1
        exact reply_static E 0 s1 h1
    · split
      · exact h0
      · split
        · exact h0
        · refine Res.bind_state (fun x : Sys => Static d x.dep) _ _ ?_ ?_
          · exact put_userdata_static K E _ _ _
              (h0.step rfl rfl rfl (fun _ => rfl) rfl rfl rfl rfl rfl)
          · intro _ s1 _ h1
            exact reply_static E 0 s1 h1

theorem do_int_static {d : dpeth} (E : Env) (s : Sys) (h : Static d s.dep) :
    Static d (do_int E s).state.dep := by
  unfold do_int
  split
  · exact reply_static E 0 s h
  · exact h

theorem Static.of_ok {d : dpeth} {α : Type} {r : Res Sys α} {a : α} {s1 : Sys}
    (h : r = Res.ok a s1) (hs : Static d r.state.dep) : Static d s1.dep := by
  rw [h] at hs
  exact hs

/-! ### `DEF_ENABLED` is only set in mode `DEM_ENABLED` -/

theorem enabled_of_static {d d1 : dpeth}
    (hI : d.de_flags.DEF_ENABLED = true → d.de_mode = Mode.DEM_ENABLED) (hs : Static d d1) :
    d1.de_flags.DEF_ENABLED = true → d1.de_mode = Mode.DEM_ENABLED := by
  intro h
  rw [hs.mode]
  exact hI (by rw [← hs.enabled]; exact h)

theorem conf_hw_flag (E : Env) (s : Sys) (hf : s.dep.de_flags.DEF_ENABLED = false) :
    (conf_hw E s).dep.de_flags.DEF_ENABLED = false := by
  unfold conf_hw
  dsimp only
  split
  · exact hf
  · split
    · exact hf
    · rfl

theorem dp_reinit_dep (K : Hdr) (s : Sys) : (dp_reinit K s).dep = s.dep := by
  unfold dp_reinit
  rfl

theorem do_init_rest_flag {K : Hdr} {E : Env} {mp : message} {s s1 : Sys}
    (hI : s.dep.de_flags.DEF_ENABLED = true → s.dep.de_mode = Mode.DEM_ENABLED)
    (h : (if s.dep.de_mode = Mode.DEM_SINK then
        (dp_confaddr E { s with dep := { s.dep with de_address := [0, 0, 0, 0, 0, 0] } }).bind
          fun _ s1 => mess_reply E (Sent.init_reply mp.m_source mp.DL_PORT (some DE_PORT_NR)
            (some s1.dep.de_address)) s1
      else if s.dep.de_mode ≠ Mode.DEM_ENABLED then Res.halt Halt.assertion s
      else if ¬ s.dep.de_flags.DEF_ENABLED then Res.halt Halt.assertion s
      else
        mess_reply E (Sent.init_reply mp.m_source mp.DL_PORT (some DE_PORT_NR)
          (some (dp_reinit K { s with dep := { s.dep with
          de_client := mp.m_source,
          de_flags := { s.dep.de_flags with
            DEF_PROMISC := bit mp.DL_MODE K.DL_PROMISC_REQ,
            DEF_MULTI := bit mp.DL_MODE K.DL_PROMISC_REQ || bit mp.DL_MODE K.DL_MULTI_REQ,
            DEF_BROAD := bit mp.DL_MODE K.DL_PROMISC_REQ || bit mp.DL_MODE K.DL_BROAD_REQ } } }).dep.de_address))
          (dp_reinit K { s with dep := { s.dep with
          de_client := mp.m_source,
          de_flags := { s.dep.de_flags with
            DEF_PROMISC := bit mp.DL_MODE K.DL_PROMISC_REQ,
            DEF_MULTI := bit mp.DL_MODE K.DL_PROMISC_REQ || bit mp.DL_MODE K.DL_MULTI_REQ,
            DEF_BROAD := bit mp.DL_MODE K.DL_PROMISC_REQ || bit mp.DL_MODE K.DL_BROAD_REQ } } }))
        = Res.ok () s1) :
    s1.dep.de_flags.DEF_ENABLED = true → s1.dep.de_mode = Mode.DEM_ENABLED := by
  split at h
  · obtain ⟨_, s2, h2, h3⟩ := Res.bind_ok h
    obtain ⟨a, e⟩ := dp_confaddr_ok h2
    have e3 := mess_reply_ok h3
    rw [e3, e]
    exact hI
  · split at h
    · cases h
    · split at h
      · cases h
      · have e3 := mess_reply_ok h
        rw [e3, dp_reinit_dep]
        exact hI

theorem do_init_flag {K : Hdr} {E : Env} {mp : message} {s s1 : Sys}
    (h : do_init K E mp s = Res.ok () s1)
    (hI : s.dep.de_flags.DEF_ENABLED = true → s.dep.de_mode = Mode.DEM_ENABLED) :
    s1.dep.de_flags.DEF_ENABLED = true → s1.dep.de_mode = Mode.DEM_ENABLED := by
  unfold do_init at h
  split at h
  · rw [mess_reply_ok h]
    exact hI
  · dsimp only at h
    split at h
    · rename_i hp hm
      have hf : s.dep.de_flags.DEF_ENABLED = false := by
        by_contra hc
        have := hI (by simpa using hc)
        rw [hm] at this
        cases this
      have hc := conf_hw_flag E s hf
      split at h
      · rw [mess_reply_ok h]
        intro x
        rw [hc] at x
        cases x
      · split at h
        · rename_i hen
          obtain ⟨_, s2, h2, h3⟩ := Res.bind_ok h
          have hi := dp_init_ok h2
          refine do_init_rest_flag ?_ h3
          intro _
          rw [hi.1]
          exact hen
        · split at h
          · obtain ⟨_, s2, h2, h3⟩ := Res.bind_ok h
            obtain ⟨a, e⟩ := dp_confaddr_ok h2
            rw [mess_reply_ok h3, e]
            intro x
            exact absurd (show (conf_hw E s).dep.de_flags.DEF_ENABLED = true from x)
              (by rw [hc]; decide)
          · cases h
    · exact do_init_rest_flag hI h

theorem do_stop_flag {K : Hdr} {E : Env} {mp : message} {s s1 : Sys}
    (h : do_stop K E mp s = Res.ok () s1)
    (hI : s.dep.de_flags.DEF_ENABLED = true → s.dep.de_mode = Mode.DEM_ENABLED) :
    s1.dep.de_flags.DEF_ENABLED = true → s1.dep.de_mode = Mode.DEM_ENABLED := by
  unfold do_stop at h
  split at h
  · cases h
  · split at h
    · cases h
      exact hI
    · split at h
      · cases h
      · split at h
        · cases h
          exact hI
        · cases h
          intro x
          cases x

theorem dp8390_task_flag {K : Hdr} {E : Env} {m : message} {pending : Bool} {s s1 : Sys}
    (h : dp8390_task K E m pending s = Res.ok () s1)
    (hI : s.dep.de_flags.DEF_ENABLED = true → s.dep.de_mode = Mode.DEM_ENABLED) :
    s1.dep.de_flags.DEF_ENABLED = true → s1.dep.de_mode = Mode.DEM_ENABLED := by
  unfold dp8390_task at h
  split at h
  · exact enabled_of_static hI
      (Static.of_ok h (do_vwrite_static K E _ _ _ _ (Static.srefl _)))
  · exact enabled_of_static hI
      (Static.of_ok h (do_vwrite_static K E _ _ _ _ (Static.srefl _)))
  · exact enabled_of_static hI (Static.of_ok h (do_vread_static K E _ _ _ (Static.srefl _)))
  · exact enabled_of_static hI (Static.of_ok h (do_vread_static K E _ _ _ (Static.srefl _)))
  · exact do_init_flag h hI
  · exact enabled_of_static hI (Static.of_ok h (do_getstat_static K E _ _ (Static.srefl _)))
  · exact do_stop_flag h hI
  · split at h
    · cases h
      exact hI
    · split at h
      · cases h
      · split at h
        · cases h
        · split at h
          · obtain ⟨_, s2, h2, h3⟩ := Res.bind_ok h
            have hs2 : Static s.dep s2.dep :=
              Static.of_ok h2 (dp_check_ints_static K E s (Static.srefl _))
            have hs3 : Static s.dep s1.dep := Static.of_ok h3 (do_int_static E s2 hs2)
            exact enabled_of_static hI hs3
          · cases h
            exact hI
  · cases h

theorem reachable_flag (K : Hdr) (s : Sys) (h : Reachable K s) :
    s.dep.de_flags.DEF_ENABLED = true → s.dep.de_mode = Mode.DEM_ENABLED := by
  induction h with
  | start s hm hf =>
    intro x
    rw [hf] at x
    cases x
  | turn E m pending s s1 _ hr ih => exact dp8390_task_flag hr ih
  | outside s io _ ih => exact ih

/-! ### The same in the build without `DEBUG` -/

/-- The assertion of `dp_getblock` does not fail in `read_frame`, whose sizes
are even: `read_frame` is the same in both builds. -/
theorem read_frame_no_assert (K : Hdr) (f : Xfer) (pageno : Nat) (io io1 : Io) :
    read_frame K f pageno io ≠ Res.halt Halt.assertion io1 := by
  cases f <;>
    simp [read_frame, call_getblock, dp_getblock, dp_pio8_getblock, dp_pio16_getblock,
      SIZEOF_RCVHDR, Res.bind]

theorem do_vwrite_size_nd_static {d : dpeth} (K : Hdr) (E : Env) (X : Xfers) (mp : message)
    (v : Bool) (s : Sys) (h : Static d s.dep) :
    Static d (do_vwrite_size_nd K E X mp v s).state.dep := by
  unfold do_vwrite_size_nd
  split
  · split
    · exact h
    · dsimp only
      split
      · exact h.step rfl rfl rfl (fun _ => rfl) rfl rfl rfl rfl rfl
      · exact h.step rfl rfl rfl (fun _ => rfl) rfl rfl rfl rfl rfl
  · exact h.step rfl rfl rfl (fun _ => rfl) rfl rfl rfl rfl rfl

theorem do_vwrite_send_nd_static {d : dpeth} (K : Hdr) (E : Env) (X : Xfers) (fi : Bool)
    (size : Int) (s : Sys) (h : Static d s.dep) :
    Static d (do_vwrite_send_nd K E X fi size s).state.dep := by
  unfold do_vwrite_send_nd
  split
  · exact h
  · split
    · exact h
    · rename_i wi io1 hcall
      dsimp only
      have h1 : Static d (fill_head K size.toNat
          { dep := { s.dep with de_write_iovec := wi }, io := io1 }).dep :=
        fill_head_static K _ _ (h.step rfl rfl rfl (fun _ => rfl) rfl rfl rfl rfl rfl)
      have h2 := advance_head_static _ h1
      split
      · exact h2
      · exact reply_static E 0 _ h2

theorem do_vwrite_nd_static {d : dpeth} (K : Hdr) (E : Env) (X : Xfers) (mp : message)
    (fi v : Bool) (s : Sys) (h : Static d s.dep) :
    Static d (do_vwrite_nd K E X mp fi v s).state.dep := by
  have h0 : Static d { s.dep with de_client := mp.DL_PROC } :=
    h.step rfl rfl rfl (fun _ => rfl) rfl rfl rfl rfl rfl
  unfold do_vwrite_nd
  split
  · exact h
  · dsimp only
    split
    · exact reply_static E 0 _ (h.step rfl rfl rfl (fun _ => rfl) rfl rfl rfl rfl rfl)
    · split
      · exact h0
      · split
        · split
          · exact h0
          · exact reply_static E 0 _ (h.step rfl rfl rfl (fun _ => rfl) rfl rfl rfl rfl rfl)
        · refine Res.bind_state (fun x : Sys => Static d x.dep) _ _ ?_ ?_
          · exact do_vwrite_size_nd_static K E X mp v _ h0
          · intro size s2 h2 h3
            exact do_vwrite_send_nd_static K E X fi size s2 h3

theorem dp_send_nd_static {d : dpeth} (K : Hdr) (E : Env) (X : Xfers) (s : Sys)
    (h : Static d s.dep) : Static d (dp_send_nd K E X s).state.dep := by
  have h0 : Static d { s.dep with
      de_flags := { s.dep.de_flags with DEF_SEND_AVAIL := false } } :=
    h.step rfl rfl rfl (fun _ => rfl) rfl rfl rfl rfl rfl
  unfold dp_send_nd
  split
  · exact h
  · dsimp only
    split
    · exact do_vwrite_nd_static K E X _ _ _ _ h0
    · exact do_vwrite_nd_static K E X _ _ _ _ h0
    · exact h0

theorem dp_reset_nd_static {d : dpeth} (K : Hdr) (E : Env) (X : Xfers) (s : Sys)
    (h : Static d s.dep) : Static d (dp_reset_nd K E X s).state.dep := by
  unfold dp_reset_nd
  dsimp only
  refine Res.bind_state (fun x : Sys => Static d x.dep) _ _ ?_ ?_
  · exact dp_send_nd_static K E X _
      (h.step rfl rfl rfl (fun i => clear_sendq_sendpage _ _ i) rfl rfl rfl rfl rfl)
  · intro a s2 h2 h3
    exact h3.step rfl rfl rfl (fun _ => rfl) rfl rfl rfl rfl rfl

theorem dp_pkt2user_nd_static {d : dpeth} (K : Hdr) (X : Xfers) (page length : Nat) (s : Sys)
    (h : Static d s.dep) : Static d (dp_pkt2user_nd K X page length s).state.dep := by
  unfold dp_pkt2user_nd
  split
  · exact h
  · dsimp only
    split
    · split
      · exact h.step rfl rfl rfl (fun _ => rfl) rfl rfl rfl rfl rfl
      · split
        · exact h.step rfl rfl rfl (fun _ => rfl) rfl rfl rfl rfl rfl
        · exact h.step rfl rfl rfl (fun _ => rfl) rfl rfl rfl rfl rfl
    · split
      · exact h.step rfl rfl rfl (fun _ => rfl) rfl rfl rfl rfl rfl
      · exact h.step rfl rfl rfl (fun _ => rfl) rfl rfl rfl rfl rfl

theorem static_of_dep_eq {d d1 d2 : dpeth} (h : d2 = d1) (h1 : Static d d1) : Static d d2 := by
  subst h
  exact h1

theorem dp_recv_frame_nd_static {d : dpeth} (K : Hdr) (E : Env) (X : Xfers)
    (pageno curr : Nat) (fr : Frame) (s : Sys) (h : Static d s.dep) :
    Static d (dp_recv_frame_nd K E X pageno curr fr s).state.dep := by
  have hk : ∀ (n : Nat) (x : Sys), Static d x.dep → Static d (write_bnry K n x).dep :=
    fun n x h => static_of_dep_eq (write_bnry_dep K n x) h
  have hc : ∀ x : Sys, Static d x.dep → Static d (count_packetR K x).dep := fun x h =>
    h.step rfl rfl rfl (fun _ => rfl) rfl rfl rfl rfl rfl
  unfold dp_recv_frame_nd
  dsimp only
  split
  · exact hk _ _ (h.step rfl rfl rfl (fun _ => rfl) rfl rfl rfl rfl rfl)
  · split
    · exact hk _ _ (h.step rfl rfl rfl (fun _ => rfl) rfl rfl rfl rfl rfl)
    · split
      · exact hk _ _ h
      · split
        · exact hk _ _ h
        · split
          · exact hk _ _ (hc _ h)
          · split
            · refine Res.bind_state (fun x : Sys => Static d x.dep) _ _ ?_ ?_
              · exact dp_pkt2user_nd_static K X _ _ s h
              · intro r s2 h2 h3
                split
                · exact h3
                · exact hk _ _ (hc _ h3)
            · exact hk _ _ h

theorem dp_recv_iter_nd_static {d : dpeth} (K : Hdr) (E : Env) (X : Xfers) (pageno : Nat)
    (s : Sys) (h : Static d s.dep) : Static d (dp_recv_iter_nd K E X pageno s).state.dep := by
  unfold dp_recv_iter_nd
  dsimp only
  split
  · exact h
  · refine Res.bind_state (fun x : Sys => Static d x.dep) _ _ ?_ ?_
    · simp only [lift_io_state_dep]
      exact h
    · intro fr s1 h1 _
      have h2 := (lift_io_ok h1).1
      exact dp_recv_frame_nd_static K E X pageno _ fr s1 (static_of_dep_eq h2 h)

theorem dp_recv_loop_nd_static {d : dpeth} (K : Hdr) (E : Env) (X : Xfers)
    (fuel pageno : Nat) (s : Sys) (h : Static d s.dep) :
    Static d (dp_recv_loop_nd K E X fuel pageno s).state.dep := by
  induction fuel generalizing pageno s with
  | zero => exact h
  | succ n ih =>
    unfold dp_recv_loop_nd
    refine Res.bind_state (fun x : Sys => Static d x.dep) _ _ ?_ ?_
    · exact dp_recv_iter_nd_static K E X pageno s h
    · intro r s1 h1 h2
      cases r with
      | none => exact h2
      | some next => exact ih next s1 h2

theorem dp_recv_nd_static {d : dpeth} (K : Hdr) (E : Env) (X : Xfers) (fuel : Nat) (s : Sys)
    (h : Static d s.dep) : Static d (dp_recv_nd K E X fuel s).state.dep :=
  dp_recv_loop_nd_static K E X _ _ s h

theorem dp_check_ints_tx_nd_static {d : dpeth} (K : Hdr) (E : Env) (X : Xfers) (isr : Nat)
    (s : Sys) (h : Static d s.dep) :
    Static d (dp_check_ints_tx_nd K E X isr s).state.dep := by
  unfold dp_check_ints_tx_nd
  dsimp only
  have h1 := tx_stat_static K isr s h
  have h2 := tx_complete_static K _ h1
  split
  · exact h1
  · split
    · refine Res.bind_state (fun x : Sys => Static d x.dep) _ _ ?_ ?_
      · exact dp_send_nd_static K E X _ h2
      · intro a s4 h4 h5
        exact h5
    · exact h2

theorem dp_check_ints_rx_nd_static {d : dpeth} (K : Hdr) (E : Env) (X : Xfers) (fuel : Nat)
    (isr : Nat) (s : Sys) (h : Static d s.dep) :
    Static d (dp_check_ints_rx_nd K E X fuel isr s).state.dep := by
  unfold dp_check_ints_rx_nd
  have h1 : Static d (if bit isr K.ISR_PRX = true then dp_recv_nd K E X fuel s
      else Res.ok () s).state.dep := by
    split
    · exact dp_recv_nd_static K E X fuel s h
    · exact h
  refine Res.bind_state (fun x : Sys => Static d x.dep) _ _ h1 ?_
  intro a s1 e1 h1
  dsimp only
  have h2 : Static d (if bit isr K.ISR_RXE = true then
      ({ s1 with dep := { s1.dep with
        de_stat := { s1.dep.de_stat with ets_recvErr := uladd K s1.dep.de_stat.ets_recvErr 1 } } } : Sys)
      else s1).dep := by
    split
    · exact h1.step rfl rfl rfl (fun _ => rfl) rfl rfl rfl rfl rfl
    · exact h1
  split
  · split
    · exact h2.step rfl rfl rfl (fun _ => rfl) rfl rfl rfl rfl rfl
    · exact h2.step rfl rfl rfl (fun _ => rfl) rfl rfl rfl rfl rfl
  · split
    · exact h2.step rfl rfl rfl (fun _ => rfl) rfl rfl rfl rfl rfl
    · exact h2

theorem dp_check_ints_loop_nd_static {d : dpeth} (K : Hdr) (E : Env) (X : Xfers) (f : Nat)
    (fuel : Nat) (s : Sys) (h : Static d s.dep) :
    Static d (dp_check_ints_loop_nd K E X f fuel s).state.dep := by
  induction fuel generalizing s with
  | zero => exact h
  | succ n ih =>
    unfold dp_check_ints_loop_nd
    dsimp only
    split
    · exact h
    · have h1 : Static d (if bit (inb_isr s.io).1 (K.ISR_PTX ||| K.ISR_TXE) = true then
          dp_check_ints_tx_nd K E X (inb_isr s.io).1
            (Sys.mk s.dep (outb_reg0 Reg.DP_ISR ((inb_isr s.io).1 : Int) (inb_isr s.io).2))
          else Res.ok false
            (Sys.mk s.dep (outb_reg0 Reg.DP_ISR ((inb_isr s.io).1 : Int)
              (inb_isr s.io).2))).state.dep := by
        split
        · exact dp_check_ints_tx_nd_static K E X _ _ h
        · exact h
      refine Res.bind_state (fun x : Sys => Static d x.dep) _ _ h1 ?_
      intro cont s2 e2 h1
      split
      · exact ih s2 h1
      · have h3 := dp_check_ints_rx_nd_static K E X f (inb_isr s.io).1 s2 h1
        refine Res.bind_state (fun x : Sys => Static d x.dep) _ _ h3 ?_
        intro brk s3 e3 h3
        split
        · exact h3
        · exact ih s3 h3

theorem dp_check_ints_nd_static {d : dpeth} (K : Hdr) (E : Env) (X : Xfers) (fuel : Nat)
    (s : Sys) (h : Static d s.dep) : Static d (dp_check_ints_nd K E X fuel s).state.dep := by
  unfold dp_check_ints_nd
  split
  · exact h
  · have h1 := dp_check_ints_loop_nd_static K E X fuel fuel s h
    refine Res.bind_state (fun x : Sys => Static d x.dep) _ _ h1 ?_
    intro a s1 e1 h1
    split
    · exact dp_reset_nd_static K E X s1 h1
    · exact h1

theorem do_vread_size_nd_static {d : dpeth} (K : Hdr) (E : Env) (X : Xfers) (mp : message)
    (v : Bool) (s : Sys) (h : Static d s.dep) :
    Static d (do_vread_size_nd K E X mp v s).state.dep := by
  unfold do_vread_size_nd
  split
  · split
    · exact h
    · dsimp only
      split
      · exact h.step rfl rfl rfl (fun _ => rfl) rfl rfl rfl rfl rfl
      · exact h.step rfl rfl rfl (fun _ => rfl) rfl rfl rfl rfl rfl
  · exact h.step rfl rfl rfl (fun _ => rfl) rfl rfl rfl rfl rfl

theorem do_vread_nd_static {d : dpeth} (K : Hdr) (E : Env) (X : Xfers) (fuel : Nat)
    (mp : message) (v : Bool) (s : Sys) (h : Static d s.dep) :
    Static d (do_vread_nd K E X fuel mp v s).state.dep := by
  have h0 : Static d { s.dep with de_client := mp.DL_PROC } :=
    h.step rfl rfl rfl (fun _ => rfl) rfl rfl rfl rfl rfl
  unfold do_vread_nd
  split
  · exact h
  · dsimp only
    split
    · exact reply_static E 0 _ h0
    · split
      · exact h0
      · refine Res.bind_state (fun x : Sys => Static d x.dep) _ _ ?_ ?_
        · exact do_vread_size_nd_static K E X mp v _ h0
        · intro size s1 _ h1
          split
          · exact h1
          · refine Res.bind_state (fun x : Sys => Static d x.dep) _ _ ?_ ?_
            · exact dp_recv_nd_static K E X fuel _
                (h1.step rfl rfl rfl (fun _ => rfl) rfl rfl rfl rfl rfl)
            · intro _ s2 _ h2
              refine Res.bind_state (fun x : Sys => Static d x.dep) _ _ ?_ ?_
              · split
                · exact dp_reset_nd_static K E X s2 h2
                · exact h2
              · intro _ s3 _ h3
                exact reply_static E 0 s3 h3

theorem do_getstat_nd_static {d : dpeth} (K : Hdr) (E : Env) (mp : message)
    (s : Sys) (h : Static d s.dep) : Static d (do_getstat_nd K E mp s).state.dep := by
  have h0 : Static d { s.dep with de_client := mp.DL_PROC } :=
    h.step rfl rfl rfl (fun _ => rfl) rfl rfl rfl rfl rfl
  unfold do_getstat_nd
  split
  · exact h
  · dsimp only
    split
    · refine Res.bind_state (fun x : Sys => Static d x.dep) _ _ ?_ ?_
      · exact put_userdata_static K E _ _ _ h0
      · intro _ s1 _ h1
        exact reply_static E 0 s1 h1
    · refine Res.bind_state (fun x : Sys => Static d x.dep) _ _ ?_ ?_
      · exact put_userdata_static K E _ _ _
          (h0.step rfl rfl rfl (fun _ => rfl) rfl rfl rfl rfl rfl)
      · intro _ s1 _ h1
        exact reply_static E 0 s1 h1

theorem do_init_rest_nd_flag {K : Hdr} {E : Env} {mp : message} {s s1 : Sys}
    (hI : s.dep.de_flags.DEF_ENABLED = true → s.dep.de_mode = Mode.DEM_ENABLED)
    (h : (if s.dep.de_mode = Mode.DEM_SINK then
        (dp_confaddr E { s with dep := { s.dep with de_address := [0, 0, 0, 0, 0, 0] } }).bind
          fun _ s1 => mess_reply E (Sent.init_reply mp.m_source mp.DL_PORT (some DE_PORT_NR)
            (some s1.dep.de_address)) s1
      else
        mess_reply E (Sent.init_reply mp.m_source mp.DL_PORT (some DE_PORT_NR)
          (some (dp_reinit K { s with dep := { s.dep with
          de_client := mp.m_source,
          de_flags := { s.dep.de_flags with
            DEF_PROMISC := bit mp.DL_MODE K.DL_PROMISC_REQ,
            DEF_MULTI := bit mp.DL_MODE K.DL_PROMISC_REQ || bit mp.DL_MODE K.DL_MULTI_REQ,
            DEF_BROAD := bit mp.DL_MODE K.DL_PROMISC_REQ || bit mp.DL_MODE K.DL_BROAD_REQ } } }).dep.de_address))
          (dp_reinit K { s with dep := { s.dep with
          de_client := mp.m_source,
          de_flags := { s.dep.de_flags with
            DEF_PROMISC := bit mp.DL_MODE K.DL_PROMISC_REQ,
            DEF_MULTI := bit mp.DL_MODE K.DL_PROMISC_REQ || bit mp.DL_MODE K.DL_MULTI_REQ,
            DEF_BROAD := bit mp.DL_MODE K.DL_PROMISC_REQ || bit mp.DL_MODE K.DL_BROAD_REQ } } }))
        = Res.ok () s1) :
    s1.dep.de_flags.DEF_ENABLED = true → s1.dep.de_mode = Mode.DEM_ENABLED := by
  split at h
  · obtain ⟨_, s2, h2, h3⟩ := Res.bind_ok h
    obtain ⟨a, e⟩ := dp_confaddr_ok h2
    have e3 := mess_reply_ok h3
    rw [e3, e]
    exact hI
  · have e3 := mess_reply_ok h
    rw [e3, dp_reinit_dep]
    exact hI

theorem do_init_nd_flag {K : Hdr} {E : Env} {mp : message} {s s1 : Sys}
    (h : do_init_nd K E mp s = Res.ok () s1)
    (hI : s.dep.de_flags.DEF_ENABLED = true → s.dep.de_mode = Mode.DEM_ENABLED) :
    s1.dep.de_flags.DEF_ENABLED = true → s1.dep.de_mode = Mode.DEM_ENABLED := by
  unfold do_init_nd at h
  split at h
  · rw [mess_reply_ok h]
    exact hI
  · dsimp only at h
    split at h
    · rename_i hp hm
      have hf : s.dep.de_flags.DEF_ENABLED = false := by
        by_contra hc
        have := hI (by simpa using hc)
        rw [hm] at this
        cases this
      have hc := conf_hw_flag E s hf
      split at h
      · rw [mess_reply_ok h]
        intro x
        rw [hc] at x
        cases x
      · split at h
        · rename_i hen
          obtain ⟨_, s2, h2, h3⟩ := Res.bind_ok h
          have hi := dp_init_ok h2
          refine do_init_rest_nd_flag ?_ h3
          intro _
          rw [hi.1]
          exact hen
        · split at h
          · obtain ⟨_, s2, h2, h3⟩ := Res.bind_ok h
            obtain ⟨a, e⟩ := dp_confaddr_ok h2
            rw [mess_reply_ok h3, e]
            intro x
            exact absurd (show (conf_hw E s).dep.de_flags.DEF_ENABLED = true from x)
              (by rw [hc]; decide)
          · rw [mess_reply_ok h, dp_reinit_dep]
            intro x
            exact absurd (show (conf_hw E s).dep.de_flags.DEF_ENABLED = true from x)
              (by rw [hc]; decide)
    · exact do_init_rest_nd_flag hI h

theorem do_stop_nd_flag {K : Hdr} {E : Env} {mp : message} {s s1 : Sys}
    (h : do_stop_nd K E mp s = Res.ok () s1)
    (hI : s.dep.de_flags.DEF_ENABLED = true → s.dep.de_mode = Mode.DEM_ENABLED) :
    s1.dep.de_flags.DEF_ENABLED = true → s1.dep.de_mode = Mode.DEM_ENABLED := by
  unfold do_stop_nd at h
  split at h
  · cases h
  · split at h
    · cases h
      exact hI
    · split at h
      · cases h
        exact hI
      · cases h
        intro x
        cases x

theorem dp8390_task_nd_flag {K : Hdr} {E : Env} {X : Xfers} {fuel : Nat} {m : message}
    {pending : Bool} {s s1 : Sys}
    (h : dp8390_task_nd K E X fuel m pending s = Res.ok () s1)
    (hI : s.dep.de_flags.DEF_ENABLED = true → s.dep.de_mode = Mode.DEM_ENABLED) :
    s1.dep.de_flags.DEF_ENABLED = true → s1.dep.de_mode = Mode.DEM_ENABLED := by
  unfold dp8390_task_nd at h
  split at h
  · exact enabled_of_static hI
      (Static.of_ok h (do_vwrite_nd_static K E X _ _ _ _ (Static.srefl _)))
  · exact enabled_of_static hI
      (Static.of_ok h (do_vwrite_nd_static K E X _ _ _ _ (Static.srefl _)))
  · exact enabled_of_static hI
      (Static.of_ok h (do_vread_nd_static K E X fuel _ _ _ (Static.srefl _)))
  · exact enabled_of_static hI
      (Static.of_ok h (do_vread_nd_static K E X fuel _ _ _ (Static.srefl _)))
  · exact do_init_nd_flag h hI
  · exact enabled_of_static hI
      (Static.of_ok h (do_getstat_nd_static K E _ _ (Static.srefl _)))
  · exact do_stop_nd_flag h hI
  · split at h
    · cases h
      exact hI
    · split at h
      · obtain ⟨_, s2, h2, h3⟩ := Res.bind_ok h
        have hs2 : Static s.dep s2.dep :=
          Static.of_ok h2 (dp_check_ints_nd_static K E X fuel s (Static.srefl _))
        have hs3 : Static s.dep s1.dep := Static.of_ok h3 (do_int_static E s2 hs2)
        exact enabled_of_static hI hs3
      · cases h
        exact hI
  · cases h

theorem reachable_nd_flag (K : Hdr) (s : Sys) (h : ReachableNd K s) :
    s.dep.de_flags.DEF_ENABLED = true → s.dep.de_mode = Mode.DEM_ENABLED := by
  induction h with
  | start s hm hf =>
    intro x
    rw [hf] at x
    cases x
  | turn E X fuel m pending s s1 _ hr ih => exact dp8390_task_nd_flag hr ih
  | outside s io _ ih => exact ih

theorem sys1_reachable : Reachable hdr sys1 :=
  Reachable.turn env0 (msg MType.DL_INIT 0 0) false sys0 sys1
    (Reachable.start sys0 rfl rfl) (Res.ok_of_isOk (by decide))

theorem sys_nd_read_reachable : ReachableNd hdr sys_nd_read :=
  ReachableNd.turn env0 (xfers0 hdr env0) 2 (msg MType.DL_READ 1514 1000) false sys_nd_stop _
    (ReachableNd.turn env0 (xfers0 hdr env0) 2 (msg MType.DL_STOP 0 0) false sys_nd_init _
      (ReachableNd.turn env0 (xfers0 hdr env0) 2 (msg MType.DL_INIT 0 0) false sys0 _
        (ReachableNd.start sys0 rfl rfl) (Res.ok_of_isOk (by decide)))
      (Res.ok_of_isOk (by decide)))
    (Res.ok_of_isOk (by decide))

/-- C9 (amended): in every state a port entry reaches through the requests
(`Init`, `Write`/`WriteV`, `Read`/`ReadV`, `GetStat`, `Stop`) and the interrupt
handling, `DEF_ENABLED` set implies mode `DEM_ENABLED`.  This holds in the
build in which a failing `assert` ends the run (`Reachable`) and in the build
without `DEBUG`, in which `assert` expands to nothing (`ReachableNd`).  The
converse is not kept: `Stop` clears the flags and leaves the mode
`DEM_ENABLED`. -/
theorem enabled_flag_invariant (K : Hdr) (s : Sys) (h : Reachable K s ∨ ReachableNd K s) :
    s.dep.de_flags.DEF_ENABLED = true → s.dep.de_mode = Mode.DEM_ENABLED :=
  h.elim (reachable_flag K s) (reachable_nd_flag K s)

set_option maxRecDepth 100000 in
/-- The invariant at work.  The state after `Init` on the fresh port 0 is
reachable, its mode is `DEM_ENABLED` and the flag is set.  The state after
`Init`, `Stop` and a `Read` in the build without `DEBUG` is reachable there:
the read is posted (`DEF_READING` is set) in mode `DEM_ENABLED` with
`DEF_ENABLED` clear. -/
theorem enabled_flag_invariant_witness :
    (Reachable hdr sys1 ∨ ReachableNd hdr sys1) ∧
    sys1.dep.de_flags.DEF_ENABLED = true ∧
    (sys1.dep.de_flags.DEF_ENABLED = true → sys1.dep.de_mode = Mode.DEM_ENABLED) ∧
    (Reachable hdr sys_nd_read ∨ ReachableNd hdr sys_nd_read) ∧
    sys_nd_read.dep.de_mode = Mode.DEM_ENABLED ∧
    sys_nd_read.dep.de_flags.DEF_READING = true ∧
    sys_nd_read.dep.de_flags.DEF_ENABLED = false ∧
    (sys_nd_read.dep.de_flags.DEF_ENABLED = true →
      sys_nd_read.dep.de_mode = Mode.DEM_ENABLED) :=
  ⟨Or.inl sys1_reachable, by decide,
    enabled_flag_invariant hdr sys1 (Or.inl sys1_reachable),
    Or.inr sys_nd_read_reachable, by decide, by decide, by decide,
    enabled_flag_invariant hdr sys_nd_read (Or.inr sys_nd_read_reachable)⟩

set_option maxRecDepth 100000 in
/-- C9 as stated fails: `Init` followed by `Stop` on port 0 is a run of
requests that all return, and in the state it reaches the mode is
`DEM_ENABLED` while `DEF_ENABLED` is clear. -/
theorem enabled_iff_mode_counterexample :
    Reachable hdr sys_stop ∧ sys_stop.dep.de_mode = Mode.DEM_ENABLED ∧
    sys_stop.dep.de_flags.DEF_ENABLED = false ∧
    ¬ (sys_stop.dep.de_flags.DEF_ENABLED = true ↔ sys_stop.dep.de_mode = Mode.DEM_ENABLED) :=
  ⟨Reachable.turn env0 (msg MType.DL_STOP 0 0) false sys1 _ sys1_reachable
     (Res.ok_of_isOk (by decide)),
   by decide, by decide, by decide⟩

/-- C10 (amended): on a valid port in mode `DEM_ENABLED` with `DEF_ENABLED`
set, `do_stop` returns after writing the stop command `CR_STP | CR_DM_ABORT`
to `DP_CR` and calling the card's stop hook; it sends nothing itself, and in
the port entry it changes the flags only, which become `DEF_EMPTY` (so no
deferred write and no posted read remain): the mode stays `DEM_ENABLED` and
the send queue, its `filled` marks included, its head and its tail are as
before.  On a port in mode `DEM_SINK`, or with `DEF_ENABLED` clear, `do_stop`
returns with the state unchanged. -/
theorem do_stop_spec (K : Hdr) (E : Env) (mp : message) (s : Sys)
    (hp : bad_port mp.DL_PORT = false) :
    (s.dep.de_mode = Mode.DEM_ENABLED → s.dep.de_flags.DEF_ENABLED = true →
      do_stop K E mp s = Res.ok ()
        { dep := { s.dep with de_flags := DEF_EMPTY },
          io := E.stopf { s.io with out := s.io.out ++
            [Ev.outb0 Reg.DP_CR ((K.CR_STP ||| K.CR_DM_ABORT : Nat) : Int), Ev.stopf] } }) ∧
    (s.dep.de_mode = Mode.DEM_SINK ∨
      (s.dep.de_mode = Mode.DEM_ENABLED ∧ s.dep.de_flags.DEF_ENABLED = false) →
      do_stop K E mp s = Res.ok () s) := by
  constructor
  · intro hm hf
    unfold do_stop
    rw [if_neg (by rw [hp]; decide), if_neg (by rw [hm]; decide), if_neg (by rw [hm]; simp),
      if_neg (by rw [hf]; simp)]
    simp [outb_reg0]
  · intro h
    unfold do_stop
    rw [if_neg (by rw [hp]; decide)]
    rcases h with h | ⟨hm, hf⟩
    · rw [if_pos h]
    · rw [if_neg (by rw [hm]; decide), if_neg (by rw [hm]; simp), if_pos (by rw [hf]; simp)]

set_option maxRecDepth 100000 in
/-- The amended statement at work: `Stop` on port 0 after `Init` and a `Write`. -/
theorem do_stop_spec_witness :
    bad_port (msg MType.DL_STOP 0 0).DL_PORT = false ∧
    sys2.dep.de_mode = Mode.DEM_ENABLED ∧ sys2.dep.de_flags.DEF_ENABLED = true ∧
    do_stop hdr env0 (msg MType.DL_STOP 0 0) sys2 = Res.ok ()
      { dep := { sys2.dep with de_flags := DEF_EMPTY },
        io := env0.stopf { sys2.io with out := sys2.io.out ++
          [Ev.outb0 Reg.DP_CR ((hdr.CR_STP ||| hdr.CR_DM_ABORT : Nat) : Int), Ev.stopf] } } :=
  ⟨by decide, by decide, by decide,
   (do_stop_spec hdr env0 (msg MType.DL_STOP 0 0) sys2 (by decide)).1 (by decide) (by decide)⟩

set_option maxRecDepth 100000 in
/-- C10 as stated fails: after `Init` and a `Write` on port 0, `Stop` returns
and leaves the slot of the frame filled and the mode `DEM_ENABLED`. -/
theorem do_stop_counterexample :
    sys2.dep.de_mode = Mode.DEM_ENABLED ∧ sys2.dep.de_flags.DEF_ENABLED = true ∧
    (do_stop hdr env0 (msg MType.DL_STOP 0 0) sys2).isOk = true ∧
    ((do_stop hdr env0 (msg MType.DL_STOP 0 0) sys2).state.dep.de_sendq 0).sq_filled = true ∧
    (do_stop hdr env0 (msg MType.DL_STOP 0 0) sys2).state.dep.de_mode = Mode.DEM_ENABLED := by
  decide

theorem BnryIn.of_quiet {lo hi : Nat} {e : Ev} (h : Ev.quiet e = true) : BnryIn lo hi e := by
  intro v hv
  subst hv
  simp [Ev.quiet] at h

theorem RingOk.grefl {lo hi : Nat} {io : Io} (h1 : lo ≤ io.curr ∧ io.curr < hi)
    (h2 : ∀ c ∈ io.curr_next, lo ≤ c ∧ c < hi) : RingOk lo hi io io :=
  ⟨h1, h2, ⟨[], by simp, by simp⟩⟩

theorem RingOk.frame {lo hi : Nat} {a io io1 : Io} (h : RingOk lo hi a io)
    (hf : IoFrame io io1) : RingOk lo hi a io1 := by
  obtain ⟨B, e, q⟩ := h.out
  obtain ⟨B1, e1, q1⟩ := hf.out
  refine ⟨by rw [hf.curr]; exact h.curr, by rw [hf.curr_next]; exact h.curr_next,
    ⟨B ++ B1, by rw [e1, e, List.append_assoc], ?_⟩⟩
  intro x hx
  rcases List.mem_append.1 hx with h | h
  · exact q x h
  · exact BnryIn.of_quiet (q1 x h)

theorem RingOk.glog {lo hi : Nat} {a io : Io} (h : RingOk lo hi a io) (e : Ev)
    (he : BnryIn lo hi e) : RingOk lo hi a { io with out := io.out ++ [e] } := by
  obtain ⟨B, e0, q⟩ := h.out
  refine ⟨h.curr, h.curr_next, ⟨B ++ [e], by simp [e0], ?_⟩⟩
  intro x hx
  rcases List.mem_append.1 hx with h | h
  · exact q x h
  · rw [List.mem_singleton] at h
    subst h
    exact he

theorem RingOk.inb_curr {lo hi : Nat} {a io : Io} (h : RingOk lo hi a io) :
    RingOk lo hi a (inb_curr io).2 ∧ lo ≤ (inb_curr io).1 ∧ (inb_curr io).1 < hi := by
  unfold Dp8390.inb_curr
  split
  · exact ⟨h, h.curr⟩
  · rename_i c cs hc
    have hin := h.curr_next c (by rw [hc]; simp)
    refine ⟨⟨hin, ?_, h.out⟩, hin⟩
    intro x hx
    exact h.curr_next x (by rw [hc]; simp [hx])

theorem write_bnry_io (K : Hdr) (next : Nat) (s : Sys) :
    (write_bnry K next s).io = { s.io with
      out := s.io.out ++ [Ev.outb0 Reg.DP_BNRY
        (if next = s.dep.de_startpage then (s.dep.de_stoppage : Int) - 1
          else ((usub K next 1 : Nat) : Int))],
      bnry := ((if next = s.dep.de_startpage then (s.dep.de_stoppage : Int) - 1
          else ((usub K next 1 : Nat) : Int)) % 256).toNat } := by
  unfold write_bnry
  split <;> rfl

theorem usub_one {K : Hdr} {n : Nat} (h1 : 1 ≤ n) (h2 : n ≤ K.UINT_MOD) (h3 : 1 < K.UINT_MOD) :
    usub K n 1 = n - 1 := by
  unfold usub
  rw [Nat.mod_eq_of_lt h3]
  have : n + K.UINT_MOD - 1 = (n - 1) + K.UINT_MOD := by omega
  rw [this, Nat.add_mod_right, Nat.mod_eq_of_lt (by omega)]

theorem RingOk.write_bnry {K : Hdr} {lo hi : Nat} {a : Io} {s : Sys} {next : Nat}
    (h : RingOk lo hi a s.io) (hlo : s.dep.de_startpage = lo) (hhi : s.dep.de_stoppage = hi)
    (hlt : lo < hi) (hmod : hi ≤ K.UINT_MOD) (hn : lo ≤ next ∧ next < hi) :
    RingOk lo hi a (write_bnry K next s).io := by
  rw [write_bnry_io]
  obtain ⟨B, e0, q⟩ := h.out
  refine ⟨h.curr, h.curr_next, ⟨B ++ [Ev.outb0 Reg.DP_BNRY
        (if next = s.dep.de_startpage then (s.dep.de_stoppage : Int) - 1
          else ((usub K next 1 : Nat) : Int))], ?_, ?_⟩⟩
  · show s.io.out ++ _ = _
    rw [e0, List.append_assoc]
  intro x hx
  rcases List.mem_append.1 hx with h | h
  · exact q x h
  · rw [List.mem_singleton] at h
    subst h
    intro v hv
    cases hv
    rw [hlo, hhi]
    split
    · omega
    · rename_i hne
      rw [usub_one (by omega) (by omega) (by omega)]
      omega

theorem read_frame_frame (K : Hdr) (f : Xfer) (pageno : Nat) (io : Io) :
    IoFrame io (read_frame K f pageno io).state := by
  unfold read_frame
  refine Res.bind_state (fun x : Io => IoFrame io x) _ _ ?_ ?_
  · exact call_getblock_frame K f pageno 0 SIZEOF_RCVHDR io
  · intro hd io1 _ h1
    refine Res.bind_state (fun x : Io => IoFrame io x) _ _ ?_ ?_
    · exact h1.ftrans (call_getblock_frame K f pageno _ 2 io1)
    · intro et io2 _ h2
      exact h2

theorem dp_pkt2user_ring {K : Hdr} {E : Env} {lo hi : Nat} {a : Io} (page length : Nat)
    (s : Sys) (h : RingOk lo hi a s.io) :
    RingOk lo hi a (dp_pkt2user K E page length s).state.io := by
  have hg : ∀ (f : Xfer) (n : Nat) (iov : iovec_dat) (o c : Nat) (io : Io), RingOk lo hi a io →
      RingOk lo hi a (call_nic2user K E f n iov o c io).state := fun f n iov o c io hio =>
    (hio.glog (Ev.nic2user f n iov o c) (fun v hv => by cases hv)).frame
      (call_nic2user_frame K E f n iov o c io)
  unfold dp_pkt2user
  split
  · exact h
  · dsimp only
    split
    · have h1 := hg s.dep.de_nic2userf (page * K.DP_PAGESIZE + SIZEOF_RCVHDR)
        s.dep.de_read_iovec 0 (to_uint K
          (((s.dep.de_stoppage : Int) - (page : Int)) * (K.DP_PAGESIZE : Int)
            - (SIZEOF_RCVHDR : Int))) s.io h
      split
      · rename_i e
        rw [e] at h1
        exact h1
      · rename_i tmp io1 e
        rw [e] at h1
        have h2 := hg s.dep.de_nic2userf (s.dep.de_startpage * K.DP_PAGESIZE)
          s.dep.de_read_iovec (to_uint K
          (((s.dep.de_stoppage : Int) - (page : Int)) * (K.DP_PAGESIZE : Int)
            - (SIZEOF_RCVHDR : Int))) (usub K length (to_uint K
          (((s.dep.de_stoppage : Int) - (page : Int)) * (K.DP_PAGESIZE : Int)
            - (SIZEOF_RCVHDR : Int)))) io1 h1
        split
        · rename_i e2
          rw [e2] at h2
          exact h2
        · rename_i e2
          rw [e2] at h2
          exact h2
    · have h1 := hg s.dep.de_nic2userf (page * K.DP_PAGESIZE + SIZEOF_RCVHDR)
        s.dep.de_read_iovec 0 length s.io h
      split
      · rename_i e
        rw [e] at h1
        exact h1
      · rename_i e
        rw [e] at h1
        exact h1

theorem dp_recv_frame_ring {K : Hdr} {E : Env} {lo hi : Nat} {a : Io} (pageno curr : Nat)
    (fr : Frame) (s : Sys) (h : RingOk lo hi a s.io) (hlo : s.dep.de_startpage = lo)
    (hhi : s.dep.de_stoppage = hi) (hlt : lo < hi) (hmod : hi ≤ K.UINT_MOD)
    (hc : lo ≤ curr ∧ curr < hi) :
    RingOk lo hi a (dp_recv_frame K E pageno curr fr s).state.io := by
  have hw : ∀ (x : Sys) (n : Nat), RingOk lo hi a x.io → x.dep.de_startpage = lo →
      x.dep.de_stoppage = hi → (lo ≤ n ∧ n < hi) → RingOk lo hi a (write_bnry K n x).io :=
    fun x n hx h1 h2 hn => RingOk.write_bnry hx h1 h2 hlt hmod hn
  unfold dp_recv_frame
  dsimp only
  split
  · exact hw (count_recvErr K s) curr h hlo hhi hc
  · split
    · exact hw (count_fifoOver K s) curr h hlo hhi hc
    · split
      · exact hw s curr h hlo hhi hc
      · split
        · exact hw s curr h hlo hhi hc
        · rename_i hnext
          have hn : lo ≤ fr.dr_next ∧ fr.dr_next < hi := by
            rw [hlo, hhi] at hnext
            omega
          split
          · exact hw (count_packetR K s) curr h hlo hhi hc
          · split
            · refine Res.bind_state (fun x : Sys => RingOk lo hi a x.io) _ _ ?_ ?_
              · exact dp_pkt2user_ring pageno _ s h
              · intro r s2 h2 h3
                have hk := dp_pkt2user_keeps K E pageno (frame_length K fr) s
                rw [h2] at hk
                split
                · exact h3
                · exact hw (count_packetR K s2) fr.dr_next h3
                    (hk.static.startpage.trans hlo) (hk.static.stoppage.trans hhi) hn
            · exact hw s fr.dr_next h hlo hhi hn

theorem dp_recv_iter_ring {K : Hdr} {E : Env} {lo hi : Nat} {a : Io} (pageno : Nat)
    (s : Sys) (h : RingOk lo hi a s.io) (hlo : s.dep.de_startpage = lo)
    (hhi : s.dep.de_stoppage = hi) (hlt : lo < hi) (hmod : hi ≤ K.UINT_MOD) :
    RingOk lo hi a (dp_recv_iter K E pageno s).state.io := by
  have h1 := (h.frame (outb_reg0_frame Reg.DP_CR (K.CR_PS_P1 : Int) s.io rfl)).inb_curr
  have h2 := h1.1.frame (outb_reg0_frame Reg.DP_CR (K.CR_PS_P0 : Int) _ rfl)
  unfold dp_recv_iter
  dsimp only
  split
  · exact h2
  · refine Res.bind_state (fun x : Sys => RingOk lo hi a x.io) _ _ ?_ ?_
    · show RingOk lo hi a (lift_io _ _).state.io
      rw [lift_io_state_io]
      exact h2.frame (read_frame_frame K _ pageno _)
    · intro fr s1 e1 h3
      have hd := (lift_io_ok e1).1
      exact dp_recv_frame_ring pageno _ fr s1 h3 (by rw [hd]; exact hlo) (by rw [hd]; exact hhi)
        hlt hmod h1.2

theorem dp_recv_loop_ring {K : Hdr} {E : Env} {lo hi : Nat} {a : Io} (fuel pageno : Nat)
    (s : Sys) (h : RingOk lo hi a s.io) (hlo : s.dep.de_startpage = lo)
    (hhi : s.dep.de_stoppage = hi) (hlt : lo < hi) (hmod : hi ≤ K.UINT_MOD) :
    RingOk lo hi a (dp_recv_loop K E fuel pageno s).state.io := by
  induction fuel generalizing pageno s with
  | zero => exact h
  | succ n ih =>
    unfold dp_recv_loop
    refine Res.bind_state (fun x : Sys => RingOk lo hi a x.io) _ _ ?_ ?_
    · exact dp_recv_iter_ring pageno s h hlo hhi hlt hmod
    · intro r s1 e1 h1
      have hk := dp_recv_iter_keeps K E pageno s
      rw [e1] at hk
      cases r with
      | none => exact h1
      | some next =>
        exact ih next s1 h1 (hk.static.startpage.trans hlo) (hk.static.stoppage.trans hhi)

theorem outb_reg0_out (r : Reg) (v : Int) (io : Io) :
    (outb_reg0 r v io).out = io.out ++ [Ev.outb0 r v] := by
  cases r <;> rfl

theorem outb_reg1_out (r : Reg) (v : Int) (io : Io) :
    (outb_reg1 r v io).out = io.out ++ [Ev.outb1 r v] := by
  cases r <;> rfl

theorem dp_init_bnry (K : Hdr) (E : Env) (s : Sys) :
    ∃ B, (dp_init K E s).state.io.out =
        (E.initf { s.dep with de_flags := DEF_EMPTY }
          { s.io with out := s.io.out ++ [Ev.initf] }).2.out ++ B ∧
      (∀ v : Int, Ev.outb0 Reg.DP_BNRY v ∈ B →
        v = ((dp_init K E s).state.dep.de_startpage : Int)) ∧
      ((dp_init K E s).isOk = true →
        Ev.outb0 Reg.DP_BNRY ((dp_init K E s).state.dep.de_startpage : Int) ∈ B) := by
  unfold dp_init
  dsimp only
  obtain ⟨ad, e⟩ := dp_confaddr_dep E
    { dep := { s.dep with
        de_flags := DEF_EMPTY,
        de_address := (E.initf { s.dep with de_flags := DEF_EMPTY }
          { s.io with out := s.io.out ++ [Ev.initf] }).1.de_address,
        de_ramsize := (E.initf { s.dep with de_flags := DEF_EMPTY }
          { s.io with out := s.io.out ++ [Ev.initf] }).1.de_ramsize,
        de_sendq_nr := (E.initf { s.dep with de_flags := DEF_EMPTY }
          { s.io with out := s.io.out ++ [Ev.initf] }).1.de_sendq_nr,
        de_sendq := fun i => { s.dep.de_sendq i with
          sq_sendpage := (E.initf { s.dep with de_flags := DEF_EMPTY }
            { s.io with out := s.io.out ++ [Ev.initf] }).1.sq_sendpage i },
        de_startpage := (E.initf { s.dep with de_flags := DEF_EMPTY }
          { s.io with out := s.io.out ++ [Ev.initf] }).1.de_startpage,
        de_stoppage := (E.initf { s.dep with de_flags := DEF_EMPTY }
          { s.io with out := s.io.out ++ [Ev.initf] }).1.de_stoppage,
        de_irq := (E.initf { s.dep with de_flags := DEF_EMPTY }
          { s.io with out := s.io.out ++ [Ev.initf] }).1.de_irq },
      io := (E.initf { s.dep with de_flags := DEF_EMPTY }
          { s.io with out := s.io.out ++ [Ev.initf] }).2 }
  rcases Res.eq_of_state (dp_confaddr E _) with ⟨a, h⟩ | ⟨a, h⟩
  · rw [h, e]
    simp only [Res.bind, Res.state, outb0s, outb1s, List.foldl, outb_reg0_out, outb_reg1_out,
      inb_cntr0, inb_cntr1, inb_cntr2, List.append_assoc, List.singleton_append]
    refine ⟨_, rfl, ?_, ?_⟩
    · intro v hv
      simp at hv
      exact hv
    · intro _
      simp
  · rw [h, e]
    refine ⟨[], by simp [Res.bind, Res.state], ?_, ?_⟩
    · intro v hv
      cases hv
    · intro hok
      simp [Res.bind, Res.isOk] at hok

/-- C8: every value that `dp_init` and `dp_recv` write to the boundary register
`DP_BNRY` lies in `[de_startpage, de_stoppage)`, whatever the frame headers
hold.  For `dp_init`: the events it logs after the card hook contain one
write to `DP_BNRY` when it returns, of `de_startpage`, so with
`de_startpage < de_stoppage` every such write is in range.  For `dp_recv`,
returning or not: if `de_startpage < de_stoppage`, the value of `DP_CURR` and
every value it takes at a coming read lie in `[de_startpage, de_stoppage)`,
and `de_stoppage` fits the type `unsigned`, then every write to `DP_BNRY` among
the events it logs is in range; the same holds for the loop of `dp_recv` run
for any number of passes from any page. -/
theorem bnry_in_range (K : Hdr) (E : Env) (s : Sys) :
    (∃ B, (dp_init K E s).state.io.out =
        (E.initf { s.dep with de_flags := DEF_EMPTY }
          { s.io with out := s.io.out ++ [Ev.initf] }).2.out ++ B ∧
      ((dp_init K E s).isOk = true →
        Ev.outb0 Reg.DP_BNRY ((dp_init K E s).state.dep.de_startpage : Int) ∈ B) ∧
      ((dp_init K E s).state.dep.de_startpage < (dp_init K E s).state.dep.de_stoppage →
        ∀ v : Int, Ev.outb0 Reg.DP_BNRY v ∈ B →
          ((dp_init K E s).state.dep.de_startpage : Int) ≤ v ∧
          v < ((dp_init K E s).state.dep.de_stoppage : Int))) ∧
    (s.dep.de_startpage < s.dep.de_stoppage → s.dep.de_stoppage ≤ K.UINT_MOD →
      (s.dep.de_startpage ≤ s.io.curr ∧ s.io.curr < s.dep.de_stoppage) →
      (∀ c ∈ s.io.curr_next, s.dep.de_startpage ≤ c ∧ c < s.dep.de_stoppage) →
      (∃ B, (dp_recv K E s).state.io.out = s.io.out ++ B ∧
        ∀ v : Int, Ev.outb0 Reg.DP_BNRY v ∈ B →
          (s.dep.de_startpage : Int) ≤ v ∧ v < (s.dep.de_stoppage : Int)) ∧
      ∀ fuel pageno : Nat,
        ∃ B, (dp_recv_loop K E fuel pageno s).state.io.out = s.io.out ++ B ∧
          ∀ v : Int, Ev.outb0 Reg.DP_BNRY v ∈ B →
            (s.dep.de_startpage : Int) ≤ v ∧ v < (s.dep.de_stoppage : Int)) := by
  constructor
  · obtain ⟨B, h1, h2, h3⟩ := dp_init_bnry K E s
    refine ⟨B, h1, h3, ?_⟩
    intro hlt v hv
    rw [h2 v hv]
    omega
  · intro hlt hmod hc hcn
    have gen : ∀ fuel pageno : Nat,
        ∃ B, (dp_recv_loop K E fuel pageno s).state.io.out = s.io.out ++ B ∧
          ∀ v : Int, Ev.outb0 Reg.DP_BNRY v ∈ B →
            (s.dep.de_startpage : Int) ≤ v ∧ v < (s.dep.de_stoppage : Int) := by
      intro fuel pageno
      have h := dp_recv_loop_ring (K := K) (E := E) fuel pageno s (RingOk.grefl hc hcn) rfl rfl
        hlt hmod
      obtain ⟨B, e, q⟩ := h.out
      exact ⟨B, e, fun v hv => q _ hv v rfl⟩
    exact ⟨gen _ _, gen⟩

set_option maxRecDepth 100000 in
/-- The statement at work: `dp_recv` on the port with a frame of length 59 at
page 13 and the chip at page 14 writes 13 to `DP_BNRY`, inside `[12, 32)`. -/
theorem bnry_in_range_witness :
    sys_short.dep.de_startpage = 12 ∧ sys_short.dep.de_stoppage = 32 ∧
    Ev.outb0 Reg.DP_BNRY 13 ∈ (dp_recv hdr env0 sys_short).state.io.out ∧
    ∃ B, (dp_recv hdr env0 sys_short).state.io.out = sys_short.io.out ++ B ∧
      ∀ v : Int, Ev.outb0 Reg.DP_BNRY v ∈ B →
        (sys_short.dep.de_startpage : Int) ≤ v ∧ v < (sys_short.dep.de_stoppage : Int) :=
  ⟨by decide, by decide, by decide,
   ((bnry_in_range hdr env0 sys_short).2 (by decide) (by decide) (by decide) (by decide)).1⟩

theorem call_getblock_ubyte (K : Hdr) (f : Xfer) (page offset size : Nat) (io : Io) :
    (call_getblock K f page offset size io).state.ubyte = io.ubyte := by
  unfold call_getblock
  cases f
  · dsimp only [dp_getblock]
    split <;> rfl
  · simp [dp_pio8_getblock, Res.state, data_in, outb_reg0]
  · simp [dp_pio16_getblock, dp_pio8_getblock, Res.state, data_in, outb_reg0]

theorem read_frame_ubyte (K : Hdr) (f : Xfer) (pageno : Nat) (io : Io) :
    (read_frame K f pageno io).state.ubyte = io.ubyte := by
  unfold read_frame
  refine Res.bind_state (fun x : Io => x.ubyte = io.ubyte) _ _ ?_ ?_
  · exact call_getblock_ubyte K f pageno 0 SIZEOF_RCVHDR io
  · intro hd io1 _ h1
    refine Res.bind_state (fun x : Io => x.ubyte = io.ubyte) _ _ ?_ ?_
    · exact (call_getblock_ubyte K f pageno _ 2 io1).trans h1
    · intro et io2 _ h2
      exact h2

theorem quiet_not_nic2user {e : Ev} (h : Ev.quiet e = true) : Ev.isNic2user e = false := by
  cases e <;> first | rfl | (simp [Ev.quiet] at h)

theorem inb_curr_nil {io : Io} (h : io.curr_next = []) : inb_curr io = (io.curr, io) := by
  unfold inb_curr
  rw [h]

theorem dp_recv_frame_malformed {K : Hdr} {E : Env} {pageno curr : Nat} {fr : Frame} {s : Sys}
    (h1 : bit fr.dr_status K.RSR_PRX = true)
    (h2 : bit fr.dr_status (255 ^^^ ((K.RSR_PHY ||| K.RSR_PRX) &&& 255)) = false)
    (hbad : (frame_length K fr < 60 ∨ frame_length K fr > 1514) ∨
      (fr.dr_next < s.dep.de_startpage ∨ fr.dr_next ≥ s.dep.de_stoppage)) :
    dp_recv_frame K E pageno curr fr s = Res.ok (some curr) (write_bnry K curr s) := by
  unfold dp_recv_frame
  dsimp only
  rw [if_neg (by rw [h1]; simp), if_neg (by rw [h2]; simp)]
  rcases hbad with h | h
  · rw [if_pos h]
  · by_cases hl : frame_length K fr < 60 ∨ frame_length K fr > 1514
    · rw [if_pos hl]
    · rw [if_neg hl, if_pos h]

theorem dp_recv_iter_malformed {K : Hdr} {E : Env} {pageno : Nat} {fr : Frame} {s : Sys}
    {io2 : Io} (hq : s.io.curr_next = []) (hne : s.io.curr ≠ pageno)
    (hrd : read_frame K s.dep.de_getblockf pageno
      (outb_reg0 Reg.DP_CR (K.CR_PS_P0 : Int) (outb_reg0 Reg.DP_CR (K.CR_PS_P1 : Int) s.io))
      = Res.ok fr io2)
    (h1 : bit fr.dr_status K.RSR_PRX = true)
    (h2 : bit fr.dr_status (255 ^^^ ((K.RSR_PHY ||| K.RSR_PRX) &&& 255)) = false)
    (hbad : (frame_length K fr < 60 ∨ frame_length K fr > 1514) ∨
      (fr.dr_next < s.dep.de_startpage ∨ fr.dr_next ≥ s.dep.de_stoppage)) :
    dp_recv_iter K E pageno s =
      Res.ok (some s.io.curr) (write_bnry K s.io.curr { dep := s.dep, io := io2 }) := by
  have hc : inb_curr (outb_reg0 Reg.DP_CR (K.CR_PS_P1 : Int) s.io) =
      (s.io.curr, outb_reg0 Reg.DP_CR (K.CR_PS_P1 : Int) s.io) := inb_curr_nil hq
  unfold dp_recv_iter
  dsimp only
  rw [hc]
  dsimp only
  rw [if_neg hne, hrd]
  exact dp_recv_frame_malformed (s := { dep := s.dep, io := io2 }) h1 h2 hbad

theorem dp_recv_iter_caught_up {K : Hdr} {E : Env} {pageno : Nat} {s : Sys}
    (hq : s.io.curr_next = []) (he : s.io.curr = pageno) :
    dp_recv_iter K E pageno s = Res.ok none (Sys.mk s.dep
      (outb_reg0 Reg.DP_CR (K.CR_PS_P0 : Int) (outb_reg0 Reg.DP_CR (K.CR_PS_P1 : Int) s.io))) := by
  have hc : inb_curr (outb_reg0 Reg.DP_CR (K.CR_PS_P1 : Int) s.io) =
      (s.io.curr, outb_reg0 Reg.DP_CR (K.CR_PS_P1 : Int) s.io) := inb_curr_nil hq
  unfold dp_recv_iter
  dsimp only
  rw [hc]
  dsimp only
  rw [if_pos he]

set_option maxRecDepth 100000 in
/-- C5, the code at a frame that crosses the end of the ring: with the ring at
pages 12 to 32 of 256 bytes and a read posted at client address 1000, the
frame of length 256 at page 31 has its last four bytes at the start of page
12 (`31 * 256 + 4 + 256 > 32 * 256`).  `dp_pkt2user` computes
`last = 31 + 255 / 256 = 31 < 32`, so it does not split the copy: it returns
`OK` after the single call of `de_nic2userf` for 256 bytes from card offset
`31 * 256 + 4`, and the last four bytes it delivers are the card bytes at
offsets 8192 to 8195, at and beyond `de_stoppage * DP_PAGESIZE`, not those at
the start of page 12.  `dp_recv` reaches this call from the header in the ring. -/
theorem dp_pkt2user_wrap_unsplit :
    (post_read sys_wrap).dep.de_startpage = 12 ∧ (post_read sys_wrap).dep.de_stoppage = 32 ∧
    31 * hdr.DP_PAGESIZE + SIZEOF_RCVHDR + 256 > 32 * hdr.DP_PAGESIZE ∧
    (dp_pkt2user hdr env0 31 256 (post_read sys_wrap)).value = some true ∧
    (dp_pkt2user hdr env0 31 256 (post_read sys_wrap)).state.io.out =
      (post_read sys_wrap).io.out ++
        [Ev.nic2user Xfer.shm (31 * 256 + 4) (post_read sys_wrap).dep.de_read_iovec 0 256] ∧
    (dp_pkt2user hdr env0 31 256 (post_read sys_wrap)).state.dep.de_read_s = 256 ∧
    (∀ j, j < 4 →
      (dp_pkt2user hdr env0 31 256 (post_read sys_wrap)).state.io.ubyte 7 (1000 + 252 + j) =
        (post_read sys_wrap).io.mem (32 * 256 + j)) ∧
    (dp_pkt2user hdr env0 31 256 (post_read sys_wrap)).state.io.ubyte 7 (1000 + 252) ≠
      (post_read sys_wrap).io.mem (12 * 256) ∧
    (dp_recv hdr env0 (post_read sys_wrap)).isOk = true ∧
    (dp_recv hdr env0 (post_read sys_wrap)).state.dep.de_read_s = 256 ∧
    (dp_recv hdr env0 (post_read sys_wrap)).state.io.ubyte 7 (1000 + 252) =
      (post_read sys_wrap).io.mem (32 * 256) := by
  decide

theorem inb_curr_out (io : Io) : (inb_curr io).2.out = io.out := by
  unfold inb_curr
  split <;> rfl

theorem Res.ok_of_value {σ α : Type} {r : Res σ α} {a : α} (h : r.value = some a) :
    r = Res.ok a r.state := by
  cases r with
  | ok b s =>
    simp only [Res.value, Option.some.injEq] at h
    subst h
    rfl
  | halt e s => cases h

theorem do_vwrite_enqueue_eq {K : Hdr} {E : Env} {mp : message} {fi v : Bool} {s : Sys}
    (hp : bad_port mp.DL_PORT = false) (hm : s.dep.de_mode = Mode.DEM_ENABLED)
    (hf : s.dep.de_flags.DEF_ENABLED = true) (ha : s.dep.de_flags.DEF_SEND_AVAIL = false)
    (hh : (s.dep.de_sendq s.dep.de_sendq_head).sq_filled = false)
    (hps : s.dep.de_flags.DEF_PACK_SEND = false) :
    do_vwrite K E mp fi v s =
      (do_vwrite_size K E mp v { s with dep := { s.dep with de_client := mp.DL_PROC } }).bind
        fun size s1 => do_vwrite_send K E fi size s1 := by
  unfold do_vwrite
  rw [if_neg (by rw [hp]; decide)]
  dsimp only
  rw [if_neg (by rw [hm]; decide), if_neg (by rw [hm]; simp), if_neg (by rw [hf]; simp),
    if_neg (by rw [ha]; simp), if_neg (by rw [hh]; simp), if_neg (by rw [hps]; simp)]

/-- C4 (amended): a `Write` or `WriteV` to a valid port in mode `DEM_ENABLED`
with `DEF_ENABLED` set that `do_vwrite` takes into the queue at once (no
deferred write pending, the slot at the head free, `DEF_PACK_SEND` clear),
and whose frame size, as `do_vwrite` computes it, is below
`ETH_MIN_PACK_SIZE` or above `ETH_MAX_PACK_SIZE`, ends in the halt `invalid
packet size`: nothing has been done to the outside (no reply sent, no byte
staged to the card, no register written), and the send queue, its head, its
tail and the flags are as before.  For `Write` the size is `DL_COUNT`, and the
computation always returns.  For `WriteV` the count `DL_COUNT` is taken to be
at least 0: a negative count makes `get_userdata` copy
`(vir_bytes)(DL_COUNT * sizeof(iovec_t))` bytes, and when that is more than the
window `iod_iovec[IOVEC_NR]` holds the run ends in that copy (`umap failed`, or
the copy runs over the window) before any size has been computed. -/
theorem do_vwrite_invalid_size (K : Hdr) (E : Env) (mp : message) (from_int : Bool) (s : Sys)
    (hp : bad_port mp.DL_PORT = false) (hm : s.dep.de_mode = Mode.DEM_ENABLED)
    (hf : s.dep.de_flags.DEF_ENABLED = true) (ha : s.dep.de_flags.DEF_SEND_AVAIL = false)
    (hh : (s.dep.de_sendq s.dep.de_sendq_head).sq_filled = false)
    (hps : s.dep.de_flags.DEF_PACK_SEND = false) :
    (∀ (vectored : Bool) (size : Int) (s1 : Sys),
      (vectored = true → 0 ≤ mp.DL_COUNT) →
      do_vwrite_size K E mp vectored { s with dep := { s.dep with de_client := mp.DL_PROC } }
        = Res.ok size s1 →
      size < ETH_MIN_PACK_SIZE ∨ size > ETH_MAX_PACK_SIZE →
      do_vwrite K E mp from_int vectored s = Res.halt Halt.invalid_packet_size s1 ∧
      s1.io = s.io ∧ s1.dep.de_sendq = s.dep.de_sendq ∧
      s1.dep.de_sendq_head = s.dep.de_sendq_head ∧ s1.dep.de_sendq_tail = s.dep.de_sendq_tail ∧
      s1.dep.de_flags = s.dep.de_flags) ∧
    (mp.DL_COUNT < ETH_MIN_PACK_SIZE ∨ mp.DL_COUNT > ETH_MAX_PACK_SIZE →
      ∃ s1, do_vwrite K E mp from_int false s = Res.halt Halt.invalid_packet_size s1 ∧
        s1.io = s.io ∧ s1.dep.de_sendq = s.dep.de_sendq ∧
        s1.dep.de_sendq_head = s.dep.de_sendq_head ∧
        s1.dep.de_sendq_tail = s.dep.de_sendq_tail ∧ s1.dep.de_flags = s.dep.de_flags) ∧
    (K.IOVEC_NR * K.SIZEOF_IOVEC <
        to_uint K ((if mp.DL_COUNT > (K.IOVEC_NR : Int) then (K.IOVEC_NR : Int)
          else mp.DL_COUNT) * (K.SIZEOF_IOVEC : Int)) →
      ∃ h, (h = Halt.umap_failed ∨ h = Halt.overrun) ∧
        do_vwrite K E mp from_int true s =
          Res.halt h { s with dep := { s.dep with de_client := mp.DL_PROC } }) := by
  have gen : ∀ (vectored : Bool) (size : Int) (s1 : Sys),
      (vectored = true → 0 ≤ mp.DL_COUNT) →
      do_vwrite_size K E mp vectored { s with dep := { s.dep with de_client := mp.DL_PROC } }
        = Res.ok size s1 →
      size < ETH_MIN_PACK_SIZE ∨ size > ETH_MAX_PACK_SIZE →
      do_vwrite K E mp from_int vectored s = Res.halt Halt.invalid_packet_size s1 ∧
      s1.io = s.io ∧ s1.dep.de_sendq = s.dep.de_sendq ∧
      s1.dep.de_sendq_head = s.dep.de_sendq_head ∧ s1.dep.de_sendq_tail = s.dep.de_sendq_tail ∧
      s1.dep.de_flags = s.dep.de_flags := by
    intro vectored size s1 _ hsz hbad
    obtain ⟨wi, tmp, e⟩ := do_vwrite_size_state K E mp vectored
      { s with dep := { s.dep with de_client := mp.DL_PROC } }
    rw [hsz] at e
    have e' : s1 = { dep := { ({ s with dep := { s.dep with de_client := mp.DL_PROC } } : Sys).dep
      with de_write_iovec := wi, de_tmp_iovec := tmp }, io := s.io } := e
    refine ⟨?_, ?_⟩
    · rw [do_vwrite_enqueue_eq hp hm hf ha hh hps, hsz]
      simp only [Res.bind, do_vwrite_send]
      rw [if_pos hbad]
    · rw [e']
      exact ⟨rfl, rfl, rfl, rfl, rfl⟩
  refine ⟨gen, ?_, ?_⟩
  · intro hbad
    exact ⟨_, gen false mp.DL_COUNT _ (fun h => by cases h) rfl hbad⟩
  · intro hov
    rw [do_vwrite_enqueue_eq hp hm hf ha hh hps]
    unfold do_vwrite_size get_userdata
    simp only [if_true]
    by_cases hn : E.numap mp.DL_PROC mp.DL_ADDR
        (to_uint K ((if mp.DL_COUNT > (K.IOVEC_NR : Int) then (K.IOVEC_NR : Int)
          else mp.DL_COUNT) * (K.SIZEOF_IOVEC : Int))) = true
    · rw [if_pos hn, if_pos hov]
      exact ⟨Halt.overrun, Or.inr rfl, rfl⟩
    · rw [if_neg hn]
      exact ⟨Halt.umap_failed, Or.inl rfl, rfl⟩

set_option maxRecDepth 100000 in
/-- The amended statement at work: a `Write` of 10 bytes to the initialised,
idle port 0 halts with `invalid packet size`. -/
theorem do_vwrite_invalid_size_witness :
    (msg MType.DL_WRITE 10 0).DL_COUNT < ETH_MIN_PACK_SIZE ∧
    ∃ s1, do_vwrite hdr env0 (msg MType.DL_WRITE 10 0) false false sys1 =
        Res.halt Halt.invalid_packet_size s1 ∧
      s1.io = sys1.io ∧ s1.dep.de_sendq = sys1.dep.de_sendq ∧
      s1.dep.de_sendq_head = sys1.dep.de_sendq_head ∧
      s1.dep.de_sendq_tail = sys1.dep.de_sendq_tail ∧ s1.dep.de_flags = sys1.dep.de_flags :=
  ⟨by decide,
   (do_vwrite_invalid_size hdr env0 (msg MType.DL_WRITE 10 0) false sys1 (by decide) (by decide)
    (by decide) (by decide) (by decide) (by decide)).2.1 (Or.inl (by decide))⟩

set_option maxRecDepth 100000 in
/-- C4 as stated fails: after `Init` and two writes, both send buffers of port
0 are in use; a `Write` of 10 bytes, below `ETH_MIN_PACK_SIZE`, to this port
in mode `DEM_ENABLED` returns: the request is kept as the deferred write and
the last thing done is the reply with the code `OK` (0). -/
theorem do_vwrite_invalid_size_counterexample :
    sys3.dep.de_mode = Mode.DEM_ENABLED ∧ sys3.dep.de_flags.DEF_ENABLED = true ∧
    (msg MType.DL_WRITE 10 0).DL_COUNT < ETH_MIN_PACK_SIZE ∧
    (do_vwrite hdr env0 (msg MType.DL_WRITE 10 0) false false sys3).isOk = true ∧
    (do_vwrite hdr env0 (msg MType.DL_WRITE 10 0) false false sys3).state.io.out.getLast? =
      some (Ev.send (Sent.task_reply 7 7 false false 0 0 0)) ∧
    (do_vwrite hdr env0 (msg MType.DL_WRITE 10 0) false false
      sys3).state.dep.de_flags.DEF_SEND_AVAIL = true := by
  decide

theorem countP_range_congr {n : Nat} {f g : Nat → Bool} (h : ∀ j, j < n → f j = g j) :
    (List.range n).countP f = (List.range n).countP g := by
  apply List.countP_congr
  intro j hj
  rw [List.mem_range] at hj
  rw [h j hj]

theorem countP_set_true (f : Nat → Bool) (n i : Nat) (hi : i < n) (hf : f i = false) :
    (List.range n).countP (fun j => if j = i then true else f j) =
      (List.range n).countP f + 1 := by
  induction n with
  | zero => omega
  | succ n ih =>
    rw [List.range_succ, List.countP_append, List.countP_append]
    by_cases h : i = n
    · subst h
      have : (List.range i).countP (fun j => if j = i then true else f j) =
          (List.range i).countP f :=
        countP_range_congr (fun j hj => by rw [if_neg (by omega)])
      rw [this]
      simp [List.countP_cons, hf]
    · have hlt : i < n := by omega
      rw [ih hlt]
      have hn : n ≠ i := fun e => h e.symm
      simp only [List.countP_cons, List.countP_nil, if_neg hn]
      omega

theorem countP_set_false (f : Nat → Bool) (n i : Nat) (hi : i < n) (hf : f i = true) :
    (List.range n).countP (fun j => if j = i then false else f j) + 1 =
      (List.range n).countP f := by
  induction n with
  | zero => omega
  | succ n ih =>
    rw [List.range_succ, List.countP_append, List.countP_append]
    by_cases h : i = n
    · subst h
      have : (List.range i).countP (fun j => if j = i then false else f j) =
          (List.range i).countP f :=
        countP_range_congr (fun j hj => by rw [if_neg (by omega)])
      rw [this]
      simp [List.countP_cons, hf]
    · have hlt : i < n := by omega
      have hn : n ≠ i := fun e => h e.symm
      simp only [List.countP_cons, List.countP_nil, if_neg hn]
      have := ih hlt
      omega

theorem filled_count_eq (d : dpeth) :
    filled_count d = (List.range d.de_sendq_nr).countP (filledOf d) := rfl

theorem tail_filled_of_inv {d : dpeth} (h : SendqInv d) (hne : d.de_sendq_head ≠ d.de_sendq_tail) :
    (d.de_sendq d.de_sendq_tail).sq_filled = true := by
  obtain ⟨h1, h2, h3, k, hk, hh, hf⟩ := h
  rw [hf _ h3]
  have hk0 : k ≠ 0 := by
    intro e
    subst e
    rw [Nat.add_zero, Nat.mod_eq_of_lt h3] at hh
    exact hne hh
  exact ⟨0, by omega, by rw [Nat.add_zero, Nat.mod_eq_of_lt h3]⟩

theorem LogBy.lrefl (P : Ev → Prop) (io : Io) : LogBy P io io :=
  ⟨[], by simp, by simp⟩

theorem LogBy.ltrans {P : Ev → Prop} {a b c : Io} (h1 : LogBy P a b) (h2 : LogBy P b c) :
    LogBy P a c := by
  obtain ⟨B1, e1, q1⟩ := h1
  obtain ⟨B2, e2, q2⟩ := h2
  refine ⟨B1 ++ B2, by rw [e2, e1, List.append_assoc], ?_⟩
  intro e he
  rcases List.mem_append.1 he with h | h
  · exact q1 e h
  · exact q2 e h

theorem LogBy.of_out {P : Ev → Prop} {io io1 : Io} (h : io1.out = io.out) : LogBy P io io1 :=
  ⟨[], by rw [h, List.append_nil], by simp⟩

theorem LogBy.llog {P : Ev → Prop} (io : Io) (e : Ev) (h : P e) :
    LogBy P io { io with out := io.out ++ [e] } :=
  ⟨[e], rfl, by simpa using h⟩

theorem outb_reg0_logby {P : Ev → Prop} (r : Reg) (v : Int) (io : Io) (h : P (Ev.outb0 r v)) :
    LogBy P io (outb_reg0 r v io) :=
  ⟨[Ev.outb0 r v], outb_reg0_out r v io, by simpa using h⟩

theorem inb_isr_out (io : Io) : (inb_isr io).2.out = io.out := rfl

theorem poll_isr_out (mask : Nat) : ∀ (n : Nat) (io : Io), (poll_isr mask n io).2.out = io.out := by
  intro n
  induction n with
  | zero => intro io; rfl
  | succ n ih =>
    intro io
    unfold poll_isr
    split
    · rfl
    · rw [ih]
      rfl

theorem staged_data_out (K : Hdr) (bs : List Nat) : Ev.staged K (Ev.data_out bs) := ⟨rfl, rfl⟩

theorem staged_data_out_word (K : Hdr) (lo hi : Nat) : Ev.staged K (Ev.data_out_word lo hi) :=
  ⟨rfl, rfl⟩

theorem dp_user2nic_loop_out (K : Hdr) (E : Env) (fuel : Nat) (iovp : iovec_dat)
    (i offset a count : Nat) (io : Io) :
    (dp_user2nic_loop K E fuel iovp i offset a count io).state.out = io.out := by
  induction fuel generalizing iovp i offset a count io with
  | zero => rfl
  | succ n ih =>
    unfold dp_user2nic_loop
    split
    · split
      · rcases Res.eq_of_state (dp_next_iovec K E iovp io) with ⟨x, h⟩ | ⟨x, h⟩ <;>
          rw [dp_next_iovec_state] at h <;> rw [h]
        · exact ih _ _ _ _ _ _
        · rfl
      · split
        · rfl
        · split
          · exact ih _ _ _ _ _ _
          · dsimp only
            split
            · rw [ih]
              rfl
            · rfl
    · rfl

theorem dp_pio8_user2nic_loop_staged (K : Hdr) (E : Env) (fuel : Nat) (iovp : iovec_dat)
    (i offset count : Nat) (io : Io) :
    LogBy (Ev.staged K) io (dp_pio8_user2nic_loop K E fuel iovp i offset count io).state := by
  induction fuel generalizing iovp i offset count io with
  | zero => exact LogBy.lrefl _ io
  | succ n ih =>
    unfold dp_pio8_user2nic_loop
    split
    · split
      · rcases Res.eq_of_state (dp_next_iovec K E iovp io) with ⟨x, h⟩ | ⟨x, h⟩ <;>
          rw [dp_next_iovec_state] at h <;> rw [h]
        · exact ih _ _ _ _ _
        · exact LogBy.lrefl _ io
      · split
        · exact LogBy.lrefl _ io
        · split
          · exact ih _ _ _ _ _
          · dsimp only
            split
            · exact (LogBy.llog io (Ev.data_out _) (staged_data_out K _)).ltrans (ih _ _ _ _ _)
            · exact LogBy.lrefl _ io
    · exact LogBy.lrefl _ io

theorem LogBy.lite_snd {P : Ev → Prop} {io : Io} {c : Prop} [Decidable c] {a b : Nat × Odd × Io}
    (ha : LogBy P io a.2.2) (hb : LogBy P io b.2.2) :
    LogBy P io (if c then a else b).2.2 := by
  split <;> assumption

theorem LogBy.lite2 {P : Ev → Prop} {io : Io} {c : Prop} [Decidable c] {a b : Io}
    (ha : LogBy P io a) (hb : LogBy P io b) : LogBy P io (if c then a else b) := by
  split <;> assumption

theorem pio16_user2nic_chunk_staged (K : Hdr) (proc : Int) (user bytes : Nat) (o : Odd)
    (io : Io) :
    LogBy (Ev.staged K) io (pio16_user2nic_chunk proc user bytes o io).2.2 := by
  unfold pio16_user2nic_chunk
  by_cases hodd : o.odd_byte = true
  · simp only [hodd, ↓reduceIte]
    have h1 := LogBy.llog io (Ev.data_out_word o.b0 (io.ubyte proc user))
      (staged_data_out_word K _ _)
    have h2 := LogBy.lite2 (c := (bytes - 1) / 2 * 2 ≠ 0)
      (h1.ltrans (LogBy.llog _ (Ev.data_out
        (user_bytes io proc (user + 1) ((bytes - 1) / 2 * 2))) (staged_data_out K _))) h1
    exact LogBy.lite_snd h1 (LogBy.lite_snd h2 h2)
  · simp only [hodd, Bool.false_eq_true, ↓reduceIte]
    have h2 := LogBy.lite2 (c := (bytes - 0) / 2 * 2 ≠ 0)
      (LogBy.llog io (Ev.data_out
        (user_bytes io proc (user + 0) ((bytes - 0) / 2 * 2))) (staged_data_out K _))
      (LogBy.lrefl _ io)
    exact LogBy.lite_snd (LogBy.lrefl _ io) (LogBy.lite_snd h2 h2)

theorem dp_pio16_user2nic_loop_staged (K : Hdr) (E : Env) (fuel : Nat) (iovp : iovec_dat)
    (i offset count : Nat) (o : Odd) (io : Io) :
    LogBy (Ev.staged K) io
      (dp_pio16_user2nic_loop K E fuel iovp i offset count o io).state := by
  induction fuel generalizing iovp i offset count o io with
  | zero => exact LogBy.lrefl _ io
  | succ n ih =>
    unfold dp_pio16_user2nic_loop
    split
    · split
      · rcases Res.eq_of_state (dp_next_iovec K E iovp io) with ⟨x, h⟩ | ⟨x, h⟩ <;>
          rw [dp_next_iovec_state] at h <;> rw [h]
        · exact ih _ _ _ _ _ _
        · exact LogBy.lrefl _ io
      · split
        · exact LogBy.lrefl _ io
        · split
          · exact ih _ _ _ _ _ _
          · dsimp only
            split
            · exact (pio16_user2nic_chunk_staged K _ _ _ _ io).ltrans (ih _ _ _ _ _ _)
            · exact LogBy.lrefl _ io
    · exact LogBy.lrefl _ io

/-- The register writes with which a programmed-I/O write starts are no part
of a transmit command, the command `CR_DM_RW | CR_PS_P0 | CR_STA` lacking the
bit `CR_TXP`. -/
theorem remote_dma_staged (K : Hdr) (hK : CrBits K) (nic_addr count : Nat) (io : Io) :
    LogBy (Ev.staged K) io
      (remote_dma K K.CR_DM_RW nic_addr count (outb_reg0 Reg.DP_ISR (K.ISR_RDC : Int) io)) := by
  unfold remote_dma
  refine (((((outb_reg0_logby Reg.DP_ISR _ io ⟨rfl, rfl⟩).ltrans
    (outb_reg0_logby Reg.DP_RBCR0 _ _ ⟨rfl, rfl⟩)).ltrans
    (outb_reg0_logby Reg.DP_RBCR1 _ _ ⟨rfl, rfl⟩)).ltrans
    (outb_reg0_logby Reg.DP_RSAR0 _ _ ⟨rfl, rfl⟩)).ltrans
    (outb_reg0_logby Reg.DP_RSAR1 _ _ ⟨rfl, rfl⟩)).ltrans
    (outb_reg0_logby Reg.DP_CR _ _ ⟨rfl, ?_⟩)
  show bit (((K.CR_DM_RW ||| K.CR_PS_P0 ||| K.CR_STA : Nat) : Int)).toNat K.CR_TXP = false
  rw [Int.toNat_ofNat]
  exact hK.rw

theorem wait_rdc_out (K : Hdr) (iovp : iovec_dat) (io : Io) :
    (wait_rdc K iovp io).state.out = io.out := by
  unfold wait_rdc
  split <;> exact poll_isr_out _ _ _

/-- What a staging call logs after the record of the call is no part of a
transmit command. -/
theorem call_user2nic_staged (K : Hdr) (hK : CrBits K) (E : Env) (f : Xfer) (iovp : iovec_dat)
    (offset nic_addr count : Nat) (io : Io) :
    LogBy (Ev.staged K)
      { io with out := io.out ++ [Ev.user2nic f iovp offset nic_addr count] }
      (call_user2nic K E f iovp offset nic_addr count io).state := by
  unfold call_user2nic
  cases f
  · exact LogBy.of_out (dp_user2nic_loop_out _ _ _ _ _ _ _ _ _)
  · dsimp only [dp_pio8_user2nic]
    have h0 := remote_dma_staged K hK nic_addr count
      { io with out := io.out ++ [Ev.user2nic Xfer.pio8 iovp offset nic_addr count] }
    have h1 := h0.ltrans (dp_pio8_user2nic_loop_staged K E
      (count + 2 * iovp.iod_iovec_s.toNat + 2) iovp 0 offset count _)
    revert h1
    cases dp_pio8_user2nic_loop K E (count + 2 * iovp.iod_iovec_s.toNat + 2) iovp 0 offset count
      (remote_dma K K.CR_DM_RW nic_addr count (outb_reg0 Reg.DP_ISR (K.ISR_RDC : Int)
        { io with out := io.out ++ [Ev.user2nic Xfer.pio8 iovp offset nic_addr count] })) with
    | ok a s => intro h1; exact h1.ltrans (LogBy.of_out (wait_rdc_out _ _ _))
    | halt h s => intro h1; exact h1
  · dsimp only [dp_pio16_user2nic]
    have h0 := remote_dma_staged K hK nic_addr ((count + 1) / 2 * 2)
      { io with out := io.out ++ [Ev.user2nic Xfer.pio16 iovp offset nic_addr count] }
    have h1 := h0.ltrans (dp_pio16_user2nic_loop_staged K E
      (count + 2 * iovp.iod_iovec_s.toNat + 2) iovp 0 offset count
      { odd_byte := false, b0 := 0, b1 := 0 } _)
    revert h1
    cases dp_pio16_user2nic_loop K E (count + 2 * iovp.iod_iovec_s.toNat + 2) iovp 0 offset
      count { odd_byte := false, b0 := 0, b1 := 0 }
      (remote_dma K K.CR_DM_RW nic_addr ((count + 1) / 2 * 2)
        (outb_reg0 Reg.DP_ISR (K.ISR_RDC : Int)
        { io with out := io.out ++ [Ev.user2nic Xfer.pio16 iovp offset nic_addr count] })) with
    | ok a s =>
      intro h1
      obtain ⟨a1, a2⟩ := a
      refine (h1.ltrans ?_).ltrans (LogBy.of_out (wait_rdc_out _ _ _))
      split
      · exact LogBy.llog _ (Ev.data_out_word _ _) (staged_data_out_word K _ _)
      · exact LogBy.lrefl _ _
    | halt h s => intro h1; exact h1

theorem start_tx_out (K : Hdr) (page size : Nat) (io : Io) :
    (start_tx K page size io).out = io.out ++ start_tx_events K page size := by
  unfold start_tx start_tx_events
  simp only [outb_reg0_out, List.append_assoc, List.singleton_append]
  rfl

theorem call_user2nic_log_by {K : Hdr} {E : Env} {P : Ev → Prop} {f : Xfer}
    {iov iov1 : iovec_dat} {o n c : Nat} {io io1 : Io}
    (hP : LogBy P { io with out := io.out ++ [Ev.user2nic f iov o n c] }
      (call_user2nic K E f iov o n c io).state)
    (h : call_user2nic K E f iov o n c io = Res.ok iov1 io1) :
    ∃ Bq, (∀ e ∈ Bq, P e) ∧ io1.out = io.out ++ ([Ev.user2nic f iov o n c] ++ Bq) := by
  rw [h] at hP
  obtain ⟨B, e, q⟩ := hP
  have e' : io1.out = (io.out ++ [Ev.user2nic f iov o n c]) ++ B := e
  exact ⟨B, q, by rw [e', List.append_assoc]⟩

theorem call_user2nic_quiet (K : Hdr) (E : Env) (f : Xfer) (iov : iovec_dat) (o n c : Nat)
    (io : Io) :
    LogBy (fun e => Ev.quiet e = true) { io with out := io.out ++ [Ev.user2nic f iov o n c] }
      (call_user2nic K E f iov o n c io).state :=
  (call_user2nic_frame K E f iov o n c io).out

theorem call_user2nic_log {K : Hdr} {E : Env} {f : Xfer} {iov iov1 : iovec_dat}
    {o n c : Nat} {io io1 : Io} (h : call_user2nic K E f iov o n c io = Res.ok iov1 io1) :
    ∃ Bq, (∀ e ∈ Bq, Ev.quiet e = true) ∧ io1.out = io.out ++ ([Ev.user2nic f iov o n c] ++ Bq) :=
  call_user2nic_log_by (call_user2nic_quiet K E f iov o n c io) h

/-- The effect of the second part of the enqueue branch of `do_vwrite` when it returns. -/
theorem do_vwrite_send_effect_by {K : Hdr} {E : Env} {P : Ev → Prop} {fi : Bool} {size : Int}
    {s s1 : Sys}
    (hP : ∀ f iov o n c io, LogBy P { io with out := io.out ++ [Ev.user2nic f iov o n c] }
      (call_user2nic K E f iov o n c io).state)
    (h : do_vwrite_send K E fi size s = Res.ok () s1) :
    ETH_MIN_PACK_SIZE ≤ size ∧ size ≤ ETH_MAX_PACK_SIZE ∧
    Enqueued size.toNat s.dep s1.dep ∧
    ∃ Bq Br, (∀ e ∈ Bq, P e) ∧ (∀ e ∈ Br, ∃ m, e = Ev.send m) ∧
      s1.io.out = s.io.out ++
        ([Ev.user2nic s.dep.de_user2nicf s.dep.de_write_iovec 0
            ((s.dep.de_sendq s.dep.de_sendq_head).sq_sendpage * K.DP_PAGESIZE) size.toNat]
          ++ Bq
          ++ (if s.dep.de_sendq_tail = s.dep.de_sendq_head
              then start_tx_events K (s.dep.de_sendq s.dep.de_sendq_head).sq_sendpage size.toNat
              else [])
          ++ Br) := by
  obtain ⟨h1, h2, wi, io1, hcall, -, hcase⟩ := do_vwrite_send_ok h
  obtain ⟨Bq, hq, eq⟩ := call_user2nic_log_by (hP _ _ _ _ _ _) hcall
  refine ⟨h1, h2, ?_⟩
  have hdep : Enqueued size.toNat s.dep (advance_head (fill_head K size.toNat
      { dep := { s.dep with de_write_iovec := wi }, io := io1 })).dep := by
    unfold advance_head
    simp only [fill_head_dep]
    exact ⟨rfl, rfl, rfl, rfl, rfl, rfl, rfl, rfl, rfl, rfl, rfl⟩
  have hio : (advance_head (fill_head K size.toNat
      { dep := { s.dep with de_write_iovec := wi }, io := io1 })).io.out =
      s.io.out ++ ([Ev.user2nic s.dep.de_user2nicf s.dep.de_write_iovec 0
            ((s.dep.de_sendq s.dep.de_sendq_head).sq_sendpage * K.DP_PAGESIZE) size.toNat]
          ++ Bq
          ++ (if s.dep.de_sendq_tail = s.dep.de_sendq_head
              then start_tx_events K (s.dep.de_sendq s.dep.de_sendq_head).sq_sendpage size.toNat
              else [])) := by
    show (fill_head K size.toNat _).io.out = _
    rw [fill_head_io]
    dsimp only
    split
    · rw [start_tx_out, eq]
      simp only [List.append_assoc]
    · rw [eq]
      simp only [List.append_assoc, List.append_nil]
  rcases hcase with ⟨-, rfl⟩ | ⟨-, hr⟩
  · refine ⟨hdep, Bq, [], hq, by simp, ?_⟩
    rw [hio]
    simp only [List.append_assoc, List.append_nil]
  · obtain ⟨hd, hi, -⟩ := reply_ok hr
    have hm : ∃ m, s1.io.out = (advance_head (fill_head K size.toNat
        { dep := { s.dep with de_write_iovec := wi }, io := io1 })).io.out ++ [Ev.send m] :=
      ⟨_, by rw [hi]⟩
    obtain ⟨m, hm⟩ := hm
    refine ⟨?_, Bq, [Ev.send m], hq, ?_, ?_⟩
    · rw [hd]
      exact ⟨hdep.nr, hdep.tail, hdep.head, hdep.sendq, hdep.stat, hdep.sendmsg,
        hdep.send_avail, hdep.stopped, hdep.reading, hdep.enabled, hdep.mode⟩
    · intro e he
      rw [List.mem_singleton] at he
      exact ⟨_, he⟩
    · rw [hm, hio]
      simp only [List.append_assoc]

theorem do_vwrite_send_effect {K : Hdr} {E : Env} {fi : Bool} {size : Int} {s s1 : Sys}
    (h : do_vwrite_send K E fi size s = Res.ok () s1) :
    ETH_MIN_PACK_SIZE ≤ size ∧ size ≤ ETH_MAX_PACK_SIZE ∧
    Enqueued size.toNat s.dep s1.dep ∧
    ∃ Bq Br, (∀ e ∈ Bq, Ev.quiet e = true) ∧ (∀ e ∈ Br, ∃ m, e = Ev.send m) ∧
      s1.io.out = s.io.out ++
        ([Ev.user2nic s.dep.de_user2nicf s.dep.de_write_iovec 0
            ((s.dep.de_sendq s.dep.de_sendq_head).sq_sendpage * K.DP_PAGESIZE) size.toNat]
          ++ Bq
          ++ (if s.dep.de_sendq_tail = s.dep.de_sendq_head
              then start_tx_events K (s.dep.de_sendq s.dep.de_sendq_head).sq_sendpage size.toNat
              else [])
          ++ Br) :=
  do_vwrite_send_effect_by (call_user2nic_quiet K E) h

/-- The effect of `do_vwrite` when it returns from the enqueue branch. -/
theorem do_vwrite_enq_by {K : Hdr} {E : Env} {P : Ev → Prop} {mp : message} {fi v : Bool}
    {s s1 : Sys}
    (hP : ∀ f iov o n c io, LogBy P { io with out := io.out ++ [Ev.user2nic f iov o n c] }
      (call_user2nic K E f iov o n c io).state)
    (h : do_vwrite K E mp fi v s = Res.ok () s1) (hm : s.dep.de_mode = Mode.DEM_ENABLED)
    (hh : (s.dep.de_sendq s.dep.de_sendq_head).sq_filled = false) :
    ∃ (size : Int) (s2 : Sys),
      do_vwrite_size K E mp v { s with dep := { s.dep with de_client := mp.DL_PROC } }
        = Res.ok size s2 ∧
      ETH_MIN_PACK_SIZE ≤ size ∧ size ≤ ETH_MAX_PACK_SIZE ∧
      Enqueued size.toNat s.dep s1.dep ∧
      ∃ Bq Br, (∀ e ∈ Bq, P e) ∧ (∀ e ∈ Br, ∃ m, e = Ev.send m) ∧
        s1.io.out = s.io.out ++
          ([Ev.user2nic s.dep.de_user2nicf s2.dep.de_write_iovec 0
              ((s.dep.de_sendq s.dep.de_sendq_head).sq_sendpage * K.DP_PAGESIZE) size.toNat]
            ++ Bq
            ++ (if s.dep.de_sendq_tail = s.dep.de_sendq_head
                then start_tx_events K (s.dep.de_sendq s.dep.de_sendq_head).sq_sendpage
                  size.toNat
                else [])
            ++ Br) := by
  rcases do_vwrite_ok h with ⟨hs, -, -⟩ | ⟨-, -, -, ⟨hf, -, -⟩ | ⟨-, -, size, s2, h1, h2⟩⟩
  · rw [hm] at hs
    cases hs
  · rw [hh] at hf
    cases hf
  · obtain ⟨wi, tmp, hst⟩ := do_vwrite_size_state K E mp v
      { s with dep := { s.dep with de_client := mp.DL_PROC } }
    rw [h1] at hst
    simp only [Res.state] at hst
    obtain ⟨h3, h4, henq, Bq, Br, hq, hr, ho⟩ := do_vwrite_send_effect_by hP h2
    refine ⟨size, s2, h1, h3, h4, ?_, Bq, Br, hq, hr, ?_⟩
    · subst hst
      exact ⟨henq.nr, henq.tail, henq.head, henq.sendq, henq.stat, henq.sendmsg,
        henq.send_avail, henq.stopped, henq.reading, henq.enabled, henq.mode⟩
    · rw [ho]
      subst hst
      rfl

theorem do_vwrite_enq {K : Hdr} {E : Env} {mp : message} {fi v : Bool} {s s1 : Sys}
    (h : do_vwrite K E mp fi v s = Res.ok () s1) (hm : s.dep.de_mode = Mode.DEM_ENABLED)
    (hh : (s.dep.de_sendq s.dep.de_sendq_head).sq_filled = false) :
    ∃ (size : Int) (s2 : Sys),
      do_vwrite_size K E mp v { s with dep := { s.dep with de_client := mp.DL_PROC } }
        = Res.ok size s2 ∧
      ETH_MIN_PACK_SIZE ≤ size ∧ size ≤ ETH_MAX_PACK_SIZE ∧
      Enqueued size.toNat s.dep s1.dep ∧
      ∃ Bq Br, (∀ e ∈ Bq, Ev.quiet e = true) ∧ (∀ e ∈ Br, ∃ m, e = Ev.send m) ∧
        s1.io.out = s.io.out ++
          ([Ev.user2nic s.dep.de_user2nicf s2.dep.de_write_iovec 0
              ((s.dep.de_sendq s.dep.de_sendq_head).sq_sendpage * K.DP_PAGESIZE) size.toNat]
            ++ Bq
            ++ (if s.dep.de_sendq_tail = s.dep.de_sendq_head
                then start_tx_events K (s.dep.de_sendq s.dep.de_sendq_head).sq_sendpage
                  size.toNat
                else [])
            ++ Br) :=
  do_vwrite_enq_by (call_user2nic_quiet K E) h hm hh

theorem outb_reg0_isr (r : Reg) (v : Int) (io : Io) : (outb_reg0 r v io).isr = io.isr := by
  cases r <;> rfl

theorem start_tx_isr (K : Hdr) (page size : Nat) (io : Io) :
    (start_tx K page size io).isr = io.isr := by
  unfold start_tx
  simp only [outb_reg0_isr]

/-- What `tx_stat` leaves alone: everything but the statistics and the queue of `DP_TSR`. -/
theorem tx_stat_keeps (K : Hdr) (isr : Nat) (s : Sys) :
    (tx_stat K isr s).dep.de_sendq = s.dep.de_sendq ∧
    (tx_stat K isr s).dep.de_sendq_nr = s.dep.de_sendq_nr ∧
    (tx_stat K isr s).dep.de_sendq_head = s.dep.de_sendq_head ∧
    (tx_stat K isr s).dep.de_sendq_tail = s.dep.de_sendq_tail ∧
    (tx_stat K isr s).dep.de_flags = s.dep.de_flags ∧
    (tx_stat K isr s).dep.de_sendmsg = s.dep.de_sendmsg ∧
    (tx_stat K isr s).dep.de_mode = s.dep.de_mode ∧
    (tx_stat K isr s).io.isr = s.io.isr ∧
    (tx_stat K isr s).io.out = s.io.out := by
  unfold tx_stat
  split <;> exact ⟨rfl, rfl, rfl, rfl, rfl, rfl, rfl, rfl, rfl⟩

theorem tx_stat_packetT (K : Hdr) (isr : Nat) (s : Sys) (h : bit isr K.ISR_TXE = false) :
    (tx_stat K isr s).dep.de_stat.ets_packetT =
      if bit (s.io.tsr.headD 0) K.TSR_PTX then uladd K s.dep.de_stat.ets_packetT 1
      else s.dep.de_stat.ets_packetT := by
  unfold tx_stat
  rw [if_neg (by rw [h]; simp)]
  rfl

/-- What `tx_complete` does to the port entry and the log. -/
theorem tx_complete_keeps (K : Hdr) (s : Sys) :
    (tx_complete K s).dep.de_sendq_nr = s.dep.de_sendq_nr ∧
    (tx_complete K s).dep.de_sendq_head = s.dep.de_sendq_head ∧
    (tx_complete K s).dep.de_sendq_tail = next_slot s.dep.de_sendq_tail s.dep.de_sendq_nr ∧
    (tx_complete K s).dep.de_sendq = set_sendq s.dep.de_sendq s.dep.de_sendq_tail
      { s.dep.de_sendq s.dep.de_sendq_tail with sq_filled := false } ∧
    (tx_complete K s).dep.de_flags = s.dep.de_flags ∧
    (tx_complete K s).dep.de_sendmsg = s.dep.de_sendmsg ∧
    (tx_complete K s).dep.de_mode = s.dep.de_mode ∧
    (tx_complete K s).dep.de_stat = s.dep.de_stat ∧
    (tx_complete K s).io.isr = s.io.isr :=
  ⟨rfl, rfl, rfl, rfl, rfl, rfl, rfl, rfl, by
    unfold tx_complete
    dsimp only
    split
    · exact start_tx_isr _ _ _ _
    · rfl⟩

theorem tx_complete_out (K : Hdr) (s : Sys) :
    (tx_complete K s).io.out = s.io.out ++
      (if ((tx_complete K s).dep.de_sendq (tx_complete K s).dep.de_sendq_tail).sq_filled
        then start_tx_events K
          ((tx_complete K s).dep.de_sendq (tx_complete K s).dep.de_sendq_tail).sq_sendpage
          ((tx_complete K s).dep.de_sendq (tx_complete K s).dep.de_sendq_tail).sq_size
        else []) := by
  unfold tx_complete
  dsimp only
  split
  · rw [start_tx_out]
  · rw [List.append_nil]

/-- The ways in which the transmit block of `dp_check_ints` returns. -/
theorem dp_check_ints_tx_ok {K : Hdr} {E : Env} {isr : Nat} {s s1 : Sys} {b : Bool}
    (h : dp_check_ints_tx K E isr s = Res.ok b s1) :
    ((s.dep.de_sendq s.dep.de_sendq_tail).sq_filled = false ∧ b = true ∧
      s1 = tx_stat K isr s) ∨
    ((s.dep.de_sendq s.dep.de_sendq_tail).sq_filled = true ∧ b = false ∧
      ((s.dep.de_flags.DEF_SEND_AVAIL = false ∧ s1 = tx_complete K (tx_stat K isr s)) ∨
       (s.dep.de_flags.DEF_SEND_AVAIL = true ∧
        dp_send K E (tx_complete K (tx_stat K isr s)) = Res.ok () s1))) := by
  obtain ⟨k1, k2, k3, k4, k5, k6, k7, k8, k9⟩ := tx_stat_keeps K isr s
  unfold dp_check_ints_tx at h
  dsimp only at h
  rw [k1, k4] at h
  split at h
  · rename_i hf
    split at h
    · cases h
    · cases h
      exact Or.inl ⟨by simpa using hf, rfl, rfl⟩
  · rename_i hf
    right
    have ha : (tx_complete K (tx_stat K isr s)).dep.de_flags.DEF_SEND_AVAIL =
        s.dep.de_flags.DEF_SEND_AVAIL := by
      rw [(tx_complete_keeps K _).2.2.2.2.1, k5]
    rw [ha] at h
    split at h
    · rename_i hav
      obtain ⟨_, s4, h4, h5⟩ := Res.bind_ok h
      cases h5
      exact ⟨by simpa using hf, rfl, Or.inr ⟨hav, h4⟩⟩
    · rename_i hav
      cases h
      exact ⟨by simpa using hf, rfl, Or.inl ⟨by simpa using hav, rfl⟩⟩

/-- The part of the loop body of `dp_check_ints` after the transmit block, for
an interrupt status without `ISR_PRX` and `ISR_RST`: it returns, without
`break`, and changes statistics and counter queues only. -/
theorem dp_check_ints_rx_plain (K : Hdr) (E : Env) (isr : Nat) (s : Sys)
    (h1 : bit isr K.ISR_PRX = false) (h2 : bit isr K.ISR_RST = false) :
    ∃ s1, dp_check_ints_rx K E isr s = Res.ok false s1 ∧
      s1.dep.de_sendq = s.dep.de_sendq ∧ s1.dep.de_sendq_nr = s.dep.de_sendq_nr ∧
      s1.dep.de_sendq_head = s.dep.de_sendq_head ∧ s1.dep.de_sendq_tail = s.dep.de_sendq_tail ∧
      s1.dep.de_flags = s.dep.de_flags ∧ s1.dep.de_sendmsg = s.dep.de_sendmsg ∧
      s1.dep.de_mode = s.dep.de_mode ∧
      s1.dep.de_stat.ets_packetT = s.dep.de_stat.ets_packetT ∧
      s1.io.isr = s.io.isr ∧ s1.io.out = s.io.out := by
  unfold dp_check_ints_rx
  rw [if_neg (by rw [h1]; simp)]
  simp only [Res.bind]
  rw [if_neg (by rw [h2]; simp)]
  refine ⟨_, rfl, ?_⟩
  by_cases hr : bit isr K.ISR_RXE = true <;> by_cases hc : bit isr K.ISR_CNT = true
  · rw [if_pos hc, if_pos hr]
    exact ⟨rfl, rfl, rfl, rfl, rfl, rfl, rfl, rfl, rfl, rfl⟩
  · rw [if_neg hc, if_pos hr]
    exact ⟨rfl, rfl, rfl, rfl, rfl, rfl, rfl, rfl, rfl, rfl⟩
  · rw [if_pos hc, if_neg hr]
    exact ⟨rfl, rfl, rfl, rfl, rfl, rfl, rfl, rfl, rfl, rfl⟩
  · rw [if_neg hc, if_neg hr]
    exact ⟨rfl, rfl, rfl, rfl, rfl, rfl, rfl, rfl, rfl, rfl⟩

theorem nat_or_eq_zero {a b : Nat} (h : a ||| b = 0) : a = 0 := by
  apply Nat.eq_of_testBit_eq
  intro i
  have := congrArg (fun x => Nat.testBit x i) h
  simp only [Nat.testBit_or, Nat.zero_testBit, Bool.or_eq_false_iff] at this
  rw [this.1, Nat.zero_testBit]

theorem bit_or_left {x a b : Nat} (h : bit x a = true) : bit x (a ||| b) = true := by
  unfold bit at h ⊢
  rw [Nat.and_or_distrib_left]
  simp only [bne_iff_ne, ne_eq] at h ⊢
  intro e
  exact h (nat_or_eq_zero e)

theorem ne_zero_of_bit {x a : Nat} (h : bit x a = true) : x ≠ 0 := by
  intro e
  subst e
  simp [bit] at h

set_option maxRecDepth 100000 in
theorem sendq_inv_sys1 : SendqInv sys1.dep := by
  refine ⟨by decide, by decide, by decide, 0, by decide, by decide, ?_⟩
  intro i hi
  have h2 : sys1.dep.de_sendq_nr = 2 := by decide
  rw [h2] at hi
  have hi' : i = 0 ∨ i = 1 := by omega
  rcases hi' with rfl | rfl
  · refine ⟨fun h => ?_, fun ⟨j, hj, _⟩ => absurd hj (by omega)⟩
    revert h
    decide
  · refine ⟨fun h => ?_, fun ⟨j, hj, _⟩ => absurd hj (by omega)⟩
    revert h
    decide

theorem dp_check_ints_tx_eq {K : Hdr} {E : Env} {isr : Nat} {s : Sys}
    (hf : (s.dep.de_sendq s.dep.de_sendq_tail).sq_filled = true)
    (ha : s.dep.de_flags.DEF_SEND_AVAIL = false) :
    dp_check_ints_tx K E isr s = Res.ok false (tx_complete K (tx_stat K isr s)) := by
  obtain ⟨k1, k2, k3, k4, k5, k6, k7, k8, k9⟩ := tx_stat_keeps K isr s
  have hav : (tx_complete K (tx_stat K isr s)).dep.de_flags.DEF_SEND_AVAIL = false := by
    rw [(tx_complete_keeps K _).2.2.2.2.1, k5, ha]
  unfold dp_check_ints_tx
  dsimp only
  rw [k1, k4, if_neg (by rw [hf]; simp), if_neg (by rw [hav]; simp)]

/-- The loop of `dp_check_ints` for one pending interrupt status that reports a
transmission (`ISR_PTX`, no `ISR_TXE`) and neither a reception nor a reset,
on a port whose tail slot is filled and that has no deferred write: it
returns having counted the transmission and freed the tail slot. -/
theorem dp_check_ints_loop_one {K : Hdr} {E : Env} {isr : Nat} {s : Sys}
    (hisr : s.io.isr = [isr]) (h1 : bit isr K.ISR_PTX = true) (h2 : bit isr K.ISR_TXE = false)
    (h3 : bit isr K.ISR_PRX = false) (h4 : bit isr K.ISR_RST = false)
    (hf : (s.dep.de_sendq s.dep.de_sendq_tail).sq_filled = true)
    (ha : s.dep.de_flags.DEF_SEND_AVAIL = false) :
    ∃ s2, dp_check_ints_loop K E 2 s = Res.ok () s2 ∧
      s2.dep.de_sendq = set_sendq s.dep.de_sendq s.dep.de_sendq_tail
        { s.dep.de_sendq s.dep.de_sendq_tail with sq_filled := false } ∧
      s2.dep.de_sendq_nr = s.dep.de_sendq_nr ∧
      s2.dep.de_sendq_head = s.dep.de_sendq_head ∧
      s2.dep.de_sendq_tail = next_slot s.dep.de_sendq_tail s.dep.de_sendq_nr ∧
      s2.dep.de_flags = s.dep.de_flags ∧
      s2.dep.de_stat.ets_packetT =
        if bit (s.io.tsr.headD 0) K.TSR_PTX then uladd K s.dep.de_stat.ets_packetT 1
        else s.dep.de_stat.ets_packetT := by
  have e1 : (inb_isr s.io).1 = isr := by simp [inb_isr, hisr]
  have e2 : (inb_isr s.io).2.isr = [] := by simp [inb_isr, hisr]
  have e3 : (inb_isr s.io).2.tsr = s.io.tsr := rfl
  obtain ⟨k1, k2, k3, k4, k5, k6, k7, k8, k9⟩ := tx_stat_keeps K isr
    { s with io := outb_reg0 Reg.DP_ISR (isr : Int) (inb_isr s.io).2 }
  obtain ⟨c1, c2, c3, c4, c5, c6, c7, c8, c9⟩ := tx_complete_keeps K (tx_stat K isr
    { s with io := outb_reg0 Reg.DP_ISR (isr : Int) (inb_isr s.io).2 })
  obtain ⟨s3, r0, r1, r2, r3, r4, r5, r6, r7, r8, r9, r10⟩ := dp_check_ints_rx_plain K E isr
    (tx_complete K (tx_stat K isr
      { s with io := outb_reg0 Reg.DP_ISR (isr : Int) (inb_isr s.io).2 })) h3 h4
  have hq : s3.io.isr = [] := by
    rw [r9, c9, k8]
    show (outb_reg0 Reg.DP_ISR (isr : Int) (inb_isr s.io).2).isr = []
    rw [outb_reg0_isr, e2]
  refine ⟨{ s3 with io := (inb_isr s3.io).2 }, ?_, ?_, ?_, ?_, ?_, ?_, ?_⟩
  · unfold dp_check_ints_loop
    dsimp only
    rw [e1, if_neg (ne_zero_of_bit h1), if_pos (bit_or_left h1),
      dp_check_ints_tx_eq (by exact hf) (by exact ha)]
    simp only [Res.bind, Bool.false_eq_true, if_false]
    rw [r0]
    simp only [Bool.false_eq_true, if_false]
    unfold dp_check_ints_loop
    dsimp only
    rw [if_pos (by simp [inb_isr, hq])]
  · show s3.dep.de_sendq = _
    rw [r1, c4, k1, k4]
  · show s3.dep.de_sendq_nr = _
    rw [r2, c1, k2]
  · show s3.dep.de_sendq_head = _
    rw [r3, c2, k3]
  · show s3.dep.de_sendq_tail = _
    rw [r4, c3, k4, k2]
  · show s3.dep.de_flags = _
    rw [r5, c5, k5]
  · show s3.dep.de_stat.ets_packetT = _
    rw [r8, c8, tx_stat_packetT K isr _ h2]
    rfl

theorem quiet_not_user2nic {e : Ev} (h : Ev.quiet e = true) : Ev.isUser2nic e = false := by
  cases e <;> first | rfl | (simp [Ev.quiet] at h)

theorem filter_user2nic_quiet {B : List Ev} (h : ∀ e ∈ B, Ev.quiet e = true) :
    B.filter Ev.isUser2nic = [] := by
  rw [List.filter_eq_nil_iff]
  intro e he
  rw [quiet_not_user2nic (h e he)]
  simp

theorem filter_txreg_staged {K : Hdr} {B : List Ev} (h : ∀ e ∈ B, Ev.staged K e) :
    B.filter (Ev.isTxReg K) = [] := by
  rw [List.filter_eq_nil_iff]
  intro e he
  rw [(h e he).2]
  simp

theorem filter_user2nic_send {B : List Ev} (h : ∀ e ∈ B, ∃ m, e = Ev.send m) :
    B.filter Ev.isUser2nic = [] := by
  rw [List.filter_eq_nil_iff]
  intro e he
  obtain ⟨m, rfl⟩ := h e he
  simp [Ev.isUser2nic]

theorem filter_txreg_send {K : Hdr} {B : List Ev} (h : ∀ e ∈ B, ∃ m, e = Ev.send m) :
    B.filter (Ev.isTxReg K) = [] := by
  rw [List.filter_eq_nil_iff]
  intro e he
  obtain ⟨m, rfl⟩ := h e he
  simp [Ev.isTxReg]

theorem start_tx_events_user2nic (K : Hdr) (page size : Nat) :
    (start_tx_events K page size).filter Ev.isUser2nic = [] := rfl

theorem start_tx_events_txreg (K : Hdr) (hK : CrBits K) (page size : Nat) :
    (start_tx_events K page size).filter (Ev.isTxReg K) = start_tx_events K page size := by
  rw [List.filter_eq_self]
  intro e he
  unfold start_tx_events at he
  simp only [List.mem_cons, List.mem_singleton, List.not_mem_nil, or_false] at he
  rcases he with rfl | rfl | rfl | rfl
  · rfl
  · rfl
  · rfl
  · show bit ((K.CR_TXP : Int)).toNat K.CR_TXP = true
    rw [Int.toNat_ofNat]
    exact hK.txp

/-- The invariant is kept by a step that leaves the send queue alone and logs
neither a staging call nor a write to a transmit register. -/
theorem TxInv.tkeep {K : Hdr} {d0 d d1 : dpeth} {h0 c : Nat} {F : List TxFrame} {B X : List Ev}
    (h : TxInv K d0 h0 c F B d) (hs : Static d0 d1) (hq : QSame d d1)
    (hst : d1.de_flags.DEF_STOPPED = false)
    (hX1 : X.filter Ev.isUser2nic = []) (hX2 : X.filter (Ev.isTxReg K) = []) :
    TxInv K d0 h0 c F (B ++ X) d1 := by
  have hu : d1.de_user2nicf = d.de_user2nicf := hs.user2nicf.trans h.static.user2nicf.symm
  refine ⟨hs, hst, ?_, ?_, ?_, h.frames, ?_, ?_⟩
  · have := h.qcnt
    rw [hq.nr, hq.head, hq.tail]
    unfold filledOf
    rw [hq.sendq]
    exact this
  · intro j fr hj
    rw [hq.sendq, hq.nr, hu]
    exact h.page j fr hj
  · intro j fr hj hc
    rw [hq.sendq, hq.nr]
    exact h.size j fr hj hc
  · rw [List.filter_append, hX1, List.append_nil, h.staged]
  · rw [List.filter_append, hX2, List.append_nil, h.txlog]

theorem QCnt.head_free_lt {nr h0 c n head tail : Nat} {f : Nat → Bool}
    (h : QCnt nr h0 c n head tail f) (hf : f head = false) : n < c + nr := by
  obtain ⟨h1, h2, h3, h4, h5, h6⟩ := h
  by_contra hge
  have hn : n = c + nr := by omega
  have hh : head < nr := by
    rw [h4]
    exact Nat.mod_lt _ (by omega)
  have : f head = true := by
    rw [h6 head hh]
    refine ⟨c, le_refl _, by omega, ?_⟩
    rw [h4, hn, ← Nat.add_assoc, Nat.add_mod_right]
  rw [hf] at this
  cases this

theorem QCnt.tail_eq_head_iff {nr h0 c n head tail : Nat} {f : Nat → Bool}
    (h : QCnt nr h0 c n head tail f) (hlt : n < c + nr) : tail = head ↔ n = c := by
  obtain ⟨h1, h2, h3, h4, h5, h6⟩ := h
  constructor
  · intro e
    by_contra hne
    have hcn : c < n := by omega
    have := @slot_ne nr h0 _ _ hcn hlt
    rw [← h4, ← h5] at this
    exact this e
  · intro e
    rw [h4, h5, e]

theorem QCnt.filled_tail {nr h0 c n head tail : Nat} {f : Nat → Bool}
    (h : QCnt nr h0 c n head tail f) (hf : f tail = true) : c < n := by
  obtain ⟨h1, h2, h3, h4, h5, h6⟩ := h
  have ht : tail < nr := by
    rw [h5]
    exact Nat.mod_lt _ (by omega)
  obtain ⟨j, hj1, hj2, -⟩ := (h6 tail ht).1 hf
  omega

theorem QCnt.filled_iff {nr h0 c n head tail : Nat} {f : Nat → Bool}
    (h : QCnt nr h0 c n head tail f) : f tail = true ↔ c < n := by
  refine ⟨h.filled_tail, fun hlt => ?_⟩
  obtain ⟨h1, h2, h3, h4, h5, h6⟩ := h
  have ht : tail < nr := by
    rw [h5]
    exact Nat.mod_lt _ (by omega)
  rw [h6 tail ht]
  exact ⟨c, le_refl _, hlt, h5⟩

theorem set_sendq_page (q : Nat → sendq) (i : Nat) (v : sendq) (h : v.sq_sendpage = (q i).sq_sendpage)
    (j : Nat) : (set_sendq q i v j).sq_sendpage = (q j).sq_sendpage := by
  unfold set_sendq
  split
  · rename_i e
    rw [h, e]
  · rfl

/-- The invariant after a frame has been put into the slot at the head. -/
theorem TxInv.tenq {K : Hdr} {d0 d d1 : dpeth} {h0 c : Nat} {F : List TxFrame}
    {B Bq Br : List Ev} {size : Nat} {mp : message} {wi : iovec_dat}
    (h : TxInv K d0 h0 c F B d) (henq : Enqueued size d d1) (hs : Static d0 d1)
    (hfree : (d.de_sendq d.de_sendq_head).sq_filled = false)
    (hfr : FrameOf K (TxFrame.mk mp d.de_user2nicf wi
      (d.de_sendq d.de_sendq_head).sq_sendpage size))
    (hK : CrBits K)
    (hq : ∀ e ∈ Bq, Ev.staged K e) (hr : ∀ e ∈ Br, ∃ m, e = Ev.send m) :
    TxInv K d0 h0 c
      (F ++ [TxFrame.mk mp d.de_user2nicf wi (d.de_sendq d.de_sendq_head).sq_sendpage size])
      (B ++ ([Ev.user2nic d.de_user2nicf wi 0
            ((d.de_sendq d.de_sendq_head).sq_sendpage * K.DP_PAGESIZE) size]
          ++ Bq
          ++ (if d.de_sendq_tail = d.de_sendq_head
              then start_tx_events K (d.de_sendq d.de_sendq_head).sq_sendpage size
              else [])
          ++ Br)) d1 := by
  have hqc := h.qcnt
  have hlt : F.length < c + d.de_sendq_nr := hqc.head_free_lt hfree
  have hte := hqc.tail_eq_head_iff hlt
  obtain ⟨q1, q2, q3, q4, q5, q6⟩ := hqc
  have hu : d1.de_user2nicf = d.de_user2nicf := hs.user2nicf.trans h.static.user2nicf.symm
  have hpage : ∀ j, (d1.de_sendq j).sq_sendpage = (d.de_sendq j).sq_sendpage := by
    intro j
    rw [henq.sendq]
    apply set_sendq_page
    rfl
  refine ⟨hs, by rw [henq.stopped]; exact h.stopped, ?_, ?_, ?_, ?_, ?_, ?_⟩
  · have := h.qcnt.enq hfree
    rw [henq.nr, henq.head, henq.tail, List.length_append, List.length_singleton]
    have hf : filledOf d1 = fun i => if i = d.de_sendq_head then true else filledOf d i := by
      funext i
      unfold filledOf
      rw [henq.sendq]
      unfold set_sendq
      split <;> rfl
    rw [hf]
    exact this
  · intro j fr hj
    rw [hpage, henq.nr, hu]
    rw [List.getElem?_append] at hj
    split at hj
    · exact h.page j fr hj
    · rename_i hge
      have hj0 : j = F.length := by
        by_contra hne
        have : j - F.length ≠ 0 := by omega
        obtain ⟨k, hk⟩ := Nat.exists_eq_succ_of_ne_zero this
        rw [hk] at hj
        simp at hj
      subst hj0
      simp only [Nat.sub_self, List.getElem?_cons_zero, Option.some.injEq] at hj
      subst hj
      refine ⟨?_, rfl⟩
      show (d.de_sendq d.de_sendq_head).sq_sendpage = _
      rw [q4]
  · intro j fr hj hc
    rw [henq.nr, henq.sendq]
    rw [List.getElem?_append] at hj
    split at hj
    · rename_i hjl
      have hne : (h0 + j) % d.de_sendq_nr ≠ d.de_sendq_head := by
        rw [q4]
        exact slot_ne hjl (by omega)
      unfold set_sendq
      rw [if_neg hne]
      exact h.size j fr hj hc
    · rename_i hge
      have hj0 : j = F.length := by
        by_contra hne
        have : j - F.length ≠ 0 := by omega
        obtain ⟨k, hk⟩ := Nat.exists_eq_succ_of_ne_zero this
        rw [hk] at hj
        simp at hj
      subst hj0
      simp only [Nat.sub_self, List.getElem?_cons_zero, Option.some.injEq] at hj
      subst hj
      have hth : ¬ d.de_sendq_tail = d.de_sendq_head := by
        rw [hte]
        omega
      unfold set_sendq
      rw [← q4, if_pos rfl, if_neg hth]
  · intro fr hfrm
    rcases List.mem_append.1 hfrm with h1 | h1
    · exact h.frames fr h1
    · rw [List.mem_singleton] at h1
      subst h1
      exact hfr
  · simp only [List.filter_append, h.staged, filter_user2nic_quiet (fun e he => (hq e he).1),
      filter_user2nic_send hr,
      List.map_append, List.map_cons, List.map_nil, List.append_nil]
    congr 1
    split
    · rfl
    · rfl
  · simp only [List.filter_append, h.txlog, filter_txreg_staged hq, filter_txreg_send hr,
      List.append_nil, List.length_append, List.length_singleton]
    by_cases e : d.de_sendq_tail = d.de_sendq_head
    · have hn : F.length = c := hte.1 e
      rw [if_pos e, hn, Nat.min_eq_left (Nat.le_succ c), Nat.min_self]
      rw [List.take_of_length_le (by omega), List.take_of_length_le (by simp; omega)]
      simp only [List.map_append, List.flatten_append, List.map_cons, List.map_nil]
      rw [start_tx_events_txreg K hK]
      rfl
    · have hn : c < F.length := by
        have : F.length ≠ c := fun x => e (hte.2 x)
        omega
      rw [if_neg e, Nat.min_eq_right (by omega), Nat.min_eq_right (by omega),
        List.take_append_of_le_length (by omega)]
      rw [List.filter_eq_nil_iff.2 (by
        intro e he
        rw [List.mem_singleton] at he
        subst he
        simp [Ev.isTxReg])]
      simp

/-- The invariant after the frame at the tail has been completed by `tx_complete`. -/
theorem TxInv.tdeq {K : Hdr} {d0 : dpeth} {h0 c : Nat} {F : List TxFrame} {B : List Ev}
    {s : Sys} (hK : CrBits K) (h : TxInv K d0 h0 c F B s.dep)
    (hf : (s.dep.de_sendq s.dep.de_sendq_tail).sq_filled = true) :
    TxInv K d0 h0 (c + 1) F
      (B ++ (if ((tx_complete K s).dep.de_sendq (tx_complete K s).dep.de_sendq_tail).sq_filled
        then start_tx_events K
          ((tx_complete K s).dep.de_sendq (tx_complete K s).dep.de_sendq_tail).sq_sendpage
          ((tx_complete K s).dep.de_sendq (tx_complete K s).dep.de_sendq_tail).sq_size
        else []))
      (tx_complete K s).dep := by
  obtain ⟨c1, c2, c3, c4, c5, c6, c7, c8, c9⟩ := tx_complete_keeps K s
  have hqc := h.qcnt
  have hcn : c < F.length := hqc.filled_tail hf
  have hqd := hqc.deq hf
  have hfil : filledOf (tx_complete K s).dep =
      fun i => if i = s.dep.de_sendq_tail then false else filledOf s.dep i :=
    filledOf_complete K s
  have hq' : QCnt (tx_complete K s).dep.de_sendq_nr h0 (c + 1) F.length
      (tx_complete K s).dep.de_sendq_head (tx_complete K s).dep.de_sendq_tail
      (filledOf (tx_complete K s).dep) := by
    rw [c1, c2, c3, hfil]
    exact hqd
  have hpage : ∀ j, ((tx_complete K s).dep.de_sendq j).sq_sendpage =
      (s.dep.de_sendq j).sq_sendpage := by
    intro j
    rw [c4]
    apply set_sendq_page
    rfl
  have hsize : ∀ j, ((tx_complete K s).dep.de_sendq j).sq_size = (s.dep.de_sendq j).sq_size := by
    intro j
    rw [c4]
    unfold set_sendq
    split
    · rename_i e
      rw [e]
    · rfl
  have hs : Static d0 (tx_complete K s).dep := tx_complete_static K s h.static
  have htail : (tx_complete K s).dep.de_sendq_tail = (h0 + (c + 1)) % s.dep.de_sendq_nr := by
    have := hq'.2.2.2.2.1
    rw [c1] at this
    exact this
  refine ⟨hs, by rw [c5]; exact h.stopped, hq', ?_, ?_, h.frames, ?_, ?_⟩
  · intro j fr hj
    rw [hpage, c1, hs.user2nicf, ← h.static.user2nicf]
    exact h.page j fr hj
  · intro j fr hj hc
    rw [hsize, c1]
    exact h.size j fr hj (by omega)
  · rw [List.filter_append, h.staged]
    split
    · rw [start_tx_events_user2nic, List.append_nil]
    · simp
  · rw [List.filter_append, h.txlog]
    have hiff := hq'.filled_iff
    unfold filledOf at hiff
    by_cases hfl : ((tx_complete K s).dep.de_sendq (tx_complete K s).dep.de_sendq_tail).sq_filled
        = true
    · have hlt : c + 1 < F.length := hiff.1 hfl
      rw [if_pos hfl, start_tx_events_txreg K hK, Nat.min_eq_right (by omega),
        Nat.min_eq_right (by omega), List.take_succ (n := c + 1)]
      have hget : F[c + 1]? = some (F.get ⟨c + 1, hlt⟩) := List.getElem?_eq_getElem hlt
      obtain ⟨hp, -⟩ := h.page (c + 1) _ hget
      have hsz := h.size (c + 1) _ hget (by omega)
      rw [hget]
      simp only [Option.toList, List.map_append, List.flatten_append, List.map_cons,
        List.map_nil, List.flatten_cons, List.flatten_nil, List.append_nil]
      congr 1
      unfold TxFrame.cmd
      rw [htail, hpage, hsize, ← hp, hsz]
      rfl
    · have hle : F.length ≤ c + 1 := by
        by_contra hx
        exact hfl (hiff.2 (by omega))
      rw [if_neg hfl, Nat.min_eq_left (by omega), Nat.min_eq_left (by omega)]
      simp

/-- What `do_vwrite_size` returns: the write descriptor of the request and its size. -/
theorem do_vwrite_size_ok {K : Hdr} {E : Env} {mp : message} {v : Bool} {s s2 : Sys}
    {size : Int} (h : do_vwrite_size K E mp v s = Res.ok size s2) :
    s2.dep.de_write_iovec.iod_proc_nr = mp.DL_PROC ∧
    (v = false → s2.dep.de_write_iovec.iod_iovec_s = 1 ∧
      s2.dep.de_write_iovec.iod_iovec.head? =
        some (iovec.mk mp.DL_ADDR (to_uint K mp.DL_COUNT)) ∧
      size = mp.DL_COUNT) ∧
    (v = true → s2.dep.de_write_iovec.iod_iovec_s = mp.DL_COUNT ∧
      s2.dep.de_write_iovec.iod_iovec_addr = mp.DL_ADDR ∧
      ∃ (io io1 : Io) (tmp : iovec_dat),
        calc_iovec_size K E s2.dep.de_write_iovec io = Res.ok (size, tmp) io1) := by
  unfold do_vwrite_size at h
  cases v
  · simp only [Bool.false_eq_true, if_false, Res.ok.injEq] at h
    obtain ⟨h1, h2⟩ := h
    subst h1
    subst h2
    exact ⟨rfl, fun _ => ⟨rfl, rfl, rfl⟩, fun x => (by cases x)⟩
  · simp only [if_true] at h
    split at h
    · cases h
    · rename_i w io1 hg
      split at h
      · cases h
      · rename_i sz tmp io2 hc
        cases h
        exact ⟨rfl, fun x => (by cases x), fun _ => ⟨rfl, rfl, _, _, _, hc⟩⟩

/-- The frame `do_vwrite` stages for a request is the frame of this request. -/
theorem frameOf_of_size {K : Hdr} {E : Env} {mp : message} {v : Bool} {s s2 : Sys}
    {size : Int} (h : do_vwrite_size K E mp v s = Res.ok size s2)
    (hv : (mp.m_type = MType.DL_WRITE ∧ v = false) ∨ (mp.m_type = MType.DL_WRITEV ∧ v = true))
    (h1 : ETH_MIN_PACK_SIZE ≤ size) (h2 : size ≤ ETH_MAX_PACK_SIZE) (f : Xfer) (page : Nat) :
    FrameOf K (TxFrame.mk mp f s2.dep.de_write_iovec page size.toNat) := by
  obtain ⟨a, b, c⟩ := do_vwrite_size_ok h
  have hs : ((size.toNat : Nat) : Int) = size := by
    apply Int.toNat_of_nonneg
    unfold ETH_MIN_PACK_SIZE at h1
    omega
  refine ⟨a, (by show ETH_MIN_PACK_SIZE ≤ ((size.toNat : Nat) : Int); rw [hs]; exact h1),
    (by show ((size.toNat : Nat) : Int) ≤ ETH_MAX_PACK_SIZE; rw [hs]; exact h2), ?_, ?_⟩
  · intro ht
    have ht' : mp.m_type = MType.DL_WRITE := ht
    rcases hv with ⟨-, hv⟩ | ⟨hw, -⟩
    · obtain ⟨b1, b2, b3⟩ := b hv
      exact ⟨b1, b2, (by show ((size.toNat : Nat) : Int) = mp.DL_COUNT; rw [hs]; exact b3)⟩
    · rw [ht'] at hw
      cases hw
  · intro ht
    have ht' : mp.m_type = MType.DL_WRITEV := ht
    rcases hv with ⟨hw, -⟩ | ⟨-, hv⟩
    · rw [ht'] at hw
      cases hw
    · obtain ⟨c1, c2, io, io1, tmp, c3⟩ := c hv
      refine ⟨c1, c2, E, io, io1, tmp, ?_⟩
      show calc_iovec_size K E s2.dep.de_write_iovec io = Res.ok (((size.toNat : Nat) : Int), tmp) io1
      rw [hs]
      exact c3

/-- A call of `do_vwrite` that returns, on an enabled port: either the request
becomes the deferred write, or its frame joins the frames in the queue. -/
theorem do_vwrite_step {K : Hdr} {E : Env} {mp : message} {fi v : Bool} {s s1 : Sys}
    {d0 : dpeth} {h0 c : Nat} {F : List TxFrame} {A B : List Ev} (hK : CrBits K)
    (h : do_vwrite K E mp fi v s = Res.ok () s1)
    (hv : (mp.m_type = MType.DL_WRITE ∧ v = false) ∨ (mp.m_type = MType.DL_WRITEV ∧ v = true))
    (hm : s.dep.de_mode = Mode.DEM_ENABLED)
    (hinv : TxInv K d0 h0 c F B s.dep) (hB : s.io.out = A ++ B) :
    s.dep.de_flags.DEF_SEND_AVAIL = false ∧
    ∃ B', s1.io.out = A ++ B' ∧
      ((fi = false ∧ s1.dep.de_flags.DEF_SEND_AVAIL = true ∧ s1.dep.de_sendmsg = mp ∧
          TxInv K d0 h0 c F B' s1.dep) ∨
       (∃ fr : TxFrame, fr.msg = mp ∧ s1.dep.de_flags.DEF_SEND_AVAIL = false ∧
          TxInv K d0 h0 c (F ++ [fr]) B' s1.dep)) := by
  have hs1 : Static d0 s1.dep := Static.of_ok h (do_vwrite_static K E mp fi v s hinv.static)
  rcases do_vwrite_ok h with ⟨hs, -, -⟩ | ⟨-, -, hav, ⟨hf, hfi, hr⟩ | ⟨hf, -, -⟩⟩
  · rw [hm] at hs
    cases hs
  · refine ⟨hav, ?_⟩
    obtain ⟨hd, hi, -⟩ := reply_ok hr
    have hm : ∃ m, s1.io.out = s.io.out ++ [Ev.send m] := ⟨_, by rw [hi]⟩
    obtain ⟨m, hm⟩ := hm
    refine ⟨B ++ [Ev.send m], by rw [hm, hB, List.append_assoc], Or.inl ⟨hfi, ?_, ?_, ?_⟩⟩
    · rw [hd]
    · rw [hd]
    · refine hinv.tkeep hs1 ?_ ?_ rfl rfl
      · rw [hd]
        exact ⟨rfl, rfl, rfl, rfl⟩
      · rw [hd]
        exact hinv.stopped
  · refine ⟨hav, ?_⟩
    obtain ⟨size, s2, hsz, hmin, hmax, henq, Bq, Br, hq, hr, ho⟩ :=
      do_vwrite_enq_by (call_user2nic_staged K hK E) h hm hf
    refine ⟨_, by rw [ho, hB, List.append_assoc], Or.inr
      ⟨TxFrame.mk mp s.dep.de_user2nicf s2.dep.de_write_iovec
        (s.dep.de_sendq s.dep.de_sendq_head).sq_sendpage size.toNat, ?_, ?_, ?_⟩⟩
    · rfl
    · rw [henq.send_avail, hav]
    · exact hinv.tenq henq hs1 hf (frameOf_of_size hsz hv hmin hmax _ _) hK hq hr

theorem IsrSub.of_eq {a io io1 : Io} (h : IsrSub a io) (e : io1.isr = io.isr) : IsrSub a io1 := by
  intro v hv
  rw [e] at hv
  exact h v hv

theorem IsrSub.istep {a io io1 : Io} (h : IsrSub a io) (h1 : IsrSub io io1) : IsrSub a io1 :=
  fun v hv => h v (h1 v hv)

theorem reply_isr {a : Io} (E : Env) (err : Int) (s : Sys) (h : IsrSub a s.io) :
    IsrSub a (reply E err s).state.io := by
  apply h.of_eq
  rw [reply_state_io]

theorem fill_head_isr (K : Hdr) (size : Nat) (s : Sys) :
    (fill_head K size s).io.isr = s.io.isr := by
  rw [fill_head_io]
  split
  · exact start_tx_isr _ _ _ _
  · rfl

theorem do_vwrite_send_isr {a : Io} (K : Hdr) (E : Env) (fi : Bool) (size : Int) (s : Sys)
    (h : IsrSub a s.io) : IsrSub a (do_vwrite_send K E fi size s).state.io := by
  unfold do_vwrite_send
  split
  · exact h
  · have hc := (call_user2nic_frame K E s.dep.de_user2nicf s.dep.de_write_iovec 0
      ((s.dep.de_sendq s.dep.de_sendq_head).sq_sendpage * K.DP_PAGESIZE) size.toNat s.io).isr
    split
    · rename_i e
      rw [e] at hc
      exact h.istep hc
    · rename_i wi io1 e
      rw [e] at hc
      have h1 : IsrSub a io1 := h.istep hc
      have h2 : IsrSub a (fill_head K size.toNat
          { dep := { s.dep with de_write_iovec := wi }, io := io1 }).io :=
        h1.of_eq (fill_head_isr K _ _)
      dsimp only
      split
      · exact h2
      · split
        · exact h2
        · refine Res.bind_state (fun x : Sys => IsrSub a x.io) _ _ ?_ ?_
          · exact reply_isr E 0 _ h2
          · intro _ s3 _ h3
            split
            · exact h3
            · split <;> exact h3

theorem do_vwrite_isr {a : Io} (K : Hdr) (E : Env) (mp : message) (fi v : Bool) (s : Sys)
    (h : IsrSub a s.io) : IsrSub a (do_vwrite K E mp fi v s).state.io := by
  unfold do_vwrite
  split
  · exact h
  · dsimp only
    split
    · split
      · exact h
      · exact reply_isr E 0 _ h
    · split
      · exact h
      · split
        · exact h
        · split
          · exact h
          · split
            · split
              · exact h
              · exact reply_isr E 0 _ h
            · split
              · exact h
              · refine Res.bind_state (fun x : Sys => IsrSub a x.io) _ _ ?_ ?_
                · obtain ⟨wi, tmp, e⟩ := do_vwrite_size_state K E mp v
                    { s with dep := { s.dep with de_client := mp.DL_PROC } }
                  show IsrSub a (do_vwrite_size K E mp v _).state.io
                  rw [e]
                  exact h
                · intro size s2 _ h2
                  exact do_vwrite_send_isr K E fi size s2 h2

theorem dp_send_isr {a : Io} (K : Hdr) (E : Env) (s : Sys) (h : IsrSub a s.io) :
    IsrSub a (dp_send K E s).state.io := by
  unfold dp_send
  split
  · exact h
  · dsimp only
    split
    · exact do_vwrite_isr K E _ _ _ _ h
    · exact do_vwrite_isr K E _ _ _ _ h
    · exact h

theorem dp_check_ints_tx_isr {a : Io} (K : Hdr) (E : Env) (isr : Nat) (s : Sys)
    (h : IsrSub a s.io) : IsrSub a (dp_check_ints_tx K E isr s).state.io := by
  have h1 : IsrSub a (tx_stat K isr s).io := h.of_eq (tx_stat_keeps K isr s).2.2.2.2.2.2.2.1
  have h2 : IsrSub a (tx_complete K (tx_stat K isr s)).io :=
    h1.of_eq (tx_complete_keeps K _).2.2.2.2.2.2.2.2
  unfold dp_check_ints_tx
  dsimp only
  split
  · split <;> exact h1
  · split
    · refine Res.bind_state (fun x : Sys => IsrSub a x.io) _ _ ?_ ?_
      · exact dp_send_isr K E _ h2
      · intro _ s4 _ h4
        exact h4
    · exact h2

theorem dp_send_step {K : Hdr} {E : Env} {s s1 : Sys} {d0 : dpeth} {h0 : Nat}
    {M : List message} {A B : List Ev} (hK : CrBits K)
    (h : dp_send K E s = Res.ok () s1) (hd0 : d0.de_mode = Mode.DEM_ENABLED)
    (hinv : RunInv K d0 h0 M B s.dep) (hB : s.io.out = A ++ B) :
    ∃ B', s1.io.out = A ++ B' ∧ RunInv K d0 h0 M B' s1.dep := by
  unfold dp_send at h
  split at h
  · cases h
    exact ⟨B, hB, hinv⟩
  · rename_i hav
    have hav' : s.dep.de_flags.DEF_SEND_AVAIL = true := by simpa using hav
    obtain ⟨c, F, hT, hM⟩ := hinv
    rw [hav', if_pos rfl] at hM
    have hT' : TxInv K d0 h0 c F B ({ s with dep := { s.dep with
        de_flags := { s.dep.de_flags with DEF_SEND_AVAIL := false } } } : Sys).dep := by
      have : TxInv K d0 h0 c F (B ++ []) ({ s with dep := { s.dep with
          de_flags := { s.dep.de_flags with DEF_SEND_AVAIL := false } } } : Sys).dep :=
        hT.tkeep (hT.static.step rfl rfl rfl (fun _ => rfl) rfl rfl rfl rfl rfl)
          ⟨rfl, rfl, rfl, rfl⟩ hT.stopped rfl rfl
      rw [List.append_nil] at this
      exact this
    have hm : ({ s with dep := { s.dep with
        de_flags := { s.dep.de_flags with DEF_SEND_AVAIL := false } } } : Sys).dep.de_mode
        = Mode.DEM_ENABLED := hT.static.mode.trans hd0
    have fin : ∀ v : Bool,
        (s.dep.de_sendmsg.m_type = MType.DL_WRITE ∧ v = false) ∨
          (s.dep.de_sendmsg.m_type = MType.DL_WRITEV ∧ v = true) →
        do_vwrite K E s.dep.de_sendmsg true v { s with dep := { s.dep with
          de_flags := { s.dep.de_flags with DEF_SEND_AVAIL := false } } } = Res.ok () s1 →
        ∃ B', s1.io.out = A ++ B' ∧ RunInv K d0 h0 M B' s1.dep := by
      intro v hv hw
      obtain ⟨-, B', ho, hc⟩ := do_vwrite_step hK hw hv hm hT' hB
      rcases hc with ⟨hfi, -⟩ | ⟨fr, hmsg, hsa, hT2⟩
      · cases hfi
      · refine ⟨B', ho, c, F ++ [fr], hT2, ?_⟩
        rw [hsa, hM, List.map_append]
        simp only [List.map_cons, List.map_nil, hmsg, Bool.false_eq_true, if_false,
          List.append_nil]
    dsimp only at h
    split at h
    · rename_i ht
      exact fin false (Or.inl ⟨ht, rfl⟩) h
    · rename_i ht
      exact fin true (Or.inr ⟨ht, rfl⟩) h
    · cases h

theorem dp_check_ints_tx_step {K : Hdr} {E : Env} {isr : Nat} {b : Bool} {s s1 : Sys}
    {d0 : dpeth} {h0 : Nat} {M : List message} {A B : List Ev} (hK : CrBits K)
    (h : dp_check_ints_tx K E isr s = Res.ok b s1) (hd0 : d0.de_mode = Mode.DEM_ENABLED)
    (hinv : RunInv K d0 h0 M B s.dep) (hB : s.io.out = A ++ B) :
    ∃ B', s1.io.out = A ++ B' ∧ RunInv K d0 h0 M B' s1.dep := by
  obtain ⟨k1, k2, k3, k4, k5, k6, k7, k8, k9⟩ := tx_stat_keeps K isr s
  obtain ⟨c, F, hT, hM⟩ := hinv
  have hT1 : TxInv K d0 h0 c F B (tx_stat K isr s).dep := by
    have : TxInv K d0 h0 c F (B ++ []) (tx_stat K isr s).dep :=
      hT.tkeep (tx_stat_static K isr s hT.static) ⟨k2, k3, k4, k1⟩
        (by rw [k5]; exact hT.stopped) rfl rfl
    rw [List.append_nil] at this
    exact this
  have hM1 : M = F.map TxFrame.msg ++
      (if (tx_stat K isr s).dep.de_flags.DEF_SEND_AVAIL then [(tx_stat K isr s).dep.de_sendmsg]
        else []) := by
    rw [k5, k6]
    exact hM
  have hB1 : (tx_stat K isr s).io.out = A ++ B := by rw [k9, hB]
  rcases dp_check_ints_tx_ok h with ⟨-, -, e⟩ | ⟨hf, -, ⟨-, e⟩ | ⟨-, e⟩⟩
  · subst e
    exact ⟨B, hB1, c, F, hT1, hM1⟩
  · have hf1 : ((tx_stat K isr s).dep.de_sendq (tx_stat K isr s).dep.de_sendq_tail).sq_filled
        = true := by
      rw [k1, k4]
      exact hf
    obtain ⟨c1, c2, c3, c4, c5, c6, c7, c8, c9⟩ := tx_complete_keeps K (tx_stat K isr s)
    subst e
    refine ⟨_, ?_, c + 1, F, hT1.tdeq hK hf1, ?_⟩
    · rw [tx_complete_out, hB1, List.append_assoc]
    · rw [c5, c6]
      exact hM1
  · have hf1 : ((tx_stat K isr s).dep.de_sendq (tx_stat K isr s).dep.de_sendq_tail).sq_filled
        = true := by
      rw [k1, k4]
      exact hf
    obtain ⟨c1, c2, c3, c4, c5, c6, c7, c8, c9⟩ := tx_complete_keeps K (tx_stat K isr s)
    refine dp_send_step hK e hd0 ⟨c + 1, F, hT1.tdeq hK hf1, ?_⟩ ?_
    · rw [c5, c6]
      exact hM1
    · rw [tx_complete_out, hB1, List.append_assoc]

theorem RunInv.rkeep {K : Hdr} {d0 d d1 : dpeth} {h0 : Nat} {M : List message} {B X : List Ev}
    (h : RunInv K d0 h0 M B d) (hs : Static d0 d1) (hq : QSame d d1)
    (hst : d1.de_flags.DEF_STOPPED = false)
    (hav : d1.de_flags.DEF_SEND_AVAIL = d.de_flags.DEF_SEND_AVAIL)
    (hmsg : d1.de_sendmsg = d.de_sendmsg)
    (hX1 : X.filter Ev.isUser2nic = []) (hX2 : X.filter (Ev.isTxReg K) = []) :
    RunInv K d0 h0 M (B ++ X) d1 := by
  obtain ⟨c, F, hT, hM⟩ := h
  refine ⟨c, F, hT.tkeep hs hq hst hX1 hX2, ?_⟩
  rw [hav, hmsg]
  exact hM

theorem RunInv.same {K : Hdr} {d0 d d1 : dpeth} {h0 : Nat} {M : List message} {B : List Ev}
    (h : RunInv K d0 h0 M B d) (hs : Static d0 d1) (hq : QSame d d1)
    (hst : d1.de_flags.DEF_STOPPED = false)
    (hav : d1.de_flags.DEF_SEND_AVAIL = d.de_flags.DEF_SEND_AVAIL)
    (hmsg : d1.de_sendmsg = d.de_sendmsg) : RunInv K d0 h0 M B d1 := by
  have : RunInv K d0 h0 M (B ++ []) d1 := h.rkeep hs hq hst hav hmsg rfl rfl
  rw [List.append_nil] at this
  exact this

theorem RunInv.stopped {K : Hdr} {d0 d : dpeth} {h0 : Nat} {M : List message} {B : List Ev}
    (h : RunInv K d0 h0 M B d) : d.de_flags.DEF_STOPPED = false := by
  obtain ⟨c, F, hT, -⟩ := h
  exact hT.stopped

theorem RunInv.static {K : Hdr} {d0 d : dpeth} {h0 : Nat} {M : List message} {B : List Ev}
    (h : RunInv K d0 h0 M B d) : Static d0 d := by
  obtain ⟨c, F, hT, -⟩ := h
  exact hT.static

theorem inb_isr_mem {io : Io} (h : (inb_isr io).1 ≠ 0) : (inb_isr io).1 ∈ io.isr := by
  unfold inb_isr at h ⊢
  cases hq : io.isr with
  | nil =>
    rw [hq] at h
    simp at h
  | cons a l => simp

theorem dp_check_ints_loop_step {K : Hdr} {E : Env} {d0 : dpeth} {h0 : Nat}
    {M : List message} {A : List Ev} (hK : CrBits K) (hd0 : d0.de_mode = Mode.DEM_ENABLED)
    (fuel : Nat) {s s1 : Sys} {B : List Ev}
    (h : dp_check_ints_loop K E fuel s = Res.ok () s1)
    (hbits : ∀ v ∈ s.io.isr, bit v K.ISR_PRX = false ∧ bit v K.ISR_RST = false)
    (hinv : RunInv K d0 h0 M B s.dep) (hB : s.io.out = A ++ B) :
    ∃ B', s1.io.out = A ++ B' ∧ RunInv K d0 h0 M B' s1.dep := by
  induction fuel generalizing s B with
  | zero =>
    unfold dp_check_ints_loop at h
    cases h
  | succ n ih =>
    unfold dp_check_ints_loop at h
    dsimp only at h
    split at h
    · cases h
      exact ⟨B, hB, hinv⟩
    · rename_i hne
      have hv := hbits _ (inb_isr_mem hne)
      obtain ⟨cont, s2, h2, h3⟩ := Res.bind_ok h
      have hsub1 : IsrSub s.io (outb_reg0 Reg.DP_ISR ((inb_isr s.io).1 : Int) (inb_isr s.io).2) :=
        fun v hv => by
          rw [outb_reg0_isr] at hv
          exact List.mem_of_mem_tail hv
      have hB1 : (outb_reg0 Reg.DP_ISR ((inb_isr s.io).1 : Int) (inb_isr s.io).2).out =
          A ++ (B ++ [Ev.outb0 Reg.DP_ISR ((inb_isr s.io).1 : Int)]) := by
        rw [outb_reg0_out]
        show s.io.out ++ _ = _
        rw [hB, List.append_assoc]
      have hinv1 : RunInv K d0 h0 M (B ++ [Ev.outb0 Reg.DP_ISR ((inb_isr s.io).1 : Int)]) s.dep :=
        hinv.rkeep hinv.static ⟨rfl, rfl, rfl, rfl⟩ hinv.stopped rfl rfl rfl rfl
      have step2 : ∃ B2, s2.io.out = A ++ B2 ∧ RunInv K d0 h0 M B2 s2.dep ∧ IsrSub s.io s2.io := by
        split at h2
        · obtain ⟨B2, o2, i2⟩ := dp_check_ints_tx_step (s := Sys.mk s.dep
            (outb_reg0 Reg.DP_ISR ((inb_isr s.io).1 : Int) (inb_isr s.io).2)) hK h2 hd0 hinv1 hB1
          refine ⟨B2, o2, i2, ?_⟩
          have := dp_check_ints_tx_isr K E (inb_isr s.io).1 (Sys.mk s.dep
            (outb_reg0 Reg.DP_ISR ((inb_isr s.io).1 : Int) (inb_isr s.io).2)) hsub1
          rw [h2] at this
          exact this
        · cases h2
          exact ⟨_, hB1, hinv1, hsub1⟩
      obtain ⟨B2, o2, i2, sub2⟩ := step2
      have hbits2 : ∀ v ∈ s2.io.isr, bit v K.ISR_PRX = false ∧ bit v K.ISR_RST = false :=
        fun v hv => hbits v (sub2 v hv)
      split at h3
      · exact ih h3 hbits2 i2 o2
      · obtain ⟨brk, s3, h4, h5⟩ := Res.bind_ok h3
        obtain ⟨s3', r0, r1, r2, r3, r4, r5, r6, r7, r8, r9, r10⟩ :=
          dp_check_ints_rx_plain K E (inb_isr s.io).1 s2 hv.1 hv.2
        rw [r0] at h4
        cases h4
        simp only [Bool.false_eq_true, if_false] at h5
        have hs3 : Static d0 s3.dep := by
          have := dp_check_ints_rx_static K E (inb_isr s.io).1 s2 i2.static
          rw [r0] at this
          exact this
        refine ih h5 (fun v hv => hbits2 v (by rw [r9] at hv; exact hv))
          (i2.same hs3 ⟨r2, r3, r4, r1⟩ (by rw [r5]; exact i2.stopped) (by rw [r5]) r6)
          (by rw [r10, o2])

theorem dp_check_ints_step {K : Hdr} {E : Env} {d0 : dpeth} {h0 : Nat}
    {M : List message} {A B : List Ev} {s s1 : Sys} (hK : CrBits K)
    (hd0 : d0.de_mode = Mode.DEM_ENABLED)
    (h : dp_check_ints K E s = Res.ok () s1)
    (hbits : ∀ v ∈ s.io.isr, bit v K.ISR_PRX = false ∧ bit v K.ISR_RST = false)
    (hinv : RunInv K d0 h0 M B s.dep) (hB : s.io.out = A ++ B) :
    ∃ B', s1.io.out = A ++ B' ∧ RunInv K d0 h0 M B' s1.dep := by
  unfold dp_check_ints at h
  split at h
  · cases h
  · obtain ⟨_, s2, h2, h3⟩ := Res.bind_ok h
    obtain ⟨B2, o2, i2⟩ := dp_check_ints_loop_step hK hd0 _ h2 hbits hinv hB
    rw [if_neg (by rw [i2.stopped]; simp)] at h3
    cases h3
    exact ⟨B2, o2, i2⟩

theorem do_int_step {K : Hdr} {E : Env} {d0 : dpeth} {h0 : Nat}
    {M : List message} {A B : List Ev} {s s1 : Sys}
    (h : do_int E s = Res.ok () s1)
    (hinv : RunInv K d0 h0 M B s.dep) (hB : s.io.out = A ++ B) :
    ∃ B', s1.io.out = A ++ B' ∧ RunInv K d0 h0 M B' s1.dep := by
  unfold do_int at h
  split at h
  · obtain ⟨hd, hi, -⟩ := reply_ok h
    have hm : ∃ m, s1.io.out = s.io.out ++ [Ev.send m] := ⟨_, by rw [hi]⟩
    obtain ⟨m, hm⟩ := hm
    refine ⟨B ++ [Ev.send m], by rw [hm, hB, List.append_assoc], ?_⟩
    refine hinv.rkeep (Static.of_ok h (reply_static E 0 s hinv.static)) ?_ ?_ ?_ ?_ rfl rfl
    · rw [hd]
      exact ⟨rfl, rfl, rfl, rfl⟩
    · rw [hd]
      exact hinv.stopped
    · rw [hd]
    · rw [hd]
  · cases h
    exact ⟨B, hB, hinv⟩

theorem write_turn {K : Hdr} {E : Env} {d0 : dpeth} {h0 : Nat} {mp : message}
    {M : List message} {A B : List Ev} {s s1 : Sys} (hK : CrBits K)
    (hd0 : d0.de_mode = Mode.DEM_ENABLED)
    (ht : mp.m_type = MType.DL_WRITE ∨ mp.m_type = MType.DL_WRITEV)
    (h : dp8390_task K E mp false s = Res.ok () s1)
    (hinv : RunInv K d0 h0 M B s.dep) (hB : s.io.out = A ++ B) :
    ∃ B', s1.io.out = A ++ B' ∧ RunInv K d0 h0 (M ++ [mp]) B' s1.dep := by
  obtain ⟨c, F, hT, hM⟩ := hinv
  have hm : s.dep.de_mode = Mode.DEM_ENABLED := hT.static.mode.trans hd0
  have fin : ∀ v : Bool,
      (mp.m_type = MType.DL_WRITE ∧ v = false) ∨ (mp.m_type = MType.DL_WRITEV ∧ v = true) →
      do_vwrite K E mp false v s = Res.ok () s1 →
      ∃ B', s1.io.out = A ++ B' ∧ RunInv K d0 h0 (M ++ [mp]) B' s1.dep := by
    intro v hv hw
    obtain ⟨hav, B', ho, hc⟩ := do_vwrite_step hK hw hv hm hT hB
    rw [hav] at hM
    simp only [Bool.false_eq_true, if_false, List.append_nil] at hM
    rcases hc with ⟨-, hsa, hmsg, hT2⟩ | ⟨fr, hmsg, hsa, hT2⟩
    · refine ⟨B', ho, c, F, hT2, ?_⟩
      rw [hsa, hmsg, hM]
      rfl
    · refine ⟨B', ho, c, F ++ [fr], hT2, ?_⟩
      rw [hsa, hM, List.map_append]
      simp only [List.map_cons, List.map_nil, hmsg, Bool.false_eq_true, if_false,
        List.append_nil]
  unfold dp8390_task at h
  rcases ht with ht | ht
  · rw [ht] at h
    exact fin false (Or.inl ⟨ht, rfl⟩) h
  · rw [ht] at h
    exact fin true (Or.inr ⟨ht, rfl⟩) h

theorem interrupt_turn {K : Hdr} {E : Env} {d0 : dpeth} {h0 : Nat} {m : message}
    {M : List message} {A B : List Ev} {s s1 : Sys} (hK : CrBits K)
    (hd0 : d0.de_mode = Mode.DEM_ENABLED)
    (ht : m.m_type = MType.HARD_INT)
    (h : dp8390_task K E m true s = Res.ok () s1)
    (hbits : ∀ v ∈ s.io.isr, bit v K.ISR_PRX = false ∧ bit v K.ISR_RST = false)
    (hinv : RunInv K d0 h0 M B s.dep) (hB : s.io.out = A ++ B) :
    ∃ B', s1.io.out = A ++ B' ∧ RunInv K d0 h0 M B' s1.dep := by
  unfold dp8390_task at h
  rw [ht] at h
  dsimp only at h
  split at h
  · cases h
    exact ⟨B, hB, hinv⟩
  · split at h
    · cases h
    · split at h
      · cases h
      · simp only [if_true] at h
        obtain ⟨_, s2, h2, h3⟩ := Res.bind_ok h
        obtain ⟨B2, o2, i2⟩ := dp_check_ints_step hK hd0 h2 hbits hinv hB
        exact do_int_step h3 i2 o2

theorem run_inv_start {K : Hdr} {s0 : Sys} (h : EmptyRing s0.dep) :
    RunInv K s0.dep s0.dep.de_sendq_head [] [] s0.dep := by
  obtain ⟨h1, h2, h3, h4, h5, h6, h7⟩ := h
  refine ⟨0, [], ⟨Static.srefl _, h7, ?_, ?_, ?_, ?_, rfl, rfl⟩, ?_⟩
  · rw [h4]
    exact QCnt.empty h2 h3 h5
  · intro j fr hj
    simp at hj
  · intro j fr hj
    simp at hj
  · intro fr hfr
    cases hfr
  · rw [h6]
    rfl

theorem tx_run_inv {K : Hdr} {s0 s : Sys} {M : List message} (hK : CrBits K)
    (h0 : EmptyRing s0.dep)
    (hrun : TxRun K s0 M s) :
    ∃ B, s.io.out = s0.io.out ++ B ∧ RunInv K s0.dep s0.dep.de_sendq_head M B s.dep := by
  induction hrun with
  | start => exact ⟨[], by simp, run_inv_start h0⟩
  | write E mp io M s s1 _ ht ho hr ih =>
    obtain ⟨B, hB, hinv⟩ := ih
    exact write_turn (s := { s with io := io }) hK h0.1 ht hr hinv (by rw [← hB]; exact ho)
  | interrupt E m io M s s1 _ ht ho hi hr ih =>
    obtain ⟨B, hB, hinv⟩ := ih
    exact interrupt_turn (s := { s with io := io }) hK h0.1 ht hr hi hinv (by rw [← hB]; exact ho)

/-- C2: transmission in the order of submission.  From an enabled port with an
empty send queue of any capacity `nr ≥ 1`, after any run of write requests
that returned (`M`, in order; taken into the queue or deferred) and of
interrupts without reception and reset, the log `B` of the run is as
follows for a list `F` of frames and a number `c ≤ length F` of completed
frames.  The requests `M` are those of the frames `F`, in order, followed by
the deferred write if one is pending; each frame is the frame of its request,
with the size `do_vwrite` computed for it when it staged it; the staging
calls logged are those of `F`, in order, each to the send page of its frame;
and the events of the log that belong to a transmit command (a write to
`DP_TPSR`, `DP_TBCR1` or `DP_TBCR0`, or a write to `DP_CR` of a value with the
bit `CR_TXP`) are, in order, the commands of the first `min (length F) (c + 1)`
frames, each made of the four writes page, byte count high, byte count low and
`CR_TXP`: the `k`-th transmit command is that of the `k`-th frame, with its
page and its size, and no other write sets `CR_TXP`.  One command is issued
for every completed frame and one for the frame at the tail if the queue is
not empty (`TxInv`).  The constants are taken to be such that `CR_TXP` is not
zero and is no bit of the remote-write command of the programmed-I/O transfer
functions (`CrBits`). -/
theorem fifo_order (K : Hdr) (s0 s : Sys) (M : List message) (hK : CrBits K)
    (h0 : EmptyRing s0.dep) (hrun : TxRun K s0 M s) :
    ∃ (B : List Ev) (c : Nat) (F : List TxFrame),
      s.io.out = s0.io.out ++ B ∧
      M = F.map TxFrame.msg ++
        (if s.dep.de_flags.DEF_SEND_AVAIL then [s.dep.de_sendmsg] else []) ∧
      (∀ fr ∈ F, FrameOf K fr) ∧
      B.filter Ev.isUser2nic = F.map (TxFrame.stage K) ∧
      c ≤ F.length ∧
      B.filter (Ev.isTxReg K) =
        ((F.take (min F.length (c + 1))).map (TxFrame.cmd K)).flatten ∧
      (∀ fr : TxFrame, TxFrame.cmd K fr =
        [Ev.outb0 Reg.DP_TPSR (fr.page : Int), Ev.outb0 Reg.DP_TBCR1 ((fr.size >>> 8 : Nat) : Int),
          Ev.outb0 Reg.DP_TBCR0 ((fr.size &&& 0xff : Nat) : Int),
          Ev.outb0 Reg.DP_CR (K.CR_TXP : Int)]) ∧
      TxInv K s0.dep s0.dep.de_sendq_head c F B s.dep := by
  obtain ⟨B, hB, c, F, hT, hM⟩ := tx_run_inv hK h0 hrun
  exact ⟨B, c, F, hB, hM, hT.frames, hT.staged, hT.qcnt.2.1, hT.txlog, fun _ => rfl, hT⟩

set_option maxRecDepth 100000 in
theorem empty_ring_sys1 : EmptyRing sys1.dep := by
  refine ⟨by decide, by decide, by decide, by decide, ?_, by decide, by decide⟩
  decide

set_option maxRecDepth 100000 in
theorem example_run : TxRun hdr sys1
    [msg MType.DL_WRITE 100 1000, msg MType.DL_WRITE 200 2000, msg MType.DL_WRITE 300 3000]
    run6 := by
  have r1 : TxRun hdr sys1 ([] ++ [msg MType.DL_WRITE 100 1000]) run1 :=
    TxRun.write env0 _ sys1.io [] sys1 run1 TxRun.start (Or.inl rfl) rfl
      (Res.ok_of_isOk (by decide))
  have r2 : TxRun hdr sys1 (([] ++ [msg MType.DL_WRITE 100 1000]) ++
      [msg MType.DL_WRITE 200 2000]) run2 :=
    TxRun.write env0 _ run1.io _ run1 run2 r1 (Or.inl rfl) rfl (Res.ok_of_isOk (by decide))
  have r3 : TxRun hdr sys1 ((([] ++ [msg MType.DL_WRITE 100 1000]) ++
      [msg MType.DL_WRITE 200 2000]) ++ [msg MType.DL_WRITE 300 3000]) run3 :=
    TxRun.write env0 _ run2.io _ run2 run3 r2 (Or.inl rfl) rfl (Res.ok_of_isOk (by decide))
  have r4 := TxRun.interrupt env0 (msg MType.HARD_INT 0 0) (tx_int run3).io _ run3 run4 r3 rfl
    rfl (by decide) (Res.ok_of_isOk (by decide))
  have r5 := TxRun.interrupt env0 (msg MType.HARD_INT 0 0) (tx_int run4).io _ run4 run5 r4 rfl
    rfl (by decide) (Res.ok_of_isOk (by decide))
  exact TxRun.interrupt env0 (msg MType.HARD_INT 0 0) (tx_int run5).io _ run5 run6 r5 rfl
    rfl (by decide) (Res.ok_of_isOk (by decide))

set_option maxRecDepth 100000 in
theorem cr_bits_hdr : CrBits hdr := ⟨by decide, by decide⟩

set_option maxRecDepth 100000 in
/-- The statement at work on a queue of capacity 2: the writes W1, W2, W3 of
100, 200 and 300 bytes, the third deferred, and three transmit interrupts.
The transmit commands logged are those of W1 (page 0), W2 (page 6) and W3
(page 0 again, byte count `1 * 256 + 44`), in this order, each ending with
the write of `CR_TXP` (4) to `DP_CR`. -/
theorem fifo_order_witness :
    EmptyRing sys1.dep ∧
    TxRun hdr sys1
      [msg MType.DL_WRITE 100 1000, msg MType.DL_WRITE 200 2000, msg MType.DL_WRITE 300 3000]
      run6 ∧
    (run6.io.out.drop sys1.io.out.length).filter (Ev.isTxReg hdr) =
      [Ev.outb0 Reg.DP_TPSR 0, Ev.outb0 Reg.DP_TBCR1 0, Ev.outb0 Reg.DP_TBCR0 100,
        Ev.outb0 Reg.DP_CR 4,
        Ev.outb0 Reg.DP_TPSR 6, Ev.outb0 Reg.DP_TBCR1 0, Ev.outb0 Reg.DP_TBCR0 200,
        Ev.outb0 Reg.DP_CR 4,
        Ev.outb0 Reg.DP_TPSR 0, Ev.outb0 Reg.DP_TBCR1 1, Ev.outb0 Reg.DP_TBCR0 44,
        Ev.outb0 Reg.DP_CR 4] ∧
    run3.dep.de_flags.DEF_SEND_AVAIL = true ∧
    ∃ (B : List Ev) (c : Nat) (F : List TxFrame),
      run6.io.out = sys1.io.out ++ B ∧
      [msg MType.DL_WRITE 100 1000, msg MType.DL_WRITE 200 2000, msg MType.DL_WRITE 300 3000] =
        F.map TxFrame.msg ++
          (if run6.dep.de_flags.DEF_SEND_AVAIL then [run6.dep.de_sendmsg] else []) ∧
      (∀ fr ∈ F, FrameOf hdr fr) ∧
      B.filter Ev.isUser2nic = F.map (TxFrame.stage hdr) ∧
      c ≤ F.length ∧
      B.filter (Ev.isTxReg hdr) =
        ((F.take (min F.length (c + 1))).map (TxFrame.cmd hdr)).flatten ∧
      (∀ fr : TxFrame, TxFrame.cmd hdr fr =
        [Ev.outb0 Reg.DP_TPSR (fr.page : Int), Ev.outb0 Reg.DP_TBCR1 ((fr.size >>> 8 : Nat) : Int),
          Ev.outb0 Reg.DP_TBCR0 ((fr.size &&& 0xff : Nat) : Int),
          Ev.outb0 Reg.DP_CR (hdr.CR_TXP : Int)]) ∧
      TxInv hdr sys1.dep sys1.dep.de_sendq_head c F B run6.dep :=
  ⟨empty_ring_sys1, example_run, by decide, by decide,
   fifo_order hdr sys1 run6 _ cr_bits_hdr empty_ring_sys1 example_run⟩

theorem bit_or (a b m : Nat) : bit (a ||| b) m = (bit a m || bit b m) := by
  unfold bit
  rw [Nat.and_distrib_right]
  by_cases ha : a &&& m = 0
  · rw [ha]; simp
  · have h0 : (a &&& m) ||| (b &&& m) ≠ 0 := fun e => ha (nat_or_eq_zero e)
    have h1 : ((a &&& m ||| b &&& m) != 0) = true := bne_iff_ne.mpr h0
    have h2 : (a &&& m != 0) = true := bne_iff_ne.mpr ha
    rw [h1, h2]
    rfl

theorem bit_zero_left (m : Nat) : bit 0 m = false := by
  simp [bit]

theorem bit_self {m : Nat} (h : m ≠ 0) : bit m m = true := by
  simp [bit, h]

theorem bit_disjoint {a m : Nat} (h : a &&& m = 0) : bit a m = false := by
  simp [bit, h]

theorem dp_rcr_reg_bits (K : Hdr) (f : Flags) (p m b : Bool)
    (h1 : K.RCR_PRO ≠ 0) (h2 : K.RCR_AM ≠ 0) (h3 : K.RCR_AB ≠ 0)
    (h4 : K.RCR_PRO &&& K.RCR_AM = 0) (h5 : K.RCR_PRO &&& K.RCR_AB = 0)
    (h6 : K.RCR_AM &&& K.RCR_AB = 0) :
    bit (dp_rcr_reg K { f with DEF_PROMISC := p, DEF_MULTI := p || m, DEF_BROAD := p || b })
        K.RCR_PRO = p ∧
    bit (dp_rcr_reg K { f with DEF_PROMISC := p, DEF_MULTI := p || m, DEF_BROAD := p || b })
        K.RCR_AM = (p || m) ∧
    bit (dp_rcr_reg K { f with DEF_PROMISC := p, DEF_MULTI := p || m, DEF_BROAD := p || b })
        K.RCR_AB = (p || b) := by
  have h4' : K.RCR_AM &&& K.RCR_PRO = 0 := by rw [Nat.land_comm]; exact h4
  have h5' : K.RCR_AB &&& K.RCR_PRO = 0 := by rw [Nat.land_comm]; exact h5
  have h6' : K.RCR_AB &&& K.RCR_AM = 0 := by rw [Nat.land_comm]; exact h6
  unfold dp_rcr_reg
  cases p <;> cases m <;> cases b <;>
    simp [bit_or, bit_zero_left, bit_self h1, bit_self h2, bit_self h3, bit_disjoint h4,
      bit_disjoint h5, bit_disjoint h6, bit_disjoint h4', bit_disjoint h5', bit_disjoint h6']

theorem do_init_enabled_eq {K : Hdr} {E : Env} {mp : message} {s : Sys}
    (hp : bad_port mp.DL_PORT = false) (hm : s.dep.de_mode = Mode.DEM_ENABLED)
    (hf : s.dep.de_flags.DEF_ENABLED = true) (hs : E.send_r = 0) :
    do_init K E mp s = Res.ok ()
      { dep := { s.dep with
          de_client := mp.m_source,
          de_flags := { s.dep.de_flags with
            DEF_PROMISC := bit mp.DL_MODE K.DL_PROMISC_REQ,
            DEF_MULTI := bit mp.DL_MODE K.DL_PROMISC_REQ || bit mp.DL_MODE K.DL_MULTI_REQ,
            DEF_BROAD := bit mp.DL_MODE K.DL_PROMISC_REQ || bit mp.DL_MODE K.DL_BROAD_REQ } },
        io := { s.io with out := s.io.out ++
          [Ev.outb0 Reg.DP_CR (K.CR_PS_P0 : Int),
           Ev.outb0 Reg.DP_RCR (dp_rcr_reg K { s.dep.de_flags with
              DEF_PROMISC := bit mp.DL_MODE K.DL_PROMISC_REQ,
              DEF_MULTI := bit mp.DL_MODE K.DL_PROMISC_REQ || bit mp.DL_MODE K.DL_MULTI_REQ,
              DEF_BROAD := bit mp.DL_MODE K.DL_PROMISC_REQ || bit mp.DL_MODE K.DL_BROAD_REQ }
              : Int),
           Ev.send (Sent.init_reply mp.m_source mp.DL_PORT (some DE_PORT_NR)
              (some s.dep.de_address))] } } := by
  unfold do_init
  rw [if_neg (by rw [hp]; decide)]
  dsimp only
  rw [if_neg (by rw [hm]; decide), if_neg (by rw [hm]; decide), if_neg (by rw [hm]; simp),
    if_neg (by rw [hf]; simp)]
  unfold mess_reply dp_reinit
  dsimp only
  rw [if_neg (by rw [hs]; simp)]
  simp [outb_reg0]

/-- C11: `Init` on a valid port in mode `DEM_ENABLED` with `DEF_ENABLED` set,
when the reply can be sent, returns with the three receive-filter flags
computed from the mode bits of the request alone: `DEF_PROMISC` is set iff
`DL_PROMISC_REQ` is requested, `DEF_MULTI` iff `DL_PROMISC_REQ` or
`DL_MULTI_REQ`, `DEF_BROAD` iff `DL_PROMISC_REQ` or `DL_BROAD_REQ`; every other
flag is as before, and in the port entry only the flags and `de_client`
change (and `de_name`, which is written anew with the same text).  The log grows by the two register writes of `dp_reinit`, the second
to `DP_RCR` with the value computed from the new flags, and by the reply with
the port number, `DE_PORT_NR` and `de_address`.  When `RCR_PRO`, `RCR_AM` and
`RCR_AB` are three different bits, the value written has `RCR_PRO` iff
`DEF_PROMISC`, `RCR_AM` iff `DEF_MULTI` and `RCR_AB` iff `DEF_BROAD`.  The
same request once more leaves the port entry as it is and writes and replies
the same. -/
theorem do_init_filter_flags (K : Hdr) (E : Env) (mp : message) (s : Sys)
    (hp : bad_port mp.DL_PORT = false) (hm : s.dep.de_mode = Mode.DEM_ENABLED)
    (hf : s.dep.de_flags.DEF_ENABLED = true) (hs : E.send_r = 0) :
    ∃ s1, do_init K E mp s = Res.ok () s1 ∧
      s1.dep = { s.dep with
        de_client := mp.m_source,
        de_flags := { s.dep.de_flags with
          DEF_PROMISC := bit mp.DL_MODE K.DL_PROMISC_REQ,
          DEF_MULTI := bit mp.DL_MODE K.DL_PROMISC_REQ || bit mp.DL_MODE K.DL_MULTI_REQ,
          DEF_BROAD := bit mp.DL_MODE K.DL_PROMISC_REQ || bit mp.DL_MODE K.DL_BROAD_REQ } } ∧
      s1.io = { s.io with out := s.io.out ++
        [Ev.outb0 Reg.DP_CR (K.CR_PS_P0 : Int),
         Ev.outb0 Reg.DP_RCR (dp_rcr_reg K s1.dep.de_flags : Int),
         Ev.send (Sent.init_reply mp.m_source mp.DL_PORT (some DE_PORT_NR)
            (some s.dep.de_address))] } ∧
      (K.RCR_PRO ≠ 0 → K.RCR_AM ≠ 0 → K.RCR_AB ≠ 0 →
        K.RCR_PRO &&& K.RCR_AM = 0 → K.RCR_PRO &&& K.RCR_AB = 0 →
        K.RCR_AM &&& K.RCR_AB = 0 →
        bit (dp_rcr_reg K s1.dep.de_flags) K.RCR_PRO = s1.dep.de_flags.DEF_PROMISC ∧
        bit (dp_rcr_reg K s1.dep.de_flags) K.RCR_AM = s1.dep.de_flags.DEF_MULTI ∧
        bit (dp_rcr_reg K s1.dep.de_flags) K.RCR_AB = s1.dep.de_flags.DEF_BROAD) ∧
      do_init K E mp s1 = Res.ok ()
        { dep := s1.dep,
          io := { s1.io with out := s1.io.out ++
            [Ev.outb0 Reg.DP_CR (K.CR_PS_P0 : Int),
             Ev.outb0 Reg.DP_RCR (dp_rcr_reg K s1.dep.de_flags : Int),
             Ev.send (Sent.init_reply mp.m_source mp.DL_PORT (some DE_PORT_NR)
                (some s1.dep.de_address))] } } := by
  refine ⟨_, do_init_enabled_eq hp hm hf hs, rfl, rfl, ?_, ?_⟩
  · intro h1 h2 h3 h4 h5 h6
    exact dp_rcr_reg_bits K s.dep.de_flags _ _ _ h1 h2 h3 h4 h5 h6
  · exact @do_init_enabled_eq K E mp _ hp hm hf hs

/-- The statement at work: `Init` with the mode bits `DL_MULTI_REQ` and
`DL_BROAD_REQ` on the initialised port 0; afterwards `DEF_MULTI` and
`DEF_BROAD` are set, `DEF_PROMISC` is clear and `DEF_ENABLED` is still set. -/
theorem do_init_filter_flags_witness :
    (∃ s1, do_init hdr env0 (msg_init 12) sys1 = Res.ok () s1 ∧
      s1.dep.de_flags.DEF_PROMISC = false ∧ s1.dep.de_flags.DEF_MULTI = true ∧
      s1.dep.de_flags.DEF_BROAD = true ∧ s1.dep.de_flags.DEF_ENABLED = true ∧
      bit (dp_rcr_reg hdr s1.dep.de_flags) hdr.RCR_PRO = false ∧
      bit (dp_rcr_reg hdr s1.dep.de_flags) hdr.RCR_AM = true ∧
      bit (dp_rcr_reg hdr s1.dep.de_flags) hdr.RCR_AB = true) :=
  (do_init_filter_flags hdr env0 (msg_init 12) sys1 (by decide) (by decide) (by decide)
    (by decide)).elim fun s1 h =>
    ⟨s1, h.1, by rw [h.2.1]; decide, by rw [h.2.1]; decide, by rw [h.2.1]; decide,
      by rw [h.2.1]; decide,
      by rw [(h.2.2.2.1 (by decide) (by decide) (by decide) (by decide) (by decide)
        (by decide)).1, h.2.1]; decide,
      by rw [(h.2.2.2.1 (by decide) (by decide) (by decide) (by decide) (by decide)
        (by decide)).2.1, h.2.1]; decide,
      by rw [(h.2.2.2.1 (by decide) (by decide) (by decide) (by decide) (by decide)
        (by decide)).2.2, h.2.1]; decide⟩

/-- C12: overlapping requests end the run.  On a valid port in mode
`DEM_ENABLED` with `DEF_ENABLED` set, `do_vwrite` called while a deferred write
is pending (`DEF_SEND_AVAIL` set) halts with `send already in progress`, and
`do_vread` called while a read is posted (`DEF_READING` set) halts with `read
already in progress`.  In both cases the state at the halt is the state at
the call with `de_client` set to `DL_PROC` and nothing else changed: the send
queue, the scatter-list descriptors, the flags and everything outside the
port entry (registers, memories, log) are as at the call. -/
theorem overlapping_requests_halt (K : Hdr) (E : Env) (mp : message) (from_int vectored : Bool)
    (s : Sys) (hp : bad_port mp.DL_PORT = false) (hm : s.dep.de_mode = Mode.DEM_ENABLED)
    (hf : s.dep.de_flags.DEF_ENABLED = true) :
    (s.dep.de_flags.DEF_SEND_AVAIL = true →
      do_vwrite K E mp from_int vectored s =
        Res.halt Halt.send_in_progress { s with dep := { s.dep with de_client := mp.DL_PROC } }) ∧
    (s.dep.de_flags.DEF_READING = true →
      do_vread K E mp vectored s =
        Res.halt Halt.read_in_progress { s with dep := { s.dep with de_client := mp.DL_PROC } }) := by
  constructor
  · intro ha
    unfold do_vwrite
    rw [if_neg (by rw [hp]; decide)]
    dsimp only
    rw [if_neg (by rw [hm]; decide), if_neg (by rw [hm]; simp), if_neg (by rw [hf]; simp),
      if_pos ha]
  · intro hr
    unfold do_vread
    rw [if_neg (by rw [hp]; decide)]
    dsimp only
    rw [if_neg (by rw [hm]; decide), if_neg (by rw [hm]; simp), if_neg (by rw [hf]; simp),
      if_pos hr]

set_option maxRecDepth 100000 in
/-- The statement at work: a fourth write after the deferred third one of the
example run, and a second read after a posted one, both on port 0. -/
theorem overlapping_requests_halt_witness :
    run3.dep.de_flags.DEF_SEND_AVAIL = true ∧
    do_vwrite hdr env0 (msg MType.DL_WRITE 100 0) false false run3 =
      Res.halt Halt.send_in_progress { run3 with dep := { run3.dep with de_client := 7 } } ∧
    (post_read sys1).dep.de_flags.DEF_READING = true ∧
    do_vread hdr env0 (msg MType.DL_READ 1514 0) false (post_read sys1) =
      Res.halt Halt.read_in_progress
        { post_read sys1 with dep := { (post_read sys1).dep with de_client := 7 } } :=
  ⟨by decide,
   (overlapping_requests_halt hdr env0 (msg MType.DL_WRITE 100 0) false false run3
      (by decide) (by decide) (by decide)).1 (by decide),
   by decide,
   (overlapping_requests_halt hdr env0 (msg MType.DL_READ 1514 0) false false (post_read sys1)
      (by decide) (by decide) (by decide)).2 (by decide)⟩

theorem bad_port_of {port : Int} (h : port < 0 ∨ port ≥ DE_PORT_NR) : bad_port port = true := by
  unfold bad_port
  rcases h with h | h
  · simp [h]
  · simp [h]

/-- C13 (amended): a request whose port index is negative or at least
`DE_PORT_NR` ends the run with `illegal port` in `do_vwrite`, `do_vread`,
`do_getstat` and `do_stop`, in the state of the call: no port entry is
touched and nothing is sent.  `do_init` does not halt on such a request: it
hands `mess_reply` a `DL_INIT_REPLY` with `m3_i1 = ENXIO` for the sender and
touches no port entry; it returns when the message can be sent, and ends
with `unable to mess_reply` otherwise. -/
theorem bad_port_requests (K : Hdr) (E : Env) (mp : message) (s : Sys)
    (hp : mp.DL_PORT < 0 ∨ mp.DL_PORT ≥ DE_PORT_NR) :
    (∀ from_int vectored : Bool,
      do_vwrite K E mp from_int vectored s = Res.halt Halt.illegal_port s) ∧
    (∀ vectored : Bool, do_vread K E mp vectored s = Res.halt Halt.illegal_port s) ∧
    do_getstat K E mp s = Res.halt Halt.illegal_port s ∧
    do_stop K E mp s = Res.halt Halt.illegal_port s ∧
    (E.send_r = 0 → do_init K E mp s = Res.ok ()
      { s with io := { s.io with out := s.io.out ++
        [Ev.send (Sent.init_reply mp.m_source K.ENXIO none none)] } }) ∧
    (E.send_r ≠ 0 → do_init K E mp s = Res.halt Halt.unable_to_mess_reply
      { s with io := { s.io with out := s.io.out ++
        [Ev.send (Sent.init_reply mp.m_source K.ENXIO none none)] } }) := by
  have hb := bad_port_of hp
  refine ⟨fun fi v => ?_, fun v => ?_, ?_, ?_, fun h => ?_, fun h => ?_⟩
  · unfold do_vwrite
    rw [if_pos hb]
  · unfold do_vread
    rw [if_pos hb]
  · unfold do_getstat
    rw [if_pos hb]
  · unfold do_stop
    rw [if_pos hb]
  · unfold do_init mess_reply
    rw [if_pos hb]
    dsimp only
    rw [if_neg (by rw [h]; simp)]
  · unfold do_init mess_reply
    rw [if_pos hb]
    dsimp only
    rw [if_pos h]

/-- The amended statement at work: requests for port 2 on the initialised
driver.  `Write` halts in the state of the call; `Init` returns after the
reply with `ENXIO`. -/
theorem bad_port_requests_witness :
    do_vwrite hdr env0 (msg_port MType.DL_WRITE 2) false false sys1 =
      Res.halt Halt.illegal_port sys1 ∧
    do_init hdr env0 (msg_port MType.DL_INIT 2) sys1 = Res.ok ()
      { sys1 with io := { sys1.io with out := sys1.io.out ++
        [Ev.send (Sent.init_reply 7 6 none none)] } } :=
  ⟨(bad_port_requests hdr env0 (msg_port MType.DL_WRITE 2) sys1 (Or.inr (by decide))).1
      false false,
   (bad_port_requests hdr env0 (msg_port MType.DL_INIT 2) sys1
      (Or.inr (by decide))).2.2.2.2.1 (by decide)⟩

set_option maxRecDepth 100000 in
/-- C13 as stated fails for `Init`: the requests for port 2 and for port -1,
both outside `[0, DE_PORT_NR)`, do not end in a halt: `do_init` returns, and
the last thing it has done is to send a reply, the `DL_INIT_REPLY` with
`ENXIO` (6). -/
theorem bad_port_init_counterexample :
    bad_port (msg_port MType.DL_INIT 2).DL_PORT = true ∧
    (do_init hdr env0 (msg_port MType.DL_INIT 2) sys1).isOk = true ∧
    (do_init hdr env0 (msg_port MType.DL_INIT 2) sys1).state.io.out.getLast? =
      some (Ev.send (Sent.init_reply 7 6 none none)) ∧
    bad_port (msg_port MType.DL_INIT (-1)).DL_PORT = true ∧
    (do_init hdr env0 (msg_port MType.DL_INIT (-1)) sys1).isOk = true ∧
    (do_init hdr env0 (msg_port MType.DL_INIT (-1)) sys1).state.io.out.getLast? =
      some (Ev.send (Sent.init_reply 7 6 none none)) := by
  decide

/-! ### What is left to report: `RecvOk` under the operations -/

theorem RecvOk.carry {x y : dpeth} (h : RecvOk x)
    (h1 : y.de_flags.DEF_PACK_RECV = x.de_flags.DEF_PACK_RECV) (h2 : y.de_read_s = x.de_read_s) :
    RecvOk y := by
  intro hy
  rw [h2]
  exact h (by rw [← h1]; exact hy)

theorem reply_recv_ok (E : Env) (err : Int) (s : Sys) (h : RecvOk s.dep) :
    RecvOk (reply E err s).state.dep := by
  unfold reply
  dsimp only
  split
  · exact h
  · exact fun _ => rfl

theorem fill_head_recv_ok (K : Hdr) (size : Nat) (s : Sys) (h : RecvOk s.dep) :
    RecvOk (fill_head K size s).dep := by
  rw [fill_head_dep]
  exact h.carry rfl rfl

theorem do_vwrite_size_recv_ok (K : Hdr) (E : Env) (mp : message) (v : Bool) (s : Sys)
    (h : RecvOk s.dep) : RecvOk (do_vwrite_size K E mp v s).state.dep := by
  obtain ⟨wi, tmp, e⟩ := do_vwrite_size_state K E mp v s
  rw [e]
  exact h.carry rfl rfl

theorem do_vwrite_send_recv_ok (K : Hdr) (E : Env) (fi : Bool) (size : Int) (s : Sys)
    (h : RecvOk s.dep) : RecvOk (do_vwrite_send K E fi size s).state.dep := by
  unfold do_vwrite_send
  split
  · exact h
  · split
    · exact h
    · rename_i wi io1 hcall
      dsimp only
      have h1 : RecvOk (fill_head K size.toNat
          { dep := { s.dep with de_write_iovec := wi }, io := io1 }).dep :=
        fill_head_recv_ok K _ _ (h.carry rfl rfl)
      have h2 : RecvOk (advance_head (fill_head K size.toNat
          { dep := { s.dep with de_write_iovec := wi }, io := io1 })).dep := h1.carry rfl rfl
      split
      · exact h1
      · split
        · exact h2
        · refine Res.bind_state (fun x : Sys => RecvOk x.dep) _ _ ?_ ?_
          · exact reply_recv_ok E 0 _ h2
          · intro a s3 h3 h4
            split
            · exact h4
            · split <;> exact h4

theorem do_vwrite_recv_ok (K : Hdr) (E : Env) (mp : message) (fi v : Bool) (s : Sys)
    (h : RecvOk s.dep) : RecvOk (do_vwrite K E mp fi v s).state.dep := by
  have h0 : RecvOk { s.dep with de_client := mp.DL_PROC } := h.carry rfl rfl
  unfold do_vwrite
  split
  · exact h
  · dsimp only
    split
    · split
      · exact h0
      · exact reply_recv_ok E 0 _ (h.carry rfl rfl)
    · split
      · exact h0
      · split
        · exact h0
        · split
          · exact h0
          · split
            · split
              · exact h0
              · exact reply_recv_ok E 0 _ (h.carry rfl rfl)
            · split
              · exact h0
              · refine Res.bind_state (fun x : Sys => RecvOk x.dep) _ _ ?_ ?_
                · exact do_vwrite_size_recv_ok K E mp v _ h0
                · intro size s2 h2 h3
                  exact do_vwrite_send_recv_ok K E fi size s2 h3

theorem dp_send_recv_ok (K : Hdr) (E : Env) (s : Sys) (h : RecvOk s.dep) :
    RecvOk (dp_send K E s).state.dep := by
  have h0 : RecvOk { s.dep with
      de_flags := { s.dep.de_flags with DEF_SEND_AVAIL := false } } := h.carry rfl rfl
  unfold dp_send
  split
  · exact h
  · dsimp only
    split
    · exact do_vwrite_recv_ok K E _ _ _ _ h0
    · exact do_vwrite_recv_ok K E _ _ _ _ h0
    · exact h0

theorem dp_reset_recv_ok (K : Hdr) (E : Env) (s : Sys) (h : RecvOk s.dep) :
    RecvOk (dp_reset K E s).state.dep := by
  unfold dp_reset
  dsimp only
  refine Res.bind_state (fun x : Sys => RecvOk x.dep) _ _ ?_ ?_
  · exact dp_send_recv_ok K E _ (h.carry rfl rfl)
  · intro a s2 h2 h3
    exact h3.carry rfl rfl

theorem dp_check_ints_tx_recv_ok (K : Hdr) (E : Env) (isr : Nat) (s : Sys)
    (h : RecvOk s.dep) : RecvOk (dp_check_ints_tx K E isr s).state.dep := by
  unfold dp_check_ints_tx
  dsimp only
  have h1 : RecvOk (tx_stat K isr s).dep := by
    unfold tx_stat
    split <;> exact h.carry rfl rfl
  have h2 : RecvOk (tx_complete K (tx_stat K isr s)).dep := by
    unfold tx_complete
    exact h1.carry rfl rfl
  split
  · split <;> exact h1
  · split
    · refine Res.bind_state (fun x : Sys => RecvOk x.dep) _ _ ?_ ?_
      · exact dp_send_recv_ok K E _ h2
      · intro a s4 h4 h5
        exact h5
    · exact h2

theorem dp_pkt2user_recv_ok (K : Hdr) (E : Env) (page length : Nat) (s : Sys)
    (h : RecvOk s.dep) : RecvOk (dp_pkt2user K E page length s).state.dep := by
  unfold dp_pkt2user
  split
  · exact h
  · dsimp only
    split
    · split
      · exact h.carry rfl rfl
      · split
        · exact h.carry rfl rfl
        · intro hc
          cases hc
    · split
      · exact h
      · intro hc
        cases hc

theorem dp_recv_frame_recv_ok (K : Hdr) (E : Env) (pageno curr : Nat) (fr : Frame) (s : Sys)
    (h : RecvOk s.dep) : RecvOk (dp_recv_frame K E pageno curr fr s).state.dep := by
  have hk : ∀ (n : Nat) (x : Sys), RecvOk x.dep → RecvOk (write_bnry K n x).dep := by
    intro n x hx
    rw [write_bnry_dep]
    exact hx
  unfold dp_recv_frame
  dsimp only
  split
  · exact hk _ _ (h.carry rfl rfl)
  · split
    · exact hk _ _ (h.carry rfl rfl)
    · split
      · exact hk _ _ h
      · split
        · exact hk _ _ h
        · split
          · exact hk _ _ (h.carry rfl rfl)
          · split
            · refine Res.bind_state (fun x : Sys => RecvOk x.dep) _ _ ?_ ?_
              · exact dp_pkt2user_recv_ok K E _ _ s h
              · intro r s2 h2 h3
                split
                · exact h3
                · exact hk _ _ (h3.carry rfl rfl)
            · exact hk _ _ h

theorem dp_recv_iter_recv_ok (K : Hdr) (E : Env) (pageno : Nat) (s : Sys)
    (h : RecvOk s.dep) : RecvOk (dp_recv_iter K E pageno s).state.dep := by
  unfold dp_recv_iter
  dsimp only
  split
  · exact h
  · refine Res.bind_state (fun x : Sys => RecvOk x.dep) _ _ ?_ ?_
    · simp only [lift_io_state_dep]
      exact h
    · intro fr s1 h1 _
      have h2 := (lift_io_ok h1).1
      refine dp_recv_frame_recv_ok K E pageno _ fr s1 ?_
      rw [h2]
      exact h

theorem dp_recv_loop_recv_ok (K : Hdr) (E : Env) (fuel pageno : Nat) (s : Sys)
    (h : RecvOk s.dep) : RecvOk (dp_recv_loop K E fuel pageno s).state.dep := by
  induction fuel generalizing pageno s with
  | zero => exact h
  | succ n ih =>
    unfold dp_recv_loop
    refine Res.bind_state (fun x : Sys => RecvOk x.dep) _ _ ?_ ?_
    · exact dp_recv_iter_recv_ok K E pageno s h
    · intro r s1 h1 h2
      cases r with
      | none => exact h2
      | some next => exact ih next s1 h2

theorem dp_recv_recv_ok (K : Hdr) (E : Env) (s : Sys) (h : RecvOk s.dep) :
    RecvOk (dp_recv K E s).state.dep :=
  dp_recv_loop_recv_ok K E _ _ s h

theorem dp_check_ints_rx_recv_ok (K : Hdr) (E : Env) (isr : Nat) (s : Sys)
    (h : RecvOk s.dep) : RecvOk (dp_check_ints_rx K E isr s).state.dep := by
  unfold dp_check_ints_rx
  have h1 : RecvOk (if bit isr K.ISR_PRX = true then dp_recv K E s
      else Res.ok () s).state.dep := by
    split
    · exact dp_recv_recv_ok K E s h
    · exact h
  refine Res.bind_state (fun x : Sys => RecvOk x.dep) _ _ h1 ?_
  intro a s1 e1 h1
  dsimp only
  have h2 : RecvOk (if bit isr K.ISR_RXE = true then
      ({ s1 with dep := { s1.dep with
        de_stat := { s1.dep.de_stat with ets_recvErr := uladd K s1.dep.de_stat.ets_recvErr 1 } } } : Sys)
      else s1).dep := by
    split
    · exact h1.carry rfl rfl
    · exact h1
  split
  · split
    · exact h2.carry rfl rfl
    · exact h2.carry rfl rfl
  · split
    · exact h2.carry rfl rfl
    · exact h2

theorem dp_check_ints_loop_recv_ok (K : Hdr) (E : Env) (fuel : Nat) (s : Sys)
    (h : RecvOk s.dep) : RecvOk (dp_check_ints_loop K E fuel s).state.dep := by
  induction fuel generalizing s with
  | zero => exact h
  | succ n ih =>
    unfold dp_check_ints_loop
    dsimp only
    split
    · exact h
    · have h1 : RecvOk (if bit (inb_isr s.io).1 (K.ISR_PTX ||| K.ISR_TXE) = true then
          dp_check_ints_tx K E (inb_isr s.io).1
            (Sys.mk s.dep (outb_reg0 Reg.DP_ISR ((inb_isr s.io).1 : Int) (inb_isr s.io).2))
          else Res.ok false
            (Sys.mk s.dep (outb_reg0 Reg.DP_ISR ((inb_isr s.io).1 : Int)
              (inb_isr s.io).2))).state.dep := by
        split
        · exact dp_check_ints_tx_recv_ok K E _ _ h
        · exact h
      refine Res.bind_state (fun x : Sys => RecvOk x.dep) _ _ h1 ?_
      intro cont s2 e2 h1
      split
      · exact ih s2 h1
      · have h3 := dp_check_ints_rx_recv_ok K E (inb_isr s.io).1 s2 h1
        refine Res.bind_state (fun x : Sys => RecvOk x.dep) _ _ h3 ?_
        intro brk s3 e3 h3
        split
        · exact h3
        · exact ih s3 h3

theorem dp_check_ints_recv_ok (K : Hdr) (E : Env) (s : Sys) (h : RecvOk s.dep) :
    RecvOk (dp_check_ints K E s).state.dep := by
  unfold dp_check_ints
  split
  · exact h
  · have h1 := dp_check_ints_loop_recv_ok K E (s.io.isr.length + 1) s h
    refine Res.bind_state (fun x : Sys => RecvOk x.dep) _ _ h1 ?_
    intro a s1 e1 h1
    split
    · exact dp_reset_recv_ok K E s1 h1
    · exact h1

/-! ### The state between two turns: `Between` under `dp8390_task` -/

theorem Between.of_reply {E : Env} {err : Int} {s s1 : Sys} (h : reply E err s = Res.ok () s1)
    (hi : s.dep.de_mode ≠ Mode.DEM_ENABLED →
      { s.dep.de_flags with DEF_PACK_SEND := false, DEF_PACK_RECV := false } = DEF_EMPTY) :
    Between s1.dep := by
  obtain ⟨hd, -, -⟩ := reply_ok h
  rw [hd]
  exact ⟨rfl, rfl, rfl, hi⟩

theorem do_vwrite_between {K : Hdr} {E : Env} {mp : message} {v : Bool} {s s1 : Sys}
    (h : do_vwrite K E mp false v s = Res.ok () s1) (hB : Between s.dep) : Between s1.dep := by
  rcases do_vwrite_ok h with ⟨hs, -, hr⟩ | ⟨hm, -, -, ⟨-, -, hr⟩ | ⟨-, -, size, s2, h1, h2⟩⟩
  · refine Between.of_reply hr (fun _ => ?_)
    have hf : s.dep.de_flags = DEF_EMPTY := hB.idle (by rw [hs]; decide)
    show { ({ s.dep.de_flags with DEF_PACK_SEND := true } : Flags) with
      DEF_PACK_SEND := false, DEF_PACK_RECV := false } = DEF_EMPTY
    rw [hf]
    rfl
  · exact Between.of_reply hr (fun hne => absurd hm hne)
  · obtain ⟨-, -, wi, io1, -, -, hc⟩ := do_vwrite_send_ok h2
    rcases hc with ⟨hc, -⟩ | ⟨-, hr⟩
    · cases hc
    · refine Between.of_reply hr (fun hne => ?_)
      exfalso
      apply hne
      have hst : Static s.dep s1.dep :=
        Static.of_ok h (do_vwrite_static K E _ _ _ _ (Static.srefl _))
      obtain ⟨hd, -, -⟩ := reply_ok hr
      have : s1.dep.de_mode = Mode.DEM_ENABLED := by rw [hst.mode]; exact hm
      rw [hd] at this
      exact this

theorem do_vread_between {K : Hdr} {E : Env} {mp : message} {v : Bool} {s s1 : Sys}
    (h : do_vread K E mp v s = Res.ok () s1) (hB : Between s.dep) : Between s1.dep := by
  have hst : Static s.dep s1.dep :=
    Static.of_ok h (do_vread_static K E _ _ _ (Static.srefl _))
  unfold do_vread at h
  split at h
  · cases h
  · dsimp only at h
    split at h
    · rename_i hs
      refine Between.of_reply h (fun _ => ?_)
      have hf : s.dep.de_flags = DEF_EMPTY := hB.idle (by rw [hs]; decide)
      show { s.dep.de_flags with DEF_PACK_SEND := false, DEF_PACK_RECV := false } = DEF_EMPTY
      rw [hf]
      rfl
    · split at h
      · cases h
      · rename_i hm
        have hm' : s.dep.de_mode = Mode.DEM_ENABLED := by simpa using hm
        split at h
        · cases h
        · split at h
          · cases h
          · obtain ⟨size, s2, -, h3⟩ := Res.bind_ok h
            split at h3
            · cases h3
            · obtain ⟨_, s3, -, h4⟩ := Res.bind_ok h3
              obtain ⟨_, s4, -, h5⟩ := Res.bind_ok h4
              refine Between.of_reply h5 (fun hne => ?_)
              exfalso
              apply hne
              obtain ⟨hd, -, -⟩ := reply_ok h5
              have : s1.dep.de_mode = Mode.DEM_ENABLED := by rw [hst.mode]; exact hm'
              rw [hd] at this
              exact this

theorem do_getstat_between {K : Hdr} {E : Env} {mp : message} {s s1 : Sys}
    (h : do_getstat K E mp s = Res.ok () s1) (hB : Between s.dep) : Between s1.dep := by
  have hst : Static s.dep s1.dep :=
    Static.of_ok h (do_getstat_static K E _ _ (Static.srefl _))
  unfold do_getstat at h
  split at h
  · cases h
  · dsimp only at h
    split at h
    · rename_i hs
      obtain ⟨_, s2, h2, h3⟩ := Res.bind_ok h
      refine Between.of_reply h3 (fun _ => ?_)
      have hf : s.dep.de_flags = DEF_EMPTY := hB.idle (by rw [hs]; decide)
      unfold put_userdata at h2
      split at h2
      · cases h2
        show { s.dep.de_flags with DEF_PACK_SEND := false, DEF_PACK_RECV := false } = DEF_EMPTY
        rw [hf]
        rfl
      · cases h2
    · split at h
      · cases h
      · rename_i hm
        have hm' : s.dep.de_mode = Mode.DEM_ENABLED := by simpa using hm
        split at h
        · cases h
        · obtain ⟨_, s2, h2, h3⟩ := Res.bind_ok h
          refine Between.of_reply h3 (fun hne => ?_)
          exfalso
          apply hne
          obtain ⟨hd, -, -⟩ := reply_ok h3
          have : s1.dep.de_mode = Mode.DEM_ENABLED := by rw [hst.mode]; exact hm'
          rw [hd] at this
          exact this

theorem do_stop_between {K : Hdr} {E : Env} {mp : message} {s s1 : Sys}
    (h : do_stop K E mp s = Res.ok () s1) (hB : Between s.dep) : Between s1.dep := by
  unfold do_stop at h
  split at h
  · cases h
  · split at h
    · cases h
      exact hB
    · split at h
      · cases h
      · split at h
        · cases h
          exact hB
        · cases h
          exact ⟨rfl, rfl, hB.read_s, fun _ => rfl⟩

theorem do_int_between {E : Env} {s s1 : Sys} (h : do_int E s = Res.ok () s1)
    (hr : RecvOk s.dep) (hm : s.dep.de_mode = Mode.DEM_ENABLED) : Between s1.dep := by
  unfold do_int at h
  split at h
  · exact Between.of_reply h (fun hne => absurd hm hne)
  · rename_i hc
    cases h
    have h1 : s.dep.de_flags.DEF_PACK_SEND = false := by
      cases hx : s.dep.de_flags.DEF_PACK_SEND
      · rfl
      · exact absurd (Or.inl hx) hc
    have h2 : s.dep.de_flags.DEF_PACK_RECV = false := by
      cases hx : s.dep.de_flags.DEF_PACK_RECV
      · rfl
      · exact absurd (Or.inr hx) hc
    exact ⟨h1, h2, hr h2, fun hne => absurd hm hne⟩

theorem conf_hw_between (E : Env) (s : Sys) (hB : Between s.dep)
    (hm : s.dep.de_mode = Mode.DEM_DISABLED) : Between (conf_hw E s).dep := by
  have hf : s.dep.de_flags = DEF_EMPTY := hB.idle (by rw [hm]; decide)
  unfold conf_hw
  dsimp only
  split
  · exact ⟨hB.pack_send, hB.pack_recv, hB.read_s, fun _ => hf⟩
  · split
    · exact ⟨hB.pack_send, hB.pack_recv, hB.read_s, fun _ => hf⟩
    · exact ⟨rfl, rfl, hB.read_s, fun _ => rfl⟩

theorem dp_init_between {K : Hdr} {E : Env} {s s1 : Sys} (h : dp_init K E s = Res.ok () s1)
    (hB : Between s.dep) (hm : s.dep.de_mode = Mode.DEM_ENABLED) : Between s1.dep := by
  unfold dp_init at h
  dsimp only at h
  obtain ⟨_, s2, h2, h3⟩ := Res.bind_ok h
  obtain ⟨a, e⟩ := dp_confaddr_ok h2
  cases h3
  subst e
  exact ⟨rfl, rfl, hB.read_s, fun hne => absurd hm hne⟩

theorem do_init_sink_between {E : Env} {mp : message} {s s1 : Sys}
    (hB : Between s.dep)
    (h : ((dp_confaddr E { s with dep := { s.dep with de_address := [0, 0, 0, 0, 0, 0] } }).bind
          fun _ s1 => mess_reply E (Sent.init_reply mp.m_source mp.DL_PORT (some DE_PORT_NR)
            (some s1.dep.de_address)) s1) = Res.ok () s1) :
    Between s1.dep := by
  obtain ⟨_, s2, h2, h3⟩ := Res.bind_ok h
  obtain ⟨a, e⟩ := dp_confaddr_ok h2
  have e3 := mess_reply_ok h3
  rw [e3, e]
  exact ⟨hB.pack_send, hB.pack_recv, hB.read_s, hB.idle⟩

theorem do_init_rest_between {K : Hdr} {E : Env} {mp : message} {s s1 : Sys}
    (hB : Between s.dep)
    (h : (if s.dep.de_mode = Mode.DEM_SINK then
        (dp_confaddr E { s with dep := { s.dep with de_address := [0, 0, 0, 0, 0, 0] } }).bind
          fun _ s1 => mess_reply E (Sent.init_reply mp.m_source mp.DL_PORT (some DE_PORT_NR)
            (some s1.dep.de_address)) s1
      else if s.dep.de_mode ≠ Mode.DEM_ENABLED then Res.halt Halt.assertion s
      else if ¬ s.dep.de_flags.DEF_ENABLED then Res.halt Halt.assertion s
      else
        mess_reply E (Sent.init_reply mp.m_source mp.DL_PORT (some DE_PORT_NR)
          (some (dp_reinit K { s with dep := { s.dep with
          de_client := mp.m_source,
          de_flags := { s.dep.de_flags with
            DEF_PROMISC := bit mp.DL_MODE K.DL_PROMISC_REQ,
            DEF_MULTI := bit mp.DL_MODE K.DL_PROMISC_REQ || bit mp.DL_MODE K.DL_MULTI_REQ,
            DEF_BROAD := bit mp.DL_MODE K.DL_PROMISC_REQ || bit mp.DL_MODE K.DL_BROAD_REQ } } }).dep.de_address))
          (dp_reinit K { s with dep := { s.dep with
          de_client := mp.m_source,
          de_flags := { s.dep.de_flags with
            DEF_PROMISC := bit mp.DL_MODE K.DL_PROMISC_REQ,
            DEF_MULTI := bit mp.DL_MODE K.DL_PROMISC_REQ || bit mp.DL_MODE K.DL_MULTI_REQ,
            DEF_BROAD := bit mp.DL_MODE K.DL_PROMISC_REQ || bit mp.DL_MODE K.DL_BROAD_REQ } } }))
        = Res.ok () s1) :
    Between s1.dep := by
  split at h
  · exact do_init_sink_between hB h
  · split at h
    · cases h
    · split at h
      · cases h
      · rename_i hm hf
        have e3 := mess_reply_ok h
        rw [e3]
        have hm' : s.dep.de_mode = Mode.DEM_ENABLED := by simpa using hm
        exact ⟨hB.pack_send, hB.pack_recv, hB.read_s, fun hne => absurd hm' hne⟩

theorem do_init_between {K : Hdr} {E : Env} {mp : message} {s s1 : Sys}
    (h : do_init K E mp s = Res.ok () s1) (hB : Between s.dep) : Between s1.dep := by
  unfold do_init at h
  split at h
  · rw [mess_reply_ok h]
    exact hB
  · dsimp only at h
    split at h
    · rename_i hp hm
      have hc := conf_hw_between E s hB hm
      split at h
      · rw [mess_reply_ok h]
        exact hc
      · split at h
        · rename_i hd he
          obtain ⟨_, s2, h2, h3⟩ := Res.bind_ok h
          exact do_init_rest_between (dp_init_between h2 hc he) h3
        · split at h
          · exact do_init_sink_between hc h
          · cases h
    · exact do_init_rest_between hB h

theorem dp8390_task_between {K : Hdr} {E : Env} {m : message} {pending : Bool} {s s1 : Sys}
    (h : dp8390_task K E m pending s = Res.ok () s1) (hB : Between s.dep) :
    Between s1.dep := by
  unfold dp8390_task at h
  split at h
  · exact do_vwrite_between h hB
  · exact do_vwrite_between h hB
  · exact do_vread_between h hB
  · exact do_vread_between h hB
  · exact do_init_between h hB
  · exact do_getstat_between h hB
  · exact do_stop_between h hB
  · split at h
    · cases h
      exact hB
    · rename_i hm
      have hm' : s.dep.de_mode = Mode.DEM_ENABLED := by simpa using hm
      split at h
      · cases h
      · split at h
        · cases h
        · split at h
          · obtain ⟨_, s2, h2, h3⟩ := Res.bind_ok h
            have hs2 : Static s.dep s2.dep :=
              Static.of_ok h2 (dp_check_ints_static K E s (Static.srefl _))
            have hr : RecvOk s2.dep := by
              have := dp_check_ints_recv_ok K E s (fun _ => hB.read_s)
              rw [h2] at this
              exact this
            exact do_int_between h3 hr (by rw [hs2.mode]; exact hm')
          · cases h
            exact hB
  · cases h

/-- Between two turns of the loop of `dp8390_task` nothing is left to report,
and a port that is not in mode `DEM_ENABLED` has no flag set. -/
theorem Run.between {K : Hdr} {s : Sys} (h : Run K s) : Between s.dep := by
  induction h with
  | start s hm hf hr =>
    exact ⟨by rw [hf]; rfl, by rw [hf]; rfl, hr, fun _ => hf⟩
  | turn E m pending s s1 _ hr ih => exact dp8390_task_between hr ih
  | outside s io _ ih => exact ih

/-- A state of a run is in particular reachable in the sense of `Reachable`. -/
theorem Run.reachable {K : Hdr} {s : Sys} (h : Run K s) : Reachable K s := by
  induction h with
  | start s hm hf hr => exact Reachable.start s hm (by rw [hf]; rfl)
  | turn E m pending s s1 _ hr ih => exact Reachable.turn E m pending s s1 ih hr
  | outside s io _ ih => exact Reachable.outside s io ih

theorem run_sys_sink : Run hdr sys_sink :=
  Run.turn env_sink (msg MType.DL_INIT 0 0) false sys0 sys_sink
    (Run.start sys0 rfl rfl rfl) (Res.ok_of_isOk (by decide))

/-- C14: in mode `DEM_SINK` a `Write`, `WriteV`, `Read` or `ReadV` for a valid
port is answered at once and does nothing else.  In every state of a run of
the driver in which the port is in mode `DEM_SINK`, when the reply can be
sent, `do_vwrite` (called for a request) and `do_vread` return, whatever the
size and the scatter list of the request; the port entry afterwards is the
one before with `de_client` set to `DL_PROC`, so the send queue, the
statistics and the descriptors are as before and no flag is set; and outside
the port entry only the log has changed, by one event: the `DL_TASK_REPLY`
with the error code `OK`, for `do_vwrite` with the bit `DL_PACK_SEND` (no
call of a transfer function and no register access is logged). -/
theorem sink_requests_noop (K : Hdr) (E : Env) (mp : message) (vectored : Bool) (s : Sys)
    (hrun : Run K s) (hp : bad_port mp.DL_PORT = false) (hm : s.dep.de_mode = Mode.DEM_SINK)
    (hs : 0 ≤ E.send_r) :
    do_vwrite K E mp false vectored s = Res.ok ()
      { dep := { s.dep with de_client := mp.DL_PROC },
        io := { s.io with out := s.io.out ++
          [Ev.send (Sent.task_reply mp.DL_PROC mp.DL_PROC true false 0 0 E.uptime)] } } ∧
    do_vread K E mp vectored s = Res.ok ()
      { dep := { s.dep with de_client := mp.DL_PROC },
        io := { s.io with out := s.io.out ++
          [Ev.send (Sent.task_reply mp.DL_PROC mp.DL_PROC false false 0 0 E.uptime)] } } ∧
    s.dep.de_flags = DEF_EMPTY := by
  have hB := hrun.between
  have hf : s.dep.de_flags = DEF_EMPTY := hB.idle (by rw [hm]; decide)
  have hr := hB.read_s
  refine ⟨?_, ?_, hf⟩
  · unfold do_vwrite
    rw [if_neg (by rw [hp]; decide)]
    dsimp only
    rw [if_pos hm]
    unfold reply
    dsimp only
    rw [if_neg (by simp), if_neg (by omega), hf, hr]
    obtain ⟨dep, io⟩ := s
    cases dep
    simp only at hf hr
    subst hf hr
    rfl
  · unfold do_vread
    rw [if_neg (by rw [hp]; decide)]
    dsimp only
    rw [if_pos hm]
    unfold reply
    dsimp only
    rw [if_neg (by omega), hf, hr]
    obtain ⟨dep, io⟩ := s
    cases dep
    simp only at hf hr
    subst hf hr
    rfl

set_option maxRecDepth 100000 in
/-- The statement at work on port 0 configured as a sink and initialised: a
`Write` of 10 bytes, below `ETH_MIN_PACK_SIZE`, and a `Read` of 10 bytes, below
`ETH_MAX_PACK_SIZE`, are answered and change `de_client` only. -/
theorem sink_requests_noop_witness :
    sys_sink.dep.de_mode = Mode.DEM_SINK ∧
    do_vwrite hdr env_sink (msg MType.DL_WRITE 10 0) false false sys_sink = Res.ok ()
      { dep := { sys_sink.dep with de_client := 7 },
        io := { sys_sink.io with out := sys_sink.io.out ++
          [Ev.send (Sent.task_reply 7 7 true false 0 0 0)] } } ∧
    do_vread hdr env_sink (msg MType.DL_READ 10 0) false sys_sink = Res.ok ()
      { dep := { sys_sink.dep with de_client := 7 },
        io := { sys_sink.io with out := sys_sink.io.out ++
          [Ev.send (Sent.task_reply 7 7 false false 0 0 0)] } } :=
  ⟨by decide,
   (sink_requests_noop hdr env_sink (msg MType.DL_WRITE 10 0) false sys_sink run_sys_sink
      (by decide) (by decide) (by decide)).1,
   (sink_requests_noop hdr env_sink (msg MType.DL_READ 10 0) false sys_sink run_sys_sink
      (by decide) (by decide) (by decide)).2.1⟩

/-! ### The branches of `do_vwrite` run -/

theorem reply_run {E : Env} (err : Int) (s : Sys) (hs : 0 ≤ E.send_r) :
    reply E err s = Res.ok ()
      { dep := { s.dep with
          de_read_s := 0,
          de_flags := { s.dep.de_flags with DEF_PACK_SEND := false, DEF_PACK_RECV := false } },
        io := { s.io with out := s.io.out ++
          [Ev.send (Sent.task_reply s.dep.de_client s.dep.de_client s.dep.de_flags.DEF_PACK_SEND
            s.dep.de_flags.DEF_PACK_RECV err s.dep.de_read_s E.uptime)] } } := by
  unfold reply
  dsimp only
  rw [if_neg (by omega)]

theorem enqueue_mid_dep (K : Hdr) (size : Nat) (s1 : Sys) (wi : iovec_dat) (io1 : Io) :
    (enqueue_mid K size s1 wi io1).dep = { s1.dep with
      de_write_iovec := wi,
      de_sendq := set_sendq s1.dep.de_sendq s1.dep.de_sendq_head
        { s1.dep.de_sendq s1.dep.de_sendq_head with
          sq_filled := true,
          sq_size := if s1.dep.de_sendq_tail = s1.dep.de_sendq_head
            then (s1.dep.de_sendq s1.dep.de_sendq_head).sq_size else size },
      de_sendq_head := next_slot s1.dep.de_sendq_head s1.dep.de_sendq_nr,
      de_flags := { s1.dep.de_flags with DEF_PACK_SEND := true } } := by
  unfold enqueue_mid advance_head
  simp only [fill_head_dep]

theorem enqueue_mid_io (K : Hdr) (size : Nat) (s1 : Sys) (wi : iovec_dat) (io1 : Io) :
    (enqueue_mid K size s1 wi io1).io =
      if s1.dep.de_sendq_tail = s1.dep.de_sendq_head
      then start_tx K (s1.dep.de_sendq s1.dep.de_sendq_head).sq_sendpage size io1 else io1 := by
  unfold enqueue_mid advance_head
  simp only [fill_head_io]

theorem do_vwrite_send_run {K : Hdr} {E : Env} {fi : Bool} {size : Int} {s : Sys}
    {wi : iovec_dat} {io1 : Io}
    (hmin : ETH_MIN_PACK_SIZE ≤ size) (hmax : size ≤ ETH_MAX_PACK_SIZE)
    (hx : call_user2nic K E s.dep.de_user2nicf s.dep.de_write_iovec 0
      ((s.dep.de_sendq s.dep.de_sendq_head).sq_sendpage * K.DP_PAGESIZE) size.toNat s.io
        = Res.ok wi io1)
    (hq : next_slot s.dep.de_sendq_head s.dep.de_sendq_nr < K.SENDQ_NR)
    (hm : s.dep.de_mode = Mode.DEM_ENABLED) (hf : s.dep.de_flags.DEF_ENABLED = true) :
    do_vwrite_send K E fi size s =
      if fi then Res.ok () (enqueue_mid K size.toNat s wi io1)
      else reply E 0 (enqueue_mid K size.toNat s wi io1) := by
  have hd := enqueue_mid_dep K size.toNat s wi io1
  have hh : (fill_head K size.toNat
        { dep := { s.dep with de_write_iovec := wi }, io := io1 }).dep.de_sendq_head
          = s.dep.de_sendq_head ∧
      (fill_head K size.toNat
        { dep := { s.dep with de_write_iovec := wi }, io := io1 }).dep.de_sendq_nr
          = s.dep.de_sendq_nr := by
    unfold fill_head
    dsimp only
    split <;> exact ⟨rfl, rfl⟩
  unfold do_vwrite_send
  rw [if_neg (by omega), hx]
  dsimp only
  rw [hh.1, hh.2, if_neg (by simpa using hq)]
  cases fi
  · simp only [Bool.false_eq_true, if_false]
    show (reply E 0 (enqueue_mid K size.toNat s wi io1)).bind _ = _
    unfold reply
    dsimp only
    split
    · rfl
    · simp only [Res.bind]
      rw [hd]
      dsimp only
      rw [if_neg (by rw [hm]; simp), if_neg (by rw [hf]; simp)]
  · simp only [if_true]
    rfl

theorem do_vwrite_enqueue_run {K : Hdr} {E : Env} {mp : message} {fi v : Bool} {s s1 : Sys}
    {size : Int} {wi : iovec_dat} {io1 : Io}
    (hp : bad_port mp.DL_PORT = false) (hm : s.dep.de_mode = Mode.DEM_ENABLED)
    (hf : s.dep.de_flags.DEF_ENABLED = true) (ha : s.dep.de_flags.DEF_SEND_AVAIL = false)
    (hh : (s.dep.de_sendq s.dep.de_sendq_head).sq_filled = false)
    (hps : s.dep.de_flags.DEF_PACK_SEND = false)
    (hq : s.dep.de_sendq_head < s.dep.de_sendq_nr) (hnr : s.dep.de_sendq_nr ≤ K.SENDQ_NR)
    (hsz : do_vwrite_size K E mp v { s with dep := { s.dep with de_client := mp.DL_PROC } }
      = Res.ok size s1)
    (hmin : ETH_MIN_PACK_SIZE ≤ size) (hmax : size ≤ ETH_MAX_PACK_SIZE)
    (hx : call_user2nic K E s.dep.de_user2nicf s1.dep.de_write_iovec 0
      ((s.dep.de_sendq s.dep.de_sendq_head).sq_sendpage * K.DP_PAGESIZE) size.toNat s.io
        = Res.ok wi io1) :
    do_vwrite K E mp fi v s =
      (if fi then Res.ok () (enqueue_mid K size.toNat s1 wi io1)
        else reply E 0 (enqueue_mid K size.toNat s1 wi io1)) ∧
    ∃ tmp, s1 = { dep := { s.dep with de_client := mp.DL_PROC,
                                       de_write_iovec := s1.dep.de_write_iovec,
                                       de_tmp_iovec := tmp },
                  io := s.io } := by
  obtain ⟨wi0, tmp, hst⟩ := do_vwrite_size_state K E mp v
    { s with dep := { s.dep with de_client := mp.DL_PROC } }
  rw [hsz] at hst
  simp only [Res.state] at hst
  subst hst
  refine ⟨?_, tmp, rfl⟩
  rw [do_vwrite_enqueue_eq hp hm hf ha hh hps, hsz]
  simp only [Res.bind]
  refine do_vwrite_send_run hmin hmax hx ?_ hm hf
  show next_slot s.dep.de_sendq_head s.dep.de_sendq_nr < K.SENDQ_NR
  unfold next_slot
  split <;> omega

theorem enqueue_mid_out_by {K : Hdr} {E : Env} {P : Ev → Prop} {f : Xfer} {w wi : iovec_dat}
    {n size : Nat} {s1 : Sys} {io io1 : Io}
    (hP : ∀ f iov o n c io, LogBy P { io with out := io.out ++ [Ev.user2nic f iov o n c] }
      (call_user2nic K E f iov o n c io).state)
    (hx : call_user2nic K E f w 0 n size io = Res.ok wi io1) :
    ∃ Bq, (∀ e ∈ Bq, P e) ∧
      (enqueue_mid K size s1 wi io1).io.out = io.out ++
        ([Ev.user2nic f w 0 n size] ++ Bq
          ++ (if s1.dep.de_sendq_tail = s1.dep.de_sendq_head
              then start_tx_events K (s1.dep.de_sendq s1.dep.de_sendq_head).sq_sendpage size
              else [])) := by
  obtain ⟨Bq, hq, eq⟩ := call_user2nic_log_by (hP _ _ _ _ _ _) hx
  refine ⟨Bq, hq, ?_⟩
  rw [enqueue_mid_io]
  split
  · rw [start_tx_out, eq]
    simp only [List.append_assoc]
  · rw [eq]
    simp only [List.append_assoc, List.append_nil]

theorem enqueue_mid_out {K : Hdr} {E : Env} {f : Xfer} {w wi : iovec_dat} {n size : Nat}
    {s1 : Sys} {io io1 : Io}
    (hx : call_user2nic K E f w 0 n size io = Res.ok wi io1) :
    ∃ Bq, (∀ e ∈ Bq, Ev.quiet e = true) ∧
      (enqueue_mid K size s1 wi io1).io.out = io.out ++
        ([Ev.user2nic f w 0 n size] ++ Bq
          ++ (if s1.dep.de_sendq_tail = s1.dep.de_sendq_head
              then start_tx_events K (s1.dep.de_sendq s1.dep.de_sendq_head).sq_sendpage size
              else [])) :=
  enqueue_mid_out_by (call_user2nic_quiet K E) hx

/-- The enqueue branch of `do_vwrite` when the size is valid, the staging call
returns and the reply can be sent: the state it returns in. -/
theorem do_vwrite_enqueue_effect_by {K : Hdr} {E : Env} {P : Ev → Prop} {mp : message}
    {fi v : Bool} {s s1 : Sys} {size : Int} {wi : iovec_dat} {io1 : Io}
    (hP : ∀ f iov o n c io, LogBy P { io with out := io.out ++ [Ev.user2nic f iov o n c] }
      (call_user2nic K E f iov o n c io).state)
    (hp : bad_port mp.DL_PORT = false) (hm : s.dep.de_mode = Mode.DEM_ENABLED)
    (hf : s.dep.de_flags.DEF_ENABLED = true) (ha : s.dep.de_flags.DEF_SEND_AVAIL = false)
    (hh : (s.dep.de_sendq s.dep.de_sendq_head).sq_filled = false)
    (hps : s.dep.de_flags.DEF_PACK_SEND = false)
    (hq : s.dep.de_sendq_head < s.dep.de_sendq_nr) (hnr : s.dep.de_sendq_nr ≤ K.SENDQ_NR)
    (hsz : do_vwrite_size K E mp v { s with dep := { s.dep with de_client := mp.DL_PROC } }
      = Res.ok size s1)
    (hmin : ETH_MIN_PACK_SIZE ≤ size) (hmax : size ≤ ETH_MAX_PACK_SIZE)
    (hx : call_user2nic K E s.dep.de_user2nicf s1.dep.de_write_iovec 0
      ((s.dep.de_sendq s.dep.de_sendq_head).sq_sendpage * K.DP_PAGESIZE) size.toNat s.io
        = Res.ok wi io1)
    (hs : 0 ≤ E.send_r) :
    ∃ (s2 : Sys) (Bq : List Ev),
      do_vwrite K E mp fi v s = Res.ok () s2 ∧
      (∀ e ∈ Bq, P e) ∧
      s2.io.out = s.io.out ++
        ([Ev.user2nic s.dep.de_user2nicf s1.dep.de_write_iovec 0
            ((s.dep.de_sendq s.dep.de_sendq_head).sq_sendpage * K.DP_PAGESIZE) size.toNat]
          ++ Bq
          ++ (if s.dep.de_sendq_tail = s.dep.de_sendq_head
              then start_tx_events K (s.dep.de_sendq s.dep.de_sendq_head).sq_sendpage size.toNat
              else [])
          ++ (if fi then []
              else [Ev.send (Sent.task_reply mp.DL_PROC mp.DL_PROC true
                s.dep.de_flags.DEF_PACK_RECV 0 s.dep.de_read_s E.uptime)])) ∧
      s2.dep.de_sendq = set_sendq s.dep.de_sendq s.dep.de_sendq_head
        { s.dep.de_sendq s.dep.de_sendq_head with
          sq_filled := true,
          sq_size := if s.dep.de_sendq_tail = s.dep.de_sendq_head
            then (s.dep.de_sendq s.dep.de_sendq_head).sq_size else size.toNat } ∧
      s2.dep.de_sendq_head = next_slot s.dep.de_sendq_head s.dep.de_sendq_nr ∧
      s2.dep.de_sendq_tail = s.dep.de_sendq_tail ∧
      s2.dep.de_flags.DEF_PACK_SEND = fi := by
  have hrun : do_vwrite K E mp fi v s = _ :=
    (do_vwrite_enqueue_run hp hm hf ha hh hps hq hnr hsz hmin hmax hx).1
  obtain ⟨wi0, tmp, hst⟩ := do_vwrite_size_state K E mp v
    { s with dep := { s.dep with de_client := mp.DL_PROC } }
  rw [hsz] at hst
  simp only [Res.state] at hst
  subst hst
  obtain ⟨Bq, hBq, hout⟩ := @enqueue_mid_out_by K E P _ _ _ _ _
    (Sys.mk { s.dep with de_client := mp.DL_PROC, de_write_iovec := wi0, de_tmp_iovec := tmp }
      s.io) _ _ hP hx
  have hd := enqueue_mid_dep K size.toNat
    { dep := { s.dep with de_client := mp.DL_PROC, de_write_iovec := wi0,
                           de_tmp_iovec := tmp }, io := s.io } wi io1
  cases fi
  · simp only [Bool.false_eq_true, if_false] at hrun
    rw [reply_run 0 _ hs] at hrun
    refine ⟨_, Bq, hrun, hBq, ?_, ?_, ?_, ?_, ?_⟩
    · simp only [hout, hd, Bool.false_eq_true, if_false, List.append_assoc]
    · simp only [hd]
    · simp only [hd]
    · simp only [hd]
    · rfl
  · simp only [if_true] at hrun
    refine ⟨_, Bq, hrun, hBq, ?_, ?_, ?_, ?_, ?_⟩
    · simp only [hout, if_true, List.append_nil, List.append_assoc]
    · simp only [hd]
    · simp only [hd]
    · simp only [hd]
    · simp only [hd]

theorem do_vwrite_enqueue_effect {K : Hdr} {E : Env} {mp : message} {fi v : Bool} {s s1 : Sys}
    {size : Int} {wi : iovec_dat} {io1 : Io}
    (hp : bad_port mp.DL_PORT = false) (hm : s.dep.de_mode = Mode.DEM_ENABLED)
    (hf : s.dep.de_flags.DEF_ENABLED = true) (ha : s.dep.de_flags.DEF_SEND_AVAIL = false)
    (hh : (s.dep.de_sendq s.dep.de_sendq_head).sq_filled = false)
    (hps : s.dep.de_flags.DEF_PACK_SEND = false)
    (hq : s.dep.de_sendq_head < s.dep.de_sendq_nr) (hnr : s.dep.de_sendq_nr ≤ K.SENDQ_NR)
    (hsz : do_vwrite_size K E mp v { s with dep := { s.dep with de_client := mp.DL_PROC } }
      = Res.ok size s1)
    (hmin : ETH_MIN_PACK_SIZE ≤ size) (hmax : size ≤ ETH_MAX_PACK_SIZE)
    (hx : call_user2nic K E s.dep.de_user2nicf s1.dep.de_write_iovec 0
      ((s.dep.de_sendq s.dep.de_sendq_head).sq_sendpage * K.DP_PAGESIZE) size.toNat s.io
        = Res.ok wi io1)
    (hs : 0 ≤ E.send_r) :
    ∃ (s2 : Sys) (Bq : List Ev),
      do_vwrite K E mp fi v s = Res.ok () s2 ∧
      (∀ e ∈ Bq, Ev.quiet e = true) ∧
      s2.io.out = s.io.out ++
        ([Ev.user2nic s.dep.de_user2nicf s1.dep.de_write_iovec 0
            ((s.dep.de_sendq s.dep.de_sendq_head).sq_sendpage * K.DP_PAGESIZE) size.toNat]
          ++ Bq
          ++ (if s.dep.de_sendq_tail = s.dep.de_sendq_head
              then start_tx_events K (s.dep.de_sendq s.dep.de_sendq_head).sq_sendpage size.toNat
              else [])
          ++ (if fi then []
              else [Ev.send (Sent.task_reply mp.DL_PROC mp.DL_PROC true
                s.dep.de_flags.DEF_PACK_RECV 0 s.dep.de_read_s E.uptime)])) ∧
      s2.dep.de_sendq = set_sendq s.dep.de_sendq s.dep.de_sendq_head
        { s.dep.de_sendq s.dep.de_sendq_head with
          sq_filled := true,
          sq_size := if s.dep.de_sendq_tail = s.dep.de_sendq_head
            then (s.dep.de_sendq s.dep.de_sendq_head).sq_size else size.toNat } ∧
      s2.dep.de_sendq_head = next_slot s.dep.de_sendq_head s.dep.de_sendq_nr ∧
      s2.dep.de_sendq_tail = s.dep.de_sendq_tail ∧
      s2.dep.de_flags.DEF_PACK_SEND = fi :=
  do_vwrite_enqueue_effect_by (call_user2nic_quiet K E) hp hm hf ha hh hps hq hnr hsz hmin hmax hx hs

/-- C19: the deferred branch of `do_vwrite`.  In every state of a run of the
driver in which the port, a valid one, is in mode `DEM_ENABLED` with
`DEF_ENABLED` set, has no deferred write pending and has the slot at the head
filled, `do_vwrite` called for a request returns when the reply can be sent.
In the port entry it has stored the request in `de_sendmsg`, set
`DEF_SEND_AVAIL` and set `de_client` to `DL_PROC`, and nothing else: head, tail,
every slot and the write descriptor are as before.  Outside the port entry
only the log has changed, by one event: the `DL_TASK_REPLY` with the error
code `OK` and neither `DL_PACK_SEND` nor `DL_PACK_RECV`; no staging call and
no register write is logged.  Called from the interrupt handler in such a
state, `do_vwrite` halts with `should not be sending`. -/
theorem do_vwrite_deferred (K : Hdr) (E : Env) (mp : message) (vectored : Bool) (s : Sys)
    (hrun : Run K s) (hp : bad_port mp.DL_PORT = false)
    (hm : s.dep.de_mode = Mode.DEM_ENABLED) (hf : s.dep.de_flags.DEF_ENABLED = true)
    (ha : s.dep.de_flags.DEF_SEND_AVAIL = false)
    (hh : (s.dep.de_sendq s.dep.de_sendq_head).sq_filled = true) (hs : 0 ≤ E.send_r) :
    do_vwrite K E mp false vectored s = Res.ok ()
      { dep := { s.dep with
          de_client := mp.DL_PROC,
          de_sendmsg := mp,
          de_flags := { s.dep.de_flags with DEF_SEND_AVAIL := true } },
        io := { s.io with out := s.io.out ++
          [Ev.send (Sent.task_reply mp.DL_PROC mp.DL_PROC false false 0 0 E.uptime)] } } ∧
    do_vwrite K E mp true vectored s =
      Res.halt Halt.should_not_be_sending { s with dep := { s.dep with de_client := mp.DL_PROC } } := by
  have hB := hrun.between
  constructor
  · unfold do_vwrite
    rw [if_neg (by rw [hp]; decide)]
    dsimp only
    rw [if_neg (by rw [hm]; decide), if_neg (by rw [hm]; simp), if_neg (by rw [hf]; simp),
      if_neg (by rw [ha]; simp), if_pos hh, if_neg (by simp), reply_run 0 _ hs]
    dsimp only
    rw [hB.pack_send, hB.pack_recv, hB.read_s]
  · unfold do_vwrite
    rw [if_neg (by rw [hp]; decide)]
    dsimp only
    rw [if_neg (by rw [hm]; decide), if_neg (by rw [hm]; simp), if_neg (by rw [hf]; simp),
      if_neg (by rw [ha]; simp), if_pos hh, if_pos rfl]

set_option maxRecDepth 100000 in
/-- The statement at work: the third write of the example run, of 300 bytes,
finds both send buffers of port 0 in use and is deferred. -/
theorem do_vwrite_deferred_witness :
    (run2.dep.de_sendq run2.dep.de_sendq_head).sq_filled = true ∧
    do_vwrite hdr env0 (msg MType.DL_WRITE 300 3000) false false run2 = Res.ok ()
      { dep := { run2.dep with
          de_client := 7,
          de_sendmsg := msg MType.DL_WRITE 300 3000,
          de_flags := { run2.dep.de_flags with DEF_SEND_AVAIL := true } },
        io := { run2.io with out := run2.io.out ++
          [Ev.send (Sent.task_reply 7 7 false false 0 0 0)] } } :=
  ⟨by decide,
   (do_vwrite_deferred hdr env0 (msg MType.DL_WRITE 300 3000) false run2
      (Run.turn env0 (msg MType.DL_WRITE 200 2000) false run1 run2
        (Run.turn env0 (msg MType.DL_WRITE 100 1000) false sys1 run1
          (Run.turn env0 (msg MType.DL_INIT 0 0) false sys0 sys1
            (Run.start sys0 rfl rfl rfl) (Res.ok_of_isOk (by decide)))
          (Res.ok_of_isOk (by decide)))
        (Res.ok_of_isOk (by decide)))
      (by decide) (by decide) (by decide) (by decide) (by decide) (by decide)).1⟩

theorem byte_count_split (n : Nat) : (n >>> 8) * 256 + (n &&& 0xff) = n := by
  have h1 : n >>> 8 = n / 256 := by rw [Nat.shiftRight_eq_div_pow]
  have h2 : n &&& 0xff = n % 256 := Nat.and_pow_two_sub_one_eq_mod n 8
  rw [h1, h2]
  omega

theorem byte_count_high {n : Nat} (h : n ≤ 1514) : n >>> 8 < 256 := by
  have h1 : n >>> 8 = n / 256 := by rw [Nat.shiftRight_eq_div_pow]
  rw [h1]
  omega

theorem fill_head_tail (K : Hdr) (n : Nat) (x : Sys) :
    (x.dep.de_sendq_tail = x.dep.de_sendq_head →
      (fill_head K n x).io.out = x.io.out ++
        [Ev.outb0 Reg.DP_TPSR ((x.dep.de_sendq x.dep.de_sendq_head).sq_sendpage : Int),
         Ev.outb0 Reg.DP_TBCR1 ((n >>> 8 : Nat) : Int),
         Ev.outb0 Reg.DP_TBCR0 ((n &&& 0xff : Nat) : Int),
         Ev.outb0 Reg.DP_CR (K.CR_TXP : Int)] ∧
      ((fill_head K n x).dep.de_sendq x.dep.de_sendq_head).sq_size =
        (x.dep.de_sendq x.dep.de_sendq_head).sq_size) ∧
    (x.dep.de_sendq_tail ≠ x.dep.de_sendq_head →
      (fill_head K n x).io = x.io ∧
      ((fill_head K n x).dep.de_sendq x.dep.de_sendq_head).sq_size = n) := by
  constructor
  · intro h
    rw [fill_head_io, fill_head_dep, if_pos h, start_tx_out]
    refine ⟨rfl, ?_⟩
    simp only [set_sendq, if_true, if_pos h]
  · intro h
    rw [fill_head_io, fill_head_dep, if_neg h]
    refine ⟨rfl, ?_⟩
    simp only [set_sendq, if_true, if_neg h]

/-- C20: the transmit command of the enqueue branch of `do_vwrite` is issued
exactly when the slot that is filled is the tail.  Lines 368-377
(`fill_head`), from any state: if `de_sendq_tail` is the head, they write the
send page of the slot to `DP_TPSR`, `size >> 8` to `DP_TBCR1`, `size & 0xff` to
`DP_TBCR0` and `CR_TXP` to `DP_CR`, in this order and nothing else, and leave
the `sq_size` of the slot as it is; otherwise they write nothing and set the
`sq_size` of the slot to `size`.  The two bytes of the count are the size:
`(size >> 8) * 256 + (size & 0xff) = size`, and `size >> 8` is below 256.  For
the call of `do_vwrite` as a whole, under the conditions of the enqueue
branch: it returns, and the log has grown by the staging call with its
accesses `Bq`, none of which is part of a transmit command (no write to
`DP_TPSR`, `DP_TBCR1`, `DP_TBCR0`, and no write to `DP_CR` of a value with the
bit `CR_TXP`), then the four writes if the tail was the head, then the reply
if the call is for a request.  So the events of the call that belong to a
transmit command are exactly these four writes if the tail was the head, and
none otherwise, when the `sq_size` of the slot is the size.  The constants are
taken to be such that `CR_TXP` is not zero and is no bit of the remote-write
command of the programmed-I/O transfer functions (`CrBits`). -/
theorem transmit_iff_tail (K : Hdr) (E : Env) (mp : message) (from_int vectored : Bool)
    (s s1 : Sys) (size : Int) (wi : iovec_dat) (io1 : Io) (hK : CrBits K)
    (hp : bad_port mp.DL_PORT = false) (hm : s.dep.de_mode = Mode.DEM_ENABLED)
    (hf : s.dep.de_flags.DEF_ENABLED = true) (ha : s.dep.de_flags.DEF_SEND_AVAIL = false)
    (hh : (s.dep.de_sendq s.dep.de_sendq_head).sq_filled = false)
    (hps : s.dep.de_flags.DEF_PACK_SEND = false)
    (hq : s.dep.de_sendq_head < s.dep.de_sendq_nr) (hnr : s.dep.de_sendq_nr ≤ K.SENDQ_NR)
    (hsz : do_vwrite_size K E mp vectored
      { s with dep := { s.dep with de_client := mp.DL_PROC } } = Res.ok size s1)
    (hmin : ETH_MIN_PACK_SIZE ≤ size) (hmax : size ≤ ETH_MAX_PACK_SIZE)
    (hx : call_user2nic K E s.dep.de_user2nicf s1.dep.de_write_iovec 0
      ((s.dep.de_sendq s.dep.de_sendq_head).sq_sendpage * K.DP_PAGESIZE) size.toNat s.io
        = Res.ok wi io1)
    (hs : 0 ≤ E.send_r) :
    (∀ (n : Nat) (x : Sys),
      (x.dep.de_sendq_tail = x.dep.de_sendq_head →
        (fill_head K n x).io.out = x.io.out ++
          [Ev.outb0 Reg.DP_TPSR ((x.dep.de_sendq x.dep.de_sendq_head).sq_sendpage : Int),
           Ev.outb0 Reg.DP_TBCR1 ((n >>> 8 : Nat) : Int),
           Ev.outb0 Reg.DP_TBCR0 ((n &&& 0xff : Nat) : Int),
           Ev.outb0 Reg.DP_CR (K.CR_TXP : Int)] ∧
        ((fill_head K n x).dep.de_sendq x.dep.de_sendq_head).sq_size =
          (x.dep.de_sendq x.dep.de_sendq_head).sq_size) ∧
      (x.dep.de_sendq_tail ≠ x.dep.de_sendq_head →
        (fill_head K n x).io = x.io ∧
        ((fill_head K n x).dep.de_sendq x.dep.de_sendq_head).sq_size = n)) ∧
    ((size.toNat >>> 8) * 256 + (size.toNat &&& 0xff) = size.toNat ∧ size.toNat >>> 8 < 256) ∧
    ∃ (s2 : Sys) (Bq : List Ev),
      do_vwrite K E mp from_int vectored s = Res.ok () s2 ∧
      (∀ e ∈ Bq, Ev.quiet e = true ∧ Ev.isTxReg K e = false) ∧
      (s.dep.de_sendq_tail = s.dep.de_sendq_head →
        s2.io.out = s.io.out ++
          ([Ev.user2nic s.dep.de_user2nicf s1.dep.de_write_iovec 0
              ((s.dep.de_sendq s.dep.de_sendq_head).sq_sendpage * K.DP_PAGESIZE) size.toNat]
            ++ Bq
            ++ [Ev.outb0 Reg.DP_TPSR ((s.dep.de_sendq s.dep.de_sendq_head).sq_sendpage : Int),
                Ev.outb0 Reg.DP_TBCR1 ((size.toNat >>> 8 : Nat) : Int),
                Ev.outb0 Reg.DP_TBCR0 ((size.toNat &&& 0xff : Nat) : Int),
                Ev.outb0 Reg.DP_CR (K.CR_TXP : Int)]
            ++ (if from_int then []
                else [Ev.send (Sent.task_reply mp.DL_PROC mp.DL_PROC true
                  s.dep.de_flags.DEF_PACK_RECV 0 s.dep.de_read_s E.uptime)])) ∧
        (s2.io.out.drop s.io.out.length).filter (Ev.isTxReg K) =
          [Ev.outb0 Reg.DP_TPSR ((s.dep.de_sendq s.dep.de_sendq_head).sq_sendpage : Int),
           Ev.outb0 Reg.DP_TBCR1 ((size.toNat >>> 8 : Nat) : Int),
           Ev.outb0 Reg.DP_TBCR0 ((size.toNat &&& 0xff : Nat) : Int),
           Ev.outb0 Reg.DP_CR (K.CR_TXP : Int)] ∧
        (s2.dep.de_sendq s.dep.de_sendq_head).sq_size =
          (s.dep.de_sendq s.dep.de_sendq_head).sq_size) ∧
      (s.dep.de_sendq_tail ≠ s.dep.de_sendq_head →
        s2.io.out = s.io.out ++
          ([Ev.user2nic s.dep.de_user2nicf s1.dep.de_write_iovec 0
              ((s.dep.de_sendq s.dep.de_sendq_head).sq_sendpage * K.DP_PAGESIZE) size.toNat]
            ++ Bq
            ++ (if from_int then []
                else [Ev.send (Sent.task_reply mp.DL_PROC mp.DL_PROC true
                  s.dep.de_flags.DEF_PACK_RECV 0 s.dep.de_read_s E.uptime)])) ∧
        (s2.io.out.drop s.io.out.length).filter (Ev.isTxReg K) = [] ∧
        (s2.dep.de_sendq s.dep.de_sendq_head).sq_size = size.toNat) := by
  refine ⟨fun n x => fill_head_tail K n x,
    ⟨byte_count_split _, byte_count_high (by unfold ETH_MAX_PACK_SIZE at hmax; omega)⟩, ?_⟩
  obtain ⟨s2, Bq, h1, h2, h3, h4, h5, h6, h7⟩ :=
    @do_vwrite_enqueue_effect_by K E (Ev.staged K) mp from_int vectored s s1 size wi io1
      (call_user2nic_staged K hK E) hp hm hf ha hh hps hq hnr hsz hmin hmax hx hs
  have hrec : ∀ (a : Xfer) (b : iovec_dat) (c d e : Nat),
      [Ev.user2nic a b c d e].filter (Ev.isTxReg K) = [] := fun _ _ _ _ _ => rfl
  have hrep : (if from_int then []
      else [Ev.send (Sent.task_reply mp.DL_PROC mp.DL_PROC true
        s.dep.de_flags.DEF_PACK_RECV 0 s.dep.de_read_s E.uptime)]).filter (Ev.isTxReg K)
        = [] := by
    cases from_int <;> rfl
  have htx := start_tx_events_txreg K hK (s.dep.de_sendq s.dep.de_sendq_head).sq_sendpage
    size.toNat
  refine ⟨s2, Bq, h1, h2, fun ht => ?_, fun ht => ?_⟩
  · rw [if_pos ht] at h3 h4
    refine ⟨h3, ?_, ?_⟩
    · rw [h3, List.drop_left, List.filter_append, List.filter_append, List.filter_append,
        hrec, filter_txreg_staged h2, hrep]
      simp only [List.nil_append, List.append_nil]
      exact htx
    · rw [h4]
      simp only [set_sendq, if_true]
  · rw [if_neg ht] at h3 h4
    simp only [List.append_nil] at h3
    refine ⟨h3, ?_, ?_⟩
    · rw [h3, List.drop_left, List.filter_append, List.filter_append, hrec,
        filter_txreg_staged h2, hrep]
      rfl
    · rw [h4]
      simp only [set_sendq, if_true]

set_option maxRecDepth 100000 in
/-- The statement at work on the example run.  The first `Write`, of 100 bytes,
fills slot 0, which is the tail: the four writes of the transmit command are
logged and the `sq_size` of the slot is not set.  The second, of 200 bytes,
fills slot 1 while slot 0 is being sent: no part of a transmit command is
logged and the `sq_size` of slot 1 is 200. -/
theorem transmit_iff_tail_witness :
    sys1.dep.de_sendq_tail = sys1.dep.de_sendq_head ∧
    (∃ s2, do_vwrite hdr env0 (msg MType.DL_WRITE 100 1000) false false sys1 = Res.ok () s2 ∧
      (s2.io.out.drop sys1.io.out.length).filter (Ev.isTxReg hdr) =
        [Ev.outb0 Reg.DP_TPSR ((sys1.dep.de_sendq sys1.dep.de_sendq_head).sq_sendpage : Int),
         Ev.outb0 Reg.DP_TBCR1 (((100 : Int).toNat >>> 8 : Nat) : Int),
         Ev.outb0 Reg.DP_TBCR0 (((100 : Int).toNat &&& 0xff : Nat) : Int),
         Ev.outb0 Reg.DP_CR (hdr.CR_TXP : Int)] ∧
      (s2.dep.de_sendq sys1.dep.de_sendq_head).sq_size =
        (sys1.dep.de_sendq sys1.dep.de_sendq_head).sq_size) ∧
    run1.dep.de_sendq_tail ≠ run1.dep.de_sendq_head ∧
    (∃ s2, do_vwrite hdr env0 (msg MType.DL_WRITE 200 2000) false false run1 = Res.ok () s2 ∧
      (s2.io.out.drop run1.io.out.length).filter (Ev.isTxReg hdr) = [] ∧
      (s2.dep.de_sendq run1.dep.de_sendq_head).sq_size = 200) :=
  ⟨by decide,
   (transmit_iff_tail hdr env0 (msg MType.DL_WRITE 100 1000) false false sys1 sys1_size 100
      sys1_size.dep.de_write_iovec sys1_stage.state cr_bits_hdr (by decide) (by decide)
      (by decide)
      (by decide) (by decide) (by decide) (by decide) (by decide) rfl (by decide) (by decide)
      (Res.ok_of_value (by decide)) (by decide)).2.2.elim fun s2 h => h.elim fun _ h =>
        ⟨s2, h.1, (h.2.2.1 (by decide)).2.1, (h.2.2.1 (by decide)).2.2⟩,
   by decide,
   (transmit_iff_tail hdr env0 (msg MType.DL_WRITE 200 2000) false false run1 run1_size 200
      run1_size.dep.de_write_iovec run1_stage.state cr_bits_hdr (by decide) (by decide)
      (by decide)
      (by decide) (by decide) (by decide) (by decide) (by decide) rfl (by decide) (by decide)
      (Res.ok_of_value (by decide)) (by decide)).2.2.elim fun s2 h => h.elim fun _ h =>
        ⟨s2, h.1, (h.2.2.2 (by decide)).2.1, (h.2.2.2 (by decide)).2.2⟩⟩

/-! ### Scatter lists: positions, batches -/

theorem seg_start_zero (seg : Nat → iovec) : seg_start seg 0 = 0 := rfl

theorem seg_start_succ (seg : Nat → iovec) (k : Nat) :
    seg_start seg (k + 1) = seg_start seg k + (seg k).iov_size := by
  unfold seg_start
  rw [List.range_succ, List.map_append, List.sum_append]
  simp

theorem seg_start_mono (seg : Nat → iovec) {a b : Nat} (h : a ≤ b) :
    seg_start seg a ≤ seg_start seg b := by
  induction b with
  | zero =>
    have : a = 0 := by omega
    subst this
    exact Nat.le_refl _
  | succ k ih =>
    by_cases hk : a ≤ k
    · rw [seg_start_succ]
      have := ih hk
      omega
    · have : a = k + 1 := by omega
      subst this
      exact Nat.le_refl _

/-- The address of a byte that lies in segment `pos`. -/
theorem seg_addr_at (seg : Nat → iovec) :
    ∀ (m k p pos q : Nat), k ≤ pos → pos < k + m →
      p + seg_start seg k = seg_start seg pos + q → q < (seg pos).iov_size →
      seg_addr seg m k p = (seg pos).iov_addr + q := by
  intro m
  induction m with
  | zero =>
    intro k p pos q h1 h2
    omega
  | succ m ih =>
    intro k p pos q h1 h2 h3 h4
    unfold seg_addr
    by_cases hk : pos = k
    · subst hk
      have : p = q := by omega
      subst this
      rw [if_pos h4]
    · have hlt : k + 1 ≤ pos := by omega
      have hm := seg_start_mono seg hlt
      rw [seg_start_succ] at hm
      rw [if_neg (by omega)]
      refine ih (k + 1) _ pos q hlt (by omega) ?_ h4
      rw [seg_start_succ]
      omega

theorem to_uint_nat (K : Hdr) {x : Nat} (h : x < K.UINT_MOD) : to_uint K (x : Int) = x := by
  unfold to_uint
  rw [Int.emod_eq_of_lt (by omega) (by exact_mod_cast h)]
  simp

theorem window_getD (f : Nat → iovec) (m i : Nat) (w : List iovec) (d : iovec) (h : i < m) :
    ((List.range m).map f ++ w).getD i d = f i := by
  simp [List.getD_eq_getElem?_getD, List.getElem?_append_left, h]

/-- The first batch, as `do_vwrite` and `do_vread` fetch it. -/
theorem get_userdata_batch {K : Hdr} {E : Env} {proc : Int} {addr n : Nat} {io : Io}
    (w : List iovec)
    (hS : 0 < K.SIZEOF_IOVEC) (hNS : K.IOVEC_NR * K.SIZEOF_IOVEC < K.UINT_MOD)
    (hmap : ∀ a k, E.numap proc a k = true) :
    ∃ w1, get_userdata K E proc addr
        (if (n : Int) > (K.IOVEC_NR : Int) then (K.IOVEC_NR : Int) else (n : Int)) w io
        = Res.ok w1 io ∧
      Batch K (user_iovec K io proc addr) n proc addr 0
        { iod_iovec := w1, iod_iovec_s := n, iod_proc_nr := proc, iod_iovec_addr := addr } := by
  have hk : (if (n : Int) > (K.IOVEC_NR : Int) then (K.IOVEC_NR : Int) else (n : Int))
      = ((min n K.IOVEC_NR : Nat) : Int) := by
    split
    · rw [Nat.min_eq_right (by omega)]
    · rw [Nat.min_eq_left (by omega)]
  have hb : min n K.IOVEC_NR * K.SIZEOF_IOVEC < K.UINT_MOD :=
    Nat.lt_of_le_of_lt (Nat.mul_le_mul_right _ (Nat.min_le_right _ _)) hNS
  have hu : to_uint K (((min n K.IOVEC_NR : Nat) : Int) * (K.SIZEOF_IOVEC : Int))
      = min n K.IOVEC_NR * K.SIZEOF_IOVEC := by
    rw [← Int.natCast_mul]
    exact to_uint_nat K hb
  refine ⟨(List.range (min n K.IOVEC_NR)).map
      (fun j => io.uiov proc (addr + j * K.SIZEOF_IOVEC)) ++ w.drop (min n K.IOVEC_NR), ?_, ?_⟩
  · unfold get_userdata
    dsimp only
    rw [hk, hu, hmap, if_pos rfl,
      if_neg (Nat.not_lt.2 (Nat.mul_le_mul_right _ (Nat.min_le_right _ _))),
      Nat.mul_div_cancel _ hS]
  · refine ⟨by simp, rfl, by simp, ?_⟩
    intro i hi hin
    unfold iovec_dat.at user_iovec
    dsimp only
    rw [window_getD _ _ _ _ _ (by omega)]
    simp

/-- The batch after batch `b`, as `dp_next_iovec` fetches it. -/
theorem dp_next_iovec_batch {K : Hdr} {E : Env} {proc : Int} {addr n b : Nat} {io : Io}
    {seg : Nat → iovec} {iovp : iovec_dat}
    (hS : 0 < K.SIZEOF_IOVEC) (hNS : K.IOVEC_NR * K.SIZEOF_IOVEC < K.UINT_MOD)
    (hmap : ∀ a k, E.numap proc a k = true)
    (hseg : ∀ j, K.IOVEC_NR ≤ j → j < n → io.uiov proc (addr + j * K.SIZEOF_IOVEC) = seg j)
    (hB : Batch K seg n proc addr b iovp) (hn : b * K.IOVEC_NR + K.IOVEC_NR < n) :
    ∃ iovp1, dp_next_iovec K E iovp io = Res.ok iovp1 io ∧
      Batch K seg n proc addr (b + 1) iovp1 := by
  have hs1 : iovp.iod_iovec_s - (K.IOVEC_NR : Int)
      = ((n - (b + 1) * K.IOVEC_NR : Nat) : Int) := by
    rw [hB.s]
    have : (b + 1) * K.IOVEC_NR = b * K.IOVEC_NR + K.IOVEC_NR := by ring
    rw [this]
    omega
  have hk : (if iovp.iod_iovec_s - (K.IOVEC_NR : Int) > (K.IOVEC_NR : Int)
        then (K.IOVEC_NR : Int) else iovp.iod_iovec_s - (K.IOVEC_NR : Int))
      = ((min (n - (b + 1) * K.IOVEC_NR) K.IOVEC_NR : Nat) : Int) := by
    rw [hs1]
    split
    · rw [Nat.min_eq_right (by omega)]
    · rw [Nat.min_eq_left (by omega)]
  have hb : min (n - (b + 1) * K.IOVEC_NR) K.IOVEC_NR * K.SIZEOF_IOVEC < K.UINT_MOD :=
    Nat.lt_of_le_of_lt (Nat.mul_le_mul_right _ (Nat.min_le_right _ _)) hNS
  have hu : to_uint K (((min (n - (b + 1) * K.IOVEC_NR) K.IOVEC_NR : Nat) : Int)
      * (K.SIZEOF_IOVEC : Int)) = min (n - (b + 1) * K.IOVEC_NR) K.IOVEC_NR * K.SIZEOF_IOVEC := by
    rw [← Int.natCast_mul]
    exact to_uint_nat K hb
  have hgt : iovp.iod_iovec_s > (K.IOVEC_NR : Int) := by
    rw [hB.s]
    omega
  refine ⟨{ iovp with
      iod_iovec := (List.range (min (n - (b + 1) * K.IOVEC_NR) K.IOVEC_NR)).map
          (fun j => io.uiov iovp.iod_proc_nr
            (iovp.iod_iovec_addr + K.IOVEC_NR * K.SIZEOF_IOVEC + j * K.SIZEOF_IOVEC))
        ++ iovp.iod_iovec.drop (min (n - (b + 1) * K.IOVEC_NR) K.IOVEC_NR),
      iod_iovec_s := iovp.iod_iovec_s - (K.IOVEC_NR : Int),
      iod_iovec_addr := iovp.iod_iovec_addr + K.IOVEC_NR * K.SIZEOF_IOVEC }, ?_, ?_⟩
  · unfold dp_next_iovec
    rw [if_pos hgt]
    dsimp only
    unfold get_userdata
    dsimp only
    rw [hk, hu, hB.proc, hmap, if_pos rfl,
      if_neg (Nat.not_lt.2 (Nat.mul_le_mul_right _ (Nat.min_le_right _ _))),
      Nat.mul_div_cancel _ hS]
  · refine ⟨?_, hB.proc, ?_, ?_⟩
    · show iovp.iod_iovec_s - (K.IOVEC_NR : Int) = _
      rw [hs1]
      have : (b + 1) * K.IOVEC_NR ≤ n := by
        have : (b + 1) * K.IOVEC_NR = b * K.IOVEC_NR + K.IOVEC_NR := by ring
        omega
      omega
    · show iovp.iod_iovec_addr + K.IOVEC_NR * K.SIZEOF_IOVEC = _
      rw [hB.addr]
      ring
    · intro i hi hin
      unfold iovec_dat.at
      dsimp only
      have hlt : i < min (n - (b + 1) * K.IOVEC_NR) K.IOVEC_NR := by
        rw [Nat.lt_min]
        omega
      have hge : K.IOVEC_NR ≤ (b + 1) * K.IOVEC_NR + i := by
        have : (b + 1) * K.IOVEC_NR = b * K.IOVEC_NR + K.IOVEC_NR := by ring
        omega
      rw [window_getD _ _ _ _ _ hlt, hB.addr, hB.proc, ← hseg _ hge hin]
      congr 1
      ring

/-! ### `calc_iovec_size` over a scatter list -/

theorem to_int_nat (K : Hdr) {x : Nat} (h : 2 * x < K.UINT_MOD) : to_int K x = (x : Int) := by
  unfold to_int
  have hx : x % K.UINT_MOD = x := Nat.mod_eq_of_lt (by omega)
  rw [hx, if_pos h]

theorem calc_iovec_size_loop_sum {K : Hdr} {E : Env} {proc : Int} {addr n : Nat} {io : Io}
    {seg : Nat → iovec}
    (hN : 0 < K.IOVEC_NR) (hS : 0 < K.SIZEOF_IOVEC)
    (hNS : K.IOVEC_NR * K.SIZEOF_IOVEC < K.UINT_MOD)
    (hmap : ∀ a k, E.numap proc a k = true)
    (hseg : ∀ j, K.IOVEC_NR ≤ j → j < n →
      io.uiov proc (addr + j * K.SIZEOF_IOVEC) = seg j)
    (hfit : 2 * seg_start seg n < K.UINT_MOD) :
    ∀ (fuel b i : Nat) (iovp : iovec_dat),
      Batch K seg n proc addr b iovp → i ≤ K.IOVEC_NR → b * K.IOVEC_NR + i ≤ n →
      2 * (n - (b * K.IOVEC_NR + i)) + (if i < K.IOVEC_NR then 0 else 1) + 1 ≤ fuel →
      ∃ b1 iovp1, Batch K seg n proc addr b1 iovp1 ∧
        calc_iovec_size_loop K E fuel (seg_start seg (b * K.IOVEC_NR + i) : Int) i iovp io
          = Res.ok ((seg_start seg n : Int), iovp1) io := by
  intro fuel
  induction fuel with
  | zero =>
    intro b i iovp hB hi hpos hfuel
    omega
  | succ fuel ih =>
    intro b i iovp hB hi hpos hfuel
    unfold calc_iovec_size_loop
    by_cases hlt : b * K.IOVEC_NR + i < n
    · have hc : (i : Int) < iovp.iod_iovec_s := by
        rw [hB.s]
        omega
      rw [if_pos hc]
      by_cases hiN : i ≥ K.IOVEC_NR
      · have hiN' : i = K.IOVEC_NR := by omega
        subst hiN'
        rw [if_pos hiN]
        obtain ⟨iovp1, h1, hB1⟩ := dp_next_iovec_batch hS hNS hmap hseg hB hlt
        rw [h1]
        dsimp only
        have hpos1 : (b + 1) * K.IOVEC_NR + 0 = b * K.IOVEC_NR + K.IOVEC_NR := by ring
        have := ih (b + 1) 0 iovp1 hB1 (by omega) (by omega) (by
          rw [hpos1, if_pos hN]
          rw [if_neg (by omega)] at hfuel
          omega)
        rw [hpos1] at this
        exact this
      · rw [if_neg hiN]
        have hat : iovp.at i = seg (b * K.IOVEC_NR + i) := hB.win i (by omega) hlt
        have hm := seg_start_mono seg (show b * K.IOVEC_NR + i + 1 ≤ n by omega)
        rw [seg_start_succ] at hm
        have hsz : to_int K (to_uint K (seg_start seg (b * K.IOVEC_NR + i) : Int)
            + (iovp.at i).iov_size) = (seg_start seg (b * K.IOVEC_NR + (i + 1)) : Int) := by
          rw [to_uint_nat K (by omega), hat, to_int_nat K (by omega)]
          rw [← Nat.add_assoc, seg_start_succ]
        rw [hsz]
        refine ih b (i + 1) iovp hB (by omega) (by omega) ?_
        rw [if_pos (by omega)] at hfuel
        split <;> omega
    · have hc : ¬ (i : Int) < iovp.iod_iovec_s := by
        rw [hB.s]
        omega
      rw [if_neg hc]
      have : b * K.IOVEC_NR + i = n := by omega
      rw [this]
      exact ⟨b, iovp, hB, rfl⟩

/-- The function `calc_iovec_size` on the descriptor of a scatter list of `n`
segments, the first batch in the window: it returns the sum of the sizes. -/
theorem calc_iovec_size_sum {K : Hdr} {E : Env} {proc : Int} {addr n : Nat} {io : Io}
    {seg : Nat → iovec} {iovp : iovec_dat}
    (hN : 0 < K.IOVEC_NR) (hS : 0 < K.SIZEOF_IOVEC)
    (hNS : K.IOVEC_NR * K.SIZEOF_IOVEC < K.UINT_MOD)
    (hmap : ∀ a k, E.numap proc a k = true)
    (hseg : ∀ j, K.IOVEC_NR ≤ j → j < n →
      io.uiov proc (addr + j * K.SIZEOF_IOVEC) = seg j)
    (hfit : 2 * seg_start seg n < K.UINT_MOD)
    (hB : Batch K seg n proc addr 0 iovp) :
    ∃ b1 iovp1, Batch K seg n proc addr b1 iovp1 ∧
      calc_iovec_size K E iovp io = Res.ok ((seg_start seg n : Int), iovp1) io := by
  unfold calc_iovec_size
  have hs : iovp.iod_iovec_s.toNat = n := by
    rw [hB.s]
    simp
  rw [hs]
  have := calc_iovec_size_loop_sum hN hS hNS hmap hseg hfit (2 * n + 2) 0 0 iovp hB
    (by omega) (by omega) (by rw [if_pos hN]; omega)
  simpa [seg_start_zero] using this

theorem do_vwrite_size_sum {K : Hdr} {E : Env} {mp : message} {s : Sys} {n : Nat}
    (hN : 0 < K.IOVEC_NR) (hS : 0 < K.SIZEOF_IOVEC)
    (hNS : K.IOVEC_NR * K.SIZEOF_IOVEC < K.UINT_MOD)
    (hmap : ∀ a k, E.numap mp.DL_PROC a k = true) (hn : mp.DL_COUNT = (n : Int))
    (hfit : 2 * seg_start (user_iovec K s.io mp.DL_PROC mp.DL_ADDR) n < K.UINT_MOD) :
    ∃ (wi tmp : iovec_dat) (b : Nat),
      do_vwrite_size K E mp true s =
        Res.ok (seg_start (user_iovec K s.io mp.DL_PROC mp.DL_ADDR) n : Int)
          { dep := { s.dep with de_write_iovec := wi, de_tmp_iovec := tmp }, io := s.io } ∧
      Batch K (user_iovec K s.io mp.DL_PROC mp.DL_ADDR) n mp.DL_PROC mp.DL_ADDR 0 wi ∧
      Batch K (user_iovec K s.io mp.DL_PROC mp.DL_ADDR) n mp.DL_PROC mp.DL_ADDR b tmp := by
  obtain ⟨w1, hg, hB⟩ := @get_userdata_batch K E mp.DL_PROC mp.DL_ADDR n s.io
    s.dep.de_write_iovec.iod_iovec hS hNS hmap
  obtain ⟨b1, tmp, hB1, hc⟩ := calc_iovec_size_sum hN hS hNS hmap (fun _ _ _ => rfl) hfit hB
  refine ⟨_, tmp, b1, ?_, hB, hB1⟩
  unfold do_vwrite_size
  simp only [if_true]
  rw [hn, hg]
  dsimp only
  rw [hc]
  rfl

theorem do_vread_size_sum {K : Hdr} {E : Env} {mp : message} {s : Sys} {n : Nat}
    (hN : 0 < K.IOVEC_NR) (hS : 0 < K.SIZEOF_IOVEC)
    (hNS : K.IOVEC_NR * K.SIZEOF_IOVEC < K.UINT_MOD)
    (hmap : ∀ a k, E.numap mp.DL_PROC a k = true) (hn : mp.DL_COUNT = (n : Int))
    (hfit : 2 * seg_start (user_iovec K s.io mp.DL_PROC mp.DL_ADDR) n < K.UINT_MOD) :
    ∃ (ri tmp : iovec_dat) (b : Nat),
      do_vread_size K E mp true s =
        Res.ok (seg_start (user_iovec K s.io mp.DL_PROC mp.DL_ADDR) n : Int)
          { dep := { s.dep with de_read_iovec := ri, de_tmp_iovec := tmp }, io := s.io } ∧
      Batch K (user_iovec K s.io mp.DL_PROC mp.DL_ADDR) n mp.DL_PROC mp.DL_ADDR 0 ri ∧
      Batch K (user_iovec K s.io mp.DL_PROC mp.DL_ADDR) n mp.DL_PROC mp.DL_ADDR b tmp := by
  obtain ⟨w1, hg, hB⟩ := @get_userdata_batch K E mp.DL_PROC mp.DL_ADDR n s.io
    s.dep.de_read_iovec.iod_iovec hS hNS hmap
  obtain ⟨b1, tmp, hB1, hc⟩ := calc_iovec_size_sum hN hS hNS hmap (fun _ _ _ => rfl) hfit hB
  refine ⟨_, tmp, b1, ?_, hB, hB1⟩
  unfold do_vread_size
  simp only [if_true]
  rw [hn, hg]
  dsimp only
  rw [hc]
  rfl

/-- C15: `calc_iovec_size` returns the total size of a scatter list and leaves
the descriptor of the transfer alone.  Let the request name a list of `n`
segments (`DL_COUNT = n`, any number, below, at, a multiple of or above
`IOVEC_NR`) of process `DL_PROC` at `DL_ADDR`, let every range of that
process resolve, a batch fit the type `vir_bytes`, and the sum of the
`iov_size` of the `n` segments fit the type `int`.  Then the part of
`do_vwrite` that sets up the descriptor and computes the size (lines 338-349)
returns that sum, and so does the one of `do_vread`; nothing outside the port
entry changes; `de_write_iovec` (`de_read_iovec`) is the descriptor as
initialised, at batch 0 of the list: `iod_iovec_s = n`, `iod_iovec_addr =
DL_ADDR`, the first `min n IOVEC_NR` segments in the window; and `de_tmp_iovec`,
on which the walk ran, stands at the batch `b` the walk ended in.  No
assertion of `dp_next_iovec` fails.  The same holds of `calc_iovec_size` on
any descriptor that stands at batch 0 of a list. -/
theorem calc_iovec_size_total (K : Hdr) (E : Env) (mp : message) (s : Sys) (n : Nat)
    (hN : 0 < K.IOVEC_NR) (hS : 0 < K.SIZEOF_IOVEC)
    (hNS : K.IOVEC_NR * K.SIZEOF_IOVEC < K.UINT_MOD)
    (hmap : ∀ a k, E.numap mp.DL_PROC a k = true) (hn : mp.DL_COUNT = (n : Int))
    (hfit : 2 * seg_start (user_iovec K s.io mp.DL_PROC mp.DL_ADDR) n < K.UINT_MOD) :
    (∃ (wi tmp : iovec_dat) (b : Nat),
      do_vwrite_size K E mp true s =
        Res.ok (seg_start (user_iovec K s.io mp.DL_PROC mp.DL_ADDR) n : Int)
          { dep := { s.dep with de_write_iovec := wi, de_tmp_iovec := tmp }, io := s.io } ∧
      wi.iod_iovec_s = (n : Int) ∧ wi.iod_iovec_addr = mp.DL_ADDR ∧
      wi.iod_proc_nr = mp.DL_PROC ∧
      (∀ i, i < K.IOVEC_NR → i < n → wi.at i = user_iovec K s.io mp.DL_PROC mp.DL_ADDR i) ∧
      Batch K (user_iovec K s.io mp.DL_PROC mp.DL_ADDR) n mp.DL_PROC mp.DL_ADDR 0 wi ∧
      Batch K (user_iovec K s.io mp.DL_PROC mp.DL_ADDR) n mp.DL_PROC mp.DL_ADDR b tmp) ∧
    (∃ (ri tmp : iovec_dat) (b : Nat),
      do_vread_size K E mp true s =
        Res.ok (seg_start (user_iovec K s.io mp.DL_PROC mp.DL_ADDR) n : Int)
          { dep := { s.dep with de_read_iovec := ri, de_tmp_iovec := tmp }, io := s.io } ∧
      ri.iod_iovec_s = (n : Int) ∧ ri.iod_iovec_addr = mp.DL_ADDR ∧
      ri.iod_proc_nr = mp.DL_PROC ∧
      (∀ i, i < K.IOVEC_NR → i < n → ri.at i = user_iovec K s.io mp.DL_PROC mp.DL_ADDR i) ∧
      Batch K (user_iovec K s.io mp.DL_PROC mp.DL_ADDR) n mp.DL_PROC mp.DL_ADDR 0 ri ∧
      Batch K (user_iovec K s.io mp.DL_PROC mp.DL_ADDR) n mp.DL_PROC mp.DL_ADDR b tmp) ∧
    (∀ iovp : iovec_dat,
      Batch K (user_iovec K s.io mp.DL_PROC mp.DL_ADDR) n mp.DL_PROC mp.DL_ADDR 0 iovp →
      ∃ (b : Nat) (tmp : iovec_dat),
        calc_iovec_size K E iovp s.io =
          Res.ok ((seg_start (user_iovec K s.io mp.DL_PROC mp.DL_ADDR) n : Int), tmp) s.io ∧
        Batch K (user_iovec K s.io mp.DL_PROC mp.DL_ADDR) n mp.DL_PROC mp.DL_ADDR b tmp) := by
  refine ⟨?_, ?_, ?_⟩
  · obtain ⟨wi, tmp, b, h1, h2, h3⟩ := do_vwrite_size_sum (s := s) hN hS hNS hmap hn hfit
    refine ⟨wi, tmp, b, h1, ?_, ?_, h2.proc, ?_, h2, h3⟩
    · rw [h2.s]
      simp
    · rw [h2.addr]
      simp
    · intro i hi hin
      have := h2.win i hi (by omega)
      simpa using this
  · obtain ⟨ri, tmp, b, h1, h2, h3⟩ := do_vread_size_sum (s := s) hN hS hNS hmap hn hfit
    refine ⟨ri, tmp, b, h1, ?_, ?_, h2.proc, ?_, h2, h3⟩
    · rw [h2.s]
      simp
    · rw [h2.addr]
      simp
    · intro i hi hin
      have := h2.win i hi (by omega)
      simpa using this
  · intro iovp hB
    obtain ⟨b1, tmp, hB1, hc⟩ := calc_iovec_size_sum hN hS hNS hmap (fun _ _ _ => rfl) hfit hB
    exact ⟨b1, tmp, hc, hB1⟩

set_option maxRecDepth 100000 in
/-- The statement at work on a list of 18 segments, two more than a batch, one
of them empty: the size `do_vwrite` computes is 1360, and the write
descriptor keeps `iod_iovec_s = 18` and the address of the list. -/
theorem calc_iovec_size_total_witness :
    seg_start (user_iovec hdr sys_list.io msg_list.DL_PROC msg_list.DL_ADDR) 18 = 1360 ∧
    ∃ (wi tmp : iovec_dat),
      do_vwrite_size hdr env0 msg_list true sys_list =
        Res.ok (seg_start (user_iovec hdr sys_list.io msg_list.DL_PROC msg_list.DL_ADDR) 18 : Int)
          { dep := { sys_list.dep with de_write_iovec := wi, de_tmp_iovec := tmp },
            io := sys_list.io } ∧
      wi.iod_iovec_s = 18 ∧ wi.iod_iovec_addr = 4000 :=
  ⟨by decide,
   (calc_iovec_size_total hdr env0 msg_list sys_list 18 (by decide) (by decide) (by decide)
      (fun _ _ => rfl) rfl (by decide)).1.elim fun wi h => h.elim fun tmp h => h.elim fun _ h =>
        ⟨wi, tmp, h.1, h.2.1, h.2.2.1⟩⟩

/-! ### The transfer loops over a scatter list -/

theorem getD_map_range (f : Nat → Nat) (m i : Nat) (h : i < m) :
    ((List.range m).map f).getD i 0 = f i := by
  simp [List.getD_eq_getElem?_getD, h]

theorem scatter_chunk (proc : Int) (adr src : Nat → Nat) (u : Int → Nat → Nat)
    (done base : Nat) :
    ∀ m, (∀ j, j < m → adr (done + j) = base + j) →
      (fun p x => if p = proc ∧ base ≤ x ∧ x < base + m then
          ((List.range m).map (fun j => src (done + j))).getD (x - base) 0
        else scatter proc adr src done u p x) = scatter proc adr src (done + m) u := by
  intro m
  induction m with
  | zero =>
    intro _
    funext p x
    rw [if_neg (by omega)]
    rfl
  | succ m ih =>
    intro h
    have ih' := ih (fun j hj => h j (by omega))
    funext p x
    have hS : scatter proc adr src (done + m) u p x =
        if p = proc ∧ base ≤ x ∧ x < base + m then
          ((List.range m).map (fun j => src (done + j))).getD (x - base) 0
        else scatter proc adr src done u p x := (congrFun (congrFun ih' p) x).symm
    show _ = if p = proc ∧ x = adr (done + m) then src (done + m)
      else scatter proc adr src (done + m) u p x
    rw [hS, h m (by omega)]
    by_cases hp : p = proc
    · by_cases hx : x = base + m
      · have a1 : p = proc ∧ base ≤ x ∧ x < base + (m + 1) := ⟨hp, by omega, by omega⟩
        have a2 : p = proc ∧ x = base + m := ⟨hp, hx⟩
        rw [if_pos a1, if_pos a2, getD_map_range _ _ _ (by omega)]
        congr 1
        omega
      · have a2 : ¬ (p = proc ∧ x = base + m) := fun hc => hx hc.2
        rw [if_neg a2]
        by_cases hin : base ≤ x ∧ x < base + m
        · have a1 : p = proc ∧ base ≤ x ∧ x < base + (m + 1) := ⟨hp, by omega, by omega⟩
          have a3 : p = proc ∧ base ≤ x ∧ x < base + m := ⟨hp, hin.1, hin.2⟩
          rw [if_pos a1, if_pos a3, getD_map_range _ _ _ (by omega),
            getD_map_range _ _ _ (by omega)]
        · have a1 : ¬ (p = proc ∧ base ≤ x ∧ x < base + (m + 1)) :=
            fun hc => hin ⟨hc.2.1, by omega⟩
          have a3 : ¬ (p = proc ∧ base ≤ x ∧ x < base + m) := fun hc => hin hc.2
          rw [if_neg a1, if_neg a3]
    · have a1 : ¬ (p = proc ∧ base ≤ x ∧ x < base + (m + 1)) := fun hc => hp hc.1
      have a2 : ¬ (p = proc ∧ x = base + m) := fun hc => hp hc.1
      have a3 : ¬ (p = proc ∧ base ≤ x ∧ x < base + m) := fun hc => hp hc.1
      rw [if_neg a1, if_neg a2, if_neg a3]

theorem store_user_scatter (io0 : Io) (proc : Int) (adr : Nat → Nat) (nic done bytes ua : Nat)
    (h : ∀ j, j < bytes → adr (done + j) = ua + j) :
    store_user proc ua (card_bytes (nic2user_io io0 proc adr nic done) (nic + done) bytes)
      (nic2user_io io0 proc adr nic done) = nic2user_io io0 proc adr nic (done + bytes) := by
  unfold store_user card_bytes nic2user_io
  simp only [List.length_map, List.length_range]
  have := scatter_chunk proc adr (fun j => io0.mem (nic + j)) io0.ubyte done ua bytes h
  rw [← this]
  simp only [Nat.add_assoc]

/-- The loop of `dp_nic2user` from a position inside a scatter list: `done`
bytes have been stored, `c` are left, the walk is at segment `i` of batch `b`
with the local `offset` at `off`. -/
theorem dp_nic2user_loop_spec {K : Hdr} {E : Env} {proc : Int} {addr n : Nat} {io0 : Io}
    {seg : Nat → iovec} {nic offset0 count0 : Nat}
    (hN : 0 < K.IOVEC_NR) (hS : 0 < K.SIZEOF_IOVEC) (hNS : K.IOVEC_NR * K.SIZEOF_IOVEC < K.UINT_MOD)
    (hmap : ∀ a k, E.numap proc a k = true)
    (hseg : ∀ j, K.IOVEC_NR ≤ j → j < n →
      io0.uiov proc (addr + j * K.SIZEOF_IOVEC) = seg j)
    (hle : offset0 + count0 ≤ seg_start seg n) :
    ∀ (fuel b i off c done : Nat) (iovp : iovec_dat),
      Batch K seg n proc addr b iovp → i ≤ K.IOVEC_NR → b * K.IOVEC_NR + i ≤ n →
      done + c = count0 → seg_start seg (b * K.IOVEC_NR + i) + off = offset0 + done →
      c + 2 * (n - (b * K.IOVEC_NR + i)) + (if i < K.IOVEC_NR then 0 else 1) + 1 ≤ fuel →
      ∃ b1 iovp1, Batch K seg n proc addr b1 iovp1 ∧
        EndBatch K seg n b c (offset0 + count0) b1 ∧
        dp_nic2user_loop K E fuel iovp i off (nic + done) c
          (nic2user_io io0 proc (fun j => seg_addr seg n 0 (offset0 + j)) nic done)
        = Res.ok iovp1
          (nic2user_io io0 proc (fun j => seg_addr seg n 0 (offset0 + j)) nic count0) := by
  intro fuel
  induction fuel with
  | zero =>
    intro b i off c done iovp hB hi hpos hdc hoff hfuel
    omega
  | succ fuel ih =>
    intro b i off c done iovp hB hi hpos hdc hoff hfuel
    unfold dp_nic2user_loop
    by_cases hc : c > 0
    · rw [if_pos hc]
      have hlt : b * K.IOVEC_NR + i < n := by
        by_contra hge
        have : b * K.IOVEC_NR + i = n := by omega
        rw [this] at hoff
        omega
      by_cases hiN : i ≥ K.IOVEC_NR
      · have hiN' : i = K.IOVEC_NR := by omega
        subst hiN'
        rw [if_pos hiN]
        obtain ⟨iovp1, h1, hB1⟩ := @dp_next_iovec_batch K E proc addr n b
          (nic2user_io io0 proc (fun j => seg_addr seg n 0 (offset0 + j)) nic done)
          seg iovp hS hNS hmap hseg hB hlt
        rw [h1]
        dsimp only
        have hpos1 : (b + 1) * K.IOVEC_NR + 0 = b * K.IOVEC_NR + K.IOVEC_NR := by ring
        obtain ⟨b1, iovp2, hB2, hb2, h2⟩ := ih (b + 1) 0 off c done iovp1 hB1 (by omega)
          (by rw [hpos1]; omega) hdc (by rw [hpos1]; exact hoff) (by
            rw [hpos1]
            rw [if_neg (by omega)] at hfuel
            rw [if_pos hN]
            omega)
        refine ⟨b1, iovp2, hB2, ⟨?_, fun h0 => absurd h0 (by omega), hb2.2.2⟩, h2⟩
        right
        rcases hb2.1 with rfl | hb2
        · rw [Nat.add_mul, Nat.one_mul]
          exact hlt
        · exact hb2
      · rw [if_neg hiN]
        have hc2 : (i : Int) < iovp.iod_iovec_s := by
          rw [hB.s]
          omega
        rw [if_neg (by simpa using hc2)]
        have hat : iovp.at i = seg (b * K.IOVEC_NR + i) := hB.win i (by omega) hlt
        rw [if_pos (by omega)] at hfuel
        by_cases hsk : off ≥ (iovp.at i).iov_size
        · rw [if_pos hsk]
          obtain ⟨b1, iovp2, hB2, hb2, h2⟩ := ih b (i + 1) (off - (iovp.at i).iov_size) c done
            iovp hB (by omega) (by omega) hdc (by
              rw [← Nat.add_assoc, seg_start_succ, ← hat]
              omega) (by split <;> omega)
          exact ⟨b1, iovp2, hB2, hb2, h2⟩
        · rw [if_neg hsk]
          dsimp only
          rw [hB.proc, hmap, if_pos rfl]
          have hbytes : 0 < min ((iovp.at i).iov_size - off) c := by
            rw [Nat.lt_min]
            omega
          have hble : min ((iovp.at i).iov_size - off) c ≤ c := Nat.min_le_right _ _
          have hbsz : off + min ((iovp.at i).iov_size - off) c ≤ (iovp.at i).iov_size := by
            have := Nat.min_le_left ((iovp.at i).iov_size - off) c
            omega
          have hadr : ∀ j, j < min ((iovp.at i).iov_size - off) c →
              seg_addr seg n 0 (offset0 + (done + j)) = (iovp.at i).iov_addr + off + j := by
            intro j hj
            rw [hat, Nat.add_assoc]
            refine seg_addr_at seg n 0 _ (b * K.IOVEC_NR + i) (off + j) (by omega) (by omega)
              ?_ ?_
            · rw [seg_start_zero]
              omega
            · rw [← hat]
              omega
          rw [store_user_scatter io0 proc _ nic done _ _ hadr, Nat.add_assoc]
          obtain ⟨b1, iovp2, hB2, hb2, h2⟩ := ih b i (off + min ((iovp.at i).iov_size - off) c)
            (c - min ((iovp.at i).iov_size - off) c)
            (done + min ((iovp.at i).iov_size - off) c) iovp hB hi hpos (by omega) (by omega)
            (by rw [if_pos (by omega)]; omega)
          refine ⟨b1, iovp2, hB2, ⟨hb2.1, fun h0 => absurd h0 (by omega), fun _ => ?_⟩, h2⟩
          by_cases hc0 : c - min ((iovp.at i).iov_size - off) c = 0
          · have hb1 : b1 = b := hb2.2.1 hc0
            subst hb1
            refine ⟨b1 * K.IOVEC_NR + i, hlt,
              Nat.div_eq_of_lt_le (Nat.le_add_right _ _) (by
                rw [Nat.succ_mul]
                omega), ?_, ?_⟩
            · omega
            · rw [seg_start_succ, ← hat]
              have := Nat.min_le_left ((iovp.at i).iov_size - off) c
              omega
          · exact hb2.2.2 (by omega)
    · rw [if_neg hc]
      have hd : done = count0 := by omega
      subst hd
      exact ⟨b, iovp, hB, ⟨Or.inl rfl, fun _ => rfl, fun h0 => absurd h0 hc⟩, rfl⟩

theorem store_card_gather (io0 : Io) (proc : Int) (adr : Nat → Nat) (nic done bytes ua : Nat)
    (h : ∀ j, j < bytes → adr (done + j) = ua + j) :
    store_card (nic + done) (user_bytes (user2nic_io io0 proc adr nic done) proc ua bytes)
      (user2nic_io io0 proc adr nic done) = user2nic_io io0 proc adr nic (done + bytes) := by
  unfold user2nic_io user_bytes store_card
  simp only [List.length_map, List.length_range]
  congr 1
  funext x
  by_cases h1 : nic + done ≤ x ∧ x < nic + done + bytes
  · have a1 : nic ≤ x ∧ x < nic + (done + bytes) := ⟨by omega, by omega⟩
    rw [if_pos h1, if_pos a1, getD_map_range _ _ _ (by omega),
      getD_map_range _ _ _ (by omega)]
    have e : x - nic = done + (x - (nic + done)) := by omega
    rw [e, h _ (by omega)]
  · rw [if_neg h1]
    by_cases h2 : nic ≤ x ∧ x < nic + done
    · have a1 : nic ≤ x ∧ x < nic + (done + bytes) := ⟨by omega, by omega⟩
      rw [if_pos h2, if_pos a1, getD_map_range _ _ _ (by omega),
        getD_map_range _ _ _ (by omega)]
    · have a1 : ¬ (nic ≤ x ∧ x < nic + (done + bytes)) := by omega
      rw [if_neg h2, if_neg a1]

/-- The loop of `dp_user2nic` from a position inside a scatter list: `done`
bytes have been stored on the card, `c` are left, the walk is at segment `i`
of batch `b` with the local `offset` at `off`. -/
theorem dp_user2nic_loop_spec {K : Hdr} {E : Env} {proc : Int} {addr n : Nat} {io0 : Io}
    {seg : Nat → iovec} {nic offset0 count0 : Nat}
    (hN : 0 < K.IOVEC_NR) (hS : 0 < K.SIZEOF_IOVEC)
    (hNS : K.IOVEC_NR * K.SIZEOF_IOVEC < K.UINT_MOD)
    (hmap : ∀ a k, E.numap proc a k = true)
    (hseg : ∀ j, K.IOVEC_NR ≤ j → j < n →
      io0.uiov proc (addr + j * K.SIZEOF_IOVEC) = seg j)
    (hle : offset0 + count0 ≤ seg_start seg n) :
    ∀ (fuel b i off c done : Nat) (iovp : iovec_dat),
      Batch K seg n proc addr b iovp → i ≤ K.IOVEC_NR → b * K.IOVEC_NR + i ≤ n →
      done + c = count0 → seg_start seg (b * K.IOVEC_NR + i) + off = offset0 + done →
      c + 2 * (n - (b * K.IOVEC_NR + i)) + (if i < K.IOVEC_NR then 0 else 1) + 1 ≤ fuel →
      ∃ b1 iovp1, Batch K seg n proc addr b1 iovp1 ∧
        EndBatch K seg n b c (offset0 + count0) b1 ∧
        dp_user2nic_loop K E fuel iovp i off (nic + done) c
          (user2nic_io io0 proc (fun j => seg_addr seg n 0 (offset0 + j)) nic done)
        = Res.ok iovp1
          (user2nic_io io0 proc (fun j => seg_addr seg n 0 (offset0 + j)) nic count0) := by
  intro fuel
  induction fuel with
  | zero =>
    intro b i off c done iovp hB hi hpos hdc hoff hfuel
    omega
  | succ fuel ih =>
    intro b i off c done iovp hB hi hpos hdc hoff hfuel
    unfold dp_user2nic_loop
    by_cases hc : c > 0
    · rw [if_pos hc]
      have hlt : b * K.IOVEC_NR + i < n := by
        by_contra hge
        have : b * K.IOVEC_NR + i = n := by omega
        rw [this] at hoff
        omega
      by_cases hiN : i ≥ K.IOVEC_NR
      · have hiN' : i = K.IOVEC_NR := by omega
        subst hiN'
        rw [if_pos hiN]
        obtain ⟨iovp1, h1, hB1⟩ := @dp_next_iovec_batch K E proc addr n b
          (user2nic_io io0 proc (fun j => seg_addr seg n 0 (offset0 + j)) nic done)
          seg iovp hS hNS hmap hseg hB hlt
        rw [h1]
        dsimp only
        have hpos1 : (b + 1) * K.IOVEC_NR + 0 = b * K.IOVEC_NR + K.IOVEC_NR := by ring
        obtain ⟨b1, iovp2, hB2, hb2, h2⟩ := ih (b + 1) 0 off c done iovp1 hB1 (by omega)
          (by rw [hpos1]; omega) hdc (by rw [hpos1]; exact hoff) (by
            rw [hpos1]
            rw [if_neg (by omega)] at hfuel
            rw [if_pos hN]
            omega)
        refine ⟨b1, iovp2, hB2, ⟨?_, fun h0 => absurd h0 (by omega), hb2.2.2⟩, h2⟩
        right
        rcases hb2.1 with rfl | hb2
        · rw [Nat.add_mul, Nat.one_mul]
          exact hlt
        · exact hb2
      · rw [if_neg hiN]
        have hc2 : (i : Int) < iovp.iod_iovec_s := by
          rw [hB.s]
          omega
        rw [if_neg (by simpa using hc2)]
        have hat : iovp.at i = seg (b * K.IOVEC_NR + i) := hB.win i (by omega) hlt
        rw [if_pos (by omega)] at hfuel
        by_cases hsk : off ≥ (iovp.at i).iov_size
        · rw [if_pos hsk]
          obtain ⟨b1, iovp2, hB2, hb2, h2⟩ := ih b (i + 1) (off - (iovp.at i).iov_size) c done
            iovp hB (by omega) (by omega) hdc (by
              rw [← Nat.add_assoc, seg_start_succ, ← hat]
              omega) (by split <;> omega)
          exact ⟨b1, iovp2, hB2, hb2, h2⟩
        · rw [if_neg hsk]
          dsimp only
          rw [hB.proc, hmap, if_pos rfl]
          have hbytes : 0 < min ((iovp.at i).iov_size - off) c := by
            rw [Nat.lt_min]
            omega
          have hble : min ((iovp.at i).iov_size - off) c ≤ c := Nat.min_le_right _ _
          have hbsz : off + min ((iovp.at i).iov_size - off) c ≤ (iovp.at i).iov_size := by
            have := Nat.min_le_left ((iovp.at i).iov_size - off) c
            omega
          have hadr : ∀ j, j < min ((iovp.at i).iov_size - off) c →
              seg_addr seg n 0 (offset0 + (done + j)) = (iovp.at i).iov_addr + off + j := by
            intro j hj
            rw [hat, Nat.add_assoc]
            refine seg_addr_at seg n 0 _ (b * K.IOVEC_NR + i) (off + j) (by omega) (by omega)
              ?_ ?_
            · rw [seg_start_zero]
              omega
            · rw [← hat]
              omega
          rw [store_card_gather io0 proc _ nic done _ _ hadr, Nat.add_assoc]
          obtain ⟨b1, iovp2, hB2, hb2, h2⟩ := ih b i (off + min ((iovp.at i).iov_size - off) c)
            (c - min ((iovp.at i).iov_size - off) c)
            (done + min ((iovp.at i).iov_size - off) c) iovp hB hi hpos (by omega) (by omega)
            (by rw [if_pos (by omega)]; omega)
          refine ⟨b1, iovp2, hB2, ⟨hb2.1, fun h0 => absurd h0 (by omega), fun _ => ?_⟩, h2⟩
          by_cases hc0 : c - min ((iovp.at i).iov_size - off) c = 0
          · have hb1 : b1 = b := hb2.2.1 hc0
            subst hb1
            refine ⟨b1 * K.IOVEC_NR + i, hlt,
              Nat.div_eq_of_lt_le (Nat.le_add_right _ _) (by
                rw [Nat.succ_mul]
                omega), ?_, ?_⟩
            · omega
            · rw [seg_start_succ, ← hat]
              have := Nat.min_le_left ((iovp.at i).iov_size - off) c
              omega
          · exact hb2.2.2 (by omega)
    · rw [if_neg hc]
      have hd : done = count0 := by omega
      subst hd
      exact ⟨b, iovp, hB, ⟨Or.inl rfl, fun _ => rfl, fun h0 => absurd h0 hc⟩, rfl⟩

/-! ### The transfer functions over a scatter list -/

theorem scatter_outside (proc : Int) (adr src : Nat → Nat) (u : Int → Nat → Nat) (p : Int)
    (x : Nat) :
    ∀ k, (∀ j, j < k → ¬ (p = proc ∧ x = adr j)) → scatter proc adr src k u p x = u p x := by
  intro k
  induction k with
  | zero => intro _; rfl
  | succ k ih =>
    intro h
    show (if p = proc ∧ x = adr k then src k else scatter proc adr src k u p x) = u p x
    rw [if_neg (h k (by omega))]
    exact ih (fun j hj => h j (by omega))

theorem scatter_at (proc : Int) (adr src : Nat → Nat) (u : Int → Nat → Nat) (j : Nat) :
    ∀ k, j < k → (∀ j', j < j' → j' < k → adr j' ≠ adr j) →
      scatter proc adr src k u proc (adr j) = src j := by
  intro k
  induction k with
  | zero => intro h; omega
  | succ k ih =>
    intro hj h
    show (if proc = proc ∧ adr j = adr k then src k else scatter proc adr src k u proc (adr j))
      = src j
    by_cases hk : j = k
    · subst hk
      rw [if_pos ⟨rfl, rfl⟩]
    · have hne : adr k ≠ adr j := h k (by omega) (by omega)
      rw [if_neg (fun hc => hne hc.2.symm)]
      exact ih (by omega) (fun j' h1 h2 => h j' h1 (by omega))

theorem user2nic_io_mem (io : Io) (proc : Int) (adr : Nat → Nat) (nic k : Nat) :
    (∀ j, j < k → (user2nic_io io proc adr nic k).mem (nic + j) = io.ubyte proc (adr j)) ∧
    (∀ x, x < nic ∨ nic + k ≤ x → (user2nic_io io proc adr nic k).mem x = io.mem x) := by
  unfold user2nic_io store_card
  simp only [List.length_map, List.length_range]
  constructor
  · intro j hj
    have a1 : nic ≤ nic + j ∧ nic + j < nic + k := ⟨by omega, by omega⟩
    rw [if_pos a1, getD_map_range _ _ _ (by omega)]
    congr 2
    omega
  · intro x hx
    have a1 : ¬ (nic ≤ x ∧ x < nic + k) := by omega
    rw [if_neg a1]

theorem user2nic_io_zero (io : Io) (proc : Int) (adr : Nat → Nat) (nic : Nat) :
    user2nic_io io proc adr nic 0 = io := by
  unfold user2nic_io store_card
  simp only [List.range_zero, List.map_nil, List.length_nil, Nat.add_zero]
  have : (fun x => if nic ≤ x ∧ x < nic then ([] : List Nat).getD (x - nic) 0 else io.mem x)
      = io.mem := by
    funext x
    rw [if_neg (by omega)]
  rw [this]

theorem dp_nic2user_seg {K : Hdr} {E : Env} {proc : Int} {addr n : Nat} {io : Io}
    {seg : Nat → iovec} {iovp : iovec_dat} {nic offset count : Nat}
    (hN : 0 < K.IOVEC_NR) (hS : 0 < K.SIZEOF_IOVEC)
    (hNS : K.IOVEC_NR * K.SIZEOF_IOVEC < K.UINT_MOD)
    (hmap : ∀ a k, E.numap proc a k = true)
    (hseg : ∀ j, K.IOVEC_NR ≤ j → j < n → io.uiov proc (addr + j * K.SIZEOF_IOVEC) = seg j)
    (hB : Batch K seg n proc addr 0 iovp)
    (hle : offset + count ≤ seg_start seg n) :
    ∃ b iovp1, Batch K seg n proc addr b iovp1 ∧
      EndBatch K seg n 0 count (offset + count) b ∧
      dp_nic2user K E nic iovp offset count io = Res.ok iovp1
        (nic2user_io io proc (fun j => seg_addr seg n 0 (offset + j)) nic count) := by
  have hs : iovp.iod_iovec_s.toNat = n := by
    rw [hB.s]
    simp
  unfold dp_nic2user
  rw [hs]
  exact dp_nic2user_loop_spec hN hS hNS hmap hseg hle (count + 2 * n + 2) 0 0 offset
    count 0 iovp hB (by omega) (by omega) (by omega)
    (by rw [Nat.zero_mul, Nat.add_zero, seg_start_zero]; omega)
    (by rw [if_pos hN]; omega)

theorem dp_nic2user_spec {K : Hdr} {E : Env} {proc : Int} {addr n : Nat} {io : Io}
    {iovp : iovec_dat} {nic offset count : Nat}
    (hN : 0 < K.IOVEC_NR) (hS : 0 < K.SIZEOF_IOVEC)
    (hNS : K.IOVEC_NR * K.SIZEOF_IOVEC < K.UINT_MOD)
    (hmap : ∀ a k, E.numap proc a k = true)
    (hB : Batch K (user_iovec K io proc addr) n proc addr 0 iovp)
    (hle : offset + count ≤ seg_start (user_iovec K io proc addr) n) :
    ∃ b iovp1, Batch K (user_iovec K io proc addr) n proc addr b iovp1 ∧
      EndBatch K (user_iovec K io proc addr) n 0 count (offset + count) b ∧
      dp_nic2user K E nic iovp offset count io = Res.ok iovp1
        (nic2user_io io proc (fun j => seg_addr (user_iovec K io proc addr) n 0 (offset + j))
          nic count) :=
  dp_nic2user_seg hN hS hNS hmap (fun _ _ _ => rfl) hB hle

theorem dp_user2nic_seg {K : Hdr} {E : Env} {proc : Int} {addr n : Nat} {io : Io}
    {seg : Nat → iovec} {iovp : iovec_dat} {nic offset count : Nat}
    (hN : 0 < K.IOVEC_NR) (hS : 0 < K.SIZEOF_IOVEC)
    (hNS : K.IOVEC_NR * K.SIZEOF_IOVEC < K.UINT_MOD)
    (hmap : ∀ a k, E.numap proc a k = true)
    (hseg : ∀ j, K.IOVEC_NR ≤ j → j < n → io.uiov proc (addr + j * K.SIZEOF_IOVEC) = seg j)
    (hB : Batch K seg n proc addr 0 iovp)
    (hle : offset + count ≤ seg_start seg n) :
    ∃ b iovp1, Batch K seg n proc addr b iovp1 ∧
      EndBatch K seg n 0 count (offset + count) b ∧
      dp_user2nic K E iovp offset nic count io = Res.ok iovp1
        (user2nic_io io proc (fun j => seg_addr seg n 0 (offset + j)) nic count) := by
  have hs : iovp.iod_iovec_s.toNat = n := by
    rw [hB.s]
    simp
  unfold dp_user2nic
  rw [hs]
  have h := @dp_user2nic_loop_spec K E proc addr n io seg nic offset
    count hN hS hNS hmap hseg hle (count + 2 * n + 2) 0 0 offset
    count 0 iovp hB (by omega) (by omega) (by omega)
    (by rw [Nat.zero_mul, Nat.add_zero, seg_start_zero]; omega)
    (by rw [if_pos hN]; omega)
  rw [user2nic_io_zero] at h
  exact h

theorem dp_user2nic_spec {K : Hdr} {E : Env} {proc : Int} {addr n : Nat} {io : Io}
    {iovp : iovec_dat} {nic offset count : Nat}
    (hN : 0 < K.IOVEC_NR) (hS : 0 < K.SIZEOF_IOVEC)
    (hNS : K.IOVEC_NR * K.SIZEOF_IOVEC < K.UINT_MOD)
    (hmap : ∀ a k, E.numap proc a k = true)
    (hB : Batch K (user_iovec K io proc addr) n proc addr 0 iovp)
    (hle : offset + count ≤ seg_start (user_iovec K io proc addr) n) :
    ∃ b iovp1, Batch K (user_iovec K io proc addr) n proc addr b iovp1 ∧
      EndBatch K (user_iovec K io proc addr) n 0 count (offset + count) b ∧
      dp_user2nic K E iovp offset nic count io = Res.ok iovp1
        (user2nic_io io proc (fun j => seg_addr (user_iovec K io proc addr) n 0 (offset + j))
          nic count) :=
  dp_user2nic_seg hN hS hNS hmap (fun _ _ _ => rfl) hB hle

theorem seg_addr_ge (seg : Nat → iovec) (lo : Nat) :
    ∀ (m k p : Nat), (∀ j, k ≤ j → j < k + m → lo ≤ (seg j).iov_addr) →
      p + seg_start seg k < seg_start seg (k + m) → lo ≤ seg_addr seg m k p := by
  intro m
  induction m with
  | zero =>
    intro k p _ h
    rw [Nat.add_zero] at h
    omega
  | succ m ih =>
    intro k p hlo h
    unfold seg_addr
    split
    · exact Nat.le_trans (hlo k (Nat.le_refl _) (by omega)) (Nat.le_add_right _ _)
    · rename_i hge
      refine ih (k + 1) (p - (seg k).iov_size) (fun j h1 h2 => hlo j (by omega) (by omega)) ?_
      rw [seg_start_succ]
      have : k + 1 + m = k + (m + 1) := by omega
      rw [this]
      omega

set_option maxRecDepth 100000 in
theorem list_apart_sys_list (io : Io) (hio : io.uiov = sys_list.io.uiov) (offset count : Nat)
    (h : offset + count ≤ 1360) :
    ListApart hdr (user_iovec hdr io 7 4000) 18 4000 offset count := by
  intro j hj k hk1 hk2
  right
  have hge : 10000 ≤ seg_addr (user_iovec hdr io 7 4000) 18 0 (offset + j) := by
    refine seg_addr_ge _ 10000 18 0 _ ?_ ?_
    · intro i _ hi
      unfold user_iovec
      rw [hio]
      have hi' : i < 18 := by omega
      interval_cases i <;> decide
    · have hs : seg_start (user_iovec hdr io 7 4000) (0 + 18) = 1360 := by
        unfold user_iovec
        rw [hio]
        decide
      rw [hs, seg_start_zero]
      omega
  have h4 : hdr.SIZEOF_IOVEC = 4 := rfl
  rw [h4]
  omega

/-- C16: the shared-memory transfer functions over a scatter list.  Let the
descriptor stand at batch 0 of a list of `n` segments of process `proc` at
`addr` (the window holds the first batch), let every range of that process
resolve and a batch fit the type `vir_bytes`, let `count` be in the range of
`int` (the type of the local `bytes`, which holds the length of a chunk), and
let `offset + count` be at most the total size of the list.  Write `adr j` for
the client address of byte `offset + j` of the concatenation of the segments.
If none of the addresses `adr j` lies in the memory that holds the segments
fetched after the first batch (`ListApart`: the bytes stored do not overwrite
the part of the list that is still to be read), then `dp_nic2user`
returns (the loop ends with `count = 0`, no assertion fails), and the outside
afterwards is the one before with the card bytes `nic_addr + j`, `j < count`,
stored in this order at the addresses `adr j` (`nic2user_io`): no byte of
client memory outside these addresses changes, and byte `adr j` holds the
card byte `nic_addr + j` unless a later byte of the transfer went to the same
address.  `dp_user2nic` returns too, and the outside afterwards is the one
before with the client bytes at `adr j`, `j < count`, stored at the card
offsets `nic_addr + j` (`user2nic_io`), the rest of the card memory
unchanged.  Both leave the descriptor at the batch `b` the walk ended in.
This holds across segment boundaries, batch refetches and empty segments. -/
theorem transfer_across_segments (K : Hdr) (E : Env) (proc : Int) (addr n : Nat) (io : Io)
    (iovp : iovec_dat) (offset nic_addr count : Nat)
    (hN : 0 < K.IOVEC_NR) (hS : 0 < K.SIZEOF_IOVEC)
    (hNS : K.IOVEC_NR * K.SIZEOF_IOVEC < K.UINT_MOD)
    (hmap : ∀ a k, E.numap proc a k = true)
    (hB : Batch K (user_iovec K io proc addr) n proc addr 0 iovp)
    (hc : 2 * count < K.UINT_MOD)
    (hle : offset + count ≤ seg_start (user_iovec K io proc addr) n) :
    (ListApart K (user_iovec K io proc addr) n addr offset count →
      ∃ b iovp1, Batch K (user_iovec K io proc addr) n proc addr b iovp1 ∧
      dp_nic2user K E nic_addr iovp offset count io = Res.ok iovp1
        (nic2user_io io proc (fun j => seg_addr (user_iovec K io proc addr) n 0 (offset + j))
          nic_addr count)) ∧
    (∀ (p : Int) (x : Nat),
      (∀ j, j < count →
        ¬ (p = proc ∧ x = seg_addr (user_iovec K io proc addr) n 0 (offset + j))) →
      (nic2user_io io proc (fun j => seg_addr (user_iovec K io proc addr) n 0 (offset + j))
        nic_addr count).ubyte p x = io.ubyte p x) ∧
    (∀ j, j < count →
      (∀ j', j < j' → j' < count →
        seg_addr (user_iovec K io proc addr) n 0 (offset + j') ≠
          seg_addr (user_iovec K io proc addr) n 0 (offset + j)) →
      (nic2user_io io proc (fun j => seg_addr (user_iovec K io proc addr) n 0 (offset + j))
        nic_addr count).ubyte proc (seg_addr (user_iovec K io proc addr) n 0 (offset + j))
        = io.mem (nic_addr + j)) ∧
    (∃ b iovp1, Batch K (user_iovec K io proc addr) n proc addr b iovp1 ∧
      dp_user2nic K E iovp offset nic_addr count io = Res.ok iovp1
        (user2nic_io io proc (fun j => seg_addr (user_iovec K io proc addr) n 0 (offset + j))
          nic_addr count)) ∧
    (∀ j, j < count →
      (user2nic_io io proc (fun j => seg_addr (user_iovec K io proc addr) n 0 (offset + j))
        nic_addr count).mem (nic_addr + j)
        = io.ubyte proc (seg_addr (user_iovec K io proc addr) n 0 (offset + j))) ∧
    (∀ x, x < nic_addr ∨ nic_addr + count ≤ x →
      (user2nic_io io proc (fun j => seg_addr (user_iovec K io proc addr) n 0 (offset + j))
        nic_addr count).mem x = io.mem x) := by
  have _ := hc
  refine ⟨?_, ?_, ?_, ?_, ?_, ?_⟩
  · intro _
    obtain ⟨b, iovp1, h1, -, h2⟩ := @dp_nic2user_spec K E proc addr n io iovp nic_addr offset
      count hN hS hNS hmap hB hle
    exact ⟨b, iovp1, h1, h2⟩
  · intro p x h
    exact scatter_outside proc _ _ io.ubyte p x count h
  · intro j hj h
    exact scatter_at proc (fun j => seg_addr (user_iovec K io proc addr) n 0 (offset + j))
      (fun j => io.mem (nic_addr + j)) io.ubyte j count hj h
  · obtain ⟨b, iovp1, h1, -, h2⟩ := @dp_user2nic_spec K E proc addr n io iovp nic_addr offset
      count hN hS hNS hmap hB hle
    exact ⟨b, iovp1, h1, h2⟩
  · exact (user2nic_io_mem io proc _ nic_addr count).1
  · exact (user2nic_io_mem io proc _ nic_addr count).2

set_option maxRecDepth 100000 in
/-- The statement at work on the list of 18 segments of `sys_list`, of which
segment 3 is empty: 1100 bytes from offset 200 of the list, which start in
segment 2 and end in segment 17, in the second batch.  Byte 200 of the list is
at address 10240 and byte 1299 at address 11719; the list itself is at the
addresses 4000 to 4071. -/
theorem transfer_across_segments_witness :
    seg_addr (user_iovec hdr sys_list.io 7 4000) 18 0 200 = 10240 ∧
    seg_addr (user_iovec hdr sys_list.io 7 4000) 18 0 1299 = 11719 ∧
    ListApart hdr (user_iovec hdr sys_list.io 7 4000) 18 4000 200 1100 ∧
    ∃ iovp, Batch hdr (user_iovec hdr sys_list.io 7 4000) 18 7 4000 0 iovp ∧
      (∃ b iovp1, Batch hdr (user_iovec hdr sys_list.io 7 4000) 18 7 4000 b iovp1 ∧
        dp_nic2user hdr env0 3072 iovp 200 1100 sys_list.io = Res.ok iovp1
          (nic2user_io sys_list.io 7
            (fun j => seg_addr (user_iovec hdr sys_list.io 7 4000) 18 0 (200 + j)) 3072 1100)) ∧
      (∃ b iovp1, Batch hdr (user_iovec hdr sys_list.io 7 4000) 18 7 4000 b iovp1 ∧
        dp_user2nic hdr env0 iovp 200 3072 1100 sys_list.io = Res.ok iovp1
          (user2nic_io sys_list.io 7
            (fun j => seg_addr (user_iovec hdr sys_list.io 7 4000) 18 0 (200 + j)) 3072 1100)) :=
  ⟨by decide, by decide, list_apart_sys_list sys_list.io rfl 200 1100 (by decide),
   (@get_userdata_batch hdr env0 7 4000 18 sys_list.io [] (by decide) (by decide)
      (fun _ _ => rfl)).elim fun w h =>
     ⟨_, h.2,
      (transfer_across_segments hdr env0 7 4000 18 sys_list.io _ 200 3072 1100 (by decide)
        (by decide) (by decide) (fun _ _ => rfl) h.2 (by decide) (by decide)).1
        (list_apart_sys_list sys_list.io rfl 200 1100 (by decide)),
      (transfer_across_segments hdr env0 7 4000 18 sys_list.io _ 200 3072 1100 (by decide)
        (by decide) (by decide) (fun _ _ => rfl) h.2 (by decide) (by decide)).2.2.2.1⟩⟩

theorem batch_left {K : Hdr} {seg : Nat → iovec} {n b : Nat} {proc : Int} {addr : Nat}
    {iovp : iovec_dat} (hB : Batch K seg n proc addr b iovp) (hn : 1 ≤ n)
    (hb : b = 0 ∨ b * K.IOVEC_NR < n) :
    b * K.IOVEC_NR < n ∧ iovp.iod_iovec_s = (n : Int) - ((b * K.IOVEC_NR : Nat) : Int) ∧
    1 ≤ iovp.iod_iovec_s := by
  have h1 : b * K.IOVEC_NR < n := by
    rcases hb with rfl | hb
    · rw [Nat.zero_mul]
      omega
    · exact hb
  refine ⟨h1, hB.s, ?_⟩
  rw [hB.s]
  omega

/-- C17 (amended): consuming the whole of a scatter list does not bring the
segment count of the descriptor to zero.  Let the descriptor stand at batch 0
of a list of `n ≥ 1` segments whose total size `T` fits the type `int`, every
range of the process resolve and a batch fit the type `vir_bytes`.
`calc_iovec_size` returns `T`.  `dp_user2nic`, called with offset 0 and the
count `T`, returns: the loop has ended with `count = 0` and all bytes are
moved.  The descriptor is then at the batch `b` in which the last byte lies:
for `T > 0`, `b = k / IOVEC_NR` for the segment `k` that holds byte `T - 1` of
the list (`seg_start k < T ≤ seg_start (k + 1)`), and `b = 0` for `T = 0`.
So `b * IOVEC_NR < n` and `iod_iovec_s = n - b * IOVEC_NR`, which is at least
1: the count only ever decreases by `IOVEC_NR` in `dp_next_iovec`, whose
assertion keeps it above zero.  The same holds of `dp_nic2user` when the
bytes it stores do not lie in the part of the list that is still to be read
(`ListApart`). -/
theorem cursor_round_trip (K : Hdr) (E : Env) (proc : Int) (addr n : Nat) (io : Io)
    (iovp : iovec_dat) (nic_addr : Nat)
    (hN : 0 < K.IOVEC_NR) (hS : 0 < K.SIZEOF_IOVEC)
    (hNS : K.IOVEC_NR * K.SIZEOF_IOVEC < K.UINT_MOD)
    (hmap : ∀ a k, E.numap proc a k = true)
    (hB : Batch K (user_iovec K io proc addr) n proc addr 0 iovp) (hn : 1 ≤ n)
    (hfit : 2 * seg_start (user_iovec K io proc addr) n < K.UINT_MOD) :
    (∃ tmp, calc_iovec_size K E iovp io =
      Res.ok ((seg_start (user_iovec K io proc addr) n : Int), tmp) io) ∧
    (∃ b iovp1,
      dp_user2nic K E iovp 0 nic_addr (seg_start (user_iovec K io proc addr) n) io =
        Res.ok iovp1
          (user2nic_io io proc (fun j => seg_addr (user_iovec K io proc addr) n 0 (0 + j))
            nic_addr (seg_start (user_iovec K io proc addr) n)) ∧
      Batch K (user_iovec K io proc addr) n proc addr b iovp1 ∧
      (seg_start (user_iovec K io proc addr) n = 0 → b = 0) ∧
      (0 < seg_start (user_iovec K io proc addr) n →
        ∃ k, k < n ∧ b = k / K.IOVEC_NR ∧
          seg_start (user_iovec K io proc addr) k < seg_start (user_iovec K io proc addr) n ∧
          seg_start (user_iovec K io proc addr) n ≤
            seg_start (user_iovec K io proc addr) (k + 1)) ∧
      b * K.IOVEC_NR < n ∧
      iovp1.iod_iovec_s = (n : Int) - ((b * K.IOVEC_NR : Nat) : Int) ∧
      1 ≤ iovp1.iod_iovec_s) ∧
    (ListApart K (user_iovec K io proc addr) n addr 0
        (seg_start (user_iovec K io proc addr) n) →
      ∃ b iovp1,
      dp_nic2user K E nic_addr iovp 0 (seg_start (user_iovec K io proc addr) n) io =
        Res.ok iovp1
          (nic2user_io io proc (fun j => seg_addr (user_iovec K io proc addr) n 0 (0 + j))
            nic_addr (seg_start (user_iovec K io proc addr) n)) ∧
      Batch K (user_iovec K io proc addr) n proc addr b iovp1 ∧
      (seg_start (user_iovec K io proc addr) n = 0 → b = 0) ∧
      (0 < seg_start (user_iovec K io proc addr) n →
        ∃ k, k < n ∧ b = k / K.IOVEC_NR ∧
          seg_start (user_iovec K io proc addr) k < seg_start (user_iovec K io proc addr) n ∧
          seg_start (user_iovec K io proc addr) n ≤
            seg_start (user_iovec K io proc addr) (k + 1)) ∧
      b * K.IOVEC_NR < n ∧
      iovp1.iod_iovec_s = (n : Int) - ((b * K.IOVEC_NR : Nat) : Int) ∧
      1 ≤ iovp1.iod_iovec_s) := by
  have hfin : ∀ {b : Nat} {iovp1 : iovec_dat},
      Batch K (user_iovec K io proc addr) n proc addr b iovp1 →
      EndBatch K (user_iovec K io proc addr) n 0 (seg_start (user_iovec K io proc addr) n)
        (0 + seg_start (user_iovec K io proc addr) n) b →
      (seg_start (user_iovec K io proc addr) n = 0 → b = 0) ∧
      (0 < seg_start (user_iovec K io proc addr) n →
        ∃ k, k < n ∧ b = k / K.IOVEC_NR ∧
          seg_start (user_iovec K io proc addr) k < seg_start (user_iovec K io proc addr) n ∧
          seg_start (user_iovec K io proc addr) n ≤
            seg_start (user_iovec K io proc addr) (k + 1)) ∧
      b * K.IOVEC_NR < n ∧
      iovp1.iod_iovec_s = (n : Int) - ((b * K.IOVEC_NR : Nat) : Int) ∧
      1 ≤ iovp1.iod_iovec_s := by
    intro b iovp1 h1 hb
    obtain ⟨h3, h4, h5⟩ := batch_left h1 hn hb.1
    refine ⟨hb.2.1, fun hpos => ?_, h3, h4, h5⟩
    obtain ⟨k, k1, k2, k3, k4⟩ := hb.2.2 hpos
    rw [Nat.zero_add] at k3 k4
    exact ⟨k, k1, k2.symm, k3, k4⟩
  refine ⟨?_, ?_, ?_⟩
  · obtain ⟨b1, tmp, -, hc⟩ := calc_iovec_size_sum hN hS hNS hmap
      (show ∀ j, K.IOVEC_NR ≤ j → j < n →
        io.uiov proc (addr + j * K.SIZEOF_IOVEC) = user_iovec K io proc addr j
        from fun _ _ _ => rfl) hfit hB
    exact ⟨tmp, hc⟩
  · obtain ⟨b, iovp1, h1, hb, h2⟩ := @dp_user2nic_spec K E proc addr n io iovp nic_addr 0
      (seg_start (user_iovec K io proc addr) n) hN hS hNS hmap hB (by omega)
    exact ⟨b, iovp1, h2, h1, hfin h1 hb⟩
  · intro _
    obtain ⟨b, iovp1, h1, hb, h2⟩ := @dp_nic2user_spec K E proc addr n io iovp nic_addr 0
      (seg_start (user_iovec K io proc addr) n) hN hS hNS hmap hB (by omega)
    exact ⟨b, iovp1, h2, h1, hfin h1 hb⟩

set_option maxRecDepth 100000 in
/-- The amended statement at work on the list of 18 segments of `sys_list`:
its total size is 1360, its last byte is in segment 17, and after
`dp_user2nic` has consumed 1360 bytes from offset 0 the descriptor is at batch
`17 / 16 = 1` and counts at least one segment. -/
theorem cursor_round_trip_witness :
    seg_start (user_iovec hdr sys_list.io 7 4000) 18 = 1360 ∧
    seg_start (user_iovec hdr sys_list.io 7 4000) 17 = 1280 ∧
    ∃ iovp, Batch hdr (user_iovec hdr sys_list.io 7 4000) 18 7 4000 0 iovp ∧
      ∃ b iovp1,
        dp_user2nic hdr env0 iovp 0 3072 (seg_start (user_iovec hdr sys_list.io 7 4000) 18)
          sys_list.io =
          Res.ok iovp1
            (user2nic_io sys_list.io 7
              (fun j => seg_addr (user_iovec hdr sys_list.io 7 4000) 18 0 (0 + j))
              3072 (seg_start (user_iovec hdr sys_list.io 7 4000) 18)) ∧
        Batch hdr (user_iovec hdr sys_list.io 7 4000) 18 7 4000 b iovp1 ∧
        (seg_start (user_iovec hdr sys_list.io 7 4000) 18 = 0 → b = 0) ∧
        (0 < seg_start (user_iovec hdr sys_list.io 7 4000) 18 →
          ∃ k, k < 18 ∧ b = k / hdr.IOVEC_NR ∧
            seg_start (user_iovec hdr sys_list.io 7 4000) k <
              seg_start (user_iovec hdr sys_list.io 7 4000) 18 ∧
            seg_start (user_iovec hdr sys_list.io 7 4000) 18 ≤
              seg_start (user_iovec hdr sys_list.io 7 4000) (k + 1)) ∧
        b * hdr.IOVEC_NR < 18 ∧
        iovp1.iod_iovec_s = ((18 : Nat) : Int) - ((b * hdr.IOVEC_NR : Nat) : Int) ∧
        1 ≤ iovp1.iod_iovec_s :=
  ⟨by decide, by decide,
   (@get_userdata_batch hdr env0 7 4000 18 sys_list.io [] (by decide) (by decide)
      (fun _ _ => rfl)).elim fun w h =>
     ⟨_, h.2,
      (cursor_round_trip hdr env0 7 4000 18 sys_list.io _ 3072 (by decide) (by decide)
        (by decide) (fun _ _ => rfl) h.2 (by decide) (by decide)).2.1⟩⟩

set_option maxRecDepth 1000000 in
/-- C17 as stated fails.  For the single segment of a `Write` of 100 bytes,
`calc_iovec_size` returns 100, and after `dp_user2nic` has consumed 100 bytes
from offset 0 the descriptor has `iod_iovec_s = 1`, not 0.  For the list of 18
segments of `sys_list`, `calc_iovec_size` returns 1360, and after `dp_user2nic`
has consumed 1360 bytes the descriptor has `iod_iovec_s = 2`. -/
theorem cursor_round_trip_counterexample :
    (calc_iovec_size hdr env0 sys1_size.dep.de_write_iovec sys1.io).value.map Prod.fst
      = some 100 ∧
    (dp_user2nic hdr env0 sys1_size.dep.de_write_iovec 0 0 100 sys1.io).value.map
      iovec_dat.iod_iovec_s = some 1 ∧
    (calc_iovec_size hdr env0 list_iovp sys_list.io).value.map Prod.fst = some 1360 ∧
    (dp_user2nic hdr env0 list_iovp 0 0 1360 sys_list.io).value.map
      iovec_dat.iod_iovec_s = some 2 := by
  decide

theorem byte_count_lt {l h : Nat} (hl : l < 256) (hh : h < 256) : l ||| (h <<< 8) < 65536 := by
  have h1 : h <<< 8 < 2 ^ 16 := by
    rw [Nat.shiftLeft_eq]
    omega
  have h2 : l < 2 ^ 16 := by omega
  exact Nat.or_lt_two_pow h2 h1

theorem read_frame_bytes {K : Hdr} {f : Xfer} {pageno : Nat} {io io2 : Io} {fr : Frame}
    (h : read_frame K f pageno io = Res.ok fr io2) :
    fr.dr_status < 256 ∧ fr.dr_next < 256 ∧ fr.dr_rbcl < 256 ∧ fr.dr_rbch < 256 := by
  unfold read_frame at h
  obtain ⟨hd, io1, _, h1⟩ := Res.bind_ok h
  obtain ⟨et, io3, _, h2⟩ := Res.bind_ok h1
  injection h2 with h3 _
  subst h3
  exact ⟨Nat.mod_lt _ (by decide), Nat.mod_lt _ (by decide), Nat.mod_lt _ (by decide),
    Nat.mod_lt _ (by decide)⟩

theorem frame_length_eq {K : Hdr} {fr : Frame} (hM : 65536 ≤ K.UINT_MOD)
    (hc : fr.dr_rbcl ||| (fr.dr_rbch <<< 8) < 65536) :
    frame_length K fr =
      if 4 ≤ fr.dr_rbcl ||| (fr.dr_rbch <<< 8) then (fr.dr_rbcl ||| (fr.dr_rbch <<< 8)) - 4
      else K.UINT_MOD - 4 + (fr.dr_rbcl ||| (fr.dr_rbch <<< 8)) := by
  unfold frame_length usub SIZEOF_RCVHDR
  generalize fr.dr_rbcl ||| (fr.dr_rbch <<< 8) = c at hc ⊢
  rw [Nat.mod_eq_of_lt (show 4 < K.UINT_MOD by omega)]
  by_cases h4 : 4 ≤ c
  · rw [if_pos h4]
    have : c + K.UINT_MOD - 4 = (c - 4) + K.UINT_MOD := by omega
    rw [this, Nat.add_mod_right, Nat.mod_eq_of_lt (by omega)]
  · rw [if_neg h4, Nat.mod_eq_of_lt (by omega)]
    omega

theorem dp_recv_frame_none {K : Hdr} {E : Env} {pageno curr : Nat} {fr : Frame} {s s1 : Sys}
    (h : dp_recv_frame K E pageno curr fr s = Res.ok none s1) :
    60 ≤ frame_length K fr ∧ frame_length K fr ≤ 1514 := by
  unfold dp_recv_frame at h
  dsimp only at h
  by_cases c1 : ¬ bit fr.dr_status K.RSR_PRX = true
  · rw [if_pos c1] at h
    cases h
  rw [if_neg c1] at h
  by_cases c2 : bit fr.dr_status (255 ^^^ ((K.RSR_PHY ||| K.RSR_PRX) &&& 255)) = true
  · rw [if_pos c2] at h
    cases h
  rw [if_neg c2] at h
  by_cases c3 : frame_length K fr < 60 ∨ frame_length K fr > 1514
  · rw [if_pos c3] at h
    cases h
  exact ⟨by omega, by omega⟩

theorem dp_recv_frame_strange_length {K : Hdr} {E : Env} {pageno curr : Nat} {fr : Frame}
    {s : Sys} (hbad : frame_length K fr < 60 ∨ frame_length K fr > 1514) :
    dp_recv_frame K E pageno curr fr s = Res.ok (some curr) (write_bnry K curr (count_recvErr K s)) ∨
    dp_recv_frame K E pageno curr fr s = Res.ok (some curr) (write_bnry K curr (count_fifoOver K s)) ∨
    dp_recv_frame K E pageno curr fr s = Res.ok (some curr) (write_bnry K curr s) := by
  unfold dp_recv_frame
  dsimp only
  by_cases c1 : ¬ bit fr.dr_status K.RSR_PRX = true
  · rw [if_pos c1]
    exact Or.inl rfl
  rw [if_neg c1]
  by_cases c2 : bit fr.dr_status (255 ^^^ ((K.RSR_PHY ||| K.RSR_PRX) &&& 255)) = true
  · rw [if_pos c2]
    exact Or.inr (Or.inl rfl)
  rw [if_neg c2, if_pos hbad]
  exact Or.inr (Or.inr rfl)

/-- C30: the length check of `dp_recv` (lines 963-987), for a frame `fr` as the
two `de_getblockf` calls return it and `unsigned` of at least 16 bits.  The
byte count `c = dr_rbcl | (dr_rbch << 8)` is below 65536, and the local
`length` (`frame_length`) is `c - 4` when `c ≥ 4` and wraps around to
`UINT_MOD - 4 + c`, which is above 1514, when `c` is in 0..3.  The test
`length < 60 || length > 1514` fails exactly when `64 ≤ c ≤ 1518`.  A frame
whose length fails the check is dropped whatever the rest of the header says:
the pass ends in one of the three drop branches and goes on at `curr`, and a
pass that ends the loop (`dp_pkt2user` has run) has a length in 60..1514. -/
theorem length_check (K : Hdr) (E : Env) (f : Xfer) (pageno : Nat) (io io2 : Io) (fr : Frame)
    (hM : 65536 ≤ K.UINT_MOD) (hrd : read_frame K f pageno io = Res.ok fr io2) :
    fr.dr_rbcl ||| (fr.dr_rbch <<< 8) < 65536 ∧
    (4 ≤ fr.dr_rbcl ||| (fr.dr_rbch <<< 8) →
      frame_length K fr = (fr.dr_rbcl ||| (fr.dr_rbch <<< 8)) - 4) ∧
    (fr.dr_rbcl ||| (fr.dr_rbch <<< 8) < 4 →
      frame_length K fr = K.UINT_MOD - 4 + (fr.dr_rbcl ||| (fr.dr_rbch <<< 8)) ∧
      frame_length K fr > 1514) ∧
    (¬ (frame_length K fr < 60 ∨ frame_length K fr > 1514) ↔
      64 ≤ fr.dr_rbcl ||| (fr.dr_rbch <<< 8) ∧ fr.dr_rbcl ||| (fr.dr_rbch <<< 8) ≤ 1518) ∧
    (∀ (curr page : Nat) (s : Sys),
      ¬ (64 ≤ fr.dr_rbcl ||| (fr.dr_rbch <<< 8) ∧ fr.dr_rbcl ||| (fr.dr_rbch <<< 8) ≤ 1518) →
      dp_recv_frame K E page curr fr s =
          Res.ok (some curr) (write_bnry K curr (count_recvErr K s)) ∨
        dp_recv_frame K E page curr fr s =
          Res.ok (some curr) (write_bnry K curr (count_fifoOver K s)) ∨
        dp_recv_frame K E page curr fr s = Res.ok (some curr) (write_bnry K curr s)) ∧
    (∀ (curr page : Nat) (s s1 : Sys), dp_recv_frame K E page curr fr s = Res.ok none s1 →
      60 ≤ frame_length K fr ∧ frame_length K fr ≤ 1514) := by
  obtain ⟨_, _, hl, hh⟩ := read_frame_bytes hrd
  have hc := byte_count_lt hl hh
  have he := frame_length_eq (K := K) hM hc
  have hiff : ¬ (frame_length K fr < 60 ∨ frame_length K fr > 1514) ↔
      64 ≤ fr.dr_rbcl ||| (fr.dr_rbch <<< 8) ∧ fr.dr_rbcl ||| (fr.dr_rbch <<< 8) ≤ 1518 := by
    rw [he]
    generalize fr.dr_rbcl ||| (fr.dr_rbch <<< 8) = c at hc ⊢
    by_cases h4 : 4 ≤ c
    · rw [if_pos h4]
      omega
    · rw [if_neg h4]
      omega
  refine ⟨hc, ?_, ?_, hiff, ?_, ?_⟩
  · intro h4
    rw [he, if_pos h4]
  · intro h4
    rw [he, if_neg (by omega)]
    exact ⟨rfl, by omega⟩
  · intro curr page s hbad
    have hb : frame_length K fr < 60 ∨ frame_length K fr > 1514 := by
      by_contra hn
      exact hbad (hiff.1 hn)
    exact dp_recv_frame_strange_length hb
  · intro curr page s s1 h
    exact dp_recv_frame_none h

set_option maxRecDepth 100000 in
/-- The length check on the frame of `sys_short`, whose byte count is 63: the
length is 59 and the frame is dropped. -/
theorem length_check_witness :
    read_frame hdr Xfer.shm 13 sys_short.io = Res.ok (Frame.mk 1 14 63 0 0x0800) sys_short.io ∧
    frame_length hdr (Frame.mk 1 14 63 0 0x0800) = 59 ∧
    (¬ (frame_length hdr (Frame.mk 1 14 63 0 0x0800) < 60 ∨
        frame_length hdr (Frame.mk 1 14 63 0 0x0800) > 1514) ↔
      64 ≤ 63 ||| (0 <<< 8) ∧ 63 ||| (0 <<< 8) ≤ 1518) :=
  ⟨rfl, by decide,
    (length_check hdr env0 Xfer.shm 13 sys_short.io sys_short.io (Frame.mk 1 14 63 0 0x0800)
      (by decide) rfl).2.2.2.1⟩

theorem write_bnry_value {K : Hdr} {n : Nat} {s : Sys} (hM : 256 ≤ K.UINT_MOD)
    (hstop : s.dep.de_stoppage ≤ 256) (h1 : s.dep.de_startpage ≤ n)
    (h2 : n < s.dep.de_stoppage) :
    (write_bnry K n s).io.out = s.io.out ++ [Ev.outb0 Reg.DP_BNRY
      (if n = s.dep.de_startpage then (s.dep.de_stoppage : Int) - 1 else (n : Int) - 1)] ∧
    (write_bnry K n s).io.bnry =
      (if n = s.dep.de_startpage then s.dep.de_stoppage - 1 else n - 1) ∧
    recv_start s.dep (write_bnry K n s).io = n := by
  rw [write_bnry_io]
  unfold recv_start inb_bnry
  dsimp only
  by_cases hn : n = s.dep.de_startpage
  · rw [if_pos hn, if_pos hn, if_pos hn]
    have e : (((s.dep.de_stoppage : Int) - 1) % 256).toNat = s.dep.de_stoppage - 1 := by omega
    rw [e]
    refine ⟨rfl, rfl, ?_⟩
    rw [if_pos (by omega)]
    exact hn.symm
  · rw [if_neg hn, if_neg hn, if_neg hn]
    have hu : usub K n 1 = n - 1 := usub_one (by omega) (by omega) (by omega)
    rw [hu]
    have e : (((n - 1 : Nat) : Int) % 256).toNat = n - 1 := by omega
    rw [e]
    refine ⟨?_, rfl, ?_⟩
    · have e2 : ((n - 1 : Nat) : Int) = (n : Int) - 1 := by omega
      rw [e2]
    · rw [if_neg (by omega)]
      omega

theorem dp_recv_frame_valid {K : Hdr} {E : Env} {pageno curr : Nat} {fr : Frame} {s : Sys}
    (h1 : bit fr.dr_status K.RSR_PRX = true)
    (h2 : bit fr.dr_status (255 ^^^ ((K.RSR_PHY ||| K.RSR_PRX) &&& 255)) = false)
    (hl1 : 60 ≤ frame_length K fr) (hl2 : frame_length K fr ≤ 1514)
    (hn1 : s.dep.de_startpage ≤ fr.dr_next) (hn2 : fr.dr_next < s.dep.de_stoppage)
    (hty : fr.eth_type ≠ E.eth_ign_proto) (hen : s.dep.de_flags.DEF_ENABLED = true) :
    dp_recv_frame K E pageno curr fr s =
      (dp_pkt2user K E pageno (frame_length K fr) s).bind fun r s2 =>
        if ¬ r then Res.ok none s2
        else Res.ok none (write_bnry K fr.dr_next (count_packetR K s2)) := by
  unfold dp_recv_frame
  dsimp only
  rw [if_neg (by rw [h1]; simp), if_neg (by rw [h2]; simp), if_neg (by omega),
    if_neg (by omega), if_neg hty, if_pos hen]

theorem dp_recv_iter_frame {K : Hdr} {E : Env} {pageno : Nat} {s : Sys} {fr : Frame} {io1 : Io}
    (hcur : (inb_curr (outb_reg0 Reg.DP_CR (K.CR_PS_P1 : Int) s.io)).1 ≠ pageno)
    (hrd : read_frame K s.dep.de_getblockf pageno
      (outb_reg0 Reg.DP_CR (K.CR_PS_P0 : Int)
        (inb_curr (outb_reg0 Reg.DP_CR (K.CR_PS_P1 : Int) s.io)).2) = Res.ok fr io1) :
    dp_recv_iter K E pageno s =
      dp_recv_frame K E pageno (inb_curr (outb_reg0 Reg.DP_CR (K.CR_PS_P1 : Int) s.io)).1 fr
        { dep := s.dep, io := io1 } := by
  unfold dp_recv_iter
  dsimp only
  rw [if_neg hcur, hrd]
  rfl

/-- C22: the boundary written after a delivery leads the next `dp_recv` to the
frame's next pointer.  Let a pass of the loop of `dp_recv` find at `pageno` a
frame `fr` of good status and length whose next pointer `n = dr_next` lies in
`[de_startpage, de_stoppage)`, with `DEF_ENABLED` set, the type not the
ignored one, and let `dp_pkt2user` deliver it (it returns `OK` in the state
`s2`); the ring ends at a page that fits the boundary register
(`de_stoppage ≤ 256`) and `unsigned` has at least 8 bits.  Then the loop
returns with this pass; the last thing it does is the write of `DP_BNRY`, of
`de_stoppage - 1` when `n = de_startpage` and of `n - 1` otherwise; the
register holds that value, and the page at which the next `dp_recv` starts
(`recv_start`: boundary plus one, wrapped from `de_stoppage` to
`de_startpage`) is `n`.  When `pageno` is the page `dp_recv` starts at, this
is the result of `dp_recv`. -/
theorem bnry_round_trip (K : Hdr) (E : Env) (fuel pageno : Nat) (s s2 : Sys) (fr : Frame)
    (io1 : Io) (hM : 256 ≤ K.UINT_MOD) (hstop : s.dep.de_stoppage ≤ 256)
    (hcur : (inb_curr (outb_reg0 Reg.DP_CR (K.CR_PS_P1 : Int) s.io)).1 ≠ pageno)
    (hrd : read_frame K s.dep.de_getblockf pageno
      (outb_reg0 Reg.DP_CR (K.CR_PS_P0 : Int)
        (inb_curr (outb_reg0 Reg.DP_CR (K.CR_PS_P1 : Int) s.io)).2) = Res.ok fr io1)
    (h1 : bit fr.dr_status K.RSR_PRX = true)
    (h2 : bit fr.dr_status (255 ^^^ ((K.RSR_PHY ||| K.RSR_PRX) &&& 255)) = false)
    (hl1 : 60 ≤ frame_length K fr) (hl2 : frame_length K fr ≤ 1514)
    (hn1 : s.dep.de_startpage ≤ fr.dr_next) (hn2 : fr.dr_next < s.dep.de_stoppage)
    (hty : fr.eth_type ≠ E.eth_ign_proto) (hen : s.dep.de_flags.DEF_ENABLED = true)
    (hpk : dp_pkt2user K E pageno (frame_length K fr) { dep := s.dep, io := io1 }
      = Res.ok true s2) :
    ∃ s1 : Sys,
      dp_recv_loop K E (fuel + 1) pageno s = Res.ok () s1 ∧
      (pageno = recv_start s.dep s.io → dp_recv K E s = Res.ok () s1) ∧
      s1.dep = (count_packetR K s2).dep ∧
      s1.io.out = s2.io.out ++ [Ev.outb0 Reg.DP_BNRY
        (if fr.dr_next = s.dep.de_startpage then (s.dep.de_stoppage : Int) - 1
          else (fr.dr_next : Int) - 1)] ∧
      s1.io.bnry =
        (if fr.dr_next = s.dep.de_startpage then s.dep.de_stoppage - 1 else fr.dr_next - 1) ∧
      recv_start s1.dep s1.io = fr.dr_next := by
  have hk := dp_pkt2user_keeps K E pageno (frame_length K fr) { dep := s.dep, io := io1 }
  rw [hpk] at hk
  have hsp : s2.dep.de_startpage = s.dep.de_startpage := hk.static.startpage
  have hst : s2.dep.de_stoppage = s.dep.de_stoppage := hk.static.stoppage
  have hit : dp_recv_iter K E pageno s =
      Res.ok none (write_bnry K fr.dr_next (count_packetR K s2)) := by
    rw [dp_recv_iter_frame hcur hrd,
      dp_recv_frame_valid (s := { dep := s.dep, io := io1 }) h1 h2 hl1 hl2 hn1 hn2 hty hen, hpk]
    rfl
  have hloop : ∀ f : Nat, dp_recv_loop K E (f + 1) pageno s =
      Res.ok () (write_bnry K fr.dr_next (count_packetR K s2)) := by
    intro f
    unfold dp_recv_loop
    rw [hit]
    rfl
  have hv := write_bnry_value (K := K) (n := fr.dr_next) (s := count_packetR K s2) hM
    (by show s2.dep.de_stoppage ≤ 256; omega)
    (by show s2.dep.de_startpage ≤ fr.dr_next; omega)
    (by show fr.dr_next < s2.dep.de_stoppage; omega)
  have hsp1 : (count_packetR K s2).dep.de_startpage = s.dep.de_startpage := hsp
  have hst1 : (count_packetR K s2).dep.de_stoppage = s.dep.de_stoppage := hst
  rw [hsp1, hst1] at hv
  refine ⟨write_bnry K fr.dr_next (count_packetR K s2), hloop fuel, ?_, write_bnry_dep _ _ _,
    hv.1, hv.2.1, ?_⟩
  · intro hp
    unfold dp_recv
    dsimp only
    have : (if inb_bnry s.io + 1 = s.dep.de_stoppage then s.dep.de_startpage
        else inb_bnry s.io + 1) = pageno := hp.symm
    rw [this]
    exact hloop _
  · rw [write_bnry_dep]
    exact hv.2.2

set_option maxRecDepth 100000 in
/-- The round trip on the port with a read posted and a frame of 100 bytes at
page 13 whose next pointer is 14: the boundary becomes 13 and the next
`dp_recv` starts at page 14. -/
theorem bnry_round_trip_witness :
    ∃ s1 : Sys,
      dp_recv_loop hdr env0 (0 + 1) 13 (post_read sys_rx) = Res.ok () s1 ∧
      (13 = recv_start (post_read sys_rx).dep (post_read sys_rx).io →
        dp_recv hdr env0 (post_read sys_rx) = Res.ok () s1) ∧
      s1.dep = (count_packetR hdr
        (dp_pkt2user hdr env0 13 100 (curr_read hdr (post_read sys_rx))).state).dep ∧
      s1.io.out = (dp_pkt2user hdr env0 13 100 (curr_read hdr (post_read sys_rx))).state.io.out ++
        [Ev.outb0 Reg.DP_BNRY
          (if (Frame.mk 1 14 104 0 0x0800).dr_next = (post_read sys_rx).dep.de_startpage
            then ((post_read sys_rx).dep.de_stoppage : Int) - 1
            else ((Frame.mk 1 14 104 0 0x0800).dr_next : Int) - 1)] ∧
      s1.io.bnry =
        (if (Frame.mk 1 14 104 0 0x0800).dr_next = (post_read sys_rx).dep.de_startpage
          then (post_read sys_rx).dep.de_stoppage - 1
          else (Frame.mk 1 14 104 0 0x0800).dr_next - 1) ∧
      recv_start s1.dep s1.io = (Frame.mk 1 14 104 0 0x0800).dr_next :=
  bnry_round_trip hdr env0 0 13 (post_read sys_rx)
    (dp_pkt2user hdr env0 13 100 (curr_read hdr (post_read sys_rx))).state
    (Frame.mk 1 14 104 0 0x0800)
    (curr_read hdr (post_read sys_rx)).io (by decide) (by decide) (by decide) rfl (by decide)
    (by decide) (by decide) (by decide) (by decide) (by decide) (by decide) (by decide)
    (Res.ok_of_value (by decide))

theorem dp_recv_frame_drop {K : Hdr} {E : Env} {pageno curr : Nat} {fr : Frame} {s : Sys}
    (hbad : bit fr.dr_status K.RSR_PRX = false ∨
      (frame_length K fr < 60 ∨ frame_length K fr > 1514)) :
    ∃ s0 : Sys, dp_recv_frame K E pageno curr fr s = Res.ok (some curr) (write_bnry K curr s0) ∧
      s0.io = s.io ∧ s0.dep.de_flags = s.dep.de_flags ∧
      s0.dep.de_startpage = s.dep.de_startpage ∧ s0.dep.de_stoppage = s.dep.de_stoppage ∧
      s0.dep.de_read_s = s.dep.de_read_s ∧ s0.dep.de_read_iovec = s.dep.de_read_iovec ∧
      s0.dep.de_stat.ets_packetR = s.dep.de_stat.ets_packetR := by
  rcases hbad with h | h
  · refine ⟨count_recvErr K s, ?_, rfl, rfl, rfl, rfl, rfl, rfl, rfl⟩
    unfold dp_recv_frame
    dsimp only
    rw [if_pos (by rw [h]; simp)]
  · rcases @dp_recv_frame_strange_length K E pageno curr fr s h with e | e | e
    · exact ⟨count_recvErr K s, e, rfl, rfl, rfl, rfl, rfl, rfl, rfl⟩
    · exact ⟨count_fifoOver K s, e, rfl, rfl, rfl, rfl, rfl, rfl, rfl⟩
    · exact ⟨s, e, rfl, rfl, rfl, rfl, rfl, rfl, rfl⟩

/-- C23 (amended): a frame that `dp_recv` drops because its status lacks
`RSR_PRX` or its length is outside 60..1514 moves the read position to the
chip's current page, not to the frame's own next pointer.  Let a pass of the
loop find such a frame at `pageno`, the register `DP_CURR` not move during
the call and hold a page `curr` of the ring other than `pageno`
(`de_stoppage ≤ 256`, `unsigned` of at least 8 bits).  Then the loop returns
after one more pass, which ends on `curr == pageno`; no call through
`de_nic2userf` is made; flags, `de_read_s`, the read descriptor and
`ets_packetR` are as before; the boundary written is `de_stoppage - 1` when
`curr = de_startpage` and `curr - 1` otherwise, and the next `dp_recv` starts
at `curr`: every frame buffered between the dropped one and `curr` is passed
over without being read. -/
theorem drop_resumes_at_curr (K : Hdr) (E : Env) (fuel pageno : Nat) (s : Sys) (fr : Frame)
    (io1 : Io) (hM : 256 ≤ K.UINT_MOD) (hstop : s.dep.de_stoppage ≤ 256)
    (hq : s.io.curr_next = []) (hne : s.io.curr ≠ pageno)
    (hc1 : s.dep.de_startpage ≤ s.io.curr) (hc2 : s.io.curr < s.dep.de_stoppage)
    (hrd : read_frame K s.dep.de_getblockf pageno (curr_read K s).io = Res.ok fr io1)
    (hbad : bit fr.dr_status K.RSR_PRX = false ∨
      (frame_length K fr < 60 ∨ frame_length K fr > 1514)) :
    ∃ s1 : Sys,
      dp_recv_loop K E (fuel + 2) pageno s = Res.ok () s1 ∧
      (pageno = recv_start s.dep s.io → dp_recv K E s = Res.ok () s1) ∧
      recv_start s1.dep s1.io = s.io.curr ∧
      s1.io.bnry = (if s.io.curr = s.dep.de_startpage then s.dep.de_stoppage - 1
        else s.io.curr - 1) ∧
      s1.dep.de_flags = s.dep.de_flags ∧ s1.dep.de_read_s = s.dep.de_read_s ∧
      s1.dep.de_read_iovec = s.dep.de_read_iovec ∧
      s1.dep.de_stat.ets_packetR = s.dep.de_stat.ets_packetR ∧
      ∃ B, s1.io.out = s.io.out ++ B ∧ ∀ e ∈ B, Ev.isNic2user e = false := by
  have hc : inb_curr (outb_reg0 Reg.DP_CR (K.CR_PS_P1 : Int) s.io) =
      (s.io.curr, outb_reg0 Reg.DP_CR (K.CR_PS_P1 : Int) s.io) := inb_curr_nil hq
  have hcur : (inb_curr (outb_reg0 Reg.DP_CR (K.CR_PS_P1 : Int) s.io)).1 ≠ pageno := by
    rw [hc]
    exact hne
  have hrd1 : read_frame K s.dep.de_getblockf pageno
      (outb_reg0 Reg.DP_CR (K.CR_PS_P0 : Int)
        (inb_curr (outb_reg0 Reg.DP_CR (K.CR_PS_P1 : Int) s.io)).2) = Res.ok fr io1 := by
    rw [hc]
    exact hrd
  obtain ⟨s0, e0, hio, hfl, hsp, hst, hrs, hri, hpr⟩ :=
    @dp_recv_frame_drop K E pageno s.io.curr fr { dep := s.dep, io := io1 } hbad
  have hit : dp_recv_iter K E pageno s = Res.ok (some s.io.curr) (write_bnry K s.io.curr s0) := by
    rw [dp_recv_iter_frame hcur hrd1, hc]
    exact e0
  have hf := read_frame_frame K s.dep.de_getblockf pageno (curr_read K s).io
  rw [hrd] at hf
  have hF : IoFrame s.io io1 :=
    ((outb_reg0_frame Reg.DP_CR (K.CR_PS_P1 : Int) s.io rfl).ftrans
      (outb_reg0_frame Reg.DP_CR (K.CR_PS_P0 : Int) _ rfl)).ftrans hf
  have hio0 : s0.io = io1 := hio
  have hq2 : (write_bnry K s.io.curr s0).io.curr_next = [] := by
    rw [write_bnry_io, hio0]
    exact hF.curr_next.trans hq
  have hc2' : (write_bnry K s.io.curr s0).io.curr = s.io.curr := by
    rw [write_bnry_io, hio0]
    exact hF.curr
  have e2 := dp_recv_iter_caught_up (K := K) (E := E) hq2 hc2'
  have hloop : ∀ f : Nat, dp_recv_loop K E (f + 2) pageno s =
      Res.ok () (curr_read K (write_bnry K s.io.curr s0)) := by
    intro f
    unfold dp_recv_loop
    rw [hit]
    dsimp only [Res.bind]
    unfold dp_recv_loop
    rw [e2]
    rfl
  have hv := write_bnry_value (K := K) (n := s.io.curr) (s := s0) hM
    (by rw [hst]; exact hstop) (by rw [hsp]; exact hc1) (by rw [hst]; exact hc2)
  rw [hsp, hst] at hv
  refine ⟨curr_read K (write_bnry K s.io.curr s0), hloop fuel, ?_, ?_, ?_, ?_, ?_, ?_, ?_, ?_⟩
  · intro hp
    unfold dp_recv
    dsimp only
    have : (if inb_bnry s.io + 1 = s.dep.de_stoppage then s.dep.de_startpage
        else inb_bnry s.io + 1) = pageno := hp.symm
    rw [this, hq]
    exact hloop 0
  · have := hv.2.2
    unfold recv_start inb_bnry at this ⊢
    unfold curr_read
    simp only [outb_reg0, write_bnry_dep]
    rw [hsp, hst]
    rw [hsp, hst] at this
    exact this
  · have := hv.2.1
    unfold curr_read
    simp only [outb_reg0]
    exact this
  · show (write_bnry K s.io.curr s0).dep.de_flags = _
    rw [write_bnry_dep]
    exact hfl
  · show (write_bnry K s.io.curr s0).dep.de_read_s = _
    rw [write_bnry_dep]
    exact hrs
  · show (write_bnry K s.io.curr s0).dep.de_read_iovec = _
    rw [write_bnry_dep]
    exact hri
  · show (write_bnry K s.io.curr s0).dep.de_stat.ets_packetR = _
    rw [write_bnry_dep]
    exact hpr
  · obtain ⟨B, eB, qB⟩ := hF.out
    unfold curr_read
    simp only [write_bnry_io, outb_reg0_out, hio0, eB, List.append_assoc]
    refine ⟨_, rfl, ?_⟩
    intro e he
    rcases List.mem_append.1 he with h | h
    · exact quiet_not_nic2user (qB e h)
    · simp at h
      rcases h with h | h | h <;> subst h <;> rfl

set_option maxRecDepth 100000 in
/-- The amended statement at work, on the port with a read posted, a frame of
length 59 at page 13 and the chip at page 15: the next `dp_recv` starts at
page 15. -/
theorem drop_resumes_at_curr_witness :
    frame_length hdr (Frame.mk 1 14 63 0 0x0800) = 59 ∧
    ∃ s1 : Sys,
      dp_recv_loop hdr env0 (0 + 2) 13 (post_read sys_two) = Res.ok () s1 ∧
      (13 = recv_start (post_read sys_two).dep (post_read sys_two).io →
        dp_recv hdr env0 (post_read sys_two) = Res.ok () s1) ∧
      recv_start s1.dep s1.io = (post_read sys_two).io.curr ∧
      s1.io.bnry = (if (post_read sys_two).io.curr = (post_read sys_two).dep.de_startpage
        then (post_read sys_two).dep.de_stoppage - 1 else (post_read sys_two).io.curr - 1) ∧
      s1.dep.de_flags = (post_read sys_two).dep.de_flags ∧
      s1.dep.de_read_s = (post_read sys_two).dep.de_read_s ∧
      s1.dep.de_read_iovec = (post_read sys_two).dep.de_read_iovec ∧
      s1.dep.de_stat.ets_packetR = (post_read sys_two).dep.de_stat.ets_packetR ∧
      ∃ B, s1.io.out = (post_read sys_two).io.out ++ B ∧ ∀ e ∈ B, Ev.isNic2user e = false :=
  ⟨by decide,
   drop_resumes_at_curr hdr env0 0 13 (post_read sys_two) (Frame.mk 1 14 63 0 0x0800)
    (curr_read hdr (post_read sys_two)).io (by decide) (by decide) rfl (by decide) (by decide)
    (by decide) rfl (Or.inr (Or.inl (by decide)))⟩

set_option maxRecDepth 100000 in
/-- C23 as stated fails: with a read posted, a frame of length 59 at page 13
whose next pointer is 14, a good frame of 100 bytes at page 14 and the chip at
page 15, `dp_recv` returns with the read still posted and the next `dp_recv`
starts at page 15, not at page 14; that next `dp_recv` returns with the read
still posted as well: the frame at page 14 is never delivered. -/
theorem drop_resumes_at_curr_counterexample :
    (read_frame hdr (post_read sys_two).dep.de_getblockf 13 (post_read sys_two).io).value =
      some (Frame.mk 1 14 63 0 0x0800) ∧
    frame_length hdr (Frame.mk 1 14 63 0 0x0800) = 59 ∧
    (read_frame hdr (post_read sys_two).dep.de_getblockf 14 (post_read sys_two).io).value =
      some (Frame.mk 1 15 104 0 0x0800) ∧
    frame_length hdr (Frame.mk 1 15 104 0 0x0800) = 100 ∧
    recv_start (post_read sys_two).dep (post_read sys_two).io = 13 ∧
    (dp_recv hdr env0 (post_read sys_two)).isOk = true ∧
    (dp_recv hdr env0 (post_read sys_two)).state.dep.de_flags.DEF_READING = true ∧
    recv_start (dp_recv hdr env0 (post_read sys_two)).state.dep
      (dp_recv hdr env0 (post_read sys_two)).state.io = 15 ∧
    (dp_recv hdr env0 (dp_recv hdr env0 (post_read sys_two)).state).isOk = true ∧
    (dp_recv hdr env0 (dp_recv hdr env0 (post_read sys_two)).state).state.dep.de_flags.DEF_READING
      = true ∧
    ((dp_recv hdr env0 (dp_recv hdr env0 (post_read sys_two)).state).state.io.out.filter
      Ev.isNic2user) = [] := by
  decide

/-- C6 (amended): a frame with good status whose length is below 60 or above
1514, or whose next pointer lies outside `[de_startpage, de_stoppage)`, is
skipped by `dp_recv` without delivery and without any counter, and the
boundary is moved to the chip's current page: when it is the frame at the page
`dp_recv` starts at, `DP_CURR` lies in the ring and does not move during the
call, `dp_recv` returns with the port entry exactly as it was (so `de_stat`
and `DEF_READING` are unchanged), client memory is unchanged, no call through
`de_nic2userf` is made, the boundary register holds the page before
`DP_CURR` (wrapped from `de_startpage` to `de_stoppage - 1`), the one write of
`DP_BNRY` of the call being that value, and the next `dp_recv` starts reading
at `DP_CURR`: every frame between the malformed one and `DP_CURR` is dropped
with it. -/
theorem dp_recv_malformed (K : Hdr) (E : Env) (s : Sys) (fr : Frame) (io2 : Io)
    (hM : 256 ≤ K.UINT_MOD) (hstop : s.dep.de_stoppage ≤ 256)
    (hq : s.io.curr_next = [])
    (hne : s.io.curr ≠
      (if inb_bnry s.io + 1 = s.dep.de_stoppage then s.dep.de_startpage else inb_bnry s.io + 1))
    (hc1 : s.dep.de_startpage ≤ s.io.curr) (hc2 : s.io.curr < s.dep.de_stoppage)
    (hrd : read_frame K s.dep.de_getblockf
      (if inb_bnry s.io + 1 = s.dep.de_stoppage then s.dep.de_startpage else inb_bnry s.io + 1)
      (outb_reg0 Reg.DP_CR (K.CR_PS_P0 : Int) (outb_reg0 Reg.DP_CR (K.CR_PS_P1 : Int) s.io))
      = Res.ok fr io2)
    (h1 : bit fr.dr_status K.RSR_PRX = true)
    (h2 : bit fr.dr_status (255 ^^^ ((K.RSR_PHY ||| K.RSR_PRX) &&& 255)) = false)
    (hbad : (frame_length K fr < 60 ∨ frame_length K fr > 1514) ∨
      (fr.dr_next < s.dep.de_startpage ∨ fr.dr_next ≥ s.dep.de_stoppage)) :
    ∃ io3, dp_recv K E s = Res.ok () { dep := s.dep, io := io3 } ∧
      io3.ubyte = s.io.ubyte ∧
      io3.bnry = (if s.io.curr = s.dep.de_startpage then s.dep.de_stoppage - 1
        else s.io.curr - 1) ∧
      io3.curr = s.io.curr ∧
      recv_start s.dep io3 = s.io.curr ∧
      ∃ B, io3.out = s.io.out ++ B ++ [Ev.outb0 Reg.DP_BNRY
          (if s.io.curr = s.dep.de_startpage then (s.dep.de_stoppage : Int) - 1
            else (s.io.curr : Int) - 1),
          Ev.outb0 Reg.DP_CR (K.CR_PS_P1 : Int), Ev.outb0 Reg.DP_CR (K.CR_PS_P0 : Int)] ∧
        ∀ e ∈ B, Ev.isNic2user e = false := by
  have hf := read_frame_frame K s.dep.de_getblockf
    (if inb_bnry s.io + 1 = s.dep.de_stoppage then s.dep.de_startpage else inb_bnry s.io + 1)
    (outb_reg0 Reg.DP_CR (K.CR_PS_P0 : Int) (outb_reg0 Reg.DP_CR (K.CR_PS_P1 : Int) s.io))
  have hu := read_frame_ubyte K s.dep.de_getblockf
    (if inb_bnry s.io + 1 = s.dep.de_stoppage then s.dep.de_startpage else inb_bnry s.io + 1)
    (outb_reg0 Reg.DP_CR (K.CR_PS_P0 : Int) (outb_reg0 Reg.DP_CR (K.CR_PS_P1 : Int) s.io))
  rw [hrd] at hf hu
  have hF : IoFrame s.io io2 :=
    ((outb_reg0_frame Reg.DP_CR (K.CR_PS_P1 : Int) s.io rfl).ftrans
      (outb_reg0_frame Reg.DP_CR (K.CR_PS_P0 : Int) _ rfl)).ftrans hf
  have e1 := dp_recv_iter_malformed (E := E) hq hne hrd h1 h2 hbad
  have hq2 : (write_bnry K s.io.curr { dep := s.dep, io := io2 }).io.curr_next = [] := by
    rw [write_bnry_io]
    exact hF.curr_next.trans hq
  have hc3 : (write_bnry K s.io.curr { dep := s.dep, io := io2 }).io.curr = s.io.curr := by
    rw [write_bnry_io]
    exact hF.curr
  have e2 := dp_recv_iter_caught_up (K := K) (E := E) hq2 hc3
  have hv := write_bnry_value (K := K) (n := s.io.curr) (s := { dep := s.dep, io := io2 })
    hM hstop hc1 hc2
  refine ⟨outb_reg0 Reg.DP_CR (K.CR_PS_P0 : Int) (outb_reg0 Reg.DP_CR (K.CR_PS_P1 : Int)
    (write_bnry K s.io.curr { dep := s.dep, io := io2 }).io), ?_, ?_, ?_, ?_, ?_, ?_⟩
  · unfold dp_recv
    dsimp only
    rw [hq]
    show dp_recv_loop K E 2 _ s = _
    unfold dp_recv_loop
    rw [e1]
    dsimp only [Res.bind]
    unfold dp_recv_loop
    rw [e2]
    dsimp only [Res.bind]
    rw [write_bnry_dep]
  · rw [write_bnry_io]
    simp only [outb_reg0]
    exact hu
  · exact hv.2.1
  · exact hc3
  · exact hv.2.2
  · obtain ⟨B, eB, qB⟩ := hF.out
    refine ⟨B, ?_, fun e he => quiet_not_nic2user (qB e he)⟩
    simp only [outb_reg0_out, hv.1, eB, List.append_assoc]
    rfl


set_option maxRecDepth 100000 in
/-- The amended statement at work, on the port with a read posted and a frame
of length 59 at page 13 while the chip is at page 14: the boundary goes to
page 13 and the next call starts at page 14. -/
theorem dp_recv_malformed_witness :
    frame_length hdr (Frame.mk 1 14 63 0 0x0800) = 59 ∧
    (post_read sys_short).io.curr = 14 ∧
    ∃ io3, dp_recv hdr env0 (post_read sys_short) =
        Res.ok () { dep := (post_read sys_short).dep, io := io3 } ∧
      io3.ubyte = (post_read sys_short).io.ubyte ∧
      io3.bnry = (if (post_read sys_short).io.curr = (post_read sys_short).dep.de_startpage
        then (post_read sys_short).dep.de_stoppage - 1
        else (post_read sys_short).io.curr - 1) ∧
      io3.curr = (post_read sys_short).io.curr ∧
      recv_start (post_read sys_short).dep io3 = (post_read sys_short).io.curr ∧
      ∃ B, io3.out = (post_read sys_short).io.out ++ B ++ [Ev.outb0 Reg.DP_BNRY
          (if (post_read sys_short).io.curr = (post_read sys_short).dep.de_startpage
            then ((post_read sys_short).dep.de_stoppage : Int) - 1
            else ((post_read sys_short).io.curr : Int) - 1),
          Ev.outb0 Reg.DP_CR (hdr.CR_PS_P1 : Int), Ev.outb0 Reg.DP_CR (hdr.CR_PS_P0 : Int)] ∧
        ∀ e ∈ B, Ev.isNic2user e = false :=
  ⟨by decide, by decide,
   dp_recv_malformed hdr env0 (post_read sys_short)
    (Frame.mk 1 14 63 0 0x0800)
    (outb_reg0 Reg.DP_CR (hdr.CR_PS_P0 : Int)
      (outb_reg0 Reg.DP_CR (hdr.CR_PS_P1 : Int) (post_read sys_short).io))
    (by decide) (by decide) (by decide) (by decide) (by decide) (by decide) rfl
    (by decide) (by decide) (by decide)⟩

set_option maxRecDepth 100000 in
/-- C6 as stated fails: with a read posted and a frame of good status and
length 59 at page 13, `dp_recv` returns, `DEF_READING` is still set, and the
statistics `de_stat` are what they were: no counter has been incremented. -/
theorem dp_recv_malformed_counterexample :
    (read_frame hdr (post_read sys_short).dep.de_getblockf 13 (post_read sys_short).io).value =
      some (Frame.mk 1 14 63 0 0x0800) ∧
    frame_length hdr (Frame.mk 1 14 63 0 0x0800) = 59 ∧
    (dp_recv hdr env0 (post_read sys_short)).isOk = true ∧
    (dp_recv hdr env0 (post_read sys_short)).state.dep.de_flags.DEF_READING = true ∧
    (dp_recv hdr env0 (post_read sys_short)).state.dep.de_stat =
      (post_read sys_short).dep.de_stat := by
  decide

theorem window_getD_ge (f : Nat → iovec) (m i : Nat) (w : List iovec) (d : iovec) (h : m ≤ i) :
    ((List.range m).map f ++ w.drop m).getD i d = w.getD i d := by
  by_cases hw : m ≤ w.length
  · simp only [List.getD_eq_getElem?_getD]
    rw [List.getElem?_append_right (by simp; exact h)]
    simp only [List.length_map, List.length_range, List.getElem?_drop]
    congr 2
    omega
  · have hd : w.drop m = [] := List.drop_eq_nil_of_le (by omega)
    rw [hd, List.append_nil]
    simp only [List.getD_eq_getElem?_getD]
    rw [List.getElem?_eq_none (by simp; exact h), List.getElem?_eq_none (by omega)]

/-- C24: the refetch of `dp_next_iovec`, when every range of the owning process
resolves and a batch fits the type `vir_bytes`.  With `iod_iovec_s > IOVEC_NR`
the call returns, the outside unchanged, the descriptor with `iod_iovec_s`
less by `IOVEC_NR`, `iod_iovec_addr` more by `IOVEC_NR * sizeof(iovec_t)`,
the owning process as before and a window whose first
`min(new iod_iovec_s, IOVEC_NR)` entries are the segments stored from the new
address on, the other entries being as before.  With
`iod_iovec_s ≤ IOVEC_NR` the assertion fails.  For a descriptor that stands at
batch `b` of a list of `n` segments (its window holds the segments of that
batch) with more than a batch left, the result stands at batch `b + 1`: its
window holds the first `min(remaining, IOVEC_NR)` segments not yet passed. -/
theorem batch_refetch (K : Hdr) (E : Env) (iovp : iovec_dat) (io : Io)
    (hS : 0 < K.SIZEOF_IOVEC) (hNS : K.IOVEC_NR * K.SIZEOF_IOVEC < K.UINT_MOD)
    (hmap : ∀ a k, E.numap iovp.iod_proc_nr a k = true) :
    (iovp.iod_iovec_s > (K.IOVEC_NR : Int) →
      ∃ w : List iovec,
        dp_next_iovec K E iovp io = Res.ok
          { iod_iovec := w,
            iod_iovec_s := iovp.iod_iovec_s - (K.IOVEC_NR : Int),
            iod_proc_nr := iovp.iod_proc_nr,
            iod_iovec_addr := iovp.iod_iovec_addr + K.IOVEC_NR * K.SIZEOF_IOVEC } io ∧
        (∀ i, i < min (iovp.iod_iovec_s - (K.IOVEC_NR : Int)).toNat K.IOVEC_NR →
          w.getD i { iov_addr := 0, iov_size := 0 } =
            io.uiov iovp.iod_proc_nr
              (iovp.iod_iovec_addr + K.IOVEC_NR * K.SIZEOF_IOVEC + i * K.SIZEOF_IOVEC)) ∧
        (∀ i, min (iovp.iod_iovec_s - (K.IOVEC_NR : Int)).toNat K.IOVEC_NR ≤ i →
          w.getD i { iov_addr := 0, iov_size := 0 } =
            iovp.iod_iovec.getD i { iov_addr := 0, iov_size := 0 })) ∧
    (iovp.iod_iovec_s ≤ (K.IOVEC_NR : Int) →
      dp_next_iovec K E iovp io = Res.halt Halt.assertion io) ∧
    (∀ (seg : Nat → iovec) (n b : Nat) (addr : Nat),
      (∀ j, io.uiov iovp.iod_proc_nr (addr + j * K.SIZEOF_IOVEC) = seg j) →
      Batch K seg n iovp.iod_proc_nr addr b iovp → b * K.IOVEC_NR + K.IOVEC_NR < n →
      ∃ iovp1, dp_next_iovec K E iovp io = Res.ok iovp1 io ∧
        Batch K seg n iovp.iod_proc_nr addr (b + 1) iovp1 ∧
        iovp1.iod_iovec_s = iovp.iod_iovec_s - (K.IOVEC_NR : Int) ∧
        iovp1.iod_iovec_addr = iovp.iod_iovec_addr + K.IOVEC_NR * K.SIZEOF_IOVEC) := by
  refine ⟨?_, ?_, ?_⟩
  · intro hgt
    have hpos : 0 ≤ iovp.iod_iovec_s - (K.IOVEC_NR : Int) := by omega
    have hk : (if iovp.iod_iovec_s - (K.IOVEC_NR : Int) > (K.IOVEC_NR : Int)
          then (K.IOVEC_NR : Int) else iovp.iod_iovec_s - (K.IOVEC_NR : Int))
        = ((min (iovp.iod_iovec_s - (K.IOVEC_NR : Int)).toNat K.IOVEC_NR : Nat) : Int) := by
      split
      · rw [Nat.min_eq_right (by omega)]
      · rw [Nat.min_eq_left (by omega)]
        omega
    have hb : min (iovp.iod_iovec_s - (K.IOVEC_NR : Int)).toNat K.IOVEC_NR * K.SIZEOF_IOVEC
        < K.UINT_MOD :=
      Nat.lt_of_le_of_lt (Nat.mul_le_mul_right _ (Nat.min_le_right _ _)) hNS
    have hu : to_uint K (((min (iovp.iod_iovec_s - (K.IOVEC_NR : Int)).toNat K.IOVEC_NR : Nat)
        : Int) * (K.SIZEOF_IOVEC : Int))
        = min (iovp.iod_iovec_s - (K.IOVEC_NR : Int)).toNat K.IOVEC_NR * K.SIZEOF_IOVEC := by
      rw [← Int.natCast_mul]
      exact to_uint_nat K hb
    refine ⟨(List.range (min (iovp.iod_iovec_s - (K.IOVEC_NR : Int)).toNat K.IOVEC_NR)).map
          (fun j => io.uiov iovp.iod_proc_nr
            (iovp.iod_iovec_addr + K.IOVEC_NR * K.SIZEOF_IOVEC + j * K.SIZEOF_IOVEC))
        ++ iovp.iod_iovec.drop (min (iovp.iod_iovec_s - (K.IOVEC_NR : Int)).toNat K.IOVEC_NR),
      ?_, ?_, ?_⟩
    · unfold dp_next_iovec
      rw [if_pos hgt]
      dsimp only
      unfold get_userdata
      dsimp only
      rw [hk, hu, hmap, if_pos rfl,
        if_neg (Nat.not_lt.2 (Nat.mul_le_mul_right _ (Nat.min_le_right _ _))),
        Nat.mul_div_cancel _ hS]
    · intro i hi
      exact window_getD _ _ _ _ _ hi
    · intro i hi
      exact window_getD_ge _ _ _ _ _ hi
  · intro hle
    unfold dp_next_iovec
    rw [if_neg (by omega)]
  · intro seg n b addr hseg hB hn
    obtain ⟨iovp1, h1, h2⟩ := dp_next_iovec_batch (E := E) hS hNS hmap (fun j _ _ => hseg j)
      hB hn
    refine ⟨iovp1, h1, h2, ?_, ?_⟩
    · rw [h2.s, hB.s]
      have : (b + 1) * K.IOVEC_NR = b * K.IOVEC_NR + K.IOVEC_NR := by ring
      rw [this]
      omega
    · rw [h2.addr, hB.addr]
      ring

set_option maxRecDepth 100000 in
/-- The refetch on the write descriptor of the list of 18 segments of
`sys_list`: two segments are left after the first batch of 16. -/
theorem batch_refetch_witness :
    list_iovp.iod_iovec_s = 18 ∧ list_iovp.iod_iovec_addr = 4000 ∧
    ∃ w : List iovec,
      dp_next_iovec hdr env0 list_iovp sys_list.io = Res.ok
        { iod_iovec := w,
          iod_iovec_s := list_iovp.iod_iovec_s - (hdr.IOVEC_NR : Int),
          iod_proc_nr := list_iovp.iod_proc_nr,
          iod_iovec_addr := list_iovp.iod_iovec_addr + hdr.IOVEC_NR * hdr.SIZEOF_IOVEC }
        sys_list.io ∧
      (∀ i, i < min (list_iovp.iod_iovec_s - (hdr.IOVEC_NR : Int)).toNat hdr.IOVEC_NR →
        w.getD i { iov_addr := 0, iov_size := 0 } =
          sys_list.io.uiov list_iovp.iod_proc_nr
            (list_iovp.iod_iovec_addr + hdr.IOVEC_NR * hdr.SIZEOF_IOVEC
              + i * hdr.SIZEOF_IOVEC)) ∧
      (∀ i, min (list_iovp.iod_iovec_s - (hdr.IOVEC_NR : Int)).toNat hdr.IOVEC_NR ≤ i →
        w.getD i { iov_addr := 0, iov_size := 0 } =
          list_iovp.iod_iovec.getD i { iov_addr := 0, iov_size := 0 }) :=
  ⟨by decide, by decide,
    (batch_refetch hdr env0 list_iovp sys_list.io (by decide) (by decide)
      (fun _ _ => rfl)).1 (by decide)⟩

theorem call_getblock_mem (K : Hdr) (f : Xfer) (page offset size : Nat) (io : Io) :
    (call_getblock K f page offset size io).state.mem = io.mem := by
  unfold call_getblock
  cases f
  · dsimp only [dp_getblock]
    split <;> rfl
  · simp [dp_pio8_getblock, Res.state, data_in, outb_reg0]
  · simp [dp_pio16_getblock, dp_pio8_getblock, Res.state, data_in, outb_reg0]

theorem read_frame_mem (K : Hdr) (f : Xfer) (pageno : Nat) (io : Io) :
    (read_frame K f pageno io).state.mem = io.mem := by
  unfold read_frame
  refine Res.bind_state (fun x : Io => x.mem = io.mem) _ _ ?_ ?_
  · exact call_getblock_mem K f pageno 0 SIZEOF_RCVHDR io
  · intro hd io1 _ h1
    refine Res.bind_state (fun x : Io => x.mem = io.mem) _ _ ?_ ?_
    · exact (call_getblock_mem K f pageno _ 2 io1).trans h1
    · intro et io2 _ h2
      exact h2

theorem read_frame_shm (K : Hdr) (pageno : Nat) (io : Io) :
    read_frame K Xfer.shm pageno io = Res.ok
      { dr_status := io.mem (pageno * K.DP_PAGESIZE + 0) % 256,
        dr_next := io.mem (pageno * K.DP_PAGESIZE + 0 + 1) % 256,
        dr_rbcl := io.mem (pageno * K.DP_PAGESIZE + 0 + 2) % 256,
        dr_rbch := io.mem (pageno * K.DP_PAGESIZE + 0 + 3) % 256,
        eth_type := io.mem (pageno * K.DP_PAGESIZE + (SIZEOF_RCVHDR + 2 * SIZEOF_ETHER_ADDR)) % 256
          + 256 * (io.mem (pageno * K.DP_PAGESIZE + (SIZEOF_RCVHDR + 2 * SIZEOF_ETHER_ADDR) + 1)
            % 256) } io := by
  unfold read_frame call_getblock dp_getblock
  simp [Res.bind, card_bytes, SIZEOF_RCVHDR, SIZEOF_ETHER_ADDR, List.range_succ]

theorem read_frame_shm_congr (K : Hdr) (pageno : Nat) {io io1 : Io} (h : io1.mem = io.mem) :
    (read_frame K Xfer.shm pageno io1).value = (read_frame K Xfer.shm pageno io).value := by
  rw [read_frame_shm, read_frame_shm, h]
  rfl

/-- C28: a valid frame that finds no read posted is left where it is.  Let a
pass of the loop of `dp_recv` find at `pageno` a frame `fr` of good status,
with a length in 60..1514, a next pointer in `[de_startpage, de_stoppage)`
and a type other than the ignored one, while `DEF_READING` is clear and
`DEF_ENABLED` is set (`dp_check_ints`, the only caller that can find no read
posted, panics otherwise).  Then the loop returns with this pass, and when
`pageno` is the page `dp_recv` starts at this is the result of `dp_recv`.  The
port entry is unchanged as a whole: flags, `ets_packetR` and every other
counter.  Outside, the boundary register, the card memory and client memory
are unchanged, the log has grown only by the accesses of reading `DP_CURR` and
the frame header (no write of `DP_BNRY`, no call through `de_nic2userf`, no
message), so the next `dp_recv` starts at the same page; on a shared-memory
card it reads the same frame there. -/
theorem no_read_posted (K : Hdr) (E : Env) (fuel pageno : Nat) (s : Sys) (fr : Frame) (io1 : Io)
    (hen : s.dep.de_flags.DEF_ENABLED = true) (hnr : s.dep.de_flags.DEF_READING = false)
    (hcur : (inb_curr (outb_reg0 Reg.DP_CR (K.CR_PS_P1 : Int) s.io)).1 ≠ pageno)
    (hrd : read_frame K s.dep.de_getblockf pageno
      (outb_reg0 Reg.DP_CR (K.CR_PS_P0 : Int)
        (inb_curr (outb_reg0 Reg.DP_CR (K.CR_PS_P1 : Int) s.io)).2) = Res.ok fr io1)
    (h1 : bit fr.dr_status K.RSR_PRX = true)
    (h2 : bit fr.dr_status (255 ^^^ ((K.RSR_PHY ||| K.RSR_PRX) &&& 255)) = false)
    (hl1 : 60 ≤ frame_length K fr) (hl2 : frame_length K fr ≤ 1514)
    (hn1 : s.dep.de_startpage ≤ fr.dr_next) (hn2 : fr.dr_next < s.dep.de_stoppage)
    (hty : fr.eth_type ≠ E.eth_ign_proto) :
    dp_recv_loop K E (fuel + 1) pageno s = Res.ok () { dep := s.dep, io := io1 } ∧
    (pageno = recv_start s.dep s.io → dp_recv K E s = Res.ok () { dep := s.dep, io := io1 }) ∧
    io1.bnry = s.io.bnry ∧ io1.mem = s.io.mem ∧ io1.ubyte = s.io.ubyte ∧
    recv_start s.dep io1 = recv_start s.dep s.io ∧
    (∃ B, io1.out = s.io.out ++ B ∧ ∀ e ∈ B, Ev.quiet e = true) ∧
    (s.dep.de_getblockf = Xfer.shm → ∀ io2 : Io, io2.mem = io1.mem →
      read_frame K s.dep.de_getblockf pageno io2 = Res.ok fr io2) := by
  have hit : dp_recv_iter K E pageno s = Res.ok none { dep := s.dep, io := io1 } := by
    rw [dp_recv_iter_frame hcur hrd,
      dp_recv_frame_valid (s := { dep := s.dep, io := io1 }) h1 h2 hl1 hl2 hn1 hn2 hty hen]
    unfold dp_pkt2user
    rw [if_pos (by rw [hnr]; simp)]
    rfl
  have hloop : ∀ f : Nat, dp_recv_loop K E (f + 1) pageno s =
      Res.ok () { dep := s.dep, io := io1 } := by
    intro f
    unfold dp_recv_loop
    rw [hit]
    rfl
  have hf := read_frame_frame K s.dep.de_getblockf pageno
    (outb_reg0 Reg.DP_CR (K.CR_PS_P0 : Int)
      (inb_curr (outb_reg0 Reg.DP_CR (K.CR_PS_P1 : Int) s.io)).2)
  have hm := read_frame_mem K s.dep.de_getblockf pageno
    (outb_reg0 Reg.DP_CR (K.CR_PS_P0 : Int)
      (inb_curr (outb_reg0 Reg.DP_CR (K.CR_PS_P1 : Int) s.io)).2)
  have hu := read_frame_ubyte K s.dep.de_getblockf pageno
    (outb_reg0 Reg.DP_CR (K.CR_PS_P0 : Int)
      (inb_curr (outb_reg0 Reg.DP_CR (K.CR_PS_P1 : Int) s.io)).2)
  rw [hrd] at hf hm hu
  have hcb : (inb_curr (outb_reg0 Reg.DP_CR (K.CR_PS_P1 : Int) s.io)).2.bnry = s.io.bnry := by
    unfold inb_curr
    split <;> rfl
  have hcm : (inb_curr (outb_reg0 Reg.DP_CR (K.CR_PS_P1 : Int) s.io)).2.mem = s.io.mem := by
    unfold inb_curr
    split <;> rfl
  have hcu : (inb_curr (outb_reg0 Reg.DP_CR (K.CR_PS_P1 : Int) s.io)).2.ubyte = s.io.ubyte := by
    unfold inb_curr
    split <;> rfl
  have hco : (inb_curr (outb_reg0 Reg.DP_CR (K.CR_PS_P1 : Int) s.io)).2.out =
      s.io.out ++ [Ev.outb0 Reg.DP_CR (K.CR_PS_P1 : Int)] := by
    rw [inb_curr_out, outb_reg0_out]
  have hb : io1.bnry = s.io.bnry := by
    have := hf.bnry
    simp only [Res.state, outb_reg0] at this
    exact this.trans hcb
  refine ⟨hloop fuel, ?_, hb, ?_, ?_, ?_, ?_, ?_⟩
  · intro hp
    unfold dp_recv
    dsimp only
    have : (if inb_bnry s.io + 1 = s.dep.de_stoppage then s.dep.de_startpage
        else inb_bnry s.io + 1) = pageno := hp.symm
    rw [this]
    exact hloop _
  · have : io1.mem = _ := hm
    simp only [outb_reg0] at this
    exact this.trans hcm
  · have : io1.ubyte = _ := hu
    simp only [outb_reg0] at this
    exact this.trans hcu
  · unfold recv_start inb_bnry
    rw [hb]
  · obtain ⟨B, eB, qB⟩ := hf.out
    simp only [Res.state] at eB
    rw [eB, outb_reg0_out, hco, List.append_assoc, List.append_assoc]
    refine ⟨_, rfl, ?_⟩
    intro e he
    rcases List.mem_append.1 he with h | h
    · simp at h
      subst h
      rfl
    · rcases List.mem_append.1 h with h | h
      · simp at h
        subst h
        rfl
      · exact qB e h
  · intro hshm io2 hio2
    rw [hshm] at hrd ⊢
    have e1 := read_frame_shm_congr K pageno (hio2.trans hm)
    rw [hrd] at e1
    have e2 := read_frame_shm K pageno io2
    rw [e2] at e1 ⊢
    simp only [Res.value, Option.some.injEq] at e1
    rw [e1]

set_option maxRecDepth 100000 in
/-- The statement at work on the initialised port 0 with a frame of 100 bytes
at page 13 and no read posted. -/
theorem no_read_posted_witness :
    sys_rx.dep.de_flags.DEF_READING = false ∧ recv_start sys_rx.dep sys_rx.io = 13 ∧
    dp_recv_loop hdr env0 (0 + 1) 13 sys_rx =
      Res.ok () { dep := sys_rx.dep, io := (curr_read hdr sys_rx).io } ∧
    (13 = recv_start sys_rx.dep sys_rx.io →
      dp_recv hdr env0 sys_rx = Res.ok () { dep := sys_rx.dep, io := (curr_read hdr sys_rx).io }) :=
  ⟨by decide, by decide,
    (no_read_posted hdr env0 0 13 sys_rx (Frame.mk 1 14 104 0 0x0800) (curr_read hdr sys_rx).io
      (by decide) (by decide) (by decide) rfl (by decide) (by decide) (by decide) (by decide)
      (by decide) (by decide) (by decide)).1,
    (no_read_posted hdr env0 0 13 sys_rx (Frame.mk 1 14 104 0 0x0800) (curr_read hdr sys_rx).io
      (by decide) (by decide) (by decide) rfl (by decide) (by decide) (by decide) (by decide)
      (by decide) (by decide) (by decide)).2.1⟩

theorem dp_recv_frame_some {K : Hdr} {E : Env} {pageno curr next : Nat} {fr : Frame}
    {s s1 : Sys} (hen : s.dep.de_flags.DEF_ENABLED = true)
    (h : dp_recv_frame K E pageno curr fr s = Res.ok (some next) s1) :
    next = curr ∧ s1.io.curr = s.io.curr ∧ s1.io.curr_next = s.io.curr_next := by
  unfold dp_recv_frame at h
  dsimp only at h
  by_cases c1 : ¬ bit fr.dr_status K.RSR_PRX = true
  · rw [if_pos c1] at h
    injection h with h3 h4
    injection h3 with h3
    subst h4
    exact ⟨h3.symm, by rw [write_bnry_io]; rfl, by rw [write_bnry_io]; rfl⟩
  rw [if_neg c1] at h
  by_cases c2 : bit fr.dr_status (255 ^^^ ((K.RSR_PHY ||| K.RSR_PRX) &&& 255)) = true
  · rw [if_pos c2] at h
    injection h with h3 h4
    injection h3 with h3
    subst h4
    exact ⟨h3.symm, by rw [write_bnry_io]; rfl, by rw [write_bnry_io]; rfl⟩
  rw [if_neg c2] at h
  by_cases c3 : frame_length K fr < 60 ∨ frame_length K fr > 1514
  · rw [if_pos c3] at h
    injection h with h3 h4
    injection h3 with h3
    subst h4
    exact ⟨h3.symm, by rw [write_bnry_io], by rw [write_bnry_io]⟩
  rw [if_neg c3] at h
  by_cases c4 : fr.dr_next < s.dep.de_startpage ∨ fr.dr_next ≥ s.dep.de_stoppage
  · rw [if_pos c4] at h
    injection h with h3 h4
    injection h3 with h3
    subst h4
    exact ⟨h3.symm, by rw [write_bnry_io], by rw [write_bnry_io]⟩
  rw [if_neg c4] at h
  by_cases c5 : fr.eth_type = E.eth_ign_proto
  · rw [if_pos c5] at h
    injection h with h3 h4
    injection h3 with h3
    subst h4
    exact ⟨h3.symm, by rw [write_bnry_io]; rfl, by rw [write_bnry_io]; rfl⟩
  rw [if_neg c5, if_pos hen] at h
  obtain ⟨r, s2, _, h6⟩ := Res.bind_ok h
  by_cases c6 : ¬ r = true
  · rw [if_pos c6] at h6
    cases h6
  · rw [if_neg c6] at h6
    cases h6

theorem dp_recv_iter_some {K : Hdr} {E : Env} {pageno next : Nat} {s s1 : Sys}
    (hen : s.dep.de_flags.DEF_ENABLED = true) (hq : s.io.curr_next = [])
    (h : dp_recv_iter K E pageno s = Res.ok (some next) s1) :
    next = s.io.curr ∧ s1.io.curr = s.io.curr ∧ s1.io.curr_next = [] := by
  have hc : inb_curr (outb_reg0 Reg.DP_CR (K.CR_PS_P1 : Int) s.io) =
      (s.io.curr, outb_reg0 Reg.DP_CR (K.CR_PS_P1 : Int) s.io) := inb_curr_nil hq
  unfold dp_recv_iter at h
  dsimp only at h
  rw [hc] at h
  dsimp only at h
  by_cases he : s.io.curr = pageno
  · rw [if_pos he] at h
    cases h
  rw [if_neg he] at h
  obtain ⟨fr, s0, h1, h2⟩ := Res.bind_ok h
  obtain ⟨hd, hr⟩ := lift_io_ok h1
  have hf := read_frame_frame K s.dep.de_getblockf pageno
    (outb_reg0 Reg.DP_CR (K.CR_PS_P0 : Int) (outb_reg0 Reg.DP_CR (K.CR_PS_P1 : Int) s.io))
  rw [hr] at hf
  have hF : IoFrame s.io s0.io :=
    ((outb_reg0_frame Reg.DP_CR (K.CR_PS_P1 : Int) s.io rfl).ftrans
      (outb_reg0_frame Reg.DP_CR (K.CR_PS_P0 : Int) _ rfl)).ftrans hf
  have hen0 : s0.dep.de_flags.DEF_ENABLED = true := by
    rw [hd]
    exact hen
  obtain ⟨e1, e2, e3⟩ := dp_recv_frame_some hen0 h2
  exact ⟨e1, e2.trans hF.curr, e3.trans (hF.curr_next.trans hq)⟩

/-- C29: with `DEF_ENABLED` set and a `DP_CURR` that does not move during the
call, the body of the loop of `dp_recv` runs at most twice, whatever the ring
holds.  A pass that does not end the loop (every kind of dropped frame) goes
on at the value of `DP_CURR`, and leaves the register as it is; the pass that
follows reads `DP_CURR`, finds it equal to `pageno` and ends the loop, having
only logged the two writes of `DP_CR`.  So the loop, for every budget of two
or more passes and every start page, is its first pass followed, if that pass
does not end it, by the two writes of `DP_CR`; this is also what `dp_recv`
does: the budget is never the reason the loop ends. -/
theorem recv_walk_two_passes (K : Hdr) (E : Env) (fuel pageno : Nat) (s : Sys)
    (hen : s.dep.de_flags.DEF_ENABLED = true) (hq : s.io.curr_next = []) :
    (∀ (next : Nat) (s1 : Sys), dp_recv_iter K E pageno s = Res.ok (some next) s1 →
      next = s.io.curr ∧ s1.io.curr = s.io.curr ∧
      dp_recv_iter K E next s1 = Res.ok none (curr_read K s1)) ∧
    dp_recv_loop K E (fuel + 2) pageno s =
      ((dp_recv_iter K E pageno s).bind fun r s1 =>
        match r with
        | none => Res.ok () s1
        | some _ => Res.ok () (curr_read K s1)) ∧
    dp_recv K E s =
      ((dp_recv_iter K E (recv_start s.dep s.io) s).bind fun r s1 =>
        match r with
        | none => Res.ok () s1
        | some _ => Res.ok () (curr_read K s1)) := by
  have hsec : ∀ (p next : Nat) (s1 : Sys), dp_recv_iter K E p s = Res.ok (some next) s1 →
      next = s.io.curr ∧ s1.io.curr = s.io.curr ∧
      dp_recv_iter K E next s1 = Res.ok none (curr_read K s1) := by
    intro p next s1 h
    obtain ⟨e1, e2, e3⟩ := dp_recv_iter_some hen hq h
    exact ⟨e1, e2, dp_recv_iter_caught_up e3 (e2.trans e1.symm)⟩
  have hloop : ∀ (f p : Nat), dp_recv_loop K E (f + 2) p s =
      ((dp_recv_iter K E p s).bind fun r s1 =>
        match r with
        | none => Res.ok () s1
        | some _ => Res.ok () (curr_read K s1)) := by
    intro f p
    rw [dp_recv_loop]
    cases hr : dp_recv_iter K E p s with
    | halt h st => rfl
    | ok r s1 =>
      cases r with
      | none => rfl
      | some next =>
        dsimp only [Res.bind]
        rw [dp_recv_loop, (hsec p next s1 hr).2.2]
        rfl
  refine ⟨hsec pageno, hloop fuel pageno, ?_⟩
  unfold dp_recv
  dsimp only
  rw [hq]
  exact hloop 0 _

set_option maxRecDepth 100000 in
/-- The walk on the port with a frame of length 59 at page 13 and the chip at
page 14: the first pass drops the frame and goes on at page 14, the second
ends the loop. -/
theorem recv_walk_two_passes_witness :
    (dp_recv_iter hdr env0 13 sys_short).value = some (some 14) ∧
    dp_recv_loop hdr env0 (5 + 2) 13 sys_short =
      ((dp_recv_iter hdr env0 13 sys_short).bind fun r s1 =>
        match r with
        | none => Res.ok () s1
        | some _ => Res.ok () (curr_read hdr s1)) :=
  ⟨by decide, (recv_walk_two_passes hdr env0 5 13 sys_short (by decide) (by decide)).2.1⟩

theorem dp_send_avail {K : Hdr} {E : Env} {s : Sys} (h : s.dep.de_flags.DEF_SEND_AVAIL = true) :
    dp_send K E s =
      match s.dep.de_sendmsg.m_type with
      | MType.DL_WRITE => do_vwrite K E s.dep.de_sendmsg true false (clear_avail s)
      | MType.DL_WRITEV => do_vwrite K E s.dep.de_sendmsg true true (clear_avail s)
      | _ => Res.halt Halt.wrong_type (clear_avail s) := by
  unfold dp_send
  rw [if_neg (by rw [h]; simp)]
  rfl

theorem dp_send_idle {K : Hdr} {E : Env} {s : Sys} (h : s.dep.de_flags.DEF_SEND_AVAIL = false) :
    dp_send K E s = Res.ok () s := by
  unfold dp_send
  rw [if_pos (by rw [h]; simp)]

theorem dp_send_replay {K : Hdr} {E : Env} {s : Sys} {vectored : Bool}
    (h : s.dep.de_flags.DEF_SEND_AVAIL = true)
    (ht : s.dep.de_sendmsg.m_type = (if vectored then MType.DL_WRITEV else MType.DL_WRITE)) :
    dp_send K E s = do_vwrite K E s.dep.de_sendmsg true vectored (clear_avail s) := by
  rw [dp_send_avail h]
  cases vectored
  · rw [ht]
    rfl
  · rw [ht]
    rfl

theorem next_slot_self {t nr : Nat} (h : t < nr) : next_slot t nr = t ↔ nr = 1 := by
  unfold next_slot
  split <;> omega

theorem tx_done_keeps (K : Hdr) (isr : Nat) (s : Sys) :
    (tx_done K isr s).dep.de_sendq_nr = s.dep.de_sendq_nr ∧
    (tx_done K isr s).dep.de_sendq_head = s.dep.de_sendq_head ∧
    (tx_done K isr s).dep.de_sendq_tail = next_slot s.dep.de_sendq_tail s.dep.de_sendq_nr ∧
    (tx_done K isr s).dep.de_sendq = set_sendq s.dep.de_sendq s.dep.de_sendq_tail
      { s.dep.de_sendq s.dep.de_sendq_tail with sq_filled := false } ∧
    (tx_done K isr s).dep.de_flags = s.dep.de_flags ∧
    (tx_done K isr s).dep.de_sendmsg = s.dep.de_sendmsg ∧
    (tx_done K isr s).dep.de_mode = s.dep.de_mode := by
  obtain ⟨a1, a2, a3, a4, a5, a6, a7, _, _⟩ := tx_stat_keeps K isr s
  obtain ⟨b1, b2, b3, b4, b5, b6, b7, _, _⟩ := tx_complete_keeps K (tx_stat K isr s)
  unfold tx_done
  refine ⟨b1.trans a2, b2.trans a3, ?_, ?_, b5.trans a5, b6.trans a6, b7.trans a7⟩
  · rw [b3, a4, a2]
  · rw [b4, a1, a4]

theorem tx_block_effect (K : Hdr) (hK : CrBits K) (E : Env) (isr : Nat) (s : Sys)
    (hf : (s.dep.de_sendq s.dep.de_sendq_tail).sq_filled = true)
    (ht : s.dep.de_sendq_tail < s.dep.de_sendq_nr) :
    ((tx_done K isr s).dep.de_sendq s.dep.de_sendq_tail).sq_filled = false ∧
    (tx_done K isr s).dep.de_sendq_tail = (s.dep.de_sendq_tail + 1) % s.dep.de_sendq_nr ∧
    (∀ i, i ≠ s.dep.de_sendq_tail → (tx_done K isr s).dep.de_sendq i = s.dep.de_sendq i) ∧
    (tx_done K isr s).dep.de_sendq_head = s.dep.de_sendq_head ∧
    (tx_done K isr s).dep.de_flags = s.dep.de_flags ∧
    (tx_done K isr s).io.out = s.io.out ++
      (if ((tx_done K isr s).dep.de_sendq
            ((s.dep.de_sendq_tail + 1) % s.dep.de_sendq_nr)).sq_filled
        then start_tx_events K
          ((tx_done K isr s).dep.de_sendq
            ((s.dep.de_sendq_tail + 1) % s.dep.de_sendq_nr)).sq_sendpage
          ((tx_done K isr s).dep.de_sendq
            ((s.dep.de_sendq_tail + 1) % s.dep.de_sendq_nr)).sq_size
        else []) ∧
    (s.dep.de_flags.DEF_SEND_AVAIL = false →
      dp_check_ints_tx K E isr s = Res.ok false (tx_done K isr s)) ∧
    (s.dep.de_flags.DEF_SEND_AVAIL = true →
      dp_check_ints_tx K E isr s =
        ((dp_send K E (tx_done K isr s)).bind fun _ s4 => Res.ok false s4) ∧
      dp_send K E (tx_done K isr s) =
        match s.dep.de_sendmsg.m_type with
        | MType.DL_WRITE =>
          do_vwrite K E s.dep.de_sendmsg true false (clear_avail (tx_done K isr s))
        | MType.DL_WRITEV =>
          do_vwrite K E s.dep.de_sendmsg true true (clear_avail (tx_done K isr s))
        | _ => Res.halt Halt.wrong_type (clear_avail (tx_done K isr s))) ∧
    (∀ (vectored : Bool) (s5 : Sys) (size : Int) (wi : iovec_dat) (io1 : Io),
      s.dep.de_flags.DEF_SEND_AVAIL = true →
      s.dep.de_sendmsg.m_type = (if vectored then MType.DL_WRITEV else MType.DL_WRITE) →
      bad_port s.dep.de_sendmsg.DL_PORT = false →
      s.dep.de_mode = Mode.DEM_ENABLED → s.dep.de_flags.DEF_ENABLED = true →
      s.dep.de_flags.DEF_PACK_SEND = false →
      s.dep.de_sendq_head = s.dep.de_sendq_tail → s.dep.de_sendq_nr ≤ K.SENDQ_NR →
      do_vwrite_size K E s.dep.de_sendmsg vectored
        { clear_avail (tx_done K isr s) with dep :=
          { (clear_avail (tx_done K isr s)).dep with de_client := s.dep.de_sendmsg.DL_PROC } }
        = Res.ok size s5 →
      ETH_MIN_PACK_SIZE ≤ size → size ≤ ETH_MAX_PACK_SIZE →
      call_user2nic K E (tx_done K isr s).dep.de_user2nicf s5.dep.de_write_iovec 0
        ((s.dep.de_sendq s.dep.de_sendq_head).sq_sendpage * K.DP_PAGESIZE) size.toNat
        (tx_done K isr s).io = Res.ok wi io1 →
      ∃ (s4 : Sys) (Bq : List Ev),
        dp_send K E (tx_done K isr s) = Res.ok () s4 ∧
        dp_check_ints_tx K E isr s = Res.ok false s4 ∧
        s4.dep.de_flags.DEF_SEND_AVAIL = false ∧ s4.dep.de_flags.DEF_PACK_SEND = true ∧
        (s4.dep.de_sendq s.dep.de_sendq_head).sq_filled = true ∧
        s4.dep.de_sendq_head = (s.dep.de_sendq_head + 1) % s.dep.de_sendq_nr ∧
        s4.dep.de_sendq_tail = (s.dep.de_sendq_tail + 1) % s.dep.de_sendq_nr ∧
        (s.dep.de_sendq_nr ≠ 1 → (s4.dep.de_sendq s.dep.de_sendq_head).sq_size = size.toNat) ∧
        (∀ e ∈ Bq, Ev.staged K e) ∧
        s4.io.out = (tx_done K isr s).io.out ++
          ([Ev.user2nic (tx_done K isr s).dep.de_user2nicf s5.dep.de_write_iovec 0
              ((s.dep.de_sendq s.dep.de_sendq_head).sq_sendpage * K.DP_PAGESIZE) size.toNat]
            ++ Bq
            ++ (if s.dep.de_sendq_nr = 1
                then start_tx_events K (s.dep.de_sendq s.dep.de_sendq_head).sq_sendpage
                  size.toNat
                else []))) := by
  obtain ⟨k1, k2, k3, k4, k5, k6, k7⟩ := tx_done_keeps K isr s
  obtain ⟨a1, a2, a3, a4, a5, a6, a7, _, a9⟩ := tx_stat_keeps K isr s
  have hmod : next_slot s.dep.de_sendq_tail s.dep.de_sendq_nr
      = (s.dep.de_sendq_tail + 1) % s.dep.de_sendq_nr := next_slot_mod ht
  have hf1 : ((tx_stat K isr s).dep.de_sendq (tx_stat K isr s).dep.de_sendq_tail).sq_filled
      = true := by
    rw [a1, a4]
    exact hf
  have htx : dp_check_ints_tx K E isr s =
      if (tx_done K isr s).dep.de_flags.DEF_SEND_AVAIL = true then
        (dp_send K E (tx_done K isr s)).bind fun _ s4 => Res.ok false s4
      else Res.ok false (tx_done K isr s) := by
    unfold dp_check_ints_tx
    dsimp only
    rw [if_neg (by rw [hf1]; simp)]
    rfl
  have hout : (tx_done K isr s).io.out = s.io.out ++
      (if ((tx_done K isr s).dep.de_sendq
            ((s.dep.de_sendq_tail + 1) % s.dep.de_sendq_nr)).sq_filled
        then start_tx_events K
          ((tx_done K isr s).dep.de_sendq
            ((s.dep.de_sendq_tail + 1) % s.dep.de_sendq_nr)).sq_sendpage
          ((tx_done K isr s).dep.de_sendq
            ((s.dep.de_sendq_tail + 1) % s.dep.de_sendq_nr)).sq_size
        else []) := by
    have := tx_complete_out K (tx_stat K isr s)
    rw [a9] at this
    have e : (tx_complete K (tx_stat K isr s)).dep.de_sendq_tail
        = (s.dep.de_sendq_tail + 1) % s.dep.de_sendq_nr := k3.trans hmod
    rw [e] at this
    exact this
  refine ⟨?_, k3.trans hmod, ?_, k2, k5, hout, ?_, ?_, ?_⟩
  · rw [k4]
    simp only [set_sendq, if_true]
  · intro i hi
    rw [k4]
    unfold set_sendq
    rw [if_neg hi]
  · intro ha
    rw [htx, if_neg (by rw [k5, ha]; simp)]
  · intro ha
    refine ⟨?_, ?_⟩
    · rw [htx, if_pos (by rw [k5, ha])]
    · rw [dp_send_avail (by rw [k5, ha]), k6]
  · intro vectored s5 size wi io1 ha hty hp hm hen hps hfull hnr hsz hmin hmax hx
    have hhd : s.dep.de_sendq_head < s.dep.de_sendq_nr := by
      rw [hfull]
      exact ht
    have hrun := @do_vwrite_enqueue_run K E s.dep.de_sendmsg true vectored
      (clear_avail (tx_done K isr s)) s5 size wi io1 hp
      (by show (tx_done K isr s).dep.de_mode = _; rw [k7]; exact hm)
      (by show (tx_done K isr s).dep.de_flags.DEF_ENABLED = _; rw [k5]; exact hen)
      rfl
      (by
        show ((tx_done K isr s).dep.de_sendq (tx_done K isr s).dep.de_sendq_head).sq_filled = _
        rw [k2, k4, hfull]
        simp only [set_sendq, if_true])
      (by show (tx_done K isr s).dep.de_flags.DEF_PACK_SEND = _; rw [k5]; exact hps)
      (by
        show (tx_done K isr s).dep.de_sendq_head < (tx_done K isr s).dep.de_sendq_nr
        rw [k1, k2]
        exact hhd)
      (by show (tx_done K isr s).dep.de_sendq_nr ≤ _; rw [k1]; exact hnr)
      hsz hmin hmax
      (by
        show call_user2nic K E (tx_done K isr s).dep.de_user2nicf s5.dep.de_write_iovec 0
          (((tx_done K isr s).dep.de_sendq (tx_done K isr s).dep.de_sendq_head).sq_sendpage
            * K.DP_PAGESIZE) size.toNat (tx_done K isr s).io = _
        have e : ((tx_done K isr s).dep.de_sendq (tx_done K isr s).dep.de_sendq_head).sq_sendpage
            = (s.dep.de_sendq s.dep.de_sendq_head).sq_sendpage := by
          rw [k2, k4]
          exact set_sendq_sendpage _ _ _ _ _
        rw [e]
        exact hx)
    obtain ⟨hdo, tmp, hs5⟩ := hrun
    rw [if_pos rfl] at hdo
    have hsend : dp_send K E (tx_done K isr s) =
        Res.ok () (enqueue_mid K size.toNat s5 wi io1) := by
      rw [@dp_send_replay K E (tx_done K isr s) vectored (by rw [k5, ha]) (by rw [k6]; exact hty),
        k6]
      exact hdo
    have hd := enqueue_mid_dep K size.toNat s5 wi io1
    have hs5d : s5.dep = { (clear_avail (tx_done K isr s)).dep with
        de_client := s.dep.de_sendmsg.DL_PROC,
        de_write_iovec := s5.dep.de_write_iovec, de_tmp_iovec := tmp } := by
      rw [hs5]
    have q1 : s5.dep.de_sendq = (tx_done K isr s).dep.de_sendq := by rw [hs5d]; rfl
    have q2 : s5.dep.de_sendq_head = s.dep.de_sendq_head := by rw [hs5d]; exact k2
    have q3 : s5.dep.de_sendq_tail = next_slot s.dep.de_sendq_tail s.dep.de_sendq_nr := by
      rw [hs5d]
      exact k3
    have q4 : s5.dep.de_sendq_nr = s.dep.de_sendq_nr := by rw [hs5d]; exact k1
    have q5 : s5.dep.de_flags.DEF_SEND_AVAIL = false := by rw [hs5d]; rfl
    have hte : s5.dep.de_sendq_tail = s5.dep.de_sendq_head ↔ s.dep.de_sendq_nr = 1 := by
      rw [q2, q3, hfull]
      exact next_slot_self ht
    obtain ⟨Bq, hq, hlog⟩ := @enqueue_mid_out_by K E (Ev.staged K)
      (tx_done K isr s).dep.de_user2nicf
      s5.dep.de_write_iovec wi ((s.dep.de_sendq s.dep.de_sendq_head).sq_sendpage * K.DP_PAGESIZE)
      size.toNat s5 (tx_done K isr s).io io1 (call_user2nic_staged K hK E) hx
    refine ⟨enqueue_mid K size.toNat s5 wi io1, Bq, hsend, ?_, ?_, ?_, ?_, ?_, ?_, ?_, hq, ?_⟩
    · rw [htx, if_pos (by rw [k5, ha]), hsend]
      rfl
    · rw [hd]
      exact q5
    · rw [hd]
    · rw [hd, ← q2]
      simp only [set_sendq, if_true]
    · rw [hd]
      show next_slot s5.dep.de_sendq_head s5.dep.de_sendq_nr = _
      rw [q2, q4]
      exact next_slot_mod hhd
    · rw [hd]
      show s5.dep.de_sendq_tail = _
      rw [q3]
      exact hmod
    · intro hne
      rw [hd, ← q2]
      simp only [set_sendq, if_true]
      rw [if_neg (mt hte.1 hne)]
    · rw [hlog]
      congr 2
      have e : (s5.dep.de_sendq s5.dep.de_sendq_head).sq_sendpage
          = (s.dep.de_sendq s.dep.de_sendq_head).sq_sendpage := by
        rw [q1, q2, k4]
        exact set_sendq_sendpage _ _ _ _ _
      by_cases h1 : s.dep.de_sendq_nr = 1
      · rw [if_pos (hte.2 h1), if_pos h1, e]
      · rw [if_neg (by rw [hte]; exact h1), if_neg h1]

theorem res_bind_assoc {σ α β γ : Type} (r : Res σ α) (f : α → σ → Res σ β)
    (g : β → σ → Res σ γ) :
    (r.bind f).bind g = r.bind fun a s => (f a s).bind g := by
  cases r <;> rfl

theorem dp_check_ints_pass {K : Hdr} {E : Env} {s : Sys} {isr : Nat} {rest : List Nat}
    (hen : s.dep.de_flags.DEF_ENABLED = true) (hisr : s.io.isr = isr :: rest) (h0 : isr ≠ 0) :
    dp_check_ints K E s =
      (if bit isr (K.ISR_PTX ||| K.ISR_TXE) then dp_check_ints_tx K E isr (isr_ack isr s)
        else Res.ok false (isr_ack isr s)).bind fun cont s2 =>
        if cont then
          (dp_check_ints_loop K E (rest.length + 1) s2).bind fun _ s1 =>
            if s1.dep.de_flags.DEF_READING ∧ s1.dep.de_flags.DEF_STOPPED then dp_reset K E s1
            else Res.ok () s1
        else check_ints_rest K E isr (rest.length + 1) s2 := by
  have hi : (inb_isr s.io).1 = isr := by
    unfold inb_isr
    rw [hisr]
    rfl
  have hl : s.io.isr.length + 1 = rest.length + 1 + 1 := by rw [hisr]; rfl
  unfold dp_check_ints
  rw [if_neg (by rw [hen]; simp), hl]
  rw [dp_check_ints_loop]
  dsimp only
  rw [hi, if_neg h0, res_bind_assoc]
  congr 1
  funext cont s2
  cases cont
  · rfl
  · rfl

/-- C21: a pass of the loop of `dp_check_ints` (lines 821-887) on an enabled
port, for the status `isr` read from `DP_ISR` and written back (the state
`isr_ack`).  The guard of line 827: when `isr` has neither `ISR_PTX` nor
`ISR_TXE`, the transmit block is not run, and `dp_check_ints` goes on from
line 889 with the port entry as it was.  When `isr` has one of the two bits
and the tail slot is filled, the state `tx_done` is reached after the
statistics: the tail slot is marked empty, the other slots, the head and the
flags are as before, the tail is `(tail + 1) mod de_sendq_nr`, and the log has
grown, after the write of `DP_ISR`, by the four writes that start the slot at
the new tail (its send page, its stored `sq_size`, then `CR_TXP`) if that slot
is filled, and by nothing otherwise.  Without a deferred write
`dp_check_ints` goes on from line 889 in that state.  With `DEF_SEND_AVAIL`
set, `dp_send` is run from that state first: it clears `DEF_SEND_AVAIL` and
calls `do_vwrite` with the saved message `de_sendmsg` and `from_int` true.
When the ring was full (head equal to tail), the saved message is a write for
a legal port of the enabled port entry, and the size computed and the staging
call succeed, `dp_send` returns with the saved frame in the slot at the old
head and `dp_check_ints` goes on from line 889: `DEF_SEND_AVAIL` is clear,
`DEF_PACK_SEND` set, the slot filled, the head advanced, and the log has
grown, after the writes of the completion, by the staging call, whose own
events write none of the transmit registers and no `CR_TXP`, and, exactly
when `de_sendq_nr = 1`, by the four writes that start the replayed frame;
otherwise its size is stored in the slot.  The writes of the transmit
registers and of `CR_TXP` of the whole pass up to line 887 are those of the
completion followed by those of the replay, and no others. -/
theorem tx_completion (K : Hdr) (E : Env) (s : Sys) (isr : Nat) (rest : List Nat)
    (hK : CrBits K) (hen : s.dep.de_flags.DEF_ENABLED = true)
    (hisr : s.io.isr = isr :: rest) (h0 : isr ≠ 0)
    (ht : s.dep.de_sendq_tail < s.dep.de_sendq_nr) :
    (isr_ack isr s).dep = s.dep ∧
    (isr_ack isr s).io.out = s.io.out ++ [Ev.outb0 Reg.DP_ISR (isr : Int)] ∧
    (bit isr (K.ISR_PTX ||| K.ISR_TXE) = false →
      dp_check_ints K E s = check_ints_rest K E isr (rest.length + 1) (isr_ack isr s)) ∧
    (bit isr (K.ISR_PTX ||| K.ISR_TXE) = true →
      (s.dep.de_sendq s.dep.de_sendq_tail).sq_filled = true →
      ((tx_done K isr (isr_ack isr s)).dep.de_sendq s.dep.de_sendq_tail).sq_filled = false ∧
      (tx_done K isr (isr_ack isr s)).dep.de_sendq_tail =
        (s.dep.de_sendq_tail + 1) % s.dep.de_sendq_nr ∧
      (∀ i, i ≠ s.dep.de_sendq_tail →
        (tx_done K isr (isr_ack isr s)).dep.de_sendq i = s.dep.de_sendq i) ∧
      (tx_done K isr (isr_ack isr s)).dep.de_sendq_head = s.dep.de_sendq_head ∧
      (tx_done K isr (isr_ack isr s)).dep.de_flags = s.dep.de_flags ∧
      (tx_done K isr (isr_ack isr s)).io.out = s.io.out ++ [Ev.outb0 Reg.DP_ISR (isr : Int)] ++
        (if ((tx_done K isr (isr_ack isr s)).dep.de_sendq
              ((s.dep.de_sendq_tail + 1) % s.dep.de_sendq_nr)).sq_filled
          then start_tx_events K
            ((tx_done K isr (isr_ack isr s)).dep.de_sendq
              ((s.dep.de_sendq_tail + 1) % s.dep.de_sendq_nr)).sq_sendpage
            ((tx_done K isr (isr_ack isr s)).dep.de_sendq
              ((s.dep.de_sendq_tail + 1) % s.dep.de_sendq_nr)).sq_size
          else []) ∧
      (s.dep.de_flags.DEF_SEND_AVAIL = false →
        dp_check_ints K E s =
          check_ints_rest K E isr (rest.length + 1) (tx_done K isr (isr_ack isr s))) ∧
      (s.dep.de_flags.DEF_SEND_AVAIL = true →
        dp_check_ints K E s =
          ((dp_send K E (tx_done K isr (isr_ack isr s))).bind fun _ s4 =>
            check_ints_rest K E isr (rest.length + 1) s4) ∧
        dp_send K E (tx_done K isr (isr_ack isr s)) =
          match s.dep.de_sendmsg.m_type with
          | MType.DL_WRITE => do_vwrite K E s.dep.de_sendmsg true false
              (clear_avail (tx_done K isr (isr_ack isr s)))
          | MType.DL_WRITEV => do_vwrite K E s.dep.de_sendmsg true true
              (clear_avail (tx_done K isr (isr_ack isr s)))
          | _ => Res.halt Halt.wrong_type (clear_avail (tx_done K isr (isr_ack isr s)))) ∧
      (∀ (vectored : Bool) (s5 : Sys) (size : Int) (wi : iovec_dat) (io1 : Io),
        s.dep.de_flags.DEF_SEND_AVAIL = true →
        s.dep.de_sendmsg.m_type = (if vectored then MType.DL_WRITEV else MType.DL_WRITE) →
        bad_port s.dep.de_sendmsg.DL_PORT = false →
        s.dep.de_mode = Mode.DEM_ENABLED →
        s.dep.de_flags.DEF_PACK_SEND = false →
        s.dep.de_sendq_head = s.dep.de_sendq_tail → s.dep.de_sendq_nr ≤ K.SENDQ_NR →
        do_vwrite_size K E s.dep.de_sendmsg vectored
          { clear_avail (tx_done K isr (isr_ack isr s)) with dep :=
            { (clear_avail (tx_done K isr (isr_ack isr s))).dep with
              de_client := s.dep.de_sendmsg.DL_PROC } }
          = Res.ok size s5 →
        ETH_MIN_PACK_SIZE ≤ size → size ≤ ETH_MAX_PACK_SIZE →
        call_user2nic K E (tx_done K isr (isr_ack isr s)).dep.de_user2nicf
          s5.dep.de_write_iovec 0
          ((s.dep.de_sendq s.dep.de_sendq_head).sq_sendpage * K.DP_PAGESIZE) size.toNat
          (tx_done K isr (isr_ack isr s)).io = Res.ok wi io1 →
        ∃ (s4 : Sys) (Bq : List Ev),
          dp_send K E (tx_done K isr (isr_ack isr s)) = Res.ok () s4 ∧
          dp_check_ints K E s = check_ints_rest K E isr (rest.length + 1) s4 ∧
          s4.dep.de_flags.DEF_SEND_AVAIL = false ∧ s4.dep.de_flags.DEF_PACK_SEND = true ∧
          (s4.dep.de_sendq s.dep.de_sendq_head).sq_filled = true ∧
          s4.dep.de_sendq_head = (s.dep.de_sendq_head + 1) % s.dep.de_sendq_nr ∧
          s4.dep.de_sendq_tail = (s.dep.de_sendq_tail + 1) % s.dep.de_sendq_nr ∧
          (s.dep.de_sendq_nr ≠ 1 →
            (s4.dep.de_sendq s.dep.de_sendq_head).sq_size = size.toNat) ∧
          (∀ e ∈ Bq, Ev.quiet e = true ∧ Ev.isTxReg K e = false) ∧
          s4.io.out = (tx_done K isr (isr_ack isr s)).io.out ++
            ([Ev.user2nic (tx_done K isr (isr_ack isr s)).dep.de_user2nicf
                s5.dep.de_write_iovec 0
                ((s.dep.de_sendq s.dep.de_sendq_head).sq_sendpage * K.DP_PAGESIZE) size.toNat]
              ++ Bq
              ++ (if s.dep.de_sendq_nr = 1
                  then start_tx_events K (s.dep.de_sendq s.dep.de_sendq_head).sq_sendpage
                    size.toNat
                  else [])) ∧
          (s4.io.out.drop s.io.out.length).filter (Ev.isTxReg K) =
            (if ((tx_done K isr (isr_ack isr s)).dep.de_sendq
                  ((s.dep.de_sendq_tail + 1) % s.dep.de_sendq_nr)).sq_filled
              then start_tx_events K
                ((tx_done K isr (isr_ack isr s)).dep.de_sendq
                  ((s.dep.de_sendq_tail + 1) % s.dep.de_sendq_nr)).sq_sendpage
                ((tx_done K isr (isr_ack isr s)).dep.de_sendq
                  ((s.dep.de_sendq_tail + 1) % s.dep.de_sendq_nr)).sq_size
              else []) ++
            (if s.dep.de_sendq_nr = 1
              then start_tx_events K (s.dep.de_sendq s.dep.de_sendq_head).sq_sendpage
                size.toNat
              else []))) := by
  have hpass := @dp_check_ints_pass K E s isr rest hen hisr h0
  have hout0 : (isr_ack isr s).io.out = s.io.out ++ [Ev.outb0 Reg.DP_ISR (isr : Int)] := rfl
  refine ⟨rfl, hout0, ?_, ?_⟩
  · intro hg
    rw [hpass, if_neg (by rw [hg]; simp)]
    rfl
  · intro hg hf
    rw [if_pos hg] at hpass
    obtain ⟨c1, c2, c3, c4, c5, c6, c7, c8, c9⟩ :=
      tx_block_effect K hK E isr (isr_ack isr s) hf ht
    refine ⟨c1, c2, c3, c4, c5, c6, ?_, ?_, ?_⟩
    · intro ha
      rw [hpass, c7 ha]
      rfl
    · intro ha
      refine ⟨?_, (c8 ha).2⟩
      rw [hpass, (c8 ha).1, res_bind_assoc]
      rfl
    · intro vectored s5 size wi io1 ha hty hp hm hps hfull hnr hsz hmin hmax hx
      obtain ⟨s4, Bq, d0, d1, d2, d3, d4, d5, d6, d7, d8, d9⟩ :=
        c9 vectored s5 size wi io1 ha hty hp hm hen hps hfull hnr hsz hmin hmax hx
      refine ⟨s4, Bq, d0, ?_, d2, d3, d4, d5, d6, d7, d8, d9, ?_⟩
      · rw [hpass, d1]
        rfl
      · rw [d9, c6, hout0]
        simp only [List.append_assoc, List.drop_left, List.filter_append]
        rw [filter_txreg_staged d8]
        have e1 : List.filter (Ev.isTxReg K) [Ev.outb0 Reg.DP_ISR (isr : Int)] = [] := rfl
        have e2 : ∀ f w o n c, List.filter (Ev.isTxReg K) [Ev.user2nic f w o n c] = [] :=
          fun _ _ _ _ _ => rfl
        rw [e1, e2]
        simp only [List.nil_append]
        have e3 : ∀ (c : Prop) [Decidable c] (p sz : Nat),
            List.filter (Ev.isTxReg K) (if c then start_tx_events K p sz else []) =
              if c then start_tx_events K p sz else [] := by
          intro c _ p sz
          split
          · exact start_tx_events_txreg K hK _ _
          · rfl
        rw [e3, e3]
        rfl

set_option maxRecDepth 100000 in
/-- The completion on the example run after the third write, whose queue of
two slots is full with a deferred write of 300 bytes pending, at an interrupt
with the status `ISR_PTX`: the tail moves from slot 0 to slot 1, whose frame
is started, and the deferred write is replayed into slot 0, where it waits
with its size stored; the only writes of the transmit registers are the four
that start slot 1. -/
theorem tx_completion_witness :
    run3.dep.de_sendq_tail = 0 ∧ run3.dep.de_sendq_head = 0 ∧ run3.dep.de_sendq_nr = 2 ∧
    run3.dep.de_flags.DEF_SEND_AVAIL = true ∧ (tx_int run3).io.isr = [hdr.ISR_PTX] ∧
    bit hdr.ISR_PTX (hdr.ISR_PTX ||| hdr.ISR_TXE) = true ∧
    ((tx_done hdr hdr.ISR_PTX (isr_ack hdr.ISR_PTX (tx_int run3))).dep.de_sendq
      (tx_int run3).dep.de_sendq_tail).sq_filled = false ∧
    (tx_done hdr hdr.ISR_PTX (isr_ack hdr.ISR_PTX (tx_int run3))).dep.de_sendq_tail =
      ((tx_int run3).dep.de_sendq_tail + 1) % (tx_int run3).dep.de_sendq_nr ∧
    ∃ s4 : Sys,
      dp_send hdr env0 (tx_done hdr hdr.ISR_PTX (isr_ack hdr.ISR_PTX (tx_int run3))) =
        Res.ok () s4 ∧
      dp_check_ints hdr env0 (tx_int run3) = check_ints_rest hdr env0 hdr.ISR_PTX 1 s4 ∧
      s4.dep.de_flags.DEF_SEND_AVAIL = false ∧ s4.dep.de_flags.DEF_PACK_SEND = true ∧
      (s4.dep.de_sendq (tx_int run3).dep.de_sendq_head).sq_filled = true ∧
      s4.dep.de_sendq_head =
        ((tx_int run3).dep.de_sendq_head + 1) % (tx_int run3).dep.de_sendq_nr ∧
      s4.dep.de_sendq_tail =
        ((tx_int run3).dep.de_sendq_tail + 1) % (tx_int run3).dep.de_sendq_nr ∧
      (s4.io.out.drop (tx_int run3).io.out.length).filter (Ev.isTxReg hdr) =
        [Ev.outb0 Reg.DP_TPSR 6, Ev.outb0 Reg.DP_TBCR1 0, Ev.outb0 Reg.DP_TBCR0 200,
          Ev.outb0 Reg.DP_CR 4] :=
  ⟨by decide, by decide, by decide, by decide, by decide, by decide,
    ((tx_completion hdr env0 (tx_int run3) hdr.ISR_PTX [] cr_bits_hdr (by decide) (by decide)
      (by decide) (by decide)).2.2.2 (by decide) (by decide)).1,
    ((tx_completion hdr env0 (tx_int run3) hdr.ISR_PTX [] cr_bits_hdr (by decide) (by decide)
      (by decide) (by decide)).2.2.2 (by decide) (by decide)).2.1,
    (((tx_completion hdr env0 (tx_int run3) hdr.ISR_PTX [] cr_bits_hdr (by decide) (by decide)
      (by decide) (by decide)).2.2.2 (by decide) (by decide)).2.2.2.2.2.2.2.2
      false run3_acked_size 300 run3_acked_size.dep.de_write_iovec run3_acked_stage.state
      (by decide) (by decide) (by decide) (by decide) (by decide) (by decide)
      (by decide) (Res.ok_of_value (by decide)) (by decide) (by decide)
      (Res.ok_of_value (by decide))).elim fun s4 h => h.elim fun _ h =>
        ⟨s4, h.1, h.2.1, h.2.2.1, h.2.2.2.1, h.2.2.2.2.1, h.2.2.2.2.2.1, h.2.2.2.2.2.2.1,
          h.2.2.2.2.2.2.2.2.2.2.trans (by decide)⟩⟩

theorem dp_reset_eq (K : Hdr) (E : Env) (s : Sys) :
    dp_reset K E s = (dp_send K E (reset_queue K s)).bind fun _ s2 =>
      Res.ok () (clear_stopped s2) := rfl

theorem next_slot_zero (nr : Nat) : next_slot 0 nr = 1 % nr := by
  unfold next_slot
  by_cases h : 0 + 1 = nr
  · rw [if_pos h, ← h]
  · rw [if_neg h]
    rcases Nat.lt_or_ge nr 2 with h2 | h2
    · have : nr = 0 := by omega
      subst this
      rfl
    · rw [Nat.mod_eq_of_lt (by omega)]

theorem dp_send_ok {K : Hdr} {E : Env} {s s1 : Sys} (h : dp_send K E s = Res.ok () s1) :
    (s.dep.de_flags.DEF_SEND_AVAIL = false ∧ s1 = s) ∨
    (s.dep.de_flags.DEF_SEND_AVAIL = true ∧
      ∃ v : Bool, do_vwrite K E s.dep.de_sendmsg true v (clear_avail s) = Res.ok () s1) := by
  cases ha : s.dep.de_flags.DEF_SEND_AVAIL with
  | false =>
    rw [dp_send_idle ha] at h
    cases h
    exact Or.inl ⟨rfl, rfl⟩
  | true =>
    rw [dp_send_avail ha] at h
    refine Or.inr ⟨rfl, ?_⟩
    split at h
    · exact ⟨false, h⟩
    · exact ⟨true, h⟩
    · cases h

theorem do_vwrite_replay_ok {K : Hdr} {E : Env} {mp : message} {v : Bool} {s s1 : Sys}
    (h : do_vwrite K E mp true v s = Res.ok () s1) :
    ∃ size : Int, Enqueued size.toNat s.dep s1.dep := by
  rcases do_vwrite_ok h with ⟨_, hfi, _⟩ | ⟨hm, _, _, hc⟩
  · cases hfi
  · rcases hc with ⟨_, hfi, _⟩ | ⟨hh, _, _⟩
    · cases hfi
    · obtain ⟨size, s2, _, _, _, he, _⟩ := do_vwrite_enq h hm hh
      exact ⟨size, he⟩

theorem dp_reset_post {K : Hdr} {E : Env} {s s1 : Sys} (h : dp_reset K E s = Res.ok () s1) :
    s1.dep.de_flags.DEF_STOPPED = false ∧ s1.dep.de_flags.DEF_SEND_AVAIL = false ∧
    s1.dep.de_flags.DEF_READING = s.dep.de_flags.DEF_READING ∧
    s1.dep.de_sendq_tail = 0 ∧ s1.dep.de_sendq_nr = s.dep.de_sendq_nr ∧
    (s.dep.de_flags.DEF_SEND_AVAIL = false →
      s1.dep.de_sendq_head = 0 ∧
      ∀ i, i < s.dep.de_sendq_nr → (s1.dep.de_sendq i).sq_filled = false) ∧
    (s.dep.de_flags.DEF_SEND_AVAIL = true →
      s1.dep.de_sendq_head = 1 % s.dep.de_sendq_nr ∧
      (s1.dep.de_sendq 0).sq_filled = true ∧
      ∀ i, i ≠ 0 → i < s.dep.de_sendq_nr → (s1.dep.de_sendq i).sq_filled = false) := by
  rw [dp_reset_eq] at h
  obtain ⟨_, s2, h2, h3⟩ := Res.bind_ok h
  cases h3
  have hclr : ∀ i, i < s.dep.de_sendq_nr →
      ((reset_queue K s).dep.de_sendq i).sq_filled = false := by
    intro i hi
    show (clear_sendq s.dep.de_sendq s.dep.de_sendq_nr i).sq_filled = false
    unfold clear_sendq
    rw [if_pos hi]
  rcases dp_send_ok h2 with ⟨ha, e⟩ | ⟨ha, v, hv⟩
  · subst e
    have ha' : s.dep.de_flags.DEF_SEND_AVAIL = false := ha
    refine ⟨rfl, ha', rfl, rfl, rfl, ?_, ?_⟩
    · intro _
      exact ⟨rfl, hclr⟩
    · intro h1
      rw [ha'] at h1
      cases h1
  · have ha' : s.dep.de_flags.DEF_SEND_AVAIL = true := ha
    obtain ⟨size, he⟩ := do_vwrite_replay_ok hv
    have hq : s2.dep.de_sendq = set_sendq (clear_sendq s.dep.de_sendq s.dep.de_sendq_nr) 0
        { sq_filled := true,
          sq_size := if (0 : Nat) = 0
            then (clear_sendq s.dep.de_sendq s.dep.de_sendq_nr 0).sq_size else size.toNat,
          sq_sendpage := (clear_sendq s.dep.de_sendq s.dep.de_sendq_nr 0).sq_sendpage } :=
      he.sendq
    refine ⟨rfl, he.send_avail, he.reading, he.tail, he.nr, ?_, ?_⟩
    · intro h1
      rw [ha'] at h1
      cases h1
    · intro _
      refine ⟨?_, ?_, ?_⟩
      · show s2.dep.de_sendq_head = _
        rw [he.head]
        exact next_slot_zero _
      · show (s2.dep.de_sendq 0).sq_filled = true
        rw [hq]
        simp only [set_sendq, if_true]
      · intro i hi hlt
        show (s2.dep.de_sendq i).sq_filled = false
        rw [hq]
        unfold set_sendq
        rw [if_neg hi]
        exact hclr i hlt

/-- C26: the reset of a chip that halted itself.  At the end of `dp_check_ints`
and, in `do_vread`, after `dp_recv`, `dp_reset` runs exactly when `DEF_READING`
and `DEF_STOPPED` are both set.  Whenever `dp_reset` returns, `DEF_STOPPED` and
`DEF_SEND_AVAIL` are clear, `DEF_READING` is as before, the tail is 0 and the
queue length unchanged; if no write was deferred the head is 0 and no slot of
the queue is filled; if one was, the head is `1 mod de_sendq_nr`, slot 0 is
filled and no other slot is.  Without a deferred write `dp_reset` always
returns, the port entry being that of `reset_queue` with `DEF_STOPPED`
cleared.  With one it returns when the saved message is a write for a legal
port of the enabled port entry (at least one and at most `SENDQ_NR` slots)
and the size computed and the staging call succeed; the log then ends with
the staging call of the saved message for the send page of slot 0 and the four
writes that start that frame. -/
theorem reset_after_halt (K : Hdr) (E : Env) :
    (∀ s s1 : Sys, s.dep.de_flags.DEF_ENABLED = true →
      dp_check_ints_loop K E (s.io.isr.length + 1) s = Res.ok () s1 →
      dp_check_ints K E s =
        if s1.dep.de_flags.DEF_READING = true ∧ s1.dep.de_flags.DEF_STOPPED = true
        then dp_reset K E s1 else Res.ok () s1) ∧
    (∀ (mp : message) (vectored : Bool) (s s1 s2 : Sys) (size : Int),
      bad_port mp.DL_PORT = false → s.dep.de_mode = Mode.DEM_ENABLED →
      s.dep.de_flags.DEF_ENABLED = true → s.dep.de_flags.DEF_READING = false →
      do_vread_size K E mp vectored { s with dep := { s.dep with de_client := mp.DL_PROC } }
        = Res.ok size s1 →
      ETH_MAX_PACK_SIZE ≤ size →
      dp_recv K E (set_reading s1) = Res.ok () s2 →
      do_vread K E mp vectored s =
        ((if s2.dep.de_flags.DEF_READING = true ∧ s2.dep.de_flags.DEF_STOPPED = true
          then dp_reset K E s2 else Res.ok () s2).bind fun _ s3 => reply E 0 s3)) ∧
    (∀ s s1 : Sys, dp_reset K E s = Res.ok () s1 →
      s1.dep.de_flags.DEF_STOPPED = false ∧ s1.dep.de_flags.DEF_SEND_AVAIL = false ∧
      s1.dep.de_flags.DEF_READING = s.dep.de_flags.DEF_READING ∧
      s1.dep.de_sendq_tail = 0 ∧ s1.dep.de_sendq_nr = s.dep.de_sendq_nr ∧
      (s.dep.de_flags.DEF_SEND_AVAIL = false →
        s1.dep.de_sendq_head = 0 ∧
        ∀ i, i < s.dep.de_sendq_nr → (s1.dep.de_sendq i).sq_filled = false) ∧
      (s.dep.de_flags.DEF_SEND_AVAIL = true →
        s1.dep.de_sendq_head = 1 % s.dep.de_sendq_nr ∧
        (s1.dep.de_sendq 0).sq_filled = true ∧
        ∀ i, i ≠ 0 → i < s.dep.de_sendq_nr → (s1.dep.de_sendq i).sq_filled = false)) ∧
    (∀ s : Sys, s.dep.de_flags.DEF_SEND_AVAIL = false →
      dp_reset K E s = Res.ok () (clear_stopped (reset_queue K s))) ∧
    (∀ (vectored : Bool) (s s5 : Sys) (size : Int) (wi : iovec_dat) (io1 : Io),
      s.dep.de_flags.DEF_SEND_AVAIL = true →
      s.dep.de_sendmsg.m_type = (if vectored then MType.DL_WRITEV else MType.DL_WRITE) →
      bad_port s.dep.de_sendmsg.DL_PORT = false →
      s.dep.de_mode = Mode.DEM_ENABLED → s.dep.de_flags.DEF_ENABLED = true →
      s.dep.de_flags.DEF_PACK_SEND = false →
      1 ≤ s.dep.de_sendq_nr → s.dep.de_sendq_nr ≤ K.SENDQ_NR →
      do_vwrite_size K E s.dep.de_sendmsg vectored
        { clear_avail (reset_queue K s) with dep :=
          { (clear_avail (reset_queue K s)).dep with de_client := s.dep.de_sendmsg.DL_PROC } }
        = Res.ok size s5 →
      ETH_MIN_PACK_SIZE ≤ size → size ≤ ETH_MAX_PACK_SIZE →
      call_user2nic K E s.dep.de_user2nicf s5.dep.de_write_iovec 0
        ((s.dep.de_sendq 0).sq_sendpage * K.DP_PAGESIZE) size.toNat
        (reset_queue K s).io = Res.ok wi io1 →
      ∃ (s1 : Sys) (Bq : List Ev),
        dp_reset K E s = Res.ok () s1 ∧ (∀ e ∈ Bq, Ev.quiet e = true) ∧
        s1.io.out = (reset_queue K s).io.out ++
          ([Ev.user2nic s.dep.de_user2nicf s5.dep.de_write_iovec 0
              ((s.dep.de_sendq 0).sq_sendpage * K.DP_PAGESIZE) size.toNat]
            ++ Bq ++ start_tx_events K (s.dep.de_sendq 0).sq_sendpage size.toNat)) := by
  refine ⟨?_, ?_, ?_, ?_, ?_⟩
  · intro s s1 hen hl
    unfold dp_check_ints
    rw [if_neg (by rw [hen]; simp), hl]
    rfl
  · intro mp vectored s s1 s2 size hp hm hen hrd hsz hmax hrecv
    unfold do_vread
    rw [if_neg (by rw [hp]; simp)]
    dsimp only
    rw [if_neg (by rw [hm]; simp), if_neg (by rw [hm]; simp), if_neg (by rw [hen]; simp),
      if_neg (by rw [hrd]; simp), hsz]
    dsimp only [Res.bind]
    rw [if_neg (by omega)]
    have : dp_recv K E { s1 with dep := { s1.dep with
        de_flags := { s1.dep.de_flags with DEF_READING := true } } } = Res.ok () s2 := hrecv
    rw [this]
  · intro s s1 h
    exact dp_reset_post h
  · intro s ha
    rw [dp_reset_eq, dp_send_idle (s := reset_queue K s) ha]
    rfl
  · intro vectored s s5 size wi io1 ha hty hp hm hen hps h1 hnr hsz hmin hmax hx
    have hrun := @do_vwrite_enqueue_run K E s.dep.de_sendmsg true vectored
      (clear_avail (reset_queue K s)) s5 size wi io1 hp hm hen rfl
      (by
        show (clear_sendq s.dep.de_sendq s.dep.de_sendq_nr 0).sq_filled = false
        unfold clear_sendq
        rw [if_pos (by omega)])
      hps (by show 0 < s.dep.de_sendq_nr; omega) hnr hsz hmin hmax
      (by
        show call_user2nic K E s.dep.de_user2nicf s5.dep.de_write_iovec 0
          ((clear_sendq s.dep.de_sendq s.dep.de_sendq_nr 0).sq_sendpage * K.DP_PAGESIZE)
          size.toNat (reset_queue K s).io = _
        rw [clear_sendq_sendpage]
        exact hx)
    obtain ⟨hdo, tmp, hs5⟩ := hrun
    rw [if_pos rfl] at hdo
    have hsend : dp_send K E (reset_queue K s) =
        Res.ok () (enqueue_mid K size.toNat s5 wi io1) := by
      rw [@dp_send_replay K E (reset_queue K s) vectored ha hty]
      exact hdo
    have hs5d : s5.dep = { (clear_avail (reset_queue K s)).dep with
        de_client := s.dep.de_sendmsg.DL_PROC,
        de_write_iovec := s5.dep.de_write_iovec, de_tmp_iovec := tmp } := by
      rw [hs5]
    have q1 : s5.dep.de_sendq = clear_sendq s.dep.de_sendq s.dep.de_sendq_nr := by
      rw [hs5d]
      rfl
    have q2 : s5.dep.de_sendq_head = 0 := by rw [hs5d]; rfl
    have q3 : s5.dep.de_sendq_tail = 0 := by rw [hs5d]; rfl
    obtain ⟨Bq, hq, hlog⟩ := @enqueue_mid_out K E s.dep.de_user2nicf
      s5.dep.de_write_iovec wi ((s.dep.de_sendq 0).sq_sendpage * K.DP_PAGESIZE)
      size.toNat s5 (reset_queue K s).io io1 hx
    refine ⟨clear_stopped (enqueue_mid K size.toNat s5 wi io1), Bq, ?_, hq, ?_⟩
    · rw [dp_reset_eq, hsend]
      rfl
    · show (enqueue_mid K size.toNat s5 wi io1).io.out = _
      rw [hlog, if_pos (by rw [q2, q3]), q1, q2, clear_sendq_sendpage]

set_option maxRecDepth 100000 in
/-- The reset on the example run after the third write, with a read posted and
the chip stopped: both frames in the queue of two slots are flushed and the
deferred write is replayed into slot 0. -/
theorem reset_after_halt_witness :
    run3_halted.dep.de_flags.DEF_SEND_AVAIL = true ∧
    (run3_halted.dep.de_sendq 0).sq_filled = true ∧
    (run3_halted.dep.de_sendq 1).sq_filled = true ∧
    (dp_reset hdr env0 run3_halted).state.dep.de_flags.DEF_STOPPED = false ∧
    (dp_reset hdr env0 run3_halted).state.dep.de_flags.DEF_SEND_AVAIL = false ∧
    (dp_reset hdr env0 run3_halted).state.dep.de_flags.DEF_READING =
      run3_halted.dep.de_flags.DEF_READING ∧
    (dp_reset hdr env0 run3_halted).state.dep.de_sendq_tail = 0 ∧
    (dp_reset hdr env0 run3_halted).state.dep.de_sendq_nr = run3_halted.dep.de_sendq_nr ∧
    (run3_halted.dep.de_flags.DEF_SEND_AVAIL = false →
      (dp_reset hdr env0 run3_halted).state.dep.de_sendq_head = 0 ∧
      ∀ i, i < run3_halted.dep.de_sendq_nr →
        ((dp_reset hdr env0 run3_halted).state.dep.de_sendq i).sq_filled = false) ∧
    (run3_halted.dep.de_flags.DEF_SEND_AVAIL = true →
      (dp_reset hdr env0 run3_halted).state.dep.de_sendq_head =
        1 % run3_halted.dep.de_sendq_nr ∧
      ((dp_reset hdr env0 run3_halted).state.dep.de_sendq 0).sq_filled = true ∧
      ∀ i, i ≠ 0 → i < run3_halted.dep.de_sendq_nr →
        ((dp_reset hdr env0 run3_halted).state.dep.de_sendq i).sq_filled = false) :=
  ⟨by decide, by decide, by decide,
    (reset_after_halt hdr env0).2.2.1 run3_halted (dp_reset hdr env0 run3_halted).state
      (Res.ok_of_isOk (by decide))⟩

/-! ### Runs that do not end in a panic of the replay -/

theorem Res.calm_ok {σ α : Type} (a : α) (s : σ) : (Res.ok a s : Res σ α).calm := trivial

theorem Res.calm_bind {σ α β : Type} {r : Res σ α} {f : α → σ → Res σ β} (h1 : r.calm)
    (h2 : ∀ a s1, r = Res.ok a s1 → (f a s1).calm) : (r.bind f).calm := by
  cases r with
  | ok a s => exact h2 a s rfl
  | halt h s => exact h1

theorem Res.calm_lift {α : Type} (s : Sys) {r : Res Io α} (h : r.calm) : (lift_io s r).calm := by
  cases r with
  | ok a io => trivial
  | halt h io => exact h

theorem get_userdata_calm (K : Hdr) (E : Env) (proc : Int) (addr : Nat) (n : Int)
    (w : List iovec) (io : Io) : (get_userdata K E proc addr n w io).calm := by
  simp only [get_userdata]
  split
  · split
    · exact ⟨by decide, by decide⟩
    · trivial
  · exact ⟨by decide, by decide⟩

theorem dp_next_iovec_calm (K : Hdr) (E : Env) (iovp : iovec_dat) (io : Io) :
    (dp_next_iovec K E iovp io).calm := by
  unfold dp_next_iovec
  split
  · dsimp only
    have hc := get_userdata_calm K E iovp.iod_proc_nr
      (iovp.iod_iovec_addr + K.IOVEC_NR * K.SIZEOF_IOVEC)
      (if iovp.iod_iovec_s - (K.IOVEC_NR : Int) > (K.IOVEC_NR : Int) then (K.IOVEC_NR : Int)
        else iovp.iod_iovec_s - (K.IOVEC_NR : Int)) iovp.iod_iovec io
    revert hc
    cases get_userdata K E iovp.iod_proc_nr
      (iovp.iod_iovec_addr + K.IOVEC_NR * K.SIZEOF_IOVEC)
      (if iovp.iod_iovec_s - (K.IOVEC_NR : Int) > (K.IOVEC_NR : Int) then (K.IOVEC_NR : Int)
        else iovp.iod_iovec_s - (K.IOVEC_NR : Int)) iovp.iod_iovec io with
    | ok a s => intro _; trivial
    | halt h s => intro hc; exact hc
  · exact ⟨by decide, by decide⟩

theorem calc_iovec_size_loop_calm (K : Hdr) (E : Env) (fuel : Nat) (size : Int) (i : Nat)
    (iovp : iovec_dat) (io : Io) : (calc_iovec_size_loop K E fuel size i iovp io).calm := by
  induction fuel generalizing size i iovp io with
  | zero => exact ⟨by decide, by decide⟩
  | succ n ih =>
    unfold calc_iovec_size_loop
    split
    · split
      · have hc := dp_next_iovec_calm K E iovp io
        revert hc
        cases dp_next_iovec K E iovp io with
        | ok a s => intro _; exact ih _ _ _ _
        | halt h s => intro hc; exact hc
      · exact ih _ _ _ _
    · trivial

theorem calc_iovec_size_calm (K : Hdr) (E : Env) (iovp : iovec_dat) (io : Io) :
    (calc_iovec_size K E iovp io).calm :=
  calc_iovec_size_loop_calm K E _ _ _ _ _

theorem dp_user2nic_loop_calm (K : Hdr) (E : Env) (fuel : Nat) (iovp : iovec_dat)
    (i offset a count : Nat) (io : Io) :
    (dp_user2nic_loop K E fuel iovp i offset a count io).calm := by
  induction fuel generalizing iovp i offset a count io with
  | zero => exact ⟨by decide, by decide⟩
  | succ n ih =>
    unfold dp_user2nic_loop
    split
    · split
      · have hc := dp_next_iovec_calm K E iovp io
        revert hc
        cases dp_next_iovec K E iovp io with
        | ok x s => intro _; exact ih _ _ _ _ _ _
        | halt h s => intro hc; exact hc
      · split
        · exact ⟨by decide, by decide⟩
        · split
          · exact ih _ _ _ _ _ _
          · dsimp only
            split
            · exact ih _ _ _ _ _ _
            · exact ⟨by decide, by decide⟩
    · trivial

theorem dp_nic2user_loop_calm (K : Hdr) (E : Env) (fuel : Nat) (iovp : iovec_dat)
    (i offset a count : Nat) (io : Io) :
    (dp_nic2user_loop K E fuel iovp i offset a count io).calm := by
  induction fuel generalizing iovp i offset a count io with
  | zero => exact ⟨by decide, by decide⟩
  | succ n ih =>
    unfold dp_nic2user_loop
    split
    · split
      · have hc := dp_next_iovec_calm K E iovp io
        revert hc
        cases dp_next_iovec K E iovp io with
        | ok x s => intro _; exact ih _ _ _ _ _ _
        | halt h s => intro hc; exact hc
      · split
        · exact ⟨by decide, by decide⟩
        · split
          · exact ih _ _ _ _ _ _
          · dsimp only
            split
            · exact ih _ _ _ _ _ _
            · exact ⟨by decide, by decide⟩
    · trivial

theorem dp_pio8_user2nic_loop_calm (K : Hdr) (E : Env) (fuel : Nat) (iovp : iovec_dat)
    (i offset count : Nat) (io : Io) :
    (dp_pio8_user2nic_loop K E fuel iovp i offset count io).calm := by
  induction fuel generalizing iovp i offset count io with
  | zero => exact ⟨by decide, by decide⟩
  | succ n ih =>
    unfold dp_pio8_user2nic_loop
    split
    · split
      · have hc := dp_next_iovec_calm K E iovp io
        revert hc
        cases dp_next_iovec K E iovp io with
        | ok x s => intro _; exact ih _ _ _ _ _
        | halt h s => intro hc; exact hc
      · split
        · exact ⟨by decide, by decide⟩
        · split
          · exact ih _ _ _ _ _
          · dsimp only
            split
            · exact ih _ _ _ _ _
            · exact ⟨by decide, by decide⟩
    · trivial

theorem dp_pio8_nic2user_loop_calm (K : Hdr) (E : Env) (fuel : Nat) (iovp : iovec_dat)
    (i offset count : Nat) (io : Io) :
    (dp_pio8_nic2user_loop K E fuel iovp i offset count io).calm := by
  induction fuel generalizing iovp i offset count io with
  | zero => exact ⟨by decide, by decide⟩
  | succ n ih =>
    unfold dp_pio8_nic2user_loop
    split
    · split
      · have hc := dp_next_iovec_calm K E iovp io
        revert hc
        cases dp_next_iovec K E iovp io with
        | ok x s => intro _; exact ih _ _ _ _ _
        | halt h s => intro hc; exact hc
      · split
        · exact ⟨by decide, by decide⟩
        · split
          · exact ih _ _ _ _ _
          · dsimp only
            split
            · exact ih _ _ _ _ _
            · exact ⟨by decide, by decide⟩
    · trivial

theorem dp_pio16_user2nic_loop_calm (K : Hdr) (E : Env) (fuel : Nat) (iovp : iovec_dat)
    (i offset count : Nat) (o : Odd) (io : Io) :
    (dp_pio16_user2nic_loop K E fuel iovp i offset count o io).calm := by
  induction fuel generalizing iovp i offset count o io with
  | zero => exact ⟨by decide, by decide⟩
  | succ n ih =>
    unfold dp_pio16_user2nic_loop
    split
    · split
      · have hc := dp_next_iovec_calm K E iovp io
        revert hc
        cases dp_next_iovec K E iovp io with
        | ok x s => intro _; exact ih _ _ _ _ _ _
        | halt h s => intro hc; exact hc
      · split
        · exact ⟨by decide, by decide⟩
        · split
          · exact ih _ _ _ _ _ _
          · dsimp only
            split
            · exact ih _ _ _ _ _ _
            · exact ⟨by decide, by decide⟩
    · trivial

theorem dp_pio16_nic2user_loop_calm (K : Hdr) (E : Env) (fuel : Nat) (iovp : iovec_dat)
    (i offset count : Nat) (o : Odd) (io : Io) :
    (dp_pio16_nic2user_loop K E fuel iovp i offset count o io).calm := by
  induction fuel generalizing iovp i offset count o io with
  | zero => exact ⟨by decide, by decide⟩
  | succ n ih =>
    unfold dp_pio16_nic2user_loop
    split
    · split
      · have hc := dp_next_iovec_calm K E iovp io
        revert hc
        cases dp_next_iovec K E iovp io with
        | ok x s => intro _; exact ih _ _ _ _ _ _
        | halt h s => intro hc; exact hc
      · split
        · exact ⟨by decide, by decide⟩
        · split
          · exact ih _ _ _ _ _ _
          · dsimp only
            split
            · exact ih _ _ _ _ _ _
            · exact ⟨by decide, by decide⟩
    · trivial

theorem wait_rdc_calm (K : Hdr) (iovp : iovec_dat) (io : Io) : (wait_rdc K iovp io).calm := by
  unfold wait_rdc
  split
  · trivial
  · exact ⟨by decide, by decide⟩

theorem call_user2nic_calm (K : Hdr) (E : Env) (f : Xfer) (iovp : iovec_dat)
    (offset nic_addr count : Nat) (io : Io) :
    (call_user2nic K E f iovp offset nic_addr count io).calm := by
  unfold call_user2nic
  cases f
  · exact dp_user2nic_loop_calm _ _ _ _ _ _ _ _ _
  · dsimp only [dp_pio8_user2nic]
    have h1 := dp_pio8_user2nic_loop_calm K E
      (count + 2 * iovp.iod_iovec_s.toNat + 2) iovp 0 offset count
      (remote_dma K K.CR_DM_RW nic_addr count (outb_reg0 Reg.DP_ISR (K.ISR_RDC : Int)
        { io with out := io.out ++ [Ev.user2nic Xfer.pio8 iovp offset nic_addr count] }))
    revert h1
    cases dp_pio8_user2nic_loop K E (count + 2 * iovp.iod_iovec_s.toNat + 2) iovp 0 offset count
      (remote_dma K K.CR_DM_RW nic_addr count (outb_reg0 Reg.DP_ISR (K.ISR_RDC : Int)
        { io with out := io.out ++ [Ev.user2nic Xfer.pio8 iovp offset nic_addr count] })) with
    | ok a s => intro _; exact wait_rdc_calm _ _ _
    | halt h s => intro h1; exact h1
  · dsimp only [dp_pio16_user2nic]
    have h1 := dp_pio16_user2nic_loop_calm K E
      (count + 2 * iovp.iod_iovec_s.toNat + 2) iovp 0 offset count
      { odd_byte := false, b0 := 0, b1 := 0 }
      (remote_dma K K.CR_DM_RW nic_addr ((count + 1) / 2 * 2)
        (outb_reg0 Reg.DP_ISR (K.ISR_RDC : Int)
        { io with out := io.out ++ [Ev.user2nic Xfer.pio16 iovp offset nic_addr count] }))
    revert h1
    cases dp_pio16_user2nic_loop K E (count + 2 * iovp.iod_iovec_s.toNat + 2) iovp 0 offset
      count { odd_byte := false, b0 := 0, b1 := 0 }
      (remote_dma K K.CR_DM_RW nic_addr ((count + 1) / 2 * 2)
        (outb_reg0 Reg.DP_ISR (K.ISR_RDC : Int)
        { io with out := io.out ++ [Ev.user2nic Xfer.pio16 iovp offset nic_addr count] })) with
    | ok a s =>
      intro _
      obtain ⟨a1, a2⟩ := a
      exact wait_rdc_calm _ _ _
    | halt h s => intro h1; exact h1

theorem call_nic2user_calm (K : Hdr) (E : Env) (f : Xfer) (nic_addr : Nat) (iovp : iovec_dat)
    (offset count : Nat) (io : Io) :
    (call_nic2user K E f nic_addr iovp offset count io).calm := by
  unfold call_nic2user
  cases f
  · exact dp_nic2user_loop_calm _ _ _ _ _ _ _ _ _
  · exact dp_pio8_nic2user_loop_calm _ _ _ _ _ _ _ _
  · exact dp_pio16_nic2user_loop_calm _ _ _ _ _ _ _ _ _

theorem call_getblock_calm (K : Hdr) (f : Xfer) (page offset size : Nat) (io : Io) :
    (call_getblock K f page offset size io).calm := by
  unfold call_getblock
  cases f
  · dsimp only [dp_getblock]
    split
    · trivial
    · exact ⟨by decide, by decide⟩
  · trivial
  · trivial

theorem read_frame_calm (K : Hdr) (f : Xfer) (pageno : Nat) (io : Io) :
    (read_frame K f pageno io).calm := by
  unfold read_frame
  refine Res.calm_bind (call_getblock_calm _ _ _ _ _ _) ?_
  intro hd io1 _
  refine Res.calm_bind (call_getblock_calm _ _ _ _ _ _) ?_
  intro et io2 _
  trivial

theorem reply_calm (E : Env) (err : Int) (s : Sys) : (reply E err s).calm := by
  unfold reply
  dsimp only
  split
  · exact ⟨by decide, by decide⟩
  · trivial

theorem do_vwrite_size_calm (K : Hdr) (E : Env) (mp : message) (v : Bool) (s : Sys) :
    (do_vwrite_size K E mp v s).calm := by
  unfold do_vwrite_size
  split
  · have h1 := get_userdata_calm K E mp.DL_PROC mp.DL_ADDR
      (if mp.DL_COUNT > (K.IOVEC_NR : Int) then (K.IOVEC_NR : Int) else mp.DL_COUNT)
      s.dep.de_write_iovec.iod_iovec s.io
    revert h1
    cases get_userdata K E mp.DL_PROC mp.DL_ADDR
      (if mp.DL_COUNT > (K.IOVEC_NR : Int) then (K.IOVEC_NR : Int) else mp.DL_COUNT)
      s.dep.de_write_iovec.iod_iovec s.io with
    | halt h io1 => intro h1; exact h1
    | ok w io1 =>
      intro _
      dsimp only
      have h2 := calc_iovec_size_calm K E
        { iod_iovec := w, iod_iovec_s := mp.DL_COUNT,
          iod_proc_nr := mp.DL_PROC, iod_iovec_addr := mp.DL_ADDR } io1
      revert h2
      cases calc_iovec_size K E
        { iod_iovec := w, iod_iovec_s := mp.DL_COUNT,
          iod_proc_nr := mp.DL_PROC, iod_iovec_addr := mp.DL_ADDR } io1 with
      | halt h io2 => intro h2; exact h2
      | ok x io2 =>
        intro _
        obtain ⟨x1, x2⟩ := x
        trivial
  · trivial

theorem do_vread_size_calm (K : Hdr) (E : Env) (mp : message) (v : Bool) (s : Sys) :
    (do_vread_size K E mp v s).calm := by
  unfold do_vread_size
  split
  · have h1 := get_userdata_calm K E mp.DL_PROC mp.DL_ADDR
      (if mp.DL_COUNT > (K.IOVEC_NR : Int) then (K.IOVEC_NR : Int) else mp.DL_COUNT)
      s.dep.de_read_iovec.iod_iovec s.io
    revert h1
    cases get_userdata K E mp.DL_PROC mp.DL_ADDR
      (if mp.DL_COUNT > (K.IOVEC_NR : Int) then (K.IOVEC_NR : Int) else mp.DL_COUNT)
      s.dep.de_read_iovec.iod_iovec s.io with
    | halt h io1 => intro h1; exact h1
    | ok w io1 =>
      intro _
      dsimp only
      have h2 := calc_iovec_size_calm K E
        { iod_iovec := w, iod_iovec_s := mp.DL_COUNT,
          iod_proc_nr := mp.DL_PROC, iod_iovec_addr := mp.DL_ADDR } io1
      revert h2
      cases calc_iovec_size K E
        { iod_iovec := w, iod_iovec_s := mp.DL_COUNT,
          iod_proc_nr := mp.DL_PROC, iod_iovec_addr := mp.DL_ADDR } io1 with
      | halt h io2 => intro h2; exact h2
      | ok x io2 =>
        intro _
        obtain ⟨x1, x2⟩ := x
        trivial
  · trivial

theorem do_vwrite_send_calm (K : Hdr) (E : Env) (fi : Bool) (size : Int) (s : Sys) :
    (do_vwrite_send K E fi size s).calm := by
  unfold do_vwrite_send
  split
  · exact ⟨by decide, by decide⟩
  · have h1 := call_user2nic_calm K E s.dep.de_user2nicf s.dep.de_write_iovec 0
      ((s.dep.de_sendq s.dep.de_sendq_head).sq_sendpage * K.DP_PAGESIZE) size.toNat s.io
    revert h1
    cases call_user2nic K E s.dep.de_user2nicf s.dep.de_write_iovec 0
      ((s.dep.de_sendq s.dep.de_sendq_head).sq_sendpage * K.DP_PAGESIZE) size.toNat s.io with
    | halt h io1 => intro h1; exact h1
    | ok wi io1 =>
      intro _
      dsimp only
      split
      · exact ⟨by decide, by decide⟩
      · split
        · trivial
        · refine Res.calm_bind (reply_calm _ _ _) ?_
          intro _ s3 _
          split
          · exact ⟨by decide, by decide⟩
          · split
            · exact ⟨by decide, by decide⟩
            · trivial

theorem dp_pkt2user_calm (K : Hdr) (E : Env) (page length : Nat) (s : Sys) :
    (dp_pkt2user K E page length s).calm := by
  unfold dp_pkt2user
  split
  · trivial
  · dsimp only
    split
    · have h1 := call_nic2user_calm K E s.dep.de_nic2userf (page * K.DP_PAGESIZE + SIZEOF_RCVHDR)
        s.dep.de_read_iovec 0 (to_uint K
          (((s.dep.de_stoppage : Int) - (page : Int)) * (K.DP_PAGESIZE : Int)
            - (SIZEOF_RCVHDR : Int))) s.io
      revert h1
      cases call_nic2user K E s.dep.de_nic2userf (page * K.DP_PAGESIZE + SIZEOF_RCVHDR)
        s.dep.de_read_iovec 0 (to_uint K
          (((s.dep.de_stoppage : Int) - (page : Int)) * (K.DP_PAGESIZE : Int)
            - (SIZEOF_RCVHDR : Int))) s.io with
      | halt h io1 => intro h1; exact h1
      | ok tmp io1 =>
        intro _
        dsimp only
        have h2 := call_nic2user_calm K E s.dep.de_nic2userf (s.dep.de_startpage * K.DP_PAGESIZE)
          s.dep.de_read_iovec (to_uint K
            (((s.dep.de_stoppage : Int) - (page : Int)) * (K.DP_PAGESIZE : Int)
              - (SIZEOF_RCVHDR : Int)))
          (usub K length (to_uint K
            (((s.dep.de_stoppage : Int) - (page : Int)) * (K.DP_PAGESIZE : Int)
              - (SIZEOF_RCVHDR : Int)))) io1
        revert h2
        cases call_nic2user K E s.dep.de_nic2userf (s.dep.de_startpage * K.DP_PAGESIZE)
          s.dep.de_read_iovec (to_uint K
            (((s.dep.de_stoppage : Int) - (page : Int)) * (K.DP_PAGESIZE : Int)
              - (SIZEOF_RCVHDR : Int)))
          (usub K length (to_uint K
            (((s.dep.de_stoppage : Int) - (page : Int)) * (K.DP_PAGESIZE : Int)
              - (SIZEOF_RCVHDR : Int)))) io1 with
        | halt h io2 => intro h2; exact h2
        | ok rd io2 => intro _; trivial
    · have h1 := call_nic2user_calm K E s.dep.de_nic2userf (page * K.DP_PAGESIZE + SIZEOF_RCVHDR)
        s.dep.de_read_iovec 0 length s.io
      revert h1
      cases call_nic2user K E s.dep.de_nic2userf (page * K.DP_PAGESIZE + SIZEOF_RCVHDR)
        s.dep.de_read_iovec 0 length s.io with
      | halt h io1 => intro h1; exact h1
      | ok rd io1 => intro _; trivial

theorem dp_recv_frame_calm (K : Hdr) (E : Env) (pageno curr : Nat) (fr : Frame) (s : Sys) :
    (dp_recv_frame K E pageno curr fr s).calm := by
  unfold dp_recv_frame
  dsimp only
  split
  · trivial
  · split
    · trivial
    · split
      · trivial
      · split
        · trivial
        · split
          · trivial
          · split
            · refine Res.calm_bind (dp_pkt2user_calm _ _ _ _ _) ?_
              intro r s2 _
              split <;> trivial
            · trivial

theorem dp_recv_iter_calm (K : Hdr) (E : Env) (pageno : Nat) (s : Sys) :
    (dp_recv_iter K E pageno s).calm := by
  unfold dp_recv_iter
  dsimp only
  split
  · trivial
  · refine Res.calm_bind (Res.calm_lift _ (read_frame_calm _ _ _ _)) ?_
    intro fr s1 _
    exact dp_recv_frame_calm _ _ _ _ _ _

theorem dp_recv_loop_calm (K : Hdr) (E : Env) (fuel pageno : Nat) (s : Sys) :
    (dp_recv_loop K E fuel pageno s).calm := by
  induction fuel generalizing pageno s with
  | zero => exact ⟨by decide, by decide⟩
  | succ n ih =>
    unfold dp_recv_loop
    refine Res.calm_bind (dp_recv_iter_calm _ _ _ _) ?_
    intro r s1 _
    cases r with
    | none => trivial
    | some next => exact ih _ _

theorem dp_recv_calm (K : Hdr) (E : Env) (s : Sys) : (dp_recv K E s).calm :=
  dp_recv_loop_calm K E _ _ _

theorem do_int_calm (E : Env) (s : Sys) : (do_int E s).calm := by
  unfold do_int
  split
  · exact reply_calm _ _ _
  · trivial

/-! ### The deferred write and the full ring -/

theorem SendSame.same_refl (d : dpeth) : SendSame d d := ⟨QSame.qrefl d, rfl, rfl⟩

theorem SendSame.same_trans {a b c : dpeth} (h1 : SendSame a b) (h2 : SendSame b c) :
    SendSame a c :=
  ⟨h1.q.qtrans h2.q, h2.avail.trans h1.avail, h2.enabled.trans h1.enabled⟩

theorem AvailFull.full_same {d d1 : dpeth} (h : AvailFull d) (hs : SendSame d d1) :
    AvailFull d1 := by
  intro ha
  rw [hs.avail] at ha
  obtain ⟨h1, h2⟩ := h ha
  rw [hs.q.head, hs.q.tail, hs.q.sendq]
  exact ⟨h1, h2⟩

theorem Safe.of_same {d d1 : dpeth} (h : Safe d) (hs : SendSame d d1) : Safe d1 :=
  ⟨fun he => (h.inv (by rw [← hs.enabled]; exact he)).qsame hs.q, h.full.full_same hs⟩

theorem RxKeeps.to_same {d d1 : dpeth} (h : RxKeeps d d1) : SendSame d d1 :=
  ⟨h.to_qsame, h.send_avail, h.static.enabled⟩

theorem SendqInv.head_full {d : dpeth} (h : SendqInv d)
    (hf : (d.de_sendq d.de_sendq_head).sq_filled = true) :
    d.de_sendq_head = d.de_sendq_tail := by
  obtain ⟨h1, hh, ht, k, hk, hhead, hfill⟩ := h
  obtain ⟨j, hj, e⟩ := (hfill _ hh).1 hf
  by_cases hkn : k < j + d.de_sendq_nr
  · exfalso
    exact slot_ne hj hkn (e.symm.trans hhead)
  · have hj0 : j = 0 := by omega
    subst hj0
    rw [e, Nat.add_zero, Nat.mod_eq_of_lt ht]

theorem reply_same {E : Env} {err : Int} {s s1 : Sys} (h : reply E err s = Res.ok () s1) :
    SendSame s.dep s1.dep := by
  obtain ⟨hd, -, -⟩ := reply_ok h
  rw [hd]
  exact ⟨⟨rfl, rfl, rfl, rfl⟩, rfl, rfl⟩

theorem do_vwrite_replay_calm {K : Hdr} {E : Env} {mp : message} {v : Bool} {s : Sys}
    (hA : s.dep.de_flags.DEF_SEND_AVAIL = false)
    (hH : (s.dep.de_sendq s.dep.de_sendq_head).sq_filled = false) :
    (do_vwrite K E mp true v s).calm := by
  unfold do_vwrite
  split
  · exact ⟨by decide, by decide⟩
  · dsimp only
    split
    · rw [if_pos rfl]
      exact ⟨by decide, by decide⟩
    · split
      · exact ⟨by decide, by decide⟩
      · split
        · exact ⟨by decide, by decide⟩
        · rw [if_neg (by rw [hA]; simp), if_neg (by rw [hH]; simp)]
          split
          · exact ⟨by decide, by decide⟩
          · refine Res.calm_bind (do_vwrite_size_calm _ _ _ _ _) ?_
            intro size s1 _
            exact do_vwrite_send_calm _ _ _ _ _

theorem dp_send_calm {K : Hdr} {E : Env} {s : Sys}
    (hH : s.dep.de_flags.DEF_SEND_AVAIL = true →
      (s.dep.de_sendq s.dep.de_sendq_head).sq_filled = false) :
    (dp_send K E s).calm := by
  cases ha : s.dep.de_flags.DEF_SEND_AVAIL with
  | false =>
    rw [dp_send_idle ha]
    trivial
  | true =>
    rw [dp_send_avail ha]
    split
    · exact do_vwrite_replay_calm (s := clear_avail s) rfl (hH ha)
    · exact do_vwrite_replay_calm (s := clear_avail s) rfl (hH ha)
    · exact ⟨by decide, by decide⟩

theorem dp_send_avail_off {K : Hdr} {E : Env} {s s1 : Sys} (h : dp_send K E s = Res.ok () s1) :
    (s.dep.de_flags.DEF_SEND_AVAIL = false ∧ s1 = s) ∨ s1.dep.de_flags.DEF_SEND_AVAIL = false := by
  rcases dp_send_ok h with ⟨ha, e⟩ | ⟨_, v, hv⟩
  · exact Or.inl ⟨ha, e⟩
  · obtain ⟨size, he⟩ := do_vwrite_replay_ok hv
    exact Or.inr he.send_avail

theorem tx_done_head_free {K : Hdr} {isr : Nat} {s : Sys} (hF : AvailFull s.dep)
    (ha : (tx_done K isr s).dep.de_flags.DEF_SEND_AVAIL = true) :
    ((tx_done K isr s).dep.de_sendq (tx_done K isr s).dep.de_sendq_head).sq_filled = false := by
  obtain ⟨k1, k2, k3, k4, k5, k6, k7⟩ := tx_done_keeps K isr s
  rw [k5] at ha
  rw [k2, k4, (hF ha).1]
  simp only [set_sendq, if_true]

theorem dp_check_ints_tx_calm {K : Hdr} {E : Env} {isr : Nat} {s : Sys} (hF : AvailFull s.dep) :
    (dp_check_ints_tx K E isr s).calm := by
  unfold dp_check_ints_tx
  dsimp only
  split
  · split
    · exact ⟨by decide, by decide⟩
    · trivial
  · split
    · rename_i ha
      refine Res.calm_bind (dp_send_calm (fun _ => @tx_done_head_free K isr s hF ha)) ?_
      intro _ s4 _
      trivial
    · trivial

theorem dp_check_ints_tx_full {K : Hdr} {E : Env} {isr : Nat} {s s1 : Sys} {b : Bool}
    (h : dp_check_ints_tx K E isr s = Res.ok b s1) (hF : AvailFull s.dep) :
    AvailFull s1.dep := by
  obtain ⟨a1, a2, a3, a4, a5, a6, a7, _, _⟩ := tx_stat_keeps K isr s
  obtain ⟨k1, k2, k3, k4, k5, k6, k7⟩ := tx_done_keeps K isr s
  rcases dp_check_ints_tx_ok h with ⟨_, _, e⟩ | ⟨hf, _, ⟨ha, e⟩ | ⟨ha, hs⟩⟩
  · subst e
    exact hF.full_same ⟨⟨a2, a3, a4, a1⟩, by rw [a5], by rw [a5]⟩
  · subst e
    intro hx
    have : (tx_done K isr s).dep.de_flags.DEF_SEND_AVAIL = true := hx
    rw [k5, ha] at this
    cases this
  · rcases dp_send_avail_off hs with ⟨hx, _⟩ | hx
    · have : (tx_done K isr s).dep.de_flags.DEF_SEND_AVAIL = false := hx
      rw [k5, ha] at this
      cases this
    · intro hy
      rw [hx] at hy
      cases hy

theorem dp_check_ints_rx_same (K : Hdr) (E : Env) (isr : Nat) (s : Sys) :
    SendSame s.dep (dp_check_ints_rx K E isr s).state.dep := by
  unfold dp_check_ints_rx
  have h1 : SendSame s.dep (if bit isr K.ISR_PRX = true then dp_recv K E s
      else Res.ok () s).state.dep := by
    split
    · exact (dp_recv_keeps K E s).to_same
    · exact SendSame.same_refl _
  refine Res.bind_state (fun x : Sys => SendSame s.dep x.dep) _ _ h1 ?_
  intro a s1 e1 h1
  dsimp only
  have h2 : SendSame s.dep (if bit isr K.ISR_RXE = true then
      ({ s1 with dep := { s1.dep with
        de_stat := { s1.dep.de_stat with ets_recvErr := uladd K s1.dep.de_stat.ets_recvErr 1 } } } : Sys)
      else s1).dep := by
    split
    · exact h1.same_trans ⟨⟨rfl, rfl, rfl, rfl⟩, rfl, rfl⟩
    · exact h1
  split
  · split
    · exact h2.same_trans ⟨⟨rfl, rfl, rfl, rfl⟩, rfl, rfl⟩
    · exact h2.same_trans ⟨⟨rfl, rfl, rfl, rfl⟩, rfl, rfl⟩
  · split
    · exact h2.same_trans ⟨⟨rfl, rfl, rfl, rfl⟩, rfl, rfl⟩
    · exact h2

theorem dp_check_ints_rx_calm (K : Hdr) (E : Env) (isr : Nat) (s : Sys) :
    (dp_check_ints_rx K E isr s).calm := by
  unfold dp_check_ints_rx
  refine Res.calm_bind ?_ ?_
  · split
    · exact dp_recv_calm _ _ _
    · trivial
  · intro _ s1 _
    dsimp only
    split <;> trivial

theorem dp_check_ints_loop_full {K : Hdr} {E : Env} (fuel : Nat) {s s1 : Sys}
    (h : dp_check_ints_loop K E fuel s = Res.ok () s1) (hF : AvailFull s.dep) :
    AvailFull s1.dep := by
  induction fuel generalizing s with
  | zero => cases h
  | succ n ih =>
    unfold dp_check_ints_loop at h
    dsimp only at h
    split at h
    · cases h
      exact hF
    · obtain ⟨cont, s2, h2, h3⟩ := Res.bind_ok h
      have hs2 : AvailFull s2.dep := by
        split at h2
        · exact dp_check_ints_tx_full h2 hF
        · cases h2
          exact hF
      split at h3
      · exact ih h3 hs2
      · obtain ⟨brk, s3, h4, h5⟩ := Res.bind_ok h3
        have hs3 : AvailFull s3.dep := by
          have := dp_check_ints_rx_same K E (inb_isr s.io).1 s2
          rw [h4] at this
          exact hs2.full_same this
        split at h5
        · cases h5
          exact hs3
        · exact ih h5 hs3

theorem dp_check_ints_loop_calm {K : Hdr} {E : Env} (fuel : Nat) {s : Sys}
    (hF : AvailFull s.dep) : (dp_check_ints_loop K E fuel s).calm := by
  induction fuel generalizing s with
  | zero => exact ⟨by decide, by decide⟩
  | succ n ih =>
    unfold dp_check_ints_loop
    dsimp only
    split
    · trivial
    · refine Res.calm_bind ?_ ?_
      · split
        · exact dp_check_ints_tx_calm (s := Sys.mk s.dep _) hF
        · trivial
      · intro cont s2 h2
        have hs2 : AvailFull s2.dep := by
          split at h2
          · exact dp_check_ints_tx_full h2 hF
          · cases h2
            exact hF
        split
        · exact ih hs2
        · refine Res.calm_bind (dp_check_ints_rx_calm _ _ _ _) ?_
          intro brk s3 h4
          have hs3 : AvailFull s3.dep := by
            have := dp_check_ints_rx_same K E (inb_isr s.io).1 s2
            rw [h4] at this
            exact hs2.full_same this
          split
          · trivial
          · exact ih hs3

theorem dp_reset_calm {K : Hdr} {E : Env} {s : Sys} (hnr : 1 ≤ s.dep.de_sendq_nr) :
    (dp_reset K E s).calm := by
  rw [dp_reset_eq]
  refine Res.calm_bind (dp_send_calm (fun _ => ?_)) (fun _ _ _ => trivial)
  show (clear_sendq s.dep.de_sendq s.dep.de_sendq_nr 0).sq_filled = false
  unfold clear_sendq
  rw [if_pos (by omega)]

theorem dp_reset_safe {K : Hdr} {E : Env} {s s1 : Sys} (h : dp_reset K E s = Res.ok () s1)
    (hnr : 1 ≤ s.dep.de_sendq_nr) : Safe s1.dep :=
  ⟨fun _ => dp_reset_inv h hnr, fun ha => by rw [(dp_reset_post h).2.1] at ha; cases ha⟩

theorem dp_check_ints_calm {K : Hdr} {E : Env} {s : Sys} (hS : Safe s.dep) :
    (dp_check_ints K E s).calm := by
  unfold dp_check_ints
  split
  · exact ⟨by decide, by decide⟩
  · rename_i hen
    refine Res.calm_bind (dp_check_ints_loop_calm _ hS.full) ?_
    intro _ s1 h1
    have hi : SendqInv s1.dep := dp_check_ints_loop_inv _ h1 (hS.inv (by simpa using hen))
    split
    · exact dp_reset_calm hi.1
    · trivial

theorem dp_check_ints_safe {K : Hdr} {E : Env} {s s1 : Sys}
    (h : dp_check_ints K E s = Res.ok () s1) (hS : Safe s.dep) : Safe s1.dep := by
  unfold dp_check_ints at h
  split at h
  · cases h
  · rename_i hen
    obtain ⟨a, s2, h2, h3⟩ := Res.bind_ok h
    have hi : SendqInv s2.dep := dp_check_ints_loop_inv _ h2 (hS.inv (by simpa using hen))
    have hf : AvailFull s2.dep := dp_check_ints_loop_full _ h2 hS.full
    split at h3
    · exact dp_reset_safe h3 hi.1
    · cases h3
      exact ⟨fun _ => hi, hf⟩

theorem do_int_same {E : Env} {s s1 : Sys} (h : do_int E s = Res.ok () s1) :
    SendSame s.dep s1.dep := by
  unfold do_int at h
  split at h
  · exact reply_same h
  · cases h
    exact SendSame.same_refl _

theorem do_vwrite_safe {K : Hdr} {E : Env} {mp : message} {v : Bool} {s s1 : Sys}
    (h : do_vwrite K E mp false v s = Res.ok () s1) (hS : Safe s.dep) : Safe s1.dep := by
  rcases do_vwrite_ok h with ⟨hs, -, hr⟩ | ⟨hm, hen, ha, ⟨hfil, -, hr⟩ | ⟨hfree, hps, -⟩⟩
  · have h0 : SendSame s.dep ({ s with dep := { s.dep with
        de_client := mp.DL_PROC,
        de_flags := { s.dep.de_flags with DEF_PACK_SEND := true } } } : Sys).dep :=
      ⟨⟨rfl, rfl, rfl, rfl⟩, rfl, rfl⟩
    exact hS.of_same (h0.same_trans (reply_same hr))
  · obtain ⟨hd, -, -⟩ := reply_ok hr
    have hi := hS.inv hen
    rw [hd]
    exact ⟨fun _ => hi.qsame ⟨rfl, rfl, rfl, rfl⟩, fun _ => ⟨hi.head_full hfil, hfil⟩⟩
  · obtain ⟨size, s2, -, -, -, he, -⟩ := do_vwrite_enq h hm hfree
    refine ⟨fun _ => do_vwrite_inv h (hS.inv hen), fun hx => ?_⟩
    rw [he.send_avail, ha] at hx
    cases hx

theorem do_vread_size_same {K : Hdr} {E : Env} {mp : message} {v : Bool} {s s1 : Sys}
    {size : Int} (h : do_vread_size K E mp v s = Res.ok size s1) : SendSame s.dep s1.dep := by
  obtain ⟨ri, tmp, io1, e⟩ := do_vread_size_state K E mp v s
  rw [h] at e
  have e1 : s1 = { dep := { s.dep with de_read_iovec := ri, de_tmp_iovec := tmp }, io := io1 } := e
  rw [e1]
  exact ⟨⟨rfl, rfl, rfl, rfl⟩, rfl, rfl⟩

theorem do_vread_mid {K : Hdr} {E : Env} {mp : message} {v : Bool} {s s1 s2 : Sys} {size : Int}
    (h1 : do_vread_size K E mp v { s with dep := { s.dep with de_client := mp.DL_PROC } }
      = Res.ok size s1)
    (h2 : dp_recv K E { s1 with dep := { s1.dep with
      de_flags := { s1.dep.de_flags with DEF_READING := true } } } = Res.ok () s2) :
    SendSame s.dep s2.dep := by
  have a1 : SendSame s.dep ({ s with dep := { s.dep with de_client := mp.DL_PROC } } : Sys).dep :=
    ⟨⟨rfl, rfl, rfl, rfl⟩, rfl, rfl⟩
  have a2 := do_vread_size_same h1
  have a3 : SendSame s1.dep ({ s1 with dep := { s1.dep with
      de_flags := { s1.dep.de_flags with DEF_READING := true } } } : Sys).dep :=
    ⟨⟨rfl, rfl, rfl, rfl⟩, rfl, rfl⟩
  have a4 := dp_recv_keeps K E { s1 with dep := { s1.dep with
      de_flags := { s1.dep.de_flags with DEF_READING := true } } }
  rw [h2] at a4
  exact ((a1.same_trans a2).same_trans a3).same_trans a4.to_same

theorem do_vread_safe {K : Hdr} {E : Env} {mp : message} {v : Bool} {s s1 : Sys}
    (h : do_vread K E mp v s = Res.ok () s1) (hS : Safe s.dep) : Safe s1.dep := by
  unfold do_vread at h
  split at h
  · cases h
  · dsimp only at h
    split at h
    · have a1 : SendSame s.dep
          ({ s with dep := { s.dep with de_client := mp.DL_PROC } } : Sys).dep :=
        ⟨⟨rfl, rfl, rfl, rfl⟩, rfl, rfl⟩
      exact hS.of_same (a1.same_trans (reply_same h))
    · split at h
      · cases h
      · split at h
        · cases h
        · rename_i hen
          have hen' : s.dep.de_flags.DEF_ENABLED = true := by simpa using hen
          split at h
          · cases h
          · obtain ⟨size, s2, h2, h3⟩ := Res.bind_ok h
            split at h3
            · cases h3
            · obtain ⟨_, s3, h4, h5⟩ := Res.bind_ok h3
              obtain ⟨_, s4, h6, h7⟩ := Res.bind_ok h5
              have hm := do_vread_mid h2 h4
              have hS3 : Safe s3.dep := hS.of_same hm
              have hS4 : Safe s4.dep := by
                split at h6
                · exact dp_reset_safe h6 (hS3.inv (by rw [hm.enabled]; exact hen')).1
                · cases h6
                  exact hS3
              exact hS4.of_same (reply_same h7)

theorem do_vread_calm {K : Hdr} {E : Env} {mp : message} {v : Bool} {s : Sys}
    (hS : Safe s.dep) : (do_vread K E mp v s).calm := by
  unfold do_vread
  split
  · exact ⟨by decide, by decide⟩
  · dsimp only
    split
    · exact reply_calm _ _ _
    · split
      · exact ⟨by decide, by decide⟩
      · split
        · exact ⟨by decide, by decide⟩
        · rename_i hen
          have hen' : s.dep.de_flags.DEF_ENABLED = true := by simpa using hen
          split
          · exact ⟨by decide, by decide⟩
          · refine Res.calm_bind (do_vread_size_calm _ _ _ _ _) ?_
            intro size s1 h1
            split
            · exact ⟨by decide, by decide⟩
            · refine Res.calm_bind (dp_recv_calm _ _ _) ?_
              intro _ s2 h2
              have hm := do_vread_mid h1 h2
              have hS2 : Safe s2.dep := hS.of_same hm
              refine Res.calm_bind ?_ ?_
              · split
                · exact dp_reset_calm (hS2.inv (by rw [hm.enabled]; exact hen')).1
                · trivial
              · intro _ s3 _
                exact reply_calm _ _ _

theorem do_getstat_same {K : Hdr} {E : Env} {mp : message} {s s1 : Sys}
    (h : do_getstat K E mp s = Res.ok () s1) : SendSame s.dep s1.dep := by
  unfold do_getstat at h
  split at h
  · cases h
  · dsimp only at h
    split at h
    · obtain ⟨_, s2, h2, h3⟩ := Res.bind_ok h
      unfold put_userdata at h2
      split at h2
      · cases h2
        have r := reply_same h3
        refine SendSame.same_trans ?_ r
        exact ⟨⟨rfl, rfl, rfl, rfl⟩, rfl, rfl⟩
      · cases h2
    · split at h
      · cases h
      · split at h
        · cases h
        · obtain ⟨_, s2, h2, h3⟩ := Res.bind_ok h
          unfold put_userdata at h2
          split at h2
          · cases h2
            have r := reply_same h3
            refine SendSame.same_trans ?_ r
            exact ⟨⟨rfl, rfl, rfl, rfl⟩, rfl, rfl⟩
          · cases h2

theorem do_stop_safe {K : Hdr} {E : Env} {mp : message} {s s1 : Sys}
    (h : do_stop K E mp s = Res.ok () s1) (hS : Safe s.dep) : Safe s1.dep := by
  unfold do_stop at h
  split at h
  · cases h
  · split at h
    · cases h
      exact hS
    · split at h
      · cases h
      · split at h
        · cases h
          exact hS
        · cases h
          exact ⟨fun x => (by cases x), fun x => (by cases x)⟩

theorem conf_hw_safe (E : Env) (s : Sys) (hS : Safe s.dep) : Safe (conf_hw E s).dep := by
  unfold conf_hw
  dsimp only
  split
  · exact hS.of_same ⟨⟨rfl, rfl, rfl, rfl⟩, rfl, rfl⟩
  · split
    · exact hS.of_same ⟨⟨rfl, rfl, rfl, rfl⟩, rfl, rfl⟩
    · exact ⟨fun x => (by cases x), fun x => (by cases x)⟩

theorem dp_init_safe {K : Hdr} {E : Env} {s s1 : Sys} (h : dp_init K E s = Res.ok () s1)
    (hE : ∀ d io, 1 ≤ (E.initf d io).1.de_sendq_nr) : Safe s1.dep := by
  have hnr : 1 ≤ s1.dep.de_sendq_nr ∧ s1.dep.de_flags.DEF_SEND_AVAIL = false := by
    unfold dp_init at h
    dsimp only at h
    obtain ⟨a, s2, h2, h3⟩ := Res.bind_ok h
    obtain ⟨ad, e⟩ := dp_confaddr_ok h2
    cases h3
    subst e
    exact ⟨hE _ _, rfl⟩
  exact ⟨fun _ => dp_init_inv h hnr.1, fun x => (by rw [hnr.2] at x; cases x)⟩

theorem do_init_sink_safe {E : Env} {mp : message} {s s1 : Sys} (hS : Safe s.dep)
    (h : ((dp_confaddr E { s with dep := { s.dep with de_address := [0, 0, 0, 0, 0, 0] } }).bind
          fun _ s1 => mess_reply E (Sent.init_reply mp.m_source mp.DL_PORT (some DE_PORT_NR)
            (some s1.dep.de_address)) s1) = Res.ok () s1) :
    Safe s1.dep := by
  obtain ⟨_, s2, h2, h3⟩ := Res.bind_ok h
  obtain ⟨a, e⟩ := dp_confaddr_ok h2
  have e3 := mess_reply_ok h3
  rw [e3, e]
  exact hS.of_same ⟨⟨rfl, rfl, rfl, rfl⟩, rfl, rfl⟩

theorem do_init_rest_safe {K : Hdr} {E : Env} {mp : message} {s s1 : Sys}
    (hS : Safe s.dep)
    (h : (if s.dep.de_mode = Mode.DEM_SINK then
        (dp_confaddr E { s with dep := { s.dep with de_address := [0, 0, 0, 0, 0, 0] } }).bind
          fun _ s1 => mess_reply E (Sent.init_reply mp.m_source mp.DL_PORT (some DE_PORT_NR)
            (some s1.dep.de_address)) s1
      else if s.dep.de_mode ≠ Mode.DEM_ENABLED then Res.halt Halt.assertion s
      else if ¬ s.dep.de_flags.DEF_ENABLED then Res.halt Halt.assertion s
      else
        mess_reply E (Sent.init_reply mp.m_source mp.DL_PORT (some DE_PORT_NR)
          (some (dp_reinit K { s with dep := { s.dep with
          de_client := mp.m_source,
          de_flags := { s.dep.de_flags with
            DEF_PROMISC := bit mp.DL_MODE K.DL_PROMISC_REQ,
            DEF_MULTI := bit mp.DL_MODE K.DL_PROMISC_REQ || bit mp.DL_MODE K.DL_MULTI_REQ,
            DEF_BROAD := bit mp.DL_MODE K.DL_PROMISC_REQ || bit mp.DL_MODE K.DL_BROAD_REQ } } }).dep.de_address))
          (dp_reinit K { s with dep := { s.dep with
          de_client := mp.m_source,
          de_flags := { s.dep.de_flags with
            DEF_PROMISC := bit mp.DL_MODE K.DL_PROMISC_REQ,
            DEF_MULTI := bit mp.DL_MODE K.DL_PROMISC_REQ || bit mp.DL_MODE K.DL_MULTI_REQ,
            DEF_BROAD := bit mp.DL_MODE K.DL_PROMISC_REQ || bit mp.DL_MODE K.DL_BROAD_REQ } } }))
        = Res.ok () s1) :
    Safe s1.dep := by
  split at h
  · exact do_init_sink_safe hS h
  · split at h
    · cases h
    · split at h
      · cases h
      · have e3 := mess_reply_ok h
        rw [e3]
        exact hS.of_same ⟨⟨rfl, rfl, rfl, rfl⟩, rfl, rfl⟩

theorem do_init_safe {K : Hdr} {E : Env} {mp : message} {s s1 : Sys}
    (h : do_init K E mp s = Res.ok () s1) (hE : ∀ d io, 1 ≤ (E.initf d io).1.de_sendq_nr)
    (hS : Safe s.dep) : Safe s1.dep := by
  unfold do_init at h
  split at h
  · rw [mess_reply_ok h]
    exact hS
  · dsimp only at h
    split at h
    · have hc := conf_hw_safe E s hS
      split at h
      · rw [mess_reply_ok h]
        exact hc
      · split at h
        · obtain ⟨_, s2, h2, h3⟩ := Res.bind_ok h
          exact do_init_rest_safe (dp_init_safe h2 hE) h3
        · split at h
          · exact do_init_sink_safe hc h
          · cases h
    · exact do_init_rest_safe hS h

theorem dp8390_task_safe {K : Hdr} {E : Env} {m : message} {pending : Bool} {s s1 : Sys}
    (h : dp8390_task K E m pending s = Res.ok () s1)
    (hE : ∀ d io, 1 ≤ (E.initf d io).1.de_sendq_nr) (hS : Safe s.dep) : Safe s1.dep := by
  unfold dp8390_task at h
  split at h
  · exact do_vwrite_safe h hS
  · exact do_vwrite_safe h hS
  · exact do_vread_safe h hS
  · exact do_vread_safe h hS
  · exact do_init_safe h hE hS
  · exact hS.of_same (do_getstat_same h)
  · exact do_stop_safe h hS
  · split at h
    · cases h
      exact hS
    · split at h
      · cases h
      · split at h
        · cases h
        · split at h
          · obtain ⟨_, s2, h2, h3⟩ := Res.bind_ok h
            exact (dp_check_ints_safe h2 hS).of_same (do_int_same h3)
          · cases h
            exact hS
  · cases h

theorem CardRun.safe {K : Hdr} {s : Sys} (h : CardRun K s) : Safe s.dep := by
  induction h with
  | start s hm hf hr =>
    exact ⟨fun x => (by rw [hf] at x; cases x), fun x => (by rw [hf] at x; cases x)⟩
  | turn E m pending s s1 _ hE hr ih => exact dp8390_task_safe hr hE ih
  | outside s io _ ih => exact ih

theorem dp8390_task_calm {K : Hdr} {E : Env} {m : message} {pending : Bool} {s : Sys}
    (hS : Safe s.dep)
    (hm : m.m_type = MType.HARD_INT ∨ m.m_type = MType.DL_READ ∨ m.m_type = MType.DL_READV) :
    (dp8390_task K E m pending s).calm := by
  unfold dp8390_task
  rcases hm with hm | hm | hm
  · rw [hm]
    dsimp only
    split
    · trivial
    · split
      · exact ⟨by decide, by decide⟩
      · split
        · exact ⟨by decide, by decide⟩
        · split
          · refine Res.calm_bind (dp_check_ints_calm hS) ?_
            intro _ s1 _
            exact do_int_calm _ _
          · trivial
  · rw [hm]
    exact do_vread_calm hS
  · rw [hm]
    exact do_vread_calm hS

theorem ne1k_init_sendq_nr (K : Hdr) (dep : dpeth) (io : Io) (h : 1 ≤ K.SENDQ_NR) :
    1 ≤ (ne1k_init K dep io).1.de_sendq_nr := by
  unfold ne1k_init
  dsimp only
  split
  · exact Nat.le_refl 1
  · split
    · exact h
    · omega

theorem reset_queue_head_free {K : Hdr} {s : Sys} (hnr : 1 ≤ s.dep.de_sendq_nr) :
    ((reset_queue K s).dep.de_sendq (reset_queue K s).dep.de_sendq_head).sq_filled = false := by
  show (clear_sendq s.dep.de_sendq s.dep.de_sendq_nr 0).sq_filled = false
  unfold clear_sendq
  rw [if_pos (by omega)]

theorem Res.calm_halt {σ α : Type} {r : Res σ α} (h : r.calm) {hl : Halt} {st : σ}
    (e : r = Res.halt hl st) :
    hl ≠ Halt.should_not_be_sending ∧ hl ≠ Halt.send_in_progress := by
  rw [e] at h
  exact h

/-- C27: replay safety.  Take the states a port entry goes through from the
zeroed table by turns of the loop of `dp8390_task` (`Init`, `Write`, `Read`,
`GetStat`, `Stop`, interrupts), the card hook `de_initf` of every turn
setting up at least one send buffer, as `ne1k_init` does when
`SENDQ_NR ≥ 1`.  In each such state `DEF_SEND_AVAIL` is set only while the send
ring is full: head equal to tail and the slot at the head filled.  No turn
that can replay the deferred write (an interrupt, `Read`, `ReadV`) ends in
the panic "should not be sending" or "send already in progress", whatever
the environment does; nor does the transmit block of `dp_check_ints` or
`dp_reset` run from such a state.  And the slot at the head is free where a
replay starts: in the state after a completion while a write is deferred,
and, when the port is enabled, in the state `dp_reset` reaches before
`dp_send`. -/
theorem replay_safety (K : Hdr) (s : Sys) (h : CardRun K s) :
    (s.dep.de_flags.DEF_SEND_AVAIL = true →
      s.dep.de_sendq_head = s.dep.de_sendq_tail ∧
      (s.dep.de_sendq s.dep.de_sendq_head).sq_filled = true) ∧
    (∀ (E : Env) (m : message) (pending : Bool) (hl : Halt) (st : Sys),
      m.m_type = MType.HARD_INT ∨ m.m_type = MType.DL_READ ∨ m.m_type = MType.DL_READV →
      dp8390_task K E m pending s = Res.halt hl st →
      hl ≠ Halt.should_not_be_sending ∧ hl ≠ Halt.send_in_progress) ∧
    (∀ isr : Nat, s.dep.de_flags.DEF_SEND_AVAIL = true →
      ((tx_done K isr s).dep.de_sendq (tx_done K isr s).dep.de_sendq_head).sq_filled = false) ∧
    (∀ (E : Env) (isr : Nat) (hl : Halt) (st : Sys),
      dp_check_ints_tx K E isr s = Res.halt hl st →
      hl ≠ Halt.should_not_be_sending ∧ hl ≠ Halt.send_in_progress) ∧
    (s.dep.de_flags.DEF_ENABLED = true →
      ((reset_queue K s).dep.de_sendq (reset_queue K s).dep.de_sendq_head).sq_filled = false ∧
      ∀ (E : Env) (hl : Halt) (st : Sys), dp_reset K E s = Res.halt hl st →
        hl ≠ Halt.should_not_be_sending ∧ hl ≠ Halt.send_in_progress) ∧
    (1 ≤ K.SENDQ_NR → ∀ (dep : dpeth) (io : Io), 1 ≤ (ne1k_init K dep io).1.de_sendq_nr) := by
  have hS : Safe s.dep := h.safe
  refine ⟨hS.full, ?_, ?_, ?_, ?_, ?_⟩
  · intro E m pending hl st hm e
    exact Res.calm_halt (@dp8390_task_calm K E m pending s hS hm) e
  · intro isr ha
    have k5 := (tx_done_keeps K isr s).2.2.2.2.1
    exact tx_done_head_free hS.full (by rw [k5]; exact ha)
  · intro E isr hl st e
    exact Res.calm_halt (@dp_check_ints_tx_calm K E isr s hS.full) e
  · intro hen
    have hnr := (hS.inv hen).1
    refine ⟨reset_queue_head_free hnr, ?_⟩
    intro E hl st e
    exact Res.calm_halt (dp_reset_calm (E := E) hnr) e
  · intro h1 dep io
    exact ne1k_init_sendq_nr K dep io h1

theorem env0_card (d : dpeth) (io : Io) : 1 ≤ (env0.initf d io).1.de_sendq_nr := by
  show 1 ≤ 2
  decide

theorem run3_card : CardRun hdr run3 :=
  CardRun.turn env0 (msg MType.DL_WRITE 300 3000) false run2 run3
    (CardRun.turn env0 (msg MType.DL_WRITE 200 2000) false run1 run2
      (CardRun.turn env0 (msg MType.DL_WRITE 100 1000) false sys1 run1
        (CardRun.turn env0 (msg MType.DL_INIT 0 0) false sys0 sys1
          (CardRun.start sys0 rfl rfl rfl) env0_card (Res.ok_of_isOk (by decide)))
        env0_card (Res.ok_of_isOk (by decide)))
      env0_card (Res.ok_of_isOk (by decide)))
    env0_card (Res.ok_of_isOk (by decide))

set_option maxRecDepth 100000 in
/-- The statement at work on the example run after the third write: a write is
deferred, the ring of two slots is full with head and tail at slot 0, and
after the completion of the frame in slot 0 the replay finds that slot free. -/
theorem replay_safety_witness :
    run3.dep.de_flags.DEF_SEND_AVAIL = true ∧
    (run3.dep.de_flags.DEF_SEND_AVAIL = true →
      run3.dep.de_sendq_head = run3.dep.de_sendq_tail ∧
      (run3.dep.de_sendq run3.dep.de_sendq_head).sq_filled = true) ∧
    (∀ isr : Nat, run3.dep.de_flags.DEF_SEND_AVAIL = true →
      ((tx_done hdr isr run3).dep.de_sendq (tx_done hdr isr run3).dep.de_sendq_head).sq_filled
        = false) :=
  ⟨by decide, (replay_safety hdr run3 run3_card).1, (replay_safety hdr run3 run3_card).2.2.1⟩

/-! ### Programmed I/O: the bytes on the data port -/

theorem data_bytes_append (A B : List Ev) : data_bytes (A ++ B) = data_bytes A ++ data_bytes B := by
  induction A with
  | nil => rfl
  | cons e A ih =>
    cases e <;> simp [data_bytes, ih]

theorem data_bytes_out (bs : List Nat) : data_bytes [Ev.data_out bs] = bs := by
  simp [data_bytes]

theorem data_bytes_word (lo hi : Nat) : data_bytes [Ev.data_out_word lo hi] = [lo, hi] := rfl

theorem user_bytes_split (io : Io) (p : Int) (a m k : Nat) :
    user_bytes io p a (m + k) = user_bytes io p a m ++ user_bytes io p (a + m) k := by
  unfold user_bytes
  rw [List.range_add, List.map_append, List.map_map]
  congr 1
  apply List.map_congr_left
  intro j _
  simp [Nat.add_assoc]

theorem user_bytes_one (io : Io) (p : Int) (a : Nat) : user_bytes io p a 1 = [io.ubyte p a] := rfl

theorem user_bytes_zero (io : Io) (p : Int) (a : Nat) : user_bytes io p a 0 = [] := rfl

theorem user_bytes_length (io : Io) (p : Int) (a m : Nat) : (user_bytes io p a m).length = m := by
  simp [user_bytes]

theorem user_bytes_rest {io io1 : Io} (h : io1.ubyte = io.ubyte) (p : Int) (a m : Nat) :
    user_bytes io1 p a m = user_bytes io p a m := by
  unfold user_bytes
  rw [h]

theorem round_even_eq (n : Nat) : (n + 1) / 2 * 2 = round_even n := by
  unfold round_even
  omega

theorem even_block (io io1 : Io) (p : Int) (a e : Nat) (he : e % 2 = 0) :
    (if e ≠ 0 then ({ io1 with out := io1.out ++ [Ev.data_out (user_bytes io p a e)] } : Io)
      else io1).rest = io1.rest ∧
    data_bytes (if e ≠ 0 then
        ({ io1 with out := io1.out ++ [Ev.data_out (user_bytes io p a e)] } : Io)
      else io1).out = data_bytes io1.out ++ user_bytes io p a e ∧
    ∃ B, (if e ≠ 0 then
        ({ io1 with out := io1.out ++ [Ev.data_out (user_bytes io p a e)] } : Io)
      else io1).out = io1.out ++ B ∧ ∀ x ∈ B, Ev.wordwise x = true := by
  by_cases h : e ≠ 0
  · rw [if_pos h]
    refine ⟨rfl, ?_, [Ev.data_out (user_bytes io p a e)], rfl, ?_⟩
    · show data_bytes (io1.out ++ [Ev.data_out (user_bytes io p a e)]) = _
      rw [data_bytes_append, data_bytes_out]
    · intro x hx
      simp only [List.mem_singleton] at hx
      subst hx
      simp [Ev.wordwise, user_bytes_length, he]
  · rw [if_neg h]
    have : e = 0 := by omega
    subst this
    refine ⟨rfl, ?_, [], (List.append_nil _).symm, ?_⟩
    · rw [user_bytes_zero, List.append_nil]
    · intro x hx
      cases hx

/-- What the body of the loop of `dp_pio16_user2nic` does with a chunk of
`bytes ≥ 1` bytes, `n` bytes having been taken before it: it takes the whole
chunk; the bytes on the data port followed by the byte held back are those
before the chunk followed by the bytes of the chunk; a byte is held back
afterwards exactly when `n + bytes` is odd; only whole words are written. -/
theorem pio16_chunk_spec (proc : Int) (user bytes n : Nat) (o : Odd) (io : Io) (hb : 0 < bytes)
    (hpar : o.odd_byte = true ↔ n % 2 = 1) :
    (pio16_user2nic_chunk proc user bytes o io).1 = bytes ∧
    (pio16_user2nic_chunk proc user bytes o io).2.2.rest = io.rest ∧
    ((pio16_user2nic_chunk proc user bytes o io).2.1.odd_byte = true ↔ (n + bytes) % 2 = 1) ∧
    data_bytes (pio16_user2nic_chunk proc user bytes o io).2.2.out ++
        (if (pio16_user2nic_chunk proc user bytes o io).2.1.odd_byte
          then [(pio16_user2nic_chunk proc user bytes o io).2.1.b0] else [])
      = data_bytes io.out ++ (if o.odd_byte then [o.b0] else []) ++ user_bytes io proc user bytes ∧
    ∃ B, (pio16_user2nic_chunk proc user bytes o io).2.2.out = io.out ++ B ∧
      ∀ e ∈ B, Ev.wordwise e = true := by
  obtain ⟨ob, b0, b1⟩ := o
  cases ob
  · have hn : n % 2 = 0 := by
      have := hpar
      simp at this
      omega
    obtain ⟨h1, h2, B, h3, h4⟩ := even_block io io proc user (bytes / 2 * 2) (by omega)
    unfold pio16_user2nic_chunk
    simp only [Bool.false_eq_true, if_false, Nat.sub_zero, Nat.add_zero, Nat.zero_add]
    rw [if_neg (by omega)]
    by_cases hodd : bytes - bytes / 2 * 2 ≠ 0
    · rw [if_pos hodd]
      dsimp only
      refine ⟨by omega, h1, ⟨fun _ => (by omega), fun _ => rfl⟩, ?_, B, h3, h4⟩
      rw [if_pos rfl, h2, List.append_nil, List.append_assoc, ← user_bytes_one,
        ← user_bytes_split]
      congr 2
      omega
    · rw [if_neg hodd]
      dsimp only
      refine ⟨by omega, h1, ⟨fun h => (by cases h), fun _ => (by omega)⟩, ?_, B, h3, h4⟩
      rw [if_neg (by decide : ¬ (false = true)), h2, List.append_nil, List.append_nil]
      congr 2
      omega
  · have hn : n % 2 = 1 := hpar.1 rfl
    obtain ⟨h1, h2, B, h3, h4⟩ := even_block io
      { io with out := io.out ++ [Ev.data_out_word b0 (io.ubyte proc user)] } proc (user + 1)
      ((bytes - 1) / 2 * 2) (by omega)
    unfold pio16_user2nic_chunk
    simp only [if_true]
    by_cases h0 : bytes - 1 = 0
    · rw [if_pos h0]
      dsimp only
      have hb1 : bytes = 1 := by omega
      subst hb1
      refine ⟨rfl, rfl, ⟨fun h => (by cases h), fun _ => (by omega)⟩, ?_,
        [Ev.data_out_word b0 (io.ubyte proc user)], rfl, ?_⟩
      · rw [if_neg (by decide : ¬ (false = true)), data_bytes_append, data_bytes_word, user_bytes_one]
        simp
      · intro e he
        simp only [List.mem_singleton] at he
        subst he
        rfl
    · rw [if_neg h0]
      have hB : ∀ e ∈ [Ev.data_out_word b0 (io.ubyte proc user)] ++ B, Ev.wordwise e = true := by
        intro e he
        rcases List.mem_append.1 he with h | h
        · simp only [List.mem_singleton] at h
          subst h
          rfl
        · exact h4 e h
      have h3' : ∀ x : Io, x.out = (io.out ++ [Ev.data_out_word b0 (io.ubyte proc user)]) ++ B →
          x.out = io.out ++ ([Ev.data_out_word b0 (io.ubyte proc user)] ++ B) := by
        intro x hx
        rw [hx, List.append_assoc]
      have h2' : ∀ x : Io,
          data_bytes x.out = data_bytes (io.out ++ [Ev.data_out_word b0 (io.ubyte proc user)])
            ++ user_bytes io proc (user + 1) ((bytes - 1) / 2 * 2) →
          data_bytes x.out = data_bytes io.out ++ [b0] ++ user_bytes io proc user
            (1 + (bytes - 1) / 2 * 2) := by
        intro x hx
        rw [hx, data_bytes_append, data_bytes_word, user_bytes_split, user_bytes_one]
        simp
      by_cases hodd : bytes - 1 - (bytes - 1) / 2 * 2 ≠ 0
      · rw [if_pos hodd]
        dsimp only
        refine ⟨by omega, h1, ⟨fun _ => (by omega), fun _ => rfl⟩, ?_, _, h3' _ h3, hB⟩
        simp only [eq_self_iff_true, if_true]
        rw [h2' _ h2, List.append_assoc,
          ← user_bytes_one io proc (user + 1 + (bytes - 1) / 2 * 2)]
        have e : user + 1 + (bytes - 1) / 2 * 2 = user + (1 + (bytes - 1) / 2 * 2) := by omega
        rw [e, ← user_bytes_split]
        congr 2
        omega
      · rw [if_neg hodd]
        dsimp only
        refine ⟨by omega, h1, ⟨fun h => (by cases h), fun _ => (by omega)⟩, ?_, _, h3' _ h3, hB⟩
        simp only [Bool.false_eq_true, if_false]
        rw [h2' _ h2, List.append_nil]
        congr 2
        omega

theorem map_range_split (f : Nat → Nat) (m k : Nat) :
    (List.range (m + k)).map f = (List.range m).map f ++ (List.range k).map (fun j => f (m + j)) := by
  rw [List.range_add, List.map_append, List.map_map]
  rfl

theorem rest_ubyte {io io1 : Io} (h : io1.rest = io.rest) : io1.ubyte = io.ubyte := by
  show io1.rest.ubyte = io.rest.ubyte
  rw [h]

theorem rest_uiov {io io1 : Io} (h : io1.rest = io.rest) : io1.uiov = io.uiov := by
  show io1.rest.uiov = io.rest.uiov
  rw [h]

theorem rest_isr {io io1 : Io} (h : io1.rest = io.rest) : io1.isr = io.isr := by
  show io1.rest.isr = io.rest.isr
  rw [h]

theorem dp_next_iovec_congr {K : Hdr} {E : Env} {iovp x : iovec_dat} {io io1 io2 : Io}
    (hu : io2.uiov = io.uiov) (h : dp_next_iovec K E iovp io = Res.ok x io1) :
    io1 = io ∧ dp_next_iovec K E iovp io2 = Res.ok x io2 := by
  unfold dp_next_iovec at h ⊢
  by_cases hgt : iovp.iod_iovec_s > (K.IOVEC_NR : Int)
  · rw [if_pos hgt] at h ⊢
    unfold get_userdata at h ⊢
    dsimp only at h ⊢
    by_cases hm : E.numap iovp.iod_proc_nr (iovp.iod_iovec_addr + K.IOVEC_NR * K.SIZEOF_IOVEC)
        (to_uint K ((if iovp.iod_iovec_s - (K.IOVEC_NR : Int) > (K.IOVEC_NR : Int)
          then (K.IOVEC_NR : Int) else iovp.iod_iovec_s - (K.IOVEC_NR : Int))
            * (K.SIZEOF_IOVEC : Int))) = true
    · rw [if_pos hm] at h ⊢
      by_cases hov : to_uint K ((if iovp.iod_iovec_s - (K.IOVEC_NR : Int) > (K.IOVEC_NR : Int)
          then (K.IOVEC_NR : Int) else iovp.iod_iovec_s - (K.IOVEC_NR : Int))
            * (K.SIZEOF_IOVEC : Int)) > K.IOVEC_NR * K.SIZEOF_IOVEC
      · rw [if_pos hov] at h
        cases h
      · rw [if_neg hov] at h ⊢
        dsimp only at h ⊢
        injection h with h1 h2
        rw [hu]
        exact ⟨h2.symm, by rw [h1]⟩
    · rw [if_neg hm] at h
      cases h
  · rw [if_neg hgt] at h
    cases h

/-- The loop of `dp_pio8_user2nic` from a position inside a scatter list: `done`
bytes have been written to the data port, `c` are left, the walk is at
segment `i` of batch `b` with the local `offset` at `off`. -/
theorem dp_pio8_user2nic_loop_spec {K : Hdr} {E : Env} {proc : Int} {addr n : Nat}
    {seg : Nat → iovec} {offset0 count0 : Nat}
    (hN : 0 < K.IOVEC_NR) (hS : 0 < K.SIZEOF_IOVEC)
    (hNS : K.IOVEC_NR * K.SIZEOF_IOVEC < K.UINT_MOD)
    (hmap : ∀ a k, E.numap proc a k = true)
    (hle : offset0 + count0 ≤ seg_start seg n) :
    ∀ (fuel b i off c done : Nat) (iovp : iovec_dat) (io : Io),
      Batch K seg n proc addr b iovp → i ≤ K.IOVEC_NR → b * K.IOVEC_NR + i ≤ n →
      done + c = count0 → seg_start seg (b * K.IOVEC_NR + i) + off = offset0 + done →
      c + 2 * (n - (b * K.IOVEC_NR + i)) + (if i < K.IOVEC_NR then 0 else 1) + 1 ≤ fuel →
      (∀ j, K.IOVEC_NR ≤ j → j < n → io.uiov proc (addr + j * K.SIZEOF_IOVEC) = seg j) →
      ∃ iovp1 io1,
        dp_pio8_user2nic_loop K E fuel iovp i off c io = Res.ok iovp1 io1 ∧
        io1.rest = io.rest ∧
        data_bytes io1.out = data_bytes io.out ++
          (List.range c).map (fun j => io.ubyte proc (seg_addr seg n 0 (offset0 + (done + j)))) := by
  intro fuel
  induction fuel with
  | zero =>
    intro b i off c done iovp io hB hi hpos hdc hoff hfuel hseg
    omega
  | succ fuel ih =>
    intro b i off c done iovp io hB hi hpos hdc hoff hfuel hseg
    unfold dp_pio8_user2nic_loop
    by_cases hc : c > 0
    · rw [if_pos hc]
      have hlt : b * K.IOVEC_NR + i < n := by
        by_contra hge
        have : b * K.IOVEC_NR + i = n := by omega
        rw [this] at hoff
        omega
      by_cases hiN : i ≥ K.IOVEC_NR
      · have hiN' : i = K.IOVEC_NR := by omega
        subst hiN'
        rw [if_pos hiN]
        obtain ⟨iovp1, h1, hB1⟩ := @dp_next_iovec_batch K E proc addr n b io
          seg iovp hS hNS hmap hseg hB hlt
        rw [h1]
        dsimp only
        have hpos1 : (b + 1) * K.IOVEC_NR + 0 = b * K.IOVEC_NR + K.IOVEC_NR := by ring
        exact ih (b + 1) 0 off c done iovp1 io hB1 (by omega)
          (by rw [hpos1]; omega) hdc (by rw [hpos1]; exact hoff) (by
            rw [hpos1]
            rw [if_neg (by omega)] at hfuel
            rw [if_pos hN]
            omega) hseg
      · rw [if_neg hiN]
        have hc2 : (i : Int) < iovp.iod_iovec_s := by
          rw [hB.s]
          omega
        rw [if_neg (by simpa using hc2)]
        have hat : iovp.at i = seg (b * K.IOVEC_NR + i) := hB.win i (by omega) hlt
        rw [if_pos (by omega)] at hfuel
        by_cases hsk : off ≥ (iovp.at i).iov_size
        · rw [if_pos hsk]
          exact ih b (i + 1) (off - (iovp.at i).iov_size) c done
            iovp io hB (by omega) (by omega) hdc (by
              rw [← Nat.add_assoc, seg_start_succ, ← hat]
              omega) (by split <;> omega) hseg
        · rw [if_neg hsk]
          dsimp only
          rw [hB.proc, hmap, if_pos rfl]
          have hbytes : 0 < min ((iovp.at i).iov_size - off) c := by
            rw [Nat.lt_min]
            omega
          have hble : min ((iovp.at i).iov_size - off) c ≤ c := Nat.min_le_right _ _
          have hbsz : off + min ((iovp.at i).iov_size - off) c ≤ (iovp.at i).iov_size := by
            have := Nat.min_le_left ((iovp.at i).iov_size - off) c
            omega
          have hadr : ∀ j, j < min ((iovp.at i).iov_size - off) c →
              seg_addr seg n 0 (offset0 + (done + j)) = (iovp.at i).iov_addr + off + j := by
            intro j hj
            rw [hat, Nat.add_assoc]
            refine seg_addr_at seg n 0 _ (b * K.IOVEC_NR + i) (off + j) (by omega) (by omega)
              ?_ ?_
            · rw [seg_start_zero]
              omega
            · rw [← hat]
              omega
          obtain ⟨iovp2, io2, h2, hr2, hd2⟩ := ih b i (off + min ((iovp.at i).iov_size - off) c)
            (c - min ((iovp.at i).iov_size - off) c)
            (done + min ((iovp.at i).iov_size - off) c) iovp
            { io with out := io.out ++ [Ev.data_out
                (user_bytes io proc ((iovp.at i).iov_addr + off)
                  (min ((iovp.at i).iov_size - off) c))] }
            hB hi hpos (by omega) (by omega)
            (by rw [if_pos (by omega)]; omega) hseg
          refine ⟨iovp2, io2, h2, hr2, ?_⟩
          rw [hd2]
          show data_bytes (io.out ++ [Ev.data_out _]) ++ _ = _
          rw [data_bytes_append, data_bytes_out, List.append_assoc]
          congr 1
          have hcs : c = min ((iovp.at i).iov_size - off) c
              + (c - min ((iovp.at i).iov_size - off) c) := by omega
          conv_rhs => rw [hcs]
          rw [map_range_split]
          congr 1
          · unfold user_bytes
            apply List.map_congr_left
            intro j hj
            rw [hadr j (List.mem_range.1 hj)]
          · apply List.map_congr_left
            intro j _
            show io.ubyte proc _ = io.ubyte proc _
            rw [Nat.add_assoc]
    · rw [if_neg hc]
      have hc0 : c = 0 := by omega
      subst hc0
      exact ⟨iovp, io, rfl, rfl, by simp⟩

/-- The loop of `dp_pio16_user2nic` follows that of `dp_pio8_user2nic`: from
outsides that differ in the log only, with `n` bytes taken so far, a byte
held back exactly when `n` is odd, and the bytes of the 16-bit log followed by
the byte held back being the bytes of the 8-bit log, a run of the 8-bit loop
that returns is matched by a run of the 16-bit loop that returns the same
descriptor and keeps the relation; the 16-bit loop logs whole words only. -/
theorem pio16_loop_sim (K : Hdr) (E : Env) :
    ∀ (fuel : Nat) (iovp : iovec_dat) (i offset count n : Nat) (o : Odd) (io16 io8 : Io)
      (iovp1 : iovec_dat) (io8' : Io),
      io16.rest = io8.rest → (o.odd_byte = true ↔ n % 2 = 1) →
      data_bytes io16.out ++ (if o.odd_byte then [o.b0] else []) = data_bytes io8.out →
      dp_pio8_user2nic_loop K E fuel iovp i offset count io8 = Res.ok iovp1 io8' →
      ∃ (o' : Odd) (io16' : Io),
        dp_pio16_user2nic_loop K E fuel iovp i offset count o io16 = Res.ok (iovp1, o') io16' ∧
        io16'.rest = io8'.rest ∧ io8'.rest = io8.rest ∧
        (o'.odd_byte = true ↔ (n + count) % 2 = 1) ∧
        data_bytes io16'.out ++ (if o'.odd_byte then [o'.b0] else []) = data_bytes io8'.out ∧
        ∃ B, io16'.out = io16.out ++ B ∧ ∀ e ∈ B, Ev.wordwise e = true := by
  intro fuel
  induction fuel with
  | zero =>
    intro iovp i offset count n o io16 io8 iovp1 io8' hr hp hd h
    cases h
  | succ fuel ih =>
    intro iovp i offset count n o io16 io8 iovp1 io8' hr hp hd h
    unfold dp_pio8_user2nic_loop at h
    unfold dp_pio16_user2nic_loop
    by_cases hc : count > 0
    · rw [if_pos hc] at h ⊢
      by_cases hiN : i ≥ K.IOVEC_NR
      · rw [if_pos hiN] at h ⊢
        cases hx : dp_next_iovec K E iovp io8 with
        | halt hh st =>
          rw [hx] at h
          cases h
        | ok x io1 =>
          rw [hx] at h
          dsimp only at h
          obtain ⟨e1, e2⟩ := @dp_next_iovec_congr K E iovp x io8 io1 io16
            ((rest_uiov hr)) hx
          subst e1
          rw [e2]
          dsimp only
          exact ih x 0 offset count n o io16 io1 iovp1 io8' hr hp hd h
      · rw [if_neg hiN] at h ⊢
        by_cases ha : ¬ ((i : Int) < iovp.iod_iovec_s)
        · rw [if_pos ha] at h
          cases h
        · rw [if_neg ha] at h ⊢
          by_cases hsk : offset ≥ (iovp.at i).iov_size
          · rw [if_pos hsk] at h ⊢
            exact ih iovp (i + 1) _ count n o io16 io8 iovp1 io8' hr hp hd h
          · rw [if_neg hsk] at h ⊢
            dsimp only at h ⊢
            by_cases hm : E.numap iovp.iod_proc_nr ((iovp.at i).iov_addr + offset)
                (min ((iovp.at i).iov_size - offset) count) = true
            · rw [if_pos hm] at h ⊢
              have hb : 0 < min ((iovp.at i).iov_size - offset) count := by
                rw [Nat.lt_min]
                omega
              have hble : min ((iovp.at i).iov_size - offset) count ≤ count :=
                Nat.min_le_right _ _
              obtain ⟨c1, c2, c3, c4, B1, c5, c6⟩ := pio16_chunk_spec iovp.iod_proc_nr
                ((iovp.at i).iov_addr + offset) (min ((iovp.at i).iov_size - offset) count)
                n o io16 hb hp
              rw [c1]
              have hd1 : data_bytes (pio16_user2nic_chunk iovp.iod_proc_nr
                    ((iovp.at i).iov_addr + offset)
                    (min ((iovp.at i).iov_size - offset) count) o io16).2.2.out ++
                  (if (pio16_user2nic_chunk iovp.iod_proc_nr ((iovp.at i).iov_addr + offset)
                      (min ((iovp.at i).iov_size - offset) count) o io16).2.1.odd_byte
                    then [(pio16_user2nic_chunk iovp.iod_proc_nr ((iovp.at i).iov_addr + offset)
                      (min ((iovp.at i).iov_size - offset) count) o io16).2.1.b0] else [])
                  = data_bytes ({ io8 with out := io8.out ++ [Ev.data_out
                      (user_bytes io8 iovp.iod_proc_nr ((iovp.at i).iov_addr + offset)
                        (min ((iovp.at i).iov_size - offset) count))] } : Io).out := by
                rw [c4, hd]
                show _ = data_bytes (io8.out ++ [Ev.data_out _])
                rw [data_bytes_append, data_bytes_out, user_bytes_rest (rest_ubyte hr)]
              obtain ⟨o', io16', g1, g2, g3, g4, g5, B2, g6, g7⟩ := ih iovp i
                (offset + min ((iovp.at i).iov_size - offset) count)
                (count - min ((iovp.at i).iov_size - offset) count)
                (n + min ((iovp.at i).iov_size - offset) count) _ _
                { io8 with out := io8.out ++ [Ev.data_out
                      (user_bytes io8 iovp.iod_proc_nr ((iovp.at i).iov_addr + offset)
                        (min ((iovp.at i).iov_size - offset) count))] } iovp1 io8'
                (c2.trans hr) c3 hd1 h
              refine ⟨o', io16', g1, g2, g3, ?_, g5, B1 ++ B2, ?_, ?_⟩
              · rw [g4]
                have : n + min ((iovp.at i).iov_size - offset) count
                    + (count - min ((iovp.at i).iov_size - offset) count) = n + count := by omega
                rw [this]
              · rw [g6, c5, List.append_assoc]
              · intro e he
                rcases List.mem_append.1 he with h1 | h1
                · exact c6 e h1
                · exact g7 e h1
            · rw [if_neg hm] at h
              cases h
    · rw [if_neg hc] at h ⊢
      injection h with h1 h2
      subst h1 h2
      have hc0 : count = 0 := by omega
      subst hc0
      exact ⟨o, io16, rfl, hr, rfl, hp, hd, [], (List.append_nil _).symm,
        fun e he => by cases he⟩

theorem poll_isr_rest (mask : Nat) :
    ∀ (k : Nat) (io io1 : Io), io1.rest = io.rest →
      (poll_isr mask k io1).1 = (poll_isr mask k io).1 ∧
      (poll_isr mask k io1).2.out = io1.out := by
  intro k
  induction k with
  | zero =>
    intro io io1 h
    exact ⟨rfl, rfl⟩
  | succ k ih =>
    intro io io1 h
    have hi : io1.isr = io.isr := rest_isr h
    have h1 : (inb_isr io1).1 = (inb_isr io).1 := by
      unfold inb_isr
      rw [hi]
    have h2 : (inb_isr io1).2.rest = (inb_isr io).2.rest := by
      unfold inb_isr
      show ({ io1.rest with isr := io1.isr.tail } : Io) = { io.rest with isr := io.isr.tail }
      rw [h, hi]
    unfold poll_isr
    rw [h1]
    split
    · exact ⟨rfl, rfl⟩
    · exact ih _ _ h2

theorem outb_reg0_rest (r : Reg) (v : Int) (io : Io) (h : r ≠ Reg.DP_BNRY) :
    (outb_reg0 r v io).rest = io.rest := by
  cases r <;> first | rfl | exact absurd rfl h

theorem remote_dma_setup (K : Hdr) (nic_addr count : Nat) (io : Io) :
    (remote_dma K K.CR_DM_RW nic_addr count (outb_reg0 Reg.DP_ISR (K.ISR_RDC : Int) io)).out
      = io.out ++ pio_setup K nic_addr count ∧
    (remote_dma K K.CR_DM_RW nic_addr count (outb_reg0 Reg.DP_ISR (K.ISR_RDC : Int) io)).rest
      = io.rest := by
  constructor
  · unfold remote_dma pio_setup
    simp only [outb_reg0_out, List.append_assoc, List.singleton_append]
    rfl
  · unfold remote_dma
    rw [outb_reg0_rest Reg.DP_CR _ _ (by intro h; cases h),
      outb_reg0_rest Reg.DP_RSAR1 _ _ (by intro h; cases h),
      outb_reg0_rest Reg.DP_RSAR0 _ _ (by intro h; cases h),
      outb_reg0_rest Reg.DP_RBCR1 _ _ (by intro h; cases h),
      outb_reg0_rest Reg.DP_RBCR0 _ _ (by intro h; cases h),
      outb_reg0_rest Reg.DP_ISR _ _ (by intro h; cases h)]

theorem dp_pio8_user2nic_loop_grows (K : Hdr) (E : Env) :
    ∀ (fuel : Nat) (iovp : iovec_dat) (i offset count : Nat) (io : Io) (iovp1 : iovec_dat)
      (io1 : Io),
      dp_pio8_user2nic_loop K E fuel iovp i offset count io = Res.ok iovp1 io1 →
      ∃ B, io1.out = io.out ++ B := by
  intro fuel iovp i offset count io iovp1 io1 h
  have := dp_pio8_user2nic_loop_staged K E fuel iovp i offset count io
  rw [h] at this
  obtain ⟨B, hB, _⟩ := this
  exact ⟨B, hB⟩

theorem pio_setup_quiet_data (K : Hdr) (nic_addr count : Nat) :
    data_bytes (pio_setup K nic_addr count) = [] := rfl

theorem pio_user2nic_seg {K : Hdr} {E : Env} {proc : Int} {addr n : Nat} {io : Io}
    {seg : Nat → iovec} {iovp : iovec_dat} {offset nic_addr count : Nat}
    (hN : 0 < K.IOVEC_NR) (hS : 0 < K.SIZEOF_IOVEC)
    (hNS : K.IOVEC_NR * K.SIZEOF_IOVEC < K.UINT_MOD)
    (hmap : ∀ a k, E.numap proc a k = true)
    (hseg : ∀ j, K.IOVEC_NR ≤ j → j < n → io.uiov proc (addr + j * K.SIZEOF_IOVEC) = seg j)
    (hB : Batch K seg n proc addr 0 iovp)
    (hle : offset + count ≤ seg_start seg n)
    (hrdc : (poll_isr K.ISR_RDC 100 io).1 = true) :
    ∃ (iovp1 : iovec_dat) (io8 io16 : Io) (B8 B16 : List Ev) (pad : Nat),
      dp_pio8_user2nic K E iovp offset nic_addr count io = Res.ok iovp1 io8 ∧
      dp_pio16_user2nic K E iovp offset nic_addr count io = Res.ok iovp1 io16 ∧
      io8.out = io.out ++ pio_setup K nic_addr count ++ B8 ∧
      io16.out = io.out ++ pio_setup K nic_addr (round_even count) ++ B16 ∧
      (count + 1) / 2 * 2 = round_even count ∧
      (∀ e ∈ B16, Ev.wordwise e = true) ∧
      data_bytes B8 = (List.range count).map
        (fun j => io.ubyte proc (seg_addr seg n 0 (offset + j))) ∧
      data_bytes B16 = data_bytes B8 ++ (if count % 2 = 1 then [pad] else []) := by
  obtain ⟨s8o, s8r⟩ := remote_dma_setup K nic_addr count io
  obtain ⟨s16o, s16r⟩ := remote_dma_setup K nic_addr ((count + 1) / 2 * 2) io
  have hs : iovp.iod_iovec_s.toNat = n := by
    rw [hB.s]
    simp
  have hseg1 : ∀ j, K.IOVEC_NR ≤ j → j < n → (remote_dma K K.CR_DM_RW nic_addr count
      (outb_reg0 Reg.DP_ISR (K.ISR_RDC : Int) io)).uiov proc (addr + j * K.SIZEOF_IOVEC)
        = seg j := by
    intro j h1 h2
    rw [rest_uiov s8r]
    exact hseg j h1 h2
  obtain ⟨iovp1, io1, h8, r8, d8⟩ :=
    dp_pio8_user2nic_loop_spec hN hS hNS hmap hle (count + 2 * n + 2) 0 0 offset count 0 iovp
      (remote_dma K K.CR_DM_RW nic_addr count (outb_reg0 Reg.DP_ISR (K.ISR_RDC : Int) io))
      hB (Nat.zero_le _) (by omega) (by omega)
      (by rw [Nat.zero_mul, Nat.add_zero, seg_start_zero]; omega)
      (by rw [if_pos hN]; omega) hseg1
  obtain ⟨B8, hB8⟩ := dp_pio8_user2nic_loop_grows K E _ _ _ _ _ _ _ _ h8
  have d16 : data_bytes (remote_dma K K.CR_DM_RW nic_addr ((count + 1) / 2 * 2)
        (outb_reg0 Reg.DP_ISR (K.ISR_RDC : Int) io)).out ++
      (if ({ odd_byte := false, b0 := 0, b1 := 0 } : Odd).odd_byte then
        [({ odd_byte := false, b0 := 0, b1 := 0 } : Odd).b0] else [])
      = data_bytes (remote_dma K K.CR_DM_RW nic_addr count
        (outb_reg0 Reg.DP_ISR (K.ISR_RDC : Int) io)).out := by
    rw [s8o, s16o, data_bytes_append, data_bytes_append, pio_setup_quiet_data, pio_setup_quiet_data]
    simp
  obtain ⟨o1, io2, h16, r16, _, hpar, dd, B, hB16, hw⟩ :=
    pio16_loop_sim K E (count + 2 * n + 2) iovp 0 offset count 0
      { odd_byte := false, b0 := 0, b1 := 0 }
      (remote_dma K K.CR_DM_RW nic_addr ((count + 1) / 2 * 2)
        (outb_reg0 Reg.DP_ISR (K.ISR_RDC : Int) io))
      (remote_dma K K.CR_DM_RW nic_addr count (outb_reg0 Reg.DP_ISR (K.ISR_RDC : Int) io))
      iovp1 io1 (s16r.trans s8r.symm) (by simp) d16 h8
  have hu : (remote_dma K K.CR_DM_RW nic_addr count
      (outb_reg0 Reg.DP_ISR (K.ISR_RDC : Int) io)).ubyte = io.ubyte := rest_ubyte s8r
  have p8 := poll_isr_rest K.ISR_RDC 100 io io1 (r8.trans s8r)
  have e8 : dp_pio8_user2nic K E iovp offset nic_addr count io
      = Res.ok iovp1 (poll_isr K.ISR_RDC 100 io1).2 := by
    unfold dp_pio8_user2nic
    rw [hs, h8]
    show wait_rdc K iovp1 io1 = _
    unfold wait_rdc
    rw [p8.1, hrdc, if_pos rfl]
  -- the bytes of the 8-bit routine
  have x8 : data_bytes B8 = (List.range count).map
      (fun j => io.ubyte proc (seg_addr (seg) n 0 (offset + j))) := by
    have := d8
    rw [hB8, data_bytes_append, hu] at this
    have := List.append_cancel_left this
    rw [this]
    apply List.map_congr_left
    intro j _
    rw [Nat.zero_add]
  have x16 : data_bytes B ++ (if o1.odd_byte then [o1.b0] else []) = data_bytes B8 := by
    have := dd
    rw [hB16, hB8, data_bytes_append, data_bytes_append, s8o, s16o, data_bytes_append,
      data_bytes_append, pio_setup_quiet_data, pio_setup_quiet_data, List.append_nil,
      List.append_assoc] at this
    exact List.append_cancel_left this
  have hpar1 : o1.odd_byte = true ↔ count % 2 = 1 := by
    rw [hpar, Nat.zero_add]
  by_cases ho : o1.odd_byte = true
  · have hc1 : count % 2 = 1 := hpar1.1 ho
    have p16 := poll_isr_rest K.ISR_RDC 100 io
      ({ io2 with out := io2.out ++ [Ev.data_out_word o1.b0 o1.b1] } : Io)
      ((show ({ io2 with out := io2.out ++ [Ev.data_out_word o1.b0 o1.b1] } : Io).rest
        = io2.rest from rfl).trans (r16.trans (r8.trans s8r)))
    refine ⟨iovp1, (poll_isr K.ISR_RDC 100 io1).2,
      (poll_isr K.ISR_RDC 100
        ({ io2 with out := io2.out ++ [Ev.data_out_word o1.b0 o1.b1] } : Io)).2,
      B8, B ++ [Ev.data_out_word o1.b0 o1.b1], o1.b1, e8, ?_, ?_, ?_,
      round_even_eq count, ?_, x8, ?_⟩
    · unfold dp_pio16_user2nic
      rw [hs, h16]
      dsimp only
      rw [if_pos ho]
      unfold wait_rdc
      rw [p16.1, hrdc, if_pos rfl]
    · rw [p8.2, hB8, s8o]
    · rw [p16.2]
      show io2.out ++ _ = _
      rw [hB16, s16o, round_even_eq]
      simp only [List.append_assoc]
    · intro e he
      rcases List.mem_append.1 he with h | h
      · exact hw e h
      · rw [List.mem_singleton.1 h]
        rfl
    · rw [data_bytes_append, data_bytes_word, if_pos hc1, ← x16, ho]
      simp
  · have hc1 : ¬ count % 2 = 1 := fun h => ho (hpar1.2 h)
    have p16 := poll_isr_rest K.ISR_RDC 100 io io2 (r16.trans (r8.trans s8r))
    have ho' : o1.odd_byte = false := by
      cases h : o1.odd_byte
      · rfl
      · exact absurd h ho
    refine ⟨iovp1, (poll_isr K.ISR_RDC 100 io1).2, (poll_isr K.ISR_RDC 100 io2).2,
      B8, B, 0, e8, ?_, ?_, ?_, round_even_eq count, hw, x8, ?_⟩
    · unfold dp_pio16_user2nic
      rw [hs, h16]
      dsimp only
      rw [if_neg ho]
      unfold wait_rdc
      rw [p16.1, hrdc, if_pos rfl]
    · rw [p8.2, hB8, s8o]
    · rw [p16.2, hB16, s16o, round_even_eq]
    · rw [if_neg hc1, ← x16, ho']
      simp

theorem call_user2nic_seg {K : Hdr} {E : Env} {proc : Int} {addr n : Nat} {io : Io}
    {seg : Nat → iovec} {iovp : iovec_dat} {nic count : Nat} (f : Xfer)
    (hN : 0 < K.IOVEC_NR) (hS : 0 < K.SIZEOF_IOVEC)
    (hNS : K.IOVEC_NR * K.SIZEOF_IOVEC < K.UINT_MOD)
    (hmap : ∀ a k, E.numap proc a k = true)
    (hseg : ∀ j, K.IOVEC_NR ≤ j → j < n → io.uiov proc (addr + j * K.SIZEOF_IOVEC) = seg j)
    (hB : Batch K seg n proc addr 0 iovp)
    (hle : count ≤ seg_start seg n)
    (hrdc : f ≠ Xfer.shm → (poll_isr K.ISR_RDC 100 io).1 = true) :
    ∃ iovp1 io1, call_user2nic K E f iovp 0 nic count io = Res.ok iovp1 io1 ∧
      (f = Xfer.shm → io1 = user2nic_io
        { io with out := io.out ++ [Ev.user2nic f iovp 0 nic count] } proc
        (fun j => seg_addr seg n 0 j) nic count) ∧
      (f = Xfer.pio8 → ∃ D, io1.out = io.out ++ [Ev.user2nic f iovp 0 nic count]
          ++ pio_setup K nic count ++ D ∧
        data_bytes D = (List.range count).map (fun j => io.ubyte proc (seg_addr seg n 0 j))) ∧
      (f = Xfer.pio16 → ∃ D pad, io1.out = io.out ++ [Ev.user2nic f iovp 0 nic count]
          ++ pio_setup K nic (round_even count) ++ D ∧
        (∀ e ∈ D, Ev.wordwise e = true) ∧
        data_bytes D = (List.range count).map (fun j => io.ubyte proc (seg_addr seg n 0 j))
          ++ (if count % 2 = 1 then [pad] else [])) := by
  have hfun : (fun j => seg_addr seg n 0 (0 + j)) = fun j => seg_addr seg n 0 j := by
    funext j
    rw [Nat.zero_add]
  have hle0 : 0 + count ≤ seg_start seg n := by
    rw [Nat.zero_add]
    exact hle
  cases f with
  | shm =>
    obtain ⟨b, iovp1, _, _, h⟩ := @dp_user2nic_seg K E proc addr n
      { io with out := io.out ++ [Ev.user2nic Xfer.shm iovp 0 nic count] } seg iovp nic 0 count
      hN hS hNS hmap hseg hB hle0
    rw [hfun] at h
    exact ⟨iovp1, _, h, fun _ => rfl, fun h => Xfer.noConfusion h, fun h => Xfer.noConfusion h⟩
  | pio8 =>
    have hr := (poll_isr_rest K.ISR_RDC 100 io
      { io with out := io.out ++ [Ev.user2nic Xfer.pio8 iovp 0 nic count] } rfl).1
    obtain ⟨iovp1, io8, io16, B8, B16, pad, h8, _, o8, _, _, _, d8, _⟩ :=
      @pio_user2nic_seg K E proc addr n
        { io with out := io.out ++ [Ev.user2nic Xfer.pio8 iovp 0 nic count] } seg iovp 0 nic
        count hN hS hNS hmap hseg hB hle0 (hr.trans (hrdc (by decide)))
    simp only [Nat.zero_add] at d8
    exact ⟨iovp1, io8, h8, fun h => Xfer.noConfusion h, fun _ => ⟨B8, o8, d8⟩,
      fun h => Xfer.noConfusion h⟩
  | pio16 =>
    have hr := (poll_isr_rest K.ISR_RDC 100 io
      { io with out := io.out ++ [Ev.user2nic Xfer.pio16 iovp 0 nic count] } rfl).1
    obtain ⟨iovp1, io8, io16, B8, B16, pad, _, h16, _, o16, _, w16, d8, d16⟩ :=
      @pio_user2nic_seg K E proc addr n
        { io with out := io.out ++ [Ev.user2nic Xfer.pio16 iovp 0 nic count] } seg iovp 0 nic
        count hN hS hNS hmap hseg hB hle0 (hr.trans (hrdc (by decide)))
    simp only [Nat.zero_add] at d8
    rw [d8] at d16
    exact ⟨iovp1, io16, h16, fun h => Xfer.noConfusion h, fun h => Xfer.noConfusion h,
      fun _ => ⟨B16, pad, o16, w16, d16⟩⟩

theorem dp_pio8_user2nic_loop_out (K : Hdr) (E : Env) :
    ∀ (fuel : Nat) (iovp : iovec_dat) (i offset count : Nat) (io : Io) (iovp1 : iovec_dat)
      (io1 : Io),
      dp_pio8_user2nic_loop K E fuel iovp i offset count io = Res.ok iovp1 io1 →
      ∃ B, io1.out = io.out ++ B := by
  intro fuel
  induction fuel with
  | zero =>
    intro iovp i offset count io iovp1 io1 h
    simp [dp_pio8_user2nic_loop] at h
  | succ fuel ih =>
    intro iovp i offset count io iovp1 io1 h
    unfold dp_pio8_user2nic_loop at h
    by_cases hc : count > 0
    · rw [if_pos hc] at h
      by_cases hi : i ≥ K.IOVEC_NR
      · rw [if_pos hi] at h
        cases hn : dp_next_iovec K E iovp io with
        | halt r x =>
          rw [hn] at h
          cases h
        | ok v x =>
          rw [hn] at h
          obtain ⟨hx, _⟩ := dp_next_iovec_congr (rfl : io.uiov = io.uiov) hn
          obtain ⟨B, hB⟩ := ih _ _ _ _ _ _ _ h
          exact ⟨B, by rw [hB, hx]⟩
      · rw [if_neg hi] at h
        by_cases ha : ¬ ((i : Int) < iovp.iod_iovec_s)
        · rw [if_pos ha] at h
          cases h
        · rw [if_neg ha] at h
          by_cases ho : offset ≥ (iovp.at i).iov_size
          · rw [if_pos ho] at h
            exact ih _ _ _ _ _ _ _ h
          · rw [if_neg ho] at h
            dsimp only at h
            split at h
            · obtain ⟨B, hB⟩ := ih _ _ _ _ _ _ _ h
              exact ⟨_, by rw [hB]; exact List.append_assoc _ _ _⟩
            · cases h
    · rw [if_neg hc] at h
      cases h
      exact ⟨[], (List.append_nil _).symm⟩

theorem pio_setup_no_data (K : Hdr) (nic_addr count : Nat) :
    data_bytes (pio_setup K nic_addr count) = [] := rfl

theorem pio16_chunk_hold (p : Int) (u b : Nat) (o : Odd) (x : Io) (ho : o.odd_byte = false)
    (hb : b % 2 = 1) :
    (pio16_user2nic_chunk p u b o x).2.1.odd_byte = true ∧
    (pio16_user2nic_chunk p u b o x).2.1.b0 = x.ubyte p (u + (b - 1)) ∧
    data_bytes (pio16_user2nic_chunk p u b o x).2.2.out
      = data_bytes x.out ++ user_bytes x p u (b - 1) := by
  have e1 : (b - 0) / 2 * 2 = b - 1 := by omega
  have e2 : b - 0 - (b - 1) ≠ 0 := by omega
  have e3 : b - 0 ≠ 0 := by omega
  have hev := even_block x x p (u + 0) (b - 1) (by omega)
  unfold pio16_user2nic_chunk
  simp only [ho, Bool.false_eq_true, if_false]
  rw [if_neg e3, e1, if_pos e2]
  refine ⟨rfl, rfl, ?_⟩
  exact hev.2.1

theorem pio16_chunk_flush (p : Int) (u b : Nat) (o : Odd) (x : Io) (ho : o.odd_byte = true) :
    ∃ B, (pio16_user2nic_chunk p u b o x).2.2.out
      = x.out ++ Ev.data_out_word o.b0 (x.ubyte p u) :: B := by
  unfold pio16_user2nic_chunk
  simp only [ho, if_true]
  by_cases h0 : b - 1 = 0
  · rw [if_pos h0]
    exact ⟨[], rfl⟩
  · rw [if_neg h0]
    by_cases he : (b - 1) / 2 * 2 ≠ 0
    · rw [if_pos he]
      refine ⟨[Ev.data_out (user_bytes x p (u + 1) ((b - 1) / 2 * 2))], ?_⟩
      split <;> simp
    · rw [if_neg he]
      refine ⟨[], ?_⟩
      split <;> rfl

/-- C25: the 16-bit programmed-I/O write agrees with the 8-bit one.  For a
scatter list of `n` segments held by `proc` at `addr`, a descriptor at its first
batch, and `offset + count` within the total size, both `dp_pio8_user2nic` and
`dp_pio16_user2nic` return, with the same descriptor.  The 8-bit routine
programs the byte count `count` and writes to the data port the `count` bytes
of the list from `offset` on.  The 16-bit routine programs the byte count
`count` rounded up to the next even number (which is `(count + 1) / 2 * 2`), and
everything it logs after the set-up is written in whole words; the bytes of
these words, in order, are the bytes of the 8-bit routine followed by one pad
byte exactly when `count` is odd.  For one chunk: when no byte is pending and
the chunk has odd length, its last byte is held back in `two_bytes[0]` and not
written; when a byte is pending, a non-empty chunk first writes the word made
of the pending byte (low half) and the first byte of the chunk (high half). -/
theorem pio16_agrees_pio8 (K : Hdr) (E : Env) (proc : Int) (addr n : Nat) (io : Io)
    (iovp : iovec_dat) (offset nic_addr count : Nat)
    (hN : 0 < K.IOVEC_NR) (hS : 0 < K.SIZEOF_IOVEC)
    (hNS : K.IOVEC_NR * K.SIZEOF_IOVEC < K.UINT_MOD)
    (hmap : ∀ a k, E.numap proc a k = true)
    (hB : Batch K (user_iovec K io proc addr) n proc addr 0 iovp)
    (hle : offset + count ≤ seg_start (user_iovec K io proc addr) n)
    (hrdc : (poll_isr K.ISR_RDC 100 io).1 = true) :
    (∃ (iovp1 : iovec_dat) (io8 io16 : Io) (B8 B16 : List Ev) (pad : Nat),
      dp_pio8_user2nic K E iovp offset nic_addr count io = Res.ok iovp1 io8 ∧
      dp_pio16_user2nic K E iovp offset nic_addr count io = Res.ok iovp1 io16 ∧
      io8.out = io.out ++ pio_setup K nic_addr count ++ B8 ∧
      io16.out = io.out ++ pio_setup K nic_addr (round_even count) ++ B16 ∧
      (count + 1) / 2 * 2 = round_even count ∧
      (∀ e ∈ B16, Ev.wordwise e = true) ∧
      data_bytes B8 = (List.range count).map
        (fun j => io.ubyte proc (seg_addr (user_iovec K io proc addr) n 0 (offset + j))) ∧
      data_bytes B16 = data_bytes B8 ++ (if count % 2 = 1 then [pad] else [])) ∧
    (∀ (p : Int) (u b : Nat) (o : Odd) (x : Io), o.odd_byte = false → b % 2 = 1 →
      (pio16_user2nic_chunk p u b o x).2.1.odd_byte = true ∧
      (pio16_user2nic_chunk p u b o x).2.1.b0 = x.ubyte p (u + (b - 1)) ∧
      data_bytes (pio16_user2nic_chunk p u b o x).2.2.out
        = data_bytes x.out ++ user_bytes x p u (b - 1)) ∧
    (∀ (p : Int) (u b : Nat) (o : Odd) (x : Io), o.odd_byte = true → 0 < b →
      ∃ B, (pio16_user2nic_chunk p u b o x).2.2.out
        = x.out ++ Ev.data_out_word o.b0 (x.ubyte p u) :: B) := by
  refine ⟨?_, fun p u b o x => pio16_chunk_hold p u b o x,
    fun p u b o x ho _ => pio16_chunk_flush p u b o x ho⟩
  obtain ⟨s8o, s8r⟩ := remote_dma_setup K nic_addr count io
  obtain ⟨s16o, s16r⟩ := remote_dma_setup K nic_addr ((count + 1) / 2 * 2) io
  have hs : iovp.iod_iovec_s.toNat = n := by
    rw [hB.s]
    simp
  have hseg : ∀ j, (remote_dma K K.CR_DM_RW nic_addr count
      (outb_reg0 Reg.DP_ISR (K.ISR_RDC : Int) io)).uiov proc (addr + j * K.SIZEOF_IOVEC)
        = user_iovec K io proc addr j := by
    intro j
    rw [rest_uiov s8r]
    rfl
  obtain ⟨iovp1, io1, h8, r8, d8⟩ :=
    dp_pio8_user2nic_loop_spec hN hS hNS hmap hle (count + 2 * n + 2) 0 0 offset count 0 iovp
      (remote_dma K K.CR_DM_RW nic_addr count (outb_reg0 Reg.DP_ISR (K.ISR_RDC : Int) io))
      hB (Nat.zero_le _) (by omega) (by omega)
      (by rw [Nat.zero_mul, Nat.add_zero, seg_start_zero]; omega)
      (by rw [if_pos hN]; omega) (fun j _ _ => hseg j)
  obtain ⟨B8, hB8⟩ := dp_pio8_user2nic_loop_out K E _ _ _ _ _ _ _ _ h8
  have d16 : data_bytes (remote_dma K K.CR_DM_RW nic_addr ((count + 1) / 2 * 2)
        (outb_reg0 Reg.DP_ISR (K.ISR_RDC : Int) io)).out ++
      (if ({ odd_byte := false, b0 := 0, b1 := 0 } : Odd).odd_byte then
        [({ odd_byte := false, b0 := 0, b1 := 0 } : Odd).b0] else [])
      = data_bytes (remote_dma K K.CR_DM_RW nic_addr count
        (outb_reg0 Reg.DP_ISR (K.ISR_RDC : Int) io)).out := by
    rw [s8o, s16o, data_bytes_append, data_bytes_append, pio_setup_no_data, pio_setup_no_data]
    simp
  obtain ⟨o1, io2, h16, r16, _, hpar, dd, B, hB16, hw⟩ :=
    pio16_loop_sim K E (count + 2 * n + 2) iovp 0 offset count 0
      { odd_byte := false, b0 := 0, b1 := 0 }
      (remote_dma K K.CR_DM_RW nic_addr ((count + 1) / 2 * 2)
        (outb_reg0 Reg.DP_ISR (K.ISR_RDC : Int) io))
      (remote_dma K K.CR_DM_RW nic_addr count (outb_reg0 Reg.DP_ISR (K.ISR_RDC : Int) io))
      iovp1 io1 (s16r.trans s8r.symm) (by simp) d16 h8
  have hu : (remote_dma K K.CR_DM_RW nic_addr count
      (outb_reg0 Reg.DP_ISR (K.ISR_RDC : Int) io)).ubyte = io.ubyte := rest_ubyte s8r
  have p8 := poll_isr_rest K.ISR_RDC 100 io io1 (r8.trans s8r)
  have e8 : dp_pio8_user2nic K E iovp offset nic_addr count io
      = Res.ok iovp1 (poll_isr K.ISR_RDC 100 io1).2 := by
    unfold dp_pio8_user2nic
    rw [hs, h8]
    show wait_rdc K iovp1 io1 = _
    unfold wait_rdc
    rw [p8.1, hrdc, if_pos rfl]
  -- the bytes of the 8-bit routine
  have x8 : data_bytes B8 = (List.range count).map
      (fun j => io.ubyte proc (seg_addr (user_iovec K io proc addr) n 0 (offset + j))) := by
    have := d8
    rw [hB8, data_bytes_append, hu] at this
    have := List.append_cancel_left this
    rw [this]
    apply List.map_congr_left
    intro j _
    rw [Nat.zero_add]
  have x16 : data_bytes B ++ (if o1.odd_byte then [o1.b0] else []) = data_bytes B8 := by
    have := dd
    rw [hB16, hB8, data_bytes_append, data_bytes_append, s8o, s16o, data_bytes_append,
      data_bytes_append, pio_setup_no_data, pio_setup_no_data, List.append_nil,
      List.append_assoc] at this
    exact List.append_cancel_left this
  have hpar1 : o1.odd_byte = true ↔ count % 2 = 1 := by
    rw [hpar, Nat.zero_add]
  by_cases ho : o1.odd_byte = true
  · have hc1 : count % 2 = 1 := hpar1.1 ho
    have p16 := poll_isr_rest K.ISR_RDC 100 io
      ({ io2 with out := io2.out ++ [Ev.data_out_word o1.b0 o1.b1] } : Io)
      ((show ({ io2 with out := io2.out ++ [Ev.data_out_word o1.b0 o1.b1] } : Io).rest
        = io2.rest from rfl).trans (r16.trans (r8.trans s8r)))
    refine ⟨iovp1, (poll_isr K.ISR_RDC 100 io1).2,
      (poll_isr K.ISR_RDC 100
        ({ io2 with out := io2.out ++ [Ev.data_out_word o1.b0 o1.b1] } : Io)).2,
      B8, B ++ [Ev.data_out_word o1.b0 o1.b1], o1.b1, e8, ?_, ?_, ?_,
      round_even_eq count, ?_, x8, ?_⟩
    · unfold dp_pio16_user2nic
      rw [hs, h16]
      dsimp only
      rw [if_pos ho]
      unfold wait_rdc
      rw [p16.1, hrdc, if_pos rfl]
    · rw [p8.2, hB8, s8o]
    · rw [p16.2]
      show io2.out ++ _ = _
      rw [hB16, s16o, round_even_eq]
      simp only [List.append_assoc]
    · intro e he
      rcases List.mem_append.1 he with h | h
      · exact hw e h
      · rw [List.mem_singleton.1 h]
        rfl
    · rw [data_bytes_append, data_bytes_word, if_pos hc1, ← x16, ho]
      simp
  · have hc1 : ¬ count % 2 = 1 := fun h => ho (hpar1.2 h)
    have p16 := poll_isr_rest K.ISR_RDC 100 io io2 (r16.trans (r8.trans s8r))
    have ho' : o1.odd_byte = false := by
      cases h : o1.odd_byte
      · rfl
      · exact absurd h ho
    refine ⟨iovp1, (poll_isr K.ISR_RDC 100 io1).2, (poll_isr K.ISR_RDC 100 io2).2,
      B8, B, 0, e8, ?_, ?_, ?_, round_even_eq count, hw, x8, ?_⟩
    · unfold dp_pio16_user2nic
      rw [hs, h16]
      dsimp only
      rw [if_neg ho]
      unfold wait_rdc
      rw [p16.1, hrdc, if_pos rfl]
    · rw [p8.2, hB8, s8o]
    · rw [p16.2, hB16, s16o, round_even_eq]
    · rw [if_neg hc1, ← x16, ho']
      simp

set_option maxRecDepth 100000 in
/-- The list of 18 segments of `sys_list` (total size 1360), written from offset
200 for the odd count 1101 while the chip reports the remote DMA complete: the
16-bit routine programs 1102 bytes and ends with one pad byte. -/
theorem pio16_agrees_pio8_witness :
    seg_start (user_iovec hdr io_rdc 7 4000) 18 = 1360 ∧
    round_even 1101 = 1102 ∧
    (poll_isr hdr.ISR_RDC 100 io_rdc).1 = true ∧
    ∃ iovp, Batch hdr (user_iovec hdr io_rdc 7 4000) 18 7 4000 0 iovp ∧
      ∃ (iovp1 : iovec_dat) (io8 io16 : Io) (B8 B16 : List Ev) (pad : Nat),
        dp_pio8_user2nic hdr env0 iovp 200 3072 1101 io_rdc = Res.ok iovp1 io8 ∧
        dp_pio16_user2nic hdr env0 iovp 200 3072 1101 io_rdc = Res.ok iovp1 io16 ∧
        io8.out = io_rdc.out ++ pio_setup hdr 3072 1101 ++ B8 ∧
        io16.out = io_rdc.out ++ pio_setup hdr 3072 (round_even 1101) ++ B16 ∧
        (1101 + 1) / 2 * 2 = round_even 1101 ∧
        (∀ e ∈ B16, Ev.wordwise e = true) ∧
        data_bytes B8 = (List.range 1101).map
          (fun j => io_rdc.ubyte 7 (seg_addr (user_iovec hdr io_rdc 7 4000) 18 0 (200 + j))) ∧
        data_bytes B16 = data_bytes B8 ++ (if 1101 % 2 = 1 then [pad] else []) :=
  ⟨by decide, by decide, by decide,
   (@get_userdata_batch hdr env0 7 4000 18 io_rdc [] (by decide) (by decide)
      (fun _ _ => rfl)).elim fun w h =>
     ⟨_, h.2,
      (pio16_agrees_pio8 hdr env0 7 4000 18 io_rdc _ 200 3072 1101 (by decide) (by decide)
        (by decide) (fun _ _ => rfl) h.2 (by decide) (by decide)).1⟩⟩

theorem to_uint_small {K : Hdr} {x : Int} (h0 : 0 ≤ x) (h1 : x < K.UINT_MOD) :
    ((to_uint K x : Nat) : Int) = x := by
  unfold to_uint
  rw [Int.emod_eq_of_lt h0 h1]
  exact Int.toNat_of_nonneg h0

theorem write_batch {K : Hdr} {E : Env} {mp : message} {vectored : Bool} {s : Sys}
    (hN : 0 < K.IOVEC_NR) (hS : 0 < K.SIZEOF_IOVEC)
    (hNS : K.IOVEC_NR * K.SIZEOF_IOVEC < K.UINT_MOD) (hU : 3028 < K.UINT_MOD)
    (hmap : ∀ a k, E.numap mp.DL_PROC a k = true)
    (hc : 0 ≤ mp.DL_COUNT) (hcM : mp.DL_COUNT < K.UINT_MOD)
    (hmax : seg_start (write_seg K s.io mp vectored) (write_segs mp vectored) ≤ 1514) :
    ∃ (s1 : Sys) (tmp : iovec_dat),
      do_vwrite_size K E mp vectored s =
        Res.ok (seg_start (write_seg K s.io mp vectored) (write_segs mp vectored) : Int) s1 ∧
      s1 = { dep := { s.dep with de_write_iovec := s1.dep.de_write_iovec, de_tmp_iovec := tmp },
             io := s.io } ∧
      Batch K (write_seg K s.io mp vectored) (write_segs mp vectored) mp.DL_PROC
        (write_list mp vectored) 0 s1.dep.de_write_iovec ∧
      (∀ j, K.IOVEC_NR ≤ j → j < write_segs mp vectored →
        s.io.uiov mp.DL_PROC (write_list mp vectored + j * K.SIZEOF_IOVEC)
          = write_seg K s.io mp vectored j) := by
  cases vectored with
  | true =>
    have hn : mp.DL_COUNT = (mp.DL_COUNT.toNat : Int) := (Int.toNat_of_nonneg hc).symm
    have e1 : write_seg K s.io mp true = user_iovec K s.io mp.DL_PROC mp.DL_ADDR := rfl
    have e2 : write_segs mp true = mp.DL_COUNT.toNat := rfl
    have e3 : write_list mp true = mp.DL_ADDR := rfl
    have hmax1 : seg_start (user_iovec K s.io mp.DL_PROC mp.DL_ADDR) mp.DL_COUNT.toNat
        ≤ 1514 := hmax
    rw [e1, e2, e3]
    obtain ⟨wi, tmp, b, h1, h2, _⟩ := @do_vwrite_size_sum K E mp s mp.DL_COUNT.toNat hN hS hNS
      hmap hn (by omega)
    exact ⟨_, tmp, h1, rfl, h2, fun _ _ _ => rfl⟩
  | false =>
    have e1 : write_seg K s.io mp false =
        fun _ => { iov_addr := mp.DL_ADDR, iov_size := to_uint K mp.DL_COUNT } := rfl
    have e2 : write_segs mp false = 1 := rfl
    have e3 : write_list mp false = 0 := rfl
    rw [e1, e2, e3]
    have hst : seg_start (fun _ : Nat =>
        ({ iov_addr := mp.DL_ADDR, iov_size := to_uint K mp.DL_COUNT } : iovec)) 1
        = to_uint K mp.DL_COUNT := by
      rw [seg_start_succ, seg_start_zero, Nat.zero_add]
    refine ⟨{ s with dep := { s.dep with de_write_iovec :=
      { iod_iovec := { iov_addr := mp.DL_ADDR, iov_size := to_uint K mp.DL_COUNT } ::
          s.dep.de_write_iovec.iod_iovec.tail,
        iod_iovec_s := 1, iod_proc_nr := mp.DL_PROC, iod_iovec_addr := 0 } } },
      s.dep.de_tmp_iovec, ?_, rfl, ?_, ?_⟩
    · rw [hst, to_uint_small hc hcM]
      rfl
    · refine ⟨?_, rfl, ?_, ?_⟩
      · show (1 : Int) = ((1 : Nat) : Int) - ((0 * K.IOVEC_NR : Nat) : Int)
        rw [Nat.zero_mul]
        rfl
      · show 0 = 0 + 0 * K.IOVEC_NR * K.SIZEOF_IOVEC
        rw [Nat.zero_mul, Nat.zero_mul]
      · intro i _ hi
        have : i = 0 := by omega
        subst this
        rfl
    · intro j h1 h2
      omega

theorem do_vwrite_enqueue_total {K : Hdr} {E : Env} {mp : message} {from_int vectored : Bool}
    {s : Sys} (hN : 0 < K.IOVEC_NR) (hS : 0 < K.SIZEOF_IOVEC)
    (hNS : K.IOVEC_NR * K.SIZEOF_IOVEC < K.UINT_MOD) (hU : 3028 < K.UINT_MOD)
    (hp : bad_port mp.DL_PORT = false) (hm : s.dep.de_mode = Mode.DEM_ENABLED)
    (hf : s.dep.de_flags.DEF_ENABLED = true) (ha : s.dep.de_flags.DEF_SEND_AVAIL = false)
    (hh : (s.dep.de_sendq s.dep.de_sendq_head).sq_filled = false)
    (hps : s.dep.de_flags.DEF_PACK_SEND = false)
    (hq : s.dep.de_sendq_head < s.dep.de_sendq_nr) (hnr : s.dep.de_sendq_nr ≤ K.SENDQ_NR)
    (hmap : ∀ a k, E.numap mp.DL_PROC a k = true)
    (hc : 0 ≤ mp.DL_COUNT) (hcM : mp.DL_COUNT < K.UINT_MOD)
    (hmin : 60 ≤ seg_start (write_seg K s.io mp vectored) (write_segs mp vectored))
    (hmax : seg_start (write_seg K s.io mp vectored) (write_segs mp vectored) ≤ 1514)
    (hrdc : s.dep.de_user2nicf ≠ Xfer.shm → (poll_isr K.ISR_RDC 100 s.io).1 = true)
    (hs : 0 ≤ E.send_r) :
    ∃ (s1 : Sys) (wi1 : iovec_dat) (io1 : Io) (s2 : Sys),
      do_vwrite_size K E mp vectored { s with dep := { s.dep with de_client := mp.DL_PROC } }
        = Res.ok (seg_start (write_seg K s.io mp vectored) (write_segs mp vectored) : Int) s1 ∧
      Batch K (write_seg K s.io mp vectored) (write_segs mp vectored) mp.DL_PROC
        (write_list mp vectored) 0 s1.dep.de_write_iovec ∧
      call_user2nic K E s.dep.de_user2nicf s1.dep.de_write_iovec 0
        ((s.dep.de_sendq s.dep.de_sendq_head).sq_sendpage * K.DP_PAGESIZE)
        (seg_start (write_seg K s.io mp vectored) (write_segs mp vectored)) s.io
          = Res.ok wi1 io1 ∧
      (s.dep.de_user2nicf = Xfer.shm → io1 = user2nic_io
        { s.io with out := s.io.out ++ [Ev.user2nic s.dep.de_user2nicf s1.dep.de_write_iovec 0
          ((s.dep.de_sendq s.dep.de_sendq_head).sq_sendpage * K.DP_PAGESIZE)
          (seg_start (write_seg K s.io mp vectored) (write_segs mp vectored))] } mp.DL_PROC
        (fun j => seg_addr (write_seg K s.io mp vectored) (write_segs mp vectored) 0 j)
        ((s.dep.de_sendq s.dep.de_sendq_head).sq_sendpage * K.DP_PAGESIZE)
        (seg_start (write_seg K s.io mp vectored) (write_segs mp vectored))) ∧
      (s.dep.de_user2nicf = Xfer.pio8 → ∃ D, io1.out = s.io.out ++
          [Ev.user2nic s.dep.de_user2nicf s1.dep.de_write_iovec 0
            ((s.dep.de_sendq s.dep.de_sendq_head).sq_sendpage * K.DP_PAGESIZE)
            (seg_start (write_seg K s.io mp vectored) (write_segs mp vectored))]
          ++ pio_setup K ((s.dep.de_sendq s.dep.de_sendq_head).sq_sendpage * K.DP_PAGESIZE)
            (seg_start (write_seg K s.io mp vectored) (write_segs mp vectored)) ++ D ∧
        data_bytes D =
          (List.range (seg_start (write_seg K s.io mp vectored) (write_segs mp vectored))).map
            (fun j => s.io.ubyte mp.DL_PROC
              (seg_addr (write_seg K s.io mp vectored) (write_segs mp vectored) 0 j))) ∧
      (s.dep.de_user2nicf = Xfer.pio16 → ∃ D pad, io1.out = s.io.out ++
          [Ev.user2nic s.dep.de_user2nicf s1.dep.de_write_iovec 0
            ((s.dep.de_sendq s.dep.de_sendq_head).sq_sendpage * K.DP_PAGESIZE)
            (seg_start (write_seg K s.io mp vectored) (write_segs mp vectored))]
          ++ pio_setup K ((s.dep.de_sendq s.dep.de_sendq_head).sq_sendpage * K.DP_PAGESIZE)
            (round_even (seg_start (write_seg K s.io mp vectored) (write_segs mp vectored)))
          ++ D ∧
        (∀ e ∈ D, Ev.wordwise e = true) ∧
        data_bytes D =
          (List.range (seg_start (write_seg K s.io mp vectored) (write_segs mp vectored))).map
            (fun j => s.io.ubyte mp.DL_PROC
              (seg_addr (write_seg K s.io mp vectored) (write_segs mp vectored) 0 j))
          ++ (if seg_start (write_seg K s.io mp vectored) (write_segs mp vectored) % 2 = 1
              then [pad] else [])) ∧
      do_vwrite K E mp from_int vectored s = Res.ok () s2 ∧
      s2.io.mem = io1.mem ∧
      s2.io.out = io1.out ++
        (if s.dep.de_sendq_tail = s.dep.de_sendq_head
          then start_tx_events K (s.dep.de_sendq s.dep.de_sendq_head).sq_sendpage
            (seg_start (write_seg K s.io mp vectored) (write_segs mp vectored))
          else []) ++
        (if from_int then []
          else [Ev.send (Sent.task_reply mp.DL_PROC mp.DL_PROC true
            s.dep.de_flags.DEF_PACK_RECV 0 s.dep.de_read_s E.uptime)]) := by
  obtain ⟨s1, tmp, hsz, hs1, hB, hseg⟩ := @write_batch K E mp vectored
    { s with dep := { s.dep with de_client := mp.DL_PROC } } hN hS hNS hU hmap hc hcM hmax
  obtain ⟨wi1, io1, hx, f1, f2, f3⟩ := @call_user2nic_seg K E mp.DL_PROC (write_list mp vectored)
    (write_segs mp vectored) s.io (write_seg K s.io mp vectored) s1.dep.de_write_iovec
    ((s.dep.de_sendq s.dep.de_sendq_head).sq_sendpage * K.DP_PAGESIZE)
    (seg_start (write_seg K s.io mp vectored) (write_segs mp vectored)) s.dep.de_user2nicf
    hN hS hNS hmap hseg hB (Nat.le_refl _) hrdc
  have hmin1 : ETH_MIN_PACK_SIZE ≤
      ((seg_start (write_seg K s.io mp vectored) (write_segs mp vectored) : Nat) : Int) := by
    show (60 : Int) ≤ _
    omega
  have hmax1 : ((seg_start (write_seg K s.io mp vectored) (write_segs mp vectored) : Nat) : Int)
      ≤ ETH_MAX_PACK_SIZE := by
    show _ ≤ (1514 : Int)
    omega
  obtain ⟨hrun, -⟩ := @do_vwrite_enqueue_run K E mp from_int vectored s s1 _ wi1 io1 hp hm hf ha
    hh hps hq hnr hsz hmin1 hmax1 hx
  rw [Int.toNat_ofNat] at hrun
  have hd := enqueue_mid_dep K
    (seg_start (write_seg K s.io mp vectored) (write_segs mp vectored)) s1 wi1 io1
  have hio := enqueue_mid_io K
    (seg_start (write_seg K s.io mp vectored) (write_segs mp vectored)) s1 wi1 io1
  have q1 : s1.dep.de_sendq_tail = s.dep.de_sendq_tail := by rw [hs1]
  have q2 : s1.dep.de_sendq_head = s.dep.de_sendq_head := by rw [hs1]
  have q3 : s1.dep.de_sendq = s.dep.de_sendq := by rw [hs1]
  have q4 : s1.dep.de_flags = s.dep.de_flags := by rw [hs1]
  have q5 : s1.dep.de_read_s = s.dep.de_read_s := by rw [hs1]
  have q6 : s1.dep.de_client = mp.DL_PROC := by rw [hs1]
  rw [q1, q2, q3] at hio
  have hmem : (enqueue_mid K
      (seg_start (write_seg K s.io mp vectored) (write_segs mp vectored)) s1 wi1 io1).io.mem
      = io1.mem := by
    rw [hio]
    split <;> rfl
  have hout : (enqueue_mid K
      (seg_start (write_seg K s.io mp vectored) (write_segs mp vectored)) s1 wi1 io1).io.out
      = io1.out ++ (if s.dep.de_sendq_tail = s.dep.de_sendq_head
          then start_tx_events K (s.dep.de_sendq s.dep.de_sendq_head).sq_sendpage
            (seg_start (write_seg K s.io mp vectored) (write_segs mp vectored))
          else []) := by
    rw [hio]
    split
    · rw [start_tx_out]
    · rw [List.append_nil]
  cases from_int with
  | true =>
    rw [if_pos rfl] at hrun
    refine ⟨s1, wi1, io1, _, hsz, hB, hx, f1, f2, f3, hrun, hmem, ?_⟩
    rw [if_pos rfl, List.append_nil]
    exact hout
  | false =>
    rw [if_neg Bool.false_ne_true, reply_run _ _ hs] at hrun
    refine ⟨s1, wi1, io1, _, hsz, hB, hx, f1, f2, f3, hrun, hmem, ?_⟩
    rw [if_neg Bool.false_ne_true]
    show (enqueue_mid K (seg_start (write_seg K s.io mp vectored) (write_segs mp vectored))
      s1 wi1 io1).io.out ++ _ = _
    rw [hout, hd]
    show _ ++ [Ev.send (Sent.task_reply s1.dep.de_client s1.dep.de_client true
      s1.dep.de_flags.DEF_PACK_RECV 0 s1.dep.de_read_s E.uptime)] = _
    rw [q4, q5, q6]

/-- C18: the enqueue branch of `do_vwrite`.  On a valid port in mode
`DEM_ENABLED` with `DEF_ENABLED` set, no deferred write pending
(`DEF_SEND_AVAIL` clear), the slot at the head not filled and `DEF_PACK_SEND`
clear (the assertion of line 336), with the head inside the queue and the
queue no longer than `SENDQ_NR`: let the frame be that of the request (for
`Write` the `DL_COUNT` bytes at `DL_ADDR`, for `WriteV` the segments of the
list at `DL_ADDR`, `write_seg`), of client memory that `numap` resolves, with
a size in `[60, 1514]`; for a programmed-I/O backend let the chip report the
remote DMA complete.  Then `do_vwrite` returns.  It has made one call through
`de_user2nicf`, for `size` bytes from offset 0 of the write descriptor, which
stands at the first batch of the list, to the card address
`sq_sendpage * DP_PAGESIZE` of the slot at the head, and this call has staged
exactly the `size` bytes of the frame: with the shared-memory backend byte
`j` of the frame is in the card memory at that address plus `j` and the rest
of the card memory is as before; with the 8-bit programmed I/O the remote DMA
is set up for that address and `size` bytes and the bytes written to the data
port are those of the frame in order; with the 16-bit programmed I/O the
count is rounded up to an even number, everything is written in whole words,
and the bytes are those of the frame followed by one pad byte when `size` is
odd.  The slot at the head is filled; the head is `(head + 1) mod
de_sendq_nr`; the tail, every other slot and the send page of every slot are
as before.  `DEF_PACK_SEND` has been set: for a call from the interrupt
handler it is set on return, for a request the reply that ends the call
reports it (the reply is logged with the bit `DL_PACK_SEND`) and clears
it. -/
theorem do_vwrite_enqueue (K : Hdr) (E : Env) (mp : message) (from_int vectored : Bool)
    (s : Sys) (hN : 0 < K.IOVEC_NR) (hS : 0 < K.SIZEOF_IOVEC)
    (hNS : K.IOVEC_NR * K.SIZEOF_IOVEC < K.UINT_MOD) (hU : 3028 < K.UINT_MOD)
    (hp : bad_port mp.DL_PORT = false) (hm : s.dep.de_mode = Mode.DEM_ENABLED)
    (hf : s.dep.de_flags.DEF_ENABLED = true) (ha : s.dep.de_flags.DEF_SEND_AVAIL = false)
    (hh : (s.dep.de_sendq s.dep.de_sendq_head).sq_filled = false)
    (hps : s.dep.de_flags.DEF_PACK_SEND = false)
    (hq : s.dep.de_sendq_head < s.dep.de_sendq_nr) (hnr : s.dep.de_sendq_nr ≤ K.SENDQ_NR)
    (hmap : ∀ a k, E.numap mp.DL_PROC a k = true)
    (hc : 0 ≤ mp.DL_COUNT) (hcM : mp.DL_COUNT < K.UINT_MOD)
    (hmin : 60 ≤ seg_start (write_seg K s.io mp vectored) (write_segs mp vectored))
    (hmax : seg_start (write_seg K s.io mp vectored) (write_segs mp vectored) ≤ 1514)
    (hrdc : s.dep.de_user2nicf ≠ Xfer.shm → (poll_isr K.ISR_RDC 100 s.io).1 = true)
    (hs : 0 ≤ E.send_r) :
    ∃ (s2 : Sys) (wi : iovec_dat) (Bq : List Ev),
      do_vwrite K E mp from_int vectored s = Res.ok () s2 ∧
      Batch K (write_seg K s.io mp vectored) (write_segs mp vectored) mp.DL_PROC
        (write_list mp vectored) 0 wi ∧
      (∀ e ∈ Bq, Ev.quiet e = true) ∧
      s2.io.out = s.io.out ++
        ([Ev.user2nic s.dep.de_user2nicf wi 0
            ((s.dep.de_sendq s.dep.de_sendq_head).sq_sendpage * K.DP_PAGESIZE)
            (seg_start (write_seg K s.io mp vectored) (write_segs mp vectored))]
          ++ Bq
          ++ (if s.dep.de_sendq_tail = s.dep.de_sendq_head
              then start_tx_events K (s.dep.de_sendq s.dep.de_sendq_head).sq_sendpage
                (seg_start (write_seg K s.io mp vectored) (write_segs mp vectored))
              else [])
          ++ (if from_int then []
              else [Ev.send (Sent.task_reply mp.DL_PROC mp.DL_PROC true
                s.dep.de_flags.DEF_PACK_RECV 0 s.dep.de_read_s E.uptime)])) ∧
      (s.dep.de_user2nicf = Xfer.shm →
        Bq = [] ∧
        (∀ j, j < seg_start (write_seg K s.io mp vectored) (write_segs mp vectored) →
          s2.io.mem ((s.dep.de_sendq s.dep.de_sendq_head).sq_sendpage * K.DP_PAGESIZE + j) =
            s.io.ubyte mp.DL_PROC
              (seg_addr (write_seg K s.io mp vectored) (write_segs mp vectored) 0 j)) ∧
        (∀ x, x < (s.dep.de_sendq s.dep.de_sendq_head).sq_sendpage * K.DP_PAGESIZE ∨
            (s.dep.de_sendq s.dep.de_sendq_head).sq_sendpage * K.DP_PAGESIZE +
              seg_start (write_seg K s.io mp vectored) (write_segs mp vectored) ≤ x →
          s2.io.mem x = s.io.mem x)) ∧
      (s.dep.de_user2nicf = Xfer.pio8 → ∃ D,
        Bq = pio_setup K ((s.dep.de_sendq s.dep.de_sendq_head).sq_sendpage * K.DP_PAGESIZE)
          (seg_start (write_seg K s.io mp vectored) (write_segs mp vectored)) ++ D ∧
        data_bytes D =
          (List.range (seg_start (write_seg K s.io mp vectored) (write_segs mp vectored))).map
            (fun j => s.io.ubyte mp.DL_PROC
              (seg_addr (write_seg K s.io mp vectored) (write_segs mp vectored) 0 j))) ∧
      (s.dep.de_user2nicf = Xfer.pio16 → ∃ D pad,
        Bq = pio_setup K ((s.dep.de_sendq s.dep.de_sendq_head).sq_sendpage * K.DP_PAGESIZE)
          (round_even (seg_start (write_seg K s.io mp vectored) (write_segs mp vectored)))
          ++ D ∧
        (∀ e ∈ D, Ev.wordwise e = true) ∧
        data_bytes D =
          (List.range (seg_start (write_seg K s.io mp vectored) (write_segs mp vectored))).map
            (fun j => s.io.ubyte mp.DL_PROC
              (seg_addr (write_seg K s.io mp vectored) (write_segs mp vectored) 0 j))
          ++ (if seg_start (write_seg K s.io mp vectored) (write_segs mp vectored) % 2 = 1
              then [pad] else [])) ∧
      (s2.dep.de_sendq s.dep.de_sendq_head).sq_filled = true ∧
      s2.dep.de_sendq_head = (s.dep.de_sendq_head + 1) % s.dep.de_sendq_nr ∧
      s2.dep.de_flags.DEF_PACK_SEND = from_int ∧
      s2.dep.de_sendq_tail = s.dep.de_sendq_tail ∧
      (∀ i, i ≠ s.dep.de_sendq_head → s2.dep.de_sendq i = s.dep.de_sendq i) ∧
      (∀ i, (s2.dep.de_sendq i).sq_sendpage = (s.dep.de_sendq i).sq_sendpage) := by
  obtain ⟨s1, wi1, io1, s2, hsz, hB, hx, f1, f2, f3, hrun, hmem, hout⟩ :=
    @do_vwrite_enqueue_total K E mp from_int vectored s hN hS hNS hU hp hm hf ha hh hps hq hnr
      hmap hc hcM hmin hmax hrdc hs
  have hmin1 : ETH_MIN_PACK_SIZE ≤
      ((seg_start (write_seg K s.io mp vectored) (write_segs mp vectored) : Nat) : Int) := by
    show (60 : Int) ≤ _
    omega
  have hmax1 : ((seg_start (write_seg K s.io mp vectored) (write_segs mp vectored) : Nat) : Int)
      ≤ ETH_MAX_PACK_SIZE := by
    show _ ≤ (1514 : Int)
    omega
  obtain ⟨s2', Bq, h1, h2, h3, h4, h5, h6, h7⟩ :=
    @do_vwrite_enqueue_effect K E mp from_int vectored s s1 _ wi1 io1 hp hm hf ha hh hps hq hnr
      hsz hmin1 hmax1 hx hs
  have e2 : s2' = s2 := by
    rw [hrun] at h1
    injection h1 with _ h
    exact h.symm
  subst e2
  rw [Int.toNat_ofNat] at h3 h4
  have hio1 : io1.out = s.io.out ++ ([Ev.user2nic s.dep.de_user2nicf s1.dep.de_write_iovec 0
      ((s.dep.de_sendq s.dep.de_sendq_head).sq_sendpage * K.DP_PAGESIZE)
      (seg_start (write_seg K s.io mp vectored) (write_segs mp vectored))] ++ Bq) := by
    have := h3
    rw [hout] at this
    simp only [← List.append_assoc] at this
    have := List.append_cancel_right (List.append_cancel_right this)
    rw [this]
    simp only [List.append_assoc]
  refine ⟨s2', s1.dep.de_write_iovec, Bq, hrun, hB, h2, h3, ?_, ?_, ?_, ?_, ?_, h7, h6, ?_, ?_⟩
  · intro hshm
    have hi := f1 hshm
    obtain ⟨m1, m2⟩ := user2nic_io_mem
      { s.io with out := s.io.out ++ [Ev.user2nic s.dep.de_user2nicf s1.dep.de_write_iovec 0
        ((s.dep.de_sendq s.dep.de_sendq_head).sq_sendpage * K.DP_PAGESIZE)
        (seg_start (write_seg K s.io mp vectored) (write_segs mp vectored))] } mp.DL_PROC
      (fun j => seg_addr (write_seg K s.io mp vectored) (write_segs mp vectored) 0 j)
      ((s.dep.de_sendq s.dep.de_sendq_head).sq_sendpage * K.DP_PAGESIZE)
      (seg_start (write_seg K s.io mp vectored) (write_segs mp vectored))
    rw [← hi] at m1 m2
    refine ⟨?_, ?_, ?_⟩
    · have ho : io1.out = s.io.out ++ [Ev.user2nic s.dep.de_user2nicf s1.dep.de_write_iovec 0
          ((s.dep.de_sendq s.dep.de_sendq_head).sq_sendpage * K.DP_PAGESIZE)
          (seg_start (write_seg K s.io mp vectored) (write_segs mp vectored))] := by
        rw [hi]
        rfl
      rw [hio1, ← List.append_assoc] at ho
      exact List.append_right_eq_self.1 ho
    · intro j hj
      rw [hmem]
      exact m1 j hj
    · intro x hx1
      rw [hmem]
      exact m2 x hx1
  · intro h8
    obtain ⟨D, o, d⟩ := f2 h8
    refine ⟨D, ?_, d⟩
    rw [hio1] at o
    simp only [List.append_assoc] at o
    exact List.append_cancel_left (List.append_cancel_left o)
  · intro h16
    obtain ⟨D, pad, o, w, d⟩ := f3 h16
    refine ⟨D, pad, ?_, w, d⟩
    rw [hio1] at o
    simp only [List.append_assoc] at o
    exact List.append_cancel_left (List.append_cancel_left o)
  · rw [h4]
    simp only [set_sendq, if_true]
  · rw [h5]
    exact next_slot_mod hq
  · intro i hi
    rw [h4]
    unfold set_sendq
    rw [if_neg hi]
  · intro i
    rw [h4]
    exact set_sendq_sendpage _ _ _ _ i

set_option maxRecDepth 100000 in
/-- The statement at work: a `Write` of 100 bytes at address 1000 on the
initialised port 0, whose backend is the shared memory and whose queue of two
slots is empty with head and tail at slot 0.  The call returns with slot 0
filled and the head at slot 1, and byte `j` of the frame, the byte of the
client at `1000 + j`, is in the card memory at the start of the send page of
slot 0 plus `j`. -/
theorem do_vwrite_enqueue_witness :
    sys1.dep.de_sendq_head = 0 ∧ sys1.dep.de_sendq_nr = 2 ∧
    sys1.dep.de_user2nicf = Xfer.shm ∧
    seg_start (write_seg hdr sys1.io (msg MType.DL_WRITE 100 1000) false)
      (write_segs (msg MType.DL_WRITE 100 1000) false) = 100 ∧
    seg_addr (write_seg hdr sys1.io (msg MType.DL_WRITE 100 1000) false)
      (write_segs (msg MType.DL_WRITE 100 1000) false) 0 99 = 1099 ∧
    ∃ s2, do_vwrite hdr env0 (msg MType.DL_WRITE 100 1000) false false sys1 = Res.ok () s2 ∧
      (∀ j, j < seg_start (write_seg hdr sys1.io (msg MType.DL_WRITE 100 1000) false)
            (write_segs (msg MType.DL_WRITE 100 1000) false) →
        s2.io.mem ((sys1.dep.de_sendq sys1.dep.de_sendq_head).sq_sendpage * hdr.DP_PAGESIZE + j) =
          sys1.io.ubyte (msg MType.DL_WRITE 100 1000).DL_PROC
            (seg_addr (write_seg hdr sys1.io (msg MType.DL_WRITE 100 1000) false)
              (write_segs (msg MType.DL_WRITE 100 1000) false) 0 j)) ∧
      (s2.dep.de_sendq sys1.dep.de_sendq_head).sq_filled = true ∧
      s2.dep.de_sendq_head = (sys1.dep.de_sendq_head + 1) % sys1.dep.de_sendq_nr ∧
      s2.dep.de_sendq_tail = sys1.dep.de_sendq_tail :=
  ⟨by decide, by decide, by decide, by decide, by decide,
   (do_vwrite_enqueue hdr env0 (msg MType.DL_WRITE 100 1000) false false sys1
      (by decide) (by decide) (by decide) (by decide) (by decide) (by decide) (by decide)
      (by decide) (by decide) (by decide) (by decide) (by decide) (fun _ _ => rfl)
      (by decide) (by decide) (by decide) (by decide) (fun h => absurd (by decide) h)
      (by decide)).elim fun s2 h => h.elim fun _ h => h.elim fun _ h =>
        ⟨s2, h.1, (h.2.2.2.2.1 (by decide)).2.1, h.2.2.2.2.2.2.2.1, h.2.2.2.2.2.2.2.2.1,
          h.2.2.2.2.2.2.2.2.2.2.1⟩⟩

/-- C3: a `Write` (or `WriteV`) of a frame of `n` bytes with `60 ≤ n ≤ 1514`,
followed by the interrupt that reports its transmission.  On a valid port in
mode `DEM_ENABLED` with `DEF_ENABLED` set whose send queue satisfies its
invariant and whose head slot is free, with no deferred write pending and
`DEF_PACK_SEND` clear, for a frame in client memory that `numap` resolves
(and, for a programmed-I/O backend, a chip that reports the remote DMA
complete), `do_vwrite` returns with the frame in the queue.  If then
`dp_check_ints` runs with one interrupt status pending that has `ISR_PTX`
and neither `ISR_TXE`, `ISR_PRX` nor `ISR_RST`, and `DP_TSR` reads with
`TSR_PTX`, it returns, `ets_packetT` has been incremented once (it is an
`unsigned long`: one more than before the `Write`, or 0 after `ULONG_MAX`),
and the number of filled slots of the send queue is what it was before the
`Write`.  (No reset of the chip is pending: not both `DEF_READING` and
`DEF_STOPPED`.) -/
theorem write_then_complete (K : Hdr) (E E1 : Env) (mp : message) (vectored : Bool)
    (s : Sys) (io : Io) (isr : Nat)
    (hN : 0 < K.IOVEC_NR) (hS : 0 < K.SIZEOF_IOVEC)
    (hNS : K.IOVEC_NR * K.SIZEOF_IOVEC < K.UINT_MOD) (hU : 3028 < K.UINT_MOD)
    (hp : bad_port mp.DL_PORT = false)
    (hinv : SendqInv s.dep) (hm : s.dep.de_mode = Mode.DEM_ENABLED)
    (hf : s.dep.de_flags.DEF_ENABLED = true) (ha : s.dep.de_flags.DEF_SEND_AVAIL = false)
    (hh : (s.dep.de_sendq s.dep.de_sendq_head).sq_filled = false)
    (hps : s.dep.de_flags.DEF_PACK_SEND = false) (hnr : s.dep.de_sendq_nr ≤ K.SENDQ_NR)
    (hrs : ¬ (s.dep.de_flags.DEF_READING = true ∧ s.dep.de_flags.DEF_STOPPED = true))
    (hmap : ∀ a k, E.numap mp.DL_PROC a k = true)
    (hc : 0 ≤ mp.DL_COUNT) (hcM : mp.DL_COUNT < K.UINT_MOD)
    (hmin : 60 ≤ seg_start (write_seg K s.io mp vectored) (write_segs mp vectored))
    (hmax : seg_start (write_seg K s.io mp vectored) (write_segs mp vectored) ≤ 1514)
    (hrdc : s.dep.de_user2nicf ≠ Xfer.shm → (poll_isr K.ISR_RDC 100 s.io).1 = true)
    (hs : 0 ≤ E.send_r)
    (hisr : io.isr = [isr]) (h1 : bit isr K.ISR_PTX = true) (h2 : bit isr K.ISR_TXE = false)
    (h3 : bit isr K.ISR_PRX = false) (h4 : bit isr K.ISR_RST = false)
    (htsr : bit (io.tsr.headD 0) K.TSR_PTX = true) :
    (vectored = false →
      (seg_start (write_seg K s.io mp vectored) (write_segs mp vectored) : Int) = mp.DL_COUNT) ∧
    ∃ (s1 s2 : Sys),
      do_vwrite K E mp false vectored s = Res.ok () s1 ∧
      Enqueued (seg_start (write_seg K s.io mp vectored) (write_segs mp vectored)) s.dep s1.dep ∧
      dp_check_ints K E1 { dep := s1.dep, io := io } = Res.ok () s2 ∧
      s2.dep.de_stat.ets_packetT = uladd K s.dep.de_stat.ets_packetT 1 ∧
      (s.dep.de_stat.ets_packetT + 1 < K.ULONG_MOD →
        s2.dep.de_stat.ets_packetT = s.dep.de_stat.ets_packetT + 1) ∧
      (s.dep.de_stat.ets_packetT + 1 = K.ULONG_MOD → s2.dep.de_stat.ets_packetT = 0) ∧
      filled_count s2.dep = filled_count s.dep := by
  obtain ⟨sz1, wi1, io1, s1, hsz1, -, -, -, -, -, hw, -, -⟩ :=
    @do_vwrite_enqueue_total K E mp false vectored s hN hS hNS hU hp hm hf ha hh hps hinv.2.1
      hnr hmap hc hcM hmin hmax hrdc hs
  obtain ⟨n, sz, hsz, -, -, henq, -⟩ := do_vwrite_enq hw hm hh
  have hn : n = ((seg_start (write_seg K s.io mp vectored) (write_segs mp vectored) : Nat) : Int)
      := by
    rw [hsz1] at hsz
    injection hsz with h _
    exact h.symm
  subst hn
  rw [Int.toNat_ofNat] at henq
  have hnv : vectored = false →
      (seg_start (write_seg K s.io mp vectored) (write_segs mp vectored) : Int) = mp.DL_COUNT := by
    intro hv
    subst hv
    simp only [do_vwrite_size, Bool.false_eq_true, if_false, Res.ok.injEq] at hsz1
    exact hsz1.1.symm
  have hfil : filledOf s1.dep =
      fun i => if i = s.dep.de_sendq_head then true else filledOf s.dep i := by
    funext i
    unfold filledOf
    rw [henq.sendq]
    unfold set_sendq
    split <;> rfl
  have htail : (s1.dep.de_sendq s1.dep.de_sendq_tail).sq_filled = true := by
    have := congrFun hfil s1.dep.de_sendq_tail
    unfold filledOf at this
    rw [this, henq.tail]
    by_cases e : s.dep.de_sendq_tail = s.dep.de_sendq_head
    · rw [if_pos e]
    · rw [if_neg e]
      exact tail_filled_of_inv hinv (fun x => e x.symm)
  obtain ⟨s2, hl, q1, q2, q3, q4, q5, q6⟩ := dp_check_ints_loop_one (K := K) (E := E1)
    (s := { dep := s1.dep, io := io }) hisr h1 h2 h3 h4 htail
    (by rw [henq.send_avail]; exact ha)
  have hpt : s2.dep.de_stat.ets_packetT = uladd K s.dep.de_stat.ets_packetT 1 := by
    rw [q6]
    show (if bit (io.tsr.headD 0) K.TSR_PTX = true then uladd K s1.dep.de_stat.ets_packetT 1
      else s1.dep.de_stat.ets_packetT) = _
    rw [if_pos htsr, henq.stat]
  refine ⟨hnv, s1, s2, hw, henq, ?_, hpt, ?_, ?_, ?_⟩
  · unfold dp_check_ints
    rw [if_neg (by
      show ¬ ¬ s1.dep.de_flags.DEF_ENABLED = true
      rw [henq.enabled, hf]
      simp)]
    show (dp_check_ints_loop K E1 (io.isr.length + 1) _).bind _ = _
    rw [hisr]
    show (dp_check_ints_loop K E1 2 _).bind _ = _
    rw [hl]
    simp only [Res.bind]
    rw [if_neg]
    rw [q5]
    show ¬ (s1.dep.de_flags.DEF_READING = true ∧ s1.dep.de_flags.DEF_STOPPED = true)
    rw [henq.reading, henq.stopped]
    exact hrs
  · intro hlt
    rw [hpt]
    exact Nat.mod_eq_of_lt hlt
  · intro heq
    rw [hpt]
    show (s.dep.de_stat.ets_packetT + 1) % K.ULONG_MOD = 0
    rw [heq, Nat.mod_self]
  · have hf2 : filledOf s2.dep =
        fun i => if i = s.dep.de_sendq_tail then false else filledOf s1.dep i := by
      funext i
      unfold filledOf
      rw [q1]
      show (set_sendq s1.dep.de_sendq s1.dep.de_sendq_tail _ i).sq_filled = _
      unfold set_sendq
      rw [henq.tail]
      split <;> rfl
    rw [filled_count_eq, filled_count_eq, q2]
    show (List.range s1.dep.de_sendq_nr).countP _ = _
    rw [henq.nr, hf2]
    have ht : s.dep.de_sendq_tail < s.dep.de_sendq_nr := hinv.2.2.1
    have hhd : s.dep.de_sendq_head < s.dep.de_sendq_nr := hinv.2.1
    have a1 := countP_set_false (filledOf s1.dep) s.dep.de_sendq_nr s.dep.de_sendq_tail ht
      (by
        have := htail
        rw [henq.tail] at this
        exact this)
    have a2 := countP_set_true (filledOf s.dep) s.dep.de_sendq_nr s.dep.de_sendq_head hhd hh
    rw [← hfil] at a2
    omega

set_option maxRecDepth 100000 in
/-- The statement at work: a `Write` of 100 bytes to the initialised port 0 and
the interrupt that reports its transmission. -/
theorem write_then_complete_witness :
    seg_start (write_seg hdr sys1.io (msg MType.DL_WRITE 100 0) false)
      (write_segs (msg MType.DL_WRITE 100 0) false) = 100 ∧
    sys1.dep.de_stat.ets_packetT + 1 < hdr.ULONG_MOD ∧
    ∃ (s1 s2 : Sys),
      do_vwrite hdr env0 (msg MType.DL_WRITE 100 0) false false sys1 = Res.ok () s1 ∧
      Enqueued (seg_start (write_seg hdr sys1.io (msg MType.DL_WRITE 100 0) false)
        (write_segs (msg MType.DL_WRITE 100 0) false)) sys1.dep s1.dep ∧
      dp_check_ints hdr env0
          { dep := s1.dep, io := { sys2.io with isr := [hdr.ISR_PTX], tsr := [hdr.TSR_PTX] } }
        = Res.ok () s2 ∧
      s2.dep.de_stat.ets_packetT = uladd hdr sys1.dep.de_stat.ets_packetT 1 ∧
      (sys1.dep.de_stat.ets_packetT + 1 < hdr.ULONG_MOD →
        s2.dep.de_stat.ets_packetT = sys1.dep.de_stat.ets_packetT + 1) ∧
      (sys1.dep.de_stat.ets_packetT + 1 = hdr.ULONG_MOD → s2.dep.de_stat.ets_packetT = 0) ∧
      filled_count s2.dep = filled_count sys1.dep :=
  ⟨by decide, by decide,
   (write_then_complete hdr env0 env0 (msg MType.DL_WRITE 100 0) false sys1
    { sys2.io with isr := [hdr.ISR_PTX], tsr := [hdr.TSR_PTX] } hdr.ISR_PTX
    (by decide) (by decide) (by decide) (by decide) (by decide)
    ((sendq_inv_sys1)) (by decide) (by decide) (by decide) (by decide) (by decide) (by decide)
    (by decide) (fun _ _ => rfl) (by decide) (by decide) (by decide) (by decide)
    (fun h => absurd (by decide) h) (by decide) rfl
    (by decide) (by decide) (by decide) (by decide) (by decide)).2⟩

end Dp8390
